import Mathlib

/-! # Straight_skeleton_builder_2: event detection and propagation

A shallow embedding of `Straight_skeleton_builder_2_impl.h` (CGAL, Straight_skeleton_2).

* Handles are `Option Nat`: `none` is the default-constructed (null) handle, `some i` points at
  slot `i` of the corresponding arena. Reading through a null handle is undefined in the source;
  here it yields the default record (all links null) and a write through a null handle is dropped.
* The builder is an explicit state record `Builder`; every member function of the source becomes a
  function from `Builder` to `Builder` (paired with its result when it has one).
* The geometric traits (the number kernel) are a parameter `Traits`.
* `CGAL_assertion` compiles to nothing in a release build; assertions are not part of the control
  flow of the embedding.
-/

set_option autoImplicit false

namespace StraightSkeleton

/-! ## Data model -/

abbrev FT := Rat

structure Point_2 where
  x : FT
  y : FT
deriving DecidableEq, Inhabited

abbrev Vertex_handle := Option Nat
abbrev Halfedge_handle := Option Nat
abbrev Face_handle := Option Nat
abbrev EventPtr := Option Nat

inductive Comparison_result where
  | SMALLER
  | EQUAL
  | LARGER
deriving DecidableEq, Inhabited

/-- Modelled from the spec: the vertex class is declared outside this file. A vertex has a dense
integer id, a point, a time, one halfedge and a role; `is_skeleton` is the role, set by the
three-argument constructor `Vertex(id, point, time)` that the event handlers use. -/
structure Vertex where
  id : Nat
  point : Point_2
  time : FT
  halfedge : Halfedge_handle
  is_skeleton : Bool
deriving DecidableEq, Inhabited

/-- Modelled from the spec: the halfedge class is declared outside this file. -/
structure Halfedge where
  id : Nat
  opposite : Halfedge_handle
  next : Halfedge_handle
  prev : Halfedge_handle
  face : Face_handle
  vertex : Vertex_handle
deriving DecidableEq, Inhabited

/-- Modelled from the spec: one face per contour edge, which it names through `halfedge`. -/
structure Face where
  halfedge : Halfedge_handle
deriving DecidableEq, Inhabited

/-- Modelled from the spec: the per-vertex wrapper of the SLAV registry (section 3). -/
structure VertexWrapper where
  vertex : Vertex_handle
  mPrevInLAV : Vertex_handle
  mNextInLAV : Vertex_handle
  mIsReflex : Bool
  mIsProcessed : Bool
  mIsExcluded : Bool
  mDefiningBorderA : Halfedge_handle
  mDefiningBorderB : Halfedge_handle
  mDefiningBorderC : Halfedge_handle
  mReflexSplits : List Nat
deriving DecidableEq, Inhabited

inductive EventType where
  | cEdgeEvent
  | cSplitEvent
  | cVertexEvent
deriving DecidableEq, Inhabited

/-- Modelled from the spec: the event classes are declared outside this file. One record covers
the three variants; `border_d` is the fourth border of a vertex event, `opposite_border` the
opposite border of a split event. A split event has its single seed as both `seed0` and `seed1`. -/
structure Event where
  type : EventType
  border_a : Halfedge_handle
  border_b : Halfedge_handle
  border_c : Halfedge_handle
  border_d : Halfedge_handle
  seed0 : Vertex_handle
  seed1 : Vertex_handle
  opposite_border : Halfedge_handle
  time : FT
  point : Point_2
  excluded : Bool
deriving DecidableEq, Inhabited

/-- The three borders of an event, as handed to the traits. -/
structure Triedge where
  e0 : Halfedge_handle
  e1 : Halfedge_handle
  e2 : Halfedge_handle
deriving DecidableEq, Inhabited

def Event.triedge (e : Event) : Triedge := ⟨e.border_a, e.border_b, e.border_c⟩

/-- The half-edge graph `mSSkel`. The arenas are append-only; `vertexList` and `halfedgeList`
are the live handles in iteration order. -/
structure SSkel where
  vertices : Nat → Vertex
  vertexNext : Nat
  vertexList : List Nat
  halfedges : Nat → Halfedge
  halfedgeNext : Nat
  halfedgeList : List Nat
  faces : Nat → Face

/-- The geometric traits and the helpers of the builder that are declared outside this file.
Every predicate on events is a function of the borders of the events: an event has no time and
no point of its own until it is popped. -/
structure Traits where
  ExistEvent : Halfedge_handle → Halfedge_handle → Halfedge_handle → Bool
  IsNewEventInThePast : Halfedge_handle → Halfedge_handle → Halfedge_handle → Vertex → Bool
  IsEventInsideOffsetZone : Halfedge_handle → Halfedge_handle → Halfedge_handle →
    Halfedge_handle → Halfedge_handle → Bool
  EventTime : Halfedge_handle → Halfedge_handle → Halfedge_handle → FT
  EventPoint : Halfedge_handle → Halfedge_handle → Halfedge_handle → Point_2
  CompareEvents : Triedge → Triedge → Comparison_result
  CompareEventsDistanceToSeed : Vertex → Triedge → Triedge → Comparison_result
  AreEventsSimultaneous : Triedge → Triedge → Bool
  SortTwoDistinctAndTwoEqual : Triedge → Triedge →
    Halfedge_handle × Halfedge_handle × Halfedge_handle × Halfedge_handle
  Collinear : Point_2 → Point_2 → Point_2 → Bool
  Left_turn : Point_2 → Point_2 → Point_2 → Bool
  Equal : Point_2 → Point_2 → Bool

/-- The state of a `Straight_skeleton_builder_2`. `mWrappedVertices` is indexed by vertex id,
`mEvents` is the store the event pointers point into, `mPQ` holds the queued event pointers. -/
structure Builder where
  mSSkel : SSkel
  mWrappedVertices : Nat → VertexWrapper
  mWrappedCount : Nat
  mSLAV : List Nat
  mContourHalfedges : List Halfedge_handle
  mEvents : Nat → Event
  mEventCount : Nat
  mPQ : List Nat
  mSplitNodes : List (Vertex_handle × Vertex_handle)
  mDanglingBisectors : List Halfedge_handle
  mVertexID : Nat
  mEdgeID : Nat
  mEventID : Nat
  mStepID : Nat

def handle_assigned (aH : Option Nat) : Bool := aH != none

/-! ## Reading the half-edge graph -/

def Builder.he (s : Builder) (h : Halfedge_handle) : Halfedge :=
  match h with
  | none => default
  | some i => s.mSSkel.halfedges i

def Builder.vtx (s : Builder) (v : Vertex_handle) : Vertex :=
  match v with
  | none => default
  | some i => s.mSSkel.vertices i

def Builder.fc (s : Builder) (f : Face_handle) : Face :=
  match f with
  | none => default
  | some i => s.mSSkel.faces i

def Builder.opposite (s : Builder) (h : Halfedge_handle) : Halfedge_handle := (s.he h).opposite
def Builder.next (s : Builder) (h : Halfedge_handle) : Halfedge_handle := (s.he h).next
def Builder.prev (s : Builder) (h : Halfedge_handle) : Halfedge_handle := (s.he h).prev
def Builder.face (s : Builder) (h : Halfedge_handle) : Face_handle := (s.he h).face
def Builder.vertex (s : Builder) (h : Halfedge_handle) : Vertex_handle := (s.he h).vertex
def Builder.halfedge (s : Builder) (v : Vertex_handle) : Halfedge_handle := (s.vtx v).halfedge
def Builder.face_halfedge (s : Builder) (f : Face_handle) : Halfedge_handle := (s.fc f).halfedge

/-- Modelled from the spec: `primary_bisector` is declared with the vertex class; it is the
halfedge after the vertex's own halfedge. -/
def Builder.primary_bisector (s : Builder) (v : Vertex_handle) : Halfedge_handle :=
  s.next (s.halfedge v)

/-- Modelled from the spec: `defining_contour_edge` is declared with the halfedge class; for a
bisector it is the contour edge of its left face. -/
def Builder.defining_contour_edge (s : Builder) (h : Halfedge_handle) : Halfedge_handle :=
  s.face_halfedge (s.face h)

/-! ## Writing the half-edge graph -/

def Builder.updHalfedge (s : Builder) (h : Halfedge_handle) (f : Halfedge → Halfedge) : Builder :=
  { s with mSSkel := { s.mSSkel with
      halfedges := fun j => if h = some j then f (s.mSSkel.halfedges j) else s.mSSkel.halfedges j } }

def Builder.updVertex (s : Builder) (v : Vertex_handle) (f : Vertex → Vertex) : Builder :=
  { s with mSSkel := { s.mSSkel with
      vertices := fun j => if v = some j then f (s.mSSkel.vertices j) else s.mSSkel.vertices j } }

def Builder.set_next (s : Builder) (h n : Halfedge_handle) : Builder :=
  s.updHalfedge h (fun r => { r with next := n })
def Builder.set_prev (s : Builder) (h p : Halfedge_handle) : Builder :=
  s.updHalfedge h (fun r => { r with prev := p })
def Builder.set_face (s : Builder) (h : Halfedge_handle) (f : Face_handle) : Builder :=
  s.updHalfedge h (fun r => { r with face := f })
def Builder.set_vertex (s : Builder) (h : Halfedge_handle) (v : Vertex_handle) : Builder :=
  s.updHalfedge h (fun r => { r with vertex := v })
def Builder.set_halfedge (s : Builder) (v : Vertex_handle) (h : Halfedge_handle) : Builder :=
  s.updVertex v (fun r => { r with halfedge := h })

/-- Modelled from the spec: `vertices_push_back` of the half-edge store appends the vertex to the
arena and returns its handle. -/
def Builder.vertices_push_back (s : Builder) (v : Vertex) : Builder × Vertex_handle :=
  ({ s with mSSkel := { s.mSSkel with
      vertices := fun j => if j = s.mSSkel.vertexNext then v else s.mSSkel.vertices j
      vertexNext := s.mSSkel.vertexNext + 1
      vertexList := s.mSSkel.vertexList ++ [s.mSSkel.vertexNext] } },
   some s.mSSkel.vertexNext)

/-- Modelled from the spec: `edges_push_back` of the half-edge store appends a pair of mutually
opposite halfedges and returns the handle of the first. -/
def Builder.edges_push_back (s : Builder) (h g : Halfedge) : Builder × Halfedge_handle :=
  let k := s.mSSkel.halfedgeNext
  ({ s with mSSkel := { s.mSSkel with
      halfedges := fun j =>
        if j = k then { h with opposite := some (k + 1) }
        else if j = k + 1 then { g with opposite := some k }
        else s.mSSkel.halfedges j
      halfedgeNext := k + 2
      halfedgeList := s.mSSkel.halfedgeList ++ [k, k + 1] } },
   some k)

/-- The halfedge `Halfedge(id)`: an id and no links. -/
def Halfedge.mk1 (id : Nat) : Halfedge := { (default : Halfedge) with id := id }

/-- The vertex `Vertex(id, point, time)` of the event handlers: a skeleton vertex. -/
def Vertex.mk3 (id : Nat) (p : Point_2) (t : FT) : Vertex :=
  { id := id, point := p, time := t, halfedge := none, is_skeleton := true }

/-! ## The SLAV registry -/

def Builder.wrap (s : Builder) (v : Vertex_handle) : VertexWrapper :=
  match v with
  | none => default
  | some i => s.mWrappedVertices (s.mSSkel.vertices i).id

/-- The slot of `mWrappedVertices` that belongs to `v`: its id (none for the null handle). -/
def Builder.wrapIndex (s : Builder) (v : Vertex_handle) : Option Nat :=
  v.map (fun i => (s.mSSkel.vertices i).id)

def Builder.updWrap (s : Builder) (v : Vertex_handle) (f : VertexWrapper → VertexWrapper) :
    Builder :=
  { s with mWrappedVertices := fun k =>
      if s.wrapIndex v = some k then f (s.mWrappedVertices k) else s.mWrappedVertices k }

def Builder.GetPrevInLAV (s : Builder) (v : Vertex_handle) : Vertex_handle := (s.wrap v).mPrevInLAV
def Builder.GetNextInLAV (s : Builder) (v : Vertex_handle) : Vertex_handle := (s.wrap v).mNextInLAV
def Builder.IsReflex (s : Builder) (v : Vertex_handle) : Bool := (s.wrap v).mIsReflex
def Builder.IsProcessed (s : Builder) (v : Vertex_handle) : Bool := (s.wrap v).mIsProcessed
def Builder.IsExcluded (s : Builder) (v : Vertex_handle) : Bool := (s.wrap v).mIsExcluded
def Builder.GetDefiningBorderA (s : Builder) (v : Vertex_handle) : Halfedge_handle :=
  (s.wrap v).mDefiningBorderA
def Builder.GetDefiningBorderB (s : Builder) (v : Vertex_handle) : Halfedge_handle :=
  (s.wrap v).mDefiningBorderB
def Builder.GetDefiningBorderC (s : Builder) (v : Vertex_handle) : Halfedge_handle :=
  (s.wrap v).mDefiningBorderC
def Builder.GetReflexSplits (s : Builder) (v : Vertex_handle) : List Nat :=
  (s.wrap v).mReflexSplits

def Builder.SetPrevInLAV (s : Builder) (v p : Vertex_handle) : Builder :=
  s.updWrap v (fun w => { w with mPrevInLAV := p })
def Builder.SetNextInLAV (s : Builder) (v n : Vertex_handle) : Builder :=
  s.updWrap v (fun w => { w with mNextInLAV := n })
def Builder.SetIsReflex (s : Builder) (v : Vertex_handle) : Builder :=
  s.updWrap v (fun w => { w with mIsReflex := true })
def Builder.SetIsProcessed (s : Builder) (v : Vertex_handle) : Builder :=
  s.updWrap v (fun w => { w with mIsProcessed := true })
def Builder.Exclude (s : Builder) (v : Vertex_handle) : Builder :=
  s.updWrap v (fun w => { w with mIsExcluded := true })
def Builder.SetDefiningBorderA (s : Builder) (v : Vertex_handle) (h : Halfedge_handle) : Builder :=
  s.updWrap v (fun w => { w with mDefiningBorderA := h })
def Builder.SetDefiningBorderB (s : Builder) (v : Vertex_handle) (h : Halfedge_handle) : Builder :=
  s.updWrap v (fun w => { w with mDefiningBorderB := h })
def Builder.SetDefiningBorderC (s : Builder) (v : Vertex_handle) (h : Halfedge_handle) : Builder :=
  s.updWrap v (fun w => { w with mDefiningBorderC := h })

/-- Modelled from the spec: `add_reflex_split(vertex, event)` appends the event to the
`reflex_splits` of the vertex it is given. -/
def Builder.AddReflexSplit (s : Builder) (v : Vertex_handle) (e : EventPtr) : Builder :=
  match e with
  | none => s
  | some i => s.updWrap v (fun w => { w with mReflexSplits := w.mReflexSplits ++ [i] })

/-- The wrapper `VertexWrapper(v)` of a new vertex: no links, no flags, no borders. -/
def VertexWrapper.mk1 (v : Vertex_handle) : VertexWrapper :=
  { (default : VertexWrapper) with vertex := v }

def Builder.wrapped_push_back (s : Builder) (w : VertexWrapper) : Builder :=
  { s with
    mWrappedVertices := fun k => if k = s.mWrappedCount then w else s.mWrappedVertices k
    mWrappedCount := s.mWrappedCount + 1 }

def Builder.SLAV_push_back (s : Builder) (v : Vertex_handle) : Builder :=
  match v with
  | none => s
  | some i => { s with mSLAV := s.mSLAV ++ [i] }

/-- The call `mSLAV.remove(v)` of `std::list`: every entry equal to `v` goes. -/
def Builder.SLAV_remove (s : Builder) (v : Vertex_handle) : Builder :=
  { s with mSLAV := s.mSLAV.filter (fun i => some i != v) }

/-! ## The event store and the priority queue -/

def Builder.ev (s : Builder) (e : EventPtr) : Event :=
  match e with
  | none => default
  | some i => s.mEvents i

def Builder.updEvent (s : Builder) (e : EventPtr) (f : Event → Event) : Builder :=
  { s with mEvents := fun k => if e = some k then f (s.mEvents k) else s.mEvents k }

/-- The allocation `EventPtr(new ...)`: the event goes to the next free slot of the store. -/
def Builder.newEvent (s : Builder) (e : Event) : Builder × EventPtr :=
  ({ s with
     mEvents := fun k => if k = s.mEventCount then e else s.mEvents k
     mEventCount := s.mEventCount + 1 },
   some s.mEventCount)

def Builder.ExcludeEvent (s : Builder) (e : EventPtr) : Builder :=
  s.updEvent e (fun r => { r with excluded := true })

def Builder.SetTimeAndPoint (s : Builder) (e : EventPtr) (t : FT) (p : Point_2) : Builder :=
  s.updEvent e (fun r => { r with time := t, point := p })

/-- Modelled from the spec: `EnqueEvent` pushes the event pointer on the priority queue. -/
def Builder.EnqueEvent (s : Builder) (e : EventPtr) : Builder :=
  match e with
  | none => s
  | some i => { s with mPQ := s.mPQ ++ [i] }

/-- The event `EdgeEvent(a, b, c, lSeed, rSeed)`. -/
def EdgeEvent (a b c : Halfedge_handle) (l r : Vertex_handle) : Event :=
  { type := .cEdgeEvent, border_a := a, border_b := b, border_c := c, border_d := none,
    seed0 := l, seed1 := r, opposite_border := none, time := 0, point := default,
    excluded := false }

/-- The event `SplitEvent(a, b, c, seed, oppositeBorder)`. -/
def SplitEvent (a b c : Halfedge_handle) (seed : Vertex_handle) (opp : Halfedge_handle) : Event :=
  { type := .cSplitEvent, border_a := a, border_b := b, border_c := c, border_d := none,
    seed0 := seed, seed1 := seed, opposite_border := opp, time := 0, point := default,
    excluded := false }

/-- The event `VertexEvent(distinct1, distinct2, equal1, equal2, seedX, seedY)`. -/
def VertexEvent (d1 d2 e1 e2 : Halfedge_handle) (x y : Vertex_handle) : Event :=
  { type := .cVertexEvent, border_a := d1, border_b := d2, border_c := e1, border_d := e2,
    seed0 := x, seed1 := y, opposite_border := none, time := 0, point := default,
    excluded := false }

/-! ## Event detection -/

def Builder.GetDefiningBorders (s : Builder) (aA aB : Vertex_handle) : Triedge :=
  let lAL : Halfedge_handle := s.GetDefiningBorderA aA
  let lAR : Halfedge_handle := s.GetDefiningBorderB aA
  let lBL : Halfedge_handle := s.GetDefiningBorderA aB
  let lBR : Halfedge_handle := s.GetDefiningBorderB aB
  ⟨lAL, lAR, if lAL = lBL ∨ lAR = lBL then lBR else lBL⟩

def Builder.FindEdgeEvent (tr : Traits) (s : Builder) (aLNode aRNode : Vertex_handle) :
    Builder × EventPtr :=
  let t : Triedge := s.GetDefiningBorders aLNode aRNode
  if t.e0 ≠ t.e1 ∧ t.e1 ≠ t.e2 then
    if tr.ExistEvent t.e0 t.e1 t.e2 then
      let lAccepted : Bool := true
      let lAccepted : Bool :=
        if (s.vtx aLNode).is_skeleton && tr.IsNewEventInThePast t.e0 t.e1 t.e2 (s.vtx aLNode)
        then false else lAccepted
      let lAccepted : Bool :=
        if (s.vtx aRNode).is_skeleton && tr.IsNewEventInThePast t.e0 t.e1 t.e2 (s.vtx aRNode)
        then false else lAccepted
      if lAccepted then s.newEvent (EdgeEvent t.e0 t.e1 t.e2 aLNode aRNode)
      else (s, none)
    else (s, none)
  else (s, none)

/-- Tests the wavefront of `aNode` against one opposite border; the event, when there is one and
it is not in the past, is queued. -/
def Builder.CollectSplitEvent (tr : Traits) (s : Builder) (aNode : Vertex_handle)
    (aReflexLBorder aReflexRBorder aOppositeBorder : Halfedge_handle) : Builder :=
  if tr.ExistEvent aReflexLBorder aReflexRBorder aOppositeBorder then
    if !((s.vtx aNode).is_skeleton &&
          tr.IsNewEventInThePast aReflexLBorder aReflexRBorder aOppositeBorder (s.vtx aNode)) then
      let r : Builder × EventPtr := s.newEvent
        (SplitEvent aReflexLBorder aReflexRBorder aOppositeBorder aNode aOppositeBorder)
      let s1 : Builder := r.1
      let lEvent : EventPtr := r.2
      let s2 : Builder := if s1.IsReflex (s1.vertex aOppositeBorder) then s1.AddReflexSplit aNode lEvent
                else s1
      s2.EnqueEvent lEvent
    else s
  else s

def Builder.CollectSplitEvents (tr : Traits) (s : Builder) (aNode : Vertex_handle) : Builder :=
  let lLBorder : Halfedge_handle := s.GetDefiningBorderA aNode
  let lRBorder : Halfedge_handle := s.GetDefiningBorderB aNode
  let lLBorderP : Halfedge_handle := s.opposite (s.next (s.opposite lLBorder))
  let lLBorderN : Halfedge_handle := s.opposite (s.prev (s.opposite lLBorder))
  let lRBorderP : Halfedge_handle := s.opposite (s.next (s.opposite lRBorder))
  let lRBorderN : Halfedge_handle := s.opposite (s.prev (s.opposite lRBorder))
  s.mContourHalfedges.foldl
    (fun st lOpposite =>
      if lOpposite ≠ lLBorder ∧ lOpposite ≠ lRBorder ∧ lOpposite ≠ lLBorderP
          ∧ lOpposite ≠ lLBorderN ∧ lOpposite ≠ lRBorderP ∧ lOpposite ≠ lRBorderN then
        st.CollectSplitEvent tr aNode lLBorder lRBorder lOpposite
      else st)
    s

def Builder.CollectNewEvents (tr : Traits) (s : Builder) (aNode : Vertex_handle) : Builder :=
  let lPrev : Vertex_handle := s.GetPrevInLAV aNode
  let lNext : Vertex_handle := s.GetNextInLAV aNode
  let s1 : Builder := if s.IsReflex aNode then s.CollectSplitEvents tr aNode else s
  let rL : Builder × EventPtr := s1.FindEdgeEvent tr lPrev aNode
  let lLEdgeEvent : EventPtr := rL.2
  let rR : Builder × EventPtr := rL.1.FindEdgeEvent tr aNode lNext
  let lREdgeEvent : EventPtr := rR.2
  let s3 : Builder := rR.1
  let lAcceptL : Bool := lLEdgeEvent.isSome
  let lAcceptR : Bool := lREdgeEvent.isSome
  let lAccept : Bool × Bool :=
    if lLEdgeEvent.isSome && lREdgeEvent.isSome then
      if tr.CompareEvents (s3.ev lLEdgeEvent).triedge (s3.ev lREdgeEvent).triedge = .EQUAL then
        if tr.CompareEventsDistanceToSeed (s3.vtx aNode)
            (s3.ev lLEdgeEvent).triedge (s3.ev lREdgeEvent).triedge = .LARGER
        then (false, lAcceptR) else (lAcceptL, false)
      else (lAcceptL, lAcceptR)
    else (lAcceptL, lAcceptR)
  let s4 : Builder := if lAccept.1 then s3.EnqueEvent lLEdgeEvent else s3
  if lAccept.2 then s4.EnqueEvent lREdgeEvent else s4

def Builder.HandleSimultaneousEdgeEvent (s : Builder) (aA aB : Vertex_handle) : Builder :=
  let lOA : Halfedge_handle := s.primary_bisector aA
  let lOB : Halfedge_handle := s.primary_bisector aB
  let lIA : Halfedge_handle := s.opposite lOA
  let lIB : Halfedge_handle := s.opposite lOB
  let s : Builder := s.SetIsProcessed aA
  let s : Builder := s.SetIsProcessed aB
  let s : Builder := s.SLAV_remove aA
  let s : Builder := s.SLAV_remove aB
  let lOA_Prev : Halfedge_handle := s.prev lOA
  let lIA_Next : Halfedge_handle := s.next lIA
  let s : Builder := s.set_next lOB lIA_Next
  let s : Builder := s.set_prev lIA_Next lOB
  let s : Builder := s.set_prev lIB lOA_Prev
  let s : Builder := s.set_next lOA_Prev lIB
  let s : Builder := s.set_vertex lOB aA
  let s : Builder := { s with mDanglingBisectors := s.mDanglingBisectors ++ [lOA] }
  let s : Builder := if handle_assigned (s.vertex lOA) && s.vertex lOA != aA && s.vertex lOA != aB
           then s.set_halfedge (s.vertex lOA) lIB else s
  let s : Builder := if handle_assigned (s.vertex lIA) && s.vertex lIA != aA && s.vertex lIA != aB
           then s.set_halfedge (s.vertex lIA) lOB else s
  s

def Builder.AreBisectorsCoincident (s : Builder) (aA aB : Halfedge_handle) : Bool :=
  let lA_LBorder : Halfedge_handle := s.defining_contour_edge aA
  let lA_RBorder : Halfedge_handle := s.defining_contour_edge (s.opposite aA)
  let lB_LBorder : Halfedge_handle := s.defining_contour_edge aB
  let lB_RBorder : Halfedge_handle := s.defining_contour_edge (s.opposite aB)
  (lA_LBorder == lB_LBorder && lA_RBorder == lB_RBorder)
    || (lA_LBorder == lB_RBorder && lA_RBorder == lB_LBorder)

def Builder.UpdatePQ (tr : Traits) (s : Builder) (aNode : Vertex_handle) : Builder :=
  let lPrev : Vertex_handle := s.GetPrevInLAV aNode
  let lNext : Vertex_handle := s.GetNextInLAV aNode
  let lOBisector_P : Halfedge_handle := s.primary_bisector lPrev
  let lOBisector_C : Halfedge_handle := s.primary_bisector aNode
  let lOBisector_N : Halfedge_handle := s.primary_bisector lNext
  if s.AreBisectorsCoincident lOBisector_C lOBisector_P then
    s.HandleSimultaneousEdgeEvent aNode lPrev
  else if s.AreBisectorsCoincident lOBisector_C lOBisector_N then
    s.HandleSimultaneousEdgeEvent aNode lNext
  else s.CollectNewEvents tr aNode

/-- One iteration of the loop of `FindVertexEvent(aE0, aOV)` over the reflex splits: the state
and `rResult` before the iteration, the reflex split `i`, the state and `rResult` after it. -/
def Builder.FindVertexEventStep (tr : Traits) (aE0 : EventPtr) (acc : Builder × EventPtr)
    (i : Nat) : Builder × EventPtr :=
  let s : Builder := acc.1
  let lE1 : EventPtr := some i
  if !(s.ev lE1).excluded && tr.AreEventsSimultaneous (s.ev aE0).triedge (s.ev lE1).triedge then
    let s : Builder := s.ExcludeEvent aE0
    let s : Builder := s.ExcludeEvent lE1
    let q := tr.SortTwoDistinctAndTwoEqual (s.ev aE0).triedge (s.ev lE1).triedge
    if tr.ExistEvent q.1 q.2.1 q.2.2.1 && tr.ExistEvent q.2.2.1 q.2.2.2 q.1 then
      let r : Builder × EventPtr := s.newEvent (VertexEvent q.1 q.2.1 q.2.2.1 q.2.2.2 (s.ev aE0).seed0 (s.ev lE1).seed0)
      (r.1.SetTimeAndPoint r.2 (r.1.ev aE0).time (r.1.ev aE0).point, r.2)
    else (s, acc.2)
  else acc

/-- The overload `FindVertexEvent(aE0, aOV)`: the reflex splits of `aOV` are copied on entry and
scanned to the end. -/
def Builder.FindVertexEventAt (tr : Traits) (s : Builder) (aE0 : EventPtr) (aOV : Vertex_handle) :
    Builder × EventPtr :=
  (s.GetReflexSplits aOV).foldl (Builder.FindVertexEventStep tr aE0) (s, none)

/-- The overload `FindVertexEvent(aSplitEventPtr)`. -/
def Builder.FindVertexEvent (tr : Traits) (s : Builder) (aSplitEventPtr : EventPtr) :
    Builder × EventPtr :=
  let lOppBorder : Halfedge_handle := (s.ev aSplitEventPtr).opposite_border
  let lOV1 : Vertex_handle := s.vertex lOppBorder
  let r1 : Builder × EventPtr := if s.IsReflex lOV1 then s.FindVertexEventAt tr aSplitEventPtr lOV1 else (s, none)
  if r1.2 = none then
    let lOV2 : Vertex_handle := r1.1.vertex (r1.1.opposite lOppBorder)
    if r1.1.IsReflex lOV2 then r1.1.FindVertexEventAt tr aSplitEventPtr lOV2 else (r1.1, none)
  else r1

/-! ## Event handlers -/

def Builder.ConstructEdgeEventNode (s : Builder) (aEvent : EventPtr) : Builder × Vertex_handle :=
  let lLSeed : Vertex_handle := (s.ev aEvent).seed0
  let lRSeed : Vertex_handle := (s.ev aEvent).seed1
  let r : Builder × Vertex_handle := s.vertices_push_back (Vertex.mk3 s.mVertexID (s.ev aEvent).point (s.ev aEvent).time)
  let lNewNode : Vertex_handle := r.2
  let s : Builder := { r.1 with mVertexID := r.1.mVertexID + 1 }
  let s : Builder := s.SLAV_push_back lNewNode
  let s : Builder := s.wrapped_push_back (VertexWrapper.mk1 lNewNode)
  let lLOBisector : Halfedge_handle := s.primary_bisector lLSeed
  let lROBisector : Halfedge_handle := s.primary_bisector lRSeed
  let lLIBisector : Halfedge_handle := s.opposite lLOBisector
  let s : Builder := s.set_halfedge lNewNode lLOBisector
  let s : Builder := s.set_vertex lLOBisector lNewNode
  let s : Builder := s.set_vertex lROBisector lNewNode
  let s : Builder := s.set_prev lLIBisector lROBisector
  let s : Builder := s.set_next lROBisector lLIBisector
  let s : Builder := s.SetIsProcessed lLSeed
  let s : Builder := s.SetIsProcessed lRSeed
  let s : Builder := s.SLAV_remove lLSeed
  let s : Builder := s.SLAV_remove lRSeed
  let lLPrev : Vertex_handle := s.GetPrevInLAV lLSeed
  let lRNext : Vertex_handle := s.GetNextInLAV lRSeed
  let s : Builder := s.SetPrevInLAV lNewNode lLPrev
  let s : Builder := s.SetNextInLAV lLPrev lNewNode
  let s : Builder := s.SetNextInLAV lNewNode lRNext
  let s : Builder := s.SetPrevInLAV lRNext lNewNode
  (s, lNewNode)

/-- The loop of `LookupOnSLAV` over the shared active-vertex list, with its `break`. -/
def Builder.LookupOnSLAVLoop (tr : Traits) (s : Builder) (aBorder : Halfedge_handle)
    (aEvent : Event) : List Nat → Vertex_handle
  | [] => none
  | i :: rest =>
    let v : Vertex_handle := some i
    if handle_assigned (s.GetPrevInLAV v) && handle_assigned (s.GetNextInLAV v)
        && s.GetDefiningBorderA v == aBorder then
      let lPrev : Vertex_handle := s.GetPrevInLAV v
      let lPrevBorder : Halfedge_handle := s.GetDefiningBorderA lPrev
      let lNextBorder : Halfedge_handle := s.GetDefiningBorderB v
      if tr.IsEventInsideOffsetZone aEvent.border_a aEvent.border_b aBorder lPrevBorder lNextBorder
      then v
      else Builder.LookupOnSLAVLoop tr s aBorder aEvent rest
    else Builder.LookupOnSLAVLoop tr s aBorder aEvent rest

def Builder.LookupOnSLAV (tr : Traits) (s : Builder) (aBorder : Halfedge_handle)
    (aEvent : Event) : Vertex_handle :=
  s.LookupOnSLAVLoop tr aBorder aEvent s.mSLAV

def Builder.ConstructSplitEventNodes (s : Builder) (aEvent : EventPtr) (aOppR : Vertex_handle) :
    Builder × (Vertex_handle × Vertex_handle) :=
  let lOppL : Vertex_handle := s.GetPrevInLAV aOppR
  let rA : Builder × Vertex_handle := s.vertices_push_back (Vertex.mk3 s.mVertexID (s.ev aEvent).point (s.ev aEvent).time)
  let lNodeA : Vertex_handle := rA.2
  let s : Builder := { rA.1 with mVertexID := rA.1.mVertexID + 1 }
  let rB : Builder × Vertex_handle := s.vertices_push_back (Vertex.mk3 s.mVertexID (s.ev aEvent).point (s.ev aEvent).time)
  let lNodeB : Vertex_handle := rB.2
  let s : Builder := { rB.1 with mVertexID := rB.1.mVertexID + 1 }
  let s : Builder := s.SLAV_push_back lNodeA
  let s : Builder := s.SLAV_push_back lNodeB
  let s : Builder := s.wrapped_push_back (VertexWrapper.mk1 lNodeA)
  let s : Builder := s.wrapped_push_back (VertexWrapper.mk1 lNodeB)
  let lSeed : Vertex_handle := (s.ev aEvent).seed0
  let lXOutBisector : Halfedge_handle := s.primary_bisector lSeed
  let s : Builder := s.set_halfedge lNodeA lXOutBisector
  let s : Builder := s.set_vertex lXOutBisector lNodeA
  let s : Builder := s.SetIsProcessed lSeed
  let s : Builder := s.SLAV_remove lSeed
  let lPrev : Vertex_handle := s.GetPrevInLAV lSeed
  let lNext : Vertex_handle := s.GetNextInLAV lSeed
  let s : Builder := s.SetNextInLAV lPrev lNodeA
  let s : Builder := s.SetPrevInLAV lNodeA lPrev
  let s : Builder := s.SetNextInLAV lNodeA aOppR
  let s : Builder := s.SetPrevInLAV aOppR lNodeA
  let s : Builder := s.SetNextInLAV lOppL lNodeB
  let s : Builder := s.SetPrevInLAV lNodeB lOppL
  let s : Builder := s.SetNextInLAV lNodeB lNext
  let s : Builder := s.SetPrevInLAV lNext lNodeB
  let s : Builder := { s with mSplitNodes := s.mSplitNodes ++ [(lNodeA, lNodeB)] }
  (s, (lNodeA, lNodeB))

def Builder.ConstructVertexEventNodes (s : Builder) (aEvent : EventPtr) :
    Builder × (Vertex_handle × Vertex_handle) :=
  let lLSeed : Vertex_handle := (s.ev aEvent).seed0
  let lRSeed : Vertex_handle := (s.ev aEvent).seed1
  let rA : Builder × Vertex_handle := s.vertices_push_back (Vertex.mk3 s.mVertexID (s.ev aEvent).point (s.ev aEvent).time)
  let lNewNodeA : Vertex_handle := rA.2
  let s : Builder := { rA.1 with mVertexID := rA.1.mVertexID + 1 }
  let rB : Builder × Vertex_handle := s.vertices_push_back (Vertex.mk3 s.mVertexID (s.ev aEvent).point (s.ev aEvent).time)
  let lNewNodeB : Vertex_handle := rB.2
  let s : Builder := { rB.1 with mVertexID := rB.1.mVertexID + 1 }
  let s : Builder := s.SLAV_push_back lNewNodeA
  let s : Builder := s.SLAV_push_back lNewNodeB
  let s : Builder := s.wrapped_push_back (VertexWrapper.mk1 lNewNodeA)
  let s : Builder := s.wrapped_push_back (VertexWrapper.mk1 lNewNodeB)
  let lLOBisector : Halfedge_handle := s.primary_bisector lLSeed
  let lROBisector : Halfedge_handle := s.primary_bisector lRSeed
  let lLIBisector : Halfedge_handle := s.opposite lLOBisector
  let lRIBisector : Halfedge_handle := s.opposite lROBisector
  let s : Builder := s.set_halfedge lNewNodeA lLOBisector
  let s : Builder := s.set_halfedge lNewNodeB lROBisector
  let s : Builder := s.set_vertex lLOBisector lNewNodeA
  let s : Builder := s.set_vertex lROBisector lNewNodeB
  let s : Builder := s.set_prev lLIBisector lROBisector
  let s : Builder := s.set_next lROBisector lLIBisector
  let s : Builder := s.set_next lLOBisector lRIBisector
  let s : Builder := s.set_prev lRIBisector lLOBisector
  let s : Builder := s.SetIsProcessed lLSeed
  let s : Builder := s.SetIsProcessed lRSeed
  let s : Builder := s.SLAV_remove lLSeed
  let s : Builder := s.SLAV_remove lRSeed
  let lLPrev : Vertex_handle := s.GetPrevInLAV lLSeed
  let lLNext : Vertex_handle := s.GetNextInLAV lLSeed
  let lRPrev : Vertex_handle := s.GetPrevInLAV lRSeed
  let lRNext : Vertex_handle := s.GetNextInLAV lRSeed
  let s : Builder := s.SetPrevInLAV lNewNodeA lLPrev
  let s : Builder := s.SetNextInLAV lLPrev lNewNodeA
  let s : Builder := s.SetNextInLAV lNewNodeA lRNext
  let s : Builder := s.SetPrevInLAV lRNext lNewNodeA
  let s : Builder := s.SetPrevInLAV lNewNodeB lRPrev
  let s : Builder := s.SetNextInLAV lRPrev lNewNodeB
  let s : Builder := s.SetNextInLAV lNewNodeB lLNext
  let s : Builder := s.SetPrevInLAV lLNext lNewNodeB
  let s : Builder := { s with mSplitNodes := s.mSplitNodes ++ [(lNewNodeA, lNewNodeB)] }
  (s, (lNewNodeA, lNewNodeB))

/-- The overload `IsProcessed(EventPtr)`. -/
def Builder.IsProcessedEvent (s : Builder) (aEvent : EventPtr) : Bool :=
  s.IsProcessed (s.ev aEvent).seed0 || s.IsProcessed (s.ev aEvent).seed1

def Builder.HandleEdgeEvent (tr : Traits) (s : Builder) (aEvent : EventPtr) : Builder :=
  let lLSeed : Vertex_handle := (s.ev aEvent).seed0
  let lRSeed : Vertex_handle := (s.ev aEvent).seed1
  let r : Builder × Vertex_handle := s.ConstructEdgeEventNode aEvent
  let s : Builder := r.1
  let lNewNode : Vertex_handle := r.2
  let lLOBisector : Halfedge_handle := s.primary_bisector lLSeed
  let lROBisector : Halfedge_handle := s.primary_bisector lRSeed
  let lRIBisector : Halfedge_handle := s.opposite lROBisector
  if !handle_assigned (s.next lLOBisector) && !handle_assigned (s.prev lRIBisector) then
    let e : Builder × Halfedge_handle := s.edges_push_back (Halfedge.mk1 s.mEdgeID) (Halfedge.mk1 (s.mEdgeID + 1))
    let s : Builder := e.1
    let lNOBisector : Halfedge_handle := e.2
    let lNIBisector : Halfedge_handle := s.opposite lNOBisector
    let s : Builder := { s with mEdgeID := s.mEdgeID + 2 }
    let s : Builder := s.set_prev lRIBisector lNIBisector
    let s : Builder := s.set_next lNIBisector lRIBisector
    let s : Builder := s.set_face lNOBisector (s.face lLOBisector)
    let s : Builder := s.set_face lNIBisector (s.face lRIBisector)
    let s : Builder := s.set_vertex lNIBisector lNewNode
    let s : Builder := s.set_next lLOBisector lNOBisector
    let s : Builder := s.set_prev lNOBisector lLOBisector
    let lDefiningBorderA : Halfedge_handle := s.face_halfedge (s.face (s.halfedge lNewNode))
    let lDefiningBorderB : Halfedge_handle :=
      s.face_halfedge (s.face (s.opposite (s.prev (s.opposite (s.halfedge lNewNode)))))
    let lDefiningBorderC : Halfedge_handle := s.face_halfedge (s.face (s.prev (s.opposite (s.halfedge lNewNode))))
    let s : Builder := s.SetDefiningBorderA lNewNode lDefiningBorderA
    let s : Builder := s.SetDefiningBorderB lNewNode lDefiningBorderB
    let s : Builder := s.SetDefiningBorderC lNewNode lDefiningBorderC
    s.UpdatePQ tr lNewNode
  else
    let lDefiningBorderA : Halfedge_handle := s.face_halfedge (s.face (s.halfedge lNewNode))
    let lDefiningBorderB : Halfedge_handle :=
      s.face_halfedge (s.face (s.opposite (s.prev (s.opposite (s.halfedge lNewNode)))))
    let lDefiningBorderC : Halfedge_handle := s.face_halfedge (s.face (s.prev (s.opposite (s.halfedge lNewNode))))
    let s : Builder := s.SetDefiningBorderA lNewNode lDefiningBorderA
    let s : Builder := s.SetDefiningBorderB lNewNode lDefiningBorderB
    let s : Builder := s.SetDefiningBorderC lNewNode lDefiningBorderC
    s

/-- The two `mEdgeID++` in the argument list of `edges_push_back` are taken left to right. The
language leaves the order of the two open; only the `id` field of the two new halfedges
depends on it. -/
def Builder.HandleSplitEvent (tr : Traits) (s : Builder) (aEvent : EventPtr)
    (aOppR : Vertex_handle) : Builder :=
  let lSeed : Vertex_handle := (s.ev aEvent).seed0
  let r : Builder × (Vertex_handle × Vertex_handle) := s.ConstructSplitEventNodes aEvent aOppR
  let s : Builder := r.1
  let lNewNode_L : Vertex_handle := r.2.1
  let lNewNode_R : Vertex_handle := r.2.2
  let lOppBorder : Halfedge_handle := (s.ev aEvent).opposite_border
  let eL : Builder × Halfedge_handle := s.edges_push_back (Halfedge.mk1 s.mEdgeID) (Halfedge.mk1 (s.mEdgeID + 1))
  let lNOBisector_L : Halfedge_handle := eL.2
  let s : Builder := { eL.1 with mEdgeID := eL.1.mEdgeID + 2 }
  let eR : Builder × Halfedge_handle := s.edges_push_back (Halfedge.mk1 s.mEdgeID) (Halfedge.mk1 (s.mEdgeID + 1))
  let lNOBisector_R : Halfedge_handle := eR.2
  let s : Builder := { eR.1 with mEdgeID := eR.1.mEdgeID + 2 }
  let lNIBisector_L : Halfedge_handle := s.opposite lNOBisector_L
  let lNIBisector_R : Halfedge_handle := s.opposite lNOBisector_R
  let s : Builder := s.set_halfedge lNewNode_R lNIBisector_L
  let lXOBisector : Halfedge_handle := s.primary_bisector lSeed
  let lXIBisector : Halfedge_handle := s.opposite lXOBisector
  let s : Builder := s.set_face lNOBisector_L (s.face lXOBisector)
  let s : Builder := s.set_face lNIBisector_L (s.face lOppBorder)
  let s : Builder := s.set_face lNOBisector_R (s.face lOppBorder)
  let s : Builder := s.set_face lNIBisector_R (s.face lXIBisector)
  let s : Builder := s.set_vertex lNIBisector_L lNewNode_R
  let s : Builder := s.set_vertex lNIBisector_R lNewNode_R
  let s : Builder := s.set_next lXOBisector lNOBisector_L
  let s : Builder := s.set_prev lNOBisector_L lXOBisector
  let s : Builder := s.set_prev lXIBisector lNIBisector_R
  let s : Builder := s.set_next lNIBisector_R lXIBisector
  let s : Builder := s.set_next lNIBisector_L lNOBisector_R
  let s : Builder := s.set_prev lNOBisector_R lNIBisector_L
  let lNewNodeLDefiningBorderA : Halfedge_handle := s.face_halfedge (s.face (s.halfedge lNewNode_L))
  let lNewNodeLDefiningBorderB : Halfedge_handle :=
    s.face_halfedge (s.face (s.opposite (s.prev (s.opposite (s.halfedge lNewNode_L)))))
  let lNewNodeLDefiningBorderC : Halfedge_handle :=
    s.face_halfedge (s.face (s.prev (s.opposite (s.halfedge lNewNode_L))))
  let lNewNodeRDefiningBorderA : Halfedge_handle := s.face_halfedge (s.face (s.halfedge lNewNode_R))
  let lNewNodeRDefiningBorderB : Halfedge_handle :=
    s.face_halfedge (s.face (s.opposite (s.prev (s.opposite (s.halfedge lNewNode_R)))))
  let lNewNodeRDefiningBorderC : Halfedge_handle :=
    s.face_halfedge (s.face (s.prev (s.opposite (s.halfedge lNewNode_R))))
  let s : Builder := s.SetDefiningBorderA lNewNode_L lNewNodeLDefiningBorderA
  let s : Builder := s.SetDefiningBorderB lNewNode_L lNewNodeLDefiningBorderB
  let s : Builder := s.SetDefiningBorderC lNewNode_L lNewNodeLDefiningBorderC
  let s : Builder := s.SetDefiningBorderA lNewNode_R lNewNodeRDefiningBorderA
  let s : Builder := s.SetDefiningBorderB lNewNode_R lNewNodeRDefiningBorderB
  let s : Builder := s.SetDefiningBorderC lNewNode_R lNewNodeRDefiningBorderC
  let s : Builder := s.UpdatePQ tr lNewNode_L
  s.UpdatePQ tr lNewNode_R

def Builder.SetupVertexEventNode (tr : Traits) (s : Builder) (aNode : Vertex_handle)
    (aDefiningBorderA aDefiningBorderB : Halfedge_handle) : Builder × Bool :=
  let p : Point_2 := (s.vtx (s.vertex (s.opposite aDefiningBorderA))).point
  let q : Point_2 := (s.vtx (s.vertex (s.prev (s.opposite aDefiningBorderA)))).point
  let r : Point_2 := (s.vtx (s.vertex (s.prev (s.opposite aDefiningBorderB)))).point
  let lCollinear : Bool := tr.Collinear p q r
  if lCollinear || !tr.Left_turn p q r then (s.SetIsReflex aNode, true) else (s, false)

/-- The two `mEdgeID++` in the argument list of `edges_push_back` are taken left to right. The
language leaves the order of the two open; only the `id` field of the two new halfedges
depends on it. -/
def Builder.HandleVertexEvent (tr : Traits) (s : Builder) (aEvent : EventPtr) : Builder :=
  let lLSeed : Vertex_handle := (s.ev aEvent).seed0
  let lRSeed : Vertex_handle := (s.ev aEvent).seed1
  let r : Builder × (Vertex_handle × Vertex_handle) := s.ConstructVertexEventNodes aEvent
  let s : Builder := r.1
  let lNewNode_L : Vertex_handle := r.2.1
  let lNewNode_R : Vertex_handle := r.2.2
  let eL : Builder × Halfedge_handle := s.edges_push_back (Halfedge.mk1 s.mEdgeID) (Halfedge.mk1 (s.mEdgeID + 1))
  let lNBisector_LO : Halfedge_handle := eL.2
  let s : Builder := { eL.1 with mEdgeID := eL.1.mEdgeID + 2 }
  let eR : Builder × Halfedge_handle := s.edges_push_back (Halfedge.mk1 s.mEdgeID) (Halfedge.mk1 (s.mEdgeID + 1))
  let lNBisector_RO : Halfedge_handle := eR.2
  let s : Builder := { eR.1 with mEdgeID := eR.1.mEdgeID + 2 }
  let lNBisector_LI : Halfedge_handle := s.opposite lNBisector_LO
  let lNBisector_RI : Halfedge_handle := s.opposite lNBisector_RO
  let lSBisector_LO : Halfedge_handle := s.primary_bisector lLSeed
  let lSBisector_LI : Halfedge_handle := s.opposite lSBisector_LO
  let lSBisector_RO : Halfedge_handle := s.primary_bisector lRSeed
  let lSBisector_RI : Halfedge_handle := s.opposite lSBisector_RO
  let s : Builder := s.set_face lNBisector_LO (s.face lSBisector_LO)
  let s : Builder := s.set_face lNBisector_LI (s.face lSBisector_RI)
  let s : Builder := s.set_face lNBisector_RO (s.face lSBisector_RO)
  let s : Builder := s.set_face lNBisector_RI (s.face lSBisector_LI)
  let s : Builder := s.set_vertex lNBisector_LI lNewNode_L
  let s : Builder := s.set_vertex lNBisector_RI lNewNode_R
  let s : Builder := s.set_next lSBisector_LO lNBisector_LO
  let s : Builder := s.set_prev lNBisector_LO lSBisector_LO
  let s : Builder := s.set_prev lSBisector_LI lNBisector_RI
  let s : Builder := s.set_next lNBisector_RI lSBisector_LI
  let s : Builder := s.set_prev lSBisector_RI lNBisector_LI
  let s : Builder := s.set_next lNBisector_LI lSBisector_RI
  let s : Builder := s.set_next lSBisector_RO lNBisector_RO
  let s : Builder := s.set_prev lNBisector_RO lSBisector_RO
  let s : Builder := s.set_halfedge lNewNode_L lSBisector_LO
  let s : Builder := s.set_halfedge lNewNode_R lSBisector_RO
  let lNewNodeLDefiningBorderA : Halfedge_handle := s.face_halfedge (s.face (s.halfedge lNewNode_L))
  let lNewNodeLDefiningBorderB : Halfedge_handle :=
    s.face_halfedge (s.face (s.opposite (s.next (s.halfedge lNewNode_L))))
  let lNewNodeLDefiningBorderC : Halfedge_handle :=
    s.face_halfedge (s.face (s.prev (s.opposite (s.halfedge lNewNode_L))))
  let lNewNodeRDefiningBorderA : Halfedge_handle := s.face_halfedge (s.face (s.halfedge lNewNode_R))
  let lNewNodeRDefiningBorderB : Halfedge_handle :=
    s.face_halfedge (s.face (s.opposite (s.next (s.halfedge lNewNode_R))))
  let lNewNodeRDefiningBorderC : Halfedge_handle :=
    s.face_halfedge (s.face (s.prev (s.opposite (s.halfedge lNewNode_R))))
  let s : Builder := s.SetDefiningBorderA lNewNode_L lNewNodeLDefiningBorderA
  let s : Builder := s.SetDefiningBorderB lNewNode_L lNewNodeLDefiningBorderB
  let s : Builder := s.SetDefiningBorderC lNewNode_L lNewNodeLDefiningBorderC
  let s : Builder := s.SetDefiningBorderA lNewNode_R lNewNodeRDefiningBorderA
  let s : Builder := s.SetDefiningBorderB lNewNode_R lNewNodeRDefiningBorderB
  let s : Builder := s.SetDefiningBorderC lNewNode_R lNewNodeRDefiningBorderC
  let rL : Builder × Bool := s.SetupVertexEventNode tr lNewNode_L lNewNodeLDefiningBorderA lNewNodeLDefiningBorderB
  let s : Builder := rL.1
  let lNodeLIsNonConvex : Bool := rL.2
  let s : Builder := if !lNodeLIsNonConvex then
      (s.SetupVertexEventNode tr lNewNode_R lNewNodeRDefiningBorderA lNewNodeRDefiningBorderB).1
    else s
  let s : Builder := s.UpdatePQ tr lNewNode_L
  s.UpdatePQ tr lNewNode_R

def Builder.HandlePotentialSplitEvent (tr : Traits) (s : Builder) (aEvent : EventPtr) : Builder :=
  let lOppBorder : Halfedge_handle := (s.ev aEvent).opposite_border
  let lOppVertex : Vertex_handle := s.LookupOnSLAV tr lOppBorder (s.ev aEvent)
  if handle_assigned lOppVertex then
    let r : Builder × EventPtr := s.FindVertexEvent tr aEvent
    let lVertexEvent : EventPtr := r.2
    if lVertexEvent = none then r.1.HandleSplitEvent tr aEvent lOppVertex
    else r.1.HandleVertexEvent tr lVertexEvent
  else s

/-! ## The propagation loop -/

/-- Modelled from the spec: `SetEventTimeAndPoint` is declared outside this file; it stores in
the event the time and point that the traits compute from its three borders. -/
def Builder.SetEventTimeAndPoint (tr : Traits) (s : Builder) (e : EventPtr) : Builder :=
  s.SetTimeAndPoint e
    (tr.EventTime (s.ev e).border_a (s.ev e).border_b (s.ev e).border_c)
    (tr.EventPoint (s.ev e).border_a (s.ev e).border_b (s.ev e).border_c)

/-- Scan of the queue for a minimum: `b` is the best event so far, replaced by a queued event
whenever `CompareEvents` finds `b` LARGER. -/
def Builder.minEvent (tr : Traits) (s : Builder) : List Nat → Nat → Nat
  | [], b => b
  | y :: rest, b =>
    if tr.CompareEvents (s.mEvents b).triedge (s.mEvents y).triedge = .LARGER
    then Builder.minEvent tr s rest y
    else Builder.minEvent tr s rest b

/-- Modelled from the spec: `PopEventFromPQ` is declared outside this file; it removes from the
queue an event that is minimal for `CompareEvents` and returns it (the first one found when
several are minimal; the source leaves the choice among them open). -/
def Builder.PopEventFromPQ (tr : Traits) (s : Builder) : Builder × EventPtr :=
  match s.mPQ with
  | [] => (s, none)
  | x :: rest =>
    let m : Nat := s.minEvent tr rest x
    ({ s with mPQ := (x :: rest).erase m }, some m)

/-- The body of the loop of `Propagate`, run when the queue is not empty. -/
def Builder.PropagateStep (tr : Traits) (s : Builder) : Builder :=
  let r : Builder × EventPtr := s.PopEventFromPQ tr
  let s : Builder := r.1
  let lEvent : EventPtr := r.2
  if !(s.ev lEvent).excluded && !s.IsProcessedEvent lEvent then
    let s : Builder := s.SetEventTimeAndPoint tr lEvent
    let s : Builder := match (s.ev lEvent).type with
      | .cEdgeEvent => s.HandleEdgeEvent tr lEvent
      | .cSplitEvent => s.HandlePotentialSplitEvent tr lEvent
      | .cVertexEvent => s
    { s with mStepID := s.mStepID + 1 }
  else s

/-- The loop of `Propagate`, with at most `fuel` iterations. -/
def Builder.Propagate (tr : Traits) : Nat → Builder → Builder
  | 0, s => s
  | fuel + 1, s =>
    if s.mPQ.isEmpty then s else Builder.Propagate tr fuel (s.PropagateStep tr)

/-- The three conditions under which `LookupOnSLAV(aBorder, aEvent)` accepts the vertex `i` of
the active-vertex list: both LAV links assigned, defining border A equal to `aBorder`, and the
event inside the offset zone between the borders of the LAV neighbours. -/
def Builder.lookupAccepts (tr : Traits) (s : Builder) (aBorder : Halfedge_handle)
    (aEvent : Event) (i : Nat) : Bool :=
  handle_assigned (s.GetPrevInLAV (some i)) && handle_assigned (s.GetNextInLAV (some i))
    && (s.GetDefiningBorderA (some i) == aBorder)
    && tr.IsEventInsideOffsetZone aEvent.border_a aEvent.border_b aBorder
        (s.GetDefiningBorderA (s.GetPrevInLAV (some i))) (s.GetDefiningBorderB (some i))

/-! ## The scan of `FindVertexEvent`, named for the statements below -/

/-- The event without its `excluded` flag. -/
def Event.core (e : Event) : Event := { e with excluded := false }

/-- The state in which `FindVertexEvent(aE0, aOV)` scans the entry that follows the entries
`pre` of the reflex splits, when it is entered in state `st`. -/
def Builder.scanned (tr : Traits) (st : Builder) (aE0 : EventPtr) (pre : List Nat) : Builder :=
  (pre.foldl (Builder.FindVertexEventStep tr aE0) (st, none)).1

/-- The two `ExistEvent` tests on the borders sorted by `SortTwoDistinctAndTwoEqual`. -/
def Builder.scanConfirms (tr : Traits) (s : Builder) (aE0 : EventPtr) (i : Nat) : Bool :=
  tr.ExistEvent (tr.SortTwoDistinctAndTwoEqual (s.ev aE0).triedge (s.mEvents i).triedge).1
      (tr.SortTwoDistinctAndTwoEqual (s.ev aE0).triedge (s.mEvents i).triedge).2.1
      (tr.SortTwoDistinctAndTwoEqual (s.ev aE0).triedge (s.mEvents i).triedge).2.2.1
    && tr.ExistEvent (tr.SortTwoDistinctAndTwoEqual (s.ev aE0).triedge (s.mEvents i).triedge).2.2.1
      (tr.SortTwoDistinctAndTwoEqual (s.ev aE0).triedge (s.mEvents i).triedge).2.2.2
      (tr.SortTwoDistinctAndTwoEqual (s.ev aE0).triedge (s.mEvents i).triedge).1

/-- The result `rResult` of `FindVertexEvent(aE0, aOV)` after the entries `l` of the reflex
splits, when it is entered in state `st`. -/
def Builder.scanResult (tr : Traits) (st : Builder) (aE0 : EventPtr) (l : List Nat) : EventPtr :=
  (l.foldl (Builder.FindVertexEventStep tr aE0) (st, none)).2

/-- The reflex split `i` is simultaneous with `aE0` (borders as on entry, state `s`) and is not
excluded in the state `st` in which it is scanned. -/
def Builder.scanFires (tr : Traits) (s st : Builder) (aE0 : EventPtr) (i : Nat) : Bool :=
  !(st.mEvents i).excluded
    && tr.AreEventsSimultaneous (s.ev aE0).triedge (s.mEvents i).triedge

/-- The reflex split `i` yields a vertex event for `aE0`: it fires and the two `ExistEvent`
tests pass. -/
def Builder.vertexEventMatch (tr : Traits) (s st : Builder) (aE0 : EventPtr) (i : Nat) : Bool :=
  s.scanFires tr st aE0 i && s.scanConfirms tr aE0 i

/-- The vertex event built from `aE0` and the reflex split `i`: the sorted borders, the seeds
of the two events, the time and point of `aE0`. -/
def Builder.vertexEventOf (tr : Traits) (s : Builder) (aE0 : EventPtr) (i : Nat) : Event :=
  { VertexEvent (tr.SortTwoDistinctAndTwoEqual (s.ev aE0).triedge (s.mEvents i).triedge).1
      (tr.SortTwoDistinctAndTwoEqual (s.ev aE0).triedge (s.mEvents i).triedge).2.1
      (tr.SortTwoDistinctAndTwoEqual (s.ev aE0).triedge (s.mEvents i).triedge).2.2.1
      (tr.SortTwoDistinctAndTwoEqual (s.ev aE0).triedge (s.mEvents i).triedge).2.2.2
      (s.ev aE0).seed0 (s.mEvents i).seed0 with
    time := (s.ev aE0).time, point := (s.ev aE0).point }

/-- The endpoint `aOV` of the opposite border yields a vertex event for `aE0` when its scan is
entered in state `st`: it is reflex and one of its reflex splits matches when scanned. -/
def Builder.yieldsAt (tr : Traits) (s st : Builder) (aE0 : EventPtr) (aOV : Vertex_handle) : Prop :=
  s.IsReflex aOV = true ∧
    ∃ pre i post, s.GetReflexSplits aOV = pre ++ i :: post
      ∧ s.vertexEventMatch tr (st.scanned tr aE0 pre) aE0 i = true

/-- What the scan of `FindVertexEvent` keeps of the event store `s` it was entered with: the
events of `s` are still there in `st`, with the same fields, and none has lost its `excluded`
flag. -/
structure ScanInv (s st : Builder) : Prop where
  count_le : s.mEventCount ≤ st.mEventCount
  core_eq : ∀ k, k < s.mEventCount → (st.mEvents k).core = (s.mEvents k).core
  mono : ∀ k, k < s.mEventCount → (s.mEvents k).excluded = true →
    (st.mEvents k).excluded = true

/-- The state in which `FindVertexEvent(aE0)` turns to the source vertex of the opposite border:
the state left by the scan of the target vertex when that vertex is reflex, the entry state
otherwise. -/
def Builder.targetScanned (tr : Traits) (s : Builder) (aE0 : EventPtr) : Builder :=
  if s.IsReflex (s.vertex (s.ev aE0).opposite_border) = true then
    s.scanned tr aE0 (s.GetReflexSplits (s.vertex (s.ev aE0).opposite_border))
  else s

/-- The reflex splits of the target vertex of the opposite border of `aE0` when that vertex is
reflex, no reflex splits otherwise: what `FindVertexEvent(aE0)` scans first. -/
def Builder.targetSplits (s : Builder) (aE0 : EventPtr) : List Nat :=
  if s.IsReflex (s.vertex (s.ev aE0).opposite_border) = true then
    s.GetReflexSplits (s.vertex (s.ev aE0).opposite_border) else []

/-- The reflex splits of the source vertex of the opposite border of `aE0` when that vertex is
reflex, no reflex splits otherwise: what `FindVertexEvent(aE0)` scans when the target vertex
has yielded no vertex event. -/
def Builder.sourceSplits (s : Builder) (aE0 : EventPtr) : List Nat :=
  if s.IsReflex (s.vertex (s.opposite (s.ev aE0).opposite_border)) = true then
    s.GetReflexSplits (s.vertex (s.opposite (s.ev aE0).opposite_border)) else []

/-- The reflex splits that `FindVertexEvent(aE0)` can scan. -/
def Builder.scannedSplits (s : Builder) (aE0 : EventPtr) : List Nat :=
  s.targetSplits aE0 ++ s.sourceSplits aE0

/-! ## Event times, named for the statements below -/

/-- The time of an event: what the traits compute from its three borders, the value that
`SetEventTimeAndPoint` stores when the event is popped. -/
def Traits.timeOf (tr : Traits) (e : Event) : FT :=
  tr.EventTime e.border_a e.border_b e.border_c

/-- The times of the events popped by the first `fuel` iterations of the loop of `Propagate`,
in the order in which they are popped. -/
def Builder.poppedTimes (tr : Traits) : Nat → Builder → List FT
  | 0, _ => []
  | fuel + 1, s =>
    if s.mPQ.isEmpty then []
    else tr.timeOf (s.ev (s.PopEventFromPQ tr).2)
      :: Builder.poppedTimes tr fuel (s.PropagateStep tr)

/-- What a handler keeps of the event store and queue of `s`: the events of `s` keep their
borders, and an event queued in `s'` was queued in `s` or is a new event of time at least
`t`. -/
structure QExt (tr : Traits) (t : FT) (s s' : Builder) : Prop where
  count_le : s.mEventCount ≤ s'.mEventCount
  borders : ∀ k, k < s.mEventCount → (s'.mEvents k).triedge = (s.mEvents k).triedge
  queue : ∀ i ∈ s'.mPQ, i ∈ s.mPQ
    ∨ (s.mEventCount ≤ i ∧ i < s'.mEventCount ∧ t ≤ tr.timeOf (s'.mEvents i))

/-- The vertices keep their time and role from `s` to `s'`. -/
def VSame (s s' : Builder) : Prop :=
  ∀ n, (s'.mSSkel.vertices n).time = (s.mSSkel.vertices n).time
    ∧ (s'.mSSkel.vertices n).is_skeleton = (s.mSSkel.vertices n).is_skeleton

/-- The vertex `N` is a skeleton vertex of time `t`. -/
def Builder.skeletonAt (s : Builder) (N : Vertex_handle) (t : FT) : Prop :=
  (s.vtx N).is_skeleton = true ∧ (s.vtx N).time = t

/-- What the scan of `FindVertexEvent` for the event `k0` keeps when nothing is assumed of the
reflex splits it scans: the events of `s` keep their fields, the queue is the same, and the
result so far is a new event with the time of event `k0`. -/
structure ScanKeeps (s : Builder) (k0 : Nat) (acc : Builder × EventPtr) : Prop where
  count_le : s.mEventCount ≤ acc.1.mEventCount
  core_eq : ∀ k, k < s.mEventCount → (acc.1.mEvents k).core = (s.mEvents k).core
  queue : acc.1.mPQ = s.mPQ
  result : ∀ ve, acc.2 = some ve → s.mEventCount ≤ ve ∧ ve < acc.1.mEventCount
    ∧ (acc.1.mEvents ve).time = (s.mEvents k0).time

/-! ## What the event collection keeps, named for the statements below -/

/-- What `UpdatePQ` keeps of the state `s`: the counters other than the event counter, the
contour list, the sizes and lists of the half-edge graph, the faces, the id of every vertex, the
twin, face and id of every halfedge, and the borders, LAV links, reflex flag and vertex of every
wrapper. -/
structure UpdKeeps (s s' : Builder) : Prop where
  stepID : s'.mStepID = s.mStepID
  edgeID : s'.mEdgeID = s.mEdgeID
  vertexID : s'.mVertexID = s.mVertexID
  wrappedCount : s'.mWrappedCount = s.mWrappedCount
  contour : s'.mContourHalfedges = s.mContourHalfedges
  splitNodes : s'.mSplitNodes = s.mSplitNodes
  vertexNext : s'.mSSkel.vertexNext = s.mSSkel.vertexNext
  vertexList : s'.mSSkel.vertexList = s.mSSkel.vertexList
  halfedgeNext : s'.mSSkel.halfedgeNext = s.mSSkel.halfedgeNext
  halfedgeList : s'.mSSkel.halfedgeList = s.mSSkel.halfedgeList
  faces : s'.mSSkel.faces = s.mSSkel.faces
  ids : ∀ n, (s'.mSSkel.vertices n).id = (s.mSSkel.vertices n).id
  twins : ∀ j, (s'.mSSkel.halfedges j).opposite = (s.mSSkel.halfedges j).opposite
    ∧ (s'.mSSkel.halfedges j).face = (s.mSSkel.halfedges j).face
    ∧ (s'.mSSkel.halfedges j).id = (s.mSSkel.halfedges j).id
  wrappers : ∀ k, (s'.mWrappedVertices k).mDefiningBorderA = (s.mWrappedVertices k).mDefiningBorderA
    ∧ (s'.mWrappedVertices k).mDefiningBorderB = (s.mWrappedVertices k).mDefiningBorderB
    ∧ (s'.mWrappedVertices k).mDefiningBorderC = (s.mWrappedVertices k).mDefiningBorderC
    ∧ (s'.mWrappedVertices k).mPrevInLAV = (s.mWrappedVertices k).mPrevInLAV
    ∧ (s'.mWrappedVertices k).mNextInLAV = (s.mWrappedVertices k).mNextInLAV
    ∧ (s'.mWrappedVertices k).mIsReflex = (s.mWrappedVertices k).mIsReflex
    ∧ (s'.mWrappedVertices k).vertex = (s.mWrappedVertices k).vertex

/-! ## The dispatch of `Propagate`, named for the statements below -/

/-- The test of the loop of `Propagate` in the words of the specification, read in the state
`s` before the pop: the event popped next is not excluded and neither of its seeds is
processed. -/
def Builder.popIsLive (tr : Traits) (s : Builder) : Bool :=
  !(s.ev (s.PopEventFromPQ tr).2).excluded
    && !s.IsProcessed (s.ev (s.PopEventFromPQ tr).2).seed0
    && !s.IsProcessed (s.ev (s.PopEventFromPQ tr).2).seed1

/-- The `switch` of `Propagate`: the handler of the event `e`, chosen by its type. -/
def Builder.dispatch (tr : Traits) (s : Builder) (e : EventPtr) : Builder :=
  match (s.ev e).type with
  | .cEdgeEvent => s.HandleEdgeEvent tr e
  | .cSplitEvent => s.HandlePotentialSplitEvent tr e
  | .cVertexEvent => s

/-- The number of events that the first `fuel` iterations of the loop of `Propagate` pop while
they are not excluded and have no processed seed. -/
def Builder.dispatchedCount (tr : Traits) : Nat → Builder → Nat
  | 0, _ => 0
  | fuel + 1, s =>
    if s.mPQ.isEmpty then 0
    else (if s.popIsLive tr then 1 else 0)
      + Builder.dispatchedCount tr fuel (s.PropagateStep tr)

/-- The unordered pair of the defining contour edges of the halfedge `a` and of its twin. -/
def Builder.definingPair (s : Builder) (a : Halfedge_handle) : Sym2 Halfedge_handle :=
  Sym2.mk (s.defining_contour_edge a, s.defining_contour_edge (s.opposite a))

/-- The test of `HandleEdgeEvent` for a multiple node, read as the handler reads it, after
`ConstructEdgeEventNode`: `next(primary_bisector(L))` or `prev(opposite(primary_bisector(R)))`
is assigned. -/
def Builder.isMultipleNode (s : Builder) (e : EventPtr) : Bool :=
  handle_assigned ((s.ConstructEdgeEventNode e).1.next
      ((s.ConstructEdgeEventNode e).1.primary_bisector (s.ev e).seed0))
    || handle_assigned ((s.ConstructEdgeEventNode e).1.prev
      ((s.ConstructEdgeEventNode e).1.opposite
        ((s.ConstructEdgeEventNode e).1.primary_bisector (s.ev e).seed1)))

/-- The three defining borders that an event handler reads for the node `N` from the faces
around it: the contour edge of the face of `halfedge(N)`, that of the face of
`opposite(prev(opposite(halfedge(N))))` and that of the face of `prev(opposite(halfedge(N)))`. -/
def Builder.bordersAround (s : Builder) (N : Vertex_handle) : Triedge :=
  ⟨s.face_halfedge (s.face (s.halfedge N)),
   s.face_halfedge (s.face (s.opposite (s.prev (s.opposite (s.halfedge N))))),
   s.face_halfedge (s.face (s.prev (s.opposite (s.halfedge N))))⟩

/-- The three writes `SetDefiningBorderA/B/C(N, ..)` of an event handler. -/
def Builder.recordBorders (s : Builder) (N : Vertex_handle) (t : Triedge) : Builder :=
  ((s.SetDefiningBorderA N t.e0).SetDefiningBorderB N t.e1).SetDefiningBorderC N t.e2

/-- The new-bisector branch of `HandleEdgeEvent` up to the point where the defining borders of
the new node are read: `ConstructEdgeEventNode`, then the new halfedge pair and its links. -/
def Builder.EdgeEventWiring (s : Builder) (aEvent : EventPtr) : Builder :=
  let lLSeed : Vertex_handle := (s.ev aEvent).seed0
  let lRSeed : Vertex_handle := (s.ev aEvent).seed1
  let r : Builder × Vertex_handle := s.ConstructEdgeEventNode aEvent
  let s : Builder := r.1
  let lNewNode : Vertex_handle := r.2
  let lLOBisector : Halfedge_handle := s.primary_bisector lLSeed
  let lROBisector : Halfedge_handle := s.primary_bisector lRSeed
  let lRIBisector : Halfedge_handle := s.opposite lROBisector
  let e : Builder × Halfedge_handle :=
    s.edges_push_back (Halfedge.mk1 s.mEdgeID) (Halfedge.mk1 (s.mEdgeID + 1))
  let s : Builder := e.1
  let lNOBisector : Halfedge_handle := e.2
  let lNIBisector : Halfedge_handle := s.opposite lNOBisector
  let s : Builder := { s with mEdgeID := s.mEdgeID + 2 }
  let s : Builder := s.set_prev lRIBisector lNIBisector
  let s : Builder := s.set_next lNIBisector lRIBisector
  let s : Builder := s.set_face lNOBisector (s.face lLOBisector)
  let s : Builder := s.set_face lNIBisector (s.face lRIBisector)
  let s : Builder := s.set_vertex lNIBisector lNewNode
  let s : Builder := s.set_next lLOBisector lNOBisector
  let s : Builder := s.set_prev lNOBisector lLOBisector
  s

/-- The part of `HandleSplitEvent` up to the point where the defining borders of the two new
nodes are read: `ConstructSplitEventNodes`, then the two new halfedge pairs and their links. -/
def Builder.SplitEventWiring (s : Builder) (aEvent : EventPtr) (aOppR : Vertex_handle) :
    Builder :=
  let lSeed : Vertex_handle := (s.ev aEvent).seed0
  let r : Builder × (Vertex_handle × Vertex_handle) := s.ConstructSplitEventNodes aEvent aOppR
  let s : Builder := r.1
  let lNewNode_R : Vertex_handle := r.2.2
  let lOppBorder : Halfedge_handle := (s.ev aEvent).opposite_border
  let eL : Builder × Halfedge_handle :=
    s.edges_push_back (Halfedge.mk1 s.mEdgeID) (Halfedge.mk1 (s.mEdgeID + 1))
  let lNOBisector_L : Halfedge_handle := eL.2
  let s : Builder := { eL.1 with mEdgeID := eL.1.mEdgeID + 2 }
  let eR : Builder × Halfedge_handle :=
    s.edges_push_back (Halfedge.mk1 s.mEdgeID) (Halfedge.mk1 (s.mEdgeID + 1))
  let lNOBisector_R : Halfedge_handle := eR.2
  let s : Builder := { eR.1 with mEdgeID := eR.1.mEdgeID + 2 }
  let lNIBisector_L : Halfedge_handle := s.opposite lNOBisector_L
  let lNIBisector_R : Halfedge_handle := s.opposite lNOBisector_R
  let s : Builder := s.set_halfedge lNewNode_R lNIBisector_L
  let lXOBisector : Halfedge_handle := s.primary_bisector lSeed
  let lXIBisector : Halfedge_handle := s.opposite lXOBisector
  let s : Builder := s.set_face lNOBisector_L (s.face lXOBisector)
  let s : Builder := s.set_face lNIBisector_L (s.face lOppBorder)
  let s : Builder := s.set_face lNOBisector_R (s.face lOppBorder)
  let s : Builder := s.set_face lNIBisector_R (s.face lXIBisector)
  let s : Builder := s.set_vertex lNIBisector_L lNewNode_R
  let s : Builder := s.set_vertex lNIBisector_R lNewNode_R
  let s : Builder := s.set_next lXOBisector lNOBisector_L
  let s : Builder := s.set_prev lNOBisector_L lXOBisector
  let s : Builder := s.set_prev lXIBisector lNIBisector_R
  let s : Builder := s.set_next lNIBisector_R lXIBisector
  let s : Builder := s.set_next lNIBisector_L lNOBisector_R
  let s : Builder := s.set_prev lNOBisector_R lNIBisector_L
  s

/-! ## LAV rings, named for the statements below -/

/-- The ids are dense and aligned with the wrapper table: the vertex at slot `i` of the graph
has id `i`, and the vertex-id counter and the number of wrappers are the number of vertices. -/
def Builder.IdsDense (s : Builder) : Prop :=
  (∀ i, i < s.mSSkel.vertexNext → (s.vtx (some i)).id = i)
    ∧ s.mVertexID = s.mSSkel.vertexNext ∧ s.mWrappedCount = s.mSSkel.vertexNext

/-- The LAV link from `a` to `b`: `next_in_lav(a) == b` and `prev_in_lav(b) == a`. -/
def Builder.lavLink (s : Builder) (a b : Nat) : Prop :=
  s.GetNextInLAV (some a) = some b ∧ s.GetPrevInLAV (some b) = some a

instance (s : Builder) (a b : Nat) : Decidable (s.lavLink a b) :=
  inferInstanceAs (Decidable (_ ∧ _))

/-- The vertices `l`, listed from any one of them along the next links, form a LAV ring: they
are distinct, each is linked to the one after it and the last to the first, and none is
processed. -/
def Builder.IsLAVRing (s : Builder) (l : List Nat) : Prop :=
  l ≠ [] ∧ l.Nodup ∧ List.Chain' s.lavLink (l ++ l.take 1)
    ∧ ∀ v ∈ l, s.IsProcessed (some v) = false

/-! ## The edge events of `CollectNewEvents`, named for the statements below -/

/-- The state in which `CollectNewEvents(N)` looks for its two edge events: after
`CollectSplitEvents(N)` when `N` is reflex, the entry state otherwise. -/
def Builder.afterSplitSearch (tr : Traits) (s : Builder) (N : Vertex_handle) : Builder :=
  if s.IsReflex N then s.CollectSplitEvents tr N else s

/-- The left edge event of `CollectNewEvents(N)`: `FindEdgeEvent(Prev, N)`. -/
def Builder.leftEdgeEvent (tr : Traits) (s : Builder) (N : Vertex_handle) : EventPtr :=
  ((s.afterSplitSearch tr N).FindEdgeEvent tr (s.GetPrevInLAV N) N).2

/-- The right edge event of `CollectNewEvents(N)`: `FindEdgeEvent(N, Next)`, looked for after
the left one. -/
def Builder.rightEdgeEvent (tr : Traits) (s : Builder) (N : Vertex_handle) : EventPtr :=
  (((s.afterSplitSearch tr N).FindEdgeEvent tr (s.GetPrevInLAV N) N).1.FindEdgeEvent tr N
    (s.GetNextInLAV N)).2

/-- The state of `CollectNewEvents(N)` after both edge events have been looked for and before
any of them is enqueued. -/
def Builder.afterEdgeSearch (tr : Traits) (s : Builder) (N : Vertex_handle) : Builder :=
  (((s.afterSplitSearch tr N).FindEdgeEvent tr (s.GetPrevInLAV N) N).1.FindEdgeEvent tr N
    (s.GetNextInLAV N)).1

/-- The answer of `CompareEvents` on the two edge events of `CollectNewEvents(N)` is `EQUAL`. -/
def Builder.edgeEventsTie (tr : Traits) (s : Builder) (N : Vertex_handle) : Bool :=
  tr.CompareEvents ((s.afterEdgeSearch tr N).ev (s.leftEdgeEvent tr N)).triedge
    ((s.afterEdgeSearch tr N).ev (s.rightEdgeEvent tr N)).triedge = .EQUAL

/-- The answer of `CompareEventsDistanceToSeed(N, left, right)` is `LARGER`: the left event is
strictly farther from `N` than the right one. -/
def Builder.leftIsFarther (tr : Traits) (s : Builder) (N : Vertex_handle) : Bool :=
  tr.CompareEventsDistanceToSeed ((s.afterEdgeSearch tr N).vtx N)
    ((s.afterEdgeSearch tr N).ev (s.leftEdgeEvent tr N)).triedge
    ((s.afterEdgeSearch tr N).ev (s.rightEdgeEvent tr N)).triedge = .LARGER

/-- Modelled from the spec: the edge events that `CollectNewEvents(N)` enqueues, in the words
of the specification. When both exist and are equal in time only the one closer to `N` is
kept, the right one when the left is strictly farther and the left one otherwise; in every
other case whichever exist are kept, the left one first. -/
def Builder.keptEdgeEvents (tr : Traits) (s : Builder) (N : Vertex_handle) : List Nat :=
  match s.leftEdgeEvent tr N, s.rightEdgeEvent tr N with
  | some l, some r =>
    if s.edgeEventsTie tr N then (if s.leftIsFarther tr N then [r] else [l]) else [l, r]
  | some l, none => [l]
  | none, some r => [r]
  | none, none => []

/-! ## The nodes of a vertex event, named for the statements below -/

/-- The test of `SetupVertexEventNode` on the borders `A` and `B`: with `p` the point of the
target of `opposite(A)`, `q` that of the target of `prev(opposite(A))` and `r` that of the
target of `prev(opposite(B))`, `Collinear(p,q,r)` holds or `Left_turn(p,q,r)` does not. -/
def Builder.turnTest (tr : Traits) (s : Builder) (aDefiningBorderA aDefiningBorderB : Halfedge_handle) :
    Bool :=
  let p : Point_2 := (s.vtx (s.vertex (s.opposite aDefiningBorderA))).point
  let q : Point_2 := (s.vtx (s.vertex (s.prev (s.opposite aDefiningBorderA)))).point
  let r : Point_2 := (s.vtx (s.vertex (s.prev (s.opposite aDefiningBorderB)))).point
  let lCollinear : Bool := tr.Collinear p q r
  lCollinear || !tr.Left_turn p q r

/-- The three defining borders that `HandleVertexEvent` reads for the node `N` from the faces
around it: the contour edge of the face of `halfedge(N)`, that of the face of
`opposite(next(halfedge(N)))` and that of the face of `prev(opposite(halfedge(N)))`. -/
def Builder.vertexBordersAround (s : Builder) (N : Vertex_handle) : Triedge :=
  ⟨s.face_halfedge (s.face (s.halfedge N)),
   s.face_halfedge (s.face (s.opposite (s.next (s.halfedge N)))),
   s.face_halfedge (s.face (s.prev (s.opposite (s.halfedge N))))⟩

/-- The part of `HandleVertexEvent` up to the point where the defining borders of the two new
nodes are read: `ConstructVertexEventNodes`, then the two new halfedge pairs and their links. -/
def Builder.VertexEventWiring (s : Builder) (aEvent : EventPtr) : Builder :=
  let lLSeed : Vertex_handle := (s.ev aEvent).seed0
  let lRSeed : Vertex_handle := (s.ev aEvent).seed1
  let r : Builder × (Vertex_handle × Vertex_handle) := s.ConstructVertexEventNodes aEvent
  let s : Builder := r.1
  let lNewNode_L : Vertex_handle := r.2.1
  let lNewNode_R : Vertex_handle := r.2.2
  let eL : Builder × Halfedge_handle :=
    s.edges_push_back (Halfedge.mk1 s.mEdgeID) (Halfedge.mk1 (s.mEdgeID + 1))
  let lNBisector_LO : Halfedge_handle := eL.2
  let s : Builder := { eL.1 with mEdgeID := eL.1.mEdgeID + 2 }
  let eR : Builder × Halfedge_handle :=
    s.edges_push_back (Halfedge.mk1 s.mEdgeID) (Halfedge.mk1 (s.mEdgeID + 1))
  let lNBisector_RO : Halfedge_handle := eR.2
  let s : Builder := { eR.1 with mEdgeID := eR.1.mEdgeID + 2 }
  let lNBisector_LI : Halfedge_handle := s.opposite lNBisector_LO
  let lNBisector_RI : Halfedge_handle := s.opposite lNBisector_RO
  let lSBisector_LO : Halfedge_handle := s.primary_bisector lLSeed
  let lSBisector_LI : Halfedge_handle := s.opposite lSBisector_LO
  let lSBisector_RO : Halfedge_handle := s.primary_bisector lRSeed
  let lSBisector_RI : Halfedge_handle := s.opposite lSBisector_RO
  let s : Builder := s.set_face lNBisector_LO (s.face lSBisector_LO)
  let s : Builder := s.set_face lNBisector_LI (s.face lSBisector_RI)
  let s : Builder := s.set_face lNBisector_RO (s.face lSBisector_RO)
  let s : Builder := s.set_face lNBisector_RI (s.face lSBisector_LI)
  let s : Builder := s.set_vertex lNBisector_LI lNewNode_L
  let s : Builder := s.set_vertex lNBisector_RI lNewNode_R
  let s : Builder := s.set_next lSBisector_LO lNBisector_LO
  let s : Builder := s.set_prev lNBisector_LO lSBisector_LO
  let s : Builder := s.set_prev lSBisector_LI lNBisector_RI
  let s : Builder := s.set_next lNBisector_RI lSBisector_LI
  let s : Builder := s.set_prev lSBisector_RI lNBisector_LI
  let s : Builder := s.set_next lNBisector_LI lSBisector_RI
  let s : Builder := s.set_next lSBisector_RO lNBisector_RO
  let s : Builder := s.set_prev lNBisector_RO lSBisector_RO
  let s : Builder := s.set_halfedge lNewNode_L lSBisector_LO
  let s : Builder := s.set_halfedge lNewNode_R lSBisector_RO
  s

/-- The state of `HandleVertexEvent` in which `SetupVertexEventNode` is called for the left
node: the wiring, then the defining borders of both nodes recorded. -/
def Builder.VertexEventRecorded (s : Builder) (aEvent : EventPtr) : Builder :=
  ((s.VertexEventWiring aEvent).recordBorders (s.ConstructVertexEventNodes aEvent).2.1
      ((s.VertexEventWiring aEvent).vertexBordersAround
        (s.ConstructVertexEventNodes aEvent).2.1)).recordBorders
    (s.ConstructVertexEventNodes aEvent).2.2
    ((s.VertexEventWiring aEvent).vertexBordersAround (s.ConstructVertexEventNodes aEvent).2.2)

/-! ## The entry point `construct_skeleton` -/

/-- How a call of `construct_skeleton` ends: it returns the pointer `mSSkel`, null or not, or
it applies `*` to the null pointer. -/
inductive Outcome where
  | returned (r : Option SSkel)
  | null_dereference

/-- The function `construct_skeleton`. `aRun` is how `Run()` ends on the builder: `none` when
it throws, the graph it leaves in `mSSkel` otherwise; `is_valid` is the validity check of the
decorator, declared outside this file. The handler of the `try` block resets `mSSkel` to the
null pointer; the `if` that follows the block applies `*mSSkel` whatever the pointer is. -/
def construct_skeleton (aRun : Option SSkel) (is_valid : SSkel → Bool) : Outcome :=
  let mSSkel : Option SSkel :=
    match aRun with
    | some g => some g
    | none => none
  match mSSkel with
  | none => .null_dereference
  | some g => if !is_valid g then .returned none else .returned (some g)

/-! ## The halfedge of a vertex, named for the statements below -/

/-- Modelled from the spec: the invariant `halfedge.vertex == self` at the vertex `v`, with the
halfedge of `v` assigned. -/
def Builder.halfedgeTargetsSelf (s : Builder) (v : Vertex_handle) : Prop :=
  s.halfedge v ≠ none ∧ s.vertex (s.halfedge v) = v

/-- The state of `HandleVertexEvent` on which `UpdatePQ` is called: the recorded state after
`SetupVertexEventNode` on the left node and, when that node is not reflex, on the right one. -/
def Builder.VertexEventSetup (tr : Traits) (s : Builder) (aEvent : EventPtr) : Builder :=
  let lNewNode_L : Vertex_handle := (s.ConstructVertexEventNodes aEvent).2.1
  let lNewNode_R : Vertex_handle := (s.ConstructVertexEventNodes aEvent).2.2
  let tL : Triedge := (s.VertexEventWiring aEvent).vertexBordersAround lNewNode_L
  let tR : Triedge := (s.VertexEventWiring aEvent).vertexBordersAround lNewNode_R
  let rL : Builder × Bool :=
    (s.VertexEventRecorded aEvent).SetupVertexEventNode tr lNewNode_L tL.e0 tL.e1
  let s : Builder := rL.1
  let lNodeLIsNonConvex : Bool := rL.2
  if !lNodeLIsNonConvex then (s.SetupVertexEventNode tr lNewNode_R tR.e0 tR.e1).1 else s

/-! ## The contour bisectors -/

/-- The test of `CreateContourBisectors` at the vertex `v`: with `p`, `q`, `r` the points of
`prev_in_lav(v)`, `v` and `next_in_lav(v)`, `Collinear(p,q,r)` holds or `Left_turn(p,q,r)`
does not. -/
def Builder.contourTurnTest (tr : Traits) (s : Builder) (v : Vertex_handle) : Bool :=
  let lPrev : Vertex_handle := s.GetPrevInLAV v
  let lNext : Vertex_handle := s.GetNextInLAV v
  let lCollinear : Bool := tr.Collinear (s.vtx lPrev).point (s.vtx v).point (s.vtx lNext).point
  lCollinear || !tr.Left_turn (s.vtx lPrev).point (s.vtx v).point (s.vtx lNext).point

/-- One iteration of the loop of `CreateContourBisectors`, for the vertex `v`. The halfedges
`lOB(mEdgeID++)` and `lIB(mEdgeID++)` are declared in this order. -/
def Builder.CreateContourBisector (tr : Traits) (s : Builder) (v : Vertex_handle) : Builder :=
  let s : Builder := s.SLAV_push_back v
  let s : Builder := if s.contourTurnTest tr v then s.SetIsReflex v else s
  let e : Builder × Halfedge_handle :=
    s.edges_push_back (Halfedge.mk1 s.mEdgeID) (Halfedge.mk1 (s.mEdgeID + 1))
  let lOBisector : Halfedge_handle := e.2
  let s : Builder := { e.1 with mEdgeID := e.1.mEdgeID + 2 }
  let lIBisector : Halfedge_handle := s.opposite lOBisector
  let s : Builder := s.set_face lOBisector (s.face (s.halfedge v))
  let s : Builder := s.set_face lIBisector (s.face (s.next (s.halfedge v)))
  let s : Builder := s.set_vertex lIBisector v
  let lIBorder : Halfedge_handle := s.halfedge v
  let lOBorder : Halfedge_handle := s.next (s.halfedge v)
  let s : Builder := s.set_next lIBorder lOBisector
  let s : Builder := s.set_prev lOBisector lIBorder
  let s : Builder := s.set_prev lOBorder lIBisector
  let s : Builder := s.set_next lIBisector lOBorder
  s

/-- `CreateContourBisectors`: the loop over the vertices of the graph, in their order. -/
def Builder.CreateContourBisectors (tr : Traits) (s : Builder) : Builder :=
  s.mSSkel.vertexList.foldl (fun st v => st.CreateContourBisector tr (some v)) s

/-! ## Finalization: merging the twin nodes of split and vertex events -/

/-- Modelled from the spec: `vertices_erase` of the half-edge store takes the vertex out of the
list of vertices. -/
def Builder.vertices_erase (s : Builder) (v : Vertex_handle) : Builder :=
  match v with
  | none => s
  | some i => { s with mSSkel := { s.mSSkel with vertexList := s.mSSkel.vertexList.erase i } }

/-- The four halfedges that `MergeSplitNodes` looks at, in the order `lIBisectorL1`,
`lIBisectorR1`, `lIBisectorL2`, `lIBisectorR2`. -/
def Builder.splitNodesFan (s : Builder) (aSplitNodes : Vertex_handle × Vertex_handle) :
    List Halfedge_handle :=
  let lLNode : Vertex_handle := aSplitNodes.1
  let lRNode : Vertex_handle := aSplitNodes.2
  let lIBisectorL1 : Halfedge_handle := s.opposite (s.primary_bisector lLNode)
  let lIBisectorR1 : Halfedge_handle := s.opposite (s.primary_bisector lRNode)
  let lIBisectorL2 : Halfedge_handle := s.opposite (s.next lIBisectorL1)
  let lIBisectorR2 : Halfedge_handle := s.opposite (s.next lIBisectorR1)
  [lIBisectorL1, lIBisectorR1, lIBisectorL2, lIBisectorR2]

/-- One `if ( h->vertex() == lRNode ) h->set_vertex(lLNode)` of `MergeSplitNodes`. -/
def Builder.retarget (s : Builder) (h : Halfedge_handle) (lLNode lRNode : Vertex_handle) :
    Builder :=
  if s.vertex h = lRNode then s.set_vertex h lLNode else s

def Builder.MergeSplitNodes (s : Builder) (aSplitNodes : Vertex_handle × Vertex_handle) :
    Builder :=
  let lLNode : Vertex_handle := aSplitNodes.1
  let lRNode : Vertex_handle := aSplitNodes.2
  let lIBisectorL1 : Halfedge_handle := s.opposite (s.primary_bisector lLNode)
  let lIBisectorR1 : Halfedge_handle := s.opposite (s.primary_bisector lRNode)
  let lIBisectorL2 : Halfedge_handle := s.opposite (s.next lIBisectorL1)
  let lIBisectorR2 : Halfedge_handle := s.opposite (s.next lIBisectorR1)
  let s : Builder := s.retarget lIBisectorL1 lLNode lRNode
  let s : Builder := s.retarget lIBisectorR1 lLNode lRNode
  let s : Builder := s.retarget lIBisectorL2 lLNode lRNode
  let s : Builder := s.retarget lIBisectorR2 lLNode lRNode
  s.vertices_erase lRNode

/-- Modelled from the spec: the next and opposite links around a pair of twin nodes are in
`t` what they are in `W`: the halfedges of the two nodes, and the links that lead from them to
the four halfedges that `MergeSplitNodes` looks at. -/
def Builder.sameTwinLinks (W t : Builder) (aSplitNodes : Vertex_handle × Vertex_handle) :
    Prop :=
  t.halfedge aSplitNodes.1 = W.halfedge aSplitNodes.1
  ∧ t.halfedge aSplitNodes.2 = W.halfedge aSplitNodes.2
  ∧ t.next (W.halfedge aSplitNodes.1) = W.next (W.halfedge aSplitNodes.1)
  ∧ t.next (W.halfedge aSplitNodes.2) = W.next (W.halfedge aSplitNodes.2)
  ∧ t.opposite (W.primary_bisector aSplitNodes.1) = W.opposite (W.primary_bisector aSplitNodes.1)
  ∧ t.opposite (W.primary_bisector aSplitNodes.2) = W.opposite (W.primary_bisector aSplitNodes.2)
  ∧ t.next (W.opposite (W.primary_bisector aSplitNodes.1))
      = W.next (W.opposite (W.primary_bisector aSplitNodes.1))
  ∧ t.next (W.opposite (W.primary_bisector aSplitNodes.2))
      = W.next (W.opposite (W.primary_bisector aSplitNodes.2))
  ∧ t.opposite (W.next (W.opposite (W.primary_bisector aSplitNodes.1)))
      = W.opposite (W.next (W.opposite (W.primary_bisector aSplitNodes.1)))
  ∧ t.opposite (W.next (W.opposite (W.primary_bisector aSplitNodes.2)))
      = W.opposite (W.next (W.opposite (W.primary_bisector aSplitNodes.2)))

/-! ## Finalization: merging coincident nodes -/

/-- Modelled from the spec: the circulator around a vertex is declared outside this file. It
starts at the halfedge of the vertex, and `++` takes a halfedge that ends at the vertex to the
opposite of its next halfedge. -/
def Builder.circ_succ (s : Builder) (ie : Halfedge_handle) : Halfedge_handle :=
  s.opposite (s.next ie)

/-- The `do`/`while` loop of `MergeCoincidentNodes(v0,v1,..)` from the circulator `ie` on, with
`acc = (lToRelink, toremove0)`; `fuel` bounds the number of iterations, and the loop that
needs more gives `none`. -/
def Builder.scanAroundVertex (s : Builder) (v0 : Vertex_handle) (iebegin : Halfedge_handle) :
    Nat → Halfedge_handle → List Halfedge_handle × Halfedge_handle →
      Option (List Halfedge_handle × Halfedge_handle)
  | 0, _, _ => none
  | fuel + 1, ie, acc =>
    let iedge : Halfedge_handle := ie
    let v00 : Vertex_handle := s.vertex (s.opposite iedge)
    let acc : List Halfedge_handle × Halfedge_handle :=
      if v00 ≠ v0 then (acc.1 ++ [iedge], acc.2) else (acc.1, iedge)
    let ie : Halfedge_handle := s.circ_succ ie
    if ie ≠ iebegin then s.scanAroundVertex v0 iebegin fuel ie acc else some acc

/-- The branch `handle_assigned(toremove0)` of `MergeCoincidentNodes(v0,v1,..)`: the state
after the halfedges of `lToRelink` are retargeted, `v1` is excluded, the halfedge `toremove0`
and its twin are taken out of the next and prev links, and the halfedge of `v0` is moved off
the twin. -/
def Builder.exciseJoining (s : Builder) (v0 v1 : Vertex_handle)
    (lToRelink : List Halfedge_handle) (toremove0 : Halfedge_handle) : Builder :=
  let s : Builder := lToRelink.foldl (fun st j => st.set_vertex j v0) s
  let s : Builder := s.Exclude v1
  let toremove1 : Halfedge_handle := s.opposite toremove0
  let s : Builder := s.set_next (s.prev toremove0) (s.next toremove0)
  let s : Builder := s.set_prev (s.next toremove0) (s.prev toremove0)
  let s : Builder := s.set_next (s.prev toremove1) (s.next toremove1)
  let s : Builder := s.set_prev (s.next toremove1) (s.prev toremove1)
  let s : Builder := if s.halfedge v0 = toremove1 then s.set_halfedge v0 (s.prev toremove1) else s
  s

/-- The overload `MergeCoincidentNodes(v0, v1, rHalfedgesToRemove, rVerticesToRemove)`; the
result is the state and the two vectors, or `none` when the loop around `v1` needs more than
`fuel` iterations. -/
def Builder.MergeCoincidentNodes (s : Builder) (fuel : Nat) (v0 v1 : Vertex_handle)
    (rHalfedgesToRemove : List Halfedge_handle) (rVerticesToRemove : List Vertex_handle) :
    Option (Builder × List Halfedge_handle × List Vertex_handle) :=
  let iebegin : Halfedge_handle := s.halfedge v1
  match s.scanAroundVertex v0 iebegin fuel iebegin ([], none) with
  | none => none
  | some (lToRelink, toremove0) =>
    if toremove0 ≠ none then
      some (s.exciseJoining v0 v1 lToRelink toremove0,
        rHalfedgesToRemove ++ [toremove0], rVerticesToRemove ++ [v1])
    else some (s, rHalfedgesToRemove, rVerticesToRemove)

/-! ## Finalization: the pass over the coincident nodes -/

/-- Modelled from the spec: `AreSkeletonNodesCoincident` is declared outside this file; two
nodes are coincident when the oracle finds their points equal. -/
def Builder.AreSkeletonNodesCoincident (tr : Traits) (s : Builder) (v0 v1 : Vertex_handle) :
    Bool :=
  tr.Equal (s.vtx v0).point (s.vtx v1).point

/-- Modelled from the spec: `edges_erase` of the half-edge store takes the halfedge and its
twin out of the list of halfedges. -/
def Builder.edges_erase (s : Builder) (h : Halfedge_handle) : Builder :=
  match h with
  | none => s
  | some j =>
    match s.opposite (some j) with
    | none => { s with mSSkel := { s.mSSkel with halfedgeList := s.mSSkel.halfedgeList.erase j } }
    | some k =>
      { s with mSSkel := { s.mSSkel with
          halfedgeList := (s.mSSkel.halfedgeList.erase j).erase k } }

/-- The builder with the locals of `MergeCoincidentNodes()`: the connectivity matrix `graph`,
kept as the list of the pairs of ids added to it, and the two vectors. -/
structure MergePass where
  s : Builder
  graph : List (Nat × Nat)
  lHalfedgesToRemove : List Halfedge_handle
  lVerticesToRemove : List Vertex_handle

/-- Modelled from the spec: `boost::edge(a, b, graph)` on the undirected connectivity matrix
finds a pair added in either order. -/
def MergePass.linked (st : MergePass) (a b : Nat) : Bool :=
  st.graph.contains (a, b) || st.graph.contains (b, a)

/-- The body of the inner loop of `MergeCoincidentNodes()` for the vertices `v0` and `v1`. -/
def MergePass.innerBody (tr : Traits) (fuel : Nat) (v0 : Vertex_handle) (st : MergePass)
    (v1 : Vertex_handle) : Option MergePass :=
  if v0 ≠ v1 ∧ (st.s.vtx v1).is_skeleton = true ∧ st.s.IsExcluded v1 = false then
    if st.linked (st.s.vtx v0).id (st.s.vtx v1).id = false
        ∧ st.s.AreSkeletonNodesCoincident tr v0 v1 = true then
      match st.s.MergeCoincidentNodes fuel v0 v1 st.lHalfedgesToRemove
          st.lVerticesToRemove with
      | none => none
      | some r =>
        some { s := r.1, graph := st.graph ++ [((r.1.vtx v0).id, (r.1.vtx v1).id)],
               lHalfedgesToRemove := r.2.1, lVerticesToRemove := r.2.2 }
    else some st
  else some st

/-- The body of the outer loop of `MergeCoincidentNodes()` for the vertex `v0`. -/
def MergePass.outerBody (tr : Traits) (fuel : Nat) (st : MergePass) (v0 : Vertex_handle) :
    Option MergePass :=
  if (st.s.vtx v0).is_skeleton = true ∧ st.s.IsExcluded v0 = false then
    st.s.mSSkel.vertexList.foldlM (fun a v1 => a.innerBody tr fuel v0 (some v1)) st
  else some st

/-- The two nested loops of `MergeCoincidentNodes()`, before the erasures. -/
def Builder.mergeScan (tr : Traits) (fuel : Nat) (s : Builder) : Option MergePass :=
  s.mSSkel.vertexList.foldlM (fun a v0 => a.outerBody tr fuel (some v0))
    { s := s, graph := [], lHalfedgesToRemove := [], lVerticesToRemove := [] }

/-- The overload `MergeCoincidentNodes()`: the two loops, then the erasure of the queued
halfedges and of the queued vertices; `fuel` bounds each loop around a vertex. -/
def Builder.MergeCoincidentNodesPass (tr : Traits) (fuel : Nat) (s : Builder) :
    Option Builder :=
  match s.mergeScan tr fuel with
  | none => none
  | some st =>
    let s : Builder := st.lHalfedgesToRemove.foldl (fun a h => a.edges_erase h) st.s
    let s : Builder := st.lVerticesToRemove.foldl (fun a v => a.vertices_erase v) s
    some s

/-- What the loops of `MergeCoincidentNodes()` keep true, from the state `s0` on entry: the
vertices keep their id, point and role; the list of vertices is kept; an excluded vertex
stays excluded; a queued vertex is a skeleton vertex of the list that was not excluded on
entry and is excluded now; no vertex is queued twice; a wrapper that is excluded now was
excluded on entry or is the wrapper of a queued vertex; and every pair of the matrix is a
pair of different skeleton vertices of the list, not excluded on entry, with equal points. -/
structure MergeInv (tr : Traits) (s0 : Builder) (st : MergePass) : Prop where
  data : ∀ n, (st.s.vtx (some n)).id = (s0.vtx (some n)).id
    ∧ (st.s.vtx (some n)).point = (s0.vtx (some n)).point
    ∧ (st.s.vtx (some n)).is_skeleton = (s0.vtx (some n)).is_skeleton
  vertexList : st.s.mSSkel.vertexList = s0.mSSkel.vertexList
  grows : ∀ k, (s0.mWrappedVertices k).mIsExcluded = true →
    (st.s.mWrappedVertices k).mIsExcluded = true
  queued : ∀ v ∈ st.lVerticesToRemove, ∃ n, n ∈ s0.mSSkel.vertexList ∧ v = some n
    ∧ (s0.vtx (some n)).is_skeleton = true ∧ s0.IsExcluded (some n) = false
    ∧ st.s.IsExcluded (some n) = true
  nodup : st.lVerticesToRemove.Nodup
  excluded : ∀ k, (st.s.mWrappedVertices k).mIsExcluded = true →
    (s0.mWrappedVertices k).mIsExcluded = true
      ∨ ∃ n, some n ∈ st.lVerticesToRemove ∧ (s0.vtx (some n)).id = k
  pairs : ∀ p ∈ st.graph, ∃ n0 n1, n0 ∈ s0.mSSkel.vertexList ∧ n1 ∈ s0.mSSkel.vertexList
    ∧ p = ((s0.vtx (some n0)).id, (s0.vtx (some n1)).id) ∧ n0 ≠ n1
    ∧ (s0.vtx (some n0)).is_skeleton = true ∧ (s0.vtx (some n1)).is_skeleton = true
    ∧ s0.IsExcluded (some n0) = false ∧ s0.IsExcluded (some n1) = false
    ∧ s0.AreSkeletonNodesCoincident tr (some n0) (some n1) = true

/-- Modelled from the spec: the `i`-th entry of the wrapper vector wraps a vertex of the store
whose id is `i`. -/
def Builder.wrapsOwnId (s : Builder) (i : Nat) : Prop :=
  match (s.mWrappedVertices i).vertex with
  | none => False
  | some n => n < s.mSSkel.vertexNext ∧ (s.mSSkel.vertices n).id = i

instance (s : Builder) (i : Nat) : Decidable (s.wrapsOwnId i) := by
  unfold Builder.wrapsOwnId
  split <;> infer_instance

/-- Modelled from the spec: the wrapper vector is as long as the vertex-id counter and its
`i`-th entry wraps the vertex with id `i`. -/
def Builder.WrappersAligned (s : Builder) : Prop :=
  s.mWrappedCount = s.mVertexID ∧ ∀ i, i < s.mWrappedCount → s.wrapsOwnId i

instance (s : Builder) : Decidable s.WrappersAligned :=
  inferInstanceAs (Decidable (_ ∧ _))

/-! ## What the handlers keep of the wrappers of older vertices, named for the statements below -/

/-- What a handler keeps of the state `s`, for the wrappers with index below `n`: an assigned
LAV link stays assigned and the defining borders A and B are kept; the id of every vertex is
kept, and the wrapper vector has at least `n` entries. -/
structure OlderKept (n : Nat) (s s' : Builder) : Prop where
  ids : ∀ j, (s'.mSSkel.vertices j).id = (s.mSSkel.vertices j).id
  count : n ≤ s'.mWrappedCount
  prevLink : ∀ k, k < n → (s.mWrappedVertices k).mPrevInLAV ≠ none →
    (s'.mWrappedVertices k).mPrevInLAV ≠ none
  nextLink : ∀ k, k < n → (s.mWrappedVertices k).mNextInLAV ≠ none →
    (s'.mWrappedVertices k).mNextInLAV ≠ none
  borders : ∀ k, k < n →
    (s'.mWrappedVertices k).mDefiningBorderA = (s.mWrappedVertices k).mDefiningBorderA
      ∧ (s'.mWrappedVertices k).mDefiningBorderB = (s.mWrappedVertices k).mDefiningBorderB

/-- What the steps after the node constructor keep of the state `s`: the id of every vertex and
the LAV links of every wrapper, and a processed flag that is set stays set. -/
structure SeedsKept (s s' : Builder) : Prop where
  ids : ∀ j, (s'.mSSkel.vertices j).id = (s.mSSkel.vertices j).id
  links : ∀ k, (s'.mWrappedVertices k).mPrevInLAV = (s.mWrappedVertices k).mPrevInLAV
    ∧ (s'.mWrappedVertices k).mNextInLAV = (s.mWrappedVertices k).mNextInLAV
  processed : ∀ k, (s.mWrappedVertices k).mIsProcessed = true →
    (s'.mWrappedVertices k).mIsProcessed = true

/-- The state of a processed vertex `x` after a handler that took the state `s` to `s'`: it is
flagged processed, and each of its LAV links that was assigned in `s` is assigned in `s'`. -/
def Builder.seedAfter (s s' : Builder) (x : Nat) : Prop :=
  s'.IsProcessed (some x) = true
    ∧ (s.GetPrevInLAV (some x) ≠ none → s'.GetPrevInLAV (some x) ≠ none)
    ∧ (s.GetNextInLAV (some x) ≠ none → s'.GetNextInLAV (some x) ≠ none)

/-- The call `vertices_push_back( Vertex( mVertexID++, p, t) )` that opens every node
constructor: the new skeleton vertex is stored and the vertex-id counter advances. -/
def Builder.newVertex (s : Builder) (p : Point_2) (t : FT) : Builder :=
  { (s.vertices_push_back (Vertex.mk3 s.mVertexID p t)).1 with mVertexID := s.mVertexID + 1 }

/-! ## Faces along the next links, named for the statements below -/

/-- Modelled from the spec: when the next of the halfedge `h` is assigned, it is a halfedge of
the graph with the face of `h`. -/
def Builder.faceKeptAlong (s : Builder) (h : Nat) : Prop :=
  match s.next (some h) with
  | none => True
  | some n => n < s.mSSkel.halfedgeNext ∧ s.face (some n) = s.face (some h)

instance (s : Builder) (h : Nat) : Decidable (s.faceKeptAlong h) := by
  unfold Builder.faceKeptAlong
  split <;> infer_instance

/-- Modelled from the spec: face consistency along the next links, `face(next(h)) == face(h)`
for every halfedge `h` of the graph with an assigned next. -/
def Builder.FaceConsistent (s : Builder) : Prop :=
  ∀ h, h < s.mSSkel.halfedgeNext → s.faceKeptAlong h

instance (s : Builder) : Decidable s.FaceConsistent :=
  inferInstanceAs (Decidable (∀ h, h < _ → _))

/-- The seed `sd` of the split event `e` is a vertex of the graph; `hs` is its halfedge, `xo`
its primary bisector, `xi` the twin of that bisector and `ob` the opposite border of the event,
all of them halfedges of the graph. -/
def Builder.splitSeedWired (s : Builder) (e : EventPtr) (sd hs xo xi ob : Nat) : Prop :=
  (s.ev e).seed0 = some sd ∧ sd < s.mSSkel.vertexNext
    ∧ s.halfedge (some sd) = some hs ∧ s.next (some hs) = some xo
    ∧ s.opposite (some xo) = some xi ∧ (s.ev e).opposite_border = some ob
    ∧ hs < s.mSSkel.halfedgeNext ∧ xo < s.mSSkel.halfedgeNext
    ∧ xi < s.mSSkel.halfedgeNext ∧ ob < s.mSSkel.halfedgeNext

instance (s : Builder) (e : EventPtr) (sd hs xo xi ob : Nat) :
    Decidable (s.splitSeedWired e sd hs xo xi ob) := by
  unfold Builder.splitSeedWired
  infer_instance

/-- The seeds `l` and `r` of the event `e` are vertices of the graph; `i1` and `i2` are their
halfedges, `lo` and `ro` their primary bisectors, `li` and `ri` the twins of the bisectors, all
of them halfedges of the graph; the two bisectors differ and the bisector of `r` is the
halfedge of neither seed. -/
def Builder.seedPairWired (s : Builder) (e : EventPtr) (l r i1 i2 lo ro li ri : Nat) : Prop :=
  (s.ev e).seed0 = some l ∧ (s.ev e).seed1 = some r
    ∧ l < s.mSSkel.vertexNext ∧ r < s.mSSkel.vertexNext
    ∧ s.halfedge (some l) = some i1 ∧ s.next (some i1) = some lo
    ∧ s.halfedge (some r) = some i2 ∧ s.next (some i2) = some ro
    ∧ s.opposite (some lo) = some li ∧ s.opposite (some ro) = some ri
    ∧ i1 < s.mSSkel.halfedgeNext ∧ i2 < s.mSSkel.halfedgeNext
    ∧ lo < s.mSSkel.halfedgeNext ∧ ro < s.mSSkel.halfedgeNext
    ∧ li < s.mSSkel.halfedgeNext ∧ ri < s.mSSkel.halfedgeNext
    ∧ lo ≠ ro ∧ ro ≠ i1 ∧ ro ≠ i2

instance (s : Builder) (e : EventPtr) (l r i1 i2 lo ro li ri : Nat) :
    Decidable (s.seedPairWired e l r i1 i2 lo ro li ri) := by
  unfold Builder.seedPairWired
  infer_instance

/-! ## Borders shared with the LAV neighbours, named for the statements below -/

/-- Modelled from the spec: the vertex `n` shares its borders with its LAV neighbours,
`definingBorderB(prev_in_lav(n)) == definingBorderA(n)` and
`definingBorderB(n) == definingBorderA(next_in_lav(n))`. -/
def Builder.bordersLinked (s : Builder) (n : Vertex_handle) : Prop :=
  s.GetDefiningBorderB (s.GetPrevInLAV n) = s.GetDefiningBorderA n
    ∧ s.GetDefiningBorderB n = s.GetDefiningBorderA (s.GetNextInLAV n)

instance (s : Builder) (n : Vertex_handle) : Decidable (s.bordersLinked n) :=
  inferInstanceAs (Decidable (_ ∧ _))

instance (s : Builder) : Decidable s.IdsDense :=
  inferInstanceAs (Decidable (_ ∧ _))

/-- The entry state of `HandleEdgeEvent` for the claim on shared borders: dense ids; the seeds
`l` and `r` with the LAV predecessor `p` of `l` and the LAV successor `q` of `r`, all vertices
of the graph; the bisectors `lo`, `ro` of the seeds and their twins `li`, `ri`, halfedges of
the graph, `li` other than `ri` and `ro` the halfedge of neither seed; the contour edge of the
face of `lo` is `definingBorderA(l)` and that of the face of `ri` is `definingBorderB(r)`; and
the LAV-adjacent pairs `p, l` and `r, q` share a border. -/
def Builder.edgeEventBordered (s : Builder) (e : EventPtr) (l r p q lo ro li ri : Nat) : Prop :=
  s.IdsDense
    ∧ (s.ev e).seed0 = some l ∧ (s.ev e).seed1 = some r
    ∧ l < s.mSSkel.vertexNext ∧ r < s.mSSkel.vertexNext
    ∧ s.GetPrevInLAV (some l) = some p ∧ s.GetNextInLAV (some r) = some q
    ∧ p < s.mSSkel.vertexNext ∧ q < s.mSSkel.vertexNext
    ∧ s.primary_bisector (some l) = some lo ∧ s.primary_bisector (some r) = some ro
    ∧ s.opposite (some lo) = some li ∧ s.opposite (some ro) = some ri
    ∧ lo < s.mSSkel.halfedgeNext ∧ ro < s.mSSkel.halfedgeNext
    ∧ li < s.mSSkel.halfedgeNext ∧ ri < s.mSSkel.halfedgeNext
    ∧ li ≠ ri ∧ s.halfedge (some l) ≠ some ro ∧ s.halfedge (some r) ≠ some ro
    ∧ s.defining_contour_edge (s.primary_bisector (some l)) = s.GetDefiningBorderA (some l)
    ∧ s.defining_contour_edge (s.opposite (s.primary_bisector (some r)))
        = s.GetDefiningBorderB (some r)
    ∧ s.GetDefiningBorderB (some p) = s.GetDefiningBorderA (some l)
    ∧ s.GetDefiningBorderB (some r) = s.GetDefiningBorderA (some q)

instance (s : Builder) (e : EventPtr) (l r p q lo ro li ri : Nat) :
    Decidable (s.edgeEventBordered e l r p q lo ro li ri) := by
  unfold Builder.edgeEventBordered
  infer_instance

/-- The entry state of `HandleSplitEvent` for the claim on shared borders: dense ids; the seed
`sd` with its LAV neighbours `p` and `n`, the vertex `oppR` with its LAV predecessor `oppL`,
all vertices of the graph; the halfedge `hs` of the seed, its bisector `xo`, the twin `xi` of
the bisector and the opposite border `op` of the event, halfedges of the graph; the contour
edges of the faces of `xo` and `xi` are the borders A and B of the seed, that of the face of
`op` is `op`, `definingBorderA(oppR) == op`; and the LAV-adjacent pairs `p, sd`, `sd, n` and
`oppL, oppR` share a border. -/
def Builder.splitEventBordered (s : Builder) (e : EventPtr)
    (sd oppL oppR p n hs xo xi op : Nat) : Prop :=
  s.IdsDense
    ∧ (s.ev e).seed0 = some sd ∧ (s.ev e).opposite_border = some op
    ∧ sd < s.mSSkel.vertexNext
    ∧ s.GetPrevInLAV (some oppR) = some oppL
    ∧ s.GetPrevInLAV (some sd) = some p ∧ s.GetNextInLAV (some sd) = some n
    ∧ oppL < s.mSSkel.vertexNext ∧ oppR < s.mSSkel.vertexNext
    ∧ p < s.mSSkel.vertexNext ∧ n < s.mSSkel.vertexNext
    ∧ s.halfedge (some sd) = some hs ∧ s.next (some hs) = some xo
    ∧ s.opposite (some xo) = some xi
    ∧ hs < s.mSSkel.halfedgeNext ∧ xo < s.mSSkel.halfedgeNext
    ∧ xi < s.mSSkel.halfedgeNext ∧ op < s.mSSkel.halfedgeNext
    ∧ s.defining_contour_edge (s.primary_bisector (some sd)) = s.GetDefiningBorderA (some sd)
    ∧ s.defining_contour_edge (s.opposite (s.primary_bisector (some sd)))
        = s.GetDefiningBorderB (some sd)
    ∧ s.face_halfedge (s.face (some op)) = some op
    ∧ s.GetDefiningBorderA (some oppR) = some op
    ∧ s.GetDefiningBorderB (some p) = s.GetDefiningBorderA (some sd)
    ∧ s.GetDefiningBorderB (some sd) = s.GetDefiningBorderA (some n)
    ∧ s.GetDefiningBorderB (some oppL) = s.GetDefiningBorderA (some oppR)

instance (s : Builder) (e : EventPtr) (sd oppL oppR p n hs xo xi op : Nat) :
    Decidable (s.splitEventBordered e sd oppL oppR p n hs xo xi op) := by
  unfold Builder.splitEventBordered
  infer_instance

/-- The entry state of `HandleVertexEvent` for the claim on shared borders: dense ids; the
seeds `l` and `r` with their LAV neighbours `lp`, `ln` and `rp`, `rn`, all vertices of the
graph; the seeds wired as in `seedPairWired`, the bisector of `l` being the halfedge of
neither seed; for each seed the contour edges of the faces of its bisector and of the twin of
its bisector are its borders A and B; and the LAV-adjacent pairs `lp, l`, `l, ln`, `rp, r` and
`r, rn` share a border. -/
def Builder.vertexEventBordered (s : Builder) (e : EventPtr)
    (l r lp ln rp rn i1 i2 lo ro li ri : Nat) : Prop :=
  s.IdsDense
    ∧ s.GetPrevInLAV (some l) = some lp ∧ s.GetNextInLAV (some l) = some ln
    ∧ s.GetPrevInLAV (some r) = some rp ∧ s.GetNextInLAV (some r) = some rn
    ∧ lp < s.mSSkel.vertexNext ∧ ln < s.mSSkel.vertexNext
    ∧ rp < s.mSSkel.vertexNext ∧ rn < s.mSSkel.vertexNext
    ∧ s.seedPairWired e l r i1 i2 lo ro li ri ∧ lo ≠ i1 ∧ lo ≠ i2
    ∧ s.defining_contour_edge (s.primary_bisector (some l)) = s.GetDefiningBorderA (some l)
    ∧ s.defining_contour_edge (s.opposite (s.primary_bisector (some l)))
        = s.GetDefiningBorderB (some l)
    ∧ s.defining_contour_edge (s.primary_bisector (some r)) = s.GetDefiningBorderA (some r)
    ∧ s.defining_contour_edge (s.opposite (s.primary_bisector (some r)))
        = s.GetDefiningBorderB (some r)
    ∧ s.GetDefiningBorderB (some lp) = s.GetDefiningBorderA (some l)
    ∧ s.GetDefiningBorderB (some l) = s.GetDefiningBorderA (some ln)
    ∧ s.GetDefiningBorderB (some rp) = s.GetDefiningBorderA (some r)
    ∧ s.GetDefiningBorderB (some r) = s.GetDefiningBorderA (some rn)

instance (s : Builder) (e : EventPtr) (l r lp ln rp rn i1 i2 lo ro li ri : Nat) :
    Decidable (s.vertexEventBordered e l r lp ln rp rn i1 i2 lo ro li ri) := by
  unfold Builder.vertexEventBordered
  infer_instance

/-! ## The run: initialization, propagation, finalization -/

/-- `CreateInitialEvents`: the loop over the vertices of the graph, in their order. -/
def Builder.CreateInitialEvents (tr : Traits) (s : Builder) : Builder :=
  s.mSSkel.vertexList.foldl (fun st v => st.UpdatePQ tr (some v)) s

def Builder.InitPhase (tr : Traits) (s : Builder) : Builder :=
  (s.CreateContourBisectors tr).CreateInitialEvents tr

/-- Modelled from the spec: `EraseBisector` is declared outside this file; it removes the
bisector and its twin from the half-edge store. -/
def Builder.EraseBisector (s : Builder) (aBisector : Halfedge_handle) : Builder :=
  s.edges_erase aBisector

/-- `FinishUp`: `MergeSplitNodes` over the recorded pairs, `EraseBisector` over the dangling
bisectors, then `MergeCoincidentNodes()`, whose loops around a vertex are bounded by `fuel`. -/
def Builder.FinishUp (tr : Traits) (fuel : Nat) (s : Builder) : Option Builder :=
  let s : Builder := s.mSplitNodes.foldl (fun st p => st.MergeSplitNodes p) s
  let s : Builder := s.mDanglingBisectors.foldl (fun st h => st.EraseBisector h) s
  s.MergeCoincidentNodesPass tr fuel

/-- `Run`: the three phases in order. The loop of `Propagate` gets `fuelP` iterations and the
loops of `MergeCoincidentNodes` get `fuelM`; a loop that needs more gives `none`. -/
def Builder.Run (tr : Traits) (fuelP fuelM : Nat) (s : Builder) : Option Builder :=
  let s : Builder := s.InitPhase tr
  let s : Builder := s.Propagate tr fuelP
  if s.mPQ.isEmpty then s.FinishUp tr fuelM else none

/-- The skeleton vertices of the graph, in its order. -/
def SSkel.skeletonVertices (g : SSkel) : List Nat :=
  g.vertexList.filter (fun i => (g.vertices i).is_skeleton)

/-- Modelled from the spec: a bisector is a halfedge with a face on both sides, its own and that
of its twin; the contour halfedges have a twin without face. The list holds the bisector
halfedges of the graph, two for each bisector edge. -/
def SSkel.bisectorHalfedges (g : SSkel) : List Nat :=
  g.halfedgeList.filter (fun j =>
    handle_assigned (g.halfedges j).face
      && match (g.halfedges j).opposite with
         | none => false
         | some k => handle_assigned (g.halfedges k).face)

/-- The points of the skeleton vertices of the graph, in its order. -/
def SSkel.skeletonPoints (g : SSkel) : List Point_2 :=
  g.skeletonVertices.map (fun i => (g.vertices i).point)

/-- The events of the queue, in its order: the type of each, with the time and the point that
the oracle gives for its borders. -/
def Builder.queuedEvents (tr : Traits) (s : Builder) : List (EventType × FT × Point_2) :=
  s.mPQ.map (fun i =>
    ((s.mEvents i).type,
      tr.EventTime (s.mEvents i).border_a (s.mEvents i).border_b (s.mEvents i).border_c,
      tr.EventPoint (s.mEvents i).border_a (s.mEvents i).border_b (s.mEvents i).border_c))

/-! ## Concrete traits and states

Small instances on which the statements below are evaluated. -/

/-- Traits with constant answers: `exist` for `ExistEvent`, `past` for `IsNewEventInThePast`,
`sim` for `AreEventsSimultaneous`; every event is at time 0. -/
def exTraits (exist past sim : Bool) : Traits :=
  { ExistEvent := fun _ _ _ => exist
    IsNewEventInThePast := fun _ _ _ _ => past
    IsEventInsideOffsetZone := fun _ _ _ _ _ => true
    EventTime := fun _ _ _ => 0
    EventPoint := fun _ _ _ => default
    CompareEvents := fun _ _ => .EQUAL
    CompareEventsDistanceToSeed := fun _ _ _ => .EQUAL
    AreEventsSimultaneous := fun _ _ => sim
    SortTwoDistinctAndTwoEqual := fun x y => (x.e0, x.e1, y.e0, y.e1)
    Collinear := fun _ _ _ => false
    Left_turn := fun _ _ _ => true
    Equal := fun _ _ => false }

/-- A builder with nothing in it. -/
def exEmpty : Builder :=
  { mSSkel :=
      { vertices := fun _ => default, vertexNext := 0, vertexList := [],
        halfedges := fun _ => default, halfedgeNext := 0, halfedgeList := [],
        faces := fun _ => default }
    mWrappedVertices := fun _ => default
    mWrappedCount := 0
    mSLAV := []
    mContourHalfedges := []
    mEvents := fun _ => default
    mEventCount := 0
    mPQ := []
    mSplitNodes := []
    mDanglingBisectors := []
    mVertexID := 0
    mEdgeID := 0
    mEventID := 0
    mStepID := 0 }

/-- Vertex `i` has id `i`. Vertices 0 and 1 form a two-vertex ring: the borders of vertex 0 are
`(1, 2)`, those of vertex 1 are `(2, 1)`. Halfedge 5 has target vertex 3, which is reflex. -/
def exRing : Builder :=
  { exEmpty with
    mSSkel :=
      { exEmpty.mSSkel with
        vertices := fun i => { (default : Vertex) with id := i }
        vertexNext := 4
        vertexList := [0, 1, 2, 3]
        halfedges := fun j =>
          if j = 5 then { (default : Halfedge) with vertex := some 3 } else default
        halfedgeNext := 6 }
    mWrappedVertices := fun k =>
      if k = 0 then
        { (default : VertexWrapper) with
          mDefiningBorderA := some 1, mDefiningBorderB := some 2,
          mPrevInLAV := some 1, mNextInLAV := some 1 }
      else if k = 1 then
        { (default : VertexWrapper) with
          mDefiningBorderA := some 2, mDefiningBorderB := some 1,
          mPrevInLAV := some 0, mNextInLAV := some 0 }
      else if k = 3 then { (default : VertexWrapper) with mIsReflex := true }
      else default
    mWrappedCount := 4
    mSLAV := [0, 1]
    mContourHalfedges := [some 1, some 2, some 5] }

/-- The state `exRing` with three queued split events: event 0 of seed 0 against the opposite
border 5, whose target vertex 3 is reflex, and events 1 and 2, seeded at vertex 3 and recorded
in its reflex splits. -/
def exSplit : Builder :=
  { exRing with
    mWrappedVertices := fun k =>
      if k = 3 then { (default : VertexWrapper) with mIsReflex := true, mReflexSplits := [1, 2] }
      else exRing.mWrappedVertices k
    mEvents := fun k =>
      if k = 0 then SplitEvent (some 1) (some 2) (some 5) (some 0) (some 5)
      else if k = 1 then SplitEvent (some 6) (some 7) (some 1) (some 3) (some 1)
      else if k = 2 then SplitEvent (some 8) (some 9) (some 1) (some 3) (some 1)
      else default
    mEventCount := 3
    mPQ := [0, 1, 2] }

/-- Traits that compute the time of an event as the sum of the indices of its three borders,
with `IsNewEventInThePast` and `CompareEvents` decided by that time. -/
def exTimedTraits : Traits :=
  { exTraits true false true with
    EventTime := fun a b c => ((a.getD 0 + b.getD 0 + c.getD 0 : Nat) : FT)
    IsNewEventInThePast := fun a b c v =>
      decide (((a.getD 0 + b.getD 0 + c.getD 0 : Nat) : FT) < v.time)
    CompareEvents := fun x y =>
      if ((y.e0.getD 0 + y.e1.getD 0 + y.e2.getD 0 : Nat) : FT)
          < ((x.e0.getD 0 + x.e1.getD 0 + x.e2.getD 0 : Nat) : FT) then .LARGER
      else if ((x.e0.getD 0 + x.e1.getD 0 + x.e2.getD 0 : Nat) : FT)
          < ((y.e0.getD 0 + y.e1.getD 0 + y.e2.getD 0 : Nat) : FT) then .SMALLER
      else .EQUAL }

/-- A quadrilateral after `CreateContourBisectors`: vertex `i` ends the contour halfedge `i`
of face `i`, whose twin is halfedge `4 + i`; its bisectors are the halfedges `8 + 2 * i` (out,
in face `i`, after contour halfedge `i`) and `9 + 2 * i` (in, in face `i + 1`, ending at vertex
`i`, before contour halfedge `i + 1`). One edge event is queued: borders `(0, 1, 2)`, seeds
the vertices 0 and 1. -/
def exQuad : Builder :=
  { exEmpty with
    mSSkel :=
      { exEmpty.mSSkel with
        vertices := fun i =>
          if i < 4 then { (default : Vertex) with id := i, halfedge := some i }
          else { (default : Vertex) with id := i }
        vertexNext := 4
        vertexList := [0, 1, 2, 3]
        halfedges := fun j =>
          if j < 4 then
            { (default : Halfedge) with
              id := j, opposite := some (4 + j), face := some j, vertex := some j,
              next := some (8 + 2 * j), prev := some (9 + 2 * ((j + 3) % 4)) }
          else if j < 8 then { (default : Halfedge) with id := j, opposite := some (j - 4) }
          else if j < 16 then
            if j % 2 = 0 then
              { (default : Halfedge) with
                id := j, opposite := some (j + 1), face := some ((j - 8) / 2),
                prev := some ((j - 8) / 2) }
            else
              { (default : Halfedge) with
                id := j, opposite := some (j - 1), face := some (((j - 9) / 2 + 1) % 4),
                vertex := some ((j - 9) / 2), next := some (((j - 9) / 2 + 1) % 4) }
          else default
        halfedgeNext := 16
        halfedgeList := [0, 1, 2, 3, 4, 5, 6, 7, 8, 9, 10, 11, 12, 13, 14, 15]
        faces := fun f => if f < 4 then { (default : Face) with halfedge := some f } else default }
    mWrappedVertices := fun k =>
      if k < 4 then
        { (default : VertexWrapper) with
          vertex := some k
          mDefiningBorderA := some k, mDefiningBorderB := some ((k + 1) % 4),
          mPrevInLAV := some ((k + 3) % 4), mNextInLAV := some ((k + 1) % 4) }
      else default
    mWrappedCount := 4
    mSLAV := [0, 1, 2, 3]
    mContourHalfedges := [some 0, some 1, some 2, some 3]
    mVertexID := 4
    mEdgeID := 16
    mEvents := fun k =>
      if k = 0 then EdgeEvent (some 0) (some 1) (some 2) (some 0) (some 1) else default
    mEventCount := 1
    mPQ := [0] }

/-- The quadrilateral `exQuad` with one split event in the store instead of its edge event:
seed the vertex 0, with its borders 0 and 1, against the opposite border 2. -/
def exQuadSplit : Builder :=
  { exQuad with
    mEvents := fun k =>
      if k = 0 then SplitEvent (some 0) (some 1) (some 2) (some 0) (some 2) else default }

/-- Traits for which every triple of points is collinear. -/
def exReflexTraits : Traits :=
  { exTraits true false true with Collinear := fun _ _ _ => true }

/-- The quadrilateral `exQuad` with one vertex event in the store instead of its edge event:
seeds the vertices 0 and 2. -/
def exQuadVertex : Builder :=
  { exQuad with
    mEvents := fun k =>
      if k = 0 then VertexEvent (some 0) (some 2) (some 1) (some 3) (some 0) (some 2)
      else default }


/-- A quadrilateral before `CreateContourBisectors`: vertex `i` ends the contour halfedge `i`
of face `i`, whose twin is halfedge `4 + i`; contour halfedge `i + 1` follows contour halfedge
`i`, and the LAV is the ring of the four vertices. -/
def exContour : Builder :=
  { exEmpty with
    mSSkel :=
      { exEmpty.mSSkel with
        vertices := fun i =>
          if i < 4 then { (default : Vertex) with id := i, halfedge := some i }
          else { (default : Vertex) with id := i }
        vertexNext := 4
        vertexList := [0, 1, 2, 3]
        halfedges := fun j =>
          if j < 4 then
            { (default : Halfedge) with
              id := j, opposite := some (4 + j), face := some j, vertex := some j,
              next := some ((j + 1) % 4), prev := some ((j + 3) % 4) }
          else if j < 8 then { (default : Halfedge) with id := j, opposite := some (j - 4) }
          else default
        halfedgeNext := 8
        halfedgeList := [0, 1, 2, 3, 4, 5, 6, 7]
        faces := fun f => if f < 4 then { (default : Face) with halfedge := some f } else default }
    mWrappedVertices := fun k =>
      if k < 4 then
        { (default : VertexWrapper) with
          vertex := some k
          mDefiningBorderA := some k, mDefiningBorderB := some ((k + 1) % 4),
          mPrevInLAV := some ((k + 3) % 4), mNextInLAV := some ((k + 1) % 4) }
      else default
    mWrappedCount := 4
    mContourHalfedges := [some 0, some 1, some 2, some 3]
    mVertexID := 4
    mEdgeID := 8 }


/-- A path of four vertices `3 - 0 - 1 - 2`, nothing excluded. Halfedge 0 goes from vertex 0 to
vertex 1 and halfedge 1 is its twin; halfedge 2 goes from vertex 2 to vertex 1 with twin 3;
halfedge 4 goes from vertex 3 to vertex 0 with twin 5. The halfedges follow each other around
the path: `4, 0, 3, 2, 1, 5`. The vertices 0 and 1 are skeleton nodes at the same point, and
the halfedge of vertex 0 is halfedge 1. -/
def exMerge : Builder :=
  { exEmpty with
    mSSkel :=
      { exEmpty.mSSkel with
        vertices := fun i =>
          if i = 0 then
            { (default : Vertex) with id := 0, halfedge := some 1, is_skeleton := true }
          else if i = 1 then
            { (default : Vertex) with id := 1, halfedge := some 0, is_skeleton := true }
          else if i = 2 then
            { (default : Vertex) with id := 2, halfedge := some 3, point := ⟨1, 0⟩ }
          else if i = 3 then
            { (default : Vertex) with id := 3, halfedge := some 5, point := ⟨0, 1⟩ }
          else { (default : Vertex) with id := i }
        vertexNext := 4
        vertexList := [0, 1, 2, 3]
        halfedges := fun j =>
          if j = 0 then
            { id := 0, opposite := some 1, next := some 3, prev := some 4, face := none,
              vertex := some 1 }
          else if j = 1 then
            { id := 1, opposite := some 0, next := some 5, prev := some 2, face := none,
              vertex := some 0 }
          else if j = 2 then
            { id := 2, opposite := some 3, next := some 1, prev := some 3, face := none,
              vertex := some 1 }
          else if j = 3 then
            { id := 3, opposite := some 2, next := some 2, prev := some 0, face := none,
              vertex := some 2 }
          else if j = 4 then
            { id := 4, opposite := some 5, next := some 0, prev := some 5, face := none,
              vertex := some 0 }
          else if j = 5 then
            { id := 5, opposite := some 4, next := some 4, prev := some 1, face := none,
              vertex := some 3 }
          else default
        halfedgeNext := 6
        halfedgeList := [0, 1, 2, 3, 4, 5] }
    mWrappedVertices := fun k =>
      if k < 4 then { (default : VertexWrapper) with vertex := some k } else default
    mWrappedCount := 4
    mVertexID := 4
    mEdgeID := 6 }


/-- Traits as `exTraits`, with `Equal` the equality of points. -/
def exEqualTraits : Traits :=
  { exTraits true false true with Equal := fun p q => decide (p = q) }


/-- A ring of two vertices with their bisectors: vertex `i` ends the contour halfedge `i` of
face `i`, whose twin is halfedge `2 + i`; its bisectors are the halfedges `4 + 2 * i` (out, in
face `i`) and `5 + 2 * i` (in, in the face of the other contour halfedge). The borders of
vertex `i` are `i` and the other contour halfedge, and each vertex is the LAV neighbour of the
other on both sides. -/
def exTwoRing : Builder :=
  { exEmpty with
    mSSkel :=
      { exEmpty.mSSkel with
        vertices := fun i =>
          if i < 2 then { (default : Vertex) with id := i, halfedge := some i }
          else { (default : Vertex) with id := i }
        vertexNext := 2
        vertexList := [0, 1]
        halfedges := fun j =>
          if j < 2 then
            { (default : Halfedge) with
              id := j, opposite := some (2 + j), face := some j, vertex := some j,
              next := some (4 + 2 * j), prev := some (5 + 2 * ((j + 1) % 2)) }
          else if j < 4 then { (default : Halfedge) with id := j, opposite := some (j - 2) }
          else if j < 8 then
            if j % 2 = 0 then
              { (default : Halfedge) with
                id := j, opposite := some (j + 1), face := some ((j - 4) / 2),
                prev := some ((j - 4) / 2) }
            else
              { (default : Halfedge) with
                id := j, opposite := some (j - 1), face := some (((j - 5) / 2 + 1) % 2),
                vertex := some ((j - 5) / 2), next := some (((j - 5) / 2 + 1) % 2) }
          else default
        halfedgeNext := 8
        halfedgeList := [0, 1, 2, 3, 4, 5, 6, 7]
        faces := fun f => if f < 2 then { (default : Face) with halfedge := some f } else default }
    mWrappedVertices := fun k =>
      if k < 2 then
        { (default : VertexWrapper) with
          vertex := some k
          mDefiningBorderA := some k, mDefiningBorderB := some ((k + 1) % 2),
          mPrevInLAV := some ((k + 1) % 2), mNextInLAV := some ((k + 1) % 2) }
      else default
    mWrappedCount := 2
    mSLAV := [0, 1]
    mContourHalfedges := [some 0, some 1]
    mVertexID := 2
    mEdgeID := 8 }

/-- The supporting lines of the unit square, one for each contour halfedge: the halfedge `j`
lies on `a * x + b * y + c = 0` with `(a, b)` the unit normal that points inside, given as
`(a, b, c)`. Halfedge `j` ends at vertex `j`: halfedge 0 runs from `(0,1)` to `(0,0)`,
halfedge 1 from `(0,0)` to `(1,0)`, halfedge 2 from `(1,0)` to `(1,1)` and halfedge 3 from
`(1,1)` to `(0,1)`. -/
def exSquareLine (h : Halfedge_handle) : Option (FT × FT × FT) :=
  match h with
  | some 0 => some (1, 0, 0)
  | some 1 => some (0, 1, 0)
  | some 2 => some (-1, 0, 1)
  | some 3 => some (0, -1, 1)
  | _ => none

/-- The determinant of the rows `(a1, a2, a3)`, `(b1, b2, b3)`, `(c1, c2, c3)`. -/
def det3 (a1 a2 a3 b1 b2 b3 c1 c2 c3 : FT) : FT :=
  a1 * (b2 * c3 - b3 * c2) - a2 * (b1 * c3 - b3 * c1) + a3 * (b1 * c2 - b2 * c1)

/-- The point and time at which the offsets of three lines of the unit square meet, by
Cramer's rule on `a * x + b * y - t = - c`: `(x, y, t)`, when the three lines are lines of the
square and the system has one solution. -/
def exSquareMeet (a b c : Halfedge_handle) : Option (FT × FT × FT) :=
  match exSquareLine a, exSquareLine b, exSquareLine c with
  | some (a1, a2, a3), some (b1, b2, b3), some (c1, c2, c3) =>
    let d : FT := det3 a1 a2 (-1) b1 b2 (-1) c1 c2 (-1)
    if d = 0 then none
    else some (det3 (-a3) a2 (-1) (-b3) b2 (-1) (-c3) c2 (-1) / d,
               det3 a1 (-a3) (-1) b1 (-b3) (-1) c1 (-c3) (-1) / d,
               det3 a1 a2 (-a3) b1 b2 (-b3) c1 c2 (-c3) / d)
  | _, _, _ => none

def exSquareTime (t : Triedge) : FT :=
  match exSquareMeet t.e0 t.e1 t.e2 with
  | some (_, _, w) => w
  | none => 0

def exSquarePoint (t : Triedge) : Point_2 :=
  match exSquareMeet t.e0 t.e1 t.e2 with
  | some (x, y, _) => ⟨x, y⟩
  | none => default

def exCompare (a b : FT) : Comparison_result :=
  if a < b then .SMALLER else if b < a then .LARGER else .EQUAL

def exSqDist (p q : Point_2) : FT :=
  (p.x - q.x) * (p.x - q.x) + (p.y - q.y) * (p.y - q.y)

def exOrientation (p q r : Point_2) : FT :=
  (q.x - p.x) * (r.y - p.y) - (q.y - p.y) * (r.x - p.x)

/-- An exact oracle for the unit square, over the rationals: an event of three contour edges
exists when the offsets of their lines meet in one point at a positive time; events are
compared by that time, and by the squared distance of their points to the seed; two events
are simultaneous when they have the same time and point; the orientation tests are the sign
of the determinant. -/
def exSquareTraits : Traits :=
  { ExistEvent := fun a b c =>
      match exSquareMeet a b c with
      | some (_, _, w) => decide (0 < w)
      | none => false
    IsNewEventInThePast := fun a b c v => decide (exSquareTime ⟨a, b, c⟩ < v.time)
    IsEventInsideOffsetZone := fun _ _ _ _ _ => true
    EventTime := fun a b c => exSquareTime ⟨a, b, c⟩
    EventPoint := fun a b c => exSquarePoint ⟨a, b, c⟩
    CompareEvents := fun x y => exCompare (exSquareTime x) (exSquareTime y)
    CompareEventsDistanceToSeed := fun v x y =>
      exCompare (exSqDist v.point (exSquarePoint x)) (exSqDist v.point (exSquarePoint y))
    AreEventsSimultaneous := fun x y =>
      decide (exSquareTime x = exSquareTime y ∧ exSquarePoint x = exSquarePoint y)
    SortTwoDistinctAndTwoEqual := fun x y => (x.e0, x.e1, y.e0, y.e1)
    Collinear := fun p q r => decide (exOrientation p q r = 0)
    Left_turn := fun p q r => decide (0 < exOrientation p q r)
    Equal := fun p q => decide (p = q) }

/-- Modelled from the spec: the state in which `Run` finds the builder after the contour
`(0,0), (1,0), (1,1), (0,1)` has been entered. Vertex `i` is the `i`-th point, with id `i` and
time 0; it ends the contour halfedge `i` of face `i`, whose twin, outside, is halfedge
`4 + i`; its borders are `i` and the next contour halfedge, and the LAV is the ring of the
four vertices. -/
def exSquare : Builder :=
  { exEmpty with
    mSSkel :=
      { exEmpty.mSSkel with
        vertices := fun i =>
          if i < 4 then
            { (default : Vertex) with
              id := i, halfedge := some i,
              point := if i = 0 then ⟨0, 0⟩ else if i = 1 then ⟨1, 0⟩
                       else if i = 2 then ⟨1, 1⟩ else ⟨0, 1⟩ }
          else { (default : Vertex) with id := i }
        vertexNext := 4
        vertexList := [0, 1, 2, 3]
        halfedges := fun j =>
          if j < 4 then
            { (default : Halfedge) with
              id := j, opposite := some (4 + j), face := some j, vertex := some j,
              next := some ((j + 1) % 4), prev := some ((j + 3) % 4) }
          else if j < 8 then
            { (default : Halfedge) with
              id := j, opposite := some (j - 4), vertex := some ((j - 4 + 3) % 4),
              next := some (4 + (j - 4 + 3) % 4), prev := some (4 + (j - 4 + 1) % 4) }
          else default
        halfedgeNext := 8
        halfedgeList := [0, 1, 2, 3, 4, 5, 6, 7]
        faces := fun f => if f < 4 then { (default : Face) with halfedge := some f } else default }
    mWrappedVertices := fun k =>
      if k < 4 then
        { (default : VertexWrapper) with
          vertex := some k
          mDefiningBorderA := some k, mDefiningBorderB := some ((k + 1) % 4),
          mPrevInLAV := some ((k + 3) % 4), mNextInLAV := some ((k + 1) % 4) }
      else default
    mWrappedCount := 4
    mContourHalfedges := [some 0, some 1, some 2, some 3]
    mVertexID := 4
    mEdgeID := 8 }

/-- The unit square `exSquare` after `CreateContourBisectors`, computed by the code: vertex `i`
ends the contour halfedge `i` of face `i`, whose twin `4 + i`, outside, runs from vertex `i` to
the vertex before it; its bisectors are the halfedges `8 + 2 * i` (out, in face `i`) and
`9 + 2 * i` (in, in face `i + 1`). Every halfedge has its twin and every contour halfedge and
twin has its target vertex, next and prev. -/
def exSquareQuad : Builder := exSquare.CreateContourBisectors exSquareTraits

/-- The state `exSquareQuad` with two split events in the store: event 0 of seed 0, with its
borders 0 and 1, against the opposite border 2, and event 1 of seed 2, with its borders 2 and
3, against the opposite border 0. The vertices 0 and 2 are flagged reflex and each has its
split event in its reflex splits; the target of halfedge 2 is vertex 2 and the target of its
twin is vertex 1, which is not reflex. -/
def exSquareSplits : Builder :=
  { exSquareQuad with
    mWrappedVertices := fun k =>
      if k = 0 then { exSquareQuad.mWrappedVertices 0 with mIsReflex := true, mReflexSplits := [0] }
      else if k = 2 then
        { exSquareQuad.mWrappedVertices 2 with mIsReflex := true, mReflexSplits := [1] }
      else exSquareQuad.mWrappedVertices k
    mEvents := fun k =>
      if k = 0 then SplitEvent (some 0) (some 1) (some 2) (some 0) (some 2)
      else if k = 1 then SplitEvent (some 2) (some 3) (some 0) (some 2) (some 0)
      else default
    mEventCount := 2
    mPQ := [1] }

/-- The state `exSquareQuad` with one vertex event in the store, at time 1/2 and point
`(1/2, 1/2)`: seeds the vertices 0 and 2. -/
def exSquareVertex : Builder :=
  { exSquareQuad with
    mEvents := fun k =>
      if k = 0 then
        { VertexEvent (some 0) (some 1) (some 2) (some 3) (some 0) (some 2) with
          time := 1 / 2, point := ⟨1 / 2, 1 / 2⟩ }
      else default
    mEventCount := 1 }

/-- The state `exSquareQuad` with two events in the store, both at time 1/2 and point
`(1/2, 1/2)`: the split event 0 of seed 0, with its borders 0 and 1, against the opposite
border 2, and the edge event 1 of the seeds 1 and 2, with the borders 1, 2 and 3. -/
def exSquareStale : Builder :=
  { exSquareQuad with
    mEvents := fun k =>
      if k = 0 then
        { SplitEvent (some 0) (some 1) (some 2) (some 0) (some 2) with
          time := 1 / 2, point := ⟨1 / 2, 1 / 2⟩ }
      else if k = 1 then
        { EdgeEvent (some 1) (some 2) (some 3) (some 1) (some 2) with
          time := 1 / 2, point := ⟨1 / 2, 1 / 2⟩ }
      else default
    mEventCount := 2
    mPQ := [0] }

/-- Traits as `exTraits true false true`, for which no event lies inside an offset zone. -/
def exZoneTraits : Traits :=
  { exTraits true false true with IsEventInsideOffsetZone := fun _ _ _ _ _ => false }

/-- Two skeleton nodes 0 and 1 at the same point joined by two edges, each with one more edge,
to the contour vertices 3 and 2. Halfedge 0 goes from vertex 0 to vertex 1 and halfedge 1 is
its twin; halfedge 2 goes from vertex 0 to vertex 1 and halfedge 3 is its twin; halfedge 4
goes from vertex 2 to vertex 1 with twin 5; halfedge 6 goes from vertex 3 to vertex 0 with
twin 7. The halfedges follow each other around the two loops `6, 0, 5, 4, 3, 7` and `2, 1`.
The halfedges that end at vertex 1 are 0, 4 and 2, in the order of the circulator. -/
def exLens : Builder :=
  { exEmpty with
    mSSkel :=
      { exEmpty.mSSkel with
        vertices := fun i =>
          if i = 0 then
            { (default : Vertex) with id := 0, halfedge := some 1, is_skeleton := true }
          else if i = 1 then
            { (default : Vertex) with id := 1, halfedge := some 0, is_skeleton := true }
          else if i = 2 then
            { (default : Vertex) with id := 2, halfedge := some 5, point := ⟨1, 0⟩ }
          else if i = 3 then
            { (default : Vertex) with id := 3, halfedge := some 7, point := ⟨0, 1⟩ }
          else { (default : Vertex) with id := i }
        vertexNext := 4
        vertexList := [0, 1, 2, 3]
        halfedges := fun j =>
          if j = 0 then
            { id := 0, opposite := some 1, next := some 5, prev := some 6, face := none,
              vertex := some 1 }
          else if j = 1 then
            { id := 1, opposite := some 0, next := some 2, prev := some 2, face := none,
              vertex := some 0 }
          else if j = 2 then
            { id := 2, opposite := some 3, next := some 1, prev := some 1, face := none,
              vertex := some 1 }
          else if j = 3 then
            { id := 3, opposite := some 2, next := some 7, prev := some 4, face := none,
              vertex := some 0 }
          else if j = 4 then
            { id := 4, opposite := some 5, next := some 3, prev := some 5, face := none,
              vertex := some 1 }
          else if j = 5 then
            { id := 5, opposite := some 4, next := some 4, prev := some 0, face := none,
              vertex := some 2 }
          else if j = 6 then
            { id := 6, opposite := some 7, next := some 0, prev := some 7, face := none,
              vertex := some 0 }
          else if j = 7 then
            { id := 7, opposite := some 6, next := some 6, prev := some 3, face := none,
              vertex := some 3 }
          else default
        halfedgeNext := 8
        halfedgeList := [0, 1, 2, 3, 4, 5, 6, 7] }
    mWrappedVertices := fun k =>
      if k < 4 then { (default : VertexWrapper) with vertex := some k } else default
    mWrappedCount := 4
    mVertexID := 4
    mEdgeID := 8 }

/-- A path of three vertices `2 - 0 - 1`, the vertices 0 and 1 being skeleton nodes at the same
point. Halfedge 0 goes from vertex 0 to vertex 1 and halfedge 1 is its twin; halfedge 2 goes
from vertex 2 to vertex 0 and halfedge 3 is its twin. The halfedges follow each other around
the path: `2, 0, 1, 3`. Vertex 1 has no other halfedge than halfedge 0. -/
def exPath : Builder :=
  { exEmpty with
    mSSkel :=
      { exEmpty.mSSkel with
        vertices := fun i =>
          if i = 0 then
            { (default : Vertex) with id := 0, halfedge := some 1, is_skeleton := true }
          else if i = 1 then
            { (default : Vertex) with id := 1, halfedge := some 0, is_skeleton := true }
          else if i = 2 then
            { (default : Vertex) with id := 2, halfedge := some 3, point := ⟨1, 0⟩ }
          else { (default : Vertex) with id := i }
        vertexNext := 3
        vertexList := [0, 1, 2]
        halfedges := fun j =>
          if j = 0 then
            { id := 0, opposite := some 1, next := some 1, prev := some 2, face := none,
              vertex := some 1 }
          else if j = 1 then
            { id := 1, opposite := some 0, next := some 3, prev := some 0, face := none,
              vertex := some 0 }
          else if j = 2 then
            { id := 2, opposite := some 3, next := some 0, prev := some 3, face := none,
              vertex := some 0 }
          else if j = 3 then
            { id := 3, opposite := some 2, next := some 2, prev := some 1, face := none,
              vertex := some 2 }
          else default
        halfedgeNext := 4
        halfedgeList := [0, 1, 2, 3] }
    mWrappedVertices := fun k =>
      if k < 3 then { (default : VertexWrapper) with vertex := some k } else default
    mWrappedCount := 3
    mVertexID := 3
    mEdgeID := 4 }

/-- The state `exSquareStale` after `HandleEdgeEvent` on its edge event: the vertices 1 and 2
are processed and out of the active list, the new node 4 has the borders 1 and 3, and the
contour edge 2, the opposite border of the split event 0, is border A of no active vertex. -/
def exSquareConsumed : Builder := exSquareStale.HandleEdgeEvent exSquareTraits (some 1)

/-! ## Edge-event search -/

/-- C2: `FindEdgeEvent(L,R)` returns an event exactly when the borders `(a,b,c)` of
`GetDefiningBorders(L,R)` satisfy `a != b`, `b != c`, `ExistEvent(a,b,c)`, and neither seed is a
skeleton vertex for which `IsNewEventInThePast(a,b,c,seed)` holds (a contour seed never rejects);
the event returned is the `EdgeEvent` with borders `(a,b,c)` and seeds `(L,R)`. -/
theorem FindEdgeEvent_iff (tr : Traits) (s : Builder) (L R : Vertex_handle) :
    ((s.FindEdgeEvent tr L R).2 ≠ none ↔
      ((s.GetDefiningBorders L R).e0 ≠ (s.GetDefiningBorders L R).e1
        ∧ (s.GetDefiningBorders L R).e1 ≠ (s.GetDefiningBorders L R).e2
        ∧ tr.ExistEvent (s.GetDefiningBorders L R).e0 (s.GetDefiningBorders L R).e1
            (s.GetDefiningBorders L R).e2 = true
        ∧ ¬ ((s.vtx L).is_skeleton = true
              ∧ tr.IsNewEventInThePast (s.GetDefiningBorders L R).e0 (s.GetDefiningBorders L R).e1
                  (s.GetDefiningBorders L R).e2 (s.vtx L) = true)
        ∧ ¬ ((s.vtx R).is_skeleton = true
              ∧ tr.IsNewEventInThePast (s.GetDefiningBorders L R).e0 (s.GetDefiningBorders L R).e1
                  (s.GetDefiningBorders L R).e2 (s.vtx R) = true)))
    ∧ (∀ e, (s.FindEdgeEvent tr L R).2 = some e →
        (s.FindEdgeEvent tr L R).1.mEvents e
          = EdgeEvent (s.GetDefiningBorders L R).e0 (s.GetDefiningBorders L R).e1
              (s.GetDefiningBorders L R).e2 L R) := by
  unfold Builder.FindEdgeEvent
  by_cases h1 : (s.GetDefiningBorders L R).e0 ≠ (s.GetDefiningBorders L R).e1
      ∧ (s.GetDefiningBorders L R).e1 ≠ (s.GetDefiningBorders L R).e2
  · by_cases h2 : tr.ExistEvent (s.GetDefiningBorders L R).e0 (s.GetDefiningBorders L R).e1
        (s.GetDefiningBorders L R).e2 = true
    · by_cases h3 : ((s.vtx L).is_skeleton && tr.IsNewEventInThePast (s.GetDefiningBorders L R).e0
          (s.GetDefiningBorders L R).e1 (s.GetDefiningBorders L R).e2 (s.vtx L)) = true
      · by_cases h4 : ((s.vtx R).is_skeleton && tr.IsNewEventInThePast
            (s.GetDefiningBorders L R).e0 (s.GetDefiningBorders L R).e1
            (s.GetDefiningBorders L R).e2 (s.vtx R)) = true
        · simp only [Bool.and_eq_true] at h3 h4
          simp [h1, h2, h3, h4]
        · simp only [Bool.and_eq_true] at h3 h4
          simp [h1, h2, h3, h4]
      · by_cases h4 : ((s.vtx R).is_skeleton && tr.IsNewEventInThePast
            (s.GetDefiningBorders L R).e0 (s.GetDefiningBorders L R).e1
            (s.GetDefiningBorders L R).e2 (s.vtx R)) = true
        · simp only [Bool.and_eq_true] at h3 h4
          simp [h1, h2, h3, h4]
        · simp only [Bool.and_eq_true] at h3 h4
          have h3b : ((s.vtx L).is_skeleton && tr.IsNewEventInThePast
              (s.GetDefiningBorders L R).e0 (s.GetDefiningBorders L R).e1
              (s.GetDefiningBorders L R).e2 (s.vtx L)) = false := by
            simpa using h3
          have h4b : ((s.vtx R).is_skeleton && tr.IsNewEventInThePast
              (s.GetDefiningBorders L R).e0 (s.GetDefiningBorders L R).e1
              (s.GetDefiningBorders L R).e2 (s.vtx R)) = false := by
            simpa using h4
          simp only [h1, h2, h3b, h4b]
          simp [Builder.newEvent, h3, h4, h1.1, h1.2]
    · simp [h1, h2]
  · have h1b : ¬ ((s.GetDefiningBorders L R).e0 ≠ (s.GetDefiningBorders L R).e1
        ∧ (s.GetDefiningBorders L R).e1 ≠ (s.GetDefiningBorders L R).e2) := h1
    simp only [h1b, if_false]
    simp only [ne_eq, not_true_eq_false, false_iff, not_and]
    refine ⟨fun a b => absurd ⟨a, b⟩ h1, ?_⟩
    intro e he
    cases he

/-- C3 (as stated, refuted): in the two-vertex ring `exRing` the borders of `(0, 1)` are
`(1, 2, 1)`, not pairwise distinct, and `FindEdgeEvent` returns an event all the same. -/
theorem FindEdgeEvent_repeated_border_counterexample :
    ¬ (∀ (tr : Traits) (s : Builder) (L R : Vertex_handle),
        ¬ ((s.GetDefiningBorders L R).e0 ≠ (s.GetDefiningBorders L R).e1
            ∧ (s.GetDefiningBorders L R).e1 ≠ (s.GetDefiningBorders L R).e2
            ∧ (s.GetDefiningBorders L R).e0 ≠ (s.GetDefiningBorders L R).e2) →
        (s.FindEdgeEvent tr L R).2 = none) := by
  intro h
  have h1 := h (exTraits true false false) exRing (some 0) (some 1) (by decide)
  revert h1
  decide

/-- C3 (amended): if the first two or the last two of the borders of `GetDefiningBorders(L,R)`
are equal, `FindEdgeEvent(L,R)` returns no event and leaves the builder as it was, whatever the
traits answer. -/
theorem FindEdgeEvent_adjacent_equal (tr : Traits) (s : Builder) (L R : Vertex_handle)
    (h : (s.GetDefiningBorders L R).e0 = (s.GetDefiningBorders L R).e1
          ∨ (s.GetDefiningBorders L R).e1 = (s.GetDefiningBorders L R).e2) :
    s.FindEdgeEvent tr L R = (s, none) := by
  unfold Builder.FindEdgeEvent
  have hn : ¬ ((s.GetDefiningBorders L R).e0 ≠ (s.GetDefiningBorders L R).e1
      ∧ (s.GetDefiningBorders L R).e1 ≠ (s.GetDefiningBorders L R).e2) := by
    rintro ⟨h0, h1⟩
    rcases h with h | h
    · exact h0 h
    · exact h1 h
  simp only [hn, if_false]

theorem FindEdgeEvent_adjacent_equal_witness :
    ((exRing.GetDefiningBorders (some 0) (some 0)).e0
        = (exRing.GetDefiningBorders (some 0) (some 0)).e1
      ∨ (exRing.GetDefiningBorders (some 0) (some 0)).e1
        = (exRing.GetDefiningBorders (some 0) (some 0)).e2)
    ∧ exRing.FindEdgeEvent (exTraits true false false) (some 0) (some 0) = (exRing, none) :=
  ⟨by decide,
   FindEdgeEvent_adjacent_equal (exTraits true false false) exRing (some 0) (some 0)
     (by decide)⟩

/-! ## Split-event search -/

theorem foldl_ite_eq_foldl_filter {α β : Type} (f : β → α → β) (p : α → Bool) (l : List α)
    (b : β) :
    l.foldl (fun st x => if p x = true then f st x else st) b = (l.filter p).foldl f b := by
  induction l generalizing b with
  | nil => rfl
  | cons x xs ih =>
    by_cases hx : p x = true
    · simp [List.filter, hx, ih]
    · simp [List.filter, hx, ih]

/-- C4: `CollectSplitEvents(N)` is the run of `CollectSplitEvent(N, A(N), B(N), opp)`, in list
order and once per entry, over the entries `opp` of the contour-halfedge list that are none of
`A(N)`, `B(N)` and, for `x` in `A(N)`, `B(N)`, `opposite(next(opposite(x)))` and
`opposite(prev(opposite(x)))`, all six read on entry; no other entry is tested. -/
theorem CollectSplitEvents_calls (tr : Traits) (s : Builder) (N : Vertex_handle) :
    s.CollectSplitEvents tr N =
      (s.mContourHalfedges.filter (fun opp =>
          decide (opp ∉ [s.GetDefiningBorderA N, s.GetDefiningBorderB N,
            s.opposite (s.next (s.opposite (s.GetDefiningBorderA N))),
            s.opposite (s.prev (s.opposite (s.GetDefiningBorderA N))),
            s.opposite (s.next (s.opposite (s.GetDefiningBorderB N))),
            s.opposite (s.prev (s.opposite (s.GetDefiningBorderB N)))]))).foldl
        (fun st opp => st.CollectSplitEvent tr N (s.GetDefiningBorderA N)
          (s.GetDefiningBorderB N) opp) s := by
  unfold Builder.CollectSplitEvents
  rw [← foldl_ite_eq_foldl_filter]
  dsimp only
  congr 1
  funext st opp
  simp only [List.mem_cons, List.mem_singleton, List.not_mem_nil, or_false, not_or,
    decide_eq_true_eq, ne_eq]

/-- C5: when `ExistEvent(a,b,opp)` holds and `N` is a contour vertex or
`IsNewEventInThePast(a,b,opp,N)` is false, `CollectSplitEvent(N,a,b,opp)` appends exactly one
event to the queue, a new `SplitEvent` with borders `(a,b,opp)`, seed `N` and opposite border
`opp`, and keeps all earlier events; otherwise it changes nothing at all. -/
theorem CollectSplitEvent_enqueues (tr : Traits) (s : Builder) (N : Vertex_handle)
    (a b opp : Halfedge_handle) :
    if tr.ExistEvent a b opp = true
        ∧ ((s.vtx N).is_skeleton = false ∨ tr.IsNewEventInThePast a b opp (s.vtx N) = false)
    then (s.CollectSplitEvent tr N a b opp).mPQ = s.mPQ ++ [s.mEventCount]
      ∧ (s.CollectSplitEvent tr N a b opp).mEvents s.mEventCount = SplitEvent a b opp N opp
      ∧ (s.CollectSplitEvent tr N a b opp).mEventCount = s.mEventCount + 1
      ∧ (∀ k, k ≠ s.mEventCount → (s.CollectSplitEvent tr N a b opp).mEvents k = s.mEvents k)
    else s.CollectSplitEvent tr N a b opp = s := by
  unfold Builder.CollectSplitEvent
  by_cases h1 : tr.ExistEvent a b opp = true
  · by_cases h2 : (s.vtx N).is_skeleton = true ∧ tr.IsNewEventInThePast a b opp (s.vtx N) = true
    · have hc : ¬ (tr.ExistEvent a b opp = true ∧ ((s.vtx N).is_skeleton = false
          ∨ tr.IsNewEventInThePast a b opp (s.vtx N) = false)) := by
        rintro ⟨_, h | h⟩
        · rw [h2.1] at h; cases h
        · rw [h2.2] at h; cases h
      rw [if_neg hc]
      simp [h1, h2.1, h2.2]
    · have hc : tr.ExistEvent a b opp = true ∧ ((s.vtx N).is_skeleton = false
          ∨ tr.IsNewEventInThePast a b opp (s.vtx N) = false) := by
        refine ⟨h1, ?_⟩
        by_cases h3 : (s.vtx N).is_skeleton = true
        · right
          by_cases h4 : tr.IsNewEventInThePast a b opp (s.vtx N) = true
          · exact absurd ⟨h3, h4⟩ h2
          · simpa using h4
        · left
          simpa using h3
      rw [if_pos hc]
      have hb : (!((s.vtx N).is_skeleton && tr.IsNewEventInThePast a b opp (s.vtx N))) = true := by
        rcases hc.2 with h | h <;> simp [h]
      simp only [h1, hb, if_true]
      by_cases hr : (s.newEvent (SplitEvent a b opp N opp)).1.IsReflex
          ((s.newEvent (SplitEvent a b opp N opp)).1.vertex opp) = true
      · simp only [hr, if_true]
        refine ⟨rfl, ?_, rfl, ?_⟩
        · simp [Builder.newEvent, Builder.EnqueEvent, Builder.AddReflexSplit, Builder.updWrap]
        · intro k hk
          simp [Builder.newEvent, Builder.EnqueEvent, Builder.AddReflexSplit, Builder.updWrap, hk]
      · simp only [hr]
        refine ⟨rfl, ?_, rfl, ?_⟩
        · simp [Builder.newEvent, Builder.EnqueEvent]
        · intro k hk
          simp [Builder.newEvent, Builder.EnqueEvent, hk]
  · have hc : ¬ (tr.ExistEvent a b opp = true ∧ ((s.vtx N).is_skeleton = false
        ∨ tr.IsNewEventInThePast a b opp (s.vtx N) = false)) := fun h => h1 h.1
    rw [if_neg hc]
    simp [h1]

/-- C6 (as stated, refuted): in `exRing` the opposite border 5 has the reflex target vertex 3;
the split event of seed 0 against it is queued, the reflex splits of vertex 3 stay as they were
and the event is in the reflex splits of the seed. -/
theorem CollectSplitEvent_reflex_split_counterexample :
    (exRing.CollectSplitEvent (exTraits true false false) (some 0) (some 1) (some 2)
        (some 5)).mPQ = [0]
    ∧ exRing.vertex (some 5) = some 3
    ∧ exRing.IsReflex (some 3) = true
    ∧ (exRing.CollectSplitEvent (exTraits true false false) (some 0) (some 1) (some 2)
        (some 5)).GetReflexSplits (some 3) = exRing.GetReflexSplits (some 3)
    ∧ (exRing.CollectSplitEvent (exTraits true false false) (some 0) (some 1) (some 2)
        (some 5)).GetReflexSplits (some 0) = [0] := by
  decide

/-- C6 (amended): when `CollectSplitEvent(N,a,b,opp)` emits its split event and the target
vertex of `opp` is reflex, the event is appended to the reflex splits of the seed `N`, and to
no other list; when the target of `opp` is not reflex, or no event is emitted, every list of
reflex splits is unchanged. -/
theorem CollectSplitEvent_reflex_splits (tr : Traits) (s : Builder) (N : Vertex_handle)
    (a b opp : Halfedge_handle) (k : Nat) :
    ((s.CollectSplitEvent tr N a b opp).mWrappedVertices k).mReflexSplits =
      if (tr.ExistEvent a b opp = true
            ∧ ((s.vtx N).is_skeleton = false
                ∨ tr.IsNewEventInThePast a b opp (s.vtx N) = false))
          ∧ s.IsReflex (s.vertex opp) = true ∧ s.wrapIndex N = some k
      then (s.mWrappedVertices k).mReflexSplits ++ [s.mEventCount]
      else (s.mWrappedVertices k).mReflexSplits := by
  unfold Builder.CollectSplitEvent
  have hR : (s.newEvent (SplitEvent a b opp N opp)).1.IsReflex
      ((s.newEvent (SplitEvent a b opp N opp)).1.vertex opp) = s.IsReflex (s.vertex opp) := rfl
  dsimp only
  rw [hR]
  by_cases h1 : tr.ExistEvent a b opp = true
  · by_cases h2 : (s.vtx N).is_skeleton = true
    · by_cases h3 : tr.IsNewEventInThePast a b opp (s.vtx N) = true
      · simp [h1, h2, h3]
      · have h3b : tr.IsNewEventInThePast a b opp (s.vtx N) = false := by simpa using h3
        by_cases hr : s.IsReflex (s.vertex opp) = true
        · simp only [h1, h2, h3b, hr, Builder.newEvent, Builder.EnqueEvent,
            Builder.AddReflexSplit, Builder.updWrap, Builder.wrapIndex, if_true, true_and,
            Bool.and_false, Bool.not_false, or_true, and_self]
          split <;> rfl
        · simp [h1, h2, h3b, hr, Builder.newEvent, Builder.EnqueEvent]
    · have h2b : (s.vtx N).is_skeleton = false := by simpa using h2
      by_cases hr : s.IsReflex (s.vertex opp) = true
      · simp only [h1, h2b, hr, Builder.newEvent, Builder.EnqueEvent,
          Builder.AddReflexSplit, Builder.updWrap, Builder.wrapIndex, if_true, true_and,
          Bool.false_and, Bool.not_false, true_or, and_self]
        split <;> rfl
      · simp [h1, h2b, hr, Builder.newEvent, Builder.EnqueEvent]
  · simp [h1]

/-! ## Lookup on the SLAV and stale split events -/

theorem LookupOnSLAVLoop_eq_find (tr : Traits) (s : Builder) (aBorder : Halfedge_handle)
    (aEvent : Event) (l : List Nat) :
    s.LookupOnSLAVLoop tr aBorder aEvent l = l.find? (s.lookupAccepts tr aBorder aEvent) := by
  induction l with
  | nil => rfl
  | cons i rest ih =>
    unfold Builder.LookupOnSLAVLoop
    rw [List.find?_cons]
    by_cases h1 : (handle_assigned (s.GetPrevInLAV (some i))
        && handle_assigned (s.GetNextInLAV (some i))
        && s.GetDefiningBorderA (some i) == aBorder) = true
    · by_cases h2 : tr.IsEventInsideOffsetZone aEvent.border_a aEvent.border_b aBorder
          (s.GetDefiningBorderA (s.GetPrevInLAV (some i))) (s.GetDefiningBorderB (some i)) = true
      · have hA : s.lookupAccepts tr aBorder aEvent i = true := by
          unfold Builder.lookupAccepts
          rw [h1, h2]; rfl
        simp only [h1, h2, hA, if_true]
      · have hA : s.lookupAccepts tr aBorder aEvent i = false := by
          unfold Builder.lookupAccepts
          rw [h1]
          simpa using h2
        simp only [h1, h2, hA, if_true]
        exact ih
    · have hA : s.lookupAccepts tr aBorder aEvent i = false := by
        unfold Builder.lookupAccepts
        have h1b : (handle_assigned (s.GetPrevInLAV (some i))
            && handle_assigned (s.GetNextInLAV (some i))
            && s.GetDefiningBorderA (some i) == aBorder) = false := by simpa using h1
        rw [h1b]; rfl
      simp only [h1, hA]
      exact ih

/-- C9: `LookupOnSLAV(border, ev)` is the first vertex of the shared active-vertex list, in
list order, that has both LAV links assigned, defining border A equal to `border`, and the
event inside the offset zone of `definingBorderA(prev_in_lav(v))` and `definingBorderB(v)`; it
is the null handle exactly when no vertex of the list passes the three conditions. The function
returns a handle only: the builder is not changed. -/
theorem LookupOnSLAV_first (tr : Traits) (s : Builder) (aBorder : Halfedge_handle)
    (aEvent : Event) :
    s.LookupOnSLAV tr aBorder aEvent = s.mSLAV.find? (s.lookupAccepts tr aBorder aEvent)
    ∧ (s.LookupOnSLAV tr aBorder aEvent = none ↔
        ∀ i ∈ s.mSLAV, s.lookupAccepts tr aBorder aEvent i = false) := by
  have h := LookupOnSLAVLoop_eq_find tr s aBorder aEvent s.mSLAV
  unfold Builder.LookupOnSLAV
  refine ⟨h, ?_⟩
  rw [h, List.find?_eq_none]
  simp

/-- The tables of `exSquareQuad`, evaluated: the contour halfedges `j`, their twins `4 + j`,
the bisectors `8 + 2 * j` and `9 + 2 * j`, the wrappers, the points and the counters. -/
theorem exSquareQuad_tables :
    exSquareQuad.mSSkel.halfedgeList = List.range 16
    ∧ (∀ j < 4, exSquareQuad.he (some j)
        = { id := j, opposite := some (4 + j), next := some (8 + 2 * j),
            prev := some (9 + 2 * ((j + 3) % 4)), face := some j, vertex := some j })
    ∧ (∀ j < 4, exSquareQuad.he (some (4 + j))
        = { id := 4 + j, opposite := some j, next := some (4 + (j + 3) % 4),
            prev := some (4 + (j + 1) % 4), face := none, vertex := some ((j + 3) % 4) })
    ∧ (∀ j < 4, exSquareQuad.he (some (8 + 2 * j))
        = { id := 8 + 2 * j, opposite := some (9 + 2 * j), next := none, prev := some j,
            face := some j, vertex := none })
    ∧ (∀ j < 4, exSquareQuad.he (some (9 + 2 * j))
        = { id := 9 + 2 * j, opposite := some (8 + 2 * j), next := some ((j + 1) % 4),
            prev := none, face := some ((j + 1) % 4), vertex := some j })
    ∧ (∀ k < 4, exSquareQuad.mWrappedVertices k
        = { vertex := some k, mPrevInLAV := some ((k + 3) % 4),
            mNextInLAV := some ((k + 1) % 4), mIsReflex := false, mIsProcessed := false,
            mIsExcluded := false, mDefiningBorderA := some k,
            mDefiningBorderB := some ((k + 1) % 4), mDefiningBorderC := none,
            mReflexSplits := [] })
    ∧ (∀ f < 4, (exSquareQuad.fc (some f)).halfedge = some f)
    ∧ (List.range 4).map (fun i => (exSquareQuad.vtx (some i)).point)
        = [⟨0, 0⟩, ⟨1, 0⟩, ⟨1, 1⟩, ⟨0, 1⟩]
    ∧ (List.range 4).map (fun i => (exSquareQuad.vtx (some i)).halfedge)
        = [some 0, some 1, some 2, some 3]
    ∧ exSquareQuad.mSLAV = [0, 1, 2, 3]
    ∧ exSquareQuad.mSSkel.vertexNext = 4 ∧ exSquareQuad.mSSkel.halfedgeNext = 16
    ∧ exSquareQuad.mVertexID = 4 ∧ exSquareQuad.mWrappedCount = 4
    ∧ exSquareQuad.mEdgeID = 16 := by
  refine ⟨?_, ?_, ?_, ?_, ?_, ?_, ?_, ?_, ?_, ?_, ?_, ?_, ?_, ?_, ?_⟩ <;>
    with_unfolding_all decide

/-- The active vertices of `exSquareConsumed` and their borders A: none of them is the contour
edge 2, the opposite border of its split event. -/
theorem exSquareConsumed_active :
    exSquareConsumed.mSLAV = [0, 3, 4]
    ∧ exSquareConsumed.mSLAV.map (fun i => exSquareConsumed.GetDefiningBorderA (some i))
        = [some 0, some 3, some 1]
    ∧ (exSquareConsumed.ev (some 0)).opposite_border = some 2 := by
  refine ⟨?_, ?_, ?_⟩ <;> with_unfolding_all decide

/-- C10: when `LookupOnSLAV` finds no vertex for the opposite border of the split event,
`HandlePotentialSplitEvent` returns the builder it was given: half-edge graph, LAV links, flags,
split nodes, dangling bisectors, event store and priority queue are all unchanged. -/
theorem HandlePotentialSplitEvent_stale (tr : Traits) (s : Builder) (aEvent : EventPtr)
    (h : s.LookupOnSLAV tr (s.ev aEvent).opposite_border (s.ev aEvent) = none) :
    s.HandlePotentialSplitEvent tr aEvent = s := by
  unfold Builder.HandlePotentialSplitEvent
  simp [h, handle_assigned]

theorem HandlePotentialSplitEvent_stale_witness :
    ((exQuadSplit.ev (some 0)).type = EventType.cSplitEvent
      ∧ exQuadSplit.LookupOnSLAV exZoneTraits (exQuadSplit.ev (some 0)).opposite_border
          (exQuadSplit.ev (some 0)) = none
      ∧ exQuadSplit.HandlePotentialSplitEvent exZoneTraits (some 0) = exQuadSplit)
    ∧ ((exSquareConsumed.ev (some 0)).type = EventType.cSplitEvent
      ∧ exSquareConsumed.LookupOnSLAV exSquareTraits
          (exSquareConsumed.ev (some 0)).opposite_border (exSquareConsumed.ev (some 0)) = none
      ∧ exSquareConsumed.HandlePotentialSplitEvent exSquareTraits (some 0)
          = exSquareConsumed) :=
  ⟨⟨by decide, by decide,
    HandlePotentialSplitEvent_stale exZoneTraits exQuadSplit (some 0) (by decide)⟩,
   ⟨by with_unfolding_all decide, by with_unfolding_all decide,
    HandlePotentialSplitEvent_stale exSquareTraits exSquareConsumed (some 0)
      (by with_unfolding_all decide)⟩⟩

/-! ## Vertex-event search -/

theorem Event.triedge_of_core {e f : Event} (h : e.core = f.core) : e.triedge = f.triedge := by
  have h1 : e.core.triedge = f.core.triedge := by rw [h]
  exact h1

theorem Event.seed0_of_core {e f : Event} (h : e.core = f.core) : e.seed0 = f.seed0 := by
  have h1 : e.core.seed0 = f.core.seed0 := by rw [h]
  exact h1

theorem Event.time_of_core {e f : Event} (h : e.core = f.core) : e.time = f.time := by
  have h1 : e.core.time = f.core.time := by rw [h]
  exact h1

theorem Event.point_of_core {e f : Event} (h : e.core = f.core) : e.point = f.point := by
  have h1 : e.core.point = f.core.point := by rw [h]
  exact h1

theorem ScanInv.scanRefl (s : Builder) : ScanInv s s :=
  ⟨le_refl _, fun _ _ => rfl, fun _ _ h => h⟩

theorem ExcludeEvent_core (s : Builder) (e : EventPtr) (k : Nat) :
    ((s.ExcludeEvent e).mEvents k).core = (s.mEvents k).core := by
  unfold Builder.ExcludeEvent Builder.updEvent
  dsimp only
  split <;> rfl

theorem ExcludeEvent_excluded (s : Builder) (e : EventPtr) (k : Nat) :
    ((s.ExcludeEvent e).mEvents k).excluded = (decide (e = some k) || (s.mEvents k).excluded) := by
  unfold Builder.ExcludeEvent Builder.updEvent
  dsimp only
  split
  · rename_i h; simp [h]
  · rename_i h; simp [h]

theorem ExcludeEvent_other (s : Builder) (e : EventPtr) (k : Nat) (h : e ≠ some k) :
    (s.ExcludeEvent e).mEvents k = s.mEvents k := by
  unfold Builder.ExcludeEvent Builder.updEvent
  dsimp only
  rw [if_neg h]

/-- The step of the scan, with its two tests named. -/
theorem FindVertexEventStep_eq (tr : Traits) (aE0 : EventPtr) (st : Builder) (r : EventPtr)
    (i : Nat) :
    Builder.FindVertexEventStep tr aE0 (st, r) i =
      if st.scanFires tr st aE0 i = true then
        if ((st.ExcludeEvent aE0).ExcludeEvent (some i)).scanConfirms tr aE0 i = true then
          ((((st.ExcludeEvent aE0).ExcludeEvent (some i)).newEvent
              { ((st.ExcludeEvent aE0).ExcludeEvent (some i)).vertexEventOf tr aE0 i with
                time := 0, point := default }).1.SetTimeAndPoint
              (some st.mEventCount)
              ((((st.ExcludeEvent aE0).ExcludeEvent (some i)).newEvent
                { ((st.ExcludeEvent aE0).ExcludeEvent (some i)).vertexEventOf tr aE0 i with
                  time := 0, point := default }).1.ev aE0).time
              ((((st.ExcludeEvent aE0).ExcludeEvent (some i)).newEvent
                { ((st.ExcludeEvent aE0).ExcludeEvent (some i)).vertexEventOf tr aE0 i with
                  time := 0, point := default }).1.ev aE0).point,
           some st.mEventCount)
        else ((st.ExcludeEvent aE0).ExcludeEvent (some i), r)
      else (st, r) := rfl

theorem newEvent_SetTimeAndPoint_mEvents (s2 : Builder) (E : Event) (t : FT) (p : Point_2)
    (k : Nat) :
    ((s2.newEvent E).1.SetTimeAndPoint (some s2.mEventCount) t p).mEvents k
      = if k = s2.mEventCount then { E with time := t, point := p } else s2.mEvents k := by
  unfold Builder.newEvent Builder.SetTimeAndPoint Builder.updEvent
  dsimp only
  by_cases h : k = s2.mEventCount
  · subst h; simp
  · have h2 : ¬ (some s2.mEventCount = some k) := by
      intro hh; exact h (Option.some.inj hh).symm
    simp [h, h2]

theorem newEvent_ev_of_ne (s2 : Builder) (E : Event) (k : Nat) (h : k ≠ s2.mEventCount) :
    (s2.newEvent E).1.ev (some k) = s2.mEvents k := by
  unfold Builder.newEvent Builder.ev
  dsimp only
  rw [if_neg h]

/-- One step of the scan, on a store that still holds the events of `s`. -/
theorem FindVertexEventStep_spec (tr : Traits) (s st : Builder) (k0 i : Nat) (r : EventPtr)
    (hinv : ScanInv s st) (hk0 : k0 < s.mEventCount) (hi : i < s.mEventCount) :
    ScanInv s (Builder.FindVertexEventStep tr (some k0) (st, r) i).1
    ∧ (Builder.FindVertexEventStep tr (some k0) (st, r) i).2
        = (if s.vertexEventMatch tr st (some k0) i = true then some st.mEventCount else r)
    ∧ (∀ k, k < s.mEventCount →
        ((Builder.FindVertexEventStep tr (some k0) (st, r) i).1.mEvents k).excluded
          = ((s.scanFires tr st (some k0) i && (decide (k = k0) || decide (k = i)))
              || (st.mEvents k).excluded))
    ∧ (s.vertexEventMatch tr st (some k0) i = true →
        (Builder.FindVertexEventStep tr (some k0) (st, r) i).1.mEvents st.mEventCount
            = s.vertexEventOf tr (some k0) i
        ∧ (Builder.FindVertexEventStep tr (some k0) (st, r) i).1.mEventCount
            = st.mEventCount + 1)
    ∧ (∀ k, s.mEventCount ≤ k → k ≠ st.mEventCount →
        (Builder.FindVertexEventStep tr (some k0) (st, r) i).1.mEvents k = st.mEvents k)
    ∧ st.mEventCount ≤ (Builder.FindVertexEventStep tr (some k0) (st, r) i).1.mEventCount
    ∧ (s.scanFires tr st (some k0) i = false →
        (Builder.FindVertexEventStep tr (some k0) (st, r) i).1 = st) := by
  have hc0 := hinv.core_eq k0 hk0
  have hci := hinv.core_eq i hi
  have ht0 : (st.mEvents k0).triedge = (s.mEvents k0).triedge := Event.triedge_of_core hc0
  have hti : (st.mEvents i).triedge = (s.mEvents i).triedge := Event.triedge_of_core hci
  have hle := hinv.count_le
  -- the two tests, read in the running state, are the tests on the events of `s`
  have hF : st.scanFires tr st (some k0) i = s.scanFires tr st (some k0) i := by
    unfold Builder.scanFires
    simp only [Builder.ev, ht0, hti]
  have hx0 : (((st.ExcludeEvent (some k0)).ExcludeEvent (some i)).mEvents k0).core
      = (s.mEvents k0).core := by
    rw [ExcludeEvent_core, ExcludeEvent_core, hc0]
  have hxi : (((st.ExcludeEvent (some k0)).ExcludeEvent (some i)).mEvents i).core
      = (s.mEvents i).core := by
    rw [ExcludeEvent_core, ExcludeEvent_core, hci]
  have hC : ((st.ExcludeEvent (some k0)).ExcludeEvent (some i)).scanConfirms tr (some k0) i
      = s.scanConfirms tr (some k0) i := by
    unfold Builder.scanConfirms
    simp only [Builder.ev, Event.triedge_of_core hx0, Event.triedge_of_core hxi]
  have hV : ((st.ExcludeEvent (some k0)).ExcludeEvent (some i)).vertexEventOf tr (some k0) i
      = s.vertexEventOf tr (some k0) i := by
    unfold Builder.vertexEventOf
    simp only [Builder.ev, Event.triedge_of_core hx0, Event.triedge_of_core hxi,
      Event.seed0_of_core hx0, Event.seed0_of_core hxi, Event.time_of_core hx0,
      Event.point_of_core hx0]
  rw [FindVertexEventStep_eq, hF, hC, hV]
  obtain ⟨s2, hs2⟩ : ∃ s2, s2 = (st.ExcludeEvent (some k0)).ExcludeEvent (some i) := ⟨_, rfl⟩
  have hcnt : s2.mEventCount = st.mEventCount := by rw [hs2]; rfl
  have hcore2 : ∀ k, (s2.mEvents k).core = (st.mEvents k).core := by
    intro k; rw [hs2, ExcludeEvent_core, ExcludeEvent_core]
  have hexc2 : ∀ k, (s2.mEvents k).excluded
      = ((decide (k = k0) || decide (k = i)) || (st.mEvents k).excluded) := by
    intro k
    rw [hs2, ExcludeEvent_excluded, ExcludeEvent_excluded]
    have e1 : (some k0 = some k) = (k = k0) := by
      apply propext; constructor
      · intro h; exact (Option.some.inj h).symm
      · intro h; rw [h]
    have e2 : (some i = some k) = (k = i) := by
      apply propext; constructor
      · intro h; exact (Option.some.inj h).symm
      · intro h; rw [h]
    simp only [e1, e2]
    cases decide (k = k0) <;> cases decide (k = i) <;> cases (st.mEvents k).excluded <;> rfl
  have hoth2 : ∀ k, s.mEventCount ≤ k → s2.mEvents k = st.mEvents k := by
    intro k hk
    rw [hs2, ExcludeEvent_other, ExcludeEvent_other]
    · intro hh; have := Option.some.inj hh; omega
    · intro hh; have := Option.some.inj hh; omega
  have hinv2 : ScanInv s s2 := by
    refine ⟨by rw [hcnt]; exact hle, ?_, ?_⟩
    · intro k hk; rw [hcore2, hinv.core_eq k hk]
    · intro k hk hex
      rw [hexc2, hinv.mono k hk hex]; simp
  rw [← hs2]
  by_cases hf : s.scanFires tr st (some k0) i = true
  · by_cases hcf : s.scanConfirms tr (some k0) i = true
    · have hm : s.vertexEventMatch tr st (some k0) i = true := by
        unfold Builder.vertexEventMatch; rw [hf, hcf]; rfl
      simp only [hf, hcf, hm, if_true]
      rw [← hcnt]
      have hk0ne : k0 ≠ s2.mEventCount := by omega
      rw [newEvent_ev_of_ne _ _ _ hk0ne]
      have hT : (s2.mEvents k0).time = (s.mEvents k0).time :=
        Event.time_of_core ((hcore2 k0).trans hc0)
      have hP : (s2.mEvents k0).point = (s.mEvents k0).point :=
        Event.point_of_core ((hcore2 k0).trans hc0)
      refine ⟨⟨?_, ?_, ?_⟩, trivial, ?_, ?_, ?_, ?_, ?_⟩
      · show s.mEventCount ≤ s2.mEventCount + 1
        omega
      · intro k hk
        rw [newEvent_SetTimeAndPoint_mEvents, if_neg (by omega)]
        exact hinv2.core_eq k hk
      · intro k hk hex
        rw [newEvent_SetTimeAndPoint_mEvents, if_neg (by omega)]
        exact hinv2.mono k hk hex
      · intro k hk
        rw [newEvent_SetTimeAndPoint_mEvents, if_neg (by omega), hexc2]
        simp
      · intro _
        refine ⟨?_, rfl⟩
        rw [newEvent_SetTimeAndPoint_mEvents, if_pos rfl, hT, hP]
        rfl
      · intro k hk hne
        rw [newEvent_SetTimeAndPoint_mEvents, if_neg hne]
        exact hoth2 k hk
      · show s2.mEventCount ≤ s2.mEventCount + 1
        omega
      · intro h; cases h
    · have hcf2 : s.scanConfirms tr (some k0) i = false := by simpa using hcf
      have hm : s.vertexEventMatch tr st (some k0) i = false := by
        unfold Builder.vertexEventMatch; rw [hf, hcf2]; rfl
      simp only [hf, hcf2, hm, if_true, Bool.false_eq_true, if_false]
      refine ⟨hinv2, trivial, ?_, ?_, ?_, ?_, ?_⟩
      · intro k _
        rw [hexc2]; simp
      · intro h; cases h
      · intro k hk _
        exact hoth2 k hk
      · rw [hcnt]
      · intro h; cases h
  · have hf2 : s.scanFires tr st (some k0) i = false := by simpa using hf
    have hm : s.vertexEventMatch tr st (some k0) i = false := by
      unfold Builder.vertexEventMatch; rw [hf2]; rfl
    simp only [hf2, hm, Bool.false_eq_true, if_false]
    refine ⟨hinv, trivial, ?_, ?_, ?_, ?_, ?_⟩
    · intro k _; simp
    · intro h; cases h
    · intro k _ _; trivial
    · exact le_refl _
    · trivial

theorem exists_split_snoc {α : Type} (Q : List α → α → Prop) (l : List α) (i : α) :
    (∃ pre j post, l ++ [i] = pre ++ j :: post ∧ Q pre j) ↔
      (Q l i ∨ ∃ pre j post, l = pre ++ j :: post ∧ Q pre j) := by
  constructor
  · rintro ⟨pre, j, post, h, hq⟩
    rcases List.eq_nil_or_concat post with rfl | ⟨post', x, rfl⟩
    · obtain ⟨h1, h2⟩ := List.append_inj' h rfl
      left
      cases h2
      rw [h1]; exact hq
    · right
      rw [List.concat_eq_append, ← List.cons_append, ← List.append_assoc] at h
      obtain ⟨h1, _⟩ := List.append_inj' h rfl
      exact ⟨pre, j, post', h1, hq⟩
  · rintro (hq | ⟨pre, j, post, h, hq⟩)
    · exact ⟨l, i, [], rfl, hq⟩
    · exact ⟨pre, j, post ++ [i], by rw [h]; simp, hq⟩

theorem scanned_snoc (tr : Traits) (st : Builder) (aE0 : EventPtr) (l : List Nat) (i : Nat) :
    st.scanned tr aE0 (l ++ [i])
        = (Builder.FindVertexEventStep tr aE0
            (st.scanned tr aE0 l, st.scanResult tr aE0 l) i).1
    ∧ st.scanResult tr aE0 (l ++ [i])
        = (Builder.FindVertexEventStep tr aE0
            (st.scanned tr aE0 l, st.scanResult tr aE0 l) i).2 := by
  unfold Builder.scanned Builder.scanResult
  rw [List.foldl_append]
  exact ⟨rfl, rfl⟩

/-- The scan of a list of reflex splits, entered in a state `st` that still holds the events of
`s`: what it returns, which event it builds, and which flags it sets. -/
theorem FindVertexEvent_scan (tr : Traits) (s st : Builder) (k0 : Nat)
    (hinv : ScanInv s st) (hk0 : k0 < s.mEventCount) (l : List Nat)
    (hl : ∀ i ∈ l, i < s.mEventCount) :
    ScanInv s (st.scanned tr (some k0) l)
    ∧ st.mEventCount ≤ (st.scanned tr (some k0) l).mEventCount
    ∧ (st.scanResult tr (some k0) l ≠ none ↔
        ∃ pre i post, l = pre ++ i :: post
          ∧ s.vertexEventMatch tr (st.scanned tr (some k0) pre) (some k0) i = true)
    ∧ (∀ ve, st.scanResult tr (some k0) l = some ve →
        st.mEventCount ≤ ve ∧ ve < (st.scanned tr (some k0) l).mEventCount
        ∧ ∃ pre i post, l = pre ++ i :: post
          ∧ s.vertexEventMatch tr (st.scanned tr (some k0) pre) (some k0) i = true
          ∧ (st.scanned tr (some k0) l).mEvents ve = s.vertexEventOf tr (some k0) i
          ∧ ((st.scanned tr (some k0) l).mEvents k0).excluded = true
          ∧ ((st.scanned tr (some k0) l).mEvents i).excluded = true)
    ∧ (∀ k, k < s.mEventCount → ((st.scanned tr (some k0) l).mEvents k).excluded = true →
        (st.mEvents k).excluded = true
        ∨ ∃ pre j post, l = pre ++ j :: post
          ∧ s.scanFires tr (st.scanned tr (some k0) pre) (some k0) j = true
          ∧ (k = k0 ∨ k = j)) := by
  induction l using List.reverseRecOn with
  | nil =>
    refine ⟨hinv, le_refl _, ?_, ?_, ?_⟩
    · constructor
      · intro h; exact absurd rfl h
      · rintro ⟨pre, i, post, h, _⟩
        cases pre <;> cases h
    · intro ve h; cases h
    · intro k _ h; exact Or.inl h
  | append_singleton l i ih =>
    have hl2 : ∀ j ∈ l, j < s.mEventCount := fun j hj => hl j (List.mem_append_left _ hj)
    have hi : i < s.mEventCount := hl i (by simp)
    obtain ⟨ihinv, ihcnt, ihres, ihve, ihex⟩ := ih hl2
    obtain ⟨e1, e2⟩ := scanned_snoc tr st (some k0) l i
    obtain ⟨p1, p2, p3, p4, p5, p6, _⟩ :=
      FindVertexEventStep_spec tr s (st.scanned tr (some k0) l) k0 i
        (st.scanResult tr (some k0) l) ihinv hk0 hi
    rw [← e1] at p1 p3 p4 p5 p6
    rw [← e2] at p2
    refine ⟨p1, le_trans ihcnt p6, ?_, ?_, ?_⟩
    · rw [exists_split_snoc
        (fun pre j => s.vertexEventMatch tr (st.scanned tr (some k0) pre) (some k0) j = true),
        ← ihres, p2]
      by_cases hm : s.vertexEventMatch tr (st.scanned tr (some k0) l) (some k0) i = true
      · simp [hm]
      · simp [hm]
    · intro ve hve
      rw [p2] at hve
      by_cases hm : s.vertexEventMatch tr (st.scanned tr (some k0) l) (some k0) i = true
      · rw [if_pos hm] at hve
        have hve2 : (st.scanned tr (some k0) l).mEventCount = ve := Option.some.inj hve
        obtain ⟨q1, q2⟩ := p4 hm
        have hfire : s.scanFires tr (st.scanned tr (some k0) l) (some k0) i = true := by
          unfold Builder.vertexEventMatch at hm
          simp only [Bool.and_eq_true] at hm
          exact hm.1
        refine ⟨by omega, by omega, l, i, [], rfl, hm, ?_, ?_, ?_⟩
        · rw [← hve2]; exact q1
        · rw [p3 k0 hk0, hfire]; simp
        · rw [p3 i hi, hfire]; simp
      · rw [if_neg hm] at hve
        obtain ⟨r1, r2, pre, j, post, h1, h2, h3, h4, h5⟩ := ihve ve hve
        have hj : j < s.mEventCount := hl2 j (by rw [h1]; simp)
        refine ⟨r1, by omega, pre, j, post ++ [i], by rw [h1]; simp, h2, ?_, ?_, ?_⟩
        · rw [p5 ve (le_trans hinv.count_le r1) (by omega)]; exact h3
        · rw [p3 k0 hk0, h4]; simp
        · rw [p3 j hj, h5]; simp
    · intro k hk hex
      rw [p3 k hk] at hex
      rw [exists_split_snoc
        (fun pre j => s.scanFires tr (st.scanned tr (some k0) pre) (some k0) j = true
          ∧ (k = k0 ∨ k = j))]
      simp only [Bool.or_eq_true, Bool.and_eq_true, decide_eq_true_eq] at hex
      rcases hex with ⟨hf, hk2⟩ | hold
      · exact Or.inr (Or.inl ⟨hf, hk2⟩)
      · rcases ihex k hk hold with h | h
        · exact Or.inl h
        · exact Or.inr (Or.inr h)

theorem FindVertexEventStep_quiet (tr : Traits) (aE0 : EventPtr) (st : Builder) (r : EventPtr)
    (i : Nat) (h : st.scanFires tr st aE0 i = false) :
    Builder.FindVertexEventStep tr aE0 (st, r) i = (st, r) := by
  rw [FindVertexEventStep_eq, h]
  rfl

theorem FindVertexEvent_scan_quiet (tr : Traits) (st : Builder) (aE0 : EventPtr) (l : List Nat)
    (h : ∀ i ∈ l, st.scanFires tr st aE0 i = false) :
    l.foldl (Builder.FindVertexEventStep tr aE0) (st, none) = (st, none) := by
  induction l with
  | nil => rfl
  | cons i rest ih =>
    rw [List.foldl_cons, FindVertexEventStep_quiet tr aE0 st none i (h i (by simp))]
    exact ih (fun j hj => h j (List.mem_cons_of_mem _ hj))

theorem FindVertexEventStep_frame (tr : Traits) (aE0 : EventPtr) (acc : Builder × EventPtr)
    (i : Nat) :
    (Builder.FindVertexEventStep tr aE0 acc i).1.mSSkel = acc.1.mSSkel
    ∧ (Builder.FindVertexEventStep tr aE0 acc i).1.mWrappedVertices = acc.1.mWrappedVertices := by
  obtain ⟨st, r⟩ := acc
  rw [FindVertexEventStep_eq]
  split
  · split
    · exact ⟨rfl, rfl⟩
    · exact ⟨rfl, rfl⟩
  · exact ⟨rfl, rfl⟩

theorem scanned_frame (tr : Traits) (st : Builder) (aE0 : EventPtr) (l : List Nat) :
    (st.scanned tr aE0 l).mSSkel = st.mSSkel
    ∧ (st.scanned tr aE0 l).mWrappedVertices = st.mWrappedVertices := by
  induction l using List.reverseRecOn with
  | nil => exact ⟨rfl, rfl⟩
  | append_singleton l i ih =>
    rw [(scanned_snoc tr st aE0 l i).1]
    obtain ⟨h1, h2⟩ := FindVertexEventStep_frame tr aE0
      (st.scanned tr aE0 l, st.scanResult tr aE0 l) i
    exact ⟨h1.trans ih.1, h2.trans ih.2⟩

theorem Builder.vertex_congr {s t : Builder} (h : t.mSSkel = s.mSSkel) (x : Halfedge_handle) :
    t.vertex x = s.vertex x := by
  unfold Builder.vertex Builder.he; rw [h]

theorem Builder.opposite_congr {s t : Builder} (h : t.mSSkel = s.mSSkel) (x : Halfedge_handle) :
    t.opposite x = s.opposite x := by
  unfold Builder.opposite Builder.he; rw [h]

theorem Builder.wrap_congr {s t : Builder} (h : t.mSSkel = s.mSSkel)
    (hw : t.mWrappedVertices = s.mWrappedVertices) (v : Vertex_handle) :
    t.wrap v = s.wrap v := by
  unfold Builder.wrap; rw [h, hw]

/-- The two scans of `FindVertexEvent(aE0)`, with the reads of the second made in the entry
state. -/
theorem FindVertexEvent_eq (tr : Traits) (s : Builder) (aE0 : EventPtr) :
    s.FindVertexEvent tr aE0 =
      if (if s.IsReflex (s.vertex (s.ev aE0).opposite_border) = true then
            s.scanResult tr aE0 (s.GetReflexSplits (s.vertex (s.ev aE0).opposite_border))
          else none) = none then
        if s.IsReflex (s.vertex (s.opposite (s.ev aE0).opposite_border)) = true then
          ((s.targetScanned tr aE0).scanned tr aE0
              (s.GetReflexSplits (s.vertex (s.opposite (s.ev aE0).opposite_border))),
           (s.targetScanned tr aE0).scanResult tr aE0
              (s.GetReflexSplits (s.vertex (s.opposite (s.ev aE0).opposite_border))))
        else (s.targetScanned tr aE0, none)
      else (s.targetScanned tr aE0,
            s.scanResult tr aE0 (s.GetReflexSplits (s.vertex (s.ev aE0).opposite_border))) := by
  have hfr : (s.targetScanned tr aE0).mSSkel = s.mSSkel
      ∧ (s.targetScanned tr aE0).mWrappedVertices = s.mWrappedVertices := by
    unfold Builder.targetScanned
    split
    · exact scanned_frame tr s aE0 _
    · exact ⟨rfl, rfl⟩
  have hv : ∀ x, (s.targetScanned tr aE0).vertex x = s.vertex x :=
    Builder.vertex_congr hfr.1
  have ho : ∀ x, (s.targetScanned tr aE0).opposite x = s.opposite x :=
    Builder.opposite_congr hfr.1
  have hw : ∀ v, (s.targetScanned tr aE0).wrap v = s.wrap v :=
    Builder.wrap_congr hfr.1 hfr.2
  have hR : ∀ v, (s.targetScanned tr aE0).IsReflex v = s.IsReflex v := by
    intro v; unfold Builder.IsReflex; rw [hw]
  have hG : ∀ v, (s.targetScanned tr aE0).GetReflexSplits v = s.GetReflexSplits v := by
    intro v; unfold Builder.GetReflexSplits; rw [hw]
  unfold Builder.FindVertexEvent
  by_cases h1 : s.IsReflex (s.vertex (s.ev aE0).opposite_border) = true
  · have hT : s.targetScanned tr aE0
        = s.scanned tr aE0 (s.GetReflexSplits (s.vertex (s.ev aE0).opposite_border)) := by
      unfold Builder.targetScanned; rw [if_pos h1]
    have hA : s.FindVertexEventAt tr aE0 (s.vertex (s.ev aE0).opposite_border)
        = (s.targetScanned tr aE0,
           s.scanResult tr aE0 (s.GetReflexSplits (s.vertex (s.ev aE0).opposite_border))) := by
      rw [hT]; rfl
    simp only [h1, if_true, hA]
    by_cases h2 : s.scanResult tr aE0
        (s.GetReflexSplits (s.vertex (s.ev aE0).opposite_border)) = none
    · simp only [h2, if_true, hv, ho, hR]
      split
      · unfold Builder.FindVertexEventAt
        rw [hG]; rfl
      · rfl
    · simp only [h2, if_false]
  · have hT : s.targetScanned tr aE0 = s := by
      unfold Builder.targetScanned; rw [if_neg h1]
    rw [hT]
    simp only [h1, if_true, Bool.false_eq_true, if_false]
    split
    · rfl
    · rfl

theorem targetScanned_eq (tr : Traits) (s : Builder) (aE0 : EventPtr) :
    s.targetScanned tr aE0 = s.scanned tr aE0 (s.targetSplits aE0) := by
  unfold Builder.targetScanned Builder.targetSplits
  split
  · rfl
  · rfl

/-- The function `FindVertexEvent(aE0)` as two scans: the reflex splits of the target vertex,
then, when these have left no result, those of the source vertex. -/
theorem FindVertexEvent_eq_scans (tr : Traits) (s : Builder) (aE0 : EventPtr) :
    s.FindVertexEvent tr aE0 =
      if s.scanResult tr aE0 (s.targetSplits aE0) = none then
        ((s.targetScanned tr aE0).scanned tr aE0 (s.sourceSplits aE0),
         (s.targetScanned tr aE0).scanResult tr aE0 (s.sourceSplits aE0))
      else (s.targetScanned tr aE0, s.scanResult tr aE0 (s.targetSplits aE0)) := by
  rw [FindVertexEvent_eq]
  unfold Builder.targetSplits Builder.sourceSplits
  by_cases h1 : s.IsReflex (s.vertex (s.ev aE0).opposite_border) = true
  · by_cases h2 : s.IsReflex (s.vertex (s.opposite (s.ev aE0).opposite_border)) = true
    · simp only [h1, h2, if_true]
    · simp only [h1, h2, if_true, Bool.false_eq_true, if_false]
      rfl
  · by_cases h2 : s.IsReflex (s.vertex (s.opposite (s.ev aE0).opposite_border)) = true
    · simp only [h1, h2, if_true, Bool.false_eq_true, if_false]
      rfl
    · simp only [h1, h2, if_true, Bool.false_eq_true, if_false]
      rfl

theorem yieldsAt_target_iff (tr : Traits) (s st : Builder) (aE0 : EventPtr) :
    s.yieldsAt tr st aE0 (s.vertex (s.ev aE0).opposite_border) ↔
      ∃ pre i post, s.targetSplits aE0 = pre ++ i :: post
        ∧ s.vertexEventMatch tr (st.scanned tr aE0 pre) aE0 i = true := by
  unfold Builder.yieldsAt Builder.targetSplits
  by_cases h1 : s.IsReflex (s.vertex (s.ev aE0).opposite_border) = true
  · simp only [h1, if_true, true_and]
  · simp only [h1, if_false, false_and, Bool.false_eq_true, false_iff]
    rintro ⟨pre, i, post, h, _⟩
    cases pre <;> cases h

theorem yieldsAt_source_iff (tr : Traits) (s st : Builder) (aE0 : EventPtr) :
    s.yieldsAt tr st aE0 (s.vertex (s.opposite (s.ev aE0).opposite_border)) ↔
      ∃ pre i post, s.sourceSplits aE0 = pre ++ i :: post
        ∧ s.vertexEventMatch tr (st.scanned tr aE0 pre) aE0 i = true := by
  unfold Builder.yieldsAt Builder.sourceSplits
  by_cases h1 : s.IsReflex (s.vertex (s.opposite (s.ev aE0).opposite_border)) = true
  · simp only [h1, if_true, true_and]
  · simp only [h1, if_false, false_and, Bool.false_eq_true, false_iff]
    rintro ⟨pre, i, post, h, _⟩
    cases pre <;> cases h

/-- C7: for a popped split event `E0` (event `k0` of the store, the scanned reflex splits being
events of the store), `FindVertexEvent(E0)` returns an event exactly when the target vertex of
the opposite border yields one, or the target yields none and the source vertex yields one; an
endpoint yields one when it is reflex and its reflex splits hold an event `E1` that is not
excluded when scanned, is simultaneous with `E0` and passes the two `ExistEvent` tests on the
borders sorted by `SortTwoDistinctAndTwoEqual`. The event returned is built from `E0` and such
an `E1` of the yielding endpoint: the sorted borders, the seeds of `E0` and `E1`, the time and
point of `E0`. -/
theorem FindVertexEvent_iff (tr : Traits) (s : Builder) (k0 : Nat)
    (hk0 : k0 < s.mEventCount)
    (hl : ∀ i ∈ s.scannedSplits (some k0), i < s.mEventCount) :
    ((s.FindVertexEvent tr (some k0)).2 ≠ none ↔
        s.yieldsAt tr s (some k0) (s.vertex (s.ev (some k0)).opposite_border)
        ∨ (¬ s.yieldsAt tr s (some k0) (s.vertex (s.ev (some k0)).opposite_border)
            ∧ s.yieldsAt tr (s.targetScanned tr (some k0)) (some k0)
                (s.vertex (s.opposite (s.ev (some k0)).opposite_border))))
    ∧ (∀ ve, (s.FindVertexEvent tr (some k0)).2 = some ve →
        (s.IsReflex (s.vertex (s.ev (some k0)).opposite_border) = true
          ∧ ∃ pre i post,
              s.GetReflexSplits (s.vertex (s.ev (some k0)).opposite_border) = pre ++ i :: post
              ∧ s.vertexEventMatch tr (s.scanned tr (some k0) pre) (some k0) i = true
              ∧ (s.FindVertexEvent tr (some k0)).1.mEvents ve = s.vertexEventOf tr (some k0) i)
        ∨ (¬ s.yieldsAt tr s (some k0) (s.vertex (s.ev (some k0)).opposite_border)
          ∧ s.IsReflex (s.vertex (s.opposite (s.ev (some k0)).opposite_border)) = true
          ∧ ∃ pre i post,
              s.GetReflexSplits (s.vertex (s.opposite (s.ev (some k0)).opposite_border))
                = pre ++ i :: post
              ∧ s.vertexEventMatch tr ((s.targetScanned tr (some k0)).scanned tr (some k0) pre)
                  (some k0) i = true
              ∧ (s.FindVertexEvent tr (some k0)).1.mEvents ve
                  = s.vertexEventOf tr (some k0) i)) := by
  have hl1 : ∀ i ∈ s.targetSplits (some k0), i < s.mEventCount :=
    fun i hi => hl i (List.mem_append_left _ hi)
  have hl2 : ∀ i ∈ s.sourceSplits (some k0), i < s.mEventCount :=
    fun i hi => hl i (List.mem_append_right _ hi)
  obtain ⟨a1, _, a3, a4, _⟩ :=
    FindVertexEvent_scan tr s s k0 (ScanInv.scanRefl s) hk0 (s.targetSplits (some k0)) hl1
  rw [← targetScanned_eq] at a1 a4
  obtain ⟨_, _, b3, b4, _⟩ :=
    FindVertexEvent_scan tr s (s.targetScanned tr (some k0)) k0 a1 hk0
      (s.sourceSplits (some k0)) hl2
  rw [← yieldsAt_target_iff] at a3
  rw [← yieldsAt_source_iff] at b3
  rw [FindVertexEvent_eq_scans]
  by_cases h : s.scanResult tr (some k0) (s.targetSplits (some k0)) = none
  · have hny : ¬ s.yieldsAt tr s (some k0) (s.vertex (s.ev (some k0)).opposite_border) :=
      fun hy => (a3.mpr hy) h
    simp only [h, if_true]
    refine ⟨?_, ?_⟩
    · rw [b3]
      constructor
      · intro hy; exact Or.inr ⟨hny, hy⟩
      · rintro (hy | ⟨_, hy⟩)
        · exact absurd hy hny
        · exact hy
    · intro ve hve
      obtain ⟨_, _, pre, i, post, c1, c2, c3, _, _⟩ := b4 ve hve
      right
      have hr : s.IsReflex (s.vertex (s.opposite (s.ev (some k0)).opposite_border)) = true := by
        by_contra hcon
        unfold Builder.sourceSplits at c1
        rw [if_neg hcon] at c1
        cases pre <;> cases c1
      refine ⟨hny, hr, pre, i, post, ?_, c2, c3⟩
      unfold Builder.sourceSplits at c1
      rw [if_pos hr] at c1
      exact c1
  · have hy : s.yieldsAt tr s (some k0) (s.vertex (s.ev (some k0)).opposite_border) :=
      a3.mp h
    simp only [h, if_false]
    refine ⟨?_, ?_⟩
    · constructor
      · intro _; exact Or.inl hy
      · intro _; exact h
    · intro ve hve
      obtain ⟨_, _, pre, i, post, c1, c2, c3, _, _⟩ := a4 ve hve
      left
      refine ⟨hy.1, pre, i, post, ?_, c2, c3⟩
      unfold Builder.targetSplits at c1
      rw [if_pos hy.1] at c1
      exact c1

theorem FindVertexEvent_iff_witness :
    (0 < exSplit.mEventCount ∧ ∀ i ∈ exSplit.scannedSplits (some 0), i < exSplit.mEventCount)
    ∧ ((exSplit.FindVertexEvent (exTraits true false true) (some 0)).2 ≠ none ↔
        exSplit.yieldsAt (exTraits true false true) exSplit (some 0)
          (exSplit.vertex (exSplit.ev (some 0)).opposite_border)
        ∨ (¬ exSplit.yieldsAt (exTraits true false true) exSplit (some 0)
              (exSplit.vertex (exSplit.ev (some 0)).opposite_border)
            ∧ exSplit.yieldsAt (exTraits true false true)
                (exSplit.targetScanned (exTraits true false true) (some 0)) (some 0)
                (exSplit.vertex (exSplit.opposite (exSplit.ev (some 0)).opposite_border)))) :=
  ⟨⟨by decide, by decide⟩,
   (FindVertexEvent_iff (exTraits true false true) exSplit 0 (by decide) (by decide)).1⟩

theorem scan_fired_entry (tr : Traits) (s st : Builder) (k0 : Nat) (hinv : ScanInv s st)
    (l : List Nat) (hl : ∀ i ∈ l, i < s.mEventCount)
    (pre : List Nat) (j : Nat) (post : List Nat) (h : l = pre ++ j :: post)
    (hf : s.scanFires tr (st.scanned tr (some k0) pre) (some k0) j = true) :
    j ∈ l ∧ ((s.mEvents j).excluded = true → (st.mEvents j).excluded = true)
      ∧ ((st.scanned tr (some k0) pre).mEvents j).excluded = false
      ∧ tr.AreEventsSimultaneous (s.mEvents k0).triedge (s.mEvents j).triedge = true := by
  have hj : j ∈ l := by rw [h]; simp
  have hjlt : j < s.mEventCount := hl j hj
  unfold Builder.scanFires at hf
  simp only [Bool.and_eq_true, Bool.not_eq_true'] at hf
  exact ⟨hj, hinv.mono j hjlt, hf.1, hf.2⟩

/-- C8 (as stated, refuted): with every reflex split simultaneous with event 0, (1) in
`exSquareSplits`, when `ExistEvent` fails, `FindVertexEvent` returns no event and yet the
events 0 and 1 have become excluded; (2) in `exSplit`, when `ExistEvent` holds, the event
returned carries the borders and seed of event 2, and event 1, a third event, has become
excluded as well. -/
theorem FindVertexEvent_excluded_counterexample :
    ((exSquareSplits.FindVertexEvent (exTraits false false true) (some 0)).2 = none
      ∧ (exSquareSplits.mEvents 0).excluded = false
      ∧ (exSquareSplits.mEvents 1).excluded = false
      ∧ ((exSquareSplits.FindVertexEvent (exTraits false false true) (some 0)).1.mEvents
          0).excluded = true
      ∧ ((exSquareSplits.FindVertexEvent (exTraits false false true) (some 0)).1.mEvents
          1).excluded = true)
    ∧ ((exSplit.FindVertexEvent (exTraits true false true) (some 0)).2 = some 4
      ∧ ((exSplit.FindVertexEvent (exTraits true false true) (some 0)).1.mEvents 4).border_c
          = (exSplit.mEvents 2).border_a
      ∧ (exSplit.mEvents 1).border_a ≠ (exSplit.mEvents 2).border_a
      ∧ (exSplit.mEvents 1).excluded = false
      ∧ ((exSplit.FindVertexEvent (exTraits true false true) (some 0)).1.mEvents 1).excluded
          = true) := by
  refine ⟨?_, ?_⟩
  · with_unfolding_all decide
  · decide

/-- C8 (amended): for a popped split event `E0` (event `k0` of the store, the scanned reflex
splits being events of the store), `FindVertexEvent` sets the excluded flag only of `E0` and of
scanned reflex splits that were not excluded on entry and are simultaneous with `E0`, whether or
not a vertex event is emitted, and clears no flag. If no scanned reflex split is both not
excluded and simultaneous with `E0`, the builder is returned unchanged with no event. If an
event is returned, `E0` and the reflex split whose borders and seed it carries are excluded. -/
theorem FindVertexEvent_excluded (tr : Traits) (s : Builder) (k0 : Nat)
    (hk0 : k0 < s.mEventCount)
    (hl : ∀ i ∈ s.scannedSplits (some k0), i < s.mEventCount) :
    (∀ k, k < s.mEventCount →
        ((s.FindVertexEvent tr (some k0)).1.mEvents k).excluded = true →
        (s.mEvents k).excluded = true
        ∨ ∃ j ∈ s.scannedSplits (some k0),
            (s.mEvents j).excluded = false
            ∧ tr.AreEventsSimultaneous (s.mEvents k0).triedge (s.mEvents j).triedge = true
            ∧ (k = k0 ∨ k = j))
    ∧ (∀ k, k < s.mEventCount → (s.mEvents k).excluded = true →
        ((s.FindVertexEvent tr (some k0)).1.mEvents k).excluded = true)
    ∧ ((∀ j ∈ s.scannedSplits (some k0), s.scanFires tr s (some k0) j = false) →
        s.FindVertexEvent tr (some k0) = (s, none))
    ∧ (∀ ve, (s.FindVertexEvent tr (some k0)).2 = some ve →
        ((s.FindVertexEvent tr (some k0)).1.mEvents k0).excluded = true
        ∧ ∃ i ∈ s.scannedSplits (some k0),
            (s.FindVertexEvent tr (some k0)).1.mEvents ve = s.vertexEventOf tr (some k0) i
            ∧ ((s.FindVertexEvent tr (some k0)).1.mEvents i).excluded = true) := by
  have hl1 : ∀ i ∈ s.targetSplits (some k0), i < s.mEventCount :=
    fun i hi => hl i (List.mem_append_left _ hi)
  have hl2 : ∀ i ∈ s.sourceSplits (some k0), i < s.mEventCount :=
    fun i hi => hl i (List.mem_append_right _ hi)
  obtain ⟨a1, _, _, a4, a5⟩ :=
    FindVertexEvent_scan tr s s k0 (ScanInv.scanRefl s) hk0 (s.targetSplits (some k0)) hl1
  rw [← targetScanned_eq] at a1 a4 a5
  obtain ⟨b1, _, _, b4, b5⟩ :=
    FindVertexEvent_scan tr s (s.targetScanned tr (some k0)) k0 a1 hk0
      (s.sourceSplits (some k0)) hl2
  -- flags set during the scan of the target vertex
  have hA : ∀ k, k < s.mEventCount → ((s.targetScanned tr (some k0)).mEvents k).excluded = true →
      (s.mEvents k).excluded = true
      ∨ ∃ j ∈ s.scannedSplits (some k0),
          (s.mEvents j).excluded = false
          ∧ tr.AreEventsSimultaneous (s.mEvents k0).triedge (s.mEvents j).triedge = true
          ∧ (k = k0 ∨ k = j) := by
    intro k hk hex
    rcases a5 k hk hex with h | ⟨pre, j, post, h1, h2, h3⟩
    · exact Or.inl h
    · right
      have hpre : ∀ i ∈ pre, i < s.mEventCount :=
        fun i hi => hl1 i (by rw [h1]; exact List.mem_append_left _ hi)
      obtain ⟨c1, _, _, _, _⟩ :=
        FindVertexEvent_scan tr s s k0 (ScanInv.scanRefl s) hk0 pre hpre
      obtain ⟨d1, _, d3, d4⟩ :=
        scan_fired_entry tr s s k0 (ScanInv.scanRefl s) _ hl1 pre j post h1 h2
      have hjlt : j < s.mEventCount := hl1 j d1
      have hne : (s.mEvents j).excluded = false := by
        cases hje : (s.mEvents j).excluded
        · rfl
        · rw [c1.mono j hjlt hje] at d3; cases d3
      exact ⟨j, List.mem_append_left _ d1, hne, d4, h3⟩
  have hB : ∀ k, k < s.mEventCount →
      (((s.targetScanned tr (some k0)).scanned tr (some k0)
          (s.sourceSplits (some k0))).mEvents k).excluded = true →
      (s.mEvents k).excluded = true
      ∨ ∃ j ∈ s.scannedSplits (some k0),
          (s.mEvents j).excluded = false
          ∧ tr.AreEventsSimultaneous (s.mEvents k0).triedge (s.mEvents j).triedge = true
          ∧ (k = k0 ∨ k = j) := by
    intro k hk hex
    rcases b5 k hk hex with h | ⟨pre, j, post, h1, h2, h3⟩
    · exact hA k hk h
    · right
      have hpre : ∀ i ∈ pre, i < s.mEventCount :=
        fun i hi => hl2 i (by rw [h1]; exact List.mem_append_left _ hi)
      obtain ⟨c1, _, _, _, _⟩ :=
        FindVertexEvent_scan tr s (s.targetScanned tr (some k0)) k0 a1 hk0 pre hpre
      obtain ⟨d1, _, d3, d4⟩ :=
        scan_fired_entry tr s (s.targetScanned tr (some k0)) k0 a1 _ hl2 pre j post h1 h2
      have hjlt : j < s.mEventCount := hl2 j d1
      have hne : (s.mEvents j).excluded = false := by
        cases hje : (s.mEvents j).excluded
        · rfl
        · rw [c1.mono j hjlt hje] at d3; cases d3
      exact ⟨j, List.mem_append_right _ d1, hne, d4, h3⟩
  refine ⟨?_, ?_, ?_, ?_⟩
  · intro k hk hex
    rw [FindVertexEvent_eq_scans] at hex
    by_cases h : s.scanResult tr (some k0) (s.targetSplits (some k0)) = none
    · simp only [h, if_true] at hex
      exact hB k hk hex
    · simp only [h, if_false] at hex
      exact hA k hk hex
  · intro k hk hex
    rw [FindVertexEvent_eq_scans]
    by_cases h : s.scanResult tr (some k0) (s.targetSplits (some k0)) = none
    · simp only [h, if_true]
      exact b1.mono k hk hex
    · simp only [h, if_false]
      exact a1.mono k hk hex
  · intro hq
    have q1 := FindVertexEvent_scan_quiet tr s (some k0) (s.targetSplits (some k0))
      (fun j hj => hq j (List.mem_append_left _ hj))
    have q2 := FindVertexEvent_scan_quiet tr s (some k0) (s.sourceSplits (some k0))
      (fun j hj => hq j (List.mem_append_right _ hj))
    have e1 : s.scanResult tr (some k0) (s.targetSplits (some k0)) = none := by
      unfold Builder.scanResult; rw [q1]
    have e2 : s.targetScanned tr (some k0) = s := by
      rw [targetScanned_eq]; unfold Builder.scanned; rw [q1]
    rw [FindVertexEvent_eq_scans, e1, e2]
    simp only [if_true]
    unfold Builder.scanned Builder.scanResult
    rw [q2]
  · intro ve hve
    rw [FindVertexEvent_eq_scans] at hve ⊢
    by_cases h : s.scanResult tr (some k0) (s.targetSplits (some k0)) = none
    · simp only [h, if_true] at hve ⊢
      obtain ⟨_, _, pre, i, post, c1, _, c3, c4, c5⟩ := b4 ve hve
      exact ⟨c4, i, List.mem_append_right _ (by rw [c1]; simp), c3, c5⟩
    · simp only [h, if_false] at hve ⊢
      obtain ⟨_, _, pre, i, post, c1, _, c3, c4, c5⟩ := a4 ve hve
      exact ⟨c4, i, List.mem_append_left _ (by rw [c1]; simp), c3, c5⟩

theorem FindVertexEvent_excluded_witness :
    (0 < exSplit.mEventCount ∧ ∀ i ∈ exSplit.scannedSplits (some 0), i < exSplit.mEventCount)
    ∧ (∀ k, k < exSplit.mEventCount → (exSplit.mEvents k).excluded = true →
        ((exSplit.FindVertexEvent (exTraits true false true) (some 0)).1.mEvents k).excluded
          = true) :=
  ⟨⟨by decide, by decide⟩,
   (FindVertexEvent_excluded (exTraits true false true) exSplit 0 (by decide) (by decide)).2.1⟩

/-! ## Times of the popped events -/

theorem Traits.timeOf_congr (tr : Traits) {e f : Event} (h : e.triedge = f.triedge) :
    tr.timeOf e = tr.timeOf f := by
  have h0 : e.triedge.e0 = f.triedge.e0 := by rw [h]
  have h1 : e.triedge.e1 = f.triedge.e1 := by rw [h]
  have h2 : e.triedge.e2 = f.triedge.e2 := by rw [h]
  unfold Traits.timeOf
  show tr.EventTime e.triedge.e0 e.triedge.e1 e.triedge.e2
    = tr.EventTime f.triedge.e0 f.triedge.e1 f.triedge.e2
  rw [h0, h1, h2]

theorem QExt.qRefl (tr : Traits) (t : FT) (s : Builder) : QExt tr t s s :=
  ⟨le_refl _, fun _ _ => rfl, fun _ h => Or.inl h⟩

theorem QExt.qTrans {tr : Traits} {t : FT} {s s1 s2 : Builder} (h1 : QExt tr t s s1)
    (h2 : QExt tr t s1 s2) : QExt tr t s s2 := by
  refine ⟨le_trans h1.count_le h2.count_le, ?_, ?_⟩
  · intro k hk
    rw [h2.borders k (lt_of_lt_of_le hk h1.count_le), h1.borders k hk]
  · intro i hi
    rcases h2.queue i hi with h | ⟨a, b, c⟩
    · rcases h1.queue i h with h | ⟨a, b, c⟩
      · exact Or.inl h
      · right
        refine ⟨a, lt_of_lt_of_le b h2.count_le, ?_⟩
        rw [tr.timeOf_congr (h2.borders i b)]
        exact c
    · exact Or.inr ⟨le_trans h1.count_le a, b, c⟩

/-- A function that leaves the event store and the queue alone. -/
theorem QExt.of_same (tr : Traits) (t : FT) {s s' : Builder} (h1 : s'.mEvents = s.mEvents)
    (h2 : s'.mEventCount = s.mEventCount) (h3 : s'.mPQ = s.mPQ) : QExt tr t s s' := by
  refine ⟨by rw [h2], ?_, ?_⟩
  · intro k _; rw [h1]
  · intro i hi; rw [h3] at hi; exact Or.inl hi

theorem VSame.vRefl (s : Builder) : VSame s s := fun _ => ⟨rfl, rfl⟩

theorem VSame.vTrans {s s1 s2 : Builder} (h1 : VSame s s1) (h2 : VSame s1 s2) : VSame s s2 :=
  fun n => ⟨(h2 n).1.trans (h1 n).1, (h2 n).2.trans (h1 n).2⟩

theorem VSame.of_eq {s s' : Builder} (h : s'.mSSkel.vertices = s.mSSkel.vertices) :
    VSame s s' := fun n => by rw [h]; exact ⟨rfl, rfl⟩

theorem VSame.skeletonAt {s s' : Builder} (h : VSame s s') {N : Vertex_handle} {t : FT}
    (hN : s.skeletonAt N t) : s'.skeletonAt N t := by
  unfold Builder.skeletonAt Builder.vtx at *
  cases N with
  | none => exact hN
  | some n =>
    dsimp only at *
    rw [(h n).1, (h n).2]; exact hN

/-- The scan of the queue returns a queued event of least time. -/
theorem minEvent_spec (tr : Traits) (s : Builder)
    (hCmp : ∀ x y : Triedge, tr.CompareEvents x y = .LARGER ↔
      tr.EventTime y.e0 y.e1 y.e2 < tr.EventTime x.e0 x.e1 x.e2)
    (rest : List Nat) (b : Nat) :
    s.minEvent tr rest b ∈ b :: rest
    ∧ tr.timeOf (s.mEvents (s.minEvent tr rest b)) ≤ tr.timeOf (s.mEvents b)
    ∧ ∀ i ∈ rest, tr.timeOf (s.mEvents (s.minEvent tr rest b)) ≤ tr.timeOf (s.mEvents i) := by
  induction rest generalizing b with
  | nil =>
    unfold Builder.minEvent
    exact ⟨by simp, le_refl _, fun i hi => by cases hi⟩
  | cons y rest ih =>
    unfold Builder.minEvent
    by_cases hc : tr.CompareEvents (s.mEvents b).triedge (s.mEvents y).triedge = .LARGER
    · rw [if_pos hc]
      obtain ⟨i1, i2, i3⟩ := ih y
      have hlt : tr.timeOf (s.mEvents y) < tr.timeOf (s.mEvents b) := (hCmp _ _).mp hc
      refine ⟨List.mem_cons_of_mem _ i1, le_trans i2 (le_of_lt hlt), ?_⟩
      intro i hi
      rcases List.mem_cons.mp hi with h | h
      · rw [h]; exact i2
      · exact i3 i h
    · rw [if_neg hc]
      obtain ⟨i1, i2, i3⟩ := ih b
      have hle : tr.timeOf (s.mEvents b) ≤ tr.timeOf (s.mEvents y) := by
        by_contra hcon
        exact hc ((hCmp _ _).mpr (lt_of_not_le hcon))
      refine ⟨?_, i2, ?_⟩
      · rcases List.mem_cons.mp i1 with h | h
        · rw [h]; simp
        · exact List.mem_cons_of_mem _ (List.mem_cons_of_mem _ h)
      · intro i hi
        rcases List.mem_cons.mp hi with h | h
        · rw [h]; exact le_trans i2 hle
        · exact i3 i h

theorem EnqueEvent_frame (st : Builder) (e : EventPtr) :
    (st.EnqueEvent e).mEvents = st.mEvents
    ∧ (st.EnqueEvent e).mEventCount = st.mEventCount
    ∧ (st.EnqueEvent e).mSSkel = st.mSSkel
    ∧ ∀ i ∈ (st.EnqueEvent e).mPQ, i ∈ st.mPQ ∨ e = some i := by
  cases e with
  | none => exact ⟨rfl, rfl, rfl, fun i hi => Or.inl hi⟩
  | some k =>
    refine ⟨rfl, rfl, rfl, ?_⟩
    intro i hi
    have hi2 : i ∈ st.mPQ ++ [k] := hi
    rcases List.mem_append.mp hi2 with h | h
    · exact Or.inl h
    · right
      rw [List.mem_singleton.mp h]

theorem AddReflexSplit_frame (st : Builder) (v : Vertex_handle) (e : EventPtr) :
    (st.AddReflexSplit v e).mEvents = st.mEvents
    ∧ (st.AddReflexSplit v e).mEventCount = st.mEventCount
    ∧ (st.AddReflexSplit v e).mSSkel = st.mSSkel
    ∧ (st.AddReflexSplit v e).mPQ = st.mPQ := by
  cases e with
  | none => exact ⟨rfl, rfl, rfl, rfl⟩
  | some k => exact ⟨rfl, rfl, rfl, rfl⟩

/-- A skeleton seed of time `t` lets through only events of time at least `t`. -/
theorem time_ge_of_not_past (tr : Traits)
    (hPast : ∀ a b c v, tr.IsNewEventInThePast a b c v = true ↔ tr.EventTime a b c < v.time)
    (st : Builder) (N : Vertex_handle) (t : FT) (hN : st.skeletonAt N t)
    (a b c : Halfedge_handle)
    (h : ((st.vtx N).is_skeleton && tr.IsNewEventInThePast a b c (st.vtx N)) = false) :
    t ≤ tr.EventTime a b c := by
  rw [hN.1, Bool.true_and] at h
  have h2 : ¬ tr.EventTime a b c < (st.vtx N).time := by
    intro hlt
    rw [(hPast a b c (st.vtx N)).mpr hlt] at h
    cases h
  rw [← hN.2]
  exact le_of_not_lt h2

theorem CollectSplitEvent_QExt (tr : Traits)
    (hPast : ∀ a b c v, tr.IsNewEventInThePast a b c v = true ↔ tr.EventTime a b c < v.time)
    (st : Builder) (N : Vertex_handle) (t : FT) (hN : st.skeletonAt N t)
    (a b opp : Halfedge_handle) :
    QExt tr t st (st.CollectSplitEvent tr N a b opp)
    ∧ (st.CollectSplitEvent tr N a b opp).mSSkel = st.mSSkel := by
  unfold Builder.CollectSplitEvent
  by_cases h1 : tr.ExistEvent a b opp = true
  · by_cases h2 : ((st.vtx N).is_skeleton && tr.IsNewEventInThePast a b opp (st.vtx N)) = true
    · simp only [h1, h2, if_true, Bool.not_true, Bool.false_eq_true, if_false]
      exact ⟨QExt.qRefl tr t st, trivial⟩
    · have h2b : ((st.vtx N).is_skeleton && tr.IsNewEventInThePast a b opp (st.vtx N)) = false := by
        simpa using h2
      have hge : t ≤ tr.EventTime a b opp := time_ge_of_not_past tr hPast st N t hN a b opp h2b
      simp only [h1, h2b, if_true, Bool.not_false]
      obtain ⟨s2, hs2⟩ : ∃ s2, s2 = (if (st.newEvent (SplitEvent a b opp N opp)).1.IsReflex
          ((st.newEvent (SplitEvent a b opp N opp)).1.vertex opp) = true
          then (st.newEvent (SplitEvent a b opp N opp)).1.AddReflexSplit N
            (st.newEvent (SplitEvent a b opp N opp)).2
          else (st.newEvent (SplitEvent a b opp N opp)).1) := ⟨_, rfl⟩
      have hf : s2.mEvents = (st.newEvent (SplitEvent a b opp N opp)).1.mEvents
          ∧ s2.mEventCount = st.mEventCount + 1 ∧ s2.mSSkel = st.mSSkel
          ∧ s2.mPQ = st.mPQ := by
        rw [hs2]
        split
        · obtain ⟨f1, f2, f3, f4⟩ := AddReflexSplit_frame
            (st.newEvent (SplitEvent a b opp N opp)).1 N
            (st.newEvent (SplitEvent a b opp N opp)).2
          exact ⟨f1, f2, f3, f4⟩
        · exact ⟨rfl, rfl, rfl, rfl⟩
      rw [← hs2]
      obtain ⟨g1, g2, g3, g4⟩ := EnqueEvent_frame s2 (st.newEvent (SplitEvent a b opp N opp)).2
      obtain ⟨f1, f2, f3, f4⟩ := hf
      refine ⟨⟨?_, ?_, ?_⟩, g3.trans f3⟩
      · rw [g2, f2]; omega
      · intro k hk
        rw [g1, f1]
        unfold Builder.newEvent
        dsimp only
        rw [if_neg (by omega)]
      · intro i hi
        rcases g4 i hi with h | h
        · rw [f4] at h; exact Or.inl h
        · right
          have hi2 : st.mEventCount = i := Option.some.inj h
          refine ⟨by omega, by rw [g2, f2]; omega, ?_⟩
          rw [g1, f1, ← hi2]
          unfold Builder.newEvent
          dsimp only
          rw [if_pos rfl]
          exact hge
  · simp only [h1, Bool.false_eq_true, if_false]
    exact ⟨QExt.qRefl tr t st, trivial⟩

theorem foldl_QExt (tr : Traits) (t : FT) (N : Vertex_handle) {α : Type}
    (f : Builder → α → Builder)
    (hf : ∀ st x, st.skeletonAt N t → QExt tr t st (f st x) ∧ (f st x).mSSkel = st.mSSkel)
    (l : List α) (st : Builder) (hN : st.skeletonAt N t) :
    QExt tr t st (l.foldl f st) ∧ (l.foldl f st).mSSkel = st.mSSkel := by
  induction l generalizing st with
  | nil => exact ⟨QExt.qRefl tr t st, rfl⟩
  | cons x xs ih =>
    rw [List.foldl_cons]
    obtain ⟨h1, h2⟩ := hf st x hN
    have hN2 : (f st x).skeletonAt N t := by
      unfold Builder.skeletonAt Builder.vtx at *
      rw [h2]; exact hN
    obtain ⟨h3, h4⟩ := ih (f st x) hN2
    exact ⟨h1.qTrans h3, h4.trans h2⟩

theorem CollectSplitEvents_QExt (tr : Traits)
    (hPast : ∀ a b c v, tr.IsNewEventInThePast a b c v = true ↔ tr.EventTime a b c < v.time)
    (st : Builder) (N : Vertex_handle) (t : FT) (hN : st.skeletonAt N t) :
    QExt tr t st (st.CollectSplitEvents tr N)
    ∧ (st.CollectSplitEvents tr N).mSSkel = st.mSSkel := by
  unfold Builder.CollectSplitEvents
  dsimp only
  apply foldl_QExt tr t N _ _ _ st hN
  intro s1 x h1
  split
  · exact CollectSplitEvent_QExt tr hPast s1 N t h1 _ _ _
  · exact ⟨QExt.qRefl tr t s1, rfl⟩

/-- What `FindEdgeEvent` does to the event store: nothing when it returns no event; otherwise
the event returned is the new last event of the store, of time at least `t` when one of the
seeds is a skeleton vertex of time `t`. -/
theorem FindEdgeEvent_store (tr : Traits)
    (hPast : ∀ a b c v, tr.IsNewEventInThePast a b c v = true ↔ tr.EventTime a b c < v.time)
    (st : Builder) (L R : Vertex_handle) (t : FT)
    (hN : st.skeletonAt L t ∨ st.skeletonAt R t) :
    (st.FindEdgeEvent tr L R).1.mPQ = st.mPQ
    ∧ (st.FindEdgeEvent tr L R).1.mSSkel = st.mSSkel
    ∧ st.mEventCount ≤ (st.FindEdgeEvent tr L R).1.mEventCount
    ∧ (∀ k, k < st.mEventCount → (st.FindEdgeEvent tr L R).1.mEvents k = st.mEvents k)
    ∧ (∀ e, (st.FindEdgeEvent tr L R).2 = some e →
        e = st.mEventCount ∧ (st.FindEdgeEvent tr L R).1.mEventCount = st.mEventCount + 1
        ∧ t ≤ tr.timeOf ((st.FindEdgeEvent tr L R).1.mEvents e)) := by
  have hnone : st.FindEdgeEvent tr L R = (st, none) →
      (st.FindEdgeEvent tr L R).1.mPQ = st.mPQ
      ∧ (st.FindEdgeEvent tr L R).1.mSSkel = st.mSSkel
      ∧ st.mEventCount ≤ (st.FindEdgeEvent tr L R).1.mEventCount
      ∧ (∀ k, k < st.mEventCount → (st.FindEdgeEvent tr L R).1.mEvents k = st.mEvents k)
      ∧ (∀ e, (st.FindEdgeEvent tr L R).2 = some e →
          e = st.mEventCount ∧ (st.FindEdgeEvent tr L R).1.mEventCount = st.mEventCount + 1
          ∧ t ≤ tr.timeOf ((st.FindEdgeEvent tr L R).1.mEvents e)) := by
    intro h
    rw [h]
    exact ⟨rfl, rfl, le_refl _, fun _ _ => rfl, fun e he => by cases he⟩
  by_cases h1 : (st.GetDefiningBorders L R).e0 ≠ (st.GetDefiningBorders L R).e1
      ∧ (st.GetDefiningBorders L R).e1 ≠ (st.GetDefiningBorders L R).e2
  · by_cases h2 : tr.ExistEvent (st.GetDefiningBorders L R).e0 (st.GetDefiningBorders L R).e1
        (st.GetDefiningBorders L R).e2 = true
    · by_cases hL : ((st.vtx L).is_skeleton && tr.IsNewEventInThePast
          (st.GetDefiningBorders L R).e0 (st.GetDefiningBorders L R).e1
          (st.GetDefiningBorders L R).e2 (st.vtx L)) = true
      · by_cases hR : ((st.vtx R).is_skeleton && tr.IsNewEventInThePast
            (st.GetDefiningBorders L R).e0 (st.GetDefiningBorders L R).e1
            (st.GetDefiningBorders L R).e2 (st.vtx R)) = true
        · apply hnone
          simp only [Builder.FindEdgeEvent, h1, h2, hL, hR, if_true, Bool.false_eq_true,
            if_false, ne_eq, not_false_eq_true, and_self]
        · apply hnone
          simp only [Builder.FindEdgeEvent, h1, h2, hL, hR, if_true, Bool.false_eq_true,
            if_false, ne_eq, not_false_eq_true, and_self]
      · have hLb : ((st.vtx L).is_skeleton && tr.IsNewEventInThePast
            (st.GetDefiningBorders L R).e0 (st.GetDefiningBorders L R).e1
            (st.GetDefiningBorders L R).e2 (st.vtx L)) = false := by simpa using hL
        by_cases hR : ((st.vtx R).is_skeleton && tr.IsNewEventInThePast
            (st.GetDefiningBorders L R).e0 (st.GetDefiningBorders L R).e1
            (st.GetDefiningBorders L R).e2 (st.vtx R)) = true
        · apply hnone
          simp only [Builder.FindEdgeEvent, h1, h2, hLb, hR, if_true, Bool.false_eq_true,
            if_false, ne_eq, not_false_eq_true, and_self]
        · have hRb : ((st.vtx R).is_skeleton && tr.IsNewEventInThePast
              (st.GetDefiningBorders L R).e0 (st.GetDefiningBorders L R).e1
              (st.GetDefiningBorders L R).e2 (st.vtx R)) = false := by simpa using hR
          have key : st.FindEdgeEvent tr L R
              = st.newEvent (EdgeEvent (st.GetDefiningBorders L R).e0
                  (st.GetDefiningBorders L R).e1 (st.GetDefiningBorders L R).e2 L R) := by
            simp only [Builder.FindEdgeEvent, h1, h2, hLb, hRb, if_true, Bool.false_eq_true,
              if_false, ne_eq, not_false_eq_true, and_self]
          rw [key]
          refine ⟨rfl, rfl, ?_, ?_, ?_⟩
          · show st.mEventCount ≤ st.mEventCount + 1
            omega
          · intro k hk
            unfold Builder.newEvent
            dsimp only
            rw [if_neg (by omega)]
          · intro e he
            have he2 : st.mEventCount = e := Option.some.inj he
            refine ⟨he2.symm, rfl, ?_⟩
            rw [← he2]
            unfold Builder.newEvent
            dsimp only
            rw [if_pos rfl]
            rcases hN with h | h
            · exact time_ge_of_not_past tr hPast st L t h _ _ _ hLb
            · exact time_ge_of_not_past tr hPast st R t h _ _ _ hRb
    · apply hnone
      simp only [Builder.FindEdgeEvent, h1, h2, if_true, Bool.false_eq_true, if_false, ne_eq,
        not_false_eq_true, and_self]
  · have h1b : ¬ ((st.GetDefiningBorders L R).e0 ≠ (st.GetDefiningBorders L R).e1
        ∧ (st.GetDefiningBorders L R).e1 ≠ (st.GetDefiningBorders L R).e2) := h1
    apply hnone
    simp only [Builder.FindEdgeEvent, h1b, if_false]

theorem enqueue_two_frame (st : Builder) (eL eR : EventPtr) (b1 b2 : Bool) :
    (if b2 = true then (if b1 = true then st.EnqueEvent eL else st).EnqueEvent eR
      else (if b1 = true then st.EnqueEvent eL else st)).mEvents = st.mEvents
    ∧ (if b2 = true then (if b1 = true then st.EnqueEvent eL else st).EnqueEvent eR
      else (if b1 = true then st.EnqueEvent eL else st)).mEventCount = st.mEventCount
    ∧ (if b2 = true then (if b1 = true then st.EnqueEvent eL else st).EnqueEvent eR
      else (if b1 = true then st.EnqueEvent eL else st)).mSSkel = st.mSSkel
    ∧ ∀ i ∈ (if b2 = true then (if b1 = true then st.EnqueEvent eL else st).EnqueEvent eR
      else (if b1 = true then st.EnqueEvent eL else st)).mPQ,
        i ∈ st.mPQ ∨ eL = some i ∨ eR = some i := by
  obtain ⟨l1, l2, l3, l4⟩ := EnqueEvent_frame st eL
  cases b1 <;> cases b2
  · exact ⟨rfl, rfl, rfl, fun i hi => Or.inl hi⟩
  · obtain ⟨r1, r2, r3, r4⟩ := EnqueEvent_frame st eR
    refine ⟨r1, r2, r3, ?_⟩
    intro i hi
    rcases r4 i hi with h | h
    · exact Or.inl h
    · exact Or.inr (Or.inr h)
  · refine ⟨l1, l2, l3, ?_⟩
    intro i hi
    rcases l4 i hi with h | h
    · exact Or.inl h
    · exact Or.inr (Or.inl h)
  · obtain ⟨r1, r2, r3, r4⟩ := EnqueEvent_frame (st.EnqueEvent eL) eR
    refine ⟨r1.trans l1, r2.trans l2, r3.trans l3, ?_⟩
    intro i hi
    rcases r4 i hi with h | h
    · rcases l4 i h with h | h
      · exact Or.inl h
      · exact Or.inr (Or.inl h)
    · exact Or.inr (Or.inr h)

theorem skeletonAt_congr {s s' : Builder} (h : s'.mSSkel = s.mSSkel) {N : Vertex_handle}
    {t : FT} (hN : s.skeletonAt N t) : s'.skeletonAt N t := by
  unfold Builder.skeletonAt Builder.vtx at *
  rw [h]; exact hN

theorem CollectNewEvents_QExt (tr : Traits)
    (hPast : ∀ a b c v, tr.IsNewEventInThePast a b c v = true ↔ tr.EventTime a b c < v.time)
    (s : Builder) (N : Vertex_handle) (t : FT) (hN : s.skeletonAt N t) :
    QExt tr t s (s.CollectNewEvents tr N)
    ∧ (s.CollectNewEvents tr N).mSSkel = s.mSSkel := by
  unfold Builder.CollectNewEvents
  dsimp only
  have Q1 : QExt tr t s (if s.IsReflex N = true then s.CollectSplitEvents tr N else s)
      ∧ (if s.IsReflex N = true then s.CollectSplitEvents tr N else s).mSSkel = s.mSSkel := by
    split
    · exact CollectSplitEvents_QExt tr hPast s N t hN
    · exact ⟨QExt.qRefl tr t s, rfl⟩
  generalize (if s.IsReflex N = true then s.CollectSplitEvents tr N else s) = s1 at Q1 ⊢
  have hN1 : s1.skeletonAt N t := skeletonAt_congr Q1.2 hN
  have FL := FindEdgeEvent_store tr hPast s1 (s.GetPrevInLAV N) N t (Or.inr hN1)
  generalize s1.FindEdgeEvent tr (s.GetPrevInLAV N) N = rL at FL ⊢
  obtain ⟨s2, eL⟩ := rL
  dsimp only at FL ⊢
  obtain ⟨l1, l2, l3, l4, l5⟩ := FL
  have hN2 : s2.skeletonAt N t := skeletonAt_congr l2 hN1
  have FR := FindEdgeEvent_store tr hPast s2 N (s.GetNextInLAV N) t (Or.inl hN2)
  generalize s2.FindEdgeEvent tr N (s.GetNextInLAV N) = rR at FR ⊢
  obtain ⟨s3, eR⟩ := rR
  dsimp only at FR ⊢
  obtain ⟨r1, r2, r3, r4, r5⟩ := FR
  generalize (if (eL.isSome && eR.isSome) = true then
      if tr.CompareEvents (s3.ev eL).triedge (s3.ev eR).triedge = Comparison_result.EQUAL then
        if tr.CompareEventsDistanceToSeed (s3.vtx N) (s3.ev eL).triedge (s3.ev eR).triedge
            = Comparison_result.LARGER then (false, eR.isSome)
        else (eL.isSome, false)
      else (eL.isSome, eR.isSome)
    else (eL.isSome, eR.isSome)) = acc
  obtain ⟨f1, f2, f3, f4⟩ := enqueue_two_frame s3 eL eR acc.1 acc.2
  refine ⟨Q1.1.qTrans ⟨?_, ?_, ?_⟩, (f3.trans (r2.trans l2)).trans Q1.2⟩
  · rw [f2]; exact le_trans l3 r3
  · intro k hk
    rw [f1, r4 k (lt_of_lt_of_le hk l3), l4 k hk]
  · intro i hi
    rcases f4 i hi with h | h | h
    · rw [r1, l1] at h; exact Or.inl h
    · right
      obtain ⟨c1, c2, c3⟩ := l5 i h
      refine ⟨by omega, by rw [f2]; omega, ?_⟩
      rw [f1, r4 i (by omega)]
      exact c3
    · right
      obtain ⟨c1, c2, c3⟩ := r5 i h
      refine ⟨by omega, by rw [f2]; omega, ?_⟩
      rw [f1]
      exact c3

theorem set_halfedge_frame (st : Builder) (v : Vertex_handle) (h : Halfedge_handle) :
    (st.set_halfedge v h).mEvents = st.mEvents
    ∧ (st.set_halfedge v h).mEventCount = st.mEventCount
    ∧ (st.set_halfedge v h).mPQ = st.mPQ
    ∧ VSame st (st.set_halfedge v h) := by
  refine ⟨rfl, rfl, rfl, ?_⟩
  intro n
  unfold Builder.set_halfedge Builder.updVertex
  dsimp only
  split
  · exact ⟨rfl, rfl⟩
  · exact ⟨rfl, rfl⟩

theorem cond_set_halfedge_frame (st : Builder) (c : Bool) (v : Vertex_handle)
    (h : Halfedge_handle) :
    (if c = true then st.set_halfedge v h else st).mEvents = st.mEvents
    ∧ (if c = true then st.set_halfedge v h else st).mEventCount = st.mEventCount
    ∧ (if c = true then st.set_halfedge v h else st).mPQ = st.mPQ
    ∧ VSame st (if c = true then st.set_halfedge v h else st) := by
  cases c
  · exact ⟨rfl, rfl, rfl, VSame.vRefl st⟩
  · exact set_halfedge_frame st v h

theorem HandleSimultaneousEdgeEvent_frame (s : Builder) (aA aB : Vertex_handle) :
    (s.HandleSimultaneousEdgeEvent aA aB).mEvents = s.mEvents
    ∧ (s.HandleSimultaneousEdgeEvent aA aB).mEventCount = s.mEventCount
    ∧ (s.HandleSimultaneousEdgeEvent aA aB).mPQ = s.mPQ
    ∧ VSame s (s.HandleSimultaneousEdgeEvent aA aB) := by
  unfold Builder.HandleSimultaneousEdgeEvent
  dsimp only
  refine ⟨?_, ?_, ?_, ?_⟩
  · exact ((cond_set_halfedge_frame _ _ _ _).1).trans
      (((cond_set_halfedge_frame _ _ _ _).1).trans rfl)
  · exact ((cond_set_halfedge_frame _ _ _ _).2.1).trans
      (((cond_set_halfedge_frame _ _ _ _).2.1).trans rfl)
  · exact ((cond_set_halfedge_frame _ _ _ _).2.2.1).trans
      (((cond_set_halfedge_frame _ _ _ _).2.2.1).trans rfl)
  · refine VSame.vTrans (VSame.vTrans ?_ (cond_set_halfedge_frame _ _ _ _).2.2.2)
      (cond_set_halfedge_frame _ _ _ _).2.2.2
    exact VSame.of_eq rfl

theorem UpdatePQ_QExt (tr : Traits)
    (hPast : ∀ a b c v, tr.IsNewEventInThePast a b c v = true ↔ tr.EventTime a b c < v.time)
    (s : Builder) (N : Vertex_handle) (t : FT) (hN : s.skeletonAt N t) :
    QExt tr t s (s.UpdatePQ tr N) ∧ VSame s (s.UpdatePQ tr N) := by
  unfold Builder.UpdatePQ
  dsimp only
  split
  · obtain ⟨h1, h2, h3, h4⟩ := HandleSimultaneousEdgeEvent_frame s N (s.GetPrevInLAV N)
    exact ⟨QExt.of_same tr t h1 h2 h3, h4⟩
  · split
    · obtain ⟨h1, h2, h3, h4⟩ := HandleSimultaneousEdgeEvent_frame s N (s.GetNextInLAV N)
      exact ⟨QExt.of_same tr t h1 h2 h3, h4⟩
    · obtain ⟨h1, h2⟩ := CollectNewEvents_QExt tr hPast s N t hN
      exact ⟨h1, VSame.of_eq (by rw [h2])⟩

/-! ### Frame of the half-edge and LAV writes: vertices, event store, queue -/
@[simp] theorem set_next_vertices (s : Builder) (h n : Halfedge_handle) :
    (s.set_next h n).mSSkel.vertices = s.mSSkel.vertices := rfl
@[simp] theorem set_prev_vertices (s : Builder) (h n : Halfedge_handle) :
    (s.set_prev h n).mSSkel.vertices = s.mSSkel.vertices := rfl
@[simp] theorem set_face_vertices (s : Builder) (h : Halfedge_handle) (f : Face_handle) :
    (s.set_face h f).mSSkel.vertices = s.mSSkel.vertices := rfl
@[simp] theorem set_vertex_vertices (s : Builder) (h : Halfedge_handle) (v : Vertex_handle) :
    (s.set_vertex h v).mSSkel.vertices = s.mSSkel.vertices := rfl
@[simp] theorem SetIsProcessed_vertices (s : Builder) (v : Vertex_handle) :
    (s.SetIsProcessed v).mSSkel.vertices = s.mSSkel.vertices := rfl
@[simp] theorem SetIsReflex_vertices (s : Builder) (v : Vertex_handle) :
    (s.SetIsReflex v).mSSkel.vertices = s.mSSkel.vertices := rfl
@[simp] theorem SLAV_remove_vertices (s : Builder) (v : Vertex_handle) :
    (s.SLAV_remove v).mSSkel.vertices = s.mSSkel.vertices := rfl
@[simp] theorem SetPrevInLAV_vertices (s : Builder) (v p : Vertex_handle) :
    (s.SetPrevInLAV v p).mSSkel.vertices = s.mSSkel.vertices := rfl
@[simp] theorem SetNextInLAV_vertices (s : Builder) (v p : Vertex_handle) :
    (s.SetNextInLAV v p).mSSkel.vertices = s.mSSkel.vertices := rfl
@[simp] theorem SetDefiningBorderA_vertices (s : Builder) (v : Vertex_handle) (h : Halfedge_handle) :
    (s.SetDefiningBorderA v h).mSSkel.vertices = s.mSSkel.vertices := rfl
@[simp] theorem SetDefiningBorderB_vertices (s : Builder) (v : Vertex_handle) (h : Halfedge_handle) :
    (s.SetDefiningBorderB v h).mSSkel.vertices = s.mSSkel.vertices := rfl
@[simp] theorem SetDefiningBorderC_vertices (s : Builder) (v : Vertex_handle) (h : Halfedge_handle) :
    (s.SetDefiningBorderC v h).mSSkel.vertices = s.mSSkel.vertices := rfl
@[simp] theorem wrapped_push_back_vertices (s : Builder) (w : VertexWrapper) :
    (s.wrapped_push_back w).mSSkel.vertices = s.mSSkel.vertices := rfl
@[simp] theorem SLAV_push_back_vertices (s : Builder) (v : Vertex_handle) :
    (s.SLAV_push_back v).mSSkel.vertices = s.mSSkel.vertices := by
  cases v <;> rfl

@[simp] theorem edges_push_back_vertices (s : Builder) (h g : Halfedge) :
    (s.edges_push_back h g).1.mSSkel.vertices = s.mSSkel.vertices := rfl

@[simp] theorem set_halfedge_vertices_time (s : Builder) (v : Vertex_handle)
    (h : Halfedge_handle) (n : Nat) :
    ((s.set_halfedge v h).mSSkel.vertices n).time = (s.mSSkel.vertices n).time :=
  ((set_halfedge_frame s v h).2.2.2 n).1

@[simp] theorem set_halfedge_vertices_is_skeleton (s : Builder) (v : Vertex_handle)
    (h : Halfedge_handle) (n : Nat) :
    ((s.set_halfedge v h).mSSkel.vertices n).is_skeleton = (s.mSSkel.vertices n).is_skeleton :=
  ((set_halfedge_frame s v h).2.2.2 n).2

theorem vertices_push_back_skeletonAt (s : Builder) (i : Nat) (p : Point_2) (t : FT) :
    (s.vertices_push_back (Vertex.mk3 i p t)).1.skeletonAt
      (s.vertices_push_back (Vertex.mk3 i p t)).2 t := by
  unfold Builder.skeletonAt Builder.vtx Builder.vertices_push_back Vertex.mk3
  simp

theorem ConstructEdgeEventNode_frame (s : Builder) (aEvent : EventPtr) :
    (s.ConstructEdgeEventNode aEvent).1.mEvents = s.mEvents
    ∧ (s.ConstructEdgeEventNode aEvent).1.mEventCount = s.mEventCount
    ∧ (s.ConstructEdgeEventNode aEvent).1.mPQ = s.mPQ
    ∧ (s.ConstructEdgeEventNode aEvent).1.skeletonAt (s.ConstructEdgeEventNode aEvent).2
        (s.ev aEvent).time := by
  refine ⟨rfl, rfl, rfl, ?_⟩
  simp [Builder.ConstructEdgeEventNode, Builder.vertices_push_back, Builder.SLAV_push_back,
    Builder.wrapped_push_back, Builder.set_halfedge, Builder.updVertex, Builder.set_vertex,
    Builder.set_prev, Builder.set_next, Builder.updHalfedge, Builder.SetIsProcessed,
    Builder.updWrap, Builder.SLAV_remove, Builder.SetPrevInLAV, Builder.SetNextInLAV,
    Vertex.mk3, Builder.skeletonAt, Builder.vtx]

theorem ConstructSplitEventNodes_frame (s : Builder) (aEvent : EventPtr)
    (aOppR : Vertex_handle) :
    (s.ConstructSplitEventNodes aEvent aOppR).1.mEvents = s.mEvents
    ∧ (s.ConstructSplitEventNodes aEvent aOppR).1.mEventCount = s.mEventCount
    ∧ (s.ConstructSplitEventNodes aEvent aOppR).1.mPQ = s.mPQ
    ∧ (s.ConstructSplitEventNodes aEvent aOppR).1.skeletonAt
        (s.ConstructSplitEventNodes aEvent aOppR).2.1 (s.ev aEvent).time
    ∧ (s.ConstructSplitEventNodes aEvent aOppR).1.skeletonAt
        (s.ConstructSplitEventNodes aEvent aOppR).2.2 (s.ev aEvent).time := by
  refine ⟨rfl, rfl, rfl, ?_, ?_⟩
  · simp [Builder.ConstructSplitEventNodes, Builder.vertices_push_back, Builder.SLAV_push_back,
      Builder.wrapped_push_back, Builder.set_halfedge, Builder.updVertex, Builder.set_vertex,
      Builder.updHalfedge, Builder.SetIsProcessed,
      Builder.updWrap, Builder.SLAV_remove, Builder.SetPrevInLAV, Builder.SetNextInLAV,
      Vertex.mk3, Builder.skeletonAt, Builder.vtx, Builder.ev]
  · simp [Builder.ConstructSplitEventNodes, Builder.vertices_push_back, Builder.SLAV_push_back,
      Builder.wrapped_push_back, Builder.set_halfedge, Builder.updVertex, Builder.set_vertex,
      Builder.updHalfedge, Builder.SetIsProcessed,
      Builder.updWrap, Builder.SLAV_remove, Builder.SetPrevInLAV, Builder.SetNextInLAV,
      Vertex.mk3, Builder.skeletonAt, Builder.vtx, Builder.ev]

theorem ConstructVertexEventNodes_frame (s : Builder) (aEvent : EventPtr) :
    (s.ConstructVertexEventNodes aEvent).1.mEvents = s.mEvents
    ∧ (s.ConstructVertexEventNodes aEvent).1.mEventCount = s.mEventCount
    ∧ (s.ConstructVertexEventNodes aEvent).1.mPQ = s.mPQ
    ∧ (s.ConstructVertexEventNodes aEvent).1.skeletonAt
        (s.ConstructVertexEventNodes aEvent).2.1 (s.ev aEvent).time
    ∧ (s.ConstructVertexEventNodes aEvent).1.skeletonAt
        (s.ConstructVertexEventNodes aEvent).2.2 (s.ev aEvent).time := by
  refine ⟨rfl, rfl, rfl, ?_, ?_⟩
  · simp [Builder.ConstructVertexEventNodes, Builder.vertices_push_back,
      Builder.SLAV_push_back, Builder.wrapped_push_back, Builder.set_halfedge,
      Builder.updVertex, Builder.set_vertex, Builder.set_prev, Builder.set_next,
      Builder.updHalfedge, Builder.SetIsProcessed,
      Builder.updWrap, Builder.SLAV_remove, Builder.SetPrevInLAV, Builder.SetNextInLAV,
      Vertex.mk3, Builder.skeletonAt, Builder.vtx, Builder.ev]
  · simp [Builder.ConstructVertexEventNodes, Builder.vertices_push_back,
      Builder.SLAV_push_back, Builder.wrapped_push_back, Builder.set_halfedge,
      Builder.updVertex, Builder.set_vertex, Builder.set_prev, Builder.set_next,
      Builder.updHalfedge, Builder.SetIsProcessed,
      Builder.updWrap, Builder.SLAV_remove, Builder.SetPrevInLAV, Builder.SetNextInLAV,
      Vertex.mk3, Builder.skeletonAt, Builder.vtx, Builder.ev]

theorem skeletonAt_of_vertices {s s' : Builder}
    (h : s'.mSSkel.vertices = s.mSSkel.vertices) {N : Vertex_handle} {t : FT}
    (hN : s.skeletonAt N t) : s'.skeletonAt N t :=
  VSame.skeletonAt (VSame.of_eq h) hN

theorem UpdatePQ_QExt_of (tr : Traits)
    (hPast : ∀ a b c v, tr.IsNewEventInThePast a b c v = true ↔ tr.EventTime a b c < v.time)
    (s sx : Builder) (N : Vertex_handle) (t : FT)
    (h1 : QExt tr t s sx) (hN : sx.skeletonAt N t) :
    QExt tr t s (sx.UpdatePQ tr N) ∧ VSame sx (sx.UpdatePQ tr N) :=
  ⟨h1.qTrans (UpdatePQ_QExt tr hPast sx N t hN).1, (UpdatePQ_QExt tr hPast sx N t hN).2⟩

theorem HandleEdgeEvent_QExt (tr : Traits)
    (hPast : ∀ a b c v, tr.IsNewEventInThePast a b c v = true ↔ tr.EventTime a b c < v.time)
    (s : Builder) (e : EventPtr) (t : FT) (hev : (s.ev e).time = t) :
    QExt tr t s (s.HandleEdgeEvent tr e) := by
  have hC := (ConstructEdgeEventNode_frame s e).2.2.2
  rw [hev] at hC
  unfold Builder.HandleEdgeEvent
  lift_lets
  extract_lets lLSeed lRSeed r s1 lNewNode lLOBisector lROBisector lRIBisector
  split
  · lift_lets
    extract_lets
    refine (UpdatePQ_QExt_of tr hPast s _ _ t ?_ ?_).1
    · exact QExt.of_same tr t rfl rfl rfl
    · exact skeletonAt_of_vertices rfl hC
  · lift_lets
    extract_lets
    exact QExt.of_same tr t rfl rfl rfl

theorem VSame_of_upd {s s' : Builder} (v : Vertex_handle) (H : Halfedge_handle)
    (h : s'.mSSkel.vertices = fun j =>
      if v = some j then { s.mSSkel.vertices j with halfedge := H } else s.mSSkel.vertices j) :
    VSame s s' := by
  intro n
  rw [h]
  dsimp only
  split
  · exact ⟨rfl, rfl⟩
  · exact ⟨rfl, rfl⟩

theorem VSame_of_upd2 {s s' : Builder} (v1 v2 : Vertex_handle) (H1 H2 : Halfedge_handle)
    (h : s'.mSSkel.vertices = fun j =>
      if v2 = some j then
        { (if v1 = some j then { s.mSSkel.vertices j with halfedge := H1 }
            else s.mSSkel.vertices j) with halfedge := H2 }
      else (if v1 = some j then { s.mSSkel.vertices j with halfedge := H1 }
            else s.mSSkel.vertices j)) :
    VSame s s' := by
  intro n
  rw [h]
  dsimp only
  split
  · split
    · exact ⟨rfl, rfl⟩
    · exact ⟨rfl, rfl⟩
  · split
    · exact ⟨rfl, rfl⟩
    · exact ⟨rfl, rfl⟩

theorem HandleSplitEvent_QExt (tr : Traits)
    (hPast : ∀ a b c v, tr.IsNewEventInThePast a b c v = true ↔ tr.EventTime a b c < v.time)
    (s0 : Builder) (e : EventPtr) (aOppR : Vertex_handle) (t : FT)
    (hev : (s0.ev e).time = t) :
    QExt tr t s0 (s0.HandleSplitEvent tr e aOppR) := by
  obtain ⟨_, _, _, hL, hR⟩ := ConstructSplitEventNodes_frame s0 e aOppR
  rw [hev] at hL hR
  unfold Builder.HandleSplitEvent
  lift_lets
  extract_lets
    y1 y2 y3 y4 y5 y6 y7 y8 y9 y10 y11 y12 y13 y14 y15 y16 y17 y18 y19 y20 y21 y22 y23 y24 y25
    y26 y27 y28 y29 y30 y31 y32 y33 y34 y35 y36 y37 y38 y39 y40 y41 y42 y43 y44
  have hV : VSame (s0.ConstructSplitEventNodes e aOppR).1 y43 :=
    @VSame.vTrans _ y14 _ (VSame.of_eq rfl)
      (@VSame.vTrans _ y17 _ (set_halfedge_frame y14 y5 y15).2.2.2 (VSame.of_eq rfl))
  obtain ⟨q1, v1⟩ := UpdatePQ_QExt_of tr hPast s0 y43 y4 t (QExt.of_same tr t rfl rfl rfl)
    (VSame.skeletonAt hV hL)
  exact (UpdatePQ_QExt_of tr hPast s0 y44 y5 t q1
    (VSame.skeletonAt (VSame.vTrans hV v1) hR)).1

theorem SetupVertexEventNode_frame (tr : Traits) (s : Builder) (aNode : Vertex_handle)
    (a b : Halfedge_handle) :
    (s.SetupVertexEventNode tr aNode a b).1.mEvents = s.mEvents
    ∧ (s.SetupVertexEventNode tr aNode a b).1.mEventCount = s.mEventCount
    ∧ (s.SetupVertexEventNode tr aNode a b).1.mPQ = s.mPQ
    ∧ (s.SetupVertexEventNode tr aNode a b).1.mSSkel.vertices = s.mSSkel.vertices := by
  unfold Builder.SetupVertexEventNode
  dsimp only
  split
  · exact ⟨rfl, rfl, rfl, rfl⟩
  · exact ⟨rfl, rfl, rfl, rfl⟩

theorem HandleVertexEvent_QExt (tr : Traits)
    (hPast : ∀ a b c v, tr.IsNewEventInThePast a b c v = true ↔ tr.EventTime a b c < v.time)
    (s0 : Builder) (e : EventPtr) (t : FT) (hev : (s0.ev e).time = t) :
    QExt tr t s0 (s0.HandleVertexEvent tr e) := by
  obtain ⟨_, _, _, hL, hR⟩ := ConstructVertexEventNodes_frame s0 e
  rw [hev] at hL hR
  unfold Builder.HandleVertexEvent
  lift_lets
  extract_lets
    z1 z2 z3 z4 z5 z6 z7 z8 z9 z10 z11 z12 z13 z14 z15 z16 z17 z18 z19 z20 z21 z22 z23 z24 z25
    z26 z27 z28 z29 z30 z31 z32 z33 z34 z35 z36 z37 z38 z39 z40 z41 z42 z43 z44 z45 z46 z47 z48
    z49 z50 z51 z52 z53
  have hV : VSame (s0.ConstructVertexEventNodes e).1 z48 :=
    @VSame.vTrans _ z34 _ (VSame.of_eq rfl)
      (@VSame.vTrans _ z35 _ (set_halfedge_frame z34 z5 z17).2.2.2
        (@VSame.vTrans _ z36 _ (set_halfedge_frame z35 z6 z19).2.2.2 (VSame.of_eq rfl)))
  obtain ⟨f1, f2, f3, f4⟩ := SetupVertexEventNode_frame tr z48 z5 z37 z38
  have g : z52.mEvents = z50.mEvents ∧ z52.mEventCount = z50.mEventCount
      ∧ z52.mPQ = z50.mPQ ∧ z52.mSSkel.vertices = z50.mSSkel.vertices := by
    show (if (!z51) = true then (z50.SetupVertexEventNode tr z6 z40 z41).1 else z50).mEvents
        = z50.mEvents
      ∧ (if (!z51) = true then (z50.SetupVertexEventNode tr z6 z40 z41).1
          else z50).mEventCount = z50.mEventCount
      ∧ (if (!z51) = true then (z50.SetupVertexEventNode tr z6 z40 z41).1 else z50).mPQ
        = z50.mPQ
      ∧ (if (!z51) = true then (z50.SetupVertexEventNode tr z6 z40 z41).1
          else z50).mSSkel.vertices = z50.mSSkel.vertices
    split
    · exact SetupVertexEventNode_frame tr z50 z6 z40 z41
    · exact ⟨rfl, rfl, rfl, rfl⟩
  obtain ⟨g1, g2, g3, g4⟩ := g
  have hV2 : VSame (s0.ConstructVertexEventNodes e).1 z52 :=
    VSame.vTrans hV (VSame.of_eq (g4.trans f4))
  have hQ : QExt tr t s0 z52 :=
    QExt.of_same tr t (g1.trans (f1.trans rfl)) (g2.trans (f2.trans rfl))
      (g3.trans (f3.trans rfl))
  obtain ⟨q1, v1⟩ := UpdatePQ_QExt_of tr hPast s0 z52 z5 t hQ (VSame.skeletonAt hV2 hL)
  exact (UpdatePQ_QExt_of tr hPast s0 z53 z6 t q1
    (VSame.skeletonAt (VSame.vTrans hV2 v1) hR)).1

theorem FindVertexEventStep_keeps (tr : Traits) (s : Builder) (k0 : Nat)
    (hk0 : k0 < s.mEventCount) (acc : Builder × EventPtr) (i : Nat)
    (h : ScanKeeps s k0 acc) :
    ScanKeeps s k0 (Builder.FindVertexEventStep tr (some k0) acc i) := by
  obtain ⟨st, r⟩ := acc
  obtain ⟨h1, h2, h3, h4⟩ := h
  dsimp only at h1 h2 h3 h4
  rw [FindVertexEventStep_eq]
  obtain ⟨s2, hs2⟩ : ∃ s2, s2 = (st.ExcludeEvent (some k0)).ExcludeEvent (some i) := ⟨_, rfl⟩
  have hcnt : s2.mEventCount = st.mEventCount := by rw [hs2]; rfl
  have hq2 : s2.mPQ = st.mPQ := by rw [hs2]; rfl
  have hcore2 : ∀ k, (s2.mEvents k).core = (st.mEvents k).core := by
    intro k; rw [hs2, ExcludeEvent_core, ExcludeEvent_core]
  rw [← hs2]
  split
  · split
    · rw [← hcnt]
      have hk0ne : k0 ≠ s2.mEventCount := by omega
      rw [newEvent_ev_of_ne _ _ _ hk0ne]
      refine ⟨?_, ?_, ?_, ?_⟩
      · show s.mEventCount ≤ s2.mEventCount + 1
        omega
      · intro k hk
        show (((s2.newEvent _).1.SetTimeAndPoint (some s2.mEventCount) _ _).mEvents k).core = _
        rw [newEvent_SetTimeAndPoint_mEvents, if_neg (by omega), hcore2, h2 k hk]
      · exact hq2.trans h3
      · intro ve hve
        have hve2 : s2.mEventCount = ve := Option.some.inj hve
        refine ⟨by omega, ?_, ?_⟩
        · show ve < s2.mEventCount + 1
          omega
        · show (((s2.newEvent _).1.SetTimeAndPoint (some s2.mEventCount) _ _).mEvents ve).time
            = _
          rw [newEvent_SetTimeAndPoint_mEvents, if_pos hve2.symm]
          show (s2.mEvents k0).time = (s.mEvents k0).time
          exact Event.time_of_core ((hcore2 k0).trans (h2 k0 hk0))
    · refine ⟨by rw [hcnt]; exact h1, ?_, hq2.trans h3, ?_⟩
      · intro k hk
        show (s2.mEvents k).core = _
        rw [hcore2, h2 k hk]
      · intro ve hve
        obtain ⟨a, b, c⟩ := h4 ve hve
        refine ⟨a, by rw [hcnt]; exact b, ?_⟩
        show (s2.mEvents ve).time = _
        rw [Event.time_of_core (hcore2 ve)]
        exact c
  · exact ⟨h1, h2, h3, h4⟩

theorem FindVertexEvent_fold_keeps (tr : Traits) (s : Builder) (k0 : Nat)
    (hk0 : k0 < s.mEventCount) (l : List Nat) (acc : Builder × EventPtr)
    (h : ScanKeeps s k0 acc) :
    ScanKeeps s k0 (l.foldl (Builder.FindVertexEventStep tr (some k0)) acc) := by
  induction l generalizing acc with
  | nil => exact h
  | cons i rest ih =>
    rw [List.foldl_cons]
    exact ih _ (FindVertexEventStep_keeps tr s k0 hk0 acc i h)

theorem FindVertexEvent_keeps (tr : Traits) (s : Builder) (k0 : Nat)
    (hk0 : k0 < s.mEventCount) :
    ScanKeeps s k0 (s.FindVertexEvent tr (some k0)) := by
  have h0 : ScanKeeps s k0 (s, none) :=
    ⟨le_refl _, fun _ _ => rfl, rfl, fun ve hve => by cases hve⟩
  have hA := FindVertexEvent_fold_keeps tr s k0 hk0 (s.targetSplits (some k0)) (s, none) h0
  have hT : ScanKeeps s k0 (s.targetScanned tr (some k0), none) := by
    rw [targetScanned_eq]
    exact ⟨hA.count_le, hA.core_eq, hA.queue, fun ve hve => by cases hve⟩
  have hB := FindVertexEvent_fold_keeps tr s k0 hk0 (s.sourceSplits (some k0)) _ hT
  rw [FindVertexEvent_eq_scans]
  split
  · exact hB
  · rw [targetScanned_eq]
    exact hA

theorem HandlePotentialSplitEvent_QExt (tr : Traits)
    (hPast : ∀ a b c v, tr.IsNewEventInThePast a b c v = true ↔ tr.EventTime a b c < v.time)
    (s : Builder) (k0 : Nat) (t : FT) (hk0 : k0 < s.mEventCount)
    (hev : (s.mEvents k0).time = t) :
    QExt tr t s (s.HandlePotentialSplitEvent tr (some k0)) := by
  have K := FindVertexEvent_keeps tr s k0 hk0
  have hQ : QExt tr t s (s.FindVertexEvent tr (some k0)).1 := by
    refine ⟨K.count_le, fun k hk => Event.triedge_of_core (K.core_eq k hk), ?_⟩
    intro i hi
    rw [K.queue] at hi
    exact Or.inl hi
  unfold Builder.HandlePotentialSplitEvent
  dsimp only
  split
  · split
    · refine hQ.qTrans (HandleSplitEvent_QExt tr hPast _ _ _ t ?_)
      show ((s.FindVertexEvent tr (some k0)).1.mEvents k0).time = t
      rw [Event.time_of_core (K.core_eq k0 hk0)]
      exact hev
    · rename_i hne
      cases hve : (s.FindVertexEvent tr (some k0)).2 with
      | none => exact absurd hve hne
      | some ve =>
        obtain ⟨_, _, c⟩ := K.result ve hve
        refine hQ.qTrans (HandleVertexEvent_QExt tr hPast _ _ t ?_)
        show ((s.FindVertexEvent tr (some k0)).1.mEvents ve).time = t
        rw [c]
        exact hev
  · exact QExt.qRefl tr t s

/-- One iteration of the loop of `Propagate`: the popped event is a queued event of least time,
and the queue after its handling holds events that were queued before or are new events of
time at least the time of the popped event. -/
theorem PropagateStep_QExt (tr : Traits)
    (hPast : ∀ a b c v, tr.IsNewEventInThePast a b c v = true ↔ tr.EventTime a b c < v.time)
    (hCmp : ∀ x y : Triedge, tr.CompareEvents x y = .LARGER ↔
      tr.EventTime y.e0 y.e1 y.e2 < tr.EventTime x.e0 x.e1 x.e2)
    (s : Builder) (hwf : ∀ i ∈ s.mPQ, i < s.mEventCount) (hne : s.mPQ ≠ []) :
    (∀ i ∈ s.mPQ, tr.timeOf (s.ev (s.PopEventFromPQ tr).2) ≤ tr.timeOf (s.mEvents i))
    ∧ (∃ m ∈ s.mPQ, (s.PopEventFromPQ tr).2 = some m)
    ∧ QExt tr (tr.timeOf (s.ev (s.PopEventFromPQ tr).2)) s (s.PropagateStep tr) := by
  cases hq : s.mPQ with
  | nil => exact absurd hq hne
  | cons x rest =>
    obtain ⟨m1, m2, m3⟩ := minEvent_spec tr s hCmp rest x
    have hpop : s.PopEventFromPQ tr
        = ({ s with mPQ := (x :: rest).erase (s.minEvent tr rest x) },
           some (s.minEvent tr rest x)) := by
      unfold Builder.PopEventFromPQ
      rw [hq]
    generalize s.minEvent tr rest x = m at m1 m2 m3 hpop
    have hm : m ∈ s.mPQ := by rw [hq]; exact m1
    have hmlt : m < s.mEventCount := hwf m hm
    have hmin : ∀ i ∈ x :: rest, tr.timeOf (s.mEvents m) ≤ tr.timeOf (s.mEvents i) := by
      intro i hi
      rcases List.mem_cons.mp hi with h | h
      · rw [h]; exact m2
      · exact m3 i h
    have hev : s.ev (s.PopEventFromPQ tr).2 = s.mEvents m := by rw [hpop]; rfl
    rw [hev]
    refine ⟨hmin, ⟨m, m1, by rw [hpop]⟩, ?_⟩
    -- the state after the pop
    obtain ⟨s1, hs1⟩ : ∃ s1 : Builder, s1 = { s with mPQ := (x :: rest).erase m } := ⟨_, rfl⟩
    have hQ1 : QExt tr (tr.timeOf (s.mEvents m)) s s1 := by
      rw [hs1]
      refine ⟨le_refl _, fun _ _ => rfl, ?_⟩
      intro i hi
      left
      rw [hq]
      exact List.mem_of_mem_erase hi
    have hstep : s.PropagateStep tr =
        if (!(s1.ev (some m)).excluded && !s1.IsProcessedEvent (some m)) = true then
          { (match ((s1.SetEventTimeAndPoint tr (some m)).ev (some m)).type with
              | .cEdgeEvent => (s1.SetEventTimeAndPoint tr (some m)).HandleEdgeEvent tr (some m)
              | .cSplitEvent =>
                (s1.SetEventTimeAndPoint tr (some m)).HandlePotentialSplitEvent tr (some m)
              | .cVertexEvent => s1.SetEventTimeAndPoint tr (some m)) with
            mStepID := (match ((s1.SetEventTimeAndPoint tr (some m)).ev (some m)).type with
              | .cEdgeEvent => (s1.SetEventTimeAndPoint tr (some m)).HandleEdgeEvent tr (some m)
              | .cSplitEvent =>
                (s1.SetEventTimeAndPoint tr (some m)).HandlePotentialSplitEvent tr (some m)
              | .cVertexEvent => s1.SetEventTimeAndPoint tr (some m)).mStepID + 1 }
        else s1 := by
      unfold Builder.PropagateStep
      rw [hpop, hs1]
    rw [hstep]
    split
    · -- dispatched
      obtain ⟨s2, hs2⟩ : ∃ s2 : Builder, s2 = s1.SetEventTimeAndPoint tr (some m) := ⟨_, rfl⟩
      have hs2m : s2.mEvents m = { s.mEvents m with
          time := tr.EventTime (s.mEvents m).border_a (s.mEvents m).border_b
            (s.mEvents m).border_c
          point := tr.EventPoint (s.mEvents m).border_a (s.mEvents m).border_b
            (s.mEvents m).border_c } := by
        rw [hs2, hs1]
        unfold Builder.SetEventTimeAndPoint Builder.SetTimeAndPoint Builder.updEvent
        simp [Builder.ev]
      have hQ2 : QExt tr (tr.timeOf (s.mEvents m)) s1 s2 := by
        refine ⟨by rw [hs2]; exact le_refl _, ?_, ?_⟩
        · intro k _
          rw [hs2]
          unfold Builder.SetEventTimeAndPoint Builder.SetTimeAndPoint Builder.updEvent
          dsimp only
          split
          · rfl
          · rfl
        · intro i hi
          rw [hs2] at hi
          exact Or.inl hi
      have hcnt2 : m < s2.mEventCount := by rw [hs2, hs1]; exact hmlt
      have htime2 : (s2.mEvents m).time = tr.timeOf (s.mEvents m) := by
        rw [hs2m]; rfl
      rw [← hs2]
      have hQ3 : QExt tr (tr.timeOf (s.mEvents m)) s2
          (match (s2.ev (some m)).type with
            | .cEdgeEvent => s2.HandleEdgeEvent tr (some m)
            | .cSplitEvent => s2.HandlePotentialSplitEvent tr (some m)
            | .cVertexEvent => s2) := by
        split
        · exact HandleEdgeEvent_QExt tr hPast s2 (some m) _ htime2
        · exact HandlePotentialSplitEvent_QExt tr hPast s2 m _ hcnt2 htime2
        · exact QExt.qRefl tr _ s2
      exact hQ1.qTrans (hQ2.qTrans (hQ3.qTrans (QExt.of_same tr _ rfl rfl rfl)))
    · exact hQ1

/-- The popped times of a run from a state whose queue holds stored events: consecutive
times are ordered, and the first one is bounded below by every lower bound of the queue. -/
theorem poppedTimes_chain (tr : Traits)
    (hPast : ∀ a b c v, tr.IsNewEventInThePast a b c v = true ↔ tr.EventTime a b c < v.time)
    (hCmp : ∀ x y : Triedge, tr.CompareEvents x y = .LARGER ↔
      tr.EventTime y.e0 y.e1 y.e2 < tr.EventTime x.e0 x.e1 x.e2)
    (fuel : Nat) : ∀ s : Builder, (∀ i ∈ s.mPQ, i < s.mEventCount) →
      (s.poppedTimes tr fuel).Chain' (· ≤ ·)
      ∧ ∀ lb : FT, (∀ i ∈ s.mPQ, lb ≤ tr.timeOf (s.mEvents i)) →
          ∀ x ∈ (s.poppedTimes tr fuel).head?, lb ≤ x := by
  induction fuel with
  | zero =>
    intro s _
    refine ⟨List.chain'_nil, ?_⟩
    intro lb _ x hx
    simp [Builder.poppedTimes] at hx
  | succ n ih =>
    intro s hwf
    unfold Builder.poppedTimes
    split
    · refine ⟨List.chain'_nil, ?_⟩
      intro lb _ x hx
      simp at hx
    · rename_i hne
      have hne' : s.mPQ ≠ [] := by
        intro h
        apply hne
        rw [h]
        rfl
      obtain ⟨hmin, ⟨m, hm, hpm⟩, hQ⟩ := PropagateStep_QExt tr hPast hCmp s hwf hne'
      have hwf' : ∀ i ∈ (s.PropagateStep tr).mPQ, i < (s.PropagateStep tr).mEventCount := by
        intro i hi
        rcases hQ.queue i hi with h | ⟨_, b, _⟩
        · exact lt_of_lt_of_le (hwf i h) hQ.count_le
        · exact b
      have hge' : ∀ i ∈ (s.PropagateStep tr).mPQ,
          tr.timeOf (s.ev (s.PopEventFromPQ tr).2)
            ≤ tr.timeOf ((s.PropagateStep tr).mEvents i) := by
        intro i hi
        rcases hQ.queue i hi with h | ⟨_, _, c⟩
        · rw [tr.timeOf_congr (hQ.borders i (hwf i h))]
          exact hmin i h
        · exact c
      obtain ⟨c, hd⟩ := ih (s.PropagateStep tr) hwf'
      refine ⟨List.chain'_cons'.mpr ⟨hd _ hge', c⟩, ?_⟩
      intro lb hlb x hx
      simp only [List.head?_cons, Option.mem_def, Option.some.injEq] at hx
      rw [← hx, hpm]
      exact hlb m hm

/-- C1: assume that `IsNewEventInThePast(a,b,c,seed)` holds exactly when the event time of
`(a,b,c)` is strictly less than `seed.time`, and that `CompareEvents` orders events by that
time, so that the queue pops an event of least time. From a state whose queue holds stored
events, the times of the events popped by the loop of `Propagate` are non-decreasing: none is
smaller than the time of an event popped before it. In one iteration, popping an event of time
`t`, every event of the queue afterwards was in the queue before or is an event created by the
handler, of time at least `t`; and the queue afterwards holds stored events again. -/
theorem Propagate_times_nondecreasing (tr : Traits)
    (hPast : ∀ a b c v, tr.IsNewEventInThePast a b c v = true ↔ tr.EventTime a b c < v.time)
    (hCmp : ∀ x y : Triedge, tr.CompareEvents x y = .LARGER ↔
      tr.EventTime y.e0 y.e1 y.e2 < tr.EventTime x.e0 x.e1 x.e2)
    (s : Builder) (hwf : ∀ i ∈ s.mPQ, i < s.mEventCount) (fuel : Nat) :
    (s.poppedTimes tr fuel).Pairwise (· ≤ ·)
    ∧ (s.mPQ ≠ [] →
        (∀ i ∈ s.mPQ, tr.timeOf (s.ev (s.PopEventFromPQ tr).2) ≤ tr.timeOf (s.mEvents i))
        ∧ (∀ i ∈ (s.PropagateStep tr).mPQ,
            i ∈ s.mPQ
            ∨ (s.mEventCount ≤ i
                ∧ tr.timeOf (s.ev (s.PopEventFromPQ tr).2)
                    ≤ tr.timeOf ((s.PropagateStep tr).mEvents i)))
        ∧ (∀ i ∈ (s.PropagateStep tr).mPQ, i < (s.PropagateStep tr).mEventCount)) := by
  refine ⟨List.chain'_iff_pairwise.mp (poppedTimes_chain tr hPast hCmp fuel s hwf).1, ?_⟩
  intro hne
  obtain ⟨hmin, _, hQ⟩ := PropagateStep_QExt tr hPast hCmp s hwf hne
  refine ⟨hmin, ?_, ?_⟩
  · intro i hi
    rcases hQ.queue i hi with h | ⟨a, _, c⟩
    · exact Or.inl h
    · exact Or.inr ⟨a, c⟩
  · intro i hi
    rcases hQ.queue i hi with h | ⟨_, b, _⟩
    · exact lt_of_lt_of_le (hwf i h) hQ.count_le
    · exact b

/-- The quadrilateral `exQuad` with the traits `exTimedTraits`: the edge event of time 3 is
popped first, its handler creates the node 4 and queues the edge event 1 of time 5, which is
popped next. -/
theorem Propagate_times_nondecreasing_witness :
    (∀ a b c v, exTimedTraits.IsNewEventInThePast a b c v = true
      ↔ exTimedTraits.EventTime a b c < v.time)
    ∧ (∀ x y : Triedge, exTimedTraits.CompareEvents x y = .LARGER ↔
        exTimedTraits.EventTime y.e0 y.e1 y.e2 < exTimedTraits.EventTime x.e0 x.e1 x.e2)
    ∧ (∀ i ∈ exQuad.mPQ, i < exQuad.mEventCount)
    ∧ exQuad.poppedTimes exTimedTraits 5 = [3, 5]
    ∧ (exQuad.PropagateStep exTimedTraits).mPQ = [1]
    ∧ ((exQuad.poppedTimes exTimedTraits 5).Pairwise (· ≤ ·)
      ∧ (exQuad.mPQ ≠ [] →
        (∀ i ∈ exQuad.mPQ,
          exTimedTraits.timeOf (exQuad.ev (exQuad.PopEventFromPQ exTimedTraits).2)
            ≤ exTimedTraits.timeOf (exQuad.mEvents i))
        ∧ (∀ i ∈ (exQuad.PropagateStep exTimedTraits).mPQ,
            i ∈ exQuad.mPQ
            ∨ (exQuad.mEventCount ≤ i
                ∧ exTimedTraits.timeOf (exQuad.ev (exQuad.PopEventFromPQ exTimedTraits).2)
                    ≤ exTimedTraits.timeOf ((exQuad.PropagateStep exTimedTraits).mEvents i)))
        ∧ (∀ i ∈ (exQuad.PropagateStep exTimedTraits).mPQ,
            i < (exQuad.PropagateStep exTimedTraits).mEventCount))) := by
  have hPast : ∀ a b c v, exTimedTraits.IsNewEventInThePast a b c v = true
      ↔ exTimedTraits.EventTime a b c < v.time := by
    intro a b c v
    simp [exTimedTraits]
  have hCmp : ∀ x y : Triedge, exTimedTraits.CompareEvents x y = .LARGER ↔
      exTimedTraits.EventTime y.e0 y.e1 y.e2 < exTimedTraits.EventTime x.e0 x.e1 x.e2 := by
    intro x y
    simp only [exTimedTraits]
    split
    · rename_i h
      exact ⟨fun _ => h, fun _ => rfl⟩
    · rename_i h
      split
      · exact ⟨fun c => (nomatch c), fun c => absurd c h⟩
      · exact ⟨fun c => (nomatch c), fun c => absurd c h⟩
  have hwf : ∀ i ∈ exQuad.mPQ, i < exQuad.mEventCount := by decide
  exact ⟨hPast, hCmp, hwf, by decide, by decide,
    Propagate_times_nondecreasing exTimedTraits hPast hCmp exQuad hwf 5⟩

/-! ## What the event collection keeps -/

theorem UpdKeeps.uRefl (s : Builder) : UpdKeeps s s :=
  ⟨rfl, rfl, rfl, rfl, rfl, rfl, rfl, rfl, rfl, rfl, rfl, fun _ => rfl,
    fun _ => ⟨rfl, rfl, rfl⟩, fun _ => ⟨rfl, rfl, rfl, rfl, rfl, rfl, rfl⟩⟩

theorem UpdKeeps.uTrans {s s1 s2 : Builder} (h1 : UpdKeeps s s1) (h2 : UpdKeeps s1 s2) :
    UpdKeeps s s2 where
  stepID := h2.stepID.trans h1.stepID
  edgeID := h2.edgeID.trans h1.edgeID
  vertexID := h2.vertexID.trans h1.vertexID
  wrappedCount := h2.wrappedCount.trans h1.wrappedCount
  contour := h2.contour.trans h1.contour
  splitNodes := h2.splitNodes.trans h1.splitNodes
  vertexNext := h2.vertexNext.trans h1.vertexNext
  vertexList := h2.vertexList.trans h1.vertexList
  halfedgeNext := h2.halfedgeNext.trans h1.halfedgeNext
  halfedgeList := h2.halfedgeList.trans h1.halfedgeList
  faces := h2.faces.trans h1.faces
  ids := fun n => (h2.ids n).trans (h1.ids n)
  twins := fun j => ⟨(h2.twins j).1.trans (h1.twins j).1, (h2.twins j).2.1.trans (h1.twins j).2.1,
    (h2.twins j).2.2.trans (h1.twins j).2.2⟩
  wrappers := fun k =>
    ⟨(h2.wrappers k).1.trans (h1.wrappers k).1,
     (h2.wrappers k).2.1.trans (h1.wrappers k).2.1,
     (h2.wrappers k).2.2.1.trans (h1.wrappers k).2.2.1,
     (h2.wrappers k).2.2.2.1.trans (h1.wrappers k).2.2.2.1,
     (h2.wrappers k).2.2.2.2.1.trans (h1.wrappers k).2.2.2.2.1,
     (h2.wrappers k).2.2.2.2.2.1.trans (h1.wrappers k).2.2.2.2.2.1,
     (h2.wrappers k).2.2.2.2.2.2.trans (h1.wrappers k).2.2.2.2.2.2⟩

/-- A state that differs from `s` in the event store, the queue, the active-vertex list and the
dangling bisectors only. -/
theorem UpdKeeps.of_fields {s s' : Builder} (h1 : s'.mSSkel = s.mSSkel)
    (h2 : s'.mWrappedVertices = s.mWrappedVertices) (h3 : s'.mStepID = s.mStepID)
    (h4 : s'.mEdgeID = s.mEdgeID) (h5 : s'.mVertexID = s.mVertexID)
    (h6 : s'.mWrappedCount = s.mWrappedCount) (h7 : s'.mContourHalfedges = s.mContourHalfedges)
    (h8 : s'.mSplitNodes = s.mSplitNodes) : UpdKeeps s s' :=
  ⟨h3, h4, h5, h6, h7, h8, by rw [h1], by rw [h1], by rw [h1], by rw [h1], by rw [h1],
    fun _ => by rw [h1], fun _ => by rw [h1]; exact ⟨rfl, rfl, rfl⟩,
    fun _ => by rw [h2]; exact ⟨rfl, rfl, rfl, rfl, rfl, rfl, rfl⟩⟩

theorem EnqueEvent_keeps (s : Builder) (e : EventPtr) : UpdKeeps s (s.EnqueEvent e) := by
  cases e
  · exact UpdKeeps.uRefl s
  · exact UpdKeeps.of_fields rfl rfl rfl rfl rfl rfl rfl rfl

theorem newEvent_keeps (s : Builder) (e : Event) : UpdKeeps s (s.newEvent e).1 :=
  UpdKeeps.of_fields rfl rfl rfl rfl rfl rfl rfl rfl

/-- A write to one wrapper that keeps its borders, links, reflex flag and vertex. -/
theorem updWrap_keeps (s : Builder) (v : Vertex_handle) (f : VertexWrapper → VertexWrapper)
    (hf : ∀ w, (f w).mDefiningBorderA = w.mDefiningBorderA
      ∧ (f w).mDefiningBorderB = w.mDefiningBorderB
      ∧ (f w).mDefiningBorderC = w.mDefiningBorderC
      ∧ (f w).mPrevInLAV = w.mPrevInLAV
      ∧ (f w).mNextInLAV = w.mNextInLAV
      ∧ (f w).mIsReflex = w.mIsReflex
      ∧ (f w).vertex = w.vertex) : UpdKeeps s (s.updWrap v f) := by
  refine ⟨rfl, rfl, rfl, rfl, rfl, rfl, rfl, rfl, rfl, rfl, rfl, fun _ => rfl,
    fun _ => ⟨rfl, rfl, rfl⟩, ?_⟩
  intro k
  unfold Builder.updWrap
  dsimp only
  split
  · exact hf _
  · exact ⟨rfl, rfl, rfl, rfl, rfl, rfl, rfl⟩

theorem AddReflexSplit_keeps (s : Builder) (v : Vertex_handle) (e : EventPtr) :
    UpdKeeps s (s.AddReflexSplit v e) := by
  cases e
  · exact UpdKeeps.uRefl s
  · exact updWrap_keeps s v (fun w => { w with mReflexSplits := w.mReflexSplits ++ [_] })
      (fun _ => ⟨rfl, rfl, rfl, rfl, rfl, rfl, rfl⟩)

theorem SetIsProcessed_keeps (s : Builder) (v : Vertex_handle) :
    UpdKeeps s (s.SetIsProcessed v) :=
  updWrap_keeps s v (fun w => { w with mIsProcessed := true })
    (fun _ => ⟨rfl, rfl, rfl, rfl, rfl, rfl, rfl⟩)

/-- A write to one halfedge that keeps its twin, face and id. -/
theorem updHalfedge_keeps (s : Builder) (h : Halfedge_handle) (f : Halfedge → Halfedge)
    (hf : ∀ r, (f r).opposite = r.opposite ∧ (f r).face = r.face ∧ (f r).id = r.id) :
    UpdKeeps s (s.updHalfedge h f) := by
  refine ⟨rfl, rfl, rfl, rfl, rfl, rfl, rfl, rfl, rfl, rfl, rfl, fun _ => rfl, ?_,
    fun _ => ⟨rfl, rfl, rfl, rfl, rfl, rfl, rfl⟩⟩
  intro j
  unfold Builder.updHalfedge
  dsimp only
  split
  · exact hf _
  · exact ⟨rfl, rfl, rfl⟩

theorem set_next_keeps (s : Builder) (h n : Halfedge_handle) : UpdKeeps s (s.set_next h n) :=
  updHalfedge_keeps s h (fun r => { r with next := n }) (fun _ => ⟨rfl, rfl, rfl⟩)

theorem set_prev_keeps (s : Builder) (h n : Halfedge_handle) : UpdKeeps s (s.set_prev h n) :=
  updHalfedge_keeps s h (fun r => { r with prev := n }) (fun _ => ⟨rfl, rfl, rfl⟩)

theorem set_vertex_keeps (s : Builder) (h : Halfedge_handle) (v : Vertex_handle) :
    UpdKeeps s (s.set_vertex h v) :=
  updHalfedge_keeps s h (fun r => { r with vertex := v }) (fun _ => ⟨rfl, rfl, rfl⟩)

theorem set_halfedge_keeps (s : Builder) (v : Vertex_handle) (h : Halfedge_handle) :
    UpdKeeps s (s.set_halfedge v h) := by
  refine ⟨rfl, rfl, rfl, rfl, rfl, rfl, rfl, rfl, rfl, rfl, rfl, ?_,
    fun _ => ⟨rfl, rfl, rfl⟩, fun _ => ⟨rfl, rfl, rfl, rfl, rfl, rfl, rfl⟩⟩
  intro n
  unfold Builder.set_halfedge Builder.updVertex
  dsimp only
  split
  · rfl
  · rfl

theorem cond_keeps {s : Builder} (c : Bool) {s' : Builder} (h : UpdKeeps s s') :
    UpdKeeps s (if c = true then s' else s) := by
  cases c
  · exact UpdKeeps.uRefl s
  · exact h

theorem CollectSplitEvent_keeps (tr : Traits) (s : Builder) (N : Vertex_handle)
    (a b c : Halfedge_handle) : UpdKeeps s (s.CollectSplitEvent tr N a b c) := by
  unfold Builder.CollectSplitEvent
  dsimp only
  split
  · split
    · refine UpdKeeps.uTrans ?_ (EnqueEvent_keeps _ _)
      refine UpdKeeps.uTrans (newEvent_keeps s (SplitEvent a b c N c)) ?_
      split
      · exact AddReflexSplit_keeps _ _ _
      · exact UpdKeeps.uRefl _
    · exact UpdKeeps.uRefl s
  · exact UpdKeeps.uRefl s

theorem foldl_keeps {α : Type} (f : Builder → α → Builder)
    (hf : ∀ st x, UpdKeeps st (f st x)) (l : List α) (s : Builder) :
    UpdKeeps s (l.foldl f s) := by
  induction l generalizing s with
  | nil => exact UpdKeeps.uRefl s
  | cons x rest ih => exact (hf s x).uTrans (ih (f s x))

theorem CollectSplitEvents_keeps (tr : Traits) (s : Builder) (N : Vertex_handle) :
    UpdKeeps s (s.CollectSplitEvents tr N) := by
  unfold Builder.CollectSplitEvents
  dsimp only
  apply foldl_keeps
  intro st x
  split
  · exact CollectSplitEvent_keeps tr st N _ _ x
  · exact UpdKeeps.uRefl st

theorem newEvent_or_none_keeps (s : Builder) (c : Prop) [Decidable c] (E : Event) :
    UpdKeeps s (if c then s.newEvent E else (s, none)).1 := by
  split
  · exact newEvent_keeps s E
  · exact UpdKeeps.uRefl s

theorem FindEdgeEvent_keeps (tr : Traits) (s : Builder) (L R : Vertex_handle) :
    UpdKeeps s (s.FindEdgeEvent tr L R).1 := by
  unfold Builder.FindEdgeEvent
  dsimp only
  split
  · split
    · exact newEvent_or_none_keeps s _ _
    · exact UpdKeeps.uRefl s
  · exact UpdKeeps.uRefl s

theorem CollectNewEvents_keeps (tr : Traits) (s : Builder) (N : Vertex_handle) :
    UpdKeeps s (s.CollectNewEvents tr N) := by
  unfold Builder.CollectNewEvents
  lift_lets
  extract_lets lPrev lNext s1 rL lL rR lR s3 aL aR lAccept s4
  have h1 : UpdKeeps s s1 := by
    show UpdKeeps s (if s.IsReflex N = true then s.CollectSplitEvents tr N else s)
    split
    · exact CollectSplitEvents_keeps tr s N
    · exact UpdKeeps.uRefl s
  have h3 : UpdKeeps s s3 :=
    h1.uTrans ((FindEdgeEvent_keeps tr s1 lPrev N).uTrans (FindEdgeEvent_keeps tr rL.1 N lNext))
  have h4 : UpdKeeps s s4 := by
    show UpdKeeps s (if lAccept.1 = true then s3.EnqueEvent lL else s3)
    split
    · exact h3.uTrans (EnqueEvent_keeps _ _)
    · exact h3
  split
  · exact h4.uTrans (EnqueEvent_keeps _ _)
  · exact h4

theorem SLAV_remove_keeps (s : Builder) (v : Vertex_handle) : UpdKeeps s (s.SLAV_remove v) :=
  UpdKeeps.of_fields rfl rfl rfl rfl rfl rfl rfl rfl

theorem dangling_keeps (s : Builder) (l : List Halfedge_handle) :
    UpdKeeps s { s with mDanglingBisectors := l } :=
  UpdKeeps.of_fields rfl rfl rfl rfl rfl rfl rfl rfl

theorem HandleSimultaneousEdgeEvent_keeps (s : Builder) (aA aB : Vertex_handle) :
    UpdKeeps s (s.HandleSimultaneousEdgeEvent aA aB) := by
  unfold Builder.HandleSimultaneousEdgeEvent
  dsimp only
  refine UpdKeeps.uTrans ?_ (cond_keeps _ (set_halfedge_keeps _ _ _))
  refine UpdKeeps.uTrans ?_ (cond_keeps _ (set_halfedge_keeps _ _ _))
  refine UpdKeeps.uTrans ?_ (dangling_keeps _ _)
  refine UpdKeeps.uTrans ?_ (set_vertex_keeps _ _ _)
  refine UpdKeeps.uTrans ?_ (set_next_keeps _ _ _)
  refine UpdKeeps.uTrans ?_ (set_prev_keeps _ _ _)
  refine UpdKeeps.uTrans ?_ (set_prev_keeps _ _ _)
  refine UpdKeeps.uTrans ?_ (set_next_keeps _ _ _)
  refine UpdKeeps.uTrans ?_ (SLAV_remove_keeps _ _)
  refine UpdKeeps.uTrans ?_ (SLAV_remove_keeps _ _)
  exact (SetIsProcessed_keeps s aA).uTrans (SetIsProcessed_keeps _ aB)

theorem UpdatePQ_keeps (tr : Traits) (s : Builder) (N : Vertex_handle) :
    UpdKeeps s (s.UpdatePQ tr N) := by
  unfold Builder.UpdatePQ
  dsimp only
  split
  · exact HandleSimultaneousEdgeEvent_keeps s N _
  · split
    · exact HandleSimultaneousEdgeEvent_keeps s N _
    · exact CollectNewEvents_keeps tr s N

/-! ## The step counter -/

theorem HandleEdgeEvent_mStepID (tr : Traits) (s : Builder) (e : EventPtr) :
    (s.HandleEdgeEvent tr e).mStepID = s.mStepID := by
  unfold Builder.HandleEdgeEvent
  lift_lets
  extract_lets lLSeed lRSeed r s1 lNewNode lLOBisector lROBisector lRIBisector
  split
  · lift_lets
    extract_lets
    exact (UpdatePQ_keeps tr _ _).stepID.trans rfl
  · lift_lets
    extract_lets
    rfl

theorem HandleSplitEvent_mStepID (tr : Traits) (s0 : Builder) (e : EventPtr)
    (aOppR : Vertex_handle) : (s0.HandleSplitEvent tr e aOppR).mStepID = s0.mStepID := by
  unfold Builder.HandleSplitEvent
  lift_lets
  extract_lets
    y1 y2 y3 y4 y5 y6 y7 y8 y9 y10 y11 y12 y13 y14 y15 y16 y17 y18 y19 y20 y21 y22 y23 y24 y25
    y26 y27 y28 y29 y30 y31 y32 y33 y34 y35 y36 y37 y38 y39 y40 y41 y42 y43 y44
  exact (UpdatePQ_keeps tr y44 y5).stepID.trans ((UpdatePQ_keeps tr y43 y4).stepID.trans rfl)

theorem SetupVertexEventNode_mStepID (tr : Traits) (s : Builder) (aNode : Vertex_handle)
    (a b : Halfedge_handle) : (s.SetupVertexEventNode tr aNode a b).1.mStepID = s.mStepID := by
  unfold Builder.SetupVertexEventNode
  dsimp only
  split
  · rfl
  · rfl

theorem HandleVertexEvent_mStepID (tr : Traits) (s0 : Builder) (e : EventPtr) :
    (s0.HandleVertexEvent tr e).mStepID = s0.mStepID := by
  unfold Builder.HandleVertexEvent
  lift_lets
  extract_lets
    z1 z2 z3 z4 z5 z6 z7 z8 z9 z10 z11 z12 z13 z14 z15 z16 z17 z18 z19 z20 z21 z22 z23 z24 z25
    z26 z27 z28 z29 z30 z31 z32 z33 z34 z35 z36 z37 z38 z39 z40 z41 z42 z43 z44 z45 z46 z47 z48
    z49 z50 z51 z52 z53
  have f : (z48.SetupVertexEventNode tr z5 z37 z38).1.mStepID = z48.mStepID :=
    SetupVertexEventNode_mStepID tr z48 z5 z37 z38
  have g : z52.mStepID = z50.mStepID := by
    show (if (!z51) = true then (z50.SetupVertexEventNode tr z6 z40 z41).1 else z50).mStepID
        = z50.mStepID
    split
    · exact SetupVertexEventNode_mStepID tr z50 z6 z40 z41
    · rfl
  exact (UpdatePQ_keeps tr z53 z6).stepID.trans
    ((UpdatePQ_keeps tr z52 z5).stepID.trans (g.trans (f.trans rfl)))

theorem FindVertexEventStep_mStepID (tr : Traits) (aE0 : EventPtr) (acc : Builder × EventPtr)
    (i : Nat) : (Builder.FindVertexEventStep tr aE0 acc i).1.mStepID = acc.1.mStepID := by
  unfold Builder.FindVertexEventStep
  dsimp only
  split
  · split
    · rfl
    · rfl
  · rfl

theorem FindVertexEventAt_mStepID (tr : Traits) (s : Builder) (aE0 : EventPtr)
    (aOV : Vertex_handle) : (s.FindVertexEventAt tr aE0 aOV).1.mStepID = s.mStepID := by
  unfold Builder.FindVertexEventAt
  have key : ∀ (l : List Nat) (acc : Builder × EventPtr),
      (l.foldl (Builder.FindVertexEventStep tr aE0) acc).1.mStepID = acc.1.mStepID := by
    intro l
    induction l with
    | nil => intro acc; rfl
    | cons x rest ih =>
      intro acc
      exact (ih _).trans (FindVertexEventStep_mStepID tr aE0 acc x)
  exact key _ _

theorem FindVertexEvent_mStepID (tr : Traits) (s : Builder) (aE0 : EventPtr) :
    (s.FindVertexEvent tr aE0).1.mStepID = s.mStepID := by
  unfold Builder.FindVertexEvent
  lift_lets
  extract_lets lOppBorder lOV1 r1
  have h1 : r1.1.mStepID = s.mStepID := by
    show (if s.IsReflex lOV1 = true then s.FindVertexEventAt tr aE0 lOV1
        else (s, none)).1.mStepID = s.mStepID
    split
    · exact FindVertexEventAt_mStepID tr s aE0 lOV1
    · rfl
  split
  · lift_lets
    extract_lets lOV2
    split
    · exact (FindVertexEventAt_mStepID tr r1.1 aE0 lOV2).trans h1
    · exact h1
  · exact h1

theorem HandlePotentialSplitEvent_mStepID (tr : Traits) (s : Builder) (e : EventPtr) :
    (s.HandlePotentialSplitEvent tr e).mStepID = s.mStepID := by
  unfold Builder.HandlePotentialSplitEvent
  dsimp only
  split
  · split
    · exact (HandleSplitEvent_mStepID tr _ e _).trans (FindVertexEvent_mStepID tr s e)
    · exact (HandleVertexEvent_mStepID tr _ _).trans (FindVertexEvent_mStepID tr s e)
  · rfl

theorem PopEventFromPQ_queue_only (tr : Traits) (s : Builder) :
    (s.PopEventFromPQ tr).1 = { s with mPQ := (s.PopEventFromPQ tr).1.mPQ } := by
  unfold Builder.PopEventFromPQ
  split
  · rfl
  · rfl

theorem PopEventFromPQ_ev (tr : Traits) (s : Builder) (e : EventPtr) :
    (s.PopEventFromPQ tr).1.ev e = s.ev e := by
  rw [PopEventFromPQ_queue_only]
  rfl

theorem PopEventFromPQ_IsProcessed (tr : Traits) (s : Builder) (v : Vertex_handle) :
    (s.PopEventFromPQ tr).1.IsProcessed v = s.IsProcessed v := by
  rw [PopEventFromPQ_queue_only]
  rfl

theorem popIsLive_eq (tr : Traits) (s : Builder) :
    (!((s.PopEventFromPQ tr).1.ev (s.PopEventFromPQ tr).2).excluded
      && !(s.PopEventFromPQ tr).1.IsProcessedEvent (s.PopEventFromPQ tr).2)
    = s.popIsLive tr := by
  unfold Builder.IsProcessedEvent Builder.popIsLive
  rw [PopEventFromPQ_ev, PopEventFromPQ_IsProcessed, PopEventFromPQ_IsProcessed]
  simp [Bool.and_assoc]

theorem dispatch_mStepID (tr : Traits) (s : Builder) (e : EventPtr) :
    (s.dispatch tr e).mStepID = s.mStepID := by
  unfold Builder.dispatch
  split
  · exact HandleEdgeEvent_mStepID tr s e
  · exact HandlePotentialSplitEvent_mStepID tr s e
  · rfl

theorem PropagateStep_skipped (tr : Traits) (s : Builder) (h : s.popIsLive tr = false) :
    s.PropagateStep tr = (s.PopEventFromPQ tr).1 := by
  unfold Builder.PropagateStep
  dsimp only
  split
  · rename_i hc
    have := (popIsLive_eq tr s).symm.trans hc
    rw [h] at this
    exact absurd this (by decide)
  · rfl

theorem PropagateStep_dispatched (tr : Traits) (s : Builder) (h : s.popIsLive tr = true) :
    s.PropagateStep tr
      = { (((s.PopEventFromPQ tr).1.SetEventTimeAndPoint tr (s.PopEventFromPQ tr).2).dispatch tr
            (s.PopEventFromPQ tr).2) with mStepID := s.mStepID + 1 } := by
  have hs : (((s.PopEventFromPQ tr).1.SetEventTimeAndPoint tr (s.PopEventFromPQ tr).2).dispatch
      tr (s.PopEventFromPQ tr).2).mStepID = s.mStepID := by
    rw [dispatch_mStepID]
    show (s.PopEventFromPQ tr).1.mStepID = s.mStepID
    rw [PopEventFromPQ_queue_only]
  unfold Builder.PropagateStep
  dsimp only
  split
  · rw [← hs]
    rfl
  · rename_i hc
    exact absurd ((popIsLive_eq tr s).trans h) hc

theorem PropagateStep_mStepID (tr : Traits) (s : Builder) :
    (s.PropagateStep tr).mStepID = s.mStepID + (if s.popIsLive tr = true then 1 else 0) := by
  cases h : s.popIsLive tr
  · rw [PropagateStep_skipped tr s h, PopEventFromPQ_queue_only]
    rfl
  · rw [PropagateStep_dispatched tr s h]
    rfl

theorem Propagate_mStepID (tr : Traits) (fuel : Nat) : ∀ s : Builder,
    (s.Propagate tr fuel).mStepID = s.mStepID + s.dispatchedCount tr fuel := by
  induction fuel with
  | zero => intro s; rfl
  | succ n ih =>
    intro s
    unfold Builder.Propagate Builder.dispatchedCount
    split
    · rfl
    · rw [ih, PropagateStep_mStepID]
      omega

/-- C11: in an iteration of the loop of `Propagate` the popped event is dispatched to the
handler of its type exactly when it is not excluded and neither of its seeds is processed. A
skipped event changes nothing but the queue, from which the pop has removed it. A dispatched
event has its time and point set, is handled, and the step counter is incremented once, the
handlers leaving the counter alone; so after any number of iterations the step counter has
grown by the number of dispatched events, whatever their handlers did. -/
theorem Propagate_dispatch (tr : Traits) (s : Builder) :
    (s.popIsLive tr = false →
      s.PropagateStep tr = { s with mPQ := (s.PopEventFromPQ tr).1.mPQ })
    ∧ (∀ m, (s.PopEventFromPQ tr).2 = some m →
        m ∈ s.mPQ ∧ (s.PopEventFromPQ tr).1.mPQ = s.mPQ.erase m)
    ∧ (s.popIsLive tr = true →
      s.PropagateStep tr
        = { (((s.PopEventFromPQ tr).1.SetEventTimeAndPoint tr (s.PopEventFromPQ tr).2).dispatch
              tr (s.PopEventFromPQ tr).2) with mStepID := s.mStepID + 1 })
    ∧ (∀ fuel, (s.Propagate tr fuel).mStepID = s.mStepID + s.dispatchedCount tr fuel) := by
  refine ⟨?_, ?_, PropagateStep_dispatched tr s, fun fuel => Propagate_mStepID tr fuel s⟩
  · intro h
    rw [PropagateStep_skipped tr s h]
    exact PopEventFromPQ_queue_only tr s
  · intro m hm
    unfold Builder.PopEventFromPQ at hm ⊢
    split at hm
    · exact absurd hm (by simp)
    · rename_i x rest hq
      simp only [Option.some.injEq] at hm
      rw [hq]
      dsimp only
      rw [hm]
      refine ⟨?_, rfl⟩
      rw [← hm]
      have hmem : ∀ (l : List Nat) (b : Nat), s.minEvent tr l b ∈ b :: l := by
        intro l
        induction l with
        | nil => intro b; simp [Builder.minEvent]
        | cons y r ih =>
          intro b
          unfold Builder.minEvent
          split
          · exact List.mem_cons_of_mem _ (ih y)
          · rcases List.mem_cons.mp (ih b) with h | h
            · rw [h]; exact List.mem_cons_self _ _
            · exact List.mem_cons_of_mem _ (List.mem_cons_of_mem _ h)
      exact hmem rest x

/-! ## Coincident bisectors and the splice -/

theorem AreBisectorsCoincident_pair (s : Builder) (a b : Halfedge_handle) :
    s.AreBisectorsCoincident a b = true ↔ s.definingPair a = s.definingPair b := by
  unfold Builder.AreBisectorsCoincident Builder.definingPair
  dsimp only
  rw [Sym2.eq_iff]
  simp only [Bool.or_eq_true, Bool.and_eq_true, beq_iff_eq]

/-- C19: `AreBisectorsCoincident(a,b)` holds exactly when the unordered pair of the defining
contour edges of `a` and of its twin equals that of `b` and of its twin. The relation is
therefore reflexive, symmetric and transitive, and a halfedge that is the twin of its twin is
coincident with its twin. -/
theorem AreBisectorsCoincident_iff (s : Builder) :
    (∀ a b, s.AreBisectorsCoincident a b = true ↔ s.definingPair a = s.definingPair b)
    ∧ (∀ a, s.AreBisectorsCoincident a a = true)
    ∧ (∀ a b, s.AreBisectorsCoincident a b = true → s.AreBisectorsCoincident b a = true)
    ∧ (∀ a b c, s.AreBisectorsCoincident a b = true → s.AreBisectorsCoincident b c = true →
        s.AreBisectorsCoincident a c = true)
    ∧ (∀ a, s.opposite (s.opposite a) = a →
        s.AreBisectorsCoincident a (s.opposite a) = true) := by
  refine ⟨AreBisectorsCoincident_pair s, ?_, ?_, ?_, ?_⟩
  · intro a
    exact (AreBisectorsCoincident_pair s a a).mpr rfl
  · intro a b h
    exact (AreBisectorsCoincident_pair s b a).mpr ((AreBisectorsCoincident_pair s a b).mp h).symm
  · intro a b c h1 h2
    exact (AreBisectorsCoincident_pair s a c).mpr
      (((AreBisectorsCoincident_pair s a b).mp h1).trans
        ((AreBisectorsCoincident_pair s b c).mp h2))
  · intro a h
    refine (AreBisectorsCoincident_pair s a _).mpr ?_
    unfold Builder.definingPair
    rw [h]
    exact Sym2.eq_swap

/-- C18: `UpdatePQ(N)` tests the bisector of `N` against that of its LAV predecessor first: when
they are coincident it is `HandleSimultaneousEdgeEvent(N, Prev)`, whatever the test against the
successor gives; else when the bisector of `N` is coincident with that of the successor it is
`HandleSimultaneousEdgeEvent(N, Next)`; else it is `CollectNewEvents(N)`.
`HandleSimultaneousEdgeEvent` leaves the queue and the event store as they are. -/
theorem UpdatePQ_dispatch (tr : Traits) (s : Builder) (N : Vertex_handle) :
    (s.AreBisectorsCoincident (s.primary_bisector N) (s.primary_bisector (s.GetPrevInLAV N))
        = true →
      s.UpdatePQ tr N = s.HandleSimultaneousEdgeEvent N (s.GetPrevInLAV N))
    ∧ (s.AreBisectorsCoincident (s.primary_bisector N) (s.primary_bisector (s.GetPrevInLAV N))
        = false →
      s.AreBisectorsCoincident (s.primary_bisector N) (s.primary_bisector (s.GetNextInLAV N))
        = true →
      s.UpdatePQ tr N = s.HandleSimultaneousEdgeEvent N (s.GetNextInLAV N))
    ∧ (s.AreBisectorsCoincident (s.primary_bisector N) (s.primary_bisector (s.GetPrevInLAV N))
        = false →
      s.AreBisectorsCoincident (s.primary_bisector N) (s.primary_bisector (s.GetNextInLAV N))
        = false →
      s.UpdatePQ tr N = s.CollectNewEvents tr N)
    ∧ (∀ A B, (s.HandleSimultaneousEdgeEvent A B).mPQ = s.mPQ
        ∧ (s.HandleSimultaneousEdgeEvent A B).mEvents = s.mEvents
        ∧ (s.HandleSimultaneousEdgeEvent A B).mEventCount = s.mEventCount) := by
  refine ⟨?_, ?_, ?_, ?_⟩
  · intro h
    unfold Builder.UpdatePQ
    dsimp only
    rw [if_pos h]
  · intro h1 h2
    unfold Builder.UpdatePQ
    dsimp only
    rw [if_neg (by rw [h1]; decide), if_pos h2]
  · intro h1 h2
    unfold Builder.UpdatePQ
    dsimp only
    rw [if_neg (by rw [h1]; decide), if_neg (by rw [h2]; decide)]
  · intro A B
    obtain ⟨h1, h2, h3, _⟩ := HandleSimultaneousEdgeEvent_frame s A B
    exact ⟨h3, h1, h2⟩

theorem cond_set_halfedge_same (st : Builder) (c : Bool) (v : Vertex_handle)
    (h : Halfedge_handle) :
    (if c = true then st.set_halfedge v h else st).mSSkel.halfedges = st.mSSkel.halfedges
    ∧ (if c = true then st.set_halfedge v h else st).mWrappedVertices = st.mWrappedVertices
    ∧ (if c = true then st.set_halfedge v h else st).mSLAV = st.mSLAV
    ∧ (if c = true then st.set_halfedge v h else st).mDanglingBisectors = st.mDanglingBisectors
    ∧ ∀ n, ((if c = true then st.set_halfedge v h else st).mSSkel.vertices n).id
        = (st.mSSkel.vertices n).id := by
  cases c
  · exact ⟨rfl, rfl, rfl, rfl, fun _ => rfl⟩
  · exact ⟨rfl, rfl, rfl, rfl, (set_halfedge_keeps st v h).ids⟩

theorem Builder.he_congr {s t : Builder} (h : t.mSSkel.halfedges = s.mSSkel.halfedges)
    (x : Halfedge_handle) : t.he x = s.he x := by
  cases x with
  | none => rfl
  | some i => show t.mSSkel.halfedges i = s.mSSkel.halfedges i; rw [h]

theorem Builder.wrap_congr_ids {s t : Builder}
    (hid : ∀ n, (t.mSSkel.vertices n).id = (s.mSSkel.vertices n).id)
    (hw : t.mWrappedVertices = s.mWrappedVertices) (v : Vertex_handle) : t.wrap v = s.wrap v := by
  cases v with
  | none => rfl
  | some i =>
    show t.mWrappedVertices (t.mSSkel.vertices i).id = s.mWrappedVertices (s.mSSkel.vertices i).id
    rw [hw, hid]

/-- The state of `HandleSimultaneousEdgeEvent(aA, aB)` before the two repairs of vertex
halfedges. -/
theorem HandleSimultaneousEdgeEvent_tables (s : Builder) (aA aB : Vertex_handle) :
    (s.HandleSimultaneousEdgeEvent aA aB).mSSkel.halfedges
      = (((((s.set_next (s.primary_bisector aB) (s.next (s.opposite (s.primary_bisector aA)))).set_prev
            (s.next (s.opposite (s.primary_bisector aA))) (s.primary_bisector aB)).set_prev
            (s.opposite (s.primary_bisector aB)) (s.prev (s.primary_bisector aA))).set_next
            (s.prev (s.primary_bisector aA)) (s.opposite (s.primary_bisector aB))).set_vertex
            (s.primary_bisector aB) aA).mSSkel.halfedges
    ∧ (s.HandleSimultaneousEdgeEvent aA aB).mWrappedVertices
      = ((s.SetIsProcessed aA).SetIsProcessed aB).mWrappedVertices
    ∧ (s.HandleSimultaneousEdgeEvent aA aB).mSLAV
      = (s.mSLAV.filter (fun i => some i != aA)).filter (fun i => some i != aB)
    ∧ (s.HandleSimultaneousEdgeEvent aA aB).mDanglingBisectors
      = s.mDanglingBisectors ++ [s.primary_bisector aA]
    ∧ ∀ n, ((s.HandleSimultaneousEdgeEvent aA aB).mSSkel.vertices n).id
        = (s.mSSkel.vertices n).id := by
  unfold Builder.HandleSimultaneousEdgeEvent
  dsimp only
  refine ⟨?_, ?_, ?_, ?_, ?_⟩
  · exact ((cond_set_halfedge_same _ _ _ _).1).trans
      (((cond_set_halfedge_same _ _ _ _).1).trans rfl)
  · exact ((cond_set_halfedge_same _ _ _ _).2.1).trans
      (((cond_set_halfedge_same _ _ _ _).2.1).trans rfl)
  · exact ((cond_set_halfedge_same _ _ _ _).2.2.1).trans
      (((cond_set_halfedge_same _ _ _ _).2.2.1).trans rfl)
  · exact ((cond_set_halfedge_same _ _ _ _).2.2.2.1).trans
      (((cond_set_halfedge_same _ _ _ _).2.2.2.1).trans rfl)
  · intro n
    exact ((cond_set_halfedge_same _ _ _ _).2.2.2.2 n).trans
      (((cond_set_halfedge_same _ _ _ _).2.2.2.2 n).trans rfl)

/-- C20: `HandleSimultaneousEdgeEvent(A,B)`, with `OA = primary_bisector(A)`, `IA = opposite(OA)`,
`OB = primary_bisector(B)`, `IB = opposite(OB)` read on entry, and `OB`, `IB`, `next(IA)`,
`prev(OA)` assigned, `prev(OA)` other than `OB` and `next(IA)` other than `IB`: afterwards `A`
and `B` are processed and absent from the active-vertex list, the dangling bisectors have grown
by `OA`, `OB` targets `A`, `next(OB)` is the old `next(IA)` and `prev` of that halfedge is `OB`,
`prev(IB)` is the old `prev(OA)` and `next` of that halfedge is `IB`; the queue and the number
of events are unchanged. -/
theorem HandleSimultaneousEdgeEvent_splice (s : Builder) (a b ob iaN ib oaP : Nat)
    (hOB : s.primary_bisector (some b) = some ob)
    (hIAN : s.next (s.opposite (s.primary_bisector (some a))) = some iaN)
    (hIB : s.opposite (s.primary_bisector (some b)) = some ib)
    (hOAP : s.prev (s.primary_bisector (some a)) = some oaP)
    (h1 : oaP ≠ ob) (h2 : ib ≠ iaN) :
    (s.HandleSimultaneousEdgeEvent (some a) (some b)).IsProcessed (some a) = true
    ∧ (s.HandleSimultaneousEdgeEvent (some a) (some b)).IsProcessed (some b) = true
    ∧ a ∉ (s.HandleSimultaneousEdgeEvent (some a) (some b)).mSLAV
    ∧ b ∉ (s.HandleSimultaneousEdgeEvent (some a) (some b)).mSLAV
    ∧ (s.HandleSimultaneousEdgeEvent (some a) (some b)).mDanglingBisectors
        = s.mDanglingBisectors ++ [s.primary_bisector (some a)]
    ∧ (s.HandleSimultaneousEdgeEvent (some a) (some b)).vertex (some ob) = some a
    ∧ (s.HandleSimultaneousEdgeEvent (some a) (some b)).next (some ob) = some iaN
    ∧ (s.HandleSimultaneousEdgeEvent (some a) (some b)).prev (some iaN) = some ob
    ∧ (s.HandleSimultaneousEdgeEvent (some a) (some b)).prev (some ib) = some oaP
    ∧ (s.HandleSimultaneousEdgeEvent (some a) (some b)).next (some oaP) = some ib
    ∧ (s.HandleSimultaneousEdgeEvent (some a) (some b)).mPQ = s.mPQ
    ∧ (s.HandleSimultaneousEdgeEvent (some a) (some b)).mEventCount = s.mEventCount := by
  obtain ⟨t1, t2, t3, t4, t5⟩ := HandleSimultaneousEdgeEvent_tables s (some a) (some b)
  have hw : ∀ v, (s.HandleSimultaneousEdgeEvent (some a) (some b)).wrap v
      = ((s.SetIsProcessed (some a)).SetIsProcessed (some b)).wrap v :=
    fun v => @Builder.wrap_congr_ids ((s.SetIsProcessed (some a)).SetIsProcessed (some b)) _ t5 t2 v
  have hh := fun x => Builder.he_congr t1 x
  rw [hIB, hIAN, hOAP, hOB] at hh
  refine ⟨?_, ?_, ?_, ?_, t4, ?_, ?_, ?_, ?_, ?_,
    (HandleSimultaneousEdgeEvent_frame s (some a) (some b)).2.2.1,
    (HandleSimultaneousEdgeEvent_frame s (some a) (some b)).2.1⟩
  · unfold Builder.IsProcessed
    rw [hw]
    simp [Builder.wrap, Builder.SetIsProcessed, Builder.updWrap, Builder.wrapIndex]
  · unfold Builder.IsProcessed
    rw [hw]
    simp [Builder.wrap, Builder.SetIsProcessed, Builder.updWrap, Builder.wrapIndex]
  · rw [t3]
    simp
  · rw [t3]
    simp
  · unfold Builder.vertex
    rw [hh]
    simp [Builder.he, Builder.set_vertex, Builder.set_next, Builder.set_prev, Builder.updHalfedge,
      apply_ite Halfedge.next, apply_ite Halfedge.prev, apply_ite Halfedge.vertex]
  · unfold Builder.next
    rw [hh]
    simp [Builder.he, Builder.set_vertex, Builder.set_next, Builder.set_prev, Builder.updHalfedge,
      apply_ite Halfedge.next, apply_ite Halfedge.prev, apply_ite Halfedge.vertex,
      h1]
  · unfold Builder.prev
    rw [hh]
    simp [Builder.he, Builder.set_vertex, Builder.set_next, Builder.set_prev, Builder.updHalfedge,
      apply_ite Halfedge.next, apply_ite Halfedge.prev, apply_ite Halfedge.vertex,
      h2]
  · unfold Builder.prev
    rw [hh]
    simp [Builder.he, Builder.set_vertex, Builder.set_next, Builder.set_prev, Builder.updHalfedge,
      apply_ite Halfedge.next, apply_ite Halfedge.prev, apply_ite Halfedge.vertex]
  · unfold Builder.next
    rw [hh]
    simp [Builder.he, Builder.set_vertex, Builder.set_next, Builder.set_prev, Builder.updHalfedge,
      apply_ite Halfedge.next, apply_ite Halfedge.prev, apply_ite Halfedge.vertex]

theorem HandleSimultaneousEdgeEvent_splice_witness :
    (exQuad.primary_bisector (some 1) = some 10
      ∧ exQuad.next (exQuad.opposite (exQuad.primary_bisector (some 0))) = some 1
      ∧ exQuad.opposite (exQuad.primary_bisector (some 1)) = some 11
      ∧ exQuad.prev (exQuad.primary_bisector (some 0)) = some 0)
    ∧ (exQuad.HandleSimultaneousEdgeEvent (some 0) (some 1)).IsProcessed (some 0) = true
    ∧ (exQuad.HandleSimultaneousEdgeEvent (some 0) (some 1)).next (some 10) = some 1
    ∧ (exQuad.HandleSimultaneousEdgeEvent (some 0) (some 1)).prev (some 11) = some 0 :=
  have h := HandleSimultaneousEdgeEvent_splice exQuad 0 1 10 1 11 0 (by decide) (by decide)
    (by decide) (by decide) (by decide) (by decide)
  ⟨⟨by decide, by decide, by decide, by decide⟩, h.1, h.2.2.2.2.2.2.1, h.2.2.2.2.2.2.2.2.1⟩

/-! ## The wiring of the event handlers -/

theorem HandleEdgeEvent_multiple (tr : Traits) (s : Builder) (e : EventPtr)
    (h : s.isMultipleNode e = true) :
    s.HandleEdgeEvent tr e
      = (s.ConstructEdgeEventNode e).1.recordBorders (s.ConstructEdgeEventNode e).2
          ((s.ConstructEdgeEventNode e).1.bordersAround (s.ConstructEdgeEventNode e).2) := by
  unfold Builder.HandleEdgeEvent
  lift_lets
  extract_lets lLSeed lRSeed r s1 lNewNode lLOBisector lROBisector lRIBisector
  split
  · rename_i hc
    have hc2 : (!handle_assigned ((s.ConstructEdgeEventNode e).1.next
          ((s.ConstructEdgeEventNode e).1.primary_bisector (s.ev e).seed0))
        && !handle_assigned ((s.ConstructEdgeEventNode e).1.prev
          ((s.ConstructEdgeEventNode e).1.opposite
            ((s.ConstructEdgeEventNode e).1.primary_bisector (s.ev e).seed1)))) = true := hc
    unfold Builder.isMultipleNode at h
    revert h hc2
    generalize handle_assigned _ = p1
    generalize handle_assigned _ = p2
    cases p1 <;> cases p2 <;> simp
  · rfl

theorem HandleEdgeEvent_new_bisector (tr : Traits) (s : Builder) (e : EventPtr)
    (h : s.isMultipleNode e = false) :
    s.HandleEdgeEvent tr e
      = ((s.EdgeEventWiring e).recordBorders (s.ConstructEdgeEventNode e).2
          ((s.EdgeEventWiring e).bordersAround (s.ConstructEdgeEventNode e).2)).UpdatePQ tr
            (s.ConstructEdgeEventNode e).2 := by
  unfold Builder.HandleEdgeEvent
  lift_lets
  extract_lets lLSeed lRSeed r s1 lNewNode lLOBisector lROBisector lRIBisector
  split
  · rfl
  · rename_i hc
    have hc2 : ¬ (!handle_assigned ((s.ConstructEdgeEventNode e).1.next
          ((s.ConstructEdgeEventNode e).1.primary_bisector (s.ev e).seed0))
        && !handle_assigned ((s.ConstructEdgeEventNode e).1.prev
          ((s.ConstructEdgeEventNode e).1.opposite
            ((s.ConstructEdgeEventNode e).1.primary_bisector (s.ev e).seed1)))) = true := hc
    unfold Builder.isMultipleNode at h
    revert h hc2
    generalize handle_assigned _ = p1
    generalize handle_assigned _ = p2
    cases p1 <;> cases p2 <;> simp

theorem HandleSplitEvent_wiring (tr : Traits) (s : Builder) (e : EventPtr)
    (aOppR : Vertex_handle) :
    s.HandleSplitEvent tr e aOppR
      = ((((s.SplitEventWiring e aOppR).recordBorders (s.ConstructSplitEventNodes e aOppR).2.1
              ((s.SplitEventWiring e aOppR).bordersAround
                (s.ConstructSplitEventNodes e aOppR).2.1)).recordBorders
            (s.ConstructSplitEventNodes e aOppR).2.2
            ((s.SplitEventWiring e aOppR).bordersAround
              (s.ConstructSplitEventNodes e aOppR).2.2)).UpdatePQ tr
          (s.ConstructSplitEventNodes e aOppR).2.1).UpdatePQ tr
        (s.ConstructSplitEventNodes e aOppR).2.2 := rfl

/-- C17: in `HandleEdgeEvent`, when `next(primary_bisector(L))` or
`prev(opposite(primary_bisector(R)))` is assigned after `ConstructEdgeEventNode` (a multiple
node), the handler only records the three defining borders of the new node: no halfedge is
created or changed, and the edge-id counter, the queue and the event store are as on entry.
Otherwise it appends one pair of halfedges, advances the edge-id counter by 2, records the
borders and calls `UpdatePQ` on the new node, the queue being untouched until that call. -/
theorem HandleEdgeEvent_branches (tr : Traits) (s : Builder) (e : EventPtr) :
    (s.isMultipleNode e = true →
      s.HandleEdgeEvent tr e
          = (s.ConstructEdgeEventNode e).1.recordBorders (s.ConstructEdgeEventNode e).2
              ((s.ConstructEdgeEventNode e).1.bordersAround (s.ConstructEdgeEventNode e).2)
        ∧ (s.HandleEdgeEvent tr e).mSSkel.halfedges
            = (s.ConstructEdgeEventNode e).1.mSSkel.halfedges
        ∧ (s.HandleEdgeEvent tr e).mSSkel.halfedgeNext = s.mSSkel.halfedgeNext
        ∧ (s.HandleEdgeEvent tr e).mSSkel.halfedgeList = s.mSSkel.halfedgeList
        ∧ (s.HandleEdgeEvent tr e).mEdgeID = s.mEdgeID
        ∧ (s.HandleEdgeEvent tr e).mPQ = s.mPQ
        ∧ (s.HandleEdgeEvent tr e).mEventCount = s.mEventCount)
    ∧ (s.isMultipleNode e = false →
        s.HandleEdgeEvent tr e
          = ((s.EdgeEventWiring e).recordBorders (s.ConstructEdgeEventNode e).2
              ((s.EdgeEventWiring e).bordersAround (s.ConstructEdgeEventNode e).2)).UpdatePQ tr
                (s.ConstructEdgeEventNode e).2
        ∧ (s.HandleEdgeEvent tr e).mSSkel.halfedgeList
            = s.mSSkel.halfedgeList ++ [s.mSSkel.halfedgeNext, s.mSSkel.halfedgeNext + 1]
        ∧ (s.HandleEdgeEvent tr e).mSSkel.halfedgeNext = s.mSSkel.halfedgeNext + 2
        ∧ (s.HandleEdgeEvent tr e).mEdgeID = s.mEdgeID + 2
        ∧ (s.EdgeEventWiring e).mPQ = s.mPQ) := by
  constructor
  · intro h
    rw [HandleEdgeEvent_multiple tr s e h]
    exact ⟨rfl, rfl, rfl, rfl, rfl, rfl, rfl⟩
  · intro h
    rw [HandleEdgeEvent_new_bisector tr s e h]
    refine ⟨rfl, ?_, ?_, ?_, rfl⟩
    · exact (UpdatePQ_keeps tr _ _).halfedgeList.trans rfl
    · exact (UpdatePQ_keeps tr _ _).halfedgeNext.trans rfl
    · exact (UpdatePQ_keeps tr _ _).edgeID.trans rfl

/-! ## The node of an edge event -/

/-- C12: `ConstructEdgeEventNode(ev)` for seeds `L` and `R` that are vertices of the graph,
with `LO = primary_bisector(L)`, `RO = primary_bisector(R)` and `LI = opposite(LO)` assigned on
entry: exactly one vertex `N` is appended, with the point and time of the event, the previous
vertex counter as its id and `LO` as its halfedge, and the other vertices are unchanged;
afterwards `LO` and `RO` both target `N`, `next(RO) == LI` and `prev(LI) == RO`, `L` and `R` are
processed and absent from the active-vertex list, and `N` is in that list. `LO` and `RO` are
still the primary bisectors of `L` and `R` afterwards when `RO` is not the halfedge of the
seed. -/
theorem ConstructEdgeEventNode_post (s : Builder) (e : EventPtr) (l r lo ro li : Nat)
    (hL : (s.ev e).seed0 = some l) (hR : (s.ev e).seed1 = some r)
    (hl : l < s.mSSkel.vertexNext) (hr : r < s.mSSkel.vertexNext)
    (hLO : s.primary_bisector (some l) = some lo) (hRO : s.primary_bisector (some r) = some ro)
    (hLI : s.opposite (some lo) = some li) :
    (s.ConstructEdgeEventNode e).2 = some s.mSSkel.vertexNext
    ∧ (s.ConstructEdgeEventNode e).1.mSSkel.vertexNext = s.mSSkel.vertexNext + 1
    ∧ (s.ConstructEdgeEventNode e).1.mSSkel.vertexList
        = s.mSSkel.vertexList ++ [s.mSSkel.vertexNext]
    ∧ (s.ConstructEdgeEventNode e).1.mVertexID = s.mVertexID + 1
    ∧ (∀ n, n ≠ s.mSSkel.vertexNext →
        (s.ConstructEdgeEventNode e).1.mSSkel.vertices n = s.mSSkel.vertices n)
    ∧ (s.ConstructEdgeEventNode e).1.mSSkel.vertices s.mSSkel.vertexNext
        = { id := s.mVertexID, point := (s.ev e).point, time := (s.ev e).time,
            halfedge := some lo, is_skeleton := true }
    ∧ (s.ConstructEdgeEventNode e).1.vertex (some lo) = some s.mSSkel.vertexNext
    ∧ (s.ConstructEdgeEventNode e).1.vertex (some ro) = some s.mSSkel.vertexNext
    ∧ (s.ConstructEdgeEventNode e).1.next (some ro) = some li
    ∧ (s.ConstructEdgeEventNode e).1.prev (some li) = some ro
    ∧ (s.ConstructEdgeEventNode e).1.IsProcessed (some l) = true
    ∧ (s.ConstructEdgeEventNode e).1.IsProcessed (some r) = true
    ∧ l ∉ (s.ConstructEdgeEventNode e).1.mSLAV
    ∧ r ∉ (s.ConstructEdgeEventNode e).1.mSLAV
    ∧ s.mSSkel.vertexNext ∈ (s.ConstructEdgeEventNode e).1.mSLAV
    ∧ (s.halfedge (some l) ≠ some ro →
        (s.ConstructEdgeEventNode e).1.primary_bisector (some l) = some lo)
    ∧ (s.halfedge (some r) ≠ some ro →
        (s.ConstructEdgeEventNode e).1.primary_bisector (some r) = some ro) := by
  have hl' : l ≠ s.mSSkel.vertexNext := Nat.ne_of_lt hl
  have hr' : r ≠ s.mSSkel.vertexNext := Nat.ne_of_lt hr
  simp only [Builder.primary_bisector, Builder.next, Builder.opposite, Builder.halfedge,
    Builder.he, Builder.vtx] at hLO hRO hLI
  refine ⟨rfl, rfl, rfl, rfl, ?_, ?_, ?_, ?_, ?_, ?_, ?_, ?_, ?_, ?_, ?_, ?_, ?_⟩
  · intro n hn
    simp [Builder.ConstructEdgeEventNode, Builder.vertices_push_back, Builder.SLAV_push_back,
      Builder.wrapped_push_back, Builder.set_halfedge, Builder.updVertex, Builder.set_vertex,
      Builder.set_prev, Builder.set_next, Builder.updHalfedge, Builder.SetIsProcessed,
      Builder.updWrap, Builder.SLAV_remove, Builder.SetPrevInLAV, Builder.SetNextInLAV,
      Vertex.mk3, hn, Ne.symm hn]
  iterate 10
    simp [Builder.ConstructEdgeEventNode, Builder.vertices_push_back, Builder.SLAV_push_back,
      Builder.wrapped_push_back, Builder.set_halfedge, Builder.updVertex, Builder.set_vertex,
      Builder.set_prev, Builder.set_next, Builder.updHalfedge, Builder.SetIsProcessed,
      Builder.updWrap, Builder.SLAV_remove, Builder.SetPrevInLAV, Builder.SetNextInLAV,
      Vertex.mk3, Builder.primary_bisector, Builder.next, Builder.prev, Builder.opposite,
      Builder.vertex, Builder.halfedge, Builder.he, Builder.vtx, Builder.wrap,
      Builder.wrapIndex, Builder.IsProcessed, VertexWrapper.mk1,
      hL, hR, hl', hr', hLO, hRO, hLI, Ne.symm hl', Ne.symm hr',
      apply_ite Halfedge.next, apply_ite Halfedge.prev, apply_ite Halfedge.vertex,
      apply_ite VertexWrapper.mIsProcessed]
  · intro hne
    simp only [Builder.halfedge, Builder.vtx] at hne
    cases hh : (s.mSSkel.vertices l).halfedge with
    | none => rw [hh] at hLO; exact absurd hLO (by simp [default, instInhabitedHalfedge])
    | some i =>
      rw [hh] at hLO hne
      simp only at hLO
      have hi : ro ≠ i := fun h => hne (by rw [h])
      simp [Builder.ConstructEdgeEventNode, Builder.vertices_push_back, Builder.SLAV_push_back,
        Builder.wrapped_push_back, Builder.set_halfedge, Builder.updVertex, Builder.set_vertex,
        Builder.set_prev, Builder.set_next, Builder.updHalfedge, Builder.SetIsProcessed,
        Builder.updWrap, Builder.SLAV_remove, Builder.SetPrevInLAV, Builder.SetNextInLAV,
        Vertex.mk3, Builder.primary_bisector, Builder.next, Builder.halfedge, Builder.he,
        Builder.vtx, hL, hR, hl', hr', Ne.symm hl', Ne.symm hr', hh, hi, hLO, hRO, hLI,
        apply_ite Halfedge.next]
  · intro hne
    simp only [Builder.halfedge, Builder.vtx] at hne
    cases hh : (s.mSSkel.vertices r).halfedge with
    | none => rw [hh] at hRO; exact absurd hRO (by simp [default, instInhabitedHalfedge])
    | some i =>
      rw [hh] at hRO hne
      simp only at hRO
      have hi : ro ≠ i := fun h => hne (by rw [h])
      simp [Builder.ConstructEdgeEventNode, Builder.vertices_push_back, Builder.SLAV_push_back,
        Builder.wrapped_push_back, Builder.set_halfedge, Builder.updVertex, Builder.set_vertex,
        Builder.set_prev, Builder.set_next, Builder.updHalfedge, Builder.SetIsProcessed,
        Builder.updWrap, Builder.SLAV_remove, Builder.SetPrevInLAV, Builder.SetNextInLAV,
        Vertex.mk3, Builder.primary_bisector, Builder.next, Builder.halfedge, Builder.he,
        Builder.vtx, hL, hR, hl', hr', Ne.symm hl', Ne.symm hr', hh, hi, hLO, hRO, hLI,
        apply_ite Halfedge.next]

theorem ConstructEdgeEventNode_post_witness :
    ((exQuad.ev (some 0)).seed0 = some 0 ∧ (exQuad.ev (some 0)).seed1 = some 1
      ∧ 0 < exQuad.mSSkel.vertexNext ∧ 1 < exQuad.mSSkel.vertexNext
      ∧ exQuad.primary_bisector (some 0) = some 8 ∧ exQuad.primary_bisector (some 1) = some 10
      ∧ exQuad.opposite (some 8) = some 9)
    ∧ (exQuad.ConstructEdgeEventNode (some 0)).2 = some exQuad.mSSkel.vertexNext
    ∧ (exQuad.ConstructEdgeEventNode (some 0)).1.next (some 10) = some 9 :=
  have h := ConstructEdgeEventNode_post exQuad (some 0) 0 1 8 10 9 (by decide) (by decide)
    (by decide) (by decide) (by decide) (by decide) (by decide)
  ⟨⟨by decide, by decide, by decide, by decide, by decide, by decide, by decide⟩,
    h.1, h.2.2.2.2.2.2.2.2.1⟩

/-! ## The defining borders of the new nodes -/

theorem EdgeEventWiring_borders (s : Builder) (e : EventPtr) (l r lo ro li ri : Nat)
    (hL : (s.ev e).seed0 = some l) (hR : (s.ev e).seed1 = some r)
    (hl : l < s.mSSkel.vertexNext) (hr : r < s.mSSkel.vertexNext)
    (hLO : s.primary_bisector (some l) = some lo) (hRO : s.primary_bisector (some r) = some ro)
    (hLI : s.opposite (some lo) = some li) (hRI : s.opposite (some ro) = some ri)
    (hlo : lo < s.mSSkel.halfedgeNext) (hro : ro < s.mSSkel.halfedgeNext)
    (hli : li < s.mSSkel.halfedgeNext) (hri : ri < s.mSSkel.halfedgeNext)
    (hne : li ≠ ri)
    (hhl : s.halfedge (some l) ≠ some ro) (hhr : s.halfedge (some r) ≠ some ro) :
    (s.EdgeEventWiring e).bordersAround (some s.mSSkel.vertexNext)
      = ⟨s.face_halfedge (s.face (some lo)), s.face_halfedge (s.face (some ri)),
          s.face_halfedge (s.face (some ro))⟩ := by
  have hl' : l ≠ s.mSSkel.vertexNext := Nat.ne_of_lt hl
  have hr' : r ≠ s.mSSkel.vertexNext := Nat.ne_of_lt hr
  have hlo' : lo ≠ s.mSSkel.halfedgeNext := Nat.ne_of_lt hlo
  have hro' : ro ≠ s.mSSkel.halfedgeNext := Nat.ne_of_lt hro
  have hli' : li ≠ s.mSSkel.halfedgeNext := Nat.ne_of_lt hli
  have hri' : ri ≠ s.mSSkel.halfedgeNext := Nat.ne_of_lt hri
  have hlo2 : lo ≠ s.mSSkel.halfedgeNext + 1 := by omega
  have hro2 : ro ≠ s.mSSkel.halfedgeNext + 1 := by omega
  have hli2 : li ≠ s.mSSkel.halfedgeNext + 1 := by omega
  have hri2 : ri ≠ s.mSSkel.halfedgeNext + 1 := by omega
  simp only [Builder.primary_bisector, Builder.next, Builder.opposite, Builder.halfedge,
    Builder.he, Builder.vtx] at hLO hRO hLI hRI hhl hhr
  cases hh1 : (s.mSSkel.vertices l).halfedge with
  | none => rw [hh1] at hLO; exact absurd hLO (by simp [default, instInhabitedHalfedge])
  | some i1 =>
    cases hh2 : (s.mSSkel.vertices r).halfedge with
    | none => rw [hh2] at hRO; exact absurd hRO (by simp [default, instInhabitedHalfedge])
    | some i2 =>
      rw [hh1] at hLO hhl
      rw [hh2] at hRO hhr
      simp only at hLO hRO
      have hi1 : ro ≠ i1 := fun h => hhl (by rw [h])
      have hi2 : ro ≠ i2 := fun h => hhr (by rw [h])
      simp [Builder.EdgeEventWiring, Builder.bordersAround, Builder.edges_push_back,
        Builder.ConstructEdgeEventNode, Builder.vertices_push_back, Builder.SLAV_push_back,
        Builder.wrapped_push_back, Builder.set_halfedge, Builder.updVertex, Builder.set_vertex,
        Builder.set_prev, Builder.set_next, Builder.set_face, Builder.updHalfedge,
        Builder.SetIsProcessed,
        Builder.updWrap, Builder.SLAV_remove, Builder.SetPrevInLAV, Builder.SetNextInLAV,
        Vertex.mk3, Halfedge.mk1, Builder.primary_bisector, Builder.next, Builder.prev,
        Builder.opposite, Builder.face, Builder.face_halfedge, Builder.fc,
        Builder.vertex, Builder.halfedge, Builder.he, Builder.vtx,
        hL, hR, hl', hr', Ne.symm hl', Ne.symm hr', hh1, hh2, hi1, hi2, hLO, hRO, hLI, hRI,
        hlo', hro', hli', hri', hlo2, hro2, hli2, hri2, hne, Ne.symm hne,
        Ne.symm hlo', Ne.symm hro', Ne.symm hli', Ne.symm hri', Ne.symm hlo2, Ne.symm hro2,
        Ne.symm hli2, Ne.symm hri2, Ne.symm hi1, Ne.symm hi2,
        apply_ite Halfedge.next, apply_ite Halfedge.prev, apply_ite Halfedge.vertex,
        apply_ite Halfedge.face, apply_ite Halfedge.opposite]

theorem ConstructEdgeEventNode_borders (s : Builder) (e : EventPtr) (l r lo ro li ri : Nat)
    (hL : (s.ev e).seed0 = some l) (hR : (s.ev e).seed1 = some r)
    (hl : l < s.mSSkel.vertexNext) (hr : r < s.mSSkel.vertexNext)
    (hLO : s.primary_bisector (some l) = some lo) (hRO : s.primary_bisector (some r) = some ro)
    (hLI : s.opposite (some lo) = some li) (hRI : s.opposite (some ro) = some ri)
    (hlo : lo < s.mSSkel.halfedgeNext) (hro : ro < s.mSSkel.halfedgeNext)
    (hli : li < s.mSSkel.halfedgeNext) (hri : ri < s.mSSkel.halfedgeNext)
    (hne : li ≠ ri)
    (hhl : s.halfedge (some l) ≠ some ro) (hhr : s.halfedge (some r) ≠ some ro) :
    (s.ConstructEdgeEventNode e).1.bordersAround (some s.mSSkel.vertexNext)
      = ⟨s.face_halfedge (s.face (some lo)), s.face_halfedge (s.face (some ri)),
          s.face_halfedge (s.face (some ro))⟩ := by
  have hl' : l ≠ s.mSSkel.vertexNext := Nat.ne_of_lt hl
  have hr' : r ≠ s.mSSkel.vertexNext := Nat.ne_of_lt hr
  have hlo' : lo ≠ s.mSSkel.halfedgeNext := Nat.ne_of_lt hlo
  have hro' : ro ≠ s.mSSkel.halfedgeNext := Nat.ne_of_lt hro
  have hli' : li ≠ s.mSSkel.halfedgeNext := Nat.ne_of_lt hli
  have hri' : ri ≠ s.mSSkel.halfedgeNext := Nat.ne_of_lt hri
  have hlo2 : lo ≠ s.mSSkel.halfedgeNext + 1 := by omega
  have hro2 : ro ≠ s.mSSkel.halfedgeNext + 1 := by omega
  have hli2 : li ≠ s.mSSkel.halfedgeNext + 1 := by omega
  have hri2 : ri ≠ s.mSSkel.halfedgeNext + 1 := by omega
  simp only [Builder.primary_bisector, Builder.next, Builder.opposite, Builder.halfedge,
    Builder.he, Builder.vtx] at hLO hRO hLI hRI hhl hhr
  cases hh1 : (s.mSSkel.vertices l).halfedge with
  | none => rw [hh1] at hLO; exact absurd hLO (by simp [default, instInhabitedHalfedge])
  | some i1 =>
    cases hh2 : (s.mSSkel.vertices r).halfedge with
    | none => rw [hh2] at hRO; exact absurd hRO (by simp [default, instInhabitedHalfedge])
    | some i2 =>
      rw [hh1] at hLO hhl
      rw [hh2] at hRO hhr
      simp only at hLO hRO
      have hi1 : ro ≠ i1 := fun h => hhl (by rw [h])
      have hi2 : ro ≠ i2 := fun h => hhr (by rw [h])
      simp [Builder.bordersAround, Builder.edges_push_back,
        Builder.ConstructEdgeEventNode, Builder.vertices_push_back, Builder.SLAV_push_back,
        Builder.wrapped_push_back, Builder.set_halfedge, Builder.updVertex, Builder.set_vertex,
        Builder.set_prev, Builder.set_next, Builder.set_face, Builder.updHalfedge,
        Builder.SetIsProcessed,
        Builder.updWrap, Builder.SLAV_remove, Builder.SetPrevInLAV, Builder.SetNextInLAV,
        Vertex.mk3, Halfedge.mk1, Builder.primary_bisector, Builder.next, Builder.prev,
        Builder.opposite, Builder.face, Builder.face_halfedge, Builder.fc,
        Builder.vertex, Builder.halfedge, Builder.he, Builder.vtx,
        hL, hR, hl', hr', Ne.symm hl', Ne.symm hr', hh1, hh2, hi1, hi2, hLO, hRO, hLI, hRI,
        hlo', hro', hli', hri', hlo2, hro2, hli2, hri2, hne, Ne.symm hne,
        Ne.symm hlo', Ne.symm hro', Ne.symm hli', Ne.symm hri', Ne.symm hlo2, Ne.symm hro2,
        Ne.symm hli2, Ne.symm hri2, Ne.symm hi1, Ne.symm hi2,
        apply_ite Halfedge.next, apply_ite Halfedge.prev, apply_ite Halfedge.vertex,
        apply_ite Halfedge.face, apply_ite Halfedge.opposite]

theorem UpdKeeps.borders {s s' : Builder} (h : UpdKeeps s s') (v : Vertex_handle) :
    s'.GetDefiningBorderA v = s.GetDefiningBorderA v
    ∧ s'.GetDefiningBorderB v = s.GetDefiningBorderB v
    ∧ s'.GetDefiningBorderC v = s.GetDefiningBorderC v := by
  cases v with
  | none => exact ⟨rfl, rfl, rfl⟩
  | some i =>
    unfold Builder.GetDefiningBorderA Builder.GetDefiningBorderB Builder.GetDefiningBorderC
      Builder.wrap
    dsimp only
    rw [h.ids i]
    exact ⟨(h.wrappers _).1, (h.wrappers _).2.1, (h.wrappers _).2.2.1⟩

theorem recordBorders_read (s : Builder) (n : Nat) (t : Triedge) :
    (s.recordBorders (some n) t).GetDefiningBorderA (some n) = t.e0
    ∧ (s.recordBorders (some n) t).GetDefiningBorderB (some n) = t.e1
    ∧ (s.recordBorders (some n) t).GetDefiningBorderC (some n) = t.e2 := by
  simp [Builder.recordBorders, Builder.SetDefiningBorderA, Builder.SetDefiningBorderB,
    Builder.SetDefiningBorderC, Builder.updWrap, Builder.wrapIndex,
    Builder.GetDefiningBorderA, Builder.GetDefiningBorderB, Builder.GetDefiningBorderC,
    Builder.wrap]

/-- The borders that `HandleEdgeEvent` records for its new node, in both branches. -/
theorem HandleEdgeEvent_recorded (tr : Traits) (s : Builder) (e : EventPtr) (t : Triedge)
    (h1 : (s.ConstructEdgeEventNode e).1.bordersAround (some s.mSSkel.vertexNext) = t)
    (h2 : (s.EdgeEventWiring e).bordersAround (some s.mSSkel.vertexNext) = t) :
    (s.HandleEdgeEvent tr e).GetDefiningBorderA (some s.mSSkel.vertexNext) = t.e0
    ∧ (s.HandleEdgeEvent tr e).GetDefiningBorderB (some s.mSSkel.vertexNext) = t.e1
    ∧ (s.HandleEdgeEvent tr e).GetDefiningBorderC (some s.mSSkel.vertexNext) = t.e2 := by
  have hN : (s.ConstructEdgeEventNode e).2 = some s.mSSkel.vertexNext := rfl
  cases hm : s.isMultipleNode e
  · rw [HandleEdgeEvent_new_bisector tr s e hm, hN, h2]
    obtain ⟨a, b, c⟩ := (UpdatePQ_keeps tr
      ((s.EdgeEventWiring e).recordBorders (some s.mSSkel.vertexNext) t)
      (some s.mSSkel.vertexNext)).borders (some s.mSSkel.vertexNext)
    obtain ⟨a', b', c'⟩ := recordBorders_read (s.EdgeEventWiring e) s.mSSkel.vertexNext t
    exact ⟨a.trans a', b.trans b', c.trans c'⟩
  · rw [HandleEdgeEvent_multiple tr s e hm, hN, h1]
    exact recordBorders_read _ _ t

/-- C15: `HandleEdgeEvent` for seeds `L` and `R` that are vertices of the graph, whose primary
bisectors `LO`, `RO` and their twins `LI`, `RI` are halfedges of the graph with `LI` other than
`RI`, `RO` not being the halfedge of a seed. Assume the contour edge of the face of `LO` is
`definingBorderA(L)`, that of the face of `RO` is `definingBorderA(R)`, that of the face of `RI`
is `definingBorderB(R)`, and `definingBorderB(L) == definingBorderA(R)`. Then the new node gets
the borders `(A,B,C) = (definingBorderA(L), definingBorderB(R), definingBorderB(L))`, in the
new-bisector branch and in the multiple-node branch alike, and `GetDefiningBorders(L,R)`, whose
three borders `FindEdgeEvent(L,R)` gives to its event, is
`(definingBorderA(L), definingBorderB(L), definingBorderB(R))`: the same three borders. -/
theorem HandleEdgeEvent_borders (tr : Traits) (s : Builder) (e : EventPtr)
    (l r lo ro li ri : Nat)
    (hL : (s.ev e).seed0 = some l) (hR : (s.ev e).seed1 = some r)
    (hl : l < s.mSSkel.vertexNext) (hr : r < s.mSSkel.vertexNext)
    (hLO : s.primary_bisector (some l) = some lo) (hRO : s.primary_bisector (some r) = some ro)
    (hLI : s.opposite (some lo) = some li) (hRI : s.opposite (some ro) = some ri)
    (hlo : lo < s.mSSkel.halfedgeNext) (hro : ro < s.mSSkel.halfedgeNext)
    (hli : li < s.mSSkel.halfedgeNext) (hri : ri < s.mSSkel.halfedgeNext)
    (hne : li ≠ ri)
    (hhl : s.halfedge (some l) ≠ some ro) (hhr : s.halfedge (some r) ≠ some ro)
    (hA : s.defining_contour_edge (s.primary_bisector (some l)) = s.GetDefiningBorderA (some l))
    (hAR : s.defining_contour_edge (s.primary_bisector (some r))
      = s.GetDefiningBorderA (some r))
    (hBR : s.defining_contour_edge (s.opposite (s.primary_bisector (some r)))
      = s.GetDefiningBorderB (some r))
    (hshare : s.GetDefiningBorderB (some l) = s.GetDefiningBorderA (some r)) :
    (s.HandleEdgeEvent tr e).GetDefiningBorderA (some s.mSSkel.vertexNext)
      = s.GetDefiningBorderA (some l)
    ∧ (s.HandleEdgeEvent tr e).GetDefiningBorderB (some s.mSSkel.vertexNext)
      = s.GetDefiningBorderB (some r)
    ∧ (s.HandleEdgeEvent tr e).GetDefiningBorderC (some s.mSSkel.vertexNext)
      = s.GetDefiningBorderB (some l)
    ∧ s.GetDefiningBorders (some l) (some r)
      = ⟨s.GetDefiningBorderA (some l), s.GetDefiningBorderB (some l),
          s.GetDefiningBorderB (some r)⟩ := by
  have h1 := ConstructEdgeEventNode_borders s e l r lo ro li ri hL hR hl hr hLO hRO hLI hRI
    hlo hro hli hri hne hhl hhr
  have h2 := EdgeEventWiring_borders s e l r lo ro li ri hL hR hl hr hLO hRO hLI hRI
    hlo hro hli hri hne hhl hhr
  obtain ⟨a, b, c⟩ := HandleEdgeEvent_recorded tr s e _ h1 h2
  rw [hLO] at hA
  rw [hRO] at hAR
  rw [hRO, hRI] at hBR
  unfold Builder.defining_contour_edge at hA hAR hBR
  refine ⟨a.trans hA, b.trans hBR, c.trans (hAR.trans hshare.symm), ?_⟩
  unfold Builder.GetDefiningBorders
  dsimp only
  rw [if_pos (Or.inr hshare)]

theorem HandleEdgeEvent_borders_witness :
    ((exQuad.ev (some 0)).seed0 = some 0 ∧ (exQuad.ev (some 0)).seed1 = some 1
      ∧ exQuad.primary_bisector (some 0) = some 8 ∧ exQuad.primary_bisector (some 1) = some 10
      ∧ exQuad.opposite (some 8) = some 9 ∧ exQuad.opposite (some 10) = some 11
      ∧ exQuad.mSSkel.vertexNext = 4 ∧ exQuad.mSSkel.halfedgeNext = 16
      ∧ exQuad.halfedge (some 0) ≠ some 10 ∧ exQuad.halfedge (some 1) ≠ some 10
      ∧ exQuad.defining_contour_edge (exQuad.primary_bisector (some 0))
          = exQuad.GetDefiningBorderA (some 0)
      ∧ exQuad.defining_contour_edge (exQuad.primary_bisector (some 1))
          = exQuad.GetDefiningBorderA (some 1)
      ∧ exQuad.defining_contour_edge (exQuad.opposite (exQuad.primary_bisector (some 1)))
          = exQuad.GetDefiningBorderB (some 1)
      ∧ exQuad.GetDefiningBorderB (some 0) = exQuad.GetDefiningBorderA (some 1))
    ∧ (exQuad.HandleEdgeEvent exTimedTraits (some 0)).GetDefiningBorderA (some 4) = some 0
    ∧ (exQuad.HandleEdgeEvent exTimedTraits (some 0)).GetDefiningBorderB (some 4) = some 2
    ∧ (exQuad.HandleEdgeEvent exTimedTraits (some 0)).GetDefiningBorderC (some 4) = some 1 :=
  have h := HandleEdgeEvent_borders exTimedTraits exQuad (some 0) 0 1 8 10 9 11
    (by decide) (by decide) (by decide) (by decide) (by decide) (by decide) (by decide)
    (by decide) (by decide) (by decide) (by decide) (by decide) (by decide) (by decide)
    (by decide) (by decide) (by decide) (by decide) (by decide)
  ⟨⟨by decide, by decide, by decide, by decide, by decide, by decide, by decide, by decide,
    by decide, by decide, by decide, by decide, by decide, by decide⟩,
    h.1, h.2.1, h.2.2.1⟩

/-! ## Reading the graph through a write -/

theorem he_updVertex (s : Builder) (v : Vertex_handle) (f : Vertex → Vertex) (a : Halfedge_handle) :
    (s.updVertex v f).he a = s.he a := rfl

theorem he_updWrap (s : Builder) (v : Vertex_handle) (f : VertexWrapper → VertexWrapper) (a : Halfedge_handle) :
    (s.updWrap v f).he a = s.he a := rfl

theorem he_wrapped_push_back (s : Builder) (w : VertexWrapper) (a : Halfedge_handle) :
    (s.wrapped_push_back w).he a = s.he a := rfl

theorem he_SLAV_push_back (s : Builder) (v : Vertex_handle) (a : Halfedge_handle) :
    (s.SLAV_push_back v).he a = s.he a := by
  cases v <;> rfl

theorem he_SLAV_remove (s : Builder) (v : Vertex_handle) (a : Halfedge_handle) :
    (s.SLAV_remove v).he a = s.he a := rfl

theorem he_vertices_push_back (s : Builder) (x : Vertex) (a : Halfedge_handle) :
    (s.vertices_push_back x).1.he a = s.he a := rfl

theorem he_with_mVertexID (s : Builder) (n : Nat) (a : Halfedge_handle) :
    ({ s with mVertexID := n } : Builder).he a = s.he a := rfl

theorem he_with_mEdgeID (s : Builder) (n : Nat) (a : Halfedge_handle) :
    ({ s with mEdgeID := n } : Builder).he a = s.he a := rfl

theorem he_with_mSplitNodes (s : Builder) (l : List (Vertex_handle × Vertex_handle)) (a : Halfedge_handle) :
    ({ s with mSplitNodes := l } : Builder).he a = s.he a := rfl

theorem vtx_updHalfedge (s : Builder) (h : Halfedge_handle) (f : Halfedge → Halfedge) (a : Vertex_handle) :
    (s.updHalfedge h f).vtx a = s.vtx a := rfl

theorem vtx_updWrap (s : Builder) (v : Vertex_handle) (f : VertexWrapper → VertexWrapper) (a : Vertex_handle) :
    (s.updWrap v f).vtx a = s.vtx a := rfl

theorem vtx_wrapped_push_back (s : Builder) (w : VertexWrapper) (a : Vertex_handle) :
    (s.wrapped_push_back w).vtx a = s.vtx a := rfl

theorem vtx_SLAV_push_back (s : Builder) (v : Vertex_handle) (a : Vertex_handle) :
    (s.SLAV_push_back v).vtx a = s.vtx a := by
  cases v <;> rfl

theorem vtx_SLAV_remove (s : Builder) (v : Vertex_handle) (a : Vertex_handle) :
    (s.SLAV_remove v).vtx a = s.vtx a := rfl

theorem vtx_edges_push_back (s : Builder) (x y : Halfedge) (a : Vertex_handle) :
    (s.edges_push_back x y).1.vtx a = s.vtx a := rfl

theorem vtx_with_mVertexID (s : Builder) (n : Nat) (a : Vertex_handle) :
    ({ s with mVertexID := n } : Builder).vtx a = s.vtx a := rfl

theorem vtx_with_mEdgeID (s : Builder) (n : Nat) (a : Vertex_handle) :
    ({ s with mEdgeID := n } : Builder).vtx a = s.vtx a := rfl

theorem vtx_with_mSplitNodes (s : Builder) (l : List (Vertex_handle × Vertex_handle)) (a : Vertex_handle) :
    ({ s with mSplitNodes := l } : Builder).vtx a = s.vtx a := rfl

theorem fc_updHalfedge (s : Builder) (h : Halfedge_handle) (f : Halfedge → Halfedge) (a : Face_handle) :
    (s.updHalfedge h f).fc a = s.fc a := rfl

theorem fc_updVertex (s : Builder) (v : Vertex_handle) (f : Vertex → Vertex) (a : Face_handle) :
    (s.updVertex v f).fc a = s.fc a := rfl

theorem fc_updWrap (s : Builder) (v : Vertex_handle) (f : VertexWrapper → VertexWrapper) (a : Face_handle) :
    (s.updWrap v f).fc a = s.fc a := rfl

theorem fc_wrapped_push_back (s : Builder) (w : VertexWrapper) (a : Face_handle) :
    (s.wrapped_push_back w).fc a = s.fc a := rfl

theorem fc_SLAV_push_back (s : Builder) (v : Vertex_handle) (a : Face_handle) :
    (s.SLAV_push_back v).fc a = s.fc a := by
  cases v <;> rfl

theorem fc_SLAV_remove (s : Builder) (v : Vertex_handle) (a : Face_handle) :
    (s.SLAV_remove v).fc a = s.fc a := rfl

theorem fc_vertices_push_back (s : Builder) (x : Vertex) (a : Face_handle) :
    (s.vertices_push_back x).1.fc a = s.fc a := rfl

theorem fc_edges_push_back (s : Builder) (x y : Halfedge) (a : Face_handle) :
    (s.edges_push_back x y).1.fc a = s.fc a := rfl

theorem fc_with_mVertexID (s : Builder) (n : Nat) (a : Face_handle) :
    ({ s with mVertexID := n } : Builder).fc a = s.fc a := rfl

theorem fc_with_mEdgeID (s : Builder) (n : Nat) (a : Face_handle) :
    ({ s with mEdgeID := n } : Builder).fc a = s.fc a := rfl

theorem fc_with_mSplitNodes (s : Builder) (l : List (Vertex_handle × Vertex_handle)) (a : Face_handle) :
    ({ s with mSplitNodes := l } : Builder).fc a = s.fc a := rfl

theorem ev_updHalfedge (s : Builder) (h : Halfedge_handle) (f : Halfedge → Halfedge) (a : EventPtr) :
    (s.updHalfedge h f).ev a = s.ev a := rfl

theorem ev_updVertex (s : Builder) (v : Vertex_handle) (f : Vertex → Vertex) (a : EventPtr) :
    (s.updVertex v f).ev a = s.ev a := rfl

theorem ev_updWrap (s : Builder) (v : Vertex_handle) (f : VertexWrapper → VertexWrapper) (a : EventPtr) :
    (s.updWrap v f).ev a = s.ev a := rfl

theorem ev_wrapped_push_back (s : Builder) (w : VertexWrapper) (a : EventPtr) :
    (s.wrapped_push_back w).ev a = s.ev a := rfl

theorem ev_SLAV_push_back (s : Builder) (v : Vertex_handle) (a : EventPtr) :
    (s.SLAV_push_back v).ev a = s.ev a := by
  cases v <;> rfl

theorem ev_SLAV_remove (s : Builder) (v : Vertex_handle) (a : EventPtr) :
    (s.SLAV_remove v).ev a = s.ev a := rfl

theorem ev_vertices_push_back (s : Builder) (x : Vertex) (a : EventPtr) :
    (s.vertices_push_back x).1.ev a = s.ev a := rfl

theorem ev_edges_push_back (s : Builder) (x y : Halfedge) (a : EventPtr) :
    (s.edges_push_back x y).1.ev a = s.ev a := rfl

theorem ev_with_mVertexID (s : Builder) (n : Nat) (a : EventPtr) :
    ({ s with mVertexID := n } : Builder).ev a = s.ev a := rfl

theorem ev_with_mEdgeID (s : Builder) (n : Nat) (a : EventPtr) :
    ({ s with mEdgeID := n } : Builder).ev a = s.ev a := rfl

theorem ev_with_mSplitNodes (s : Builder) (l : List (Vertex_handle × Vertex_handle)) (a : EventPtr) :
    ({ s with mSplitNodes := l } : Builder).ev a = s.ev a := rfl

theorem he_updHalfedge (s : Builder) (h : Halfedge_handle) (f : Halfedge → Halfedge)
    (j : Nat) :
    (s.updHalfedge h f).he (some j) = if h = some j then f (s.he (some j)) else s.he (some j) :=
  rfl

theorem he_edges_push_back (s : Builder) (x y : Halfedge) (j : Nat) :
    (s.edges_push_back x y).1.he (some j)
      = if j = s.mSSkel.halfedgeNext then { x with opposite := some (s.mSSkel.halfedgeNext + 1) }
        else if j = s.mSSkel.halfedgeNext + 1 then { y with opposite := some s.mSSkel.halfedgeNext }
        else s.he (some j) := rfl

theorem vtx_updVertex (s : Builder) (v : Vertex_handle) (f : Vertex → Vertex) (j : Nat) :
    (s.updVertex v f).vtx (some j) = if v = some j then f (s.vtx (some j)) else s.vtx (some j) :=
  rfl

theorem vtx_vertices_push_back (s : Builder) (x : Vertex) (j : Nat) :
    (s.vertices_push_back x).1.vtx (some j)
      = if j = s.mSSkel.vertexNext then x else s.vtx (some j) := rfl

theorem vertices_push_back_snd (s : Builder) (x : Vertex) :
    (s.vertices_push_back x).2 = some s.mSSkel.vertexNext := rfl

theorem vertices_push_back_vertexNext (s : Builder) (x : Vertex) :
    (s.vertices_push_back x).1.mSSkel.vertexNext = s.mSSkel.vertexNext + 1 := rfl

theorem edges_push_back_snd (s : Builder) (x y : Halfedge) :
    (s.edges_push_back x y).2 = some s.mSSkel.halfedgeNext := rfl

theorem edges_push_back_halfedgeNext (s : Builder) (x y : Halfedge) :
    (s.edges_push_back x y).1.mSSkel.halfedgeNext = s.mSSkel.halfedgeNext + 2 := rfl

/-- The halfedges after `ConstructSplitEventNodes`: the bisector of the seed targets the first
new node. -/
theorem ConstructSplitEventNodes_he (s : Builder) (e : EventPtr) (aOppR : Vertex_handle)
    (sd hs xo : Nat) (hS : (s.ev e).seed0 = some sd) (hsd : sd < s.mSSkel.vertexNext)
    (hH : (s.vtx (some sd)).halfedge = some hs) (hXO : (s.he (some hs)).next = some xo)
    (j : Nat) :
    (s.ConstructSplitEventNodes e aOppR).1.he (some j)
      = if xo = j then { s.he (some j) with vertex := some s.mSSkel.vertexNext }
        else s.he (some j) := by
  have e1 : sd ≠ s.mSSkel.vertexNext := by omega
  have e2 : sd ≠ s.mSSkel.vertexNext + 1 := by omega
  simp only [Builder.ConstructSplitEventNodes, Builder.set_vertex, Builder.set_halfedge,
    Builder.SetIsProcessed, Builder.SetPrevInLAV, Builder.SetNextInLAV,
    Builder.primary_bisector, Builder.next, Builder.halfedge,
    he_updVertex, he_updWrap, he_wrapped_push_back, he_SLAV_push_back, he_SLAV_remove, he_vertices_push_back, he_with_mVertexID, he_with_mEdgeID, he_with_mSplitNodes, vtx_updHalfedge, vtx_updWrap, vtx_wrapped_push_back, vtx_SLAV_push_back, vtx_SLAV_remove, vtx_edges_push_back, vtx_with_mVertexID, vtx_with_mEdgeID, vtx_with_mSplitNodes, fc_updHalfedge, fc_updVertex, fc_updWrap, fc_wrapped_push_back, fc_SLAV_push_back, fc_SLAV_remove, fc_vertices_push_back, fc_edges_push_back, fc_with_mVertexID, fc_with_mEdgeID, fc_with_mSplitNodes, ev_updHalfedge, ev_updVertex, ev_updWrap, ev_wrapped_push_back, ev_SLAV_push_back, ev_SLAV_remove, ev_vertices_push_back, ev_edges_push_back, ev_with_mVertexID, ev_with_mEdgeID, ev_with_mSplitNodes, he_updHalfedge, he_edges_push_back, vtx_updVertex, vtx_vertices_push_back, vertices_push_back_snd, vertices_push_back_vertexNext,
    hS, hH, hXO, e1, e2, Ne.symm e1, Ne.symm e2, ↓reduceIte, Option.some.injEq, reduceCtorEq]

theorem vertices_push_back_mVertexID (s : Builder) (x : Vertex) :
    (s.vertices_push_back x).1.mVertexID = s.mVertexID := rfl

/-- The vertices after `ConstructSplitEventNodes`. -/
theorem ConstructSplitEventNodes_vtx (s : Builder) (e : EventPtr) (aOppR : Vertex_handle)
    (sd hs xo : Nat) (hS : (s.ev e).seed0 = some sd) (hsd : sd < s.mSSkel.vertexNext)
    (hH : (s.vtx (some sd)).halfedge = some hs) (hXO : (s.he (some hs)).next = some xo) :
    (s.ConstructSplitEventNodes e aOppR).1.vtx (some s.mSSkel.vertexNext)
      = { Vertex.mk3 s.mVertexID (s.ev e).point (s.ev e).time with halfedge := some xo }
    ∧ (s.ConstructSplitEventNodes e aOppR).1.vtx (some (s.mSSkel.vertexNext + 1))
      = Vertex.mk3 (s.mVertexID + 1) (s.ev e).point (s.ev e).time
    ∧ ∀ j, j ≠ s.mSSkel.vertexNext → j ≠ s.mSSkel.vertexNext + 1 →
      (s.ConstructSplitEventNodes e aOppR).1.vtx (some j) = s.vtx (some j) := by
  have e1 : sd ≠ s.mSSkel.vertexNext := by omega
  have e2 : sd ≠ s.mSSkel.vertexNext + 1 := by omega
  have v1 : s.mSSkel.vertexNext ≠ s.mSSkel.vertexNext + 1 := by omega
  refine ⟨?_, ?_, ?_⟩
  · simp only [Builder.ConstructSplitEventNodes, Builder.set_vertex, Builder.set_halfedge,
      Builder.SetIsProcessed, Builder.SetPrevInLAV, Builder.SetNextInLAV,
      Builder.primary_bisector, Builder.next, Builder.halfedge,
      he_updVertex, he_updWrap, he_wrapped_push_back, he_SLAV_push_back, he_SLAV_remove, he_vertices_push_back, he_with_mVertexID, he_with_mEdgeID, he_with_mSplitNodes, vtx_updHalfedge, vtx_updWrap, vtx_wrapped_push_back, vtx_SLAV_push_back, vtx_SLAV_remove, vtx_edges_push_back, vtx_with_mVertexID, vtx_with_mEdgeID, vtx_with_mSplitNodes, fc_updHalfedge, fc_updVertex, fc_updWrap, fc_wrapped_push_back, fc_SLAV_push_back, fc_SLAV_remove, fc_vertices_push_back, fc_edges_push_back, fc_with_mVertexID, fc_with_mEdgeID, fc_with_mSplitNodes, ev_updHalfedge, ev_updVertex, ev_updWrap, ev_wrapped_push_back, ev_SLAV_push_back, ev_SLAV_remove, ev_vertices_push_back, ev_edges_push_back, ev_with_mVertexID, ev_with_mEdgeID, ev_with_mSplitNodes, he_updHalfedge, he_edges_push_back, vtx_updVertex, vtx_vertices_push_back, vertices_push_back_snd, vertices_push_back_vertexNext,
      vertices_push_back_mVertexID,
      hS, hH, hXO, e1, e2, Ne.symm e1, Ne.symm e2, v1, Ne.symm v1, ↓reduceIte,
      Option.some.injEq, reduceCtorEq]
  · simp only [Builder.ConstructSplitEventNodes, Builder.set_vertex, Builder.set_halfedge,
      Builder.SetIsProcessed, Builder.SetPrevInLAV, Builder.SetNextInLAV,
      Builder.primary_bisector, Builder.next, Builder.halfedge,
      he_updVertex, he_updWrap, he_wrapped_push_back, he_SLAV_push_back, he_SLAV_remove, he_vertices_push_back, he_with_mVertexID, he_with_mEdgeID, he_with_mSplitNodes, vtx_updHalfedge, vtx_updWrap, vtx_wrapped_push_back, vtx_SLAV_push_back, vtx_SLAV_remove, vtx_edges_push_back, vtx_with_mVertexID, vtx_with_mEdgeID, vtx_with_mSplitNodes, fc_updHalfedge, fc_updVertex, fc_updWrap, fc_wrapped_push_back, fc_SLAV_push_back, fc_SLAV_remove, fc_vertices_push_back, fc_edges_push_back, fc_with_mVertexID, fc_with_mEdgeID, fc_with_mSplitNodes, ev_updHalfedge, ev_updVertex, ev_updWrap, ev_wrapped_push_back, ev_SLAV_push_back, ev_SLAV_remove, ev_vertices_push_back, ev_edges_push_back, ev_with_mVertexID, ev_with_mEdgeID, ev_with_mSplitNodes, he_updHalfedge, he_edges_push_back, vtx_updVertex, vtx_vertices_push_back, vertices_push_back_snd, vertices_push_back_vertexNext,
      vertices_push_back_mVertexID,
      hS, hH, hXO, e1, e2, Ne.symm e1, Ne.symm e2, v1, Ne.symm v1, ↓reduceIte,
      Option.some.injEq, reduceCtorEq]
  · intro j h1 h2
    simp only [Builder.ConstructSplitEventNodes, Builder.set_vertex, Builder.set_halfedge,
      Builder.SetIsProcessed, Builder.SetPrevInLAV, Builder.SetNextInLAV,
      Builder.primary_bisector, Builder.next, Builder.halfedge,
      he_updVertex, he_updWrap, he_wrapped_push_back, he_SLAV_push_back, he_SLAV_remove, he_vertices_push_back, he_with_mVertexID, he_with_mEdgeID, he_with_mSplitNodes, vtx_updHalfedge, vtx_updWrap, vtx_wrapped_push_back, vtx_SLAV_push_back, vtx_SLAV_remove, vtx_edges_push_back, vtx_with_mVertexID, vtx_with_mEdgeID, vtx_with_mSplitNodes, fc_updHalfedge, fc_updVertex, fc_updWrap, fc_wrapped_push_back, fc_SLAV_push_back, fc_SLAV_remove, fc_vertices_push_back, fc_edges_push_back, fc_with_mVertexID, fc_with_mEdgeID, fc_with_mSplitNodes, ev_updHalfedge, ev_updVertex, ev_updWrap, ev_wrapped_push_back, ev_SLAV_push_back, ev_SLAV_remove, ev_vertices_push_back, ev_edges_push_back, ev_with_mVertexID, ev_with_mEdgeID, ev_with_mSplitNodes, he_updHalfedge, he_edges_push_back, vtx_updVertex, vtx_vertices_push_back, vertices_push_back_snd, vertices_push_back_vertexNext,
      vertices_push_back_mVertexID,
      hS, hH, hXO, e1, e2, Ne.symm e1, Ne.symm e2, v1, Ne.symm v1, h1, h2, Ne.symm h1,
      Ne.symm h2, ↓reduceIte, Option.some.injEq, reduceCtorEq]

theorem SplitEventWiring_borders (s : Builder) (e : EventPtr) (aOppR : Vertex_handle)
    (sd hs xo xi op : Nat)
    (hS : (s.ev e).seed0 = some sd) (hO : (s.ev e).opposite_border = some op)
    (hsd : sd < s.mSSkel.vertexNext)
    (hH : s.halfedge (some sd) = some hs) (hXO : s.next (some hs) = some xo)
    (hXI : s.opposite (some xo) = some xi)
    (hhs : hs < s.mSSkel.halfedgeNext) (hxo : xo < s.mSSkel.halfedgeNext)
    (hxi : xi < s.mSSkel.halfedgeNext) (hop : op < s.mSSkel.halfedgeNext) :
    (s.SplitEventWiring e aOppR).bordersAround (some s.mSSkel.vertexNext)
      = ⟨s.face_halfedge (s.face (some xo)), s.face_halfedge (s.face (some op)),
          s.face_halfedge (s.face (some xi))⟩
    ∧ (s.SplitEventWiring e aOppR).bordersAround (some (s.mSSkel.vertexNext + 1))
      = ⟨s.face_halfedge (s.face (some op)), s.face_halfedge (s.face (some xi)),
          s.face_halfedge (s.face (some xo))⟩ := by
  simp only [Builder.next, Builder.opposite, Builder.halfedge] at hH hXO hXI
  have hN : (s.ConstructSplitEventNodes e aOppR).2
      = (some s.mSSkel.vertexNext, some (s.mSSkel.vertexNext + 1)) := rfl
  have hk : (s.ConstructSplitEventNodes e aOppR).1.mSSkel.halfedgeNext
      = s.mSSkel.halfedgeNext := rfl
  have hev : ∀ x, (s.ConstructSplitEventNodes e aOppR).1.ev x = s.ev x := fun _ => rfl
  have hfc : ∀ x, (s.ConstructSplitEventNodes e aOppR).1.fc x = s.fc x := fun _ => rfl
  have hhe := ConstructSplitEventNodes_he s e aOppR sd hs xo hS hsd hH hXO
  obtain ⟨hv1, hv2, hv3⟩ := ConstructSplitEventNodes_vtx s e aOppR sd hs xo hS hsd hH hXO
  have e1 : sd ≠ s.mSSkel.vertexNext := by omega
  have e2 : sd ≠ s.mSSkel.vertexNext + 1 := by omega
  have hvs := hv3 sd e1 e2
  have v1 : s.mSSkel.vertexNext ≠ s.mSSkel.vertexNext + 1 := by omega
  have a1 : hs ≠ s.mSSkel.halfedgeNext := by omega
  have a2 : hs ≠ s.mSSkel.halfedgeNext + 1 := by omega
  have a3 : hs ≠ s.mSSkel.halfedgeNext + 2 := by omega
  have a4 : hs ≠ s.mSSkel.halfedgeNext + 2 + 1 := by omega
  have b1 : xo ≠ s.mSSkel.halfedgeNext := by omega
  have b2 : xo ≠ s.mSSkel.halfedgeNext + 1 := by omega
  have b3 : xo ≠ s.mSSkel.halfedgeNext + 2 := by omega
  have b4 : xo ≠ s.mSSkel.halfedgeNext + 2 + 1 := by omega
  have c1 : xi ≠ s.mSSkel.halfedgeNext := by omega
  have c2 : xi ≠ s.mSSkel.halfedgeNext + 1 := by omega
  have c3 : xi ≠ s.mSSkel.halfedgeNext + 2 := by omega
  have c4 : xi ≠ s.mSSkel.halfedgeNext + 2 + 1 := by omega
  have d1 : op ≠ s.mSSkel.halfedgeNext := by omega
  have d2 : op ≠ s.mSSkel.halfedgeNext + 1 := by omega
  have d3 : op ≠ s.mSSkel.halfedgeNext + 2 := by omega
  have d4 : op ≠ s.mSSkel.halfedgeNext + 2 + 1 := by omega
  have k1 : s.mSSkel.halfedgeNext ≠ s.mSSkel.halfedgeNext + 2 + 1 := by omega
  have k2 : s.mSSkel.halfedgeNext + 1 ≠ s.mSSkel.halfedgeNext + 2 + 1 := by omega
  have k3 : s.mSSkel.halfedgeNext + 1 ≠ s.mSSkel.halfedgeNext + 2 := by omega
  have k7 : s.mSSkel.halfedgeNext ≠ s.mSSkel.halfedgeNext + 2 := by omega
  have k8 : s.mSSkel.halfedgeNext ≠ s.mSSkel.halfedgeNext + 1 := by omega
  have k9 : s.mSSkel.halfedgeNext + 2 ≠ s.mSSkel.halfedgeNext + 2 + 1 := by omega
  constructor
  · simp only [Builder.SplitEventWiring, Builder.bordersAround,
      Builder.set_vertex, Builder.set_halfedge, Builder.set_next, Builder.set_prev,
      Builder.set_face,
      Builder.primary_bisector, Builder.next, Builder.prev, Builder.opposite, Builder.face,
      Builder.halfedge, Builder.face_halfedge,
      he_updVertex, he_updWrap, he_wrapped_push_back, he_SLAV_push_back, he_SLAV_remove, he_vertices_push_back, he_with_mVertexID, he_with_mEdgeID, he_with_mSplitNodes, vtx_updHalfedge, vtx_updWrap, vtx_wrapped_push_back, vtx_SLAV_push_back, vtx_SLAV_remove, vtx_edges_push_back, vtx_with_mVertexID, vtx_with_mEdgeID, vtx_with_mSplitNodes, fc_updHalfedge, fc_updVertex, fc_updWrap, fc_wrapped_push_back, fc_SLAV_push_back, fc_SLAV_remove, fc_vertices_push_back, fc_edges_push_back, fc_with_mVertexID, fc_with_mEdgeID, fc_with_mSplitNodes, ev_updHalfedge, ev_updVertex, ev_updWrap, ev_wrapped_push_back, ev_SLAV_push_back, ev_SLAV_remove, ev_vertices_push_back, ev_edges_push_back, ev_with_mVertexID, ev_with_mEdgeID, ev_with_mSplitNodes, he_updHalfedge, he_edges_push_back, vtx_updVertex, vtx_vertices_push_back, edges_push_back_snd, edges_push_back_halfedgeNext, hN, hk, hev, hfc, hhe,
      hv1, hv2, hvs,
      hS, hO, hH, hXO, hXI, e1, e2, Ne.symm e1, Ne.symm e2, v1, Ne.symm v1,
      a1, a2, a3, a4, b1, b2, b3, b4, c1, c2, c3, c4,
      d1, d2, d3, d4, k1, k2, k3, k7, k8, k9, Ne.symm k1, Ne.symm k2, Ne.symm k3,
      Ne.symm k7, Ne.symm k8, Ne.symm k9,
      Ne.symm a1, Ne.symm a2, Ne.symm a3, Ne.symm a4,
      Ne.symm b1, Ne.symm b2, Ne.symm b3, Ne.symm b4, Ne.symm c1, Ne.symm c2, Ne.symm c3,
      Ne.symm c4, Ne.symm d1, Ne.symm d2, Ne.symm d3, Ne.symm d4,
      apply_ite Halfedge.next, apply_ite Halfedge.prev, apply_ite Halfedge.vertex,
      apply_ite Halfedge.face, apply_ite Halfedge.opposite, apply_ite Vertex.halfedge,
      ↓reduceIte, Option.some.injEq, reduceCtorEq, ite_self, Halfedge.mk1]
  · simp only [Builder.SplitEventWiring, Builder.bordersAround,
      Builder.set_vertex, Builder.set_halfedge, Builder.set_next, Builder.set_prev,
      Builder.set_face,
      Builder.primary_bisector, Builder.next, Builder.prev, Builder.opposite, Builder.face,
      Builder.halfedge, Builder.face_halfedge,
      he_updVertex, he_updWrap, he_wrapped_push_back, he_SLAV_push_back, he_SLAV_remove, he_vertices_push_back, he_with_mVertexID, he_with_mEdgeID, he_with_mSplitNodes, vtx_updHalfedge, vtx_updWrap, vtx_wrapped_push_back, vtx_SLAV_push_back, vtx_SLAV_remove, vtx_edges_push_back, vtx_with_mVertexID, vtx_with_mEdgeID, vtx_with_mSplitNodes, fc_updHalfedge, fc_updVertex, fc_updWrap, fc_wrapped_push_back, fc_SLAV_push_back, fc_SLAV_remove, fc_vertices_push_back, fc_edges_push_back, fc_with_mVertexID, fc_with_mEdgeID, fc_with_mSplitNodes, ev_updHalfedge, ev_updVertex, ev_updWrap, ev_wrapped_push_back, ev_SLAV_push_back, ev_SLAV_remove, ev_vertices_push_back, ev_edges_push_back, ev_with_mVertexID, ev_with_mEdgeID, ev_with_mSplitNodes, he_updHalfedge, he_edges_push_back, vtx_updVertex, vtx_vertices_push_back, edges_push_back_snd, edges_push_back_halfedgeNext, hN, hk, hev, hfc, hhe,
      hv1, hv2, hvs,
      hS, hO, hH, hXO, hXI, e1, e2, Ne.symm e1, Ne.symm e2, v1, Ne.symm v1,
      a1, a2, a3, a4, b1, b2, b3, b4, c1, c2, c3, c4,
      d1, d2, d3, d4, k1, k2, k3, k7, k8, k9, Ne.symm k1, Ne.symm k2, Ne.symm k3,
      Ne.symm k7, Ne.symm k8, Ne.symm k9,
      Ne.symm a1, Ne.symm a2, Ne.symm a3, Ne.symm a4,
      Ne.symm b1, Ne.symm b2, Ne.symm b3, Ne.symm b4, Ne.symm c1, Ne.symm c2, Ne.symm c3,
      Ne.symm c4, Ne.symm d1, Ne.symm d2, Ne.symm d3, Ne.symm d4,
      apply_ite Halfedge.next, apply_ite Halfedge.prev, apply_ite Halfedge.vertex,
      apply_ite Halfedge.face, apply_ite Halfedge.opposite, apply_ite Vertex.halfedge,
      ↓reduceIte, Option.some.injEq, reduceCtorEq, ite_self, Halfedge.mk1]

theorem CollectSplitEvent_store (tr : Traits) (st : Builder) (N : Vertex_handle)
    (a b c : Halfedge_handle) :
    ((st.CollectSplitEvent tr N a b c).mEventCount = st.mEventCount
      ∧ (st.CollectSplitEvent tr N a b c).mEvents = st.mEvents)
    ∨ ((st.CollectSplitEvent tr N a b c).mEventCount = st.mEventCount + 1
      ∧ (st.CollectSplitEvent tr N a b c).mEvents
        = fun k => if k = st.mEventCount then SplitEvent a b c N c else st.mEvents k) := by
  unfold Builder.CollectSplitEvent
  dsimp only
  split
  · split
    · right
      split
      · exact ⟨rfl, rfl⟩
      · exact ⟨rfl, rfl⟩
    · exact Or.inl ⟨rfl, rfl⟩
  · exact Or.inl ⟨rfl, rfl⟩

/-- The events that `CollectSplitEvents(N)` adds to the store: split events of seed `N` with the
two borders of `N`, against an opposite border that is neither of them. -/
theorem CollectSplitEvents_made (tr : Traits) (s0 : Builder) (N : Vertex_handle) (k : Nat)
    (h1 : s0.mEventCount ≤ k) (h2 : k < (s0.CollectSplitEvents tr N).mEventCount) :
    ∃ opp : Halfedge_handle, opp ∈ s0.mContourHalfedges
      ∧ opp ≠ s0.GetDefiningBorderA N ∧ opp ≠ s0.GetDefiningBorderB N
      ∧ (s0.CollectSplitEvents tr N).mEvents k
        = SplitEvent (s0.GetDefiningBorderA N) (s0.GetDefiningBorderB N) opp N opp := by
  unfold Builder.CollectSplitEvents at h2 ⊢
  dsimp only at h2 ⊢
  generalize hA : s0.GetDefiningBorderA N = A at h2 ⊢
  generalize hB : s0.GetDefiningBorderB N = B at h2 ⊢
  generalize s0.opposite (s0.next (s0.opposite A)) = p1 at h2 ⊢
  generalize s0.opposite (s0.prev (s0.opposite A)) = p2 at h2 ⊢
  generalize s0.opposite (s0.next (s0.opposite B)) = p3 at h2 ⊢
  generalize s0.opposite (s0.prev (s0.opposite B)) = p4 at h2 ⊢
  have key : ∀ (l : List Halfedge_handle) (st : Builder),
      (∀ x ∈ l, x ∈ s0.mContourHalfedges) →
      s0.mEventCount ≤ st.mEventCount →
      (∀ k, s0.mEventCount ≤ k → k < st.mEventCount →
        ∃ opp : Halfedge_handle, opp ∈ s0.mContourHalfedges ∧ opp ≠ A ∧ opp ≠ B
          ∧ st.mEvents k = SplitEvent A B opp N opp) →
      ∀ k, s0.mEventCount ≤ k →
        k < (l.foldl (fun st lOpposite =>
            if lOpposite ≠ A ∧ lOpposite ≠ B ∧ lOpposite ≠ p1 ∧ lOpposite ≠ p2
                ∧ lOpposite ≠ p3 ∧ lOpposite ≠ p4 then
              st.CollectSplitEvent tr N A B lOpposite
            else st) st).mEventCount →
        ∃ opp : Halfedge_handle, opp ∈ s0.mContourHalfedges ∧ opp ≠ A ∧ opp ≠ B
          ∧ (l.foldl (fun st lOpposite =>
            if lOpposite ≠ A ∧ lOpposite ≠ B ∧ lOpposite ≠ p1 ∧ lOpposite ≠ p2
                ∧ lOpposite ≠ p3 ∧ lOpposite ≠ p4 then
              st.CollectSplitEvent tr N A B lOpposite
            else st) st).mEvents k = SplitEvent A B opp N opp := by
    intro l
    induction l with
    | nil => intro st _ _ hst k a b; exact hst k a b
    | cons x rest ih =>
      intro st hl hc hst
      simp only [List.foldl_cons]
      apply ih
      · intro y hy; exact hl y (List.mem_cons_of_mem _ hy)
      · split
        · rcases CollectSplitEvent_store tr st N A B x with ⟨c1, _⟩ | ⟨c1, _⟩
          · rw [c1]; exact hc
          · rw [c1]; omega
        · exact hc
      · intro k a b
        split at b
        · rename_i hx
          rw [if_pos hx]
          rcases CollectSplitEvent_store tr st N A B x with ⟨c1, c2⟩ | ⟨c1, c2⟩
          · rw [c2]; rw [c1] at b; exact hst k a b
          · rw [c2]
            rw [c1] at b
            dsimp only
            split
            · exact ⟨x, hl x (List.mem_cons_self _ _), hx.1, hx.2.1, rfl⟩
            · rename_i hk
              exact hst k a (by omega)
        · rename_i hx
          rw [if_neg hx]
          exact hst k a b
  exact key _ s0 (fun _ h => h) (le_refl _) (fun k a b => absurd b (by omega)) k h1 h2

theorem recordBorders_two (W : Builder) (n m : Nat) (t u : Triedge)
    (h : (W.mSSkel.vertices n).id ≠ (W.mSSkel.vertices m).id) :
    (((W.recordBorders (some n) t).recordBorders (some m) u).GetDefiningBorderA (some n) = t.e0
      ∧ ((W.recordBorders (some n) t).recordBorders (some m) u).GetDefiningBorderB (some n)
          = t.e1
      ∧ ((W.recordBorders (some n) t).recordBorders (some m) u).GetDefiningBorderC (some n)
          = t.e2)
    ∧ (((W.recordBorders (some n) t).recordBorders (some m) u).GetDefiningBorderA (some m)
          = u.e0
      ∧ ((W.recordBorders (some n) t).recordBorders (some m) u).GetDefiningBorderB (some m)
          = u.e1
      ∧ ((W.recordBorders (some n) t).recordBorders (some m) u).GetDefiningBorderC (some m)
          = u.e2) := by
  simp [Builder.recordBorders, Builder.SetDefiningBorderA, Builder.SetDefiningBorderB,
    Builder.SetDefiningBorderC, Builder.updWrap, Builder.wrapIndex,
    Builder.GetDefiningBorderA, Builder.GetDefiningBorderB, Builder.GetDefiningBorderC,
    Builder.wrap, h, Ne.symm h]

/-- The ids of the two nodes of a split event, once wired. -/
theorem SplitEventWiring_ids (s : Builder) (e : EventPtr) (aOppR : Vertex_handle) :
    ((s.SplitEventWiring e aOppR).mSSkel.vertices s.mSSkel.vertexNext).id = s.mVertexID
    ∧ ((s.SplitEventWiring e aOppR).mSSkel.vertices (s.mSSkel.vertexNext + 1)).id
        = s.mVertexID + 1 := by
  have v1 : s.mSSkel.vertexNext ≠ s.mSSkel.vertexNext + 1 := by omega
  have hN : (s.ConstructSplitEventNodes e aOppR).2
      = (some s.mSSkel.vertexNext, some (s.mSSkel.vertexNext + 1)) := rfl
  have g1 : ((s.ConstructSplitEventNodes e aOppR).1.mSSkel.vertices s.mSSkel.vertexNext).id
      = s.mVertexID := by
    show ((s.ConstructSplitEventNodes e aOppR).1.vtx (some s.mSSkel.vertexNext)).id
      = s.mVertexID
    simp only [Builder.ConstructSplitEventNodes, Builder.set_vertex, Builder.set_halfedge,
      Builder.SetIsProcessed, Builder.SetPrevInLAV, Builder.SetNextInLAV,
      he_updVertex, he_updWrap, he_wrapped_push_back, he_SLAV_push_back, he_SLAV_remove, he_vertices_push_back, he_with_mVertexID, he_with_mEdgeID, he_with_mSplitNodes, vtx_updHalfedge, vtx_updWrap, vtx_wrapped_push_back, vtx_SLAV_push_back, vtx_SLAV_remove, vtx_edges_push_back, vtx_with_mVertexID, vtx_with_mEdgeID, vtx_with_mSplitNodes, fc_updHalfedge, fc_updVertex, fc_updWrap, fc_wrapped_push_back, fc_SLAV_push_back, fc_SLAV_remove, fc_vertices_push_back, fc_edges_push_back, fc_with_mVertexID, fc_with_mEdgeID, fc_with_mSplitNodes, ev_updHalfedge, ev_updVertex, ev_updWrap, ev_wrapped_push_back, ev_SLAV_push_back, ev_SLAV_remove, ev_vertices_push_back, ev_edges_push_back, ev_with_mVertexID, ev_with_mEdgeID, ev_with_mSplitNodes, he_updHalfedge, he_edges_push_back, vtx_updVertex, vtx_vertices_push_back, vertices_push_back_snd, vertices_push_back_vertexNext,
      vertices_push_back_mVertexID, apply_ite Vertex.id, ite_self, Vertex.mk3, v1, Ne.symm v1,
      ↓reduceIte]
  have g2 : ((s.ConstructSplitEventNodes e aOppR).1.mSSkel.vertices
      (s.mSSkel.vertexNext + 1)).id = s.mVertexID + 1 := by
    show ((s.ConstructSplitEventNodes e aOppR).1.vtx (some (s.mSSkel.vertexNext + 1))).id
      = s.mVertexID + 1
    simp only [Builder.ConstructSplitEventNodes, Builder.set_vertex, Builder.set_halfedge,
      Builder.SetIsProcessed, Builder.SetPrevInLAV, Builder.SetNextInLAV,
      he_updVertex, he_updWrap, he_wrapped_push_back, he_SLAV_push_back, he_SLAV_remove, he_vertices_push_back, he_with_mVertexID, he_with_mEdgeID, he_with_mSplitNodes, vtx_updHalfedge, vtx_updWrap, vtx_wrapped_push_back, vtx_SLAV_push_back, vtx_SLAV_remove, vtx_edges_push_back, vtx_with_mVertexID, vtx_with_mEdgeID, vtx_with_mSplitNodes, fc_updHalfedge, fc_updVertex, fc_updWrap, fc_wrapped_push_back, fc_SLAV_push_back, fc_SLAV_remove, fc_vertices_push_back, fc_edges_push_back, fc_with_mVertexID, fc_with_mEdgeID, fc_with_mSplitNodes, ev_updHalfedge, ev_updVertex, ev_updWrap, ev_wrapped_push_back, ev_SLAV_push_back, ev_SLAV_remove, ev_vertices_push_back, ev_edges_push_back, ev_with_mVertexID, ev_with_mEdgeID, ev_with_mSplitNodes, he_updHalfedge, he_edges_push_back, vtx_updVertex, vtx_vertices_push_back, vertices_push_back_snd, vertices_push_back_vertexNext,
      vertices_push_back_mVertexID, apply_ite Vertex.id, ite_self, Vertex.mk3, v1, Ne.symm v1,
      ↓reduceIte]
  have key : ∀ n, ((s.SplitEventWiring e aOppR).mSSkel.vertices n).id
      = ((s.ConstructSplitEventNodes e aOppR).1.mSSkel.vertices n).id := by
    intro n
    show ((s.SplitEventWiring e aOppR).vtx (some n)).id
      = ((s.ConstructSplitEventNodes e aOppR).1.vtx (some n)).id
    simp only [Builder.SplitEventWiring, Builder.set_vertex, Builder.set_halfedge,
      Builder.set_next, Builder.set_prev, Builder.set_face, he_updVertex, he_updWrap, he_wrapped_push_back, he_SLAV_push_back, he_SLAV_remove, he_vertices_push_back, he_with_mVertexID, he_with_mEdgeID, he_with_mSplitNodes, vtx_updHalfedge, vtx_updWrap, vtx_wrapped_push_back, vtx_SLAV_push_back, vtx_SLAV_remove, vtx_edges_push_back, vtx_with_mVertexID, vtx_with_mEdgeID, vtx_with_mSplitNodes, fc_updHalfedge, fc_updVertex, fc_updWrap, fc_wrapped_push_back, fc_SLAV_push_back, fc_SLAV_remove, fc_vertices_push_back, fc_edges_push_back, fc_with_mVertexID, fc_with_mEdgeID, fc_with_mSplitNodes, ev_updHalfedge, ev_updVertex, ev_updWrap, ev_wrapped_push_back, ev_SLAV_push_back, ev_SLAV_remove, ev_vertices_push_back, ev_edges_push_back, ev_with_mVertexID, ev_with_mEdgeID, ev_with_mSplitNodes, he_updHalfedge, he_edges_push_back, vtx_updVertex, vtx_vertices_push_back, apply_ite Vertex.id,
      ite_self]
  rw [key, key]
  exact ⟨g1, g2⟩

/-- C16: `HandleSplitEvent` for a split event of seed `S` (a vertex of the graph whose halfedge,
primary bisector `XO` and twin `XI` of that bisector are halfedges of the graph) against the
opposite border `opp` (a halfedge of the graph). Assume the contour edge of the face of `XO` is
`definingBorderA(S)`, that of the face of `XI` is `definingBorderB(S)`, that of the face of `opp`
is `opp`, the two borders of `S` differ and `opp` is neither of them. Then the left node gets
`(A,B,C) = (definingBorderA(S), opp, definingBorderB(S))` and the right node
`(A,B,C) = (opp, definingBorderB(S), definingBorderA(S))`, each triple pairwise distinct.
Every event that `CollectSplitEvents(N)` adds to the store is a split event of seed `N` with
the two borders of `N` against an opposite border of the contour that is neither of them. -/
theorem HandleSplitEvent_borders (tr : Traits) (s : Builder) (e : EventPtr)
    (aOppR : Vertex_handle) (sd hs xo xi op : Nat)
    (hS : (s.ev e).seed0 = some sd) (hO : (s.ev e).opposite_border = some op)
    (hsd : sd < s.mSSkel.vertexNext)
    (hH : s.halfedge (some sd) = some hs) (hXO : s.next (some hs) = some xo)
    (hXI : s.opposite (some xo) = some xi)
    (hhs : hs < s.mSSkel.halfedgeNext) (hxo : xo < s.mSSkel.halfedgeNext)
    (hxi : xi < s.mSSkel.halfedgeNext) (hop : op < s.mSSkel.halfedgeNext)
    (hA : s.defining_contour_edge (s.primary_bisector (some sd))
      = s.GetDefiningBorderA (some sd))
    (hB : s.defining_contour_edge (s.opposite (s.primary_bisector (some sd)))
      = s.GetDefiningBorderB (some sd))
    (hF : s.face_halfedge (s.face (some op)) = some op)
    (hAB : s.GetDefiningBorderA (some sd) ≠ s.GetDefiningBorderB (some sd))
    (hoA : some op ≠ s.GetDefiningBorderA (some sd))
    (hoB : some op ≠ s.GetDefiningBorderB (some sd)) :
    ((s.HandleSplitEvent tr e aOppR).GetDefiningBorderA (some s.mSSkel.vertexNext)
        = s.GetDefiningBorderA (some sd)
      ∧ (s.HandleSplitEvent tr e aOppR).GetDefiningBorderB (some s.mSSkel.vertexNext) = some op
      ∧ (s.HandleSplitEvent tr e aOppR).GetDefiningBorderC (some s.mSSkel.vertexNext)
        = s.GetDefiningBorderB (some sd))
    ∧ ((s.HandleSplitEvent tr e aOppR).GetDefiningBorderA (some (s.mSSkel.vertexNext + 1))
        = some op
      ∧ (s.HandleSplitEvent tr e aOppR).GetDefiningBorderB (some (s.mSSkel.vertexNext + 1))
        = s.GetDefiningBorderB (some sd)
      ∧ (s.HandleSplitEvent tr e aOppR).GetDefiningBorderC (some (s.mSSkel.vertexNext + 1))
        = s.GetDefiningBorderA (some sd))
    ∧ ((s.HandleSplitEvent tr e aOppR).GetDefiningBorderA (some s.mSSkel.vertexNext)
        ≠ (s.HandleSplitEvent tr e aOppR).GetDefiningBorderB (some s.mSSkel.vertexNext)
      ∧ (s.HandleSplitEvent tr e aOppR).GetDefiningBorderB (some s.mSSkel.vertexNext)
        ≠ (s.HandleSplitEvent tr e aOppR).GetDefiningBorderC (some s.mSSkel.vertexNext)
      ∧ (s.HandleSplitEvent tr e aOppR).GetDefiningBorderA (some s.mSSkel.vertexNext)
        ≠ (s.HandleSplitEvent tr e aOppR).GetDefiningBorderC (some s.mSSkel.vertexNext))
    ∧ ((s.HandleSplitEvent tr e aOppR).GetDefiningBorderA (some (s.mSSkel.vertexNext + 1))
        ≠ (s.HandleSplitEvent tr e aOppR).GetDefiningBorderB (some (s.mSSkel.vertexNext + 1))
      ∧ (s.HandleSplitEvent tr e aOppR).GetDefiningBorderB (some (s.mSSkel.vertexNext + 1))
        ≠ (s.HandleSplitEvent tr e aOppR).GetDefiningBorderC (some (s.mSSkel.vertexNext + 1))
      ∧ (s.HandleSplitEvent tr e aOppR).GetDefiningBorderA (some (s.mSSkel.vertexNext + 1))
        ≠ (s.HandleSplitEvent tr e aOppR).GetDefiningBorderC (some (s.mSSkel.vertexNext + 1)))
    ∧ (∀ (s0 : Builder) (N : Vertex_handle) (k : Nat), s0.mEventCount ≤ k →
        k < (s0.CollectSplitEvents tr N).mEventCount →
        ∃ opp : Halfedge_handle, opp ∈ s0.mContourHalfedges
          ∧ opp ≠ s0.GetDefiningBorderA N ∧ opp ≠ s0.GetDefiningBorderB N
          ∧ (s0.CollectSplitEvents tr N).mEvents k
            = SplitEvent (s0.GetDefiningBorderA N) (s0.GetDefiningBorderB N) opp N opp) := by
  obtain ⟨w1, w2⟩ := SplitEventWiring_borders s e aOppR sd hs xo xi op hS hO hsd hH hXO hXI
    hhs hxo hxi hop
  obtain ⟨i1, i2⟩ := SplitEventWiring_ids s e aOppR
  have hne : ((s.SplitEventWiring e aOppR).mSSkel.vertices s.mSSkel.vertexNext).id
      ≠ ((s.SplitEventWiring e aOppR).mSSkel.vertices (s.mSSkel.vertexNext + 1)).id := by
    rw [i1, i2]; omega
  have hPB : s.primary_bisector (some sd) = some xo := by
    unfold Builder.primary_bisector
    rw [hH, hXO]
  rw [hPB] at hA hB
  rw [hXI] at hB
  unfold Builder.defining_contour_edge at hA hB
  have hN : (s.ConstructSplitEventNodes e aOppR).2
      = (some s.mSSkel.vertexNext, some (s.mSSkel.vertexNext + 1)) := rfl
  have key : ((s.HandleSplitEvent tr e aOppR).GetDefiningBorderA (some s.mSSkel.vertexNext)
        = s.GetDefiningBorderA (some sd)
      ∧ (s.HandleSplitEvent tr e aOppR).GetDefiningBorderB (some s.mSSkel.vertexNext) = some op
      ∧ (s.HandleSplitEvent tr e aOppR).GetDefiningBorderC (some s.mSSkel.vertexNext)
        = s.GetDefiningBorderB (some sd))
    ∧ ((s.HandleSplitEvent tr e aOppR).GetDefiningBorderA (some (s.mSSkel.vertexNext + 1))
        = some op
      ∧ (s.HandleSplitEvent tr e aOppR).GetDefiningBorderB (some (s.mSSkel.vertexNext + 1))
        = s.GetDefiningBorderB (some sd)
      ∧ (s.HandleSplitEvent tr e aOppR).GetDefiningBorderC (some (s.mSSkel.vertexNext + 1))
        = s.GetDefiningBorderA (some sd)) := by
    rw [HandleSplitEvent_wiring, hN]
    dsimp only
    obtain ⟨⟨a1, a2, a3⟩, b1, b2, b3⟩ := recordBorders_two (s.SplitEventWiring e aOppR)
      s.mSSkel.vertexNext (s.mSSkel.vertexNext + 1)
      ((s.SplitEventWiring e aOppR).bordersAround (some s.mSSkel.vertexNext))
      ((s.SplitEventWiring e aOppR).bordersAround (some (s.mSSkel.vertexNext + 1))) hne
    have K := fun v => ((UpdatePQ_keeps tr
      (((s.SplitEventWiring e aOppR).recordBorders (some s.mSSkel.vertexNext)
          ((s.SplitEventWiring e aOppR).bordersAround (some s.mSSkel.vertexNext))).recordBorders
        (some (s.mSSkel.vertexNext + 1))
        ((s.SplitEventWiring e aOppR).bordersAround (some (s.mSSkel.vertexNext + 1))))
      (some s.mSSkel.vertexNext)).uTrans
      (UpdatePQ_keeps tr _ (some (s.mSSkel.vertexNext + 1)))).borders v
    refine ⟨⟨?_, ?_, ?_⟩, ?_, ?_, ?_⟩
    · exact (K _).1.trans (a1.trans ((congrArg Triedge.e0 w1).trans hA))
    · exact (K _).2.1.trans (a2.trans ((congrArg Triedge.e1 w1).trans hF))
    · exact (K _).2.2.trans (a3.trans ((congrArg Triedge.e2 w1).trans hB))
    · exact (K _).1.trans (b1.trans ((congrArg Triedge.e0 w2).trans hF))
    · exact (K _).2.1.trans (b2.trans ((congrArg Triedge.e1 w2).trans hB))
    · exact (K _).2.2.trans (b3.trans ((congrArg Triedge.e2 w2).trans hA))
  obtain ⟨⟨p1, p2, p3⟩, q1, q2, q3⟩ := key
  refine ⟨⟨p1, p2, p3⟩, ⟨q1, q2, q3⟩, ⟨?_, ?_, ?_⟩, ⟨?_, ?_, ?_⟩,
    fun s0 N k h1 h2 => CollectSplitEvents_made tr s0 N k h1 h2⟩
  · rw [p1, p2]; exact Ne.symm hoA
  · rw [p2, p3]; exact hoB
  · rw [p1, p3]; exact hAB
  · rw [q1, q2]; exact hoB
  · rw [q2, q3]; exact Ne.symm hAB
  · rw [q1, q3]; exact hoA

theorem HandleSplitEvent_borders_witness :
    ((exQuadSplit.ev (some 0)).seed0 = some 0
      ∧ (exQuadSplit.ev (some 0)).opposite_border = some 2
      ∧ exQuadSplit.halfedge (some 0) = some 0 ∧ exQuadSplit.next (some 0) = some 8
      ∧ exQuadSplit.opposite (some 8) = some 9
      ∧ exQuadSplit.mSSkel.vertexNext = 4 ∧ exQuadSplit.mSSkel.halfedgeNext = 16
      ∧ exQuadSplit.defining_contour_edge (exQuadSplit.primary_bisector (some 0))
          = exQuadSplit.GetDefiningBorderA (some 0)
      ∧ exQuadSplit.defining_contour_edge
            (exQuadSplit.opposite (exQuadSplit.primary_bisector (some 0)))
          = exQuadSplit.GetDefiningBorderB (some 0)
      ∧ exQuadSplit.face_halfedge (exQuadSplit.face (some 2)) = some 2
      ∧ exQuadSplit.GetDefiningBorderA (some 0) ≠ exQuadSplit.GetDefiningBorderB (some 0)
      ∧ some 2 ≠ exQuadSplit.GetDefiningBorderA (some 0)
      ∧ some 2 ≠ exQuadSplit.GetDefiningBorderB (some 0))
    ∧ ((exQuadSplit.HandleSplitEvent exTimedTraits (some 0) (some 2)).GetDefiningBorderA
          (some 4) = some 0
      ∧ (exQuadSplit.HandleSplitEvent exTimedTraits (some 0) (some 2)).GetDefiningBorderB
          (some 4) = some 2
      ∧ (exQuadSplit.HandleSplitEvent exTimedTraits (some 0) (some 2)).GetDefiningBorderC
          (some 4) = some 1)
    ∧ ((exQuadSplit.HandleSplitEvent exTimedTraits (some 0) (some 2)).GetDefiningBorderA
          (some 5) = some 2
      ∧ (exQuadSplit.HandleSplitEvent exTimedTraits (some 0) (some 2)).GetDefiningBorderB
          (some 5) = some 1
      ∧ (exQuadSplit.HandleSplitEvent exTimedTraits (some 0) (some 2)).GetDefiningBorderC
          (some 5) = some 0) :=
  have h := HandleSplitEvent_borders exTimedTraits exQuadSplit (some 0) (some 2) 0 0 8 9 2
    (by decide) (by decide) (by decide) (by decide) (by decide) (by decide) (by decide)
    (by decide) (by decide) (by decide) (by decide) (by decide) (by decide) (by decide)
    (by decide) (by decide)
  ⟨⟨by decide, by decide, by decide, by decide, by decide, by decide, by decide, by decide,
    by decide, by decide, by decide, by decide, by decide⟩, h.1, h.2.1⟩

/-! ## The lists of active vertices through the node constructors -/

/-! ## Reading the wrappers through a write -/

theorem wtab_updHalfedge (s : Builder) (h : Halfedge_handle) (f : Halfedge → Halfedge) (k : Nat) :
    (s.updHalfedge h f).mWrappedVertices k = s.mWrappedVertices k := rfl

theorem wtab_updVertex (s : Builder) (v : Vertex_handle) (f : Vertex → Vertex) (k : Nat) :
    (s.updVertex v f).mWrappedVertices k = s.mWrappedVertices k := rfl

theorem wtab_SLAV_push_back (s : Builder) (v : Vertex_handle) (k : Nat) :
    (s.SLAV_push_back v).mWrappedVertices k = s.mWrappedVertices k := by
  cases v <;> rfl

theorem wtab_SLAV_remove (s : Builder) (v : Vertex_handle) (k : Nat) :
    (s.SLAV_remove v).mWrappedVertices k = s.mWrappedVertices k := rfl

theorem wtab_vertices_push_back (s : Builder) (x : Vertex) (k : Nat) :
    (s.vertices_push_back x).1.mWrappedVertices k = s.mWrappedVertices k := rfl

theorem wtab_edges_push_back (s : Builder) (x y : Halfedge) (k : Nat) :
    (s.edges_push_back x y).1.mWrappedVertices k = s.mWrappedVertices k := rfl

theorem wtab_with_mVertexID (s : Builder) (n : Nat) (k : Nat) :
    ({ s with mVertexID := n } : Builder).mWrappedVertices k = s.mWrappedVertices k := rfl

theorem wtab_with_mEdgeID (s : Builder) (n : Nat) (k : Nat) :
    ({ s with mEdgeID := n } : Builder).mWrappedVertices k = s.mWrappedVertices k := rfl

theorem wtab_with_mSplitNodes (s : Builder) (l : List (Vertex_handle × Vertex_handle)) (k : Nat) :
    ({ s with mSplitNodes := l } : Builder).mWrappedVertices k = s.mWrappedVertices k := rfl

theorem wcount_updHalfedge (s : Builder) (h : Halfedge_handle) (f : Halfedge → Halfedge) :
    (s.updHalfedge h f).mWrappedCount = s.mWrappedCount := rfl

theorem wcount_updVertex (s : Builder) (v : Vertex_handle) (f : Vertex → Vertex) :
    (s.updVertex v f).mWrappedCount = s.mWrappedCount := rfl

theorem wcount_updWrap (s : Builder) (v : Vertex_handle) (f : VertexWrapper → VertexWrapper) :
    (s.updWrap v f).mWrappedCount = s.mWrappedCount := rfl

theorem wcount_SLAV_push_back (s : Builder) (v : Vertex_handle) :
    (s.SLAV_push_back v).mWrappedCount = s.mWrappedCount := by
  cases v <;> rfl

theorem wcount_SLAV_remove (s : Builder) (v : Vertex_handle) :
    (s.SLAV_remove v).mWrappedCount = s.mWrappedCount := rfl

theorem wcount_vertices_push_back (s : Builder) (x : Vertex) :
    (s.vertices_push_back x).1.mWrappedCount = s.mWrappedCount := rfl

theorem wcount_edges_push_back (s : Builder) (x y : Halfedge) :
    (s.edges_push_back x y).1.mWrappedCount = s.mWrappedCount := rfl

theorem wcount_with_mVertexID (s : Builder) (n : Nat) :
    ({ s with mVertexID := n } : Builder).mWrappedCount = s.mWrappedCount := rfl

theorem wcount_with_mEdgeID (s : Builder) (n : Nat) :
    ({ s with mEdgeID := n } : Builder).mWrappedCount = s.mWrappedCount := rfl

theorem wcount_with_mSplitNodes (s : Builder) (l : List (Vertex_handle × Vertex_handle)) :
    ({ s with mSplitNodes := l } : Builder).mWrappedCount = s.mWrappedCount := rfl

theorem wtab_updWrap (s : Builder) (v : Vertex_handle) (f : VertexWrapper → VertexWrapper)
    (k : Nat) :
    (s.updWrap v f).mWrappedVertices k
      = if s.wrapIndex v = some k then f (s.mWrappedVertices k) else s.mWrappedVertices k := rfl

theorem wtab_wrapped_push_back (s : Builder) (w : VertexWrapper) (k : Nat) :
    (s.wrapped_push_back w).mWrappedVertices k
      = if k = s.mWrappedCount then w else s.mWrappedVertices k := rfl

theorem wcount_wrapped_push_back (s : Builder) (w : VertexWrapper) :
    (s.wrapped_push_back w).mWrappedCount = s.mWrappedCount + 1 := rfl

theorem wrap_some (s : Builder) (i : Nat) :
    s.wrap (some i) = s.mWrappedVertices (s.vtx (some i)).id := rfl

theorem wrapIndex_some (s : Builder) (i : Nat) :
    s.wrapIndex (some i) = some (s.vtx (some i)).id := rfl

theorem he_mk (g : SSkel) (w : Nat → VertexWrapper) (wc : Nat) (sl : List Nat)
    (ch : List Halfedge_handle) (ev : Nat → Event) (ec : Nat) (pq : List Nat)
    (sn : List (Vertex_handle × Vertex_handle)) (db : List Halfedge_handle)
    (vid eid evid st : Nat) (j : Nat) :
    (Builder.mk g w wc sl ch ev ec pq sn db vid eid evid st).he (some j) = g.halfedges j := rfl

theorem he_of_table (s : Builder) (j : Nat) : s.mSSkel.halfedges j = s.he (some j) := rfl

theorem vtx_mk (g : SSkel) (w : Nat → VertexWrapper) (wc : Nat) (sl : List Nat)
    (ch : List Halfedge_handle) (ev : Nat → Event) (ec : Nat) (pq : List Nat)
    (sn : List (Vertex_handle × Vertex_handle)) (db : List Halfedge_handle)
    (vid eid evid st : Nat) (j : Nat) :
    (Builder.mk g w wc sl ch ev ec pq sn db vid eid evid st).vtx (some j) = g.vertices j := rfl

theorem vtx_of_table (s : Builder) (j : Nat) : s.mSSkel.vertices j = s.vtx (some j) := rfl

theorem fc_mk (g : SSkel) (w : Nat → VertexWrapper) (wc : Nat) (sl : List Nat)
    (ch : List Halfedge_handle) (ev : Nat → Event) (ec : Nat) (pq : List Nat)
    (sn : List (Vertex_handle × Vertex_handle)) (db : List Halfedge_handle)
    (vid eid evid st : Nat) (j : Nat) :
    (Builder.mk g w wc sl ch ev ec pq sn db vid eid evid st).fc (some j) = g.faces j := rfl

theorem fc_of_table (s : Builder) (j : Nat) : s.mSSkel.faces j = s.fc (some j) := rfl

theorem ev_mk (g : SSkel) (w : Nat → VertexWrapper) (wc : Nat) (sl : List Nat)
    (ch : List Halfedge_handle) (ev : Nat → Event) (ec : Nat) (pq : List Nat)
    (sn : List (Vertex_handle × Vertex_handle)) (db : List Halfedge_handle)
    (vid eid evid st : Nat) (j : Nat) :
    (Builder.mk g w wc sl ch ev ec pq sn db vid eid evid st).ev (some j) = ev j := rfl

/-- The LAV links and processed flags after `ConstructEdgeEventNode`, for a state with dense
ids: `p` is the LAV predecessor of the left seed and `q` the LAV successor of the right seed. -/
theorem ConstructEdgeEventNode_links (s : Builder) (e : EventPtr) (l r p q : Nat)
    (hids : s.IdsDense)
    (hL : (s.ev e).seed0 = some l) (hR : (s.ev e).seed1 = some r)
    (hl : l < s.mSSkel.vertexNext) (hr : r < s.mSSkel.vertexNext)
    (hp : s.GetPrevInLAV (some l) = some p) (hq : s.GetNextInLAV (some r) = some q)
    (hpv : p < s.mSSkel.vertexNext) (hqv : q < s.mSSkel.vertexNext)
    (i : Nat) (hi : i ≤ s.mSSkel.vertexNext) :
    (s.ConstructEdgeEventNode e).1.GetNextInLAV (some i)
      = (if i = s.mSSkel.vertexNext then some q
         else if p = i then some s.mSSkel.vertexNext else s.GetNextInLAV (some i))
    ∧ (s.ConstructEdgeEventNode e).1.GetPrevInLAV (some i)
      = (if q = i then some s.mSSkel.vertexNext
         else if i = s.mSSkel.vertexNext then some p else s.GetPrevInLAV (some i))
    ∧ (s.ConstructEdgeEventNode e).1.IsProcessed (some i)
      = (if l = i ∨ r = i then true
         else if i = s.mSSkel.vertexNext then false else s.IsProcessed (some i)) := by
  obtain ⟨hid, hvid, hwc⟩ := hids
  have idl : (s.vtx (some l)).id = l := hid l hl
  have idr : (s.vtx (some r)).id = r := hid r hr
  have idp : (s.vtx (some p)).id = p := hid p hpv
  have idq : (s.vtx (some q)).id = q := hid q hqv
  have e1 : l ≠ s.mSSkel.vertexNext := by omega
  have e2 : r ≠ s.mSSkel.vertexNext := by omega
  have e3 : p ≠ s.mSSkel.vertexNext := by omega
  have e4 : q ≠ s.mSSkel.vertexNext := by omega
  simp only [Builder.GetPrevInLAV, Builder.GetNextInLAV, wrap_some, idl, idr] at hp hq
  by_cases hiv : i = s.mSSkel.vertexNext
  · rw [hiv]
    simp only [Builder.ConstructEdgeEventNode, Builder.set_vertex, Builder.set_halfedge,
      Builder.set_next, Builder.set_prev,
      Builder.SetIsProcessed, Builder.SetPrevInLAV, Builder.SetNextInLAV,
      Builder.GetPrevInLAV, Builder.GetNextInLAV, Builder.IsProcessed,
      he_updVertex, he_updWrap, he_wrapped_push_back, he_SLAV_push_back, he_SLAV_remove, he_vertices_push_back, he_with_mVertexID, he_with_mEdgeID, he_with_mSplitNodes, vtx_updHalfedge, vtx_updWrap, vtx_wrapped_push_back, vtx_SLAV_push_back, vtx_SLAV_remove, vtx_edges_push_back, vtx_with_mVertexID, vtx_with_mEdgeID, vtx_with_mSplitNodes, fc_updHalfedge, fc_updVertex, fc_updWrap, fc_wrapped_push_back, fc_SLAV_push_back, fc_SLAV_remove, fc_vertices_push_back, fc_edges_push_back, fc_with_mVertexID, fc_with_mEdgeID, fc_with_mSplitNodes, ev_updHalfedge, ev_updVertex, ev_updWrap, ev_wrapped_push_back, ev_SLAV_push_back, ev_SLAV_remove, ev_vertices_push_back, ev_edges_push_back, ev_with_mVertexID, ev_with_mEdgeID, ev_with_mSplitNodes, he_updHalfedge, he_edges_push_back, vtx_updVertex, vtx_vertices_push_back, wtab_updHalfedge, wtab_updVertex, wtab_SLAV_push_back, wtab_SLAV_remove, wtab_vertices_push_back, wtab_edges_push_back, wtab_with_mVertexID, wtab_with_mEdgeID, wtab_with_mSplitNodes, wcount_updHalfedge, wcount_updVertex, wcount_updWrap, wcount_SLAV_push_back, wcount_SLAV_remove, wcount_vertices_push_back, wcount_edges_push_back, wcount_with_mVertexID, wcount_with_mEdgeID, wcount_with_mSplitNodes, wtab_updWrap, wtab_wrapped_push_back, wcount_wrapped_push_back, wrap_some, wrapIndex_some, he_mk, he_of_table, vtx_mk, vtx_of_table, fc_mk, fc_of_table, ev_mk, vertices_push_back_snd, vertices_push_back_vertexNext,
      vertices_push_back_mVertexID, apply_ite Vertex.id, ite_self, Vertex.mk3,
      VertexWrapper.mk1,
      apply_ite VertexWrapper.mPrevInLAV, apply_ite VertexWrapper.mNextInLAV,
      apply_ite VertexWrapper.mIsProcessed,
      hL, hR, idl, idr, idp, idq, hp, hq, hvid, hwc, e1, e2, e3, e4, Ne.symm e1, Ne.symm e2,
      Ne.symm e3, Ne.symm e4, ↓reduceIte, Option.some.injEq, reduceCtorEq, or_self,
      or_false, false_or, or_true, true_or, and_self, true_and, and_true, eq_self_iff_true]
    rfl
  · have idi : (s.vtx (some i)).id = i := hid i (by omega)
    by_cases h1 : l = i <;> by_cases h2 : r = i <;> by_cases h3 : p = i <;>
      by_cases h4 : q = i <;> (try subst h1) <;> (try subst h2) <;> (try subst h3) <;>
      (try subst h4) <;>
    simp only [Builder.ConstructEdgeEventNode, Builder.set_vertex, Builder.set_halfedge,
      Builder.set_next, Builder.set_prev,
      Builder.SetIsProcessed, Builder.SetPrevInLAV, Builder.SetNextInLAV,
      Builder.GetPrevInLAV, Builder.GetNextInLAV, Builder.IsProcessed,
      he_updVertex, he_updWrap, he_wrapped_push_back, he_SLAV_push_back, he_SLAV_remove, he_vertices_push_back, he_with_mVertexID, he_with_mEdgeID, he_with_mSplitNodes, vtx_updHalfedge, vtx_updWrap, vtx_wrapped_push_back, vtx_SLAV_push_back, vtx_SLAV_remove, vtx_edges_push_back, vtx_with_mVertexID, vtx_with_mEdgeID, vtx_with_mSplitNodes, fc_updHalfedge, fc_updVertex, fc_updWrap, fc_wrapped_push_back, fc_SLAV_push_back, fc_SLAV_remove, fc_vertices_push_back, fc_edges_push_back, fc_with_mVertexID, fc_with_mEdgeID, fc_with_mSplitNodes, ev_updHalfedge, ev_updVertex, ev_updWrap, ev_wrapped_push_back, ev_SLAV_push_back, ev_SLAV_remove, ev_vertices_push_back, ev_edges_push_back, ev_with_mVertexID, ev_with_mEdgeID, ev_with_mSplitNodes, he_updHalfedge, he_edges_push_back, vtx_updVertex, vtx_vertices_push_back, wtab_updHalfedge, wtab_updVertex, wtab_SLAV_push_back, wtab_SLAV_remove, wtab_vertices_push_back, wtab_edges_push_back, wtab_with_mVertexID, wtab_with_mEdgeID, wtab_with_mSplitNodes, wcount_updHalfedge, wcount_updVertex, wcount_updWrap, wcount_SLAV_push_back, wcount_SLAV_remove, wcount_vertices_push_back, wcount_edges_push_back, wcount_with_mVertexID, wcount_with_mEdgeID, wcount_with_mSplitNodes, wtab_updWrap, wtab_wrapped_push_back, wcount_wrapped_push_back, wrap_some, wrapIndex_some, he_mk, he_of_table, vtx_mk, vtx_of_table, fc_mk, fc_of_table, ev_mk, vertices_push_back_snd, vertices_push_back_vertexNext,
      vertices_push_back_mVertexID, apply_ite Vertex.id, ite_self, Vertex.mk3,
      VertexWrapper.mk1,
      apply_ite VertexWrapper.mPrevInLAV, apply_ite VertexWrapper.mNextInLAV,
      apply_ite VertexWrapper.mIsProcessed,
      hL, hR, idl, idr, idp, idq, hp, hq, hvid, hwc, e1, e2, e3, e4, Ne.symm e1, Ne.symm e2,
      Ne.symm e3, Ne.symm e4, ↓reduceIte, Option.some.injEq, reduceCtorEq, or_self,
      or_false, false_or, or_true, true_or, and_self, true_and, and_true, eq_self_iff_true,
      idi, hiv, Ne.symm hiv, *]

/-- C13: `ConstructEdgeEventNode` on a state with dense ids whose LAV links form a ring
`L, R, rest...` (listed from the left seed along the next links, so that `next(L) == R`), with
at least one further vertex, all of them vertices of the graph: afterwards the links form the
ring `N, rest...`, that is the old members without `L` and `R` and with the new node `N`, all
unprocessed, with `prev(N)` the old `prev(L)` and `next(N)` the old `next(R)`. -/
theorem ConstructEdgeEventNode_ring (s : Builder) (e : EventPtr) (l r : Nat) (rest : List Nat)
    (hids : s.IdsDense)
    (hL : (s.ev e).seed0 = some l) (hR : (s.ev e).seed1 = some r)
    (hring : s.IsLAVRing (l :: r :: rest)) (hrest : rest ≠ [])
    (hmem : ∀ v ∈ l :: r :: rest, v < s.mSSkel.vertexNext) :
    (s.ConstructEdgeEventNode e).1.IsLAVRing (s.mSSkel.vertexNext :: rest)
    ∧ (s.ConstructEdgeEventNode e).1.GetPrevInLAV (some s.mSSkel.vertexNext)
        = s.GetPrevInLAV (some l)
    ∧ (s.ConstructEdgeEventNode e).1.GetNextInLAV (some s.mSSkel.vertexNext)
        = s.GetNextInLAV (some r) := by
  obtain ⟨_, hnd, hch, hproc⟩ := hring
  cases rest with
  | nil => exact absurd rfl hrest
  | cons q rest' =>
    have hgl : (q :: rest').getLast? = some ((q :: rest').getLast (List.cons_ne_nil _ _)) :=
      List.getLast?_eq_getLast _ _
    have hpm : (q :: rest').getLast (List.cons_ne_nil _ _) ∈ q :: rest' := List.getLast_mem _
    generalize (q :: rest').getLast (List.cons_ne_nil _ _) = p at hgl hpm
    have hch' : List.Chain' s.lavLink (l :: r :: ((q :: rest') ++ [l])) := hch
    rw [List.chain'_cons] at hch'
    obtain ⟨h_lr, hch2⟩ := hch'
    have hch3 : List.Chain' s.lavLink (r :: q :: (rest' ++ [l])) := hch2
    rw [List.chain'_cons] at hch3
    obtain ⟨h_rq, hch4⟩ := hch3
    have hch5 : List.Chain' s.lavLink ((q :: rest') ++ [l]) := hch4
    obtain ⟨hin, _, hlast⟩ := List.chain'_append.1 hch5
    have h_pl : s.lavLink p l := hlast p hgl l rfl
    -- membership and distinctness
    have hl : l < s.mSSkel.vertexNext := hmem l (List.mem_cons_self _ _)
    have hr : r < s.mSSkel.vertexNext :=
      hmem r (List.mem_cons_of_mem _ (List.mem_cons_self _ _))
    have hrestlt : ∀ v ∈ q :: rest', v < s.mSSkel.vertexNext :=
      fun v hv => hmem v (List.mem_cons_of_mem _ (List.mem_cons_of_mem _ hv))
    have hpv : p < s.mSSkel.vertexNext := hrestlt p hpm
    have hqv : q < s.mSSkel.vertexNext := hrestlt q (List.mem_cons_self _ _)
    rw [List.nodup_cons, List.nodup_cons] at hnd
    obtain ⟨hl_not, hr_not, hnd'⟩ := hnd
    have hl_rest : ∀ v ∈ q :: rest', l ≠ v :=
      fun v hv h => hl_not (List.mem_cons_of_mem _ (h ▸ hv))
    have hr_rest : ∀ v ∈ q :: rest', r ≠ v := fun v hv h => hr_not (h ▸ hv)
    have K := ConstructEdgeEventNode_links s e l r p q hids hL hR hl hr h_pl.2 h_rq.1 hpv hqv
    have e1 : l ≠ s.mSSkel.vertexNext := by omega
    have e2 : r ≠ s.mSSkel.vertexNext := by omega
    have e3 : p ≠ s.mSSkel.vertexNext := by omega
    have e4 : q ≠ s.mSSkel.vertexNext := by omega
    obtain ⟨kn1, kn2, kn3⟩ := K s.mSSkel.vertexNext (le_refl _)
    simp only [↓reduceIte, e4, e1, e2, or_self] at kn1 kn2 kn3
    have hnext : ∀ a ∈ q :: rest', p ≠ a →
        (s.ConstructEdgeEventNode e).1.GetNextInLAV (some a) = s.GetNextInLAV (some a) := by
      intro a ha hpa
      have ha' := Nat.ne_of_lt (hrestlt a ha)
      have := (K a (Nat.le_of_lt (hrestlt a ha))).1
      simp only [ha', hpa, ↓reduceIte] at this
      exact this
    have hprev : ∀ a ∈ q :: rest', q ≠ a →
        (s.ConstructEdgeEventNode e).1.GetPrevInLAV (some a) = s.GetPrevInLAV (some a) := by
      intro a ha hqa
      have ha' := Nat.ne_of_lt (hrestlt a ha)
      have := (K a (Nat.le_of_lt (hrestlt a ha))).2.1
      simp only [ha', hqa, ↓reduceIte] at this
      exact this
    have hpn : (s.ConstructEdgeEventNode e).1.GetNextInLAV (some p)
        = some s.mSSkel.vertexNext := by
      have := (K p (Nat.le_of_lt hpv)).1
      simp only [e3, ↓reduceIte] at this
      exact this
    have hqp : (s.ConstructEdgeEventNode e).1.GetPrevInLAV (some q)
        = some s.mSSkel.vertexNext := by
      have := (K q (Nat.le_of_lt hqv)).2.1
      simp only [↓reduceIte] at this
      exact this
    refine ⟨⟨List.cons_ne_nil _ _, ?_, ?_, ?_⟩, ?_, ?_⟩
    · rw [List.nodup_cons]
      refine ⟨fun h => ?_, hnd'⟩
      exact absurd (hrestlt _ h) (Nat.lt_irrefl _)
    · show List.Chain' (s.ConstructEdgeEventNode e).1.lavLink
        (s.mSSkel.vertexNext :: q :: (rest' ++ [s.mSSkel.vertexNext]))
      rw [List.chain'_cons]
      refine ⟨⟨kn1, hqp⟩, ?_⟩
      show List.Chain' (s.ConstructEdgeEventNode e).1.lavLink
        ((q :: rest') ++ [s.mSSkel.vertexNext])
      refine List.chain'_append.2 ⟨?_, List.chain'_singleton _, ?_⟩
      · refine (List.Chain'.iff_mem.1 hin).imp ?_
        intro a b ⟨ha, hb, hab⟩
        have hpa : p ≠ a := by
          intro h
          have h1 : s.GetNextInLAV (some a) = some b := hab.1
          rw [← h, h_pl.1] at h1
          exact hl_rest b hb (Option.some.inj h1)
        have hqb : q ≠ b := by
          intro h
          have h2 : s.GetPrevInLAV (some b) = some a := hab.2
          rw [← h, h_rq.2] at h2
          exact hr_rest a ha (Option.some.inj h2)
        exact ⟨(hnext a ha hpa).trans hab.1, (hprev b hb hqb).trans hab.2⟩
      · intro x hx y hy
        rw [hgl] at hx
        simp only [Option.mem_def, Option.some.injEq, List.head?_cons] at hx hy
        rw [← hx, ← hy]
        exact ⟨hpn, kn2⟩
    · intro v hv
      rcases List.mem_cons.1 hv with h | h
      · rw [h]; exact kn3
      · have := (K v (Nat.le_of_lt (hrestlt v h))).2.2
        simp only [hl_rest v h, hr_rest v h, or_self, Nat.ne_of_lt (hrestlt v h),
          ↓reduceIte] at this
        rw [this]
        exact hproc v (List.mem_cons_of_mem _ (List.mem_cons_of_mem _ h))
    · rw [kn2, h_pl.2]
    · rw [kn1, h_rq.1]

theorem ConstructEdgeEventNode_ring_witness :
    (exQuad.IdsDense ∧ (exQuad.ev (some 0)).seed0 = some 0
      ∧ (exQuad.ev (some 0)).seed1 = some 1 ∧ exQuad.IsLAVRing [0, 1, 2, 3]
      ∧ ∀ v ∈ [0, 1, 2, 3], v < exQuad.mSSkel.vertexNext)
    ∧ (exQuad.ConstructEdgeEventNode (some 0)).1.IsLAVRing [4, 2, 3]
    ∧ (exQuad.ConstructEdgeEventNode (some 0)).1.GetPrevInLAV (some 4) = some 3
    ∧ (exQuad.ConstructEdgeEventNode (some 0)).1.GetNextInLAV (some 4) = some 2 :=
  have hids : exQuad.IdsDense := ⟨by decide, by decide, by decide⟩
  have hring : exQuad.IsLAVRing [0, 1, 2, 3] := ⟨by decide, by decide,
    List.Chain.cons (by decide) (List.Chain.cons (by decide) (List.Chain.cons (by decide)
      (List.Chain.cons (by decide) List.Chain.nil))), by decide⟩
  have hmem : ∀ v ∈ [0, 1, 2, 3], v < exQuad.mSSkel.vertexNext := by decide
  have h := ConstructEdgeEventNode_ring exQuad (some 0) 0 1 [2, 3] hids (by decide) (by decide)
    hring (by decide) hmem
  ⟨⟨hids, by decide, by decide, hring, hmem⟩, h.1, h.2.1, h.2.2⟩

theorem ev_of_table (s : Builder) (j : Nat) : s.mEvents j = s.ev (some j) := rfl

/-- The LAV links and processed flags after `ConstructSplitEventNodes`, for a state with dense
ids: `p` and `n` are the LAV neighbours of the seed and `oppL` the LAV predecessor of
`oppR`. -/
theorem ConstructSplitEventNodes_links (s : Builder) (e : EventPtr) (sd oppL oppR p n : Nat)
    (hids : s.IdsDense)
    (hS : (s.ev e).seed0 = some sd) (hsd : sd < s.mSSkel.vertexNext)
    (hOL : s.GetPrevInLAV (some oppR) = some oppL)
    (hp : s.GetPrevInLAV (some sd) = some p) (hn : s.GetNextInLAV (some sd) = some n)
    (hlv : oppL < s.mSSkel.vertexNext) (hrv : oppR < s.mSSkel.vertexNext)
    (hpv : p < s.mSSkel.vertexNext) (hnv : n < s.mSSkel.vertexNext)
    (i : Nat) (hi : i ≤ s.mSSkel.vertexNext + 1) :
    (s.ConstructSplitEventNodes e (some oppR)).1.GetNextInLAV (some i)
      = (if i = s.mSSkel.vertexNext + 1 then some n
         else if oppL = i then some (s.mSSkel.vertexNext + 1)
         else if i = s.mSSkel.vertexNext then some oppR
         else if p = i then some s.mSSkel.vertexNext else s.GetNextInLAV (some i))
    ∧ (s.ConstructSplitEventNodes e (some oppR)).1.GetPrevInLAV (some i)
      = (if n = i then some (s.mSSkel.vertexNext + 1)
         else if i = s.mSSkel.vertexNext + 1 then some oppL
         else if oppR = i then some s.mSSkel.vertexNext
         else if i = s.mSSkel.vertexNext then some p else s.GetPrevInLAV (some i))
    ∧ (s.ConstructSplitEventNodes e (some oppR)).1.IsProcessed (some i)
      = (if sd = i then true
         else if i = s.mSSkel.vertexNext ∨ i = s.mSSkel.vertexNext + 1 then false
         else s.IsProcessed (some i)) := by
  obtain ⟨hid, hvid, hwc⟩ := hids
  rcases e with _ | j
  · exact absurd hS (by simp [Builder.ev])
  have ids : (s.vtx (some sd)).id = sd := hid sd hsd
  have idl : (s.vtx (some oppL)).id = oppL := hid oppL hlv
  have idr : (s.vtx (some oppR)).id = oppR := hid oppR hrv
  have idp : (s.vtx (some p)).id = p := hid p hpv
  have idn : (s.vtx (some n)).id = n := hid n hnv
  have e1 : sd ≠ s.mSSkel.vertexNext := by omega
  have e2 : oppL ≠ s.mSSkel.vertexNext := by omega
  have e3 : oppR ≠ s.mSSkel.vertexNext := by omega
  have e4 : p ≠ s.mSSkel.vertexNext := by omega
  have e5 : n ≠ s.mSSkel.vertexNext := by omega
  have f1 : sd ≠ s.mSSkel.vertexNext + 1 := by omega
  have f2 : oppL ≠ s.mSSkel.vertexNext + 1 := by omega
  have f3 : oppR ≠ s.mSSkel.vertexNext + 1 := by omega
  have f4 : p ≠ s.mSSkel.vertexNext + 1 := by omega
  have f5 : n ≠ s.mSSkel.vertexNext + 1 := by omega
  have g1 : s.mSSkel.vertexNext ≠ s.mSSkel.vertexNext + 1 := by omega
  simp only [Builder.GetPrevInLAV, Builder.GetNextInLAV, wrap_some, ids, idr] at hp hn hOL
  by_cases hiv : i = s.mSSkel.vertexNext
  · rw [hiv]
    simp only [Builder.ConstructSplitEventNodes, Builder.set_vertex, Builder.set_halfedge,
      Builder.set_next, Builder.set_prev,
      Builder.SetIsProcessed, Builder.SetPrevInLAV, Builder.SetNextInLAV,
      Builder.GetPrevInLAV, Builder.GetNextInLAV, Builder.IsProcessed,
      he_updVertex, he_updWrap, he_wrapped_push_back, he_SLAV_push_back, he_SLAV_remove, he_vertices_push_back, he_with_mVertexID, he_with_mEdgeID, he_with_mSplitNodes, vtx_updHalfedge, vtx_updWrap, vtx_wrapped_push_back, vtx_SLAV_push_back, vtx_SLAV_remove, vtx_edges_push_back, vtx_with_mVertexID, vtx_with_mEdgeID, vtx_with_mSplitNodes, fc_updHalfedge, fc_updVertex, fc_updWrap, fc_wrapped_push_back, fc_SLAV_push_back, fc_SLAV_remove, fc_vertices_push_back, fc_edges_push_back, fc_with_mVertexID, fc_with_mEdgeID, fc_with_mSplitNodes, ev_updHalfedge, ev_updVertex, ev_updWrap, ev_wrapped_push_back, ev_SLAV_push_back, ev_SLAV_remove, ev_vertices_push_back, ev_edges_push_back, ev_with_mVertexID, ev_with_mEdgeID, ev_with_mSplitNodes, he_updHalfedge, he_edges_push_back, vtx_updVertex, vtx_vertices_push_back, wtab_updHalfedge, wtab_updVertex, wtab_SLAV_push_back, wtab_SLAV_remove, wtab_vertices_push_back, wtab_edges_push_back, wtab_with_mVertexID, wtab_with_mEdgeID, wtab_with_mSplitNodes, wcount_updHalfedge, wcount_updVertex, wcount_updWrap, wcount_SLAV_push_back, wcount_SLAV_remove, wcount_vertices_push_back, wcount_edges_push_back, wcount_with_mVertexID, wcount_with_mEdgeID, wcount_with_mSplitNodes, wtab_updWrap, wtab_wrapped_push_back, wcount_wrapped_push_back, wrap_some, wrapIndex_some, he_mk, he_of_table, vtx_mk, vtx_of_table, fc_mk, fc_of_table, ev_mk, ev_of_table, vertices_push_back_snd, vertices_push_back_vertexNext,
      vertices_push_back_mVertexID, apply_ite Vertex.id, ite_self, Vertex.mk3,
      VertexWrapper.mk1,
      apply_ite VertexWrapper.mPrevInLAV, apply_ite VertexWrapper.mNextInLAV,
      apply_ite VertexWrapper.mIsProcessed,
      hS, ids, idl, idr, idp, idn, hp, hn, hOL, hvid, hwc, e1, e2, e3, e4, e5, f1, f2, f3, f4,
      f5, g1, Ne.symm e1, Ne.symm e2, Ne.symm e3, Ne.symm e4, Ne.symm e5, Ne.symm f1,
      Ne.symm f2, Ne.symm f3, Ne.symm f4, Ne.symm f5, Ne.symm g1,
      ↓reduceIte, Option.some.injEq, reduceCtorEq, or_self,
      or_false, false_or, or_true, true_or, and_self, true_and, and_true, eq_self_iff_true]
    rfl
  · by_cases hiw : i = s.mSSkel.vertexNext + 1
    · rw [hiw]
      simp only [Builder.ConstructSplitEventNodes, Builder.set_vertex, Builder.set_halfedge,
        Builder.set_next, Builder.set_prev,
        Builder.SetIsProcessed, Builder.SetPrevInLAV, Builder.SetNextInLAV,
        Builder.GetPrevInLAV, Builder.GetNextInLAV, Builder.IsProcessed,
        he_updVertex, he_updWrap, he_wrapped_push_back, he_SLAV_push_back, he_SLAV_remove, he_vertices_push_back, he_with_mVertexID, he_with_mEdgeID, he_with_mSplitNodes, vtx_updHalfedge, vtx_updWrap, vtx_wrapped_push_back, vtx_SLAV_push_back, vtx_SLAV_remove, vtx_edges_push_back, vtx_with_mVertexID, vtx_with_mEdgeID, vtx_with_mSplitNodes, fc_updHalfedge, fc_updVertex, fc_updWrap, fc_wrapped_push_back, fc_SLAV_push_back, fc_SLAV_remove, fc_vertices_push_back, fc_edges_push_back, fc_with_mVertexID, fc_with_mEdgeID, fc_with_mSplitNodes, ev_updHalfedge, ev_updVertex, ev_updWrap, ev_wrapped_push_back, ev_SLAV_push_back, ev_SLAV_remove, ev_vertices_push_back, ev_edges_push_back, ev_with_mVertexID, ev_with_mEdgeID, ev_with_mSplitNodes, he_updHalfedge, he_edges_push_back, vtx_updVertex, vtx_vertices_push_back, wtab_updHalfedge, wtab_updVertex, wtab_SLAV_push_back, wtab_SLAV_remove, wtab_vertices_push_back, wtab_edges_push_back, wtab_with_mVertexID, wtab_with_mEdgeID, wtab_with_mSplitNodes, wcount_updHalfedge, wcount_updVertex, wcount_updWrap, wcount_SLAV_push_back, wcount_SLAV_remove, wcount_vertices_push_back, wcount_edges_push_back, wcount_with_mVertexID, wcount_with_mEdgeID, wcount_with_mSplitNodes, wtab_updWrap, wtab_wrapped_push_back, wcount_wrapped_push_back, wrap_some, wrapIndex_some, he_mk, he_of_table, vtx_mk, vtx_of_table, fc_mk, fc_of_table, ev_mk, ev_of_table, vertices_push_back_snd, vertices_push_back_vertexNext,
        vertices_push_back_mVertexID, apply_ite Vertex.id, ite_self, Vertex.mk3,
        VertexWrapper.mk1,
        apply_ite VertexWrapper.mPrevInLAV, apply_ite VertexWrapper.mNextInLAV,
        apply_ite VertexWrapper.mIsProcessed,
        hS, ids, idl, idr, idp, idn, hp, hn, hOL, hvid, hwc, e1, e2, e3, e4, e5, f1, f2, f3,
        f4, f5, g1, Ne.symm e1, Ne.symm e2, Ne.symm e3, Ne.symm e4, Ne.symm e5, Ne.symm f1,
        Ne.symm f2, Ne.symm f3, Ne.symm f4, Ne.symm f5, Ne.symm g1,
        ↓reduceIte, Option.some.injEq, reduceCtorEq, or_self,
        or_false, false_or, or_true, true_or, and_self, true_and, and_true, eq_self_iff_true]
      rfl
    · have idi : (s.vtx (some i)).id = i := hid i (by omega)
      by_cases h1 : sd = i <;> by_cases h2 : oppL = i <;> by_cases h3 : oppR = i <;>
        by_cases h4 : p = i <;> by_cases h5 : n = i <;>
        (try subst h1) <;> (try subst h2) <;> (try subst h3) <;>
        (try subst h4) <;> (try subst h5) <;>
      simp only [Builder.ConstructSplitEventNodes, Builder.set_vertex, Builder.set_halfedge,
        Builder.set_next, Builder.set_prev,
        Builder.SetIsProcessed, Builder.SetPrevInLAV, Builder.SetNextInLAV,
        Builder.GetPrevInLAV, Builder.GetNextInLAV, Builder.IsProcessed,
        he_updVertex, he_updWrap, he_wrapped_push_back, he_SLAV_push_back, he_SLAV_remove, he_vertices_push_back, he_with_mVertexID, he_with_mEdgeID, he_with_mSplitNodes, vtx_updHalfedge, vtx_updWrap, vtx_wrapped_push_back, vtx_SLAV_push_back, vtx_SLAV_remove, vtx_edges_push_back, vtx_with_mVertexID, vtx_with_mEdgeID, vtx_with_mSplitNodes, fc_updHalfedge, fc_updVertex, fc_updWrap, fc_wrapped_push_back, fc_SLAV_push_back, fc_SLAV_remove, fc_vertices_push_back, fc_edges_push_back, fc_with_mVertexID, fc_with_mEdgeID, fc_with_mSplitNodes, ev_updHalfedge, ev_updVertex, ev_updWrap, ev_wrapped_push_back, ev_SLAV_push_back, ev_SLAV_remove, ev_vertices_push_back, ev_edges_push_back, ev_with_mVertexID, ev_with_mEdgeID, ev_with_mSplitNodes, he_updHalfedge, he_edges_push_back, vtx_updVertex, vtx_vertices_push_back, wtab_updHalfedge, wtab_updVertex, wtab_SLAV_push_back, wtab_SLAV_remove, wtab_vertices_push_back, wtab_edges_push_back, wtab_with_mVertexID, wtab_with_mEdgeID, wtab_with_mSplitNodes, wcount_updHalfedge, wcount_updVertex, wcount_updWrap, wcount_SLAV_push_back, wcount_SLAV_remove, wcount_vertices_push_back, wcount_edges_push_back, wcount_with_mVertexID, wcount_with_mEdgeID, wcount_with_mSplitNodes, wtab_updWrap, wtab_wrapped_push_back, wcount_wrapped_push_back, wrap_some, wrapIndex_some, he_mk, he_of_table, vtx_mk, vtx_of_table, fc_mk, fc_of_table, ev_mk, ev_of_table, vertices_push_back_snd, vertices_push_back_vertexNext,
        vertices_push_back_mVertexID, apply_ite Vertex.id, ite_self, Vertex.mk3,
        VertexWrapper.mk1,
        apply_ite VertexWrapper.mPrevInLAV, apply_ite VertexWrapper.mNextInLAV,
        apply_ite VertexWrapper.mIsProcessed,
        hS, ids, idl, idr, idp, idn, hp, hn, hOL, hvid, hwc, e1, e2, e3, e4, e5, f1, f2, f3,
        f4, f5, g1, Ne.symm e1, Ne.symm e2, Ne.symm e3, Ne.symm e4, Ne.symm e5, Ne.symm f1,
        Ne.symm f2, Ne.symm f3, Ne.symm f4, Ne.symm f5, Ne.symm g1,
        ↓reduceIte, Option.some.injEq, reduceCtorEq, or_self,
        or_false, false_or, or_true, true_or, and_self, true_and, and_true, eq_self_iff_true,
        idi, hiv, hiw, Ne.symm hiv, Ne.symm hiw, *] <;>
      exact absurd (Option.some.inj (hOL.symm.trans hp)) (by omega)

/-- A ring of the old state is a ring of the new state once a new vertex `x` is linked between
its two ends, provided the links inside the list are kept. -/
theorem IsLAVRing_transfer (s t : Builder) (x a b : Nat) (m : List Nat)
    (hh : m.head? = some a) (hl : m.getLast? = some b)
    (hx : x ∉ m) (hnd : m.Nodup) (hin : List.Chain' s.lavLink m)
    (hb : ∀ d ∈ m, s.GetNextInLAV (some b) ≠ some d)
    (ha : ∀ c ∈ m, s.GetPrevInLAV (some a) ≠ some c)
    (hnext : ∀ c ∈ m, c ≠ b → t.GetNextInLAV (some c) = s.GetNextInLAV (some c))
    (hprev : ∀ c ∈ m, c ≠ a → t.GetPrevInLAV (some c) = s.GetPrevInLAV (some c))
    (h1 : t.lavLink x a) (h2 : t.lavLink b x)
    (hpx : t.IsProcessed (some x) = false)
    (hproc : ∀ c ∈ m, t.IsProcessed (some c) = false) :
    t.IsLAVRing (x :: m) := by
  refine ⟨List.cons_ne_nil _ _, List.nodup_cons.2 ⟨hx, hnd⟩, ?_, ?_⟩
  · have hin' : List.Chain' t.lavLink m := by
      refine (List.Chain'.iff_mem.1 hin).imp ?_
      intro c d ⟨hc, hd, hcd⟩
      have hcb : c ≠ b := by
        intro h
        have h3 : s.GetNextInLAV (some c) = some d := hcd.1
        rw [h] at h3
        exact hb d hd h3
      have hda : d ≠ a := by
        intro h
        have h3 : s.GetPrevInLAV (some d) = some c := hcd.2
        rw [h] at h3
        exact ha c hc h3
      exact ⟨(hnext c hc hcb).trans hcd.1, (hprev d hd hda).trans hcd.2⟩
    cases m with
    | nil => cases hh
    | cons y m' =>
      show List.Chain' t.lavLink (x :: y :: (m' ++ [x]))
      have hy : y = a := Option.some.inj hh
      rw [List.chain'_cons]
      refine ⟨hy ▸ h1, ?_⟩
      show List.Chain' t.lavLink ((y :: m') ++ [x])
      refine List.chain'_append.2 ⟨hin', List.chain'_singleton _, ?_⟩
      intro c hc d hd
      rw [hl] at hc
      simp only [Option.mem_def, Option.some.injEq, List.head?_cons] at hc hd
      rw [← hc, ← hd]
      exact h2
  · intro c hc
    rcases List.mem_cons.1 hc with h | h
    · rw [h]; exact hpx
    · exact hproc c h

/-- C14: `ConstructSplitEventNodes` on a state with dense ids whose LAV links form one ring
that, listed from the seed `S` along the next links, reads `S, u..., oppL, oppR, v...` (so
`oppL == prev(oppR)`, `S != oppR` and `S != oppL`), all of them vertices of the graph:
afterwards the new node `A` heads the ring `A, oppR, v...` with `prev(A)` the old `prev(S)` and
`next(A) == oppR`, the new node `B` heads the ring `B, u..., oppL` with `prev(B) == oppL` and
`next(B)` the old `next(S)`; both are rings of unprocessed vertices, they are disjoint, `S` is
in neither, and together they hold the old members without `S` plus `A` and `B`. -/
theorem ConstructSplitEventNodes_rings (s : Builder) (e : EventPtr) (sd oppL oppR : Nat)
    (u v : List Nat)
    (hids : s.IdsDense) (hS : (s.ev e).seed0 = some sd)
    (hring : s.IsLAVRing (sd :: (u ++ oppL :: oppR :: v)))
    (hmem : ∀ x ∈ sd :: (u ++ oppL :: oppR :: v), x < s.mSSkel.vertexNext) :
    (s.ConstructSplitEventNodes e (some oppR)).2
        = (some s.mSSkel.vertexNext, some (s.mSSkel.vertexNext + 1))
    ∧ (s.ConstructSplitEventNodes e (some oppR)).1.IsLAVRing
        (s.mSSkel.vertexNext :: oppR :: v)
    ∧ (s.ConstructSplitEventNodes e (some oppR)).1.IsLAVRing
        ((s.mSSkel.vertexNext + 1) :: (u ++ [oppL]))
    ∧ (s.ConstructSplitEventNodes e (some oppR)).1.GetPrevInLAV (some s.mSSkel.vertexNext)
        = s.GetPrevInLAV (some sd)
    ∧ (s.ConstructSplitEventNodes e (some oppR)).1.GetNextInLAV (some s.mSSkel.vertexNext)
        = some oppR
    ∧ (s.ConstructSplitEventNodes e (some oppR)).1.GetPrevInLAV
        (some (s.mSSkel.vertexNext + 1)) = some oppL
    ∧ (s.ConstructSplitEventNodes e (some oppR)).1.GetNextInLAV
        (some (s.mSSkel.vertexNext + 1)) = s.GetNextInLAV (some sd)
    ∧ List.Disjoint (s.mSSkel.vertexNext :: oppR :: v)
        ((s.mSSkel.vertexNext + 1) :: (u ++ [oppL]))
    ∧ sd ∉ s.mSSkel.vertexNext :: oppR :: v
    ∧ sd ∉ (s.mSSkel.vertexNext + 1) :: (u ++ [oppL])
    ∧ ∀ x, (x ∈ s.mSSkel.vertexNext :: oppR :: v
          ∨ x ∈ (s.mSSkel.vertexNext + 1) :: (u ++ [oppL]))
        ↔ ((x ∈ sd :: (u ++ oppL :: oppR :: v) ∧ x ≠ sd)
          ∨ x = s.mSSkel.vertexNext ∨ x = s.mSSkel.vertexNext + 1) := by
  obtain ⟨_, hnd, hch, hproc⟩ := hring
  have hlist : sd :: (u ++ oppL :: oppR :: v) = sd :: ((u ++ [oppL]) ++ (oppR :: v)) := by
    simp
  have e0 : (sd :: (u ++ oppL :: oppR :: v)) ++ (sd :: (u ++ oppL :: oppR :: v)).take 1
      = (sd :: u) ++ oppL :: (oppR :: (v ++ [sd])) := by simp
  rw [e0] at hch
  obtain ⟨hc1, hc2⟩ := List.chain'_split.1 hch
  have hc1' : List.Chain' s.lavLink (sd :: (u ++ [oppL])) := hc1
  rw [List.chain'_cons'] at hc1'
  obtain ⟨hsn, hM1⟩ := hc1'
  rw [List.chain'_cons] at hc2
  obtain ⟨h_lr, hc3⟩ := hc2
  have hc3' : List.Chain' s.lavLink ((oppR :: v) ++ [sd]) := hc3
  obtain ⟨hM2, _, hps⟩ := List.chain'_append.1 hc3'
  have hgl : (oppR :: v).getLast? = some ((oppR :: v).getLast (List.cons_ne_nil _ _)) :=
    List.getLast?_eq_getLast _ _
  generalize (oppR :: v).getLast (List.cons_ne_nil _ _) = p at hgl
  have hpm : p ∈ oppR :: v := List.mem_of_mem_getLast? hgl
  obtain ⟨n, hn⟩ : ∃ n, (u ++ [oppL]).head? = some n := by
    cases u with
    | nil => exact ⟨oppL, rfl⟩
    | cons y u' => exact ⟨y, rfl⟩
  have hnm : n ∈ u ++ [oppL] := List.mem_of_mem_head? hn
  have hlm : oppL ∈ u ++ [oppL] := List.mem_append_right _ (List.mem_singleton_self _)
  have hrm : oppR ∈ oppR :: v := List.mem_cons_self _ _
  have hll : (u ++ [oppL]).getLast? = some oppL := List.getLast?_concat _
  have h_sn : s.lavLink sd n := hsn n hn
  have h_ps : s.lavLink p sd := hps p hgl sd rfl
  rw [hlist] at hnd hmem hproc
  rw [List.nodup_cons, List.nodup_append] at hnd
  obtain ⟨hsd_not, hnd1, hnd2, hdisj⟩ := hnd
  have hsd1 : sd ∉ u ++ [oppL] := fun h => hsd_not (List.mem_append_left _ h)
  have hsd2 : sd ∉ oppR :: v := fun h => hsd_not (List.mem_append_right _ h)
  have hd12 : ∀ a ∈ u ++ [oppL], ∀ b ∈ oppR :: v, a ≠ b :=
    fun a ha b hb h => hdisj ha (h ▸ hb)
  have hlt1 : ∀ a ∈ u ++ [oppL], a < s.mSSkel.vertexNext :=
    fun a ha => hmem a (List.mem_cons_of_mem _ (List.mem_append_left _ ha))
  have hlt2 : ∀ a ∈ oppR :: v, a < s.mSSkel.vertexNext :=
    fun a ha => hmem a (List.mem_cons_of_mem _ (List.mem_append_right _ ha))
  have hpr1 : ∀ a ∈ u ++ [oppL], s.IsProcessed (some a) = false :=
    fun a ha => hproc a (List.mem_cons_of_mem _ (List.mem_append_left _ ha))
  have hpr2 : ∀ a ∈ oppR :: v, s.IsProcessed (some a) = false :=
    fun a ha => hproc a (List.mem_cons_of_mem _ (List.mem_append_right _ ha))
  have hsd : sd < s.mSSkel.vertexNext := hmem sd (List.mem_cons_self _ _)
  have hlv : oppL < s.mSSkel.vertexNext := hlt1 oppL hlm
  have hrv : oppR < s.mSSkel.vertexNext := hlt2 oppR hrm
  have hpv : p < s.mSSkel.vertexNext := hlt2 p hpm
  have hnv : n < s.mSSkel.vertexNext := hlt1 n hnm
  have K := ConstructSplitEventNodes_links s e sd oppL oppR p n hids hS hsd h_lr.2 h_ps.2
    h_sn.1 hlv hrv hpv hnv
  have hlp : oppL ≠ p := hd12 oppL hlm p hpm
  have hnr : n ≠ oppR := hd12 n hnm oppR hrm
  have g1 : s.mSSkel.vertexNext ≠ s.mSSkel.vertexNext + 1 := by omega
  have rdN : ∀ c, c < s.mSSkel.vertexNext → oppL ≠ c → p ≠ c →
      (s.ConstructSplitEventNodes e (some oppR)).1.GetNextInLAV (some c)
        = s.GetNextInLAV (some c) := by
    intro c hc h1 h2
    have c1 : c ≠ s.mSSkel.vertexNext + 1 := by omega
    have c2 : c ≠ s.mSSkel.vertexNext := by omega
    have := (K c (by omega)).1
    simp only [c1, c2, h1, h2, ↓reduceIte] at this
    exact this
  have rdP : ∀ c, c < s.mSSkel.vertexNext → n ≠ c → oppR ≠ c →
      (s.ConstructSplitEventNodes e (some oppR)).1.GetPrevInLAV (some c)
        = s.GetPrevInLAV (some c) := by
    intro c hc h1 h2
    have c1 : c ≠ s.mSSkel.vertexNext + 1 := by omega
    have c2 : c ≠ s.mSSkel.vertexNext := by omega
    have := (K c (by omega)).2.1
    simp only [c1, c2, h1, h2, ↓reduceIte] at this
    exact this
  have rdF : ∀ c, c < s.mSSkel.vertexNext → sd ≠ c →
      (s.ConstructSplitEventNodes e (some oppR)).1.IsProcessed (some c)
        = s.IsProcessed (some c) := by
    intro c hc h1
    have c1 : c ≠ s.mSSkel.vertexNext + 1 := by omega
    have c2 : c ≠ s.mSSkel.vertexNext := by omega
    have := (K c (by omega)).2.2
    simp only [c1, c2, h1, or_self, ↓reduceIte] at this
    exact this
  obtain ⟨kA1, kA2, kA3⟩ := K s.mSSkel.vertexNext (by omega)
  simp only [g1, Nat.ne_of_lt hlv, Nat.ne_of_lt hnv, Nat.ne_of_lt hrv, Nat.ne_of_lt hsd,
    true_or, ↓reduceIte] at kA1 kA2 kA3
  obtain ⟨kB1, kB2, kB3⟩ := K (s.mSSkel.vertexNext + 1) (le_refl _)
  have hn1 : n ≠ s.mSSkel.vertexNext + 1 := by omega
  have hs1 : sd ≠ s.mSSkel.vertexNext + 1 := by omega
  simp only [hn1, hs1, or_true, ↓reduceIte] at kB1 kB2 kB3
  have kp : (s.ConstructSplitEventNodes e (some oppR)).1.GetNextInLAV (some p)
      = some s.mSSkel.vertexNext := by
    have c1 : p ≠ s.mSSkel.vertexNext + 1 := by omega
    have c2 : p ≠ s.mSSkel.vertexNext := by omega
    have := (K p (by omega)).1
    simp only [c1, c2, hlp, ↓reduceIte] at this
    exact this
  have kr : (s.ConstructSplitEventNodes e (some oppR)).1.GetPrevInLAV (some oppR)
      = some s.mSSkel.vertexNext := by
    have c1 : oppR ≠ s.mSSkel.vertexNext + 1 := by omega
    have := (K oppR (by omega)).2.1
    simp only [c1, hnr, ↓reduceIte] at this
    exact this
  have kl : (s.ConstructSplitEventNodes e (some oppR)).1.GetNextInLAV (some oppL)
      = some (s.mSSkel.vertexNext + 1) := by
    have c1 : oppL ≠ s.mSSkel.vertexNext + 1 := by omega
    have := (K oppL (by omega)).1
    simp only [c1, ↓reduceIte] at this
    exact this
  have kn : (s.ConstructSplitEventNodes e (some oppR)).1.GetPrevInLAV (some n)
      = some (s.mSSkel.vertexNext + 1) := by
    have := (K n (by omega)).2.1
    simp only [↓reduceIte] at this
    exact this
  have ringA : (s.ConstructSplitEventNodes e (some oppR)).1.IsLAVRing
      (s.mSSkel.vertexNext :: oppR :: v) := by
    refine IsLAVRing_transfer s _ s.mSSkel.vertexNext oppR p (oppR :: v) rfl hgl
      (fun h => absurd (hlt2 _ h) (Nat.lt_irrefl _)) hnd2 hM2 ?_ ?_ ?_ ?_ ⟨kA1, kr⟩ ⟨kp, kA2⟩
      kA3 ?_
    · intro d hd h
      rw [h_ps.1] at h
      exact hsd2 (Option.some.inj h ▸ hd)
    · intro c hc h
      rw [h_lr.2] at h
      exact hd12 oppL hlm c hc (Option.some.inj h)
    · intro c hc hcp
      exact rdN c (hlt2 c hc) (hd12 oppL hlm c hc) (Ne.symm hcp)
    · intro c hc hcr
      exact rdP c (hlt2 c hc) (hd12 n hnm c hc) (Ne.symm hcr)
    · intro c hc
      rw [rdF c (hlt2 c hc) (fun h => hsd2 (h ▸ hc))]
      exact hpr2 c hc
  have ringB : (s.ConstructSplitEventNodes e (some oppR)).1.IsLAVRing
      ((s.mSSkel.vertexNext + 1) :: (u ++ [oppL])) := by
    refine IsLAVRing_transfer s _ (s.mSSkel.vertexNext + 1) n oppL (u ++ [oppL]) hn hll
      (fun h => absurd (hlt1 _ h) (by omega)) hnd1 hM1 ?_ ?_ ?_ ?_ ⟨kB1, kn⟩ ⟨kl, kB2⟩
      kB3 ?_
    · intro d hd h
      rw [h_lr.1] at h
      exact hd12 d hd oppR hrm (Option.some.inj h).symm
    · intro c hc h
      rw [h_sn.2] at h
      exact hsd1 (Option.some.inj h ▸ hc)
    · intro c hc hcl
      exact rdN c (hlt1 c hc) (Ne.symm hcl) (fun h => hd12 c hc p hpm h.symm)
    · intro c hc hcn
      exact rdP c (hlt1 c hc) (Ne.symm hcn) (fun h => hd12 c hc oppR hrm h.symm)
    · intro c hc
      rw [rdF c (hlt1 c hc) (fun h => hsd1 (h ▸ hc))]
      exact hpr1 c hc
  refine ⟨rfl, ringA, ringB, ?_, kA1, kB2, ?_, ?_, ?_, ?_, ?_⟩
  · rw [kA2, h_ps.2]
  · rw [kB1, h_sn.1]
  · rw [List.disjoint_left]
    intro a ha hb
    rcases List.mem_cons.1 ha with h | h
    · rcases List.mem_cons.1 hb with h' | h'
      · omega
      · have := hlt1 a h'
        omega
    · rcases List.mem_cons.1 hb with h' | h'
      · have := hlt2 a h
        omega
      · exact hd12 a h' a h rfl
  · intro h
    rcases List.mem_cons.1 h with h | h
    · omega
    · exact hsd2 h
  · intro h
    rcases List.mem_cons.1 h with h | h
    · omega
    · exact hsd1 h
  · intro x
    rw [hlist]
    constructor
    · rintro (h | h)
      · rcases List.mem_cons.1 h with h | h
        · exact Or.inr (Or.inl h)
        · exact Or.inl ⟨List.mem_cons_of_mem _ (List.mem_append_right _ h),
            fun hx => hsd2 (hx ▸ h)⟩
      · rcases List.mem_cons.1 h with h | h
        · exact Or.inr (Or.inr h)
        · exact Or.inl ⟨List.mem_cons_of_mem _ (List.mem_append_left _ h),
            fun hx => hsd1 (hx ▸ h)⟩
    · rintro (⟨h, hx⟩ | h | h)
      · rcases List.mem_cons.1 h with h | h
        · exact absurd h hx
        · rcases List.mem_append.1 h with h | h
          · exact Or.inr (List.mem_cons_of_mem _ h)
          · exact Or.inl (List.mem_cons_of_mem _ h)
      · exact Or.inl (h ▸ List.mem_cons_self _ _)
      · exact Or.inr (h ▸ List.mem_cons_self _ _)

theorem ConstructSplitEventNodes_rings_witness :
    (exQuadSplit.IdsDense ∧ (exQuadSplit.ev (some 0)).seed0 = some 0
      ∧ exQuadSplit.IsLAVRing [0, 1, 2, 3]
      ∧ ∀ x ∈ [0, 1, 2, 3], x < exQuadSplit.mSSkel.vertexNext)
    ∧ (exQuadSplit.ConstructSplitEventNodes (some 0) (some 2)).2 = (some 4, some 5)
    ∧ (exQuadSplit.ConstructSplitEventNodes (some 0) (some 2)).1.IsLAVRing [4, 2, 3]
    ∧ (exQuadSplit.ConstructSplitEventNodes (some 0) (some 2)).1.IsLAVRing [5, 1] :=
  have hids : exQuadSplit.IdsDense := ⟨by decide, by decide, by decide⟩
  have hring : exQuadSplit.IsLAVRing [0, 1, 2, 3] := ⟨by decide, by decide,
    List.Chain.cons (by decide) (List.Chain.cons (by decide) (List.Chain.cons (by decide)
      (List.Chain.cons (by decide) List.Chain.nil))), by decide⟩
  have hmem : ∀ x ∈ [0, 1, 2, 3], x < exQuadSplit.mSSkel.vertexNext := by decide
  have h := ConstructSplitEventNodes_rings exQuadSplit (some 0) 0 1 2 [] [3] hids (by decide)
    hring hmem
  ⟨⟨hids, by decide, hring, hmem⟩, h.1, h.2.1, h.2.2.1⟩

/-! ## The edge events that `CollectNewEvents` enqueues -/

theorem FindEdgeEvent_mPQ (tr : Traits) (s : Builder) (L R : Vertex_handle) :
    (s.FindEdgeEvent tr L R).1.mPQ = s.mPQ := by
  unfold Builder.FindEdgeEvent
  simp only [Builder.newEvent]
  split_ifs <;> rfl

/-- The choice that `CollectNewEvents` makes between the two edge events it has found. -/
theorem enqueue_kept (tr : Traits) (s3 : Builder) (N : Vertex_handle) (L R : EventPtr) :
    (if (if L.isSome && R.isSome then
          if tr.CompareEvents (s3.ev L).triedge (s3.ev R).triedge = .EQUAL then
            if tr.CompareEventsDistanceToSeed (s3.vtx N) (s3.ev L).triedge (s3.ev R).triedge
                = .LARGER
            then (false, R.isSome) else (L.isSome, false)
          else (L.isSome, R.isSome)
        else (L.isSome, R.isSome)).2
      then (if (if L.isSome && R.isSome then
          if tr.CompareEvents (s3.ev L).triedge (s3.ev R).triedge = .EQUAL then
            if tr.CompareEventsDistanceToSeed (s3.vtx N) (s3.ev L).triedge (s3.ev R).triedge
                = .LARGER
            then (false, R.isSome) else (L.isSome, false)
          else (L.isSome, R.isSome)
        else (L.isSome, R.isSome)).1 then s3.EnqueEvent L else s3).EnqueEvent R
      else (if (if L.isSome && R.isSome then
          if tr.CompareEvents (s3.ev L).triedge (s3.ev R).triedge = .EQUAL then
            if tr.CompareEventsDistanceToSeed (s3.vtx N) (s3.ev L).triedge (s3.ev R).triedge
                = .LARGER
            then (false, R.isSome) else (L.isSome, false)
          else (L.isSome, R.isSome)
        else (L.isSome, R.isSome)).1 then s3.EnqueEvent L else s3))
      = { s3 with mPQ := s3.mPQ ++
          (match L, R with
            | some l, some r =>
              if (decide (tr.CompareEvents (s3.ev L).triedge (s3.ev R).triedge = .EQUAL)) then
                (if (decide (tr.CompareEventsDistanceToSeed (s3.vtx N) (s3.ev L).triedge
                    (s3.ev R).triedge = .LARGER)) then [r] else [l])
              else [l, r]
            | some l, none => [l]
            | none, some r => [r]
            | none, none => []) } := by
  rcases L with _ | l <;> rcases R with _ | r
  · simp [Builder.EnqueEvent]
  · simp [Builder.EnqueEvent]
  · simp [Builder.EnqueEvent]
  · by_cases h1 : tr.CompareEvents ((s3.ev (some l)).triedge) ((s3.ev (some r)).triedge)
        = Comparison_result.EQUAL
    · by_cases h2 : tr.CompareEventsDistanceToSeed (s3.vtx N) ((s3.ev (some l)).triedge)
          ((s3.ev (some r)).triedge) = Comparison_result.LARGER
      · simp [Builder.EnqueEvent, h1, h2]
      · simp [Builder.EnqueEvent, h1, h2]
    · simp [Builder.EnqueEvent, h1]

/-- C21: `CollectNewEvents(N)` leaves the state reached after the search of the two edge events
but for the queue, which grows by the edge events kept, the search itself enqueueing nothing.
When the left event `FindEdgeEvent(Prev, N)` and the right event `FindEdgeEvent(N, Next)` both
exist and `CompareEvents` answers `EQUAL`, exactly one is kept: the right one when
`CompareEventsDistanceToSeed(N, left, right)` is `LARGER`, the left one otherwise. In every
other case each edge event that exists is kept, so that 0, 1 or 2 edge events are enqueued. -/
theorem CollectNewEvents_edge_events (tr : Traits) (s : Builder) (N : Vertex_handle) :
    s.CollectNewEvents tr N
        = { s.afterEdgeSearch tr N with
            mPQ := (s.afterEdgeSearch tr N).mPQ ++ s.keptEdgeEvents tr N }
    ∧ (s.afterEdgeSearch tr N).mPQ = (s.afterSplitSearch tr N).mPQ
    ∧ (∀ l r, s.leftEdgeEvent tr N = some l → s.rightEdgeEvent tr N = some r →
        s.edgeEventsTie tr N = true →
        (s.leftIsFarther tr N = true → s.keptEdgeEvents tr N = [r])
        ∧ (s.leftIsFarther tr N = false → s.keptEdgeEvents tr N = [l]))
    ∧ (∀ l r, s.leftEdgeEvent tr N = some l → s.rightEdgeEvent tr N = some r →
        s.edgeEventsTie tr N = false → s.keptEdgeEvents tr N = [l, r])
    ∧ (∀ l, s.leftEdgeEvent tr N = some l → s.rightEdgeEvent tr N = none →
        s.keptEdgeEvents tr N = [l])
    ∧ (∀ r, s.leftEdgeEvent tr N = none → s.rightEdgeEvent tr N = some r →
        s.keptEdgeEvents tr N = [r])
    ∧ (s.leftEdgeEvent tr N = none → s.rightEdgeEvent tr N = none →
        s.keptEdgeEvents tr N = [])
    ∧ (s.keptEdgeEvents tr N).length ≤ 2 := by
  refine ⟨?_, ?_, ?_, ?_, ?_, ?_, ?_, ?_⟩
  · exact enqueue_kept tr (s.afterEdgeSearch tr N) N (s.leftEdgeEvent tr N) (s.rightEdgeEvent tr N)
  · simp only [Builder.afterEdgeSearch, FindEdgeEvent_mPQ]
  · intro l r hl hr ht
    simp only [Builder.keptEdgeEvents, hl, hr, ht, if_true]
    constructor
    · intro hf; simp [hf]
    · intro hf; simp [hf]
  · intro l r hl hr ht
    simp [Builder.keptEdgeEvents, hl, hr, ht]
  · intro l hl hr
    simp [Builder.keptEdgeEvents, hl, hr]
  · intro r hl hr
    simp [Builder.keptEdgeEvents, hl, hr]
  · intro hl hr
    simp [Builder.keptEdgeEvents, hl, hr]
  · unfold Builder.keptEdgeEvents
    split
    · split_ifs <;> simp
    · simp
    · simp
    · simp

/-! ## The reflex flags of the nodes of a vertex event -/

theorem SetupVertexEventNode_eq (tr : Traits) (s : Builder) (N : Vertex_handle)
    (A B : Halfedge_handle) :
    s.SetupVertexEventNode tr N A B
      = (if s.turnTest tr A B then s.SetIsReflex N else s, s.turnTest tr A B) := by
  unfold Builder.SetupVertexEventNode Builder.turnTest
  dsimp only
  split
  · rename_i h
    rw [h]
  · rename_i h
    rw [Bool.not_eq_true] at h
    rw [h]

theorem HandleVertexEvent_wiring (tr : Traits) (s : Builder) (e : EventPtr) :
    s.HandleVertexEvent tr e
      = (((if !((s.VertexEventRecorded e).SetupVertexEventNode tr
                (s.ConstructVertexEventNodes e).2.1
                ((s.VertexEventWiring e).vertexBordersAround
                  (s.ConstructVertexEventNodes e).2.1).e0
                ((s.VertexEventWiring e).vertexBordersAround
                  (s.ConstructVertexEventNodes e).2.1).e1).2
            then (((s.VertexEventRecorded e).SetupVertexEventNode tr
                (s.ConstructVertexEventNodes e).2.1
                ((s.VertexEventWiring e).vertexBordersAround
                  (s.ConstructVertexEventNodes e).2.1).e0
                ((s.VertexEventWiring e).vertexBordersAround
                  (s.ConstructVertexEventNodes e).2.1).e1).1.SetupVertexEventNode tr
                (s.ConstructVertexEventNodes e).2.2
                ((s.VertexEventWiring e).vertexBordersAround
                  (s.ConstructVertexEventNodes e).2.2).e0
                ((s.VertexEventWiring e).vertexBordersAround
                  (s.ConstructVertexEventNodes e).2.2).e1).1
            else ((s.VertexEventRecorded e).SetupVertexEventNode tr
                (s.ConstructVertexEventNodes e).2.1
                ((s.VertexEventWiring e).vertexBordersAround
                  (s.ConstructVertexEventNodes e).2.1).e0
                ((s.VertexEventWiring e).vertexBordersAround
                  (s.ConstructVertexEventNodes e).2.1).e1).1).UpdatePQ tr
          (s.ConstructVertexEventNodes e).2.1).UpdatePQ tr
        (s.ConstructVertexEventNodes e).2.2) := rfl

theorem UpdKeeps.isReflex {s s' : Builder} (h : UpdKeeps s s') (v : Vertex_handle) :
    s'.IsReflex v = s.IsReflex v := by
  cases v with
  | none => rfl
  | some i =>
    unfold Builder.IsReflex Builder.wrap
    dsimp only
    rw [h.ids i]
    exact (h.wrappers _).2.2.2.2.2.1

/-- The reflex flag after `SetIsReflex`. -/
theorem SetIsReflex_read (s : Builder) (n m : Nat) :
    (s.SetIsReflex (some n)).IsReflex (some m)
      = (if (s.vtx (some n)).id = (s.vtx (some m)).id then true else s.IsReflex (some m)) := by
  simp only [Builder.SetIsReflex, Builder.IsReflex, wrap_some, wtab_updWrap, wrapIndex_some,
    vtx_updWrap, Option.some.injEq, apply_ite VertexWrapper.mIsReflex]

theorem set_halfedge_id (s : Builder) (v : Vertex_handle) (h : Halfedge_handle) (n : Nat) :
    ((s.set_halfedge v h).mSSkel.vertices n).id = (s.mSSkel.vertices n).id := by
  unfold Builder.set_halfedge Builder.updVertex
  dsimp only
  split <;> rfl

/-- A write to one wrapper that keeps its reflex flag keeps the reflex flags. -/
theorem updWrap_reflex (s : Builder) (v : Vertex_handle) (f : VertexWrapper → VertexWrapper)
    (hf : ∀ w, (f w).mIsReflex = w.mIsReflex) (k : Nat) :
    ((s.updWrap v f).mWrappedVertices k).mIsReflex = (s.mWrappedVertices k).mIsReflex := by
  unfold Builder.updWrap
  dsimp only
  split
  · exact hf _
  · rfl

theorem SetIsProcessed_reflex (s : Builder) (v : Vertex_handle) (k : Nat) :
    ((s.SetIsProcessed v).mWrappedVertices k).mIsReflex = (s.mWrappedVertices k).mIsReflex :=
  updWrap_reflex s v (fun w => { w with mIsProcessed := true }) (fun _ => rfl) k

theorem SetPrevInLAV_reflex (s : Builder) (v p : Vertex_handle) (k : Nat) :
    ((s.SetPrevInLAV v p).mWrappedVertices k).mIsReflex = (s.mWrappedVertices k).mIsReflex :=
  updWrap_reflex s v (fun w => { w with mPrevInLAV := p }) (fun _ => rfl) k

theorem SetNextInLAV_reflex (s : Builder) (v p : Vertex_handle) (k : Nat) :
    ((s.SetNextInLAV v p).mWrappedVertices k).mIsReflex = (s.mWrappedVertices k).mIsReflex :=
  updWrap_reflex s v (fun w => { w with mNextInLAV := p }) (fun _ => rfl) k

theorem recordBorders_reflex (s : Builder) (v : Vertex_handle) (t : Triedge) (k : Nat) :
    ((s.recordBorders v t).mWrappedVertices k).mIsReflex = (s.mWrappedVertices k).mIsReflex :=
  (updWrap_reflex ((s.SetDefiningBorderA v t.e0).SetDefiningBorderB v t.e1) v
      (fun w => { w with mDefiningBorderC := t.e2 }) (fun _ => rfl) k).trans
    ((updWrap_reflex (s.SetDefiningBorderA v t.e0) v
        (fun w => { w with mDefiningBorderB := t.e1 }) (fun _ => rfl) k).trans
      (updWrap_reflex s v (fun w => { w with mDefiningBorderA := t.e0 }) (fun _ => rfl) k))

/-- The ids and the fresh wrappers of the two nodes that `ConstructVertexEventNodes` makes. -/
theorem ConstructVertexEventNodes_fresh (s : Builder) (e : EventPtr)
    (hc : s.mWrappedCount = s.mVertexID) :
    ((s.ConstructVertexEventNodes e).1.mSSkel.vertices s.mSSkel.vertexNext).id = s.mVertexID
    ∧ ((s.ConstructVertexEventNodes e).1.mSSkel.vertices (s.mSSkel.vertexNext + 1)).id
        = s.mVertexID + 1
    ∧ ((s.ConstructVertexEventNodes e).1.mWrappedVertices s.mVertexID).mIsReflex = false
    ∧ ((s.ConstructVertexEventNodes e).1.mWrappedVertices (s.mVertexID + 1)).mIsReflex
        = false := by
  have v1 : s.mSSkel.vertexNext ≠ s.mSSkel.vertexNext + 1 := by omega
  refine ⟨?_, ?_, ?_, ?_⟩
  · simp only [Builder.ConstructVertexEventNodes, set_halfedge_id, set_next_vertices,
      set_prev_vertices, set_vertex_vertices, SetIsProcessed_vertices, SLAV_remove_vertices,
      SetPrevInLAV_vertices, SetNextInLAV_vertices, wrapped_push_back_vertices,
      SLAV_push_back_vertices]
    simp [Builder.vertices_push_back, Vertex.mk3]
  · simp only [Builder.ConstructVertexEventNodes, set_halfedge_id, set_next_vertices,
      set_prev_vertices, set_vertex_vertices, SetIsProcessed_vertices, SLAV_remove_vertices,
      SetPrevInLAV_vertices, SetNextInLAV_vertices, wrapped_push_back_vertices,
      SLAV_push_back_vertices]
    simp [Builder.vertices_push_back, Vertex.mk3]
  · simp [Builder.ConstructVertexEventNodes, Builder.vertices_push_back,
      Builder.SLAV_push_back, Builder.wrapped_push_back, Builder.set_halfedge,
      Builder.updVertex, Builder.set_vertex, Builder.set_prev, Builder.set_next,
      Builder.updHalfedge, Builder.SetIsProcessed,
      Builder.updWrap, Builder.SLAV_remove, Builder.SetPrevInLAV, Builder.SetNextInLAV,
      VertexWrapper.mk1, hc, apply_ite VertexWrapper.mIsReflex]
    rfl
  · simp [Builder.ConstructVertexEventNodes, Builder.vertices_push_back,
      Builder.SLAV_push_back, Builder.wrapped_push_back, Builder.set_halfedge,
      Builder.updVertex, Builder.set_vertex, Builder.set_prev, Builder.set_next,
      Builder.updHalfedge, Builder.SetIsProcessed,
      Builder.updWrap, Builder.SLAV_remove, Builder.SetPrevInLAV, Builder.SetNextInLAV,
      VertexWrapper.mk1, hc, apply_ite VertexWrapper.mIsReflex]
    rfl

theorem SetIsReflex_keeps (s : Builder) (v : Vertex_handle) :
    (∀ u, (s.SetIsReflex v).GetDefiningBorderA u = s.GetDefiningBorderA u)
    ∧ (∀ u, (s.SetIsReflex v).GetDefiningBorderB u = s.GetDefiningBorderB u) := by
  constructor <;> intro u <;> cases u with
  | none => rfl
  | some i =>
    simp only [Builder.SetIsReflex, Builder.GetDefiningBorderA, Builder.GetDefiningBorderB,
      wrap_some, wtab_updWrap, vtx_updWrap, apply_ite VertexWrapper.mDefiningBorderA,
      apply_ite VertexWrapper.mDefiningBorderB, ite_self]

/-- The state in which `HandleVertexEvent` tests its two nodes: their ids, their borders as
recorded, and their reflex flags, not yet set. -/
theorem VertexEventRecorded_nodes (s : Builder) (e : EventPtr)
    (hc : s.mWrappedCount = s.mVertexID) :
    ((s.VertexEventRecorded e).vtx (some s.mSSkel.vertexNext)).id = s.mVertexID
    ∧ ((s.VertexEventRecorded e).vtx (some (s.mSSkel.vertexNext + 1))).id = s.mVertexID + 1
    ∧ (s.VertexEventRecorded e).IsReflex (some s.mSSkel.vertexNext) = false
    ∧ (s.VertexEventRecorded e).IsReflex (some (s.mSSkel.vertexNext + 1)) = false
    ∧ (s.VertexEventRecorded e).GetDefiningBorderA (some s.mSSkel.vertexNext)
        = ((s.VertexEventWiring e).vertexBordersAround (some s.mSSkel.vertexNext)).e0
    ∧ (s.VertexEventRecorded e).GetDefiningBorderB (some s.mSSkel.vertexNext)
        = ((s.VertexEventWiring e).vertexBordersAround (some s.mSSkel.vertexNext)).e1
    ∧ (s.VertexEventRecorded e).GetDefiningBorderA (some (s.mSSkel.vertexNext + 1))
        = ((s.VertexEventWiring e).vertexBordersAround (some (s.mSSkel.vertexNext + 1))).e0
    ∧ (s.VertexEventRecorded e).GetDefiningBorderB (some (s.mSSkel.vertexNext + 1))
        = ((s.VertexEventWiring e).vertexBordersAround (some (s.mSSkel.vertexNext + 1))).e1 := by
  obtain ⟨c1, c2, c3, c4⟩ := ConstructVertexEventNodes_fresh s e hc
  have hW : ∀ n, ((s.VertexEventWiring e).mSSkel.vertices n).id
      = ((s.ConstructVertexEventNodes e).1.mSSkel.vertices n).id := by
    intro n
    unfold Builder.VertexEventWiring
    lift_lets
    extract_lets
      z1 z2 z3 z4 z5 z6 z7 z8 z9 z10 z11 z12 z13 z14 z15 z16 z17 z18 z19 z20 z21 z22 z23 z24
      z25 z26 z27 z28 z29 z30 z31 z32 z33 z34 z35 z36
    exact (set_halfedge_id z35 z6 z19 n).trans ((set_halfedge_id z34 z5 z17 n).trans rfl)
  have hT : (s.VertexEventWiring e).mWrappedVertices
      = (s.ConstructVertexEventNodes e).1.mWrappedVertices := rfl
  have i1 : ((s.VertexEventWiring e).mSSkel.vertices s.mSSkel.vertexNext).id = s.mVertexID :=
    (hW _).trans c1
  have i2 : ((s.VertexEventWiring e).mSSkel.vertices (s.mSSkel.vertexNext + 1)).id
      = s.mVertexID + 1 := (hW _).trans c2
  have hne : ((s.VertexEventWiring e).mSSkel.vertices s.mSSkel.vertexNext).id
      ≠ ((s.VertexEventWiring e).mSSkel.vertices (s.mSSkel.vertexNext + 1)).id := by
    rw [i1, i2]; omega
  have hN : (s.ConstructVertexEventNodes e).2
      = (some s.mSSkel.vertexNext, some (s.mSSkel.vertexNext + 1)) := rfl
  obtain ⟨⟨a1, b1, _⟩, ⟨a2, b2, _⟩⟩ := recordBorders_two (s.VertexEventWiring e)
    s.mSSkel.vertexNext (s.mSSkel.vertexNext + 1)
    ((s.VertexEventWiring e).vertexBordersAround (some s.mSSkel.vertexNext))
    ((s.VertexEventWiring e).vertexBordersAround (some (s.mSSkel.vertexNext + 1))) hne
  refine ⟨i1, i2, ?_, ?_, a1, b1, a2, b2⟩
  · show ((s.VertexEventRecorded e).mWrappedVertices
        ((s.VertexEventWiring e).mSSkel.vertices s.mSSkel.vertexNext).id).mIsReflex = false
    rw [i1]
    unfold Builder.VertexEventRecorded
    rw [recordBorders_reflex, recordBorders_reflex, hT]
    exact c3
  · show ((s.VertexEventRecorded e).mWrappedVertices
        ((s.VertexEventWiring e).mSSkel.vertices (s.mSSkel.vertexNext + 1)).id).mIsReflex = false
    rw [i2]
    unfold Builder.VertexEventRecorded
    rw [recordBorders_reflex, recordBorders_reflex, hT]
    exact c4

/-- The reflex flags that `HandleVertexEvent` leaves on its two nodes. -/
theorem HandleVertexEvent_flags (tr : Traits) (s : Builder) (e : EventPtr)
    (hc : s.mWrappedCount = s.mVertexID) :
    (s.HandleVertexEvent tr e).IsReflex (some s.mSSkel.vertexNext)
      = (s.VertexEventRecorded e).turnTest tr
          ((s.VertexEventRecorded e).GetDefiningBorderA (some s.mSSkel.vertexNext))
          ((s.VertexEventRecorded e).GetDefiningBorderB (some s.mSSkel.vertexNext))
    ∧ (s.HandleVertexEvent tr e).IsReflex (some (s.mSSkel.vertexNext + 1))
      = (!(s.VertexEventRecorded e).turnTest tr
            ((s.VertexEventRecorded e).GetDefiningBorderA (some s.mSSkel.vertexNext))
            ((s.VertexEventRecorded e).GetDefiningBorderB (some s.mSSkel.vertexNext))
          && (s.VertexEventRecorded e).turnTest tr
            ((s.VertexEventRecorded e).GetDefiningBorderA (some (s.mSSkel.vertexNext + 1)))
            ((s.VertexEventRecorded e).GetDefiningBorderB (some (s.mSSkel.vertexNext + 1))))
    ∧ (s.HandleVertexEvent tr e).GetDefiningBorderA (some s.mSSkel.vertexNext)
      = (s.VertexEventRecorded e).GetDefiningBorderA (some s.mSSkel.vertexNext)
    ∧ (s.HandleVertexEvent tr e).GetDefiningBorderB (some s.mSSkel.vertexNext)
      = (s.VertexEventRecorded e).GetDefiningBorderB (some s.mSSkel.vertexNext)
    ∧ (s.HandleVertexEvent tr e).GetDefiningBorderA (some (s.mSSkel.vertexNext + 1))
      = (s.VertexEventRecorded e).GetDefiningBorderA (some (s.mSSkel.vertexNext + 1))
    ∧ (s.HandleVertexEvent tr e).GetDefiningBorderB (some (s.mSSkel.vertexNext + 1))
      = (s.VertexEventRecorded e).GetDefiningBorderB (some (s.mSSkel.vertexNext + 1)) := by
  obtain ⟨i1, i2, r1, r2, a1, b1, a2, b2⟩ := VertexEventRecorded_nodes s e hc
  have hN : (s.ConstructVertexEventNodes e).2
      = (some s.mSSkel.vertexNext, some (s.mSSkel.vertexNext + 1)) := rfl
  rw [HandleVertexEvent_wiring, hN]
  simp only [SetupVertexEventNode_eq, ← a1, ← b1, ← a2, ← b2]
  generalize hA1 : (s.VertexEventRecorded e).GetDefiningBorderA (some s.mSSkel.vertexNext)
    = A1 at *
  generalize hB1 : (s.VertexEventRecorded e).GetDefiningBorderB (some s.mSSkel.vertexNext)
    = B1 at *
  generalize hA2 : (s.VertexEventRecorded e).GetDefiningBorderA
    (some (s.mSSkel.vertexNext + 1)) = A2 at *
  generalize hB2 : (s.VertexEventRecorded e).GetDefiningBorderB
    (some (s.mSSkel.vertexNext + 1)) = B2 at *
  have hd : s.mVertexID ≠ s.mVertexID + 1 := by omega
  have K : ∀ (X : Builder), (X.IsReflex (some s.mSSkel.vertexNext)
        = (s.VertexEventRecorded e).turnTest tr A1 B1
      ∧ X.IsReflex (some (s.mSSkel.vertexNext + 1))
        = (!(s.VertexEventRecorded e).turnTest tr A1 B1
            && (s.VertexEventRecorded e).turnTest tr A2 B2)
      ∧ X.GetDefiningBorderA (some s.mSSkel.vertexNext) = A1
      ∧ X.GetDefiningBorderB (some s.mSSkel.vertexNext) = B1
      ∧ X.GetDefiningBorderA (some (s.mSSkel.vertexNext + 1)) = A2
      ∧ X.GetDefiningBorderB (some (s.mSSkel.vertexNext + 1)) = B2) →
      ((X.UpdatePQ tr (some s.mSSkel.vertexNext)).UpdatePQ tr
          (some (s.mSSkel.vertexNext + 1))).IsReflex (some s.mSSkel.vertexNext)
        = (s.VertexEventRecorded e).turnTest tr A1 B1
      ∧ ((X.UpdatePQ tr (some s.mSSkel.vertexNext)).UpdatePQ tr
          (some (s.mSSkel.vertexNext + 1))).IsReflex (some (s.mSSkel.vertexNext + 1))
        = (!(s.VertexEventRecorded e).turnTest tr A1 B1
            && (s.VertexEventRecorded e).turnTest tr A2 B2)
      ∧ ((X.UpdatePQ tr (some s.mSSkel.vertexNext)).UpdatePQ tr
          (some (s.mSSkel.vertexNext + 1))).GetDefiningBorderA (some s.mSSkel.vertexNext)
        = A1
      ∧ ((X.UpdatePQ tr (some s.mSSkel.vertexNext)).UpdatePQ tr
          (some (s.mSSkel.vertexNext + 1))).GetDefiningBorderB (some s.mSSkel.vertexNext)
        = B1
      ∧ ((X.UpdatePQ tr (some s.mSSkel.vertexNext)).UpdatePQ tr
          (some (s.mSSkel.vertexNext + 1))).GetDefiningBorderA
            (some (s.mSSkel.vertexNext + 1)) = A2
      ∧ ((X.UpdatePQ tr (some s.mSSkel.vertexNext)).UpdatePQ tr
          (some (s.mSSkel.vertexNext + 1))).GetDefiningBorderB
            (some (s.mSSkel.vertexNext + 1)) = B2 := by
    intro X ⟨h1, h2, h3, h4, h5, h6⟩
    have k := UpdKeeps.uTrans (UpdatePQ_keeps tr X (some s.mSSkel.vertexNext))
      (UpdatePQ_keeps tr (X.UpdatePQ tr (some s.mSSkel.vertexNext))
        (some (s.mSSkel.vertexNext + 1)))
    exact ⟨(k.isReflex _).trans h1, (k.isReflex _).trans h2,
      ((k.borders _).1).trans h3, ((k.borders _).2.1).trans h4,
      ((k.borders _).1).trans h5, ((k.borders _).2.1).trans h6⟩
  apply K
  have hRT : ∀ (v : Vertex_handle) (A B : Halfedge_handle),
      ((s.VertexEventRecorded e).SetIsReflex v).turnTest tr A B
        = (s.VertexEventRecorded e).turnTest tr A B := fun _ _ _ => rfl
  obtain ⟨kA, kB⟩ := SetIsReflex_keeps (s.VertexEventRecorded e) (some s.mSSkel.vertexNext)
  obtain ⟨kA', kB'⟩ := SetIsReflex_keeps (s.VertexEventRecorded e)
    (some (s.mSSkel.vertexNext + 1))
  cases hL : (s.VertexEventRecorded e).turnTest tr A1 B1 <;>
    cases hR : (s.VertexEventRecorded e).turnTest tr A2 B2 <;>
    simp only [Bool.not_true, Bool.not_false, Bool.false_eq_true, ↓reduceIte, hR, hL, hRT,
      SetIsReflex_read, i1, i2, hd, Ne.symm hd, r1, r2, kA, kB, kA', kB', hA1, hB1, hA2, hB2,
      Bool.and_true, Bool.and_false, Bool.true_and, Bool.false_and, and_self]

/-- C24 as stated fails for the right node: in the vertex event of `exSquareVertex`, with the
orientation tests decided by the sign of the determinant, the left node, vertex 4, is flagged
reflex; the right node, vertex 5, has the borders 2 and 1, the test succeeds on its triple
`(1,0), (1,1), (1,0)`, and it is not flagged reflex. -/
theorem HandleVertexEvent_right_flag_counterexample :
    (exSquareVertex.HandleVertexEvent exSquareTraits (some 0)).IsReflex (some 4) = true
    ∧ (exSquareVertex.HandleVertexEvent exSquareTraits (some 0)).GetDefiningBorderA (some 5)
        = some 2
    ∧ (exSquareVertex.HandleVertexEvent exSquareTraits (some 0)).GetDefiningBorderB (some 5)
        = some 1
    ∧ ((exSquareVertex.VertexEventRecorded (some 0)).vtx
          ((exSquareVertex.VertexEventRecorded (some 0)).vertex
            ((exSquareVertex.VertexEventRecorded (some 0)).opposite (some 2)))).point = ⟨1, 0⟩
    ∧ ((exSquareVertex.VertexEventRecorded (some 0)).vtx
          ((exSquareVertex.VertexEventRecorded (some 0)).vertex
            ((exSquareVertex.VertexEventRecorded (some 0)).prev
              ((exSquareVertex.VertexEventRecorded (some 0)).opposite (some 2))))).point
        = ⟨1, 1⟩
    ∧ ((exSquareVertex.VertexEventRecorded (some 0)).vtx
          ((exSquareVertex.VertexEventRecorded (some 0)).vertex
            ((exSquareVertex.VertexEventRecorded (some 0)).prev
              ((exSquareVertex.VertexEventRecorded (some 0)).opposite (some 1))))).point
        = ⟨1, 0⟩
    ∧ (exSquareVertex.VertexEventRecorded (some 0)).turnTest exSquareTraits (some 2) (some 1)
        = true
    ∧ (exSquareVertex.HandleVertexEvent exSquareTraits (some 0)).IsReflex (some 5) = false
    ∧ ¬ ((exSquareVertex.HandleVertexEvent exSquareTraits (some 0)).IsReflex (some 5) = true
        ↔ (exSquareVertex.VertexEventRecorded (some 0)).turnTest exSquareTraits
            ((exSquareVertex.HandleVertexEvent exSquareTraits (some 0)).GetDefiningBorderA
              (some 5))
            ((exSquareVertex.HandleVertexEvent exSquareTraits (some 0)).GetDefiningBorderB
              (some 5)) = true) := by
  have h := HandleVertexEvent_flags exSquareTraits exSquareVertex (some 0)
    (by with_unfolding_all decide)
  have e4 : exSquareVertex.mSSkel.vertexNext = 4 := by with_unfolding_all decide
  rw [e4] at h
  obtain ⟨f4, f5, -, -, a5, b5⟩ := h
  have a5' : (exSquareVertex.HandleVertexEvent exSquareTraits (some 0)).GetDefiningBorderA
      (some 5) = some 2 := a5.trans (by with_unfolding_all decide)
  have b5' : (exSquareVertex.HandleVertexEvent exSquareTraits (some 0)).GetDefiningBorderB
      (some 5) = some 1 := b5.trans (by with_unfolding_all decide)
  have t5 : (exSquareVertex.VertexEventRecorded (some 0)).turnTest exSquareTraits (some 2)
      (some 1) = true := by with_unfolding_all decide
  have i5 : (exSquareVertex.HandleVertexEvent exSquareTraits (some 0)).IsReflex (some 5)
      = false := f5.trans (by with_unfolding_all decide)
  refine ⟨f4.trans (by with_unfolding_all decide), a5', b5', by with_unfolding_all decide,
    by with_unfolding_all decide, by with_unfolding_all decide, t5, i5, ?_⟩
  rw [a5', b5', i5, t5]
  simp

/-- C24: in `HandleVertexEvent`, on a state whose wrapper table has one slot per vertex id,
the left node is flagged reflex exactly when the test of `SetupVertexEventNode` succeeds on
the triple built from its defining borders `A` and `B`: `Collinear(p,q,r)` or not
`Left_turn(p,q,r)`, the points being read when the handler has wired and recorded its nodes.
The right node is tested only when the test of the left node fails: it is flagged reflex
exactly when the test fails on the triple of the left node and succeeds on its own. -/
theorem HandleVertexEvent_reflex (tr : Traits) (s : Builder) (e : EventPtr)
    (hc : s.mWrappedCount = s.mVertexID) :
    (s.ConstructVertexEventNodes e).2
        = (some s.mSSkel.vertexNext, some (s.mSSkel.vertexNext + 1))
    ∧ (s.HandleVertexEvent tr e).IsReflex (some s.mSSkel.vertexNext)
      = (s.VertexEventRecorded e).turnTest tr
          ((s.HandleVertexEvent tr e).GetDefiningBorderA (some s.mSSkel.vertexNext))
          ((s.HandleVertexEvent tr e).GetDefiningBorderB (some s.mSSkel.vertexNext))
    ∧ (s.HandleVertexEvent tr e).IsReflex (some (s.mSSkel.vertexNext + 1))
      = (!(s.VertexEventRecorded e).turnTest tr
            ((s.HandleVertexEvent tr e).GetDefiningBorderA (some s.mSSkel.vertexNext))
            ((s.HandleVertexEvent tr e).GetDefiningBorderB (some s.mSSkel.vertexNext))
          && (s.VertexEventRecorded e).turnTest tr
            ((s.HandleVertexEvent tr e).GetDefiningBorderA (some (s.mSSkel.vertexNext + 1)))
            ((s.HandleVertexEvent tr e).GetDefiningBorderB
              (some (s.mSSkel.vertexNext + 1))))
    ∧ (∀ A B, (s.VertexEventRecorded e).turnTest tr A B
        = (tr.Collinear
              ((s.VertexEventRecorded e).vtx ((s.VertexEventRecorded e).vertex
                ((s.VertexEventRecorded e).opposite A))).point
              ((s.VertexEventRecorded e).vtx ((s.VertexEventRecorded e).vertex
                ((s.VertexEventRecorded e).prev ((s.VertexEventRecorded e).opposite A)))).point
              ((s.VertexEventRecorded e).vtx ((s.VertexEventRecorded e).vertex
                ((s.VertexEventRecorded e).prev ((s.VertexEventRecorded e).opposite B)))).point
          || !tr.Left_turn
              ((s.VertexEventRecorded e).vtx ((s.VertexEventRecorded e).vertex
                ((s.VertexEventRecorded e).opposite A))).point
              ((s.VertexEventRecorded e).vtx ((s.VertexEventRecorded e).vertex
                ((s.VertexEventRecorded e).prev ((s.VertexEventRecorded e).opposite A)))).point
              ((s.VertexEventRecorded e).vtx ((s.VertexEventRecorded e).vertex
                ((s.VertexEventRecorded e).prev
                  ((s.VertexEventRecorded e).opposite B)))).point)) := by
  obtain ⟨h1, h2, a1, b1, a2, b2⟩ := HandleVertexEvent_flags tr s e hc
  refine ⟨rfl, ?_, ?_, fun _ _ => rfl⟩
  · rw [a1, b1]
    exact h1
  · rw [a1, b1, a2, b2]
    exact h2

theorem HandleVertexEvent_reflex_witness :
    exSquareVertex.mWrappedCount = exSquareVertex.mVertexID
    ∧ (exSquareVertex.HandleVertexEvent exSquareTraits (some 0)).IsReflex (some 4) = true
    ∧ (exSquareVertex.HandleVertexEvent exSquareTraits (some 0)).IsReflex (some 5) = false := by
  have h := HandleVertexEvent_reflex exSquareTraits exSquareVertex (some 0)
    (by with_unfolding_all decide)
  have e4 : exSquareVertex.mSSkel.vertexNext = 4 := by with_unfolding_all decide
  rw [e4] at h
  exact ⟨by with_unfolding_all decide, h.2.1.trans (by with_unfolding_all decide),
    h.2.2.1.trans (by with_unfolding_all decide)⟩

/-! ## The entry point -/

/-- C28: when `Run()` throws, `construct_skeleton` resets `mSSkel` to the null pointer and then
evaluates the validity check on `*mSSkel`: the call does not return the null skeleton, it
dereferences the null pointer. When `Run()` returns, the graph is returned if it is valid and
the null skeleton otherwise. -/
theorem construct_skeleton_after_throw (is_valid : SSkel → Bool) :
    construct_skeleton none is_valid = Outcome.null_dereference
    ∧ construct_skeleton none is_valid ≠ Outcome.returned none
    ∧ (∀ g, is_valid g = true → construct_skeleton (some g) is_valid = Outcome.returned (some g))
    ∧ (∀ g, is_valid g = false → construct_skeleton (some g) is_valid = Outcome.returned none) := by
  refine ⟨rfl, ?_, ?_, ?_⟩
  · intro h
    cases h
  · intro g hg
    simp [construct_skeleton, hg]
  · intro g hg
    simp [construct_skeleton, hg]

/-! ## The halfedge of a new node targets the node -/

/-- The node of an edge event: its halfedge is the bisector of the left seed, which targets
it, after `ConstructEdgeEventNode` and after the wiring of the new bisector. -/
theorem EdgeEventWiring_halfedge (s : Builder) (e : EventPtr) (l lo : Nat)
    (hL : (s.ev e).seed0 = some l) (hl : l < s.mSSkel.vertexNext)
    (hLO : s.primary_bisector (some l) = some lo) (hlo : lo < s.mSSkel.halfedgeNext) :
    (s.ConstructEdgeEventNode e).1.halfedgeTargetsSelf (some s.mSSkel.vertexNext)
    ∧ (s.EdgeEventWiring e).halfedgeTargetsSelf (some s.mSSkel.vertexNext) := by
  have hl' : l ≠ s.mSSkel.vertexNext := Nat.ne_of_lt hl
  have hlo' : lo ≠ s.mSSkel.halfedgeNext := Nat.ne_of_lt hlo
  have hlo2 : lo ≠ s.mSSkel.halfedgeNext + 1 := by omega
  simp only [Builder.primary_bisector, Builder.next, Builder.opposite, Builder.halfedge,
    Builder.he, Builder.vtx] at hLO
  cases hh1 : (s.mSSkel.vertices l).halfedge with
  | none => rw [hh1] at hLO; exact absurd hLO (by simp [default, instInhabitedHalfedge])
  | some i1 =>
    rw [hh1] at hLO
    simp only at hLO
    constructor
    · simp [Builder.halfedgeTargetsSelf, Builder.edges_push_back,
        Builder.ConstructEdgeEventNode, Builder.vertices_push_back, Builder.SLAV_push_back,
        Builder.wrapped_push_back, Builder.set_halfedge, Builder.updVertex, Builder.set_vertex,
        Builder.set_prev, Builder.set_next, Builder.set_face, Builder.updHalfedge,
        Builder.SetIsProcessed,
        Builder.updWrap, Builder.SLAV_remove, Builder.SetPrevInLAV, Builder.SetNextInLAV,
        Vertex.mk3, Halfedge.mk1, Builder.primary_bisector, Builder.next, Builder.prev,
        Builder.opposite, Builder.face, Builder.face_halfedge, Builder.fc,
        Builder.vertex, Builder.halfedge, Builder.he, Builder.vtx,
        hL, hl', Ne.symm hl', hh1, hLO, hlo', hlo2, Ne.symm hlo', Ne.symm hlo2,
        apply_ite Halfedge.next, apply_ite Halfedge.prev, apply_ite Halfedge.vertex,
        apply_ite Halfedge.face, apply_ite Halfedge.opposite]
    · simp [Builder.halfedgeTargetsSelf, Builder.EdgeEventWiring, Builder.edges_push_back,
        Builder.ConstructEdgeEventNode, Builder.vertices_push_back, Builder.SLAV_push_back,
        Builder.wrapped_push_back, Builder.set_halfedge, Builder.updVertex, Builder.set_vertex,
        Builder.set_prev, Builder.set_next, Builder.set_face, Builder.updHalfedge,
        Builder.SetIsProcessed,
        Builder.updWrap, Builder.SLAV_remove, Builder.SetPrevInLAV, Builder.SetNextInLAV,
        Vertex.mk3, Halfedge.mk1, Builder.primary_bisector, Builder.next, Builder.prev,
        Builder.opposite, Builder.face, Builder.face_halfedge, Builder.fc,
        Builder.vertex, Builder.halfedge, Builder.he, Builder.vtx,
        hL, hl', Ne.symm hl', hh1, hLO, hlo', hlo2, Ne.symm hlo', Ne.symm hlo2,
        apply_ite Halfedge.next, apply_ite Halfedge.prev, apply_ite Halfedge.vertex,
        apply_ite Halfedge.face, apply_ite Halfedge.opposite]

/-- The nodes of a split event, once wired: the halfedge of the left node is the bisector of
the seed, that of the right node is the twin of the first new bisector, and each targets its
node. -/
theorem SplitEventWiring_halfedge (s : Builder) (e : EventPtr) (aOppR : Vertex_handle)
    (sd hs xo : Nat)
    (hS : (s.ev e).seed0 = some sd) (hsd : sd < s.mSSkel.vertexNext)
    (hH : s.halfedge (some sd) = some hs) (hXO : s.next (some hs) = some xo)
    (hhs : hs < s.mSSkel.halfedgeNext) (hxo : xo < s.mSSkel.halfedgeNext) :
    (s.SplitEventWiring e aOppR).halfedgeTargetsSelf (some s.mSSkel.vertexNext)
    ∧ (s.SplitEventWiring e aOppR).halfedgeTargetsSelf (some (s.mSSkel.vertexNext + 1)) := by
  simp only [Builder.next, Builder.opposite, Builder.halfedge] at hH hXO
  have hhe := ConstructSplitEventNodes_he s e aOppR sd hs xo hS hsd hH hXO
  obtain ⟨hv1, hv2, hv3⟩ := ConstructSplitEventNodes_vtx s e aOppR sd hs xo hS hsd hH hXO
  have e1 : sd ≠ s.mSSkel.vertexNext := by omega
  have e2 : sd ≠ s.mSSkel.vertexNext + 1 := by omega
  have hvs := hv3 sd e1 e2
  have v1 : s.mSSkel.vertexNext ≠ s.mSSkel.vertexNext + 1 := by omega
  have a1 : hs ≠ s.mSSkel.halfedgeNext := by omega
  have a2 : hs ≠ s.mSSkel.halfedgeNext + 1 := by omega
  have a3 : hs ≠ s.mSSkel.halfedgeNext + 2 := by omega
  have a4 : hs ≠ s.mSSkel.halfedgeNext + 2 + 1 := by omega
  have b1 : xo ≠ s.mSSkel.halfedgeNext := by omega
  have b2 : xo ≠ s.mSSkel.halfedgeNext + 1 := by omega
  have b3 : xo ≠ s.mSSkel.halfedgeNext + 2 := by omega
  have b4 : xo ≠ s.mSSkel.halfedgeNext + 2 + 1 := by omega
  have k1 : s.mSSkel.halfedgeNext ≠ s.mSSkel.halfedgeNext + 2 + 1 := by omega
  have k2 : s.mSSkel.halfedgeNext + 1 ≠ s.mSSkel.halfedgeNext + 2 + 1 := by omega
  have k3 : s.mSSkel.halfedgeNext + 1 ≠ s.mSSkel.halfedgeNext + 2 := by omega
  have k7 : s.mSSkel.halfedgeNext ≠ s.mSSkel.halfedgeNext + 2 := by omega
  have k8 : s.mSSkel.halfedgeNext ≠ s.mSSkel.halfedgeNext + 1 := by omega
  have k9 : s.mSSkel.halfedgeNext + 2 ≠ s.mSSkel.halfedgeNext + 2 + 1 := by omega
  have hN : (s.ConstructSplitEventNodes e aOppR).2
      = (some s.mSSkel.vertexNext, some (s.mSSkel.vertexNext + 1)) := rfl
  have hk : (s.ConstructSplitEventNodes e aOppR).1.mSSkel.halfedgeNext
      = s.mSSkel.halfedgeNext := rfl
  have hev : ∀ x, (s.ConstructSplitEventNodes e aOppR).1.ev x = s.ev x := fun _ => rfl
  constructor
  · simp only [Builder.halfedgeTargetsSelf, Builder.SplitEventWiring,
      Builder.set_vertex, Builder.set_halfedge, Builder.set_next, Builder.set_prev,
      Builder.set_face,
      Builder.primary_bisector, Builder.next, Builder.prev, Builder.opposite, Builder.face,
      Builder.halfedge, Builder.face_halfedge, Builder.vertex,
      he_updVertex, he_updWrap, he_wrapped_push_back, he_SLAV_push_back, he_SLAV_remove, he_vertices_push_back, he_with_mVertexID, he_with_mEdgeID, he_with_mSplitNodes, vtx_updHalfedge, vtx_updWrap, vtx_wrapped_push_back, vtx_SLAV_push_back, vtx_SLAV_remove, vtx_edges_push_back, vtx_with_mVertexID, vtx_with_mEdgeID, vtx_with_mSplitNodes, fc_updHalfedge, fc_updVertex, fc_updWrap, fc_wrapped_push_back, fc_SLAV_push_back, fc_SLAV_remove, fc_vertices_push_back, fc_edges_push_back, fc_with_mVertexID, fc_with_mEdgeID, fc_with_mSplitNodes, ev_updHalfedge, ev_updVertex, ev_updWrap, ev_wrapped_push_back, ev_SLAV_push_back, ev_SLAV_remove, ev_vertices_push_back, ev_edges_push_back, ev_with_mVertexID, ev_with_mEdgeID, ev_with_mSplitNodes, he_updHalfedge, he_edges_push_back, vtx_updVertex, vtx_vertices_push_back, edges_push_back_snd, edges_push_back_halfedgeNext, hN, hk, hev, hhe,
      hv1, hv2, hvs,
      hS, hH, hXO, e1, e2, Ne.symm e1, Ne.symm e2, v1, Ne.symm v1,
      a1, a2, a3, a4, b1, b2, b3, b4,
      k1, k2, k3, k7, k8, k9, Ne.symm k1, Ne.symm k2, Ne.symm k3,
      Ne.symm k7, Ne.symm k8, Ne.symm k9,
      Ne.symm a1, Ne.symm a2, Ne.symm a3, Ne.symm a4,
      Ne.symm b1, Ne.symm b2, Ne.symm b3, Ne.symm b4,
      apply_ite Halfedge.next, apply_ite Halfedge.prev, apply_ite Halfedge.vertex,
      apply_ite Halfedge.face, apply_ite Halfedge.opposite, apply_ite Vertex.halfedge,
      ↓reduceIte, Option.some.injEq, reduceCtorEq, ite_self, Halfedge.mk1, ne_eq,
      not_false_eq_true, and_self, Vertex.mk3]
  · simp only [Builder.halfedgeTargetsSelf, Builder.SplitEventWiring,
      Builder.set_vertex, Builder.set_halfedge, Builder.set_next, Builder.set_prev,
      Builder.set_face,
      Builder.primary_bisector, Builder.next, Builder.prev, Builder.opposite, Builder.face,
      Builder.halfedge, Builder.face_halfedge, Builder.vertex,
      he_updVertex, he_updWrap, he_wrapped_push_back, he_SLAV_push_back, he_SLAV_remove, he_vertices_push_back, he_with_mVertexID, he_with_mEdgeID, he_with_mSplitNodes, vtx_updHalfedge, vtx_updWrap, vtx_wrapped_push_back, vtx_SLAV_push_back, vtx_SLAV_remove, vtx_edges_push_back, vtx_with_mVertexID, vtx_with_mEdgeID, vtx_with_mSplitNodes, fc_updHalfedge, fc_updVertex, fc_updWrap, fc_wrapped_push_back, fc_SLAV_push_back, fc_SLAV_remove, fc_vertices_push_back, fc_edges_push_back, fc_with_mVertexID, fc_with_mEdgeID, fc_with_mSplitNodes, ev_updHalfedge, ev_updVertex, ev_updWrap, ev_wrapped_push_back, ev_SLAV_push_back, ev_SLAV_remove, ev_vertices_push_back, ev_edges_push_back, ev_with_mVertexID, ev_with_mEdgeID, ev_with_mSplitNodes, he_updHalfedge, he_edges_push_back, vtx_updVertex, vtx_vertices_push_back, edges_push_back_snd, edges_push_back_halfedgeNext, hN, hk, hev, hhe,
      hv1, hv2, hvs,
      hS, hH, hXO, e1, e2, Ne.symm e1, Ne.symm e2, v1, Ne.symm v1,
      a1, a2, a3, a4, b1, b2, b3, b4,
      k1, k2, k3, k7, k8, k9, Ne.symm k1, Ne.symm k2, Ne.symm k3,
      Ne.symm k7, Ne.symm k8, Ne.symm k9,
      Ne.symm a1, Ne.symm a2, Ne.symm a3, Ne.symm a4,
      Ne.symm b1, Ne.symm b2, Ne.symm b3, Ne.symm b4,
      apply_ite Halfedge.next, apply_ite Halfedge.prev, apply_ite Halfedge.vertex,
      apply_ite Halfedge.face, apply_ite Halfedge.opposite, apply_ite Vertex.halfedge,
      ↓reduceIte, Option.some.injEq, reduceCtorEq, ite_self, Halfedge.mk1, ne_eq,
      not_false_eq_true, and_self, Vertex.mk3]

/-- The graph after `ConstructVertexEventNodes`: the halfedges of the two nodes, the targets
of the halfedges, and the links of the halfedges other than the bisectors of the seeds. -/
theorem ConstructVertexEventNodes_graph (s : Builder) (e : EventPtr) (l r i1 i2 lo ro : Nat)
    (hL : (s.ev e).seed0 = some l) (hR : (s.ev e).seed1 = some r)
    (hl : l < s.mSSkel.vertexNext) (hr : r < s.mSSkel.vertexNext)
    (hH1 : (s.vtx (some l)).halfedge = some i1) (hLO : (s.he (some i1)).next = some lo)
    (hH2 : (s.vtx (some r)).halfedge = some i2) (hRO : (s.he (some i2)).next = some ro) :
    ((s.ConstructVertexEventNodes e).1.vtx (some s.mSSkel.vertexNext)).halfedge = some lo
    ∧ ((s.ConstructVertexEventNodes e).1.vtx (some (s.mSSkel.vertexNext + 1))).halfedge
        = some ro
    ∧ (∀ j, j ≠ s.mSSkel.vertexNext → j ≠ s.mSSkel.vertexNext + 1 →
        (s.ConstructVertexEventNodes e).1.vtx (some j) = s.vtx (some j))
    ∧ (∀ j, ((s.ConstructVertexEventNodes e).1.he (some j)).vertex
        = if ro = j then some (s.mSSkel.vertexNext + 1)
          else if lo = j then some s.mSSkel.vertexNext else (s.he (some j)).vertex)
    ∧ (∀ j, lo ≠ j → ro ≠ j →
        ((s.ConstructVertexEventNodes e).1.he (some j)).next = (s.he (some j)).next) := by
  rcases e with _ | j0
  · exact absurd hL (by simp [Builder.ev])
  have e1 : l ≠ s.mSSkel.vertexNext := by omega
  have e2 : l ≠ s.mSSkel.vertexNext + 1 := by omega
  have e3 : r ≠ s.mSSkel.vertexNext := by omega
  have e4 : r ≠ s.mSSkel.vertexNext + 1 := by omega
  have v1 : s.mSSkel.vertexNext ≠ s.mSSkel.vertexNext + 1 := by omega
  refine ⟨?_, ?_, ?_, ?_, ?_⟩
  · simp only [Builder.ConstructVertexEventNodes, Builder.set_vertex, Builder.set_halfedge,
      Builder.set_next, Builder.set_prev,
      Builder.SetIsProcessed, Builder.SetPrevInLAV, Builder.SetNextInLAV,
      Builder.primary_bisector, Builder.next, Builder.halfedge, Builder.opposite,
      he_updVertex, he_updWrap, he_wrapped_push_back, he_SLAV_push_back, he_SLAV_remove, he_vertices_push_back, he_with_mVertexID, he_with_mEdgeID, he_with_mSplitNodes, vtx_updHalfedge, vtx_updWrap, vtx_wrapped_push_back, vtx_SLAV_push_back, vtx_SLAV_remove, vtx_edges_push_back, vtx_with_mVertexID, vtx_with_mEdgeID, vtx_with_mSplitNodes, fc_updHalfedge, fc_updVertex, fc_updWrap, fc_wrapped_push_back, fc_SLAV_push_back, fc_SLAV_remove, fc_vertices_push_back, fc_edges_push_back, fc_with_mVertexID, fc_with_mEdgeID, fc_with_mSplitNodes, ev_updHalfedge, ev_updVertex, ev_updWrap, ev_wrapped_push_back, ev_SLAV_push_back, ev_SLAV_remove, ev_vertices_push_back, ev_edges_push_back, ev_with_mVertexID, ev_with_mEdgeID, ev_with_mSplitNodes, he_updHalfedge, he_edges_push_back, vtx_updVertex, vtx_vertices_push_back, vertices_push_back_snd, vertices_push_back_vertexNext,
      vertices_push_back_mVertexID, ev_mk, ev_of_table,
      hL, hR, hH1, hH2, hLO, hRO, e1, e2, e3, e4, Ne.symm e1, Ne.symm e2, Ne.symm e3,
      Ne.symm e4, v1, Ne.symm v1, apply_ite Vertex.halfedge, Vertex.mk3,
      ↓reduceIte, Option.some.injEq, reduceCtorEq]
  · simp only [Builder.ConstructVertexEventNodes, Builder.set_vertex, Builder.set_halfedge,
      Builder.set_next, Builder.set_prev,
      Builder.SetIsProcessed, Builder.SetPrevInLAV, Builder.SetNextInLAV,
      Builder.primary_bisector, Builder.next, Builder.halfedge, Builder.opposite,
      he_updVertex, he_updWrap, he_wrapped_push_back, he_SLAV_push_back, he_SLAV_remove, he_vertices_push_back, he_with_mVertexID, he_with_mEdgeID, he_with_mSplitNodes, vtx_updHalfedge, vtx_updWrap, vtx_wrapped_push_back, vtx_SLAV_push_back, vtx_SLAV_remove, vtx_edges_push_back, vtx_with_mVertexID, vtx_with_mEdgeID, vtx_with_mSplitNodes, fc_updHalfedge, fc_updVertex, fc_updWrap, fc_wrapped_push_back, fc_SLAV_push_back, fc_SLAV_remove, fc_vertices_push_back, fc_edges_push_back, fc_with_mVertexID, fc_with_mEdgeID, fc_with_mSplitNodes, ev_updHalfedge, ev_updVertex, ev_updWrap, ev_wrapped_push_back, ev_SLAV_push_back, ev_SLAV_remove, ev_vertices_push_back, ev_edges_push_back, ev_with_mVertexID, ev_with_mEdgeID, ev_with_mSplitNodes, he_updHalfedge, he_edges_push_back, vtx_updVertex, vtx_vertices_push_back, vertices_push_back_snd, vertices_push_back_vertexNext,
      vertices_push_back_mVertexID, ev_mk, ev_of_table,
      hL, hR, hH1, hH2, hLO, hRO, e1, e2, e3, e4, Ne.symm e1, Ne.symm e2, Ne.symm e3,
      Ne.symm e4, v1, Ne.symm v1, apply_ite Vertex.halfedge, Vertex.mk3,
      ↓reduceIte, Option.some.injEq, reduceCtorEq]
  · intro j h1 h2
    simp only [Builder.ConstructVertexEventNodes, Builder.set_vertex, Builder.set_halfedge,
      Builder.set_next, Builder.set_prev,
      Builder.SetIsProcessed, Builder.SetPrevInLAV, Builder.SetNextInLAV,
      Builder.primary_bisector, Builder.next, Builder.halfedge, Builder.opposite,
      he_updVertex, he_updWrap, he_wrapped_push_back, he_SLAV_push_back, he_SLAV_remove, he_vertices_push_back, he_with_mVertexID, he_with_mEdgeID, he_with_mSplitNodes, vtx_updHalfedge, vtx_updWrap, vtx_wrapped_push_back, vtx_SLAV_push_back, vtx_SLAV_remove, vtx_edges_push_back, vtx_with_mVertexID, vtx_with_mEdgeID, vtx_with_mSplitNodes, fc_updHalfedge, fc_updVertex, fc_updWrap, fc_wrapped_push_back, fc_SLAV_push_back, fc_SLAV_remove, fc_vertices_push_back, fc_edges_push_back, fc_with_mVertexID, fc_with_mEdgeID, fc_with_mSplitNodes, ev_updHalfedge, ev_updVertex, ev_updWrap, ev_wrapped_push_back, ev_SLAV_push_back, ev_SLAV_remove, ev_vertices_push_back, ev_edges_push_back, ev_with_mVertexID, ev_with_mEdgeID, ev_with_mSplitNodes, he_updHalfedge, he_edges_push_back, vtx_updVertex, vtx_vertices_push_back, vertices_push_back_snd, vertices_push_back_vertexNext,
      vertices_push_back_mVertexID, ev_mk, ev_of_table,
      hL, hR, hH1, hH2, hLO, hRO, e1, e2, e3, e4, Ne.symm e1, Ne.symm e2, Ne.symm e3,
      Ne.symm e4, v1, Ne.symm v1, h1, h2, Ne.symm h1, Ne.symm h2,
      ↓reduceIte, Option.some.injEq, reduceCtorEq]
  · intro j
    simp only [Builder.ConstructVertexEventNodes, Builder.set_vertex, Builder.set_halfedge,
      Builder.set_next, Builder.set_prev,
      Builder.SetIsProcessed, Builder.SetPrevInLAV, Builder.SetNextInLAV,
      Builder.primary_bisector, Builder.next, Builder.halfedge, Builder.opposite,
      he_updVertex, he_updWrap, he_wrapped_push_back, he_SLAV_push_back, he_SLAV_remove, he_vertices_push_back, he_with_mVertexID, he_with_mEdgeID, he_with_mSplitNodes, vtx_updHalfedge, vtx_updWrap, vtx_wrapped_push_back, vtx_SLAV_push_back, vtx_SLAV_remove, vtx_edges_push_back, vtx_with_mVertexID, vtx_with_mEdgeID, vtx_with_mSplitNodes, fc_updHalfedge, fc_updVertex, fc_updWrap, fc_wrapped_push_back, fc_SLAV_push_back, fc_SLAV_remove, fc_vertices_push_back, fc_edges_push_back, fc_with_mVertexID, fc_with_mEdgeID, fc_with_mSplitNodes, ev_updHalfedge, ev_updVertex, ev_updWrap, ev_wrapped_push_back, ev_SLAV_push_back, ev_SLAV_remove, ev_vertices_push_back, ev_edges_push_back, ev_with_mVertexID, ev_with_mEdgeID, ev_with_mSplitNodes, he_updHalfedge, he_edges_push_back, vtx_updVertex, vtx_vertices_push_back, vertices_push_back_snd, vertices_push_back_vertexNext,
      vertices_push_back_mVertexID, ev_mk, ev_of_table,
      hL, hR, hH1, hH2, hLO, hRO, e1, e2, e3, e4, Ne.symm e1, Ne.symm e2, Ne.symm e3,
      Ne.symm e4, v1, Ne.symm v1, apply_ite Halfedge.vertex, ite_self,
      ↓reduceIte, Option.some.injEq, reduceCtorEq]
  · intro j h1 h2
    simp only [Builder.ConstructVertexEventNodes, Builder.set_vertex, Builder.set_halfedge,
      Builder.set_next, Builder.set_prev,
      Builder.SetIsProcessed, Builder.SetPrevInLAV, Builder.SetNextInLAV,
      Builder.primary_bisector, Builder.next, Builder.halfedge, Builder.opposite,
      he_updVertex, he_updWrap, he_wrapped_push_back, he_SLAV_push_back, he_SLAV_remove, he_vertices_push_back, he_with_mVertexID, he_with_mEdgeID, he_with_mSplitNodes, vtx_updHalfedge, vtx_updWrap, vtx_wrapped_push_back, vtx_SLAV_push_back, vtx_SLAV_remove, vtx_edges_push_back, vtx_with_mVertexID, vtx_with_mEdgeID, vtx_with_mSplitNodes, fc_updHalfedge, fc_updVertex, fc_updWrap, fc_wrapped_push_back, fc_SLAV_push_back, fc_SLAV_remove, fc_vertices_push_back, fc_edges_push_back, fc_with_mVertexID, fc_with_mEdgeID, fc_with_mSplitNodes, ev_updHalfedge, ev_updVertex, ev_updWrap, ev_wrapped_push_back, ev_SLAV_push_back, ev_SLAV_remove, ev_vertices_push_back, ev_edges_push_back, ev_with_mVertexID, ev_with_mEdgeID, ev_with_mSplitNodes, he_updHalfedge, he_edges_push_back, vtx_updVertex, vtx_vertices_push_back, vertices_push_back_snd, vertices_push_back_vertexNext,
      vertices_push_back_mVertexID, ev_mk, ev_of_table,
      hL, hR, hH1, hH2, hLO, hRO, e1, e2, e3, e4, Ne.symm e1, Ne.symm e2, Ne.symm e3,
      Ne.symm e4, v1, Ne.symm v1, h1, h2, apply_ite Halfedge.next, ite_self,
      ↓reduceIte, Option.some.injEq, reduceCtorEq]

/-- The nodes of a vertex event, once wired: the halfedge of the left node is the bisector of
the left seed, that of the right node the bisector of the right seed, and each targets its
node. -/
theorem VertexEventWiring_halfedge (s : Builder) (e : EventPtr) (l r i1 i2 lo ro : Nat)
    (hL : (s.ev e).seed0 = some l) (hR : (s.ev e).seed1 = some r)
    (hl : l < s.mSSkel.vertexNext) (hr : r < s.mSSkel.vertexNext)
    (hH1 : s.halfedge (some l) = some i1) (hLO : s.next (some i1) = some lo)
    (hH2 : s.halfedge (some r) = some i2) (hRO : s.next (some i2) = some ro)
    (hi1 : i1 < s.mSSkel.halfedgeNext) (hi2 : i2 < s.mSSkel.halfedgeNext)
    (hlo : lo < s.mSSkel.halfedgeNext) (hro : ro < s.mSSkel.halfedgeNext)
    (hne : lo ≠ ro)
    (j1 : lo ≠ i1) (j2 : ro ≠ i1) (j3 : lo ≠ i2) (j4 : ro ≠ i2) :
    (s.VertexEventWiring e).halfedgeTargetsSelf (some s.mSSkel.vertexNext)
    ∧ (s.VertexEventWiring e).halfedgeTargetsSelf (some (s.mSSkel.vertexNext + 1)) := by
  simp only [Builder.next, Builder.opposite, Builder.halfedge] at hH1 hH2 hLO hRO
  obtain ⟨g1, g2, g3, g4, g5⟩ :=
    ConstructVertexEventNodes_graph s e l r i1 i2 lo ro hL hR hl hr hH1 hLO hH2 hRO
  have e1 : l ≠ s.mSSkel.vertexNext := by omega
  have e2 : l ≠ s.mSSkel.vertexNext + 1 := by omega
  have e3 : r ≠ s.mSSkel.vertexNext := by omega
  have e4 : r ≠ s.mSSkel.vertexNext + 1 := by omega
  have gl := g3 l e1 e2
  have gr := g3 r e3 e4
  have n1 := g5 i1 j1 j2
  have n2 := g5 i2 j3 j4
  have v1 : s.mSSkel.vertexNext ≠ s.mSSkel.vertexNext + 1 := by omega
  have b1 : lo ≠ s.mSSkel.halfedgeNext := by omega
  have b2 : lo ≠ s.mSSkel.halfedgeNext + 1 := by omega
  have b3 : lo ≠ s.mSSkel.halfedgeNext + 2 := by omega
  have b4 : lo ≠ s.mSSkel.halfedgeNext + 2 + 1 := by omega
  have c1 : ro ≠ s.mSSkel.halfedgeNext := by omega
  have c2 : ro ≠ s.mSSkel.halfedgeNext + 1 := by omega
  have c3 : ro ≠ s.mSSkel.halfedgeNext + 2 := by omega
  have c4 : ro ≠ s.mSSkel.halfedgeNext + 2 + 1 := by omega
  have m1 : i1 ≠ s.mSSkel.halfedgeNext := by omega
  have m2 : i1 ≠ s.mSSkel.halfedgeNext + 1 := by omega
  have m3 : i1 ≠ s.mSSkel.halfedgeNext + 2 := by omega
  have m4 : i1 ≠ s.mSSkel.halfedgeNext + 2 + 1 := by omega
  have p1 : i2 ≠ s.mSSkel.halfedgeNext := by omega
  have p2 : i2 ≠ s.mSSkel.halfedgeNext + 1 := by omega
  have p3 : i2 ≠ s.mSSkel.halfedgeNext + 2 := by omega
  have p4 : i2 ≠ s.mSSkel.halfedgeNext + 2 + 1 := by omega
  have k1 : s.mSSkel.halfedgeNext ≠ s.mSSkel.halfedgeNext + 2 + 1 := by omega
  have k2 : s.mSSkel.halfedgeNext + 1 ≠ s.mSSkel.halfedgeNext + 2 + 1 := by omega
  have k3 : s.mSSkel.halfedgeNext + 1 ≠ s.mSSkel.halfedgeNext + 2 := by omega
  have k7 : s.mSSkel.halfedgeNext ≠ s.mSSkel.halfedgeNext + 2 := by omega
  have k8 : s.mSSkel.halfedgeNext ≠ s.mSSkel.halfedgeNext + 1 := by omega
  have k9 : s.mSSkel.halfedgeNext + 2 ≠ s.mSSkel.halfedgeNext + 2 + 1 := by omega
  have hN : (s.ConstructVertexEventNodes e).2
      = (some s.mSSkel.vertexNext, some (s.mSSkel.vertexNext + 1)) := rfl
  have hk : (s.ConstructVertexEventNodes e).1.mSSkel.halfedgeNext
      = s.mSSkel.halfedgeNext := rfl
  have hev : ∀ x, (s.ConstructVertexEventNodes e).1.ev x = s.ev x := fun _ => rfl
  constructor
  · simp only [Builder.halfedgeTargetsSelf, Builder.VertexEventWiring,
      Builder.set_vertex, Builder.set_halfedge, Builder.set_next, Builder.set_prev,
      Builder.set_face,
      Builder.primary_bisector, Builder.next, Builder.prev, Builder.opposite, Builder.face,
      Builder.halfedge, Builder.face_halfedge, Builder.vertex,
      he_updVertex, he_updWrap, he_wrapped_push_back, he_SLAV_push_back, he_SLAV_remove, he_vertices_push_back, he_with_mVertexID, he_with_mEdgeID, he_with_mSplitNodes, vtx_updHalfedge, vtx_updWrap, vtx_wrapped_push_back, vtx_SLAV_push_back, vtx_SLAV_remove, vtx_edges_push_back, vtx_with_mVertexID, vtx_with_mEdgeID, vtx_with_mSplitNodes, fc_updHalfedge, fc_updVertex, fc_updWrap, fc_wrapped_push_back, fc_SLAV_push_back, fc_SLAV_remove, fc_vertices_push_back, fc_edges_push_back, fc_with_mVertexID, fc_with_mEdgeID, fc_with_mSplitNodes, ev_updHalfedge, ev_updVertex, ev_updWrap, ev_wrapped_push_back, ev_SLAV_push_back, ev_SLAV_remove, ev_vertices_push_back, ev_edges_push_back, ev_with_mVertexID, ev_with_mEdgeID, ev_with_mSplitNodes, he_updHalfedge, he_edges_push_back, vtx_updVertex, vtx_vertices_push_back, edges_push_back_snd, edges_push_back_halfedgeNext, hN, hk, hev,
      g1, g2, g4, gl, gr, n1, n2,
      hL, hR, hH1, hH2, hLO, hRO, e1, e2, e3, e4, Ne.symm e1, Ne.symm e2, Ne.symm e3,
      Ne.symm e4, v1, Ne.symm v1, hne, Ne.symm hne,
      j1, j2, j3, j4, Ne.symm j1, Ne.symm j2, Ne.symm j3, Ne.symm j4,
      b1, b2, b3, b4, c1, c2, c3, c4, m1, m2, m3, m4, p1, p2, p3, p4,
      Ne.symm b1, Ne.symm b2, Ne.symm b3, Ne.symm b4,
      Ne.symm c1, Ne.symm c2, Ne.symm c3, Ne.symm c4,
      Ne.symm m1, Ne.symm m2, Ne.symm m3, Ne.symm m4,
      Ne.symm p1, Ne.symm p2, Ne.symm p3, Ne.symm p4,
      k1, k2, k3, k7, k8, k9, Ne.symm k1, Ne.symm k2, Ne.symm k3,
      Ne.symm k7, Ne.symm k8, Ne.symm k9,
      apply_ite Halfedge.next, apply_ite Halfedge.prev, apply_ite Halfedge.vertex,
      apply_ite Halfedge.face, apply_ite Halfedge.opposite, apply_ite Vertex.halfedge,
      ↓reduceIte, Option.some.injEq, reduceCtorEq, ite_self, Halfedge.mk1, ne_eq,
      not_false_eq_true, and_self, Vertex.mk3]
  · simp only [Builder.halfedgeTargetsSelf, Builder.VertexEventWiring,
      Builder.set_vertex, Builder.set_halfedge, Builder.set_next, Builder.set_prev,
      Builder.set_face,
      Builder.primary_bisector, Builder.next, Builder.prev, Builder.opposite, Builder.face,
      Builder.halfedge, Builder.face_halfedge, Builder.vertex,
      he_updVertex, he_updWrap, he_wrapped_push_back, he_SLAV_push_back, he_SLAV_remove, he_vertices_push_back, he_with_mVertexID, he_with_mEdgeID, he_with_mSplitNodes, vtx_updHalfedge, vtx_updWrap, vtx_wrapped_push_back, vtx_SLAV_push_back, vtx_SLAV_remove, vtx_edges_push_back, vtx_with_mVertexID, vtx_with_mEdgeID, vtx_with_mSplitNodes, fc_updHalfedge, fc_updVertex, fc_updWrap, fc_wrapped_push_back, fc_SLAV_push_back, fc_SLAV_remove, fc_vertices_push_back, fc_edges_push_back, fc_with_mVertexID, fc_with_mEdgeID, fc_with_mSplitNodes, ev_updHalfedge, ev_updVertex, ev_updWrap, ev_wrapped_push_back, ev_SLAV_push_back, ev_SLAV_remove, ev_vertices_push_back, ev_edges_push_back, ev_with_mVertexID, ev_with_mEdgeID, ev_with_mSplitNodes, he_updHalfedge, he_edges_push_back, vtx_updVertex, vtx_vertices_push_back, edges_push_back_snd, edges_push_back_halfedgeNext, hN, hk, hev,
      g1, g2, g4, gl, gr, n1, n2,
      hL, hR, hH1, hH2, hLO, hRO, e1, e2, e3, e4, Ne.symm e1, Ne.symm e2, Ne.symm e3,
      Ne.symm e4, v1, Ne.symm v1, hne, Ne.symm hne,
      j1, j2, j3, j4, Ne.symm j1, Ne.symm j2, Ne.symm j3, Ne.symm j4,
      b1, b2, b3, b4, c1, c2, c3, c4, m1, m2, m3, m4, p1, p2, p3, p4,
      Ne.symm b1, Ne.symm b2, Ne.symm b3, Ne.symm b4,
      Ne.symm c1, Ne.symm c2, Ne.symm c3, Ne.symm c4,
      Ne.symm m1, Ne.symm m2, Ne.symm m3, Ne.symm m4,
      Ne.symm p1, Ne.symm p2, Ne.symm p3, Ne.symm p4,
      k1, k2, k3, k7, k8, k9, Ne.symm k1, Ne.symm k2, Ne.symm k3,
      Ne.symm k7, Ne.symm k8, Ne.symm k9,
      apply_ite Halfedge.next, apply_ite Halfedge.prev, apply_ite Halfedge.vertex,
      apply_ite Halfedge.face, apply_ite Halfedge.opposite, apply_ite Vertex.halfedge,
      ↓reduceIte, Option.some.injEq, reduceCtorEq, ite_self, Halfedge.mk1, ne_eq,
      not_false_eq_true, and_self, Vertex.mk3]

theorem HandleVertexEvent_setup (tr : Traits) (s : Builder) (e : EventPtr) :
    s.HandleVertexEvent tr e
      = ((s.VertexEventSetup tr e).UpdatePQ tr (s.ConstructVertexEventNodes e).2.1).UpdatePQ tr
          (s.ConstructVertexEventNodes e).2.2 := rfl

theorem SetupVertexEventNode_mSSkel (tr : Traits) (s : Builder) (N : Vertex_handle)
    (A B : Halfedge_handle) : (s.SetupVertexEventNode tr N A B).1.mSSkel = s.mSSkel := by
  rw [SetupVertexEventNode_eq]
  dsimp only
  split <;> rfl

theorem VertexEventSetup_mSSkel (tr : Traits) (s : Builder) (e : EventPtr) :
    (s.VertexEventSetup tr e).mSSkel = (s.VertexEventWiring e).mSSkel := by
  unfold Builder.VertexEventSetup
  dsimp only
  split
  · rw [SetupVertexEventNode_mSSkel, SetupVertexEventNode_mSSkel]
    rfl
  · rw [SetupVertexEventNode_mSSkel]
    rfl

theorem halfedgeTargetsSelf_congr {s s' : Builder} (h : s'.mSSkel = s.mSSkel)
    (v : Vertex_handle) : s'.halfedgeTargetsSelf v ↔ s.halfedgeTargetsSelf v := by
  unfold Builder.halfedgeTargetsSelf Builder.halfedge Builder.vertex Builder.vtx Builder.he
  rw [h]

/-- C29: the halfedge of every node that an event handler creates is assigned and targets the
node, at the point where the handler has wired it. `HandleEdgeEvent`, for a left seed that is
a vertex of the graph whose primary bisector is a halfedge of the graph: on return in the
multiple-node branch, and in the state on which `UpdatePQ` is called otherwise.
`HandleSplitEvent`, for a seed that is a vertex of the graph whose halfedge and primary
bisector are halfedges of the graph: both nodes, in the state on which `UpdatePQ` is called.
`HandleVertexEvent`, for two seeds that are vertices of the graph whose halfedges and primary
bisectors are four distinct halfedges of the graph: both nodes, in the state on which
`UpdatePQ` is called. -/
theorem new_nodes_halfedge_targets_node (tr : Traits)
    (s : Builder) (e : EventPtr) (l lo : Nat)
    (hL : (s.ev e).seed0 = some l) (hl : l < s.mSSkel.vertexNext)
    (hLO : s.primary_bisector (some l) = some lo) (hlo : lo < s.mSSkel.halfedgeNext)
    (s2 : Builder) (e2 : EventPtr) (aOppR : Vertex_handle) (sd hs xo : Nat)
    (hS : (s2.ev e2).seed0 = some sd) (hsd : sd < s2.mSSkel.vertexNext)
    (hH : s2.halfedge (some sd) = some hs) (hXO : s2.next (some hs) = some xo)
    (hhs : hs < s2.mSSkel.halfedgeNext) (hxo : xo < s2.mSSkel.halfedgeNext)
    (s3 : Builder) (e3 : EventPtr) (l3 r3 i1 i2 lo3 ro3 : Nat)
    (hL3 : (s3.ev e3).seed0 = some l3) (hR3 : (s3.ev e3).seed1 = some r3)
    (hl3 : l3 < s3.mSSkel.vertexNext) (hr3 : r3 < s3.mSSkel.vertexNext)
    (hH1 : s3.halfedge (some l3) = some i1) (hLO3 : s3.next (some i1) = some lo3)
    (hH2 : s3.halfedge (some r3) = some i2) (hRO3 : s3.next (some i2) = some ro3)
    (hi1 : i1 < s3.mSSkel.halfedgeNext) (hi2 : i2 < s3.mSSkel.halfedgeNext)
    (hlo3 : lo3 < s3.mSSkel.halfedgeNext) (hro3 : ro3 < s3.mSSkel.halfedgeNext)
    (hne : lo3 ≠ ro3)
    (j1 : lo3 ≠ i1) (j2 : ro3 ≠ i1) (j3 : lo3 ≠ i2) (j4 : ro3 ≠ i2) :
    ((s.ConstructEdgeEventNode e).2 = some s.mSSkel.vertexNext
      ∧ (s.isMultipleNode e = true →
          (s.HandleEdgeEvent tr e).halfedgeTargetsSelf (some s.mSSkel.vertexNext))
      ∧ (s.isMultipleNode e = false →
          s.HandleEdgeEvent tr e
            = ((s.EdgeEventWiring e).recordBorders (some s.mSSkel.vertexNext)
                ((s.EdgeEventWiring e).bordersAround (some s.mSSkel.vertexNext))).UpdatePQ tr
                  (some s.mSSkel.vertexNext)
          ∧ ((s.EdgeEventWiring e).recordBorders (some s.mSSkel.vertexNext)
                ((s.EdgeEventWiring e).bordersAround
                  (some s.mSSkel.vertexNext))).halfedgeTargetsSelf
              (some s.mSSkel.vertexNext)))
    ∧ ((s2.ConstructSplitEventNodes e2 aOppR).2
          = (some s2.mSSkel.vertexNext, some (s2.mSSkel.vertexNext + 1))
      ∧ s2.HandleSplitEvent tr e2 aOppR
          = ((((s2.SplitEventWiring e2 aOppR).recordBorders (some s2.mSSkel.vertexNext)
                ((s2.SplitEventWiring e2 aOppR).bordersAround
                  (some s2.mSSkel.vertexNext))).recordBorders
              (some (s2.mSSkel.vertexNext + 1))
              ((s2.SplitEventWiring e2 aOppR).bordersAround
                (some (s2.mSSkel.vertexNext + 1)))).UpdatePQ tr
              (some s2.mSSkel.vertexNext)).UpdatePQ tr (some (s2.mSSkel.vertexNext + 1))
      ∧ (((s2.SplitEventWiring e2 aOppR).recordBorders (some s2.mSSkel.vertexNext)
                ((s2.SplitEventWiring e2 aOppR).bordersAround
                  (some s2.mSSkel.vertexNext))).recordBorders
              (some (s2.mSSkel.vertexNext + 1))
              ((s2.SplitEventWiring e2 aOppR).bordersAround
                (some (s2.mSSkel.vertexNext + 1)))).halfedgeTargetsSelf
            (some s2.mSSkel.vertexNext)
      ∧ (((s2.SplitEventWiring e2 aOppR).recordBorders (some s2.mSSkel.vertexNext)
                ((s2.SplitEventWiring e2 aOppR).bordersAround
                  (some s2.mSSkel.vertexNext))).recordBorders
              (some (s2.mSSkel.vertexNext + 1))
              ((s2.SplitEventWiring e2 aOppR).bordersAround
                (some (s2.mSSkel.vertexNext + 1)))).halfedgeTargetsSelf
            (some (s2.mSSkel.vertexNext + 1)))
    ∧ ((s3.ConstructVertexEventNodes e3).2
          = (some s3.mSSkel.vertexNext, some (s3.mSSkel.vertexNext + 1))
      ∧ s3.HandleVertexEvent tr e3
          = ((s3.VertexEventSetup tr e3).UpdatePQ tr (some s3.mSSkel.vertexNext)).UpdatePQ tr
              (some (s3.mSSkel.vertexNext + 1))
      ∧ (s3.VertexEventSetup tr e3).halfedgeTargetsSelf (some s3.mSSkel.vertexNext)
      ∧ (s3.VertexEventSetup tr e3).halfedgeTargetsSelf (some (s3.mSSkel.vertexNext + 1))) := by
  obtain ⟨a1, a2⟩ := EdgeEventWiring_halfedge s e l lo hL hl hLO hlo
  obtain ⟨b1, b2⟩ := SplitEventWiring_halfedge s2 e2 aOppR sd hs xo hS hsd hH hXO hhs hxo
  obtain ⟨c1, c2⟩ := VertexEventWiring_halfedge s3 e3 l3 r3 i1 i2 lo3 ro3 hL3 hR3 hl3 hr3
    hH1 hLO3 hH2 hRO3 hi1 hi2 hlo3 hro3 hne j1 j2 j3 j4
  refine ⟨⟨rfl, ?_, ?_⟩, ⟨rfl, HandleSplitEvent_wiring tr s2 e2 aOppR, ?_, ?_⟩,
    ⟨rfl, HandleVertexEvent_setup tr s3 e3, ?_, ?_⟩⟩
  · intro hm
    rw [HandleEdgeEvent_multiple tr s e hm]
    exact (halfedgeTargetsSelf_congr rfl _).2 a1
  · intro hm
    exact ⟨HandleEdgeEvent_new_bisector tr s e hm, (halfedgeTargetsSelf_congr rfl _).2 a2⟩
  · exact (halfedgeTargetsSelf_congr rfl _).2 b1
  · exact (halfedgeTargetsSelf_congr rfl _).2 b2
  · exact (halfedgeTargetsSelf_congr (VertexEventSetup_mSSkel tr s3 e3) _).2 c1
  · exact (halfedgeTargetsSelf_congr (VertexEventSetup_mSSkel tr s3 e3) _).2 c2

theorem new_nodes_halfedge_targets_node_witness :
    (exQuad.primary_bisector (some 0) = some 8 ∧ exQuadSplit.next (some 0) = some 8
      ∧ exQuadVertex.next (some 2) = some 12)
    ∧ (exQuad.EdgeEventWiring (some 0)).halfedgeTargetsSelf (some 4)
    ∧ (exQuadVertex.VertexEventSetup exTimedTraits (some 0)).halfedgeTargetsSelf (some 5) :=
  have h := new_nodes_halfedge_targets_node exTimedTraits
    exQuad (some 0) 0 8 (by decide) (by decide) (by decide) (by decide)
    exQuadSplit (some 0) (some 2) 0 0 8 (by decide) (by decide) (by decide) (by decide)
    (by decide) (by decide)
    exQuadVertex (some 0) 0 2 0 2 8 12 (by decide) (by decide) (by decide) (by decide)
    (by decide) (by decide) (by decide) (by decide) (by decide) (by decide) (by decide)
    (by decide) (by decide) (by decide) (by decide) (by decide) (by decide)
  ⟨⟨by decide, by decide, by decide⟩,
    (halfedgeTargetsSelf_congr rfl _).1 (h.1.2.2 (by decide)).2, h.2.2.2.2.2⟩

/-! ## The contour bisectors: reflex flags -/

/-- What one iteration of `CreateContourBisectors` does to the vertices and the wrappers: the
vertices are kept, and only the reflex flag of the wrapper of `v` may be set. -/
theorem CreateContourBisector_wrappers (tr : Traits) (s : Builder) (v : Nat) :
    (s.CreateContourBisector tr (some v)).mSSkel.vertices = s.mSSkel.vertices
    ∧ (s.CreateContourBisector tr (some v)).mSSkel.vertexList = s.mSSkel.vertexList
    ∧ ∀ k, (s.CreateContourBisector tr (some v)).mWrappedVertices k
        = if s.contourTurnTest tr (some v) = true ∧ (s.vtx (some v)).id = k
          then { s.mWrappedVertices k with mIsReflex := true } else s.mWrappedVertices k := by
  unfold Builder.CreateContourBisector
  lift_lets
  extract_lets s1 s2 e lOB e1 s3 lIB s4 s5 s6 lIBorder lOBorder s7 s8 s9 s10
  have h1 : s10.mSSkel.vertices = s2.mSSkel.vertices :=
    (rfl : _ = s9.mSSkel.vertices).trans
      ((rfl : _ = s8.mSSkel.vertices).trans
      ((rfl : _ = s7.mSSkel.vertices).trans
      ((rfl : _ = s6.mSSkel.vertices).trans
      ((rfl : _ = s5.mSSkel.vertices).trans
      ((rfl : _ = s4.mSSkel.vertices).trans
      ((rfl : _ = s3.mSSkel.vertices).trans
      ((rfl : _ = e1.mSSkel.vertices).trans
      ((rfl : _ = s2.mSSkel.vertices)))))))))
  have h2 : s10.mSSkel.vertexList = s2.mSSkel.vertexList :=
    (rfl : _ = s9.mSSkel.vertexList).trans
      ((rfl : _ = s8.mSSkel.vertexList).trans
      ((rfl : _ = s7.mSSkel.vertexList).trans
      ((rfl : _ = s6.mSSkel.vertexList).trans
      ((rfl : _ = s5.mSSkel.vertexList).trans
      ((rfl : _ = s4.mSSkel.vertexList).trans
      ((rfl : _ = s3.mSSkel.vertexList).trans
      ((rfl : _ = e1.mSSkel.vertexList).trans
      ((rfl : _ = s2.mSSkel.vertexList)))))))))
  have h3 : s10.mWrappedVertices = s2.mWrappedVertices :=
    (rfl : _ = s9.mWrappedVertices).trans
      ((rfl : _ = s8.mWrappedVertices).trans
      ((rfl : _ = s7.mWrappedVertices).trans
      ((rfl : _ = s6.mWrappedVertices).trans
      ((rfl : _ = s5.mWrappedVertices).trans
      ((rfl : _ = s4.mWrappedVertices).trans
      ((rfl : _ = s3.mWrappedVertices).trans
      ((rfl : _ = e1.mWrappedVertices).trans
      ((rfl : _ = s2.mWrappedVertices)))))))))
  have hT : s1.contourTurnTest tr (some v) = s.contourTurnTest tr (some v) := rfl
  rw [h1, h2, h3]
  show (if s1.contourTurnTest tr (some v) = true then s1.SetIsReflex (some v)
      else s1).mSSkel.vertices = s.mSSkel.vertices
    ∧ (if s1.contourTurnTest tr (some v) = true then s1.SetIsReflex (some v)
      else s1).mSSkel.vertexList = s.mSSkel.vertexList
    ∧ ∀ k, (if s1.contourTurnTest tr (some v) = true then s1.SetIsReflex (some v)
      else s1).mWrappedVertices k
        = if s.contourTurnTest tr (some v) = true ∧ (s.vtx (some v)).id = k
          then { s.mWrappedVertices k with mIsReflex := true } else s.mWrappedVertices k
  rw [hT]
  cases hc : s.contourTurnTest tr (some v)
  · refine ⟨rfl, rfl, fun k => ?_⟩
    simp only [Bool.false_eq_true, ↓reduceIte, false_and]
    rfl
  · refine ⟨rfl, rfl, fun k => ?_⟩
    simp only [↓reduceIte, true_and]
    show (s1.SetIsReflex (some v)).mWrappedVertices k = _
    simp only [Builder.SetIsReflex, wtab_updWrap, wrapIndex_some, Option.some.injEq, s1,
      vtx_SLAV_push_back, wtab_SLAV_push_back]

/-- The wrappers and vertices after `CreateContourBisectors` over a list of vertices. -/
theorem CreateContourBisectors_wrappers (tr : Traits) (L : List Nat) :
    ∀ s : Builder,
      (L.foldl (fun st v => st.CreateContourBisector tr (some v)) s).mSSkel.vertices
          = s.mSSkel.vertices
      ∧ (L.foldl (fun st v => st.CreateContourBisector tr (some v)) s).mSSkel.vertexList
          = s.mSSkel.vertexList
      ∧ (∀ k, ((L.foldl (fun st v => st.CreateContourBisector tr (some v)) s).mWrappedVertices
              k).mPrevInLAV = (s.mWrappedVertices k).mPrevInLAV
          ∧ ((L.foldl (fun st v => st.CreateContourBisector tr (some v)) s).mWrappedVertices
              k).mNextInLAV = (s.mWrappedVertices k).mNextInLAV
          ∧ ((L.foldl (fun st v => st.CreateContourBisector tr (some v)) s).mWrappedVertices
              k).mIsReflex
            = ((s.mWrappedVertices k).mIsReflex
                || L.any (fun v => decide ((s.vtx (some v)).id = k)
                    && s.contourTurnTest tr (some v)))) := by
  induction L with
  | nil =>
    intro s
    exact ⟨rfl, rfl, fun k => ⟨rfl, rfl, by simp⟩⟩
  | cons v L ih =>
    intro s
    obtain ⟨a1, a2, a3⟩ := CreateContourBisector_wrappers tr s v
    obtain ⟨b1, b2, b3⟩ := ih (s.CreateContourBisector tr (some v))
    have hW : ∀ k, ((s.CreateContourBisector tr (some v)).mWrappedVertices k).mPrevInLAV
          = (s.mWrappedVertices k).mPrevInLAV
        ∧ ((s.CreateContourBisector tr (some v)).mWrappedVertices k).mNextInLAV
          = (s.mWrappedVertices k).mNextInLAV
        ∧ ((s.CreateContourBisector tr (some v)).mWrappedVertices k).mIsReflex
          = ((s.mWrappedVertices k).mIsReflex
              || (decide ((s.vtx (some v)).id = k) && s.contourTurnTest tr (some v))) := by
      intro k
      rw [a3 k]
      by_cases hc : s.contourTurnTest tr (some v) = true ∧ (s.vtx (some v)).id = k
      · rw [if_pos hc]
        simp [hc.1, hc.2]
      · rw [if_neg hc]
        refine ⟨rfl, rfl, ?_⟩
        rcases not_and_or.1 hc with h | h
        · simp [h]
        · simp [h]
    have hTest : ∀ u, (s.CreateContourBisector tr (some v)).contourTurnTest tr (some u)
        = s.contourTurnTest tr (some u) := by
      intro u
      simp only [Builder.contourTurnTest, Builder.GetPrevInLAV, Builder.GetNextInLAV,
        Builder.wrap, Builder.vtx, a1, (hW _).1, (hW _).2.1]
    have hId : ∀ u, ((s.CreateContourBisector tr (some v)).vtx (some u)).id
        = (s.vtx (some u)).id := by
      intro u
      simp only [Builder.vtx, a1]
    refine ⟨b1.trans a1, b2.trans a2, fun k => ⟨((b3 k).1).trans (hW k).1,
      ((b3 k).2.1).trans (hW k).2.1, ?_⟩⟩
    rw [List.foldl_cons, (b3 k).2.2, (hW k).2.2, List.any_cons, Bool.or_assoc]
    simp only [hTest, hId]

/-- C22: after `CreateContourBisectors`, started with no vertex flagged and vertices of
different ids, a vertex of the contour is flagged reflex exactly when the points of its
predecessor in the LAV, of itself and of its successor are collinear or do not turn left; the
LAV links and the vertices are the ones of the entry state. A collinear triple is flagged; a
left turn that is not collinear is not. -/
theorem CreateContourBisectors_reflex (tr : Traits) (s : Builder)
    (hid : ∀ u ∈ s.mSSkel.vertexList, ∀ v ∈ s.mSSkel.vertexList,
      (s.vtx (some u)).id = (s.vtx (some v)).id → u = v)
    (hfresh : ∀ v ∈ s.mSSkel.vertexList, s.IsReflex (some v) = false) :
    ∀ v ∈ s.mSSkel.vertexList,
      (s.CreateContourBisectors tr).GetPrevInLAV (some v) = s.GetPrevInLAV (some v)
      ∧ (s.CreateContourBisectors tr).GetNextInLAV (some v) = s.GetNextInLAV (some v)
      ∧ (s.CreateContourBisectors tr).mSSkel.vertices = s.mSSkel.vertices
      ∧ ((s.CreateContourBisectors tr).IsReflex (some v) = true ↔
          (tr.Collinear (s.vtx (s.GetPrevInLAV (some v))).point (s.vtx (some v)).point
              (s.vtx (s.GetNextInLAV (some v))).point = true
            ∨ ¬ tr.Left_turn (s.vtx (s.GetPrevInLAV (some v))).point (s.vtx (some v)).point
              (s.vtx (s.GetNextInLAV (some v))).point = true))
      ∧ (tr.Collinear (s.vtx (s.GetPrevInLAV (some v))).point (s.vtx (some v)).point
              (s.vtx (s.GetNextInLAV (some v))).point = true →
          (s.CreateContourBisectors tr).IsReflex (some v) = true)
      ∧ (tr.Left_turn (s.vtx (s.GetPrevInLAV (some v))).point (s.vtx (some v)).point
              (s.vtx (s.GetNextInLAV (some v))).point = true →
          tr.Collinear (s.vtx (s.GetPrevInLAV (some v))).point (s.vtx (some v)).point
              (s.vtx (s.GetNextInLAV (some v))).point = false →
          (s.CreateContourBisectors tr).IsReflex (some v) = false) := by
  intro v hv
  obtain ⟨b1, -, b3⟩ := CreateContourBisectors_wrappers tr s.mSSkel.vertexList s
  have hR : (s.CreateContourBisectors tr).IsReflex (some v) = s.contourTurnTest tr (some v) := by
    have h0 := (b3 (s.vtx (some v)).id).2.2
    have hf : (s.mWrappedVertices (s.vtx (some v)).id).mIsReflex = false := hfresh v hv
    have hany : s.mSSkel.vertexList.any (fun u => decide ((s.vtx (some u)).id
        = (s.vtx (some v)).id) && s.contourTurnTest tr (some u))
        = s.contourTurnTest tr (some v) := by
      rw [Bool.eq_iff_iff, List.any_eq_true]
      constructor
      · rintro ⟨u, hu, h⟩
        rw [Bool.and_eq_true, decide_eq_true_eq] at h
        rw [← hid u hu v hv h.1]
        exact h.2
      · intro h
        exact ⟨v, hv, by rw [Bool.and_eq_true, decide_eq_true_eq]; exact ⟨rfl, h⟩⟩
    rw [hf, hany, Bool.false_or] at h0
    show ((s.CreateContourBisectors tr).mWrappedVertices
      ((s.CreateContourBisectors tr).mSSkel.vertices v).id).mIsReflex = _
    rw [show (s.CreateContourBisectors tr).mSSkel.vertices = s.mSSkel.vertices from b1]
    exact h0
  have hT : s.contourTurnTest tr (some v)
      = (tr.Collinear (s.vtx (s.GetPrevInLAV (some v))).point (s.vtx (some v)).point
          (s.vtx (s.GetNextInLAV (some v))).point
        || !tr.Left_turn (s.vtx (s.GetPrevInLAV (some v))).point (s.vtx (some v)).point
          (s.vtx (s.GetNextInLAV (some v))).point) := rfl
  have hP : (s.CreateContourBisectors tr).GetPrevInLAV (some v) = s.GetPrevInLAV (some v) := by
    show ((s.CreateContourBisectors tr).mWrappedVertices
      ((s.CreateContourBisectors tr).mSSkel.vertices v).id).mPrevInLAV = _
    rw [show (s.CreateContourBisectors tr).mSSkel.vertices = s.mSSkel.vertices from b1]
    exact (b3 _).1
  have hN : (s.CreateContourBisectors tr).GetNextInLAV (some v) = s.GetNextInLAV (some v) := by
    show ((s.CreateContourBisectors tr).mWrappedVertices
      ((s.CreateContourBisectors tr).mSSkel.vertices v).id).mNextInLAV = _
    rw [show (s.CreateContourBisectors tr).mSSkel.vertices = s.mSSkel.vertices from b1]
    exact (b3 _).2.1
  refine ⟨hP, hN, b1, ?_, ?_, ?_⟩
  · rw [hR, hT, Bool.or_eq_true, Bool.not_eq_true', Bool.not_eq_true]
  · intro h
    rw [hR, hT, h, Bool.true_or]
  · intro h1 h2
    rw [hR, hT, h1, h2]
    rfl
/-! ## The contour bisectors: the halfedges -/

/-- What one iteration of `CreateContourBisectors` does to the halfedges, for a vertex `v`
whose halfedge `h` and the halfedge `g` after it are halfedges of the graph. -/
theorem CreateContourBisector_graph (tr : Traits) (s : Builder) (v h g : Nat)
    (hH : (s.vtx (some v)).halfedge = some h) (hG : (s.he (some h)).next = some g)
    (hh : h < s.mSSkel.halfedgeNext) (hg : g < s.mSSkel.halfedgeNext) :
    (s.CreateContourBisector tr (some v)).mSSkel.halfedgeNext = s.mSSkel.halfedgeNext + 2
    ∧ (s.CreateContourBisector tr (some v)).mEdgeID = s.mEdgeID + 2
    ∧ (∀ j, j < s.mSSkel.halfedgeNext →
        ((s.CreateContourBisector tr (some v)).he (some j)).face = (s.he (some j)).face
        ∧ ((s.CreateContourBisector tr (some v)).he (some j)).vertex = (s.he (some j)).vertex
        ∧ ((s.CreateContourBisector tr (some v)).he (some j)).opposite
            = (s.he (some j)).opposite
        ∧ ((s.CreateContourBisector tr (some v)).he (some j)).id = (s.he (some j)).id
        ∧ ((s.CreateContourBisector tr (some v)).he (some j)).next
            = (if h = j then some s.mSSkel.halfedgeNext else (s.he (some j)).next)
        ∧ ((s.CreateContourBisector tr (some v)).he (some j)).prev
            = (if g = j then some (s.mSSkel.halfedgeNext + 1) else (s.he (some j)).prev))
    ∧ (s.CreateContourBisector tr (some v)).he (some s.mSSkel.halfedgeNext)
        = { id := s.mEdgeID, opposite := some (s.mSSkel.halfedgeNext + 1), next := none,
            prev := some h, face := (s.he (some h)).face, vertex := none }
    ∧ (s.CreateContourBisector tr (some v)).he (some (s.mSSkel.halfedgeNext + 1))
        = { id := s.mEdgeID + 1, opposite := some s.mSSkel.halfedgeNext, next := some g,
            prev := none, face := (s.he (some g)).face, vertex := some v } := by
  unfold Builder.CreateContourBisector
  lift_lets
  extract_lets s1 s2 e lOB e1 s3 lIB s4 s5 s6 lIBorder lOBorder s7 s8 s9 s10
  have q1 : ∀ j, s2.he (some j) = s.he (some j) := by
    intro j
    show (if s1.contourTurnTest tr (some v) = true then s1.SetIsReflex (some v)
      else s1).he (some j) = _
    split <;> rfl
  have q2 : ∀ j, s2.vtx (some j) = s.vtx (some j) := by
    intro j
    show (if s1.contourTurnTest tr (some v) = true then s1.SetIsReflex (some v)
      else s1).vtx (some j) = _
    split <;> rfl
  have q3 : s2.mSSkel.halfedgeNext = s.mSSkel.halfedgeNext := by
    show (if s1.contourTurnTest tr (some v) = true then s1.SetIsReflex (some v)
      else s1).mSSkel.halfedgeNext = _
    split <;> rfl
  have q4 : s2.mEdgeID = s.mEdgeID := by
    show (if s1.contourTurnTest tr (some v) = true then s1.SetIsReflex (some v)
      else s1).mEdgeID = _
    split <;> rfl
  have n1 : s10.mSSkel.halfedgeNext = s2.mSSkel.halfedgeNext + 2 :=
    (rfl : _ = s9.mSSkel.halfedgeNext).trans ((rfl : _ = s8.mSSkel.halfedgeNext).trans
      ((rfl : _ = s7.mSSkel.halfedgeNext).trans ((rfl : _ = s6.mSSkel.halfedgeNext).trans
        ((rfl : _ = s5.mSSkel.halfedgeNext).trans ((rfl : _ = s4.mSSkel.halfedgeNext).trans
          ((rfl : _ = s3.mSSkel.halfedgeNext).trans ((rfl : _ = e1.mSSkel.halfedgeNext).trans
            rfl)))))))
  have n2 : s10.mEdgeID = s2.mEdgeID + 2 :=
    (rfl : _ = s9.mEdgeID).trans ((rfl : _ = s8.mEdgeID).trans
      ((rfl : _ = s7.mEdgeID).trans ((rfl : _ = s6.mEdgeID).trans
        ((rfl : _ = s5.mEdgeID).trans ((rfl : _ = s4.mEdgeID).trans
          ((rfl : _ = s3.mEdgeID).trans rfl))))))
  have q5 : ∀ x, s3.he x = (s2.edges_push_back (Halfedge.mk1 s2.mEdgeID)
      (Halfedge.mk1 (s2.mEdgeID + 1))).1.he x := fun _ => rfl
  have q6 : ∀ x, s3.vtx x = s2.vtx x := fun _ => rfl
  have q7 : lOB = some s2.mSSkel.halfedgeNext := rfl
  clear_value s2 s3 lOB
  have a1 : h ≠ s.mSSkel.halfedgeNext := by omega
  have a2 : h ≠ s.mSSkel.halfedgeNext + 1 := by omega
  have b1 : g ≠ s.mSSkel.halfedgeNext := by omega
  have b2 : g ≠ s.mSSkel.halfedgeNext + 1 := by omega
  have k8 : s.mSSkel.halfedgeNext ≠ s.mSSkel.halfedgeNext + 1 := by omega
  refine ⟨n1.trans (by rw [q3]), n2.trans (by rw [q4]), ?_, ?_, ?_⟩
  · intro j hj
    have c1 : j ≠ s.mSSkel.halfedgeNext := by omega
    have c2 : j ≠ s.mSSkel.halfedgeNext + 1 := by omega
    simp only [s10, s9, s8, s7, lOBorder, lIBorder, s6, s5, s4, lIB, q5, q6, q7,
      Builder.set_vertex, Builder.set_halfedge, Builder.set_next, Builder.set_prev,
      Builder.set_face, Builder.next, Builder.prev, Builder.opposite, Builder.face,
      Builder.halfedge, Builder.vertex,
      he_updVertex, he_updWrap, he_wrapped_push_back, he_SLAV_push_back, he_SLAV_remove, he_vertices_push_back, he_with_mVertexID, he_with_mEdgeID, he_with_mSplitNodes, vtx_updHalfedge, vtx_updWrap, vtx_wrapped_push_back, vtx_SLAV_push_back, vtx_SLAV_remove, vtx_edges_push_back, vtx_with_mVertexID, vtx_with_mEdgeID, vtx_with_mSplitNodes, fc_updHalfedge, fc_updVertex, fc_updWrap, fc_wrapped_push_back, fc_SLAV_push_back, fc_SLAV_remove, fc_vertices_push_back, fc_edges_push_back, fc_with_mVertexID, fc_with_mEdgeID, fc_with_mSplitNodes, ev_updHalfedge, ev_updVertex, ev_updWrap, ev_wrapped_push_back, ev_SLAV_push_back, ev_SLAV_remove, ev_vertices_push_back, ev_edges_push_back, ev_with_mVertexID, ev_with_mEdgeID, ev_with_mSplitNodes, he_updHalfedge, he_edges_push_back, vtx_updVertex, vtx_vertices_push_back, edges_push_back_snd, edges_push_back_halfedgeNext,
      q1, q2, q3, q4, hH, hG, a1, a2, b1, b2, c1, c2, k8, Ne.symm a1, Ne.symm a2, Ne.symm b1,
      Ne.symm b2, Ne.symm c1, Ne.symm c2, Ne.symm k8,
      apply_ite Halfedge.next, apply_ite Halfedge.prev, apply_ite Halfedge.vertex,
      apply_ite Halfedge.face, apply_ite Halfedge.opposite, apply_ite Halfedge.id,
      ↓reduceIte, Option.some.injEq, reduceCtorEq, ite_self, Halfedge.mk1, and_self]
  · simp only [s10, s9, s8, s7, lOBorder, lIBorder, s6, s5, s4, lIB, q5, q6, q7,
      Builder.set_vertex, Builder.set_halfedge, Builder.set_next, Builder.set_prev,
      Builder.set_face, Builder.next, Builder.prev, Builder.opposite, Builder.face,
      Builder.halfedge, Builder.vertex,
      he_updVertex, he_updWrap, he_wrapped_push_back, he_SLAV_push_back, he_SLAV_remove, he_vertices_push_back, he_with_mVertexID, he_with_mEdgeID, he_with_mSplitNodes, vtx_updHalfedge, vtx_updWrap, vtx_wrapped_push_back, vtx_SLAV_push_back, vtx_SLAV_remove, vtx_edges_push_back, vtx_with_mVertexID, vtx_with_mEdgeID, vtx_with_mSplitNodes, fc_updHalfedge, fc_updVertex, fc_updWrap, fc_wrapped_push_back, fc_SLAV_push_back, fc_SLAV_remove, fc_vertices_push_back, fc_edges_push_back, fc_with_mVertexID, fc_with_mEdgeID, fc_with_mSplitNodes, ev_updHalfedge, ev_updVertex, ev_updWrap, ev_wrapped_push_back, ev_SLAV_push_back, ev_SLAV_remove, ev_vertices_push_back, ev_edges_push_back, ev_with_mVertexID, ev_with_mEdgeID, ev_with_mSplitNodes, he_updHalfedge, he_edges_push_back, vtx_updVertex, vtx_vertices_push_back, edges_push_back_snd, edges_push_back_halfedgeNext,
      q1, q2, q3, q4, hH, hG, a1, a2, b1, b2, k8, Ne.symm a1, Ne.symm a2, Ne.symm b1,
      Ne.symm b2, Ne.symm k8,
      apply_ite Halfedge.next, apply_ite Halfedge.prev, apply_ite Halfedge.vertex,
      apply_ite Halfedge.face, apply_ite Halfedge.opposite, apply_ite Halfedge.id,
      ↓reduceIte, Option.some.injEq, reduceCtorEq, ite_self, Halfedge.mk1, and_self]
    rfl
  · simp only [s10, s9, s8, s7, lOBorder, lIBorder, s6, s5, s4, lIB, q5, q6, q7,
      Builder.set_vertex, Builder.set_halfedge, Builder.set_next, Builder.set_prev,
      Builder.set_face, Builder.next, Builder.prev, Builder.opposite, Builder.face,
      Builder.halfedge, Builder.vertex,
      he_updVertex, he_updWrap, he_wrapped_push_back, he_SLAV_push_back, he_SLAV_remove, he_vertices_push_back, he_with_mVertexID, he_with_mEdgeID, he_with_mSplitNodes, vtx_updHalfedge, vtx_updWrap, vtx_wrapped_push_back, vtx_SLAV_push_back, vtx_SLAV_remove, vtx_edges_push_back, vtx_with_mVertexID, vtx_with_mEdgeID, vtx_with_mSplitNodes, fc_updHalfedge, fc_updVertex, fc_updWrap, fc_wrapped_push_back, fc_SLAV_push_back, fc_SLAV_remove, fc_vertices_push_back, fc_edges_push_back, fc_with_mVertexID, fc_with_mEdgeID, fc_with_mSplitNodes, ev_updHalfedge, ev_updVertex, ev_updWrap, ev_wrapped_push_back, ev_SLAV_push_back, ev_SLAV_remove, ev_vertices_push_back, ev_edges_push_back, ev_with_mVertexID, ev_with_mEdgeID, ev_with_mSplitNodes, he_updHalfedge, he_edges_push_back, vtx_updVertex, vtx_vertices_push_back, edges_push_back_snd, edges_push_back_halfedgeNext,
      q1, q2, q3, q4, hH, hG, a1, a2, b1, b2, k8, Ne.symm a1, Ne.symm a2, Ne.symm b1,
      Ne.symm b2, Ne.symm k8,
      apply_ite Halfedge.next, apply_ite Halfedge.prev, apply_ite Halfedge.vertex,
      apply_ite Halfedge.face, apply_ite Halfedge.opposite, apply_ite Halfedge.id,
      ↓reduceIte, Option.some.injEq, reduceCtorEq, ite_self, Halfedge.mk1, and_self]
    rfl

theorem Halfedge_eq_of_fields (a b : Halfedge) (h1 : a.id = b.id)
    (h2 : a.opposite = b.opposite) (h3 : a.next = b.next) (h4 : a.prev = b.prev)
    (h5 : a.face = b.face) (h6 : a.vertex = b.vertex) : a = b := by
  cases a
  cases b
  simp only [Halfedge.mk.injEq]
  exact ⟨h1, h2, h3, h4, h5, h6⟩

/-- The halfedges after `CreateContourBisectors` over a list `L` of different vertices, where
vertex `v` has the halfedge `H v`, followed by the halfedge `G v`, and different vertices have
different ones: the `k`-th vertex gets the pair of halfedges `n + 2 * k`, `n + 2 * k + 1` for
`n` the size of the halfedge store on entry. -/
theorem CreateContourBisectors_graph (tr : Traits) (H G : Nat → Nat) :
    ∀ (L : List Nat) (s : Builder), L.Nodup →
      (∀ v ∈ L, (s.vtx (some v)).halfedge = some (H v)
        ∧ (s.he (some (H v))).next = some (G v)
        ∧ H v < s.mSSkel.halfedgeNext ∧ G v < s.mSSkel.halfedgeNext) →
      (∀ u ∈ L, ∀ v ∈ L, H u = H v → u = v) →
      (∀ u ∈ L, ∀ v ∈ L, G u = G v → u = v) →
      (L.foldl (fun st v => st.CreateContourBisector tr (some v)) s).mSSkel.halfedgeNext
          = s.mSSkel.halfedgeNext + 2 * L.length
      ∧ (L.foldl (fun st v => st.CreateContourBisector tr (some v)) s).mEdgeID
          = s.mEdgeID + 2 * L.length
      ∧ (∀ j, j < s.mSSkel.halfedgeNext →
          ((L.foldl (fun st v => st.CreateContourBisector tr (some v)) s).he (some j)).face
              = (s.he (some j)).face
          ∧ ((L.foldl (fun st v => st.CreateContourBisector tr (some v)) s).he (some j)).vertex
              = (s.he (some j)).vertex
          ∧ ((L.foldl (fun st v => st.CreateContourBisector tr (some v)) s).he
              (some j)).opposite = (s.he (some j)).opposite
          ∧ ((L.foldl (fun st v => st.CreateContourBisector tr (some v)) s).he (some j)).id
              = (s.he (some j)).id
          ∧ ((∀ v ∈ L, H v ≠ j) →
            ((L.foldl (fun st v => st.CreateContourBisector tr (some v)) s).he (some j)).next
              = (s.he (some j)).next)
          ∧ ((∀ v ∈ L, G v ≠ j) →
            ((L.foldl (fun st v => st.CreateContourBisector tr (some v)) s).he (some j)).prev
              = (s.he (some j)).prev))
      ∧ (∀ k v, L.get? k = some v →
          ((L.foldl (fun st v => st.CreateContourBisector tr (some v)) s).he
              (some (H v))).next = some (s.mSSkel.halfedgeNext + 2 * k)
          ∧ ((L.foldl (fun st v => st.CreateContourBisector tr (some v)) s).he
              (some (G v))).prev = some (s.mSSkel.halfedgeNext + 2 * k + 1)
          ∧ (L.foldl (fun st v => st.CreateContourBisector tr (some v)) s).he
              (some (s.mSSkel.halfedgeNext + 2 * k))
            = { id := s.mEdgeID + 2 * k, opposite := some (s.mSSkel.halfedgeNext + 2 * k + 1),
                next := none, prev := some (H v), face := (s.he (some (H v))).face,
                vertex := none }
          ∧ (L.foldl (fun st v => st.CreateContourBisector tr (some v)) s).he
              (some (s.mSSkel.halfedgeNext + 2 * k + 1))
            = { id := s.mEdgeID + 2 * k + 1, opposite := some (s.mSSkel.halfedgeNext + 2 * k),
                next := some (G v), prev := none, face := (s.he (some (G v))).face,
                vertex := some v }) := by
  intro L
  induction L with
  | nil =>
    intro s _ _ _ _
    refine ⟨rfl, rfl, fun j _ => ⟨rfl, rfl, rfl, rfl, fun _ => rfl, fun _ => rfl⟩, ?_⟩
    intro k v hk
    simp at hk
  | cons v L ih =>
    intro s hnd hHG hHi hGi
    obtain ⟨hv, hnd'⟩ := List.nodup_cons.1 hnd
    obtain ⟨vH, vG, vh, vg⟩ := hHG v (List.mem_cons_self _ _)
    obtain ⟨a1, a2, a3, a4, a5⟩ := CreateContourBisector_graph tr s v (H v) (G v) vH vG vh vg
    have aV := (CreateContourBisector_wrappers tr s v).1
    have hne : ∀ u ∈ L, u ≠ v := fun u hu h => hv (h ▸ hu)
    have hHne : ∀ u ∈ L, H v ≠ H u := fun u hu h =>
      hne u hu (hHi v (List.mem_cons_self _ _) u (List.mem_cons_of_mem _ hu) h).symm
    have hGne : ∀ u ∈ L, G v ≠ G u := fun u hu h =>
      hne u hu (hGi v (List.mem_cons_self _ _) u (List.mem_cons_of_mem _ hu) h).symm
    have hHG' : ∀ u ∈ L, ((s.CreateContourBisector tr (some v)).vtx (some u)).halfedge
          = some (H u)
        ∧ ((s.CreateContourBisector tr (some v)).he (some (H u))).next = some (G u)
        ∧ H u < (s.CreateContourBisector tr (some v)).mSSkel.halfedgeNext
        ∧ G u < (s.CreateContourBisector tr (some v)).mSSkel.halfedgeNext := by
      intro u hu
      obtain ⟨uH, uG, uh, ug⟩ := hHG u (List.mem_cons_of_mem _ hu)
      refine ⟨?_, ?_, by omega, by omega⟩
      · show ((s.CreateContourBisector tr (some v)).mSSkel.vertices u).halfedge = _
        rw [aV]
        exact uH
      · rw [(a3 (H u) uh).2.2.2.2.1, if_neg (hHne u hu)]
        exact uG
    obtain ⟨b1, b2, b3, b4⟩ := ih (s.CreateContourBisector tr (some v)) hnd' hHG'
      (fun u hu w hw => hHi u (List.mem_cons_of_mem _ hu) w (List.mem_cons_of_mem _ hw))
      (fun u hu w hw => hGi u (List.mem_cons_of_mem _ hu) w (List.mem_cons_of_mem _ hw))
    have hHlt : ∀ u ∈ L, H u < s.mSSkel.halfedgeNext := fun u hu =>
      (hHG u (List.mem_cons_of_mem _ hu)).2.2.1
    have hGlt : ∀ u ∈ L, G u < s.mSSkel.halfedgeNext := fun u hu =>
      (hHG u (List.mem_cons_of_mem _ hu)).2.2.2
    rw [List.foldl_cons, List.length_cons]
    refine ⟨by rw [b1, a1]; omega, by rw [b2, a2]; omega, ?_, ?_⟩
    · intro j hj
      have hj' : j < (s.CreateContourBisector tr (some v)).mSSkel.halfedgeNext := by omega
      obtain ⟨c1, c2, c3, c4, c5, c6⟩ := b3 j hj'
      obtain ⟨d1, d2, d3, d4, d5, d6⟩ := a3 j hj
      refine ⟨c1.trans d1, c2.trans d2, c3.trans d3, c4.trans d4, ?_, ?_⟩
      · intro hall
        rw [c5 (fun u hu => hall u (List.mem_cons_of_mem _ hu)), d5,
          if_neg (hall v (List.mem_cons_self _ _))]
      · intro hall
        rw [c6 (fun u hu => hall u (List.mem_cons_of_mem _ hu)), d6,
          if_neg (hall v (List.mem_cons_self _ _))]
    · intro k u hk
      cases k with
      | zero =>
        have huv : v = u := by simpa using hk
        subst huv
        have e1 : s.mSSkel.halfedgeNext
            < (s.CreateContourBisector tr (some v)).mSSkel.halfedgeNext := by omega
        have e2 : s.mSSkel.halfedgeNext + 1
            < (s.CreateContourBisector tr (some v)).mSSkel.halfedgeNext := by omega
        have f1 : ∀ u ∈ L, H u ≠ s.mSSkel.halfedgeNext := fun u hu => by
          have := hHlt u hu
          omega
        have f2 : ∀ u ∈ L, G u ≠ s.mSSkel.halfedgeNext := fun u hu => by
          have := hGlt u hu
          omega
        have f3 : ∀ u ∈ L, H u ≠ s.mSSkel.halfedgeNext + 1 := fun u hu => by
          have := hHlt u hu
          omega
        have f4 : ∀ u ∈ L, G u ≠ s.mSSkel.halfedgeNext + 1 := fun u hu => by
          have := hGlt u hu
          omega
        refine ⟨?_, ?_, ?_, ?_⟩
        · rw [(b3 (H v) (by omega)).2.2.2.2.1 (fun u hu => (hHne u hu).symm),
            (a3 (H v) vh).2.2.2.2.1, if_pos rfl]
          simp only [Nat.mul_zero, Nat.add_zero]
        · rw [(b3 (G v) (by omega)).2.2.2.2.2 (fun u hu => (hGne u hu).symm),
            (a3 (G v) vg).2.2.2.2.2, if_pos rfl]
        · obtain ⟨c1, c2, c3, c4, c5, c6⟩ := b3 _ e1
          have := Halfedge_eq_of_fields _ _ c4 c3 (c5 f1) (c6 f2) c1 c2
          simp only [Nat.mul_zero, Nat.add_zero]
          rw [this, a4]
        · obtain ⟨c1, c2, c3, c4, c5, c6⟩ := b3 _ e2
          have := Halfedge_eq_of_fields _ _ c4 c3 (c5 f3) (c6 f4) c1 c2
          simp only [Nat.mul_zero, Nat.add_zero]
          rw [this, a5]
      | succ k =>
        have hk' : L.get? k = some u := by simpa using hk
        have hu : u ∈ L := List.get?_mem hk'
        obtain ⟨g1, g2, g3, g4⟩ := b4 k u hk'
        have r1 : (s.CreateContourBisector tr (some v)).mSSkel.halfedgeNext + 2 * k
            = s.mSSkel.halfedgeNext + 2 * (k + 1) := by rw [a1]; omega
        have r2 : (s.CreateContourBisector tr (some v)).mEdgeID + 2 * k
            = s.mEdgeID + 2 * (k + 1) := by rw [a2]; omega
        rw [r1] at g1 g2 g3 g4
        rw [r2] at g3 g4
        rw [(a3 (H u) (hHlt u hu)).1] at g3
        rw [(a3 (G u) (hGlt u hu)).1] at g4
        exact ⟨g1, g2, g3, g4⟩

theorem CreateContourBisectors_reflex_witness :
    (exContour.CreateContourBisectors exReflexTraits).IsReflex (some 2) = true
    ∧ (exContour.CreateContourBisectors exReflexTraits).GetNextInLAV (some 2) = some 3 :=
  have h := CreateContourBisectors_reflex exReflexTraits exContour (by decide) (by decide) 2
    (by decide)
  ⟨h.2.2.2.2.1 rfl, h.2.1⟩

/-- C23: `CreateContourBisectors` over different vertices, where vertex `v` has the contour
halfedge `H v` followed by the contour halfedge `G v` on entry (different vertices having
different ones), gives the `k`-th vertex `v` the pair of new halfedges
`OB = n + 2 * k`, `IB = n + 2 * k + 1`, twins of each other, with the ids `m + 2 * k` and
`m + 2 * k + 1` for `m` the edge counter on entry (`m + 2 * k` is the edge counter on entry to
the iteration of `v`). Afterwards `next (H v) = OB`, `prev OB = H v`, `next IB = G v`,
`prev (G v) = IB`, `face OB = face (H v)`, `face IB = face (G v)`, `IB` ends at `v`, and `OB`
has no vertex and no next halfedge. -/
theorem CreateContourBisectors_bisectors (tr : Traits) (s : Builder) (H G : Nat → Nat)
    (hnd : s.mSSkel.vertexList.Nodup)
    (hHG : ∀ v ∈ s.mSSkel.vertexList, s.halfedge (some v) = some (H v)
      ∧ s.next (some (H v)) = some (G v)
      ∧ H v < s.mSSkel.halfedgeNext ∧ G v < s.mSSkel.halfedgeNext)
    (hHi : ∀ u ∈ s.mSSkel.vertexList, ∀ v ∈ s.mSSkel.vertexList, H u = H v → u = v)
    (hGi : ∀ u ∈ s.mSSkel.vertexList, ∀ v ∈ s.mSSkel.vertexList, G u = G v → u = v) :
    (s.CreateContourBisectors tr).mSSkel.halfedgeNext
        = s.mSSkel.halfedgeNext + 2 * s.mSSkel.vertexList.length
    ∧ ∀ k v, s.mSSkel.vertexList.get? k = some v →
      ((s.mSSkel.vertexList.take k).foldl
          (fun st u => st.CreateContourBisector tr (some u)) s).mEdgeID = s.mEdgeID + 2 * k
      ∧ ((s.CreateContourBisectors tr).he (some (s.mSSkel.halfedgeNext + 2 * k))).id
          = s.mEdgeID + 2 * k
      ∧ ((s.CreateContourBisectors tr).he (some (s.mSSkel.halfedgeNext + 2 * k + 1))).id
          = s.mEdgeID + 2 * k + 1
      ∧ (s.CreateContourBisectors tr).opposite (some (s.mSSkel.halfedgeNext + 2 * k))
          = some (s.mSSkel.halfedgeNext + 2 * k + 1)
      ∧ (s.CreateContourBisectors tr).opposite (some (s.mSSkel.halfedgeNext + 2 * k + 1))
          = some (s.mSSkel.halfedgeNext + 2 * k)
      ∧ (s.CreateContourBisectors tr).next (some (H v))
          = some (s.mSSkel.halfedgeNext + 2 * k)
      ∧ (s.CreateContourBisectors tr).prev (some (s.mSSkel.halfedgeNext + 2 * k))
          = some (H v)
      ∧ (s.CreateContourBisectors tr).next (some (s.mSSkel.halfedgeNext + 2 * k + 1))
          = some (G v)
      ∧ (s.CreateContourBisectors tr).prev (some (G v))
          = some (s.mSSkel.halfedgeNext + 2 * k + 1)
      ∧ (s.CreateContourBisectors tr).face (some (s.mSSkel.halfedgeNext + 2 * k))
          = (s.CreateContourBisectors tr).face (some (H v))
      ∧ (s.CreateContourBisectors tr).face (some (s.mSSkel.halfedgeNext + 2 * k + 1))
          = (s.CreateContourBisectors tr).face (some (G v))
      ∧ (s.CreateContourBisectors tr).vertex (some (s.mSSkel.halfedgeNext + 2 * k + 1))
          = some v
      ∧ (s.CreateContourBisectors tr).vertex (some (s.mSSkel.halfedgeNext + 2 * k)) = none
      ∧ (s.CreateContourBisectors tr).next (some (s.mSSkel.halfedgeNext + 2 * k)) = none := by
  obtain ⟨b1, -, b3, b4⟩ := CreateContourBisectors_graph tr H G s.mSSkel.vertexList s hnd hHG
    hHi hGi
  refine ⟨b1, fun k v hk => ?_⟩
  have hv : v ∈ s.mSSkel.vertexList := List.get?_mem hk
  have hklt : k < s.mSSkel.vertexList.length := by
    rcases Nat.lt_or_ge k s.mSSkel.vertexList.length with h | h
    · exact h
    · rw [List.get?_eq_none.2 h] at hk
      exact absurd hk (by simp)
  obtain ⟨g1, g2, g3, g4⟩ := b4 k v hk
  have hT := (CreateContourBisectors_graph tr H G (s.mSSkel.vertexList.take k) s
    (hnd.sublist (List.take_sublist _ _))
    (fun u hu => hHG u (List.mem_of_mem_take hu))
    (fun u hu w hw => hHi u (List.mem_of_mem_take hu) w (List.mem_of_mem_take hw))
    (fun u hu w hw => hGi u (List.mem_of_mem_take hu) w (List.mem_of_mem_take hw))).2.1
  rw [List.length_take, Nat.min_eq_left (Nat.le_of_lt hklt)] at hT
  have fH := (b3 (H v) (hHG v hv).2.2.1).1
  have fG := (b3 (G v) (hHG v hv).2.2.2).1
  have e3 : (s.CreateContourBisectors tr).he (some (s.mSSkel.halfedgeNext + 2 * k)) = _ := g3
  have e4 : (s.CreateContourBisectors tr).he (some (s.mSSkel.halfedgeNext + 2 * k + 1)) = _ :=
    g4
  refine ⟨hT, ?_, ?_, ?_, ?_, g1, ?_, ?_, g2, ?_, ?_, ?_, ?_, ?_⟩
  · rw [e3]
  · rw [e4]
  · show ((s.CreateContourBisectors tr).he _).opposite = _
    rw [e3]
  · show ((s.CreateContourBisectors tr).he _).opposite = _
    rw [e4]
  · show ((s.CreateContourBisectors tr).he _).prev = _
    rw [e3]
  · show ((s.CreateContourBisectors tr).he _).next = _
    rw [e4]
  · show ((s.CreateContourBisectors tr).he _).face = ((s.CreateContourBisectors tr).he _).face
    rw [e3]
    exact fH.symm
  · show ((s.CreateContourBisectors tr).he _).face = ((s.CreateContourBisectors tr).he _).face
    rw [e4]
    exact fG.symm
  · show ((s.CreateContourBisectors tr).he _).vertex = _
    rw [e4]
  · show ((s.CreateContourBisectors tr).he _).vertex = _
    rw [e3]
  · show ((s.CreateContourBisectors tr).he _).next = _
    rw [e3]

theorem CreateContourBisectors_bisectors_witness :
    (exContour.CreateContourBisectors (exTraits true false true)).next (some 2) = some 12
    ∧ (exContour.CreateContourBisectors (exTraits true false true)).prev (some 3) = some 13
    ∧ (exContour.CreateContourBisectors (exTraits true false true)).vertex (some 13) = some 2
    ∧ (exContour.CreateContourBisectors (exTraits true false true)).next (some 12) = none :=
  have h := (CreateContourBisectors_bisectors (exTraits true false true) exContour
    (fun v => v) (fun v => (v + 1) % 4) (by decide) (by decide) (by decide) (by decide)).2
    2 2 rfl
  ⟨h.2.2.2.2.2.1, h.2.2.2.2.2.2.2.2.1, h.2.2.2.2.2.2.2.2.2.2.2.1, h.2.2.2.2.2.2.2.2.2.2.2.2.2⟩

/-- The halfedges of `exQuad` are the ones `CreateContourBisectors` makes from `exContour`. -/
theorem CreateContourBisectors_exContour :
    ∀ j < 16, (exContour.CreateContourBisectors (exTraits true false true)).he (some j)
      = exQuad.he (some j) := by decide

/-! ## Finalization: merging the twin nodes -/

theorem retarget_he (s : Builder) (h : Halfedge_handle) (L R : Vertex_handle) (j : Nat) :
    (s.retarget h L R).he (some j)
      = if h = some j ∧ (s.he (some j)).vertex = R then { s.he (some j) with vertex := L }
        else s.he (some j) := by
  unfold Builder.retarget
  by_cases hj : h = some j
  · subst hj
    by_cases hv : (s.he (some j)).vertex = R
    · have hv' : s.vertex (some j) = R := hv
      rw [if_pos hv', if_pos (And.intro rfl hv)]
      simp only [Builder.set_vertex, he_updHalfedge, ↓reduceIte]
    · have hv' : ¬ s.vertex (some j) = R := hv
      have hc : ¬ (some j = some j ∧ (s.he (some j)).vertex = R) := fun c => hv c.2
      rw [if_neg hv', if_neg hc]
  · have hc : ¬ (h = some j ∧ (s.he (some j)).vertex = R) := fun c => hj c.1
    rw [if_neg hc]
    by_cases hv : s.vertex h = R
    · rw [if_pos hv]
      simp only [Builder.set_vertex, he_updHalfedge, hj, ↓reduceIte]
    · rw [if_neg hv]

theorem retarget_frame (s : Builder) (h : Halfedge_handle) (L R : Vertex_handle) :
    (s.retarget h L R).mSSkel.vertexList = s.mSSkel.vertexList
    ∧ (s.retarget h L R).mSSkel.halfedgeNext = s.mSSkel.halfedgeNext
    ∧ (s.retarget h L R).mSSkel.vertices = s.mSSkel.vertices := by
  unfold Builder.retarget
  split
  · exact ⟨rfl, rfl, rfl⟩
  · exact ⟨rfl, rfl, rfl⟩

theorem he_vertices_erase (s : Builder) (v : Vertex_handle) (x : Halfedge_handle) :
    (s.vertices_erase v).he x = s.he x := by
  cases v <;> rfl

theorem retarget_four (s : Builder) (a b c d : Halfedge_handle) (L R : Vertex_handle)
    (hLR : L ≠ R) (j : Nat) :
    ((((s.retarget a L R).retarget b L R).retarget c L R).retarget d L R).he (some j)
      = if (a = some j ∨ b = some j ∨ c = some j ∨ d = some j) ∧ (s.he (some j)).vertex = R
        then { s.he (some j) with vertex := L } else s.he (some j) := by
  simp only [retarget_he]
  by_cases hv : (s.he (some j)).vertex = R
  · by_cases h1 : a = some j <;> by_cases h2 : b = some j <;> by_cases h3 : c = some j <;>
      by_cases h4 : d = some j <;>
      simp only [h1, h2, h3, h4, hv, hLR, true_and, false_and, and_true, and_false,
        or_true, true_or, or_self, or_false, false_or, ↓reduceIte]
  · simp only [hv, and_false, ↓reduceIte]

/-- The halfedges after `MergeSplitNodes`: a halfedge of the fan that targets the right node
targets the left node, and nothing else changes. -/
theorem MergeSplitNodes_he (s : Builder) (L R : Vertex_handle) (hLR : L ≠ R) (j : Nat) :
    (s.MergeSplitNodes (L, R)).he (some j)
      = if some j ∈ s.splitNodesFan (L, R) ∧ (s.he (some j)).vertex = R
        then { s.he (some j) with vertex := L } else s.he (some j) := by
  have h := retarget_four s (s.opposite (s.primary_bisector L))
    (s.opposite (s.primary_bisector R))
    (s.opposite (s.next (s.opposite (s.primary_bisector L))))
    (s.opposite (s.next (s.opposite (s.primary_bisector R)))) L R hLR j
  have hm : some j ∈ s.splitNodesFan (L, R) ↔
      (s.opposite (s.primary_bisector L) = some j
        ∨ s.opposite (s.primary_bisector R) = some j
        ∨ s.opposite (s.next (s.opposite (s.primary_bisector L))) = some j
        ∨ s.opposite (s.next (s.opposite (s.primary_bisector R))) = some j) := by
    unfold Builder.splitNodesFan
    simp only [List.mem_cons, List.mem_singleton, List.not_mem_nil, or_false]
    constructor
    · rintro (h | h | h | h)
      · exact Or.inl h.symm
      · exact Or.inr (Or.inl h.symm)
      · exact Or.inr (Or.inr (Or.inl h.symm))
      · exact Or.inr (Or.inr (Or.inr h.symm))
    · rintro (h | h | h | h)
      · exact Or.inl h.symm
      · exact Or.inr (Or.inl h.symm)
      · exact Or.inr (Or.inr (Or.inl h.symm))
      · exact Or.inr (Or.inr (Or.inr h.symm))
  have hL : (s.MergeSplitNodes (L, R)).he (some j)
      = ((((s.retarget (s.opposite (s.primary_bisector L)) L R).retarget
          (s.opposite (s.primary_bisector R)) L R).retarget
          (s.opposite (s.next (s.opposite (s.primary_bisector L)))) L R).retarget
          (s.opposite (s.next (s.opposite (s.primary_bisector R)))) L R).he (some j) := by
    unfold Builder.MergeSplitNodes
    exact he_vertices_erase _ _ _
  rw [hL, h]
  exact if_congr (and_congr hm.symm Iff.rfl) rfl rfl

theorem MergeSplitNodes_frame (s : Builder) (L : Vertex_handle) (R : Nat) :
    (s.MergeSplitNodes (L, some R)).mSSkel.vertexList = s.mSSkel.vertexList.erase R
    ∧ (s.MergeSplitNodes (L, some R)).mSSkel.halfedgeNext = s.mSSkel.halfedgeNext := by
  unfold Builder.MergeSplitNodes
  simp only [Builder.vertices_erase, retarget_frame, and_self]

/-- The fan of `t` is the fan of `W` when the links around the two nodes are the same. -/
theorem splitNodesFan_congr (W t : Builder) (p : Vertex_handle × Vertex_handle)
    (h : W.sameTwinLinks t p) : t.splitNodesFan p = W.splitNodesFan p := by
  obtain ⟨h1, h2, h3, h4, h5, h6, h7, h8, h9, h10⟩ := h
  have pL : t.primary_bisector p.1 = W.primary_bisector p.1 := by
    unfold Builder.primary_bisector
    rw [h1, h3]
  have pR : t.primary_bisector p.2 = W.primary_bisector p.2 := by
    unfold Builder.primary_bisector
    rw [h2, h4]
  unfold Builder.splitNodesFan
  simp only [pL, pR, h5, h6, h7, h8, h9, h10]

/-- The twin nodes of a split event, once wired: the halfedges of the two nodes, the links
from them to the twins of their primary bisectors, and the targets of all halfedges. -/
theorem SplitEventWiring_twins (s : Builder) (e : EventPtr) (aOppR : Vertex_handle)
    (sd hs xo : Nat)
    (hS : (s.ev e).seed0 = some sd) (hsd : sd < s.mSSkel.vertexNext)
    (hH : s.halfedge (some sd) = some hs) (hXO : s.next (some hs) = some xo)
    (hhs : hs < s.mSSkel.halfedgeNext) (hxo : xo < s.mSSkel.halfedgeNext) :
    (s.SplitEventWiring e aOppR).mSSkel.halfedgeNext = s.mSSkel.halfedgeNext + 4
    ∧ (s.SplitEventWiring e aOppR).opposite
        ((s.SplitEventWiring e aOppR).primary_bisector (some s.mSSkel.vertexNext))
        = some (s.mSSkel.halfedgeNext + 1)
    ∧ (s.SplitEventWiring e aOppR).opposite
        ((s.SplitEventWiring e aOppR).primary_bisector (some (s.mSSkel.vertexNext + 1)))
        = some (s.mSSkel.halfedgeNext + 3)
    ∧ (∀ j, ((s.SplitEventWiring e aOppR).he (some j)).vertex
        = if j = s.mSSkel.halfedgeNext + 1 ∨ j = s.mSSkel.halfedgeNext + 3
            then some (s.mSSkel.vertexNext + 1)
          else if j = s.mSSkel.halfedgeNext ∨ j = s.mSSkel.halfedgeNext + 2 then none
          else if j = xo then some s.mSSkel.vertexNext
          else (s.he (some j)).vertex) := by
  simp only [Builder.next, Builder.opposite, Builder.halfedge] at hH hXO
  have hhe := ConstructSplitEventNodes_he s e aOppR sd hs xo hS hsd hH hXO
  obtain ⟨hv1, hv2, hv3⟩ := ConstructSplitEventNodes_vtx s e aOppR sd hs xo hS hsd hH hXO
  have e1 : sd ≠ s.mSSkel.vertexNext := by omega
  have e2 : sd ≠ s.mSSkel.vertexNext + 1 := by omega
  have hvs := hv3 sd e1 e2
  have v1 : s.mSSkel.vertexNext ≠ s.mSSkel.vertexNext + 1 := by omega
  have a1 : hs ≠ s.mSSkel.halfedgeNext := by omega
  have a2 : hs ≠ s.mSSkel.halfedgeNext + 1 := by omega
  have a3 : hs ≠ s.mSSkel.halfedgeNext + 2 := by omega
  have a4 : hs ≠ s.mSSkel.halfedgeNext + 2 + 1 := by omega
  have b1 : xo ≠ s.mSSkel.halfedgeNext := by omega
  have b2 : xo ≠ s.mSSkel.halfedgeNext + 1 := by omega
  have b3 : xo ≠ s.mSSkel.halfedgeNext + 2 := by omega
  have b4 : xo ≠ s.mSSkel.halfedgeNext + 2 + 1 := by omega
  have k1 : s.mSSkel.halfedgeNext ≠ s.mSSkel.halfedgeNext + 2 + 1 := by omega
  have k2 : s.mSSkel.halfedgeNext + 1 ≠ s.mSSkel.halfedgeNext + 2 + 1 := by omega
  have k3 : s.mSSkel.halfedgeNext + 1 ≠ s.mSSkel.halfedgeNext + 2 := by omega
  have k7 : s.mSSkel.halfedgeNext ≠ s.mSSkel.halfedgeNext + 2 := by omega
  have k8 : s.mSSkel.halfedgeNext ≠ s.mSSkel.halfedgeNext + 1 := by omega
  have k9 : s.mSSkel.halfedgeNext + 2 ≠ s.mSSkel.halfedgeNext + 2 + 1 := by omega
  have hN : (s.ConstructSplitEventNodes e aOppR).2
      = (some s.mSSkel.vertexNext, some (s.mSSkel.vertexNext + 1)) := rfl
  have hk : (s.ConstructSplitEventNodes e aOppR).1.mSSkel.halfedgeNext
      = s.mSSkel.halfedgeNext := rfl
  have hev : ∀ x, (s.ConstructSplitEventNodes e aOppR).1.ev x = s.ev x := fun _ => rfl
  refine ⟨rfl, ?_, ?_, ?_⟩
  · simp only [Builder.SplitEventWiring,
      Builder.set_vertex, Builder.set_halfedge, Builder.set_next, Builder.set_prev,
      Builder.set_face,
      Builder.primary_bisector, Builder.next, Builder.prev, Builder.opposite, Builder.face,
      Builder.halfedge, Builder.face_halfedge, Builder.vertex,
      he_updVertex, he_updWrap, he_wrapped_push_back, he_SLAV_push_back, he_SLAV_remove, he_vertices_push_back, he_with_mVertexID, he_with_mEdgeID, he_with_mSplitNodes, vtx_updHalfedge, vtx_updWrap, vtx_wrapped_push_back, vtx_SLAV_push_back, vtx_SLAV_remove, vtx_edges_push_back, vtx_with_mVertexID, vtx_with_mEdgeID, vtx_with_mSplitNodes, fc_updHalfedge, fc_updVertex, fc_updWrap, fc_wrapped_push_back, fc_SLAV_push_back, fc_SLAV_remove, fc_vertices_push_back, fc_edges_push_back, fc_with_mVertexID, fc_with_mEdgeID, fc_with_mSplitNodes, ev_updHalfedge, ev_updVertex, ev_updWrap, ev_wrapped_push_back, ev_SLAV_push_back, ev_SLAV_remove, ev_vertices_push_back, ev_edges_push_back, ev_with_mVertexID, ev_with_mEdgeID, ev_with_mSplitNodes, he_updHalfedge, he_edges_push_back, vtx_updVertex, vtx_vertices_push_back, edges_push_back_snd, edges_push_back_halfedgeNext, hN, hk, hev, hhe,
      hv1, hv2, hvs,
      hS, hH, hXO, e1, e2, Ne.symm e1, Ne.symm e2, v1, Ne.symm v1,
      a1, a2, a3, a4, b1, b2, b3, b4,
      k1, k2, k3, k7, k8, k9, Ne.symm k1, Ne.symm k2, Ne.symm k3,
      Ne.symm k7, Ne.symm k8, Ne.symm k9,
      Ne.symm a1, Ne.symm a2, Ne.symm a3, Ne.symm a4,
      Ne.symm b1, Ne.symm b2, Ne.symm b3, Ne.symm b4,
      apply_ite Halfedge.next, apply_ite Halfedge.prev, apply_ite Halfedge.vertex,
      apply_ite Halfedge.face, apply_ite Halfedge.opposite, apply_ite Vertex.halfedge,
      ↓reduceIte, Option.some.injEq, reduceCtorEq, ite_self, Halfedge.mk1, ne_eq,
      not_false_eq_true, and_self, Vertex.mk3]
  · simp only [Builder.SplitEventWiring,
      Builder.set_vertex, Builder.set_halfedge, Builder.set_next, Builder.set_prev,
      Builder.set_face,
      Builder.primary_bisector, Builder.next, Builder.prev, Builder.opposite, Builder.face,
      Builder.halfedge, Builder.face_halfedge, Builder.vertex,
      he_updVertex, he_updWrap, he_wrapped_push_back, he_SLAV_push_back, he_SLAV_remove, he_vertices_push_back, he_with_mVertexID, he_with_mEdgeID, he_with_mSplitNodes, vtx_updHalfedge, vtx_updWrap, vtx_wrapped_push_back, vtx_SLAV_push_back, vtx_SLAV_remove, vtx_edges_push_back, vtx_with_mVertexID, vtx_with_mEdgeID, vtx_with_mSplitNodes, fc_updHalfedge, fc_updVertex, fc_updWrap, fc_wrapped_push_back, fc_SLAV_push_back, fc_SLAV_remove, fc_vertices_push_back, fc_edges_push_back, fc_with_mVertexID, fc_with_mEdgeID, fc_with_mSplitNodes, ev_updHalfedge, ev_updVertex, ev_updWrap, ev_wrapped_push_back, ev_SLAV_push_back, ev_SLAV_remove, ev_vertices_push_back, ev_edges_push_back, ev_with_mVertexID, ev_with_mEdgeID, ev_with_mSplitNodes, he_updHalfedge, he_edges_push_back, vtx_updVertex, vtx_vertices_push_back, edges_push_back_snd, edges_push_back_halfedgeNext, hN, hk, hev, hhe,
      hv1, hv2, hvs,
      hS, hH, hXO, e1, e2, Ne.symm e1, Ne.symm e2, v1, Ne.symm v1,
      a1, a2, a3, a4, b1, b2, b3, b4,
      k1, k2, k3, k7, k8, k9, Ne.symm k1, Ne.symm k2, Ne.symm k3,
      Ne.symm k7, Ne.symm k8, Ne.symm k9,
      Ne.symm a1, Ne.symm a2, Ne.symm a3, Ne.symm a4,
      Ne.symm b1, Ne.symm b2, Ne.symm b3, Ne.symm b4,
      apply_ite Halfedge.next, apply_ite Halfedge.prev, apply_ite Halfedge.vertex,
      apply_ite Halfedge.face, apply_ite Halfedge.opposite, apply_ite Vertex.halfedge,
      ↓reduceIte, Option.some.injEq, reduceCtorEq, ite_self, Halfedge.mk1, ne_eq,
      not_false_eq_true, and_self, Vertex.mk3]
  · intro j
    simp only [Builder.SplitEventWiring,
      Builder.set_vertex, Builder.set_halfedge, Builder.set_next, Builder.set_prev,
      Builder.set_face,
      Builder.primary_bisector, Builder.next, Builder.prev, Builder.opposite, Builder.face,
      Builder.halfedge, Builder.face_halfedge, Builder.vertex,
      he_updVertex, he_updWrap, he_wrapped_push_back, he_SLAV_push_back, he_SLAV_remove, he_vertices_push_back, he_with_mVertexID, he_with_mEdgeID, he_with_mSplitNodes, vtx_updHalfedge, vtx_updWrap, vtx_wrapped_push_back, vtx_SLAV_push_back, vtx_SLAV_remove, vtx_edges_push_back, vtx_with_mVertexID, vtx_with_mEdgeID, vtx_with_mSplitNodes, fc_updHalfedge, fc_updVertex, fc_updWrap, fc_wrapped_push_back, fc_SLAV_push_back, fc_SLAV_remove, fc_vertices_push_back, fc_edges_push_back, fc_with_mVertexID, fc_with_mEdgeID, fc_with_mSplitNodes, ev_updHalfedge, ev_updVertex, ev_updWrap, ev_wrapped_push_back, ev_SLAV_push_back, ev_SLAV_remove, ev_vertices_push_back, ev_edges_push_back, ev_with_mVertexID, ev_with_mEdgeID, ev_with_mSplitNodes, he_updHalfedge, he_edges_push_back, vtx_updVertex, vtx_vertices_push_back, edges_push_back_snd, edges_push_back_halfedgeNext, hN, hk, hev, hhe,
      hv1, hv2, hvs,
      hS, hH, hXO, e1, e2, Ne.symm e1, Ne.symm e2, v1, Ne.symm v1,
      a1, a2, a3, a4, b1, b2, b3, b4,
      k1, k2, k3, k7, k8, k9, Ne.symm k1, Ne.symm k2, Ne.symm k3,
      Ne.symm k7, Ne.symm k8, Ne.symm k9,
      Ne.symm a1, Ne.symm a2, Ne.symm a3, Ne.symm a4,
      Ne.symm b1, Ne.symm b2, Ne.symm b3, Ne.symm b4,
      apply_ite Halfedge.next, apply_ite Halfedge.prev, apply_ite Halfedge.vertex,
      apply_ite Halfedge.face, apply_ite Halfedge.opposite, apply_ite Vertex.halfedge,
      ↓reduceIte, Option.some.injEq, reduceCtorEq, ite_self, Halfedge.mk1, ne_eq,
      not_false_eq_true, and_self, Vertex.mk3]
    split_ifs <;> first | rfl | omega

/-- The opposite links are the same after `ConstructVertexEventNodes`. -/
theorem ConstructVertexEventNodes_opposite (s : Builder) (e : EventPtr) (j : Nat) :
    ((s.ConstructVertexEventNodes e).1.he (some j)).opposite = (s.he (some j)).opposite := by
  simp only [Builder.ConstructVertexEventNodes, Builder.set_vertex, Builder.set_halfedge,
    Builder.set_next, Builder.set_prev,
    Builder.SetIsProcessed, Builder.SetPrevInLAV, Builder.SetNextInLAV,
    he_updVertex, he_updWrap, he_wrapped_push_back, he_SLAV_push_back, he_SLAV_remove, he_vertices_push_back, he_with_mVertexID, he_with_mEdgeID, he_with_mSplitNodes, vtx_updHalfedge, vtx_updWrap, vtx_wrapped_push_back, vtx_SLAV_push_back, vtx_SLAV_remove, vtx_edges_push_back, vtx_with_mVertexID, vtx_with_mEdgeID, vtx_with_mSplitNodes, fc_updHalfedge, fc_updVertex, fc_updWrap, fc_wrapped_push_back, fc_SLAV_push_back, fc_SLAV_remove, fc_vertices_push_back, fc_edges_push_back, fc_with_mVertexID, fc_with_mEdgeID, fc_with_mSplitNodes, ev_updHalfedge, ev_updVertex, ev_updWrap, ev_wrapped_push_back, ev_SLAV_push_back, ev_SLAV_remove, ev_vertices_push_back, ev_edges_push_back, ev_with_mVertexID, ev_with_mEdgeID, ev_with_mSplitNodes, he_updHalfedge, he_edges_push_back, vtx_updVertex, vtx_vertices_push_back, apply_ite Halfedge.opposite, ite_self]

/-- The twin nodes of a vertex event, once wired: the links from the two nodes to the
halfedges of the fan that target the right node, and the targets of all halfedges. -/
theorem VertexEventWiring_twins (s : Builder) (e : EventPtr) (l r i1 i2 lo ro ri : Nat)
    (hL : (s.ev e).seed0 = some l) (hR : (s.ev e).seed1 = some r)
    (hl : l < s.mSSkel.vertexNext) (hr : r < s.mSSkel.vertexNext)
    (hH1 : s.halfedge (some l) = some i1) (hLO : s.next (some i1) = some lo)
    (hH2 : s.halfedge (some r) = some i2) (hRO : s.next (some i2) = some ro)
    (hRI : s.opposite (some ro) = some ri) (hinv : s.opposite (some ri) = some ro)
    (hi1 : i1 < s.mSSkel.halfedgeNext) (hi2 : i2 < s.mSSkel.halfedgeNext)
    (hlo : lo < s.mSSkel.halfedgeNext) (hro : ro < s.mSSkel.halfedgeNext)
    (hri : ri < s.mSSkel.halfedgeNext)
    (hne : lo ≠ ro)
    (j1 : lo ≠ i1) (j2 : ro ≠ i1) (j3 : lo ≠ i2) (j4 : ro ≠ i2) :
    (s.VertexEventWiring e).mSSkel.halfedgeNext = s.mSSkel.halfedgeNext + 4
    ∧ (s.VertexEventWiring e).opposite
        ((s.VertexEventWiring e).primary_bisector (some (s.mSSkel.vertexNext + 1)))
        = some (s.mSSkel.halfedgeNext + 3)
    ∧ (s.VertexEventWiring e).opposite ((s.VertexEventWiring e).next
        ((s.VertexEventWiring e).opposite
          ((s.VertexEventWiring e).primary_bisector (some s.mSSkel.vertexNext))))
        = some ro
    ∧ (∀ j, ((s.VertexEventWiring e).he (some j)).vertex
        = if j = s.mSSkel.halfedgeNext + 3 then some (s.mSSkel.vertexNext + 1)
          else if j = s.mSSkel.halfedgeNext + 1 then some s.mSSkel.vertexNext
          else if j = s.mSSkel.halfedgeNext ∨ j = s.mSSkel.halfedgeNext + 2 then none
          else if j = ro then some (s.mSSkel.vertexNext + 1)
          else if j = lo then some s.mSSkel.vertexNext
          else (s.he (some j)).vertex) := by
  simp only [Builder.next, Builder.opposite, Builder.halfedge] at hH1 hH2 hLO hRO hRI hinv
  obtain ⟨g1, g2, g3, g4, g5⟩ :=
    ConstructVertexEventNodes_graph s e l r i1 i2 lo ro hL hR hl hr hH1 hLO hH2 hRO
  have g6 := ConstructVertexEventNodes_opposite s e
  have e1 : l ≠ s.mSSkel.vertexNext := by omega
  have e2 : l ≠ s.mSSkel.vertexNext + 1 := by omega
  have e3 : r ≠ s.mSSkel.vertexNext := by omega
  have e4 : r ≠ s.mSSkel.vertexNext + 1 := by omega
  have gl := g3 l e1 e2
  have gr := g3 r e3 e4
  have n1 := g5 i1 j1 j2
  have n2 := g5 i2 j3 j4
  have v1 : s.mSSkel.vertexNext ≠ s.mSSkel.vertexNext + 1 := by omega
  have b1 : lo ≠ s.mSSkel.halfedgeNext := by omega
  have b2 : lo ≠ s.mSSkel.halfedgeNext + 1 := by omega
  have b3 : lo ≠ s.mSSkel.halfedgeNext + 2 := by omega
  have b4 : lo ≠ s.mSSkel.halfedgeNext + 2 + 1 := by omega
  have c1 : ro ≠ s.mSSkel.halfedgeNext := by omega
  have c2 : ro ≠ s.mSSkel.halfedgeNext + 1 := by omega
  have c3 : ro ≠ s.mSSkel.halfedgeNext + 2 := by omega
  have c4 : ro ≠ s.mSSkel.halfedgeNext + 2 + 1 := by omega
  have d1 : ri ≠ s.mSSkel.halfedgeNext := by omega
  have d2 : ri ≠ s.mSSkel.halfedgeNext + 1 := by omega
  have d3 : ri ≠ s.mSSkel.halfedgeNext + 2 := by omega
  have d4 : ri ≠ s.mSSkel.halfedgeNext + 2 + 1 := by omega
  have m1 : i1 ≠ s.mSSkel.halfedgeNext := by omega
  have m2 : i1 ≠ s.mSSkel.halfedgeNext + 1 := by omega
  have m3 : i1 ≠ s.mSSkel.halfedgeNext + 2 := by omega
  have m4 : i1 ≠ s.mSSkel.halfedgeNext + 2 + 1 := by omega
  have p1 : i2 ≠ s.mSSkel.halfedgeNext := by omega
  have p2 : i2 ≠ s.mSSkel.halfedgeNext + 1 := by omega
  have p3 : i2 ≠ s.mSSkel.halfedgeNext + 2 := by omega
  have p4 : i2 ≠ s.mSSkel.halfedgeNext + 2 + 1 := by omega
  have k1 : s.mSSkel.halfedgeNext ≠ s.mSSkel.halfedgeNext + 2 + 1 := by omega
  have k2 : s.mSSkel.halfedgeNext + 1 ≠ s.mSSkel.halfedgeNext + 2 + 1 := by omega
  have k3 : s.mSSkel.halfedgeNext + 1 ≠ s.mSSkel.halfedgeNext + 2 := by omega
  have k7 : s.mSSkel.halfedgeNext ≠ s.mSSkel.halfedgeNext + 2 := by omega
  have k8 : s.mSSkel.halfedgeNext ≠ s.mSSkel.halfedgeNext + 1 := by omega
  have k9 : s.mSSkel.halfedgeNext + 2 ≠ s.mSSkel.halfedgeNext + 2 + 1 := by omega
  have hN : (s.ConstructVertexEventNodes e).2
      = (some s.mSSkel.vertexNext, some (s.mSSkel.vertexNext + 1)) := rfl
  have hk : (s.ConstructVertexEventNodes e).1.mSSkel.halfedgeNext
      = s.mSSkel.halfedgeNext := rfl
  have hev : ∀ x, (s.ConstructVertexEventNodes e).1.ev x = s.ev x := fun _ => rfl
  refine ⟨rfl, ?_, ?_, ?_⟩
  · simp only [Builder.VertexEventWiring,
      Builder.set_vertex, Builder.set_halfedge, Builder.set_next, Builder.set_prev,
      Builder.set_face,
      Builder.primary_bisector, Builder.next, Builder.prev, Builder.opposite, Builder.face,
      Builder.halfedge, Builder.face_halfedge, Builder.vertex,
      he_updVertex, he_updWrap, he_wrapped_push_back, he_SLAV_push_back, he_SLAV_remove, he_vertices_push_back, he_with_mVertexID, he_with_mEdgeID, he_with_mSplitNodes, vtx_updHalfedge, vtx_updWrap, vtx_wrapped_push_back, vtx_SLAV_push_back, vtx_SLAV_remove, vtx_edges_push_back, vtx_with_mVertexID, vtx_with_mEdgeID, vtx_with_mSplitNodes, fc_updHalfedge, fc_updVertex, fc_updWrap, fc_wrapped_push_back, fc_SLAV_push_back, fc_SLAV_remove, fc_vertices_push_back, fc_edges_push_back, fc_with_mVertexID, fc_with_mEdgeID, fc_with_mSplitNodes, ev_updHalfedge, ev_updVertex, ev_updWrap, ev_wrapped_push_back, ev_SLAV_push_back, ev_SLAV_remove, ev_vertices_push_back, ev_edges_push_back, ev_with_mVertexID, ev_with_mEdgeID, ev_with_mSplitNodes, he_updHalfedge, he_edges_push_back, vtx_updVertex, vtx_vertices_push_back, edges_push_back_snd, edges_push_back_halfedgeNext, hN, hk, hev,
      g1, g2, g4, g6, gl, gr, n1, n2, hRI, hinv,
      hL, hR, hH1, hH2, hLO, hRO, e1, e2, e3, e4, Ne.symm e1, Ne.symm e2, Ne.symm e3,
      Ne.symm e4, v1, Ne.symm v1, hne, Ne.symm hne,
      j1, j2, j3, j4, Ne.symm j1, Ne.symm j2, Ne.symm j3, Ne.symm j4,
      b1, b2, b3, b4, c1, c2, c3, c4, m1, m2, m3, m4, p1, p2, p3, p4, d1, d2, d3, d4,
      Ne.symm b1, Ne.symm b2, Ne.symm b3, Ne.symm b4,
      Ne.symm c1, Ne.symm c2, Ne.symm c3, Ne.symm c4,
      Ne.symm d1, Ne.symm d2, Ne.symm d3, Ne.symm d4,
      Ne.symm m1, Ne.symm m2, Ne.symm m3, Ne.symm m4,
      Ne.symm p1, Ne.symm p2, Ne.symm p3, Ne.symm p4,
      k1, k2, k3, k7, k8, k9, Ne.symm k1, Ne.symm k2, Ne.symm k3,
      Ne.symm k7, Ne.symm k8, Ne.symm k9,
      apply_ite Halfedge.next, apply_ite Halfedge.prev, apply_ite Halfedge.vertex,
      apply_ite Halfedge.face, apply_ite Halfedge.opposite, apply_ite Vertex.halfedge,
      ↓reduceIte, Option.some.injEq, reduceCtorEq, ite_self, Halfedge.mk1, ne_eq,
      not_false_eq_true, and_self, Vertex.mk3]
  · simp only [Builder.VertexEventWiring,
      Builder.set_vertex, Builder.set_halfedge, Builder.set_next, Builder.set_prev,
      Builder.set_face,
      Builder.primary_bisector, Builder.next, Builder.prev, Builder.opposite, Builder.face,
      Builder.halfedge, Builder.face_halfedge, Builder.vertex,
      he_updVertex, he_updWrap, he_wrapped_push_back, he_SLAV_push_back, he_SLAV_remove, he_vertices_push_back, he_with_mVertexID, he_with_mEdgeID, he_with_mSplitNodes, vtx_updHalfedge, vtx_updWrap, vtx_wrapped_push_back, vtx_SLAV_push_back, vtx_SLAV_remove, vtx_edges_push_back, vtx_with_mVertexID, vtx_with_mEdgeID, vtx_with_mSplitNodes, fc_updHalfedge, fc_updVertex, fc_updWrap, fc_wrapped_push_back, fc_SLAV_push_back, fc_SLAV_remove, fc_vertices_push_back, fc_edges_push_back, fc_with_mVertexID, fc_with_mEdgeID, fc_with_mSplitNodes, ev_updHalfedge, ev_updVertex, ev_updWrap, ev_wrapped_push_back, ev_SLAV_push_back, ev_SLAV_remove, ev_vertices_push_back, ev_edges_push_back, ev_with_mVertexID, ev_with_mEdgeID, ev_with_mSplitNodes, he_updHalfedge, he_edges_push_back, vtx_updVertex, vtx_vertices_push_back, edges_push_back_snd, edges_push_back_halfedgeNext, hN, hk, hev,
      g1, g2, g4, g6, gl, gr, n1, n2, hRI, hinv,
      hL, hR, hH1, hH2, hLO, hRO, e1, e2, e3, e4, Ne.symm e1, Ne.symm e2, Ne.symm e3,
      Ne.symm e4, v1, Ne.symm v1, hne, Ne.symm hne,
      j1, j2, j3, j4, Ne.symm j1, Ne.symm j2, Ne.symm j3, Ne.symm j4,
      b1, b2, b3, b4, c1, c2, c3, c4, m1, m2, m3, m4, p1, p2, p3, p4, d1, d2, d3, d4,
      Ne.symm b1, Ne.symm b2, Ne.symm b3, Ne.symm b4,
      Ne.symm c1, Ne.symm c2, Ne.symm c3, Ne.symm c4,
      Ne.symm d1, Ne.symm d2, Ne.symm d3, Ne.symm d4,
      Ne.symm m1, Ne.symm m2, Ne.symm m3, Ne.symm m4,
      Ne.symm p1, Ne.symm p2, Ne.symm p3, Ne.symm p4,
      k1, k2, k3, k7, k8, k9, Ne.symm k1, Ne.symm k2, Ne.symm k3,
      Ne.symm k7, Ne.symm k8, Ne.symm k9,
      apply_ite Halfedge.next, apply_ite Halfedge.prev, apply_ite Halfedge.vertex,
      apply_ite Halfedge.face, apply_ite Halfedge.opposite, apply_ite Vertex.halfedge,
      ↓reduceIte, Option.some.injEq, reduceCtorEq, ite_self, Halfedge.mk1, ne_eq,
      not_false_eq_true, and_self, Vertex.mk3]
  · intro j
    have k10 : s.mSSkel.halfedgeNext + 2 + 1 = s.mSSkel.halfedgeNext + 3 := rfl
    by_cases q1 : j = s.mSSkel.halfedgeNext + 2 + 1
    · subst q1
      simp only [Builder.VertexEventWiring,
        Builder.set_vertex, Builder.set_halfedge, Builder.set_next, Builder.set_prev,
        Builder.set_face,
        Builder.primary_bisector, Builder.next, Builder.prev, Builder.opposite, Builder.face,
        Builder.halfedge, Builder.face_halfedge, Builder.vertex,
        he_updVertex, he_updWrap, he_wrapped_push_back, he_SLAV_push_back, he_SLAV_remove, he_vertices_push_back, he_with_mVertexID, he_with_mEdgeID, he_with_mSplitNodes, vtx_updHalfedge, vtx_updWrap, vtx_wrapped_push_back, vtx_SLAV_push_back, vtx_SLAV_remove, vtx_edges_push_back, vtx_with_mVertexID, vtx_with_mEdgeID, vtx_with_mSplitNodes, fc_updHalfedge, fc_updVertex, fc_updWrap, fc_wrapped_push_back, fc_SLAV_push_back, fc_SLAV_remove, fc_vertices_push_back, fc_edges_push_back, fc_with_mVertexID, fc_with_mEdgeID, fc_with_mSplitNodes, ev_updHalfedge, ev_updVertex, ev_updWrap, ev_wrapped_push_back, ev_SLAV_push_back, ev_SLAV_remove, ev_vertices_push_back, ev_edges_push_back, ev_with_mVertexID, ev_with_mEdgeID, ev_with_mSplitNodes, he_updHalfedge, he_edges_push_back, vtx_updVertex, vtx_vertices_push_back, edges_push_back_snd, edges_push_back_halfedgeNext, hN, hk, hev,
        g1, g2, g4, g6, gl, gr, n1, n2, hRI, hinv, k10,
        hL, hR, hH1, hH2, hLO, hRO, e1, e2, e3, e4, Ne.symm e1, Ne.symm e2, Ne.symm e3,
        Ne.symm e4, v1, Ne.symm v1, hne, Ne.symm hne,
        j1, j2, j3, j4, Ne.symm j1, Ne.symm j2, Ne.symm j3, Ne.symm j4,
        b1, b2, b3, b4, c1, c2, c3, c4, m1, m2, m3, m4, p1, p2, p3, p4, d1, d2, d3, d4,
        Ne.symm b1, Ne.symm b2, Ne.symm b3, Ne.symm b4,
        Ne.symm c1, Ne.symm c2, Ne.symm c3, Ne.symm c4,
        Ne.symm d1, Ne.symm d2, Ne.symm d3, Ne.symm d4,
        Ne.symm m1, Ne.symm m2, Ne.symm m3, Ne.symm m4,
        Ne.symm p1, Ne.symm p2, Ne.symm p3, Ne.symm p4,
        k1, k2, k3, k7, k8, k9, Ne.symm k1, Ne.symm k2, Ne.symm k3,
        Ne.symm k7, Ne.symm k8, Ne.symm k9,
        apply_ite Halfedge.next, apply_ite Halfedge.prev, apply_ite Halfedge.vertex,
        apply_ite Halfedge.face, apply_ite Halfedge.opposite, apply_ite Vertex.halfedge,
        ↓reduceIte, Option.some.injEq, reduceCtorEq, ite_self, Halfedge.mk1, ne_eq,
        not_false_eq_true, and_self, Vertex.mk3]
    by_cases q2 : j = s.mSSkel.halfedgeNext + 1
    · subst q2
      simp only [Builder.VertexEventWiring,
        Builder.set_vertex, Builder.set_halfedge, Builder.set_next, Builder.set_prev,
        Builder.set_face,
        Builder.primary_bisector, Builder.next, Builder.prev, Builder.opposite, Builder.face,
        Builder.halfedge, Builder.face_halfedge, Builder.vertex,
        he_updVertex, he_updWrap, he_wrapped_push_back, he_SLAV_push_back, he_SLAV_remove, he_vertices_push_back, he_with_mVertexID, he_with_mEdgeID, he_with_mSplitNodes, vtx_updHalfedge, vtx_updWrap, vtx_wrapped_push_back, vtx_SLAV_push_back, vtx_SLAV_remove, vtx_edges_push_back, vtx_with_mVertexID, vtx_with_mEdgeID, vtx_with_mSplitNodes, fc_updHalfedge, fc_updVertex, fc_updWrap, fc_wrapped_push_back, fc_SLAV_push_back, fc_SLAV_remove, fc_vertices_push_back, fc_edges_push_back, fc_with_mVertexID, fc_with_mEdgeID, fc_with_mSplitNodes, ev_updHalfedge, ev_updVertex, ev_updWrap, ev_wrapped_push_back, ev_SLAV_push_back, ev_SLAV_remove, ev_vertices_push_back, ev_edges_push_back, ev_with_mVertexID, ev_with_mEdgeID, ev_with_mSplitNodes, he_updHalfedge, he_edges_push_back, vtx_updVertex, vtx_vertices_push_back, edges_push_back_snd, edges_push_back_halfedgeNext, hN, hk, hev,
        g1, g2, g4, g6, gl, gr, n1, n2, hRI, hinv, k10,
        hL, hR, hH1, hH2, hLO, hRO, e1, e2, e3, e4, Ne.symm e1, Ne.symm e2, Ne.symm e3,
        Ne.symm e4, v1, Ne.symm v1, hne, Ne.symm hne,
        j1, j2, j3, j4, Ne.symm j1, Ne.symm j2, Ne.symm j3, Ne.symm j4,
        b1, b2, b3, b4, c1, c2, c3, c4, m1, m2, m3, m4, p1, p2, p3, p4, d1, d2, d3, d4,
        Ne.symm b1, Ne.symm b2, Ne.symm b3, Ne.symm b4,
        Ne.symm c1, Ne.symm c2, Ne.symm c3, Ne.symm c4,
        Ne.symm d1, Ne.symm d2, Ne.symm d3, Ne.symm d4,
        Ne.symm m1, Ne.symm m2, Ne.symm m3, Ne.symm m4,
        Ne.symm p1, Ne.symm p2, Ne.symm p3, Ne.symm p4,
        k1, k2, k3, k7, k8, k9, Ne.symm k1, Ne.symm k2, Ne.symm k3,
        Ne.symm k7, Ne.symm k8, Ne.symm k9,
        apply_ite Halfedge.next, apply_ite Halfedge.prev, apply_ite Halfedge.vertex,
        apply_ite Halfedge.face, apply_ite Halfedge.opposite, apply_ite Vertex.halfedge,
        ↓reduceIte, Option.some.injEq, reduceCtorEq, ite_self, Halfedge.mk1, ne_eq,
        not_false_eq_true, and_self, Vertex.mk3]
    by_cases q3 : j = s.mSSkel.halfedgeNext
    · subst q3
      simp only [Builder.VertexEventWiring,
        Builder.set_vertex, Builder.set_halfedge, Builder.set_next, Builder.set_prev,
        Builder.set_face,
        Builder.primary_bisector, Builder.next, Builder.prev, Builder.opposite, Builder.face,
        Builder.halfedge, Builder.face_halfedge, Builder.vertex,
        he_updVertex, he_updWrap, he_wrapped_push_back, he_SLAV_push_back, he_SLAV_remove, he_vertices_push_back, he_with_mVertexID, he_with_mEdgeID, he_with_mSplitNodes, vtx_updHalfedge, vtx_updWrap, vtx_wrapped_push_back, vtx_SLAV_push_back, vtx_SLAV_remove, vtx_edges_push_back, vtx_with_mVertexID, vtx_with_mEdgeID, vtx_with_mSplitNodes, fc_updHalfedge, fc_updVertex, fc_updWrap, fc_wrapped_push_back, fc_SLAV_push_back, fc_SLAV_remove, fc_vertices_push_back, fc_edges_push_back, fc_with_mVertexID, fc_with_mEdgeID, fc_with_mSplitNodes, ev_updHalfedge, ev_updVertex, ev_updWrap, ev_wrapped_push_back, ev_SLAV_push_back, ev_SLAV_remove, ev_vertices_push_back, ev_edges_push_back, ev_with_mVertexID, ev_with_mEdgeID, ev_with_mSplitNodes, he_updHalfedge, he_edges_push_back, vtx_updVertex, vtx_vertices_push_back, edges_push_back_snd, edges_push_back_halfedgeNext, hN, hk, hev,
        g1, g2, g4, g6, gl, gr, n1, n2, hRI, hinv, k10,
        hL, hR, hH1, hH2, hLO, hRO, e1, e2, e3, e4, Ne.symm e1, Ne.symm e2, Ne.symm e3,
        Ne.symm e4, v1, Ne.symm v1, hne, Ne.symm hne,
        j1, j2, j3, j4, Ne.symm j1, Ne.symm j2, Ne.symm j3, Ne.symm j4,
        b1, b2, b3, b4, c1, c2, c3, c4, m1, m2, m3, m4, p1, p2, p3, p4, d1, d2, d3, d4,
        Ne.symm b1, Ne.symm b2, Ne.symm b3, Ne.symm b4,
        Ne.symm c1, Ne.symm c2, Ne.symm c3, Ne.symm c4,
        Ne.symm d1, Ne.symm d2, Ne.symm d3, Ne.symm d4,
        Ne.symm m1, Ne.symm m2, Ne.symm m3, Ne.symm m4,
        Ne.symm p1, Ne.symm p2, Ne.symm p3, Ne.symm p4,
        k1, k2, k3, k7, k8, k9, Ne.symm k1, Ne.symm k2, Ne.symm k3,
        Ne.symm k7, Ne.symm k8, Ne.symm k9,
        apply_ite Halfedge.next, apply_ite Halfedge.prev, apply_ite Halfedge.vertex,
        apply_ite Halfedge.face, apply_ite Halfedge.opposite, apply_ite Vertex.halfedge,
        ↓reduceIte, Option.some.injEq, reduceCtorEq, ite_self, Halfedge.mk1, ne_eq,
        not_false_eq_true, and_self, Vertex.mk3]
      rfl
    by_cases q4 : j = s.mSSkel.halfedgeNext + 2
    · subst q4
      simp only [Builder.VertexEventWiring,
        Builder.set_vertex, Builder.set_halfedge, Builder.set_next, Builder.set_prev,
        Builder.set_face,
        Builder.primary_bisector, Builder.next, Builder.prev, Builder.opposite, Builder.face,
        Builder.halfedge, Builder.face_halfedge, Builder.vertex,
        he_updVertex, he_updWrap, he_wrapped_push_back, he_SLAV_push_back, he_SLAV_remove, he_vertices_push_back, he_with_mVertexID, he_with_mEdgeID, he_with_mSplitNodes, vtx_updHalfedge, vtx_updWrap, vtx_wrapped_push_back, vtx_SLAV_push_back, vtx_SLAV_remove, vtx_edges_push_back, vtx_with_mVertexID, vtx_with_mEdgeID, vtx_with_mSplitNodes, fc_updHalfedge, fc_updVertex, fc_updWrap, fc_wrapped_push_back, fc_SLAV_push_back, fc_SLAV_remove, fc_vertices_push_back, fc_edges_push_back, fc_with_mVertexID, fc_with_mEdgeID, fc_with_mSplitNodes, ev_updHalfedge, ev_updVertex, ev_updWrap, ev_wrapped_push_back, ev_SLAV_push_back, ev_SLAV_remove, ev_vertices_push_back, ev_edges_push_back, ev_with_mVertexID, ev_with_mEdgeID, ev_with_mSplitNodes, he_updHalfedge, he_edges_push_back, vtx_updVertex, vtx_vertices_push_back, edges_push_back_snd, edges_push_back_halfedgeNext, hN, hk, hev,
        g1, g2, g4, g6, gl, gr, n1, n2, hRI, hinv, k10,
        hL, hR, hH1, hH2, hLO, hRO, e1, e2, e3, e4, Ne.symm e1, Ne.symm e2, Ne.symm e3,
        Ne.symm e4, v1, Ne.symm v1, hne, Ne.symm hne,
        j1, j2, j3, j4, Ne.symm j1, Ne.symm j2, Ne.symm j3, Ne.symm j4,
        b1, b2, b3, b4, c1, c2, c3, c4, m1, m2, m3, m4, p1, p2, p3, p4, d1, d2, d3, d4,
        Ne.symm b1, Ne.symm b2, Ne.symm b3, Ne.symm b4,
        Ne.symm c1, Ne.symm c2, Ne.symm c3, Ne.symm c4,
        Ne.symm d1, Ne.symm d2, Ne.symm d3, Ne.symm d4,
        Ne.symm m1, Ne.symm m2, Ne.symm m3, Ne.symm m4,
        Ne.symm p1, Ne.symm p2, Ne.symm p3, Ne.symm p4,
        k1, k2, k3, k7, k8, k9, Ne.symm k1, Ne.symm k2, Ne.symm k3,
        Ne.symm k7, Ne.symm k8, Ne.symm k9,
        apply_ite Halfedge.next, apply_ite Halfedge.prev, apply_ite Halfedge.vertex,
        apply_ite Halfedge.face, apply_ite Halfedge.opposite, apply_ite Vertex.halfedge,
        ↓reduceIte, Option.some.injEq, reduceCtorEq, ite_self, Halfedge.mk1, ne_eq,
        not_false_eq_true, and_self, Vertex.mk3]
      rfl
    by_cases q5 : j = ro
    · subst q5
      simp only [Builder.VertexEventWiring,
        Builder.set_vertex, Builder.set_halfedge, Builder.set_next, Builder.set_prev,
        Builder.set_face,
        Builder.primary_bisector, Builder.next, Builder.prev, Builder.opposite, Builder.face,
        Builder.halfedge, Builder.face_halfedge, Builder.vertex,
        he_updVertex, he_updWrap, he_wrapped_push_back, he_SLAV_push_back, he_SLAV_remove, he_vertices_push_back, he_with_mVertexID, he_with_mEdgeID, he_with_mSplitNodes, vtx_updHalfedge, vtx_updWrap, vtx_wrapped_push_back, vtx_SLAV_push_back, vtx_SLAV_remove, vtx_edges_push_back, vtx_with_mVertexID, vtx_with_mEdgeID, vtx_with_mSplitNodes, fc_updHalfedge, fc_updVertex, fc_updWrap, fc_wrapped_push_back, fc_SLAV_push_back, fc_SLAV_remove, fc_vertices_push_back, fc_edges_push_back, fc_with_mVertexID, fc_with_mEdgeID, fc_with_mSplitNodes, ev_updHalfedge, ev_updVertex, ev_updWrap, ev_wrapped_push_back, ev_SLAV_push_back, ev_SLAV_remove, ev_vertices_push_back, ev_edges_push_back, ev_with_mVertexID, ev_with_mEdgeID, ev_with_mSplitNodes, he_updHalfedge, he_edges_push_back, vtx_updVertex, vtx_vertices_push_back, edges_push_back_snd, edges_push_back_halfedgeNext, hN, hk, hev,
        g1, g2, g4, g6, gl, gr, n1, n2, hRI, hinv, k10,
        hL, hR, hH1, hH2, hLO, hRO, e1, e2, e3, e4, Ne.symm e1, Ne.symm e2, Ne.symm e3,
        Ne.symm e4, v1, Ne.symm v1, hne, Ne.symm hne,
        j1, j2, j3, j4, Ne.symm j1, Ne.symm j2, Ne.symm j3, Ne.symm j4,
        b1, b2, b3, b4, c1, c2, c3, c4, m1, m2, m3, m4, p1, p2, p3, p4, d1, d2, d3, d4,
        Ne.symm b1, Ne.symm b2, Ne.symm b3, Ne.symm b4,
        Ne.symm c1, Ne.symm c2, Ne.symm c3, Ne.symm c4,
        Ne.symm d1, Ne.symm d2, Ne.symm d3, Ne.symm d4,
        Ne.symm m1, Ne.symm m2, Ne.symm m3, Ne.symm m4,
        Ne.symm p1, Ne.symm p2, Ne.symm p3, Ne.symm p4,
        k1, k2, k3, k7, k8, k9, Ne.symm k1, Ne.symm k2, Ne.symm k3,
        Ne.symm k7, Ne.symm k8, Ne.symm k9,
        apply_ite Halfedge.next, apply_ite Halfedge.prev, apply_ite Halfedge.vertex,
        apply_ite Halfedge.face, apply_ite Halfedge.opposite, apply_ite Vertex.halfedge,
        ↓reduceIte, Option.some.injEq, reduceCtorEq, ite_self, Halfedge.mk1, ne_eq,
        not_false_eq_true, and_self, Vertex.mk3]
      rfl
    by_cases q6 : j = lo
    · subst q6
      simp only [Builder.VertexEventWiring,
        Builder.set_vertex, Builder.set_halfedge, Builder.set_next, Builder.set_prev,
        Builder.set_face,
        Builder.primary_bisector, Builder.next, Builder.prev, Builder.opposite, Builder.face,
        Builder.halfedge, Builder.face_halfedge, Builder.vertex,
        he_updVertex, he_updWrap, he_wrapped_push_back, he_SLAV_push_back, he_SLAV_remove, he_vertices_push_back, he_with_mVertexID, he_with_mEdgeID, he_with_mSplitNodes, vtx_updHalfedge, vtx_updWrap, vtx_wrapped_push_back, vtx_SLAV_push_back, vtx_SLAV_remove, vtx_edges_push_back, vtx_with_mVertexID, vtx_with_mEdgeID, vtx_with_mSplitNodes, fc_updHalfedge, fc_updVertex, fc_updWrap, fc_wrapped_push_back, fc_SLAV_push_back, fc_SLAV_remove, fc_vertices_push_back, fc_edges_push_back, fc_with_mVertexID, fc_with_mEdgeID, fc_with_mSplitNodes, ev_updHalfedge, ev_updVertex, ev_updWrap, ev_wrapped_push_back, ev_SLAV_push_back, ev_SLAV_remove, ev_vertices_push_back, ev_edges_push_back, ev_with_mVertexID, ev_with_mEdgeID, ev_with_mSplitNodes, he_updHalfedge, he_edges_push_back, vtx_updVertex, vtx_vertices_push_back, edges_push_back_snd, edges_push_back_halfedgeNext, hN, hk, hev,
        g1, g2, g4, g6, gl, gr, n1, n2, hRI, hinv, k10,
        hL, hR, hH1, hH2, hLO, hRO, e1, e2, e3, e4, Ne.symm e1, Ne.symm e2, Ne.symm e3,
        Ne.symm e4, v1, Ne.symm v1, hne, Ne.symm hne,
        j1, j2, j3, j4, Ne.symm j1, Ne.symm j2, Ne.symm j3, Ne.symm j4,
        b1, b2, b3, b4, c1, c2, c3, c4, m1, m2, m3, m4, p1, p2, p3, p4, d1, d2, d3, d4,
        Ne.symm b1, Ne.symm b2, Ne.symm b3, Ne.symm b4,
        Ne.symm c1, Ne.symm c2, Ne.symm c3, Ne.symm c4,
        Ne.symm d1, Ne.symm d2, Ne.symm d3, Ne.symm d4,
        Ne.symm m1, Ne.symm m2, Ne.symm m3, Ne.symm m4,
        Ne.symm p1, Ne.symm p2, Ne.symm p3, Ne.symm p4,
        k1, k2, k3, k7, k8, k9, Ne.symm k1, Ne.symm k2, Ne.symm k3,
        Ne.symm k7, Ne.symm k8, Ne.symm k9,
        apply_ite Halfedge.next, apply_ite Halfedge.prev, apply_ite Halfedge.vertex,
        apply_ite Halfedge.face, apply_ite Halfedge.opposite, apply_ite Vertex.halfedge,
        ↓reduceIte, Option.some.injEq, reduceCtorEq, ite_self, Halfedge.mk1, ne_eq,
        not_false_eq_true, and_self, Vertex.mk3]
      rfl
    have q1b : j ≠ s.mSSkel.halfedgeNext + 3 := q1
    simp only [Builder.VertexEventWiring,
      Builder.set_vertex, Builder.set_halfedge, Builder.set_next, Builder.set_prev,
      Builder.set_face,
      Builder.primary_bisector, Builder.next, Builder.prev, Builder.opposite, Builder.face,
      Builder.halfedge, Builder.face_halfedge, Builder.vertex,
      he_updVertex, he_updWrap, he_wrapped_push_back, he_SLAV_push_back, he_SLAV_remove, he_vertices_push_back, he_with_mVertexID, he_with_mEdgeID, he_with_mSplitNodes, vtx_updHalfedge, vtx_updWrap, vtx_wrapped_push_back, vtx_SLAV_push_back, vtx_SLAV_remove, vtx_edges_push_back, vtx_with_mVertexID, vtx_with_mEdgeID, vtx_with_mSplitNodes, fc_updHalfedge, fc_updVertex, fc_updWrap, fc_wrapped_push_back, fc_SLAV_push_back, fc_SLAV_remove, fc_vertices_push_back, fc_edges_push_back, fc_with_mVertexID, fc_with_mEdgeID, fc_with_mSplitNodes, ev_updHalfedge, ev_updVertex, ev_updWrap, ev_wrapped_push_back, ev_SLAV_push_back, ev_SLAV_remove, ev_vertices_push_back, ev_edges_push_back, ev_with_mVertexID, ev_with_mEdgeID, ev_with_mSplitNodes, he_updHalfedge, he_edges_push_back, vtx_updVertex, vtx_vertices_push_back, edges_push_back_snd, edges_push_back_halfedgeNext, hN, hk, hev,
      g1, g2, g4, g6, gl, gr, n1, n2, hRI, hinv, k10, q1b, q1, Ne.symm q1, q2, Ne.symm q2, q3, Ne.symm q3, q4, Ne.symm q4, q5, Ne.symm q5, q6, Ne.symm q6,
      hL, hR, hH1, hH2, hLO, hRO, e1, e2, e3, e4, Ne.symm e1, Ne.symm e2, Ne.symm e3,
      Ne.symm e4, v1, Ne.symm v1, hne, Ne.symm hne,
      j1, j2, j3, j4, Ne.symm j1, Ne.symm j2, Ne.symm j3, Ne.symm j4,
      b1, b2, b3, b4, c1, c2, c3, c4, m1, m2, m3, m4, p1, p2, p3, p4, d1, d2, d3, d4,
      Ne.symm b1, Ne.symm b2, Ne.symm b3, Ne.symm b4,
      Ne.symm c1, Ne.symm c2, Ne.symm c3, Ne.symm c4,
      Ne.symm d1, Ne.symm d2, Ne.symm d3, Ne.symm d4,
      Ne.symm m1, Ne.symm m2, Ne.symm m3, Ne.symm m4,
      Ne.symm p1, Ne.symm p2, Ne.symm p3, Ne.symm p4,
      k1, k2, k3, k7, k8, k9, Ne.symm k1, Ne.symm k2, Ne.symm k3,
      Ne.symm k7, Ne.symm k8, Ne.symm k9,
      apply_ite Halfedge.next, apply_ite Halfedge.prev, apply_ite Halfedge.vertex,
      apply_ite Halfedge.face, apply_ite Halfedge.opposite, apply_ite Vertex.halfedge,
      ↓reduceIte, Option.some.injEq, reduceCtorEq, ite_self, Halfedge.mk1, ne_eq,
      not_false_eq_true, and_self, Vertex.mk3]
    rfl

/-- What `MergeSplitNodes` does for a pair of twin nodes `L`, `R` of a state `t` whose links
around the pair are those of a state `W` in which every halfedge that targets `R` is in the
fan, and in which no other halfedge has since been given the target `R`. -/
theorem MergeSplitNodes_merged (W t : Builder) (L R : Nat) (hLR : L ≠ R)
    (hnd : t.mSSkel.vertexList.Nodup)
    (hlinks : W.sameTwinLinks t (some L, some R))
    (htargets : ∀ j, j < t.mSSkel.halfedgeNext → t.vertex (some j) = some R →
      j < W.mSSkel.halfedgeNext ∧ W.vertex (some j) = some R)
    (hcover : ∀ j, j < W.mSSkel.halfedgeNext → W.vertex (some j) = some R →
      some j ∈ W.splitNodesFan (some L, some R)) :
    (∀ j, j < t.mSSkel.halfedgeNext → t.vertex (some j) = some R →
      some j ∈ t.splitNodesFan (some L, some R)
      ∧ (t.MergeSplitNodes (some L, some R)).vertex (some j) = some L)
    ∧ (∀ j, t.vertex (some j) ≠ some R →
      (t.MergeSplitNodes (some L, some R)).vertex (some j) = t.vertex (some j))
    ∧ (t.MergeSplitNodes (some L, some R)).mSSkel.vertexList = t.mSSkel.vertexList.erase R
    ∧ R ∉ (t.MergeSplitNodes (some L, some R)).mSSkel.vertexList
    ∧ (t.MergeSplitNodes (some L, some R)).mSSkel.halfedgeNext = t.mSSkel.halfedgeNext
    ∧ (∀ j, j < t.mSSkel.halfedgeNext →
      (t.MergeSplitNodes (some L, some R)).vertex (some j) ≠ some R) := by
  have hLR' : (some L : Vertex_handle) ≠ some R := fun h => hLR (Option.some.inj h)
  have hfan := splitNodesFan_congr W t (some L, some R) hlinks
  have hin : ∀ j, j < t.mSSkel.halfedgeNext → t.vertex (some j) = some R →
      some j ∈ t.splitNodesFan (some L, some R) := by
    intro j hj hv
    rw [hfan]
    exact hcover j (htargets j hj hv).1 (htargets j hj hv).2
  have hhe := MergeSplitNodes_he t (some L) (some R) hLR'
  obtain ⟨f1, f2⟩ := MergeSplitNodes_frame t (some L) R
  refine ⟨?_, ?_, f1, ?_, f2, ?_⟩
  · intro j hj hv
    refine ⟨hin j hj hv, ?_⟩
    show ((t.MergeSplitNodes (some L, some R)).he (some j)).vertex = some L
    rw [hhe j, if_pos ⟨hin j hj hv, hv⟩]
  · intro j hv
    show ((t.MergeSplitNodes (some L, some R)).he (some j)).vertex = (t.he (some j)).vertex
    have hc : ¬ (some j ∈ t.splitNodesFan (some L, some R) ∧ (t.he (some j)).vertex = some R) :=
      fun c => hv c.2
    rw [hhe j, if_neg hc]
  · rw [f1]
    exact fun h => (List.Nodup.mem_erase_iff hnd).1 h |>.1 rfl
  · intro j hj
    show ((t.MergeSplitNodes (some L, some R)).he (some j)).vertex ≠ some R
    rw [hhe j]
    by_cases hv : (t.he (some j)).vertex = some R
    · rw [if_pos ⟨hin j hj hv, hv⟩]
      exact hLR'
    · have hc : ¬ (some j ∈ t.splitNodesFan (some L, some R)
          ∧ (t.he (some j)).vertex = some R) := fun c => hv c.2
      rw [if_neg hc]
      exact hv

/-- The halfedges that target the right node of a split event, once wired, are in the fan. -/
theorem SplitEventWiring_cover (s : Builder) (e : EventPtr) (aOppR : Vertex_handle)
    (sd hs xo : Nat)
    (hfresh : ∀ j, j < s.mSSkel.halfedgeNext →
      s.vertex (some j) ≠ some (s.mSSkel.vertexNext + 1))
    (hS : (s.ev e).seed0 = some sd) (hsd : sd < s.mSSkel.vertexNext)
    (hH : s.halfedge (some sd) = some hs) (hXO : s.next (some hs) = some xo)
    (hhs : hs < s.mSSkel.halfedgeNext) (hxo : xo < s.mSSkel.halfedgeNext) :
    ∀ j, j < (s.SplitEventWiring e aOppR).mSSkel.halfedgeNext →
      (s.SplitEventWiring e aOppR).vertex (some j) = some (s.mSSkel.vertexNext + 1) →
      some j ∈ (s.SplitEventWiring e aOppR).splitNodesFan
        (some s.mSSkel.vertexNext, some (s.mSSkel.vertexNext + 1)) := by
  obtain ⟨w1, w2, w3, w4⟩ := SplitEventWiring_twins s e aOppR sd hs xo hS hsd hH hXO hhs hxo
  intro j hj hv
  rw [w1] at hj
  have hv' : ((s.SplitEventWiring e aOppR).he (some j)).vertex
      = some (s.mSSkel.vertexNext + 1) := hv
  rw [w4 j] at hv'
  unfold Builder.splitNodesFan
  simp only [w2, w3, List.mem_cons, Option.some.injEq]
  by_cases c1 : j = s.mSSkel.halfedgeNext + 1 ∨ j = s.mSSkel.halfedgeNext + 3
  · rcases c1 with c | c
    · exact Or.inl c
    · exact Or.inr (Or.inl c)
  · rw [if_neg c1] at hv'
    by_cases c2 : j = s.mSSkel.halfedgeNext ∨ j = s.mSSkel.halfedgeNext + 2
    · rw [if_pos c2] at hv'
      exact absurd hv' (by simp)
    · rw [if_neg c2] at hv'
      by_cases c3 : j = xo
      · rw [if_pos c3] at hv'
        exact absurd (Option.some.inj hv') (by omega)
      · rw [if_neg c3] at hv'
        exact absurd hv' (hfresh j (by omega))

/-- The halfedges that target the right node of a vertex event, once wired, are in the fan. -/
theorem VertexEventWiring_cover (s : Builder) (e : EventPtr) (l r i1 i2 lo ro ri : Nat)
    (hfresh : ∀ j, j < s.mSSkel.halfedgeNext →
      s.vertex (some j) ≠ some (s.mSSkel.vertexNext + 1))
    (hL : (s.ev e).seed0 = some l) (hR : (s.ev e).seed1 = some r)
    (hl : l < s.mSSkel.vertexNext) (hr : r < s.mSSkel.vertexNext)
    (hH1 : s.halfedge (some l) = some i1) (hLO : s.next (some i1) = some lo)
    (hH2 : s.halfedge (some r) = some i2) (hRO : s.next (some i2) = some ro)
    (hRI : s.opposite (some ro) = some ri) (hinv : s.opposite (some ri) = some ro)
    (hi1 : i1 < s.mSSkel.halfedgeNext) (hi2 : i2 < s.mSSkel.halfedgeNext)
    (hlo : lo < s.mSSkel.halfedgeNext) (hro : ro < s.mSSkel.halfedgeNext)
    (hri : ri < s.mSSkel.halfedgeNext)
    (hne : lo ≠ ro)
    (j1 : lo ≠ i1) (j2 : ro ≠ i1) (j3 : lo ≠ i2) (j4 : ro ≠ i2) :
    ∀ j, j < (s.VertexEventWiring e).mSSkel.halfedgeNext →
      (s.VertexEventWiring e).vertex (some j) = some (s.mSSkel.vertexNext + 1) →
      some j ∈ (s.VertexEventWiring e).splitNodesFan
        (some s.mSSkel.vertexNext, some (s.mSSkel.vertexNext + 1)) := by
  obtain ⟨w1, w2, w3, w4⟩ := VertexEventWiring_twins s e l r i1 i2 lo ro ri hL hR hl hr hH1 hLO
    hH2 hRO hRI hinv hi1 hi2 hlo hro hri hne j1 j2 j3 j4
  intro j hj hv
  rw [w1] at hj
  have hv' : ((s.VertexEventWiring e).he (some j)).vertex
      = some (s.mSSkel.vertexNext + 1) := hv
  rw [w4 j] at hv'
  unfold Builder.splitNodesFan
  simp only [w2, w3, List.mem_cons, Option.some.injEq]
  by_cases c1 : j = s.mSSkel.halfedgeNext + 3
  · exact Or.inr (Or.inl c1)
  · rw [if_neg c1] at hv'
    by_cases c2 : j = s.mSSkel.halfedgeNext + 1
    · rw [if_pos c2] at hv'
      exact absurd (Option.some.inj hv') (by omega)
    · rw [if_neg c2] at hv'
      by_cases c3 : j = s.mSSkel.halfedgeNext ∨ j = s.mSSkel.halfedgeNext + 2
      · rw [if_pos c3] at hv'
        exact absurd hv' (by simp)
      · rw [if_neg c3] at hv'
        by_cases c4 : j = ro
        · exact Or.inr (Or.inr (Or.inl c4))
        · rw [if_neg c4] at hv'
          by_cases c5 : j = lo
          · rw [if_pos c5] at hv'
            exact absurd (Option.some.inj hv') (by omega)
          · rw [if_neg c5] at hv'
            exact absurd hv' (hfresh j (by omega))

/-- C25: for the twin nodes `L`, `R` that `HandleSplitEvent` or `HandleVertexEvent` creates in
a state `s` none of whose halfedges targets the slot of `R`, with `W` the state of the handler
once the nodes are wired, and for a later state `t` in which the next and opposite links around
the pair are those of `W` and every halfedge that targets `R` targeted it in `W`:
`MergeSplitNodes(L, R)` retargets to `L` every halfedge of the store that targets `R`, all of
which are in the fan of four; it keeps the target of every halfedge that does not target `R`;
it erases `R`; and afterwards no halfedge of the store targets `R`. -/
theorem MergeSplitNodes_twin_nodes (s W t : Builder) (e : EventPtr)
    (hfresh : ∀ j, j < s.mSSkel.halfedgeNext →
      s.vertex (some j) ≠ some (s.mSSkel.vertexNext + 1))
    (hW : (∃ aOppR sd hs xo, W = s.SplitEventWiring e aOppR
          ∧ (s.ev e).seed0 = some sd ∧ sd < s.mSSkel.vertexNext
          ∧ s.halfedge (some sd) = some hs ∧ s.next (some hs) = some xo
          ∧ hs < s.mSSkel.halfedgeNext ∧ xo < s.mSSkel.halfedgeNext)
        ∨ (∃ l r i1 i2 lo ro ri, W = s.VertexEventWiring e
          ∧ (s.ev e).seed0 = some l ∧ (s.ev e).seed1 = some r
          ∧ l < s.mSSkel.vertexNext ∧ r < s.mSSkel.vertexNext
          ∧ s.halfedge (some l) = some i1 ∧ s.next (some i1) = some lo
          ∧ s.halfedge (some r) = some i2 ∧ s.next (some i2) = some ro
          ∧ s.opposite (some ro) = some ri ∧ s.opposite (some ri) = some ro
          ∧ i1 < s.mSSkel.halfedgeNext ∧ i2 < s.mSSkel.halfedgeNext
          ∧ lo < s.mSSkel.halfedgeNext ∧ ro < s.mSSkel.halfedgeNext
          ∧ ri < s.mSSkel.halfedgeNext
          ∧ lo ≠ ro ∧ lo ≠ i1 ∧ ro ≠ i1 ∧ lo ≠ i2 ∧ ro ≠ i2))
    (hnd : t.mSSkel.vertexList.Nodup)
    (hlinks : W.sameTwinLinks t (some s.mSSkel.vertexNext, some (s.mSSkel.vertexNext + 1)))
    (htargets : ∀ j, j < t.mSSkel.halfedgeNext →
      t.vertex (some j) = some (s.mSSkel.vertexNext + 1) →
      j < W.mSSkel.halfedgeNext ∧ W.vertex (some j) = some (s.mSSkel.vertexNext + 1)) :
    (∀ j, j < t.mSSkel.halfedgeNext → t.vertex (some j) = some (s.mSSkel.vertexNext + 1) →
      some j ∈ t.splitNodesFan (some s.mSSkel.vertexNext, some (s.mSSkel.vertexNext + 1))
      ∧ (t.MergeSplitNodes (some s.mSSkel.vertexNext, some (s.mSSkel.vertexNext + 1))).vertex
          (some j) = some s.mSSkel.vertexNext)
    ∧ (∀ j, t.vertex (some j) ≠ some (s.mSSkel.vertexNext + 1) →
      (t.MergeSplitNodes (some s.mSSkel.vertexNext, some (s.mSSkel.vertexNext + 1))).vertex
          (some j) = t.vertex (some j))
    ∧ (t.MergeSplitNodes
          (some s.mSSkel.vertexNext, some (s.mSSkel.vertexNext + 1))).mSSkel.vertexList
        = t.mSSkel.vertexList.erase (s.mSSkel.vertexNext + 1)
    ∧ (s.mSSkel.vertexNext + 1) ∉ (t.MergeSplitNodes
          (some s.mSSkel.vertexNext, some (s.mSSkel.vertexNext + 1))).mSSkel.vertexList
    ∧ (t.MergeSplitNodes
          (some s.mSSkel.vertexNext, some (s.mSSkel.vertexNext + 1))).mSSkel.halfedgeNext
        = t.mSSkel.halfedgeNext
    ∧ (∀ j, j < t.mSSkel.halfedgeNext →
      (t.MergeSplitNodes (some s.mSSkel.vertexNext, some (s.mSSkel.vertexNext + 1))).vertex
          (some j) ≠ some (s.mSSkel.vertexNext + 1)) := by
  have hcover : ∀ j, j < W.mSSkel.halfedgeNext →
      W.vertex (some j) = some (s.mSSkel.vertexNext + 1) →
      some j ∈ W.splitNodesFan (some s.mSSkel.vertexNext, some (s.mSSkel.vertexNext + 1)) := by
    rcases hW with ⟨aOppR, sd, hs, xo, rfl, a1, a2, a3, a4, a5, a6⟩
      | ⟨l, r, i1, i2, lo, ro, ri, rfl, a1, a2, a3, a4, a5, a6, a7, a8, a9, a10, a11, a12, a13,
          a14, a15, a16, a17, a18, a19, a20⟩
    · exact SplitEventWiring_cover s e aOppR sd hs xo hfresh a1 a2 a3 a4 a5 a6
    · exact VertexEventWiring_cover s e l r i1 i2 lo ro ri hfresh a1 a2 a3 a4 a5 a6 a7 a8 a9
        a10 a11 a12 a13 a14 a15 a16 a17 a18 a19 a20
  exact MergeSplitNodes_merged W t s.mSSkel.vertexNext (s.mSSkel.vertexNext + 1) (by omega)
    hnd hlinks htargets hcover

theorem MergeSplitNodes_twin_nodes_witness :
    ((exQuadSplit.SplitEventWiring (some 0) (some 2)).vertex (some 17) = some 5
      ∧ ((exQuadSplit.SplitEventWiring (some 0) (some 2)).MergeSplitNodes
          (some 4, some 5)).vertex (some 17) = some 4)
    ∧ ((exQuadVertex.VertexEventWiring (some 0)).vertex (some 12) = some 5
      ∧ ((exQuadVertex.VertexEventWiring (some 0)).MergeSplitNodes
          (some 4, some 5)).vertex (some 12) = some 4) :=
  have h1 := MergeSplitNodes_twin_nodes exQuadSplit
    (exQuadSplit.SplitEventWiring (some 0) (some 2))
    (exQuadSplit.SplitEventWiring (some 0) (some 2)) (some 0) (by decide)
    (Or.inl ⟨some 2, 0, 0, 8, rfl, by decide⟩)
    (by decide) ⟨rfl, rfl, rfl, rfl, rfl, rfl, rfl, rfl, rfl, rfl⟩ (fun j hj h => ⟨hj, h⟩)
  have h2 := MergeSplitNodes_twin_nodes exQuadVertex
    (exQuadVertex.VertexEventWiring (some 0))
    (exQuadVertex.VertexEventWiring (some 0)) (some 0) (by decide)
    (Or.inr ⟨0, 2, 0, 2, 8, 12, 13, rfl, by decide⟩)
    (by decide) ⟨rfl, rfl, rfl, rfl, rfl, rfl, rfl, rfl, rfl, rfl⟩ (fun j hj h => ⟨hj, h⟩)
  ⟨⟨by decide, (h1.1 17 (by decide) (by decide)).2⟩,
    ⟨by decide, (h2.1 12 (by decide) (by decide)).2⟩⟩

/-! ## Finalization: merging two coincident nodes -/

/-- What one iteration of the loop around `v1` does with the halfedge `x`. -/
theorem scanAroundVertex_succ (s : Builder) (v0 b : Vertex_handle) (fuel : Nat)
    (ie : Halfedge_handle) (acc : List Halfedge_handle × Halfedge_handle) :
    s.scanAroundVertex v0 b (fuel + 1) ie acc
      = if s.circ_succ ie ≠ b then
          s.scanAroundVertex v0 b fuel (s.circ_succ ie)
            (if s.vertex (s.opposite ie) ≠ v0 then (acc.1 ++ [ie], acc.2) else (acc.1, ie))
        else some (if s.vertex (s.opposite ie) ≠ v0 then (acc.1 ++ [ie], acc.2)
          else (acc.1, ie)) := rfl

/-- With enough fuel the loop around `v1` ends: along halfedges `x, xs` each followed by the
next one, the last by `b`, and none of `xs` being `b`, it visits exactly `x, xs`. -/
theorem scanAroundVertex_ring (s : Builder) (v0 : Vertex_handle) (b : Nat) :
    ∀ (xs : List Nat) (x : Nat) (acc : List Halfedge_handle × Halfedge_handle) (fuel : Nat),
      List.Chain (fun a c => s.circ_succ (some a) = some c) x (xs ++ [b]) → b ∉ xs →
      xs.length < fuel →
      s.scanAroundVertex v0 (some b) fuel (some x) acc
        = some ((x :: xs).foldl (fun a y =>
            if s.vertex (s.opposite (some y)) ≠ v0 then (a.1 ++ [some y], a.2)
            else (a.1, some y)) acc) := by
  intro xs
  induction xs with
  | nil =>
    intro x acc fuel hc _ hf
    obtain ⟨f, rfl⟩ : ∃ f, fuel = f + 1 := ⟨fuel - 1, by simp at hf; omega⟩
    have h1 : s.circ_succ (some x) = some b := by
      simpa using hc
    rw [scanAroundVertex_succ, h1, if_neg (by simp)]
    rfl
  | cons y ys ih =>
    intro x acc fuel hc hb hf
    obtain ⟨f, rfl⟩ : ∃ f, fuel = f + 1 := ⟨fuel - 1, by simp at hf; omega⟩
    rw [List.cons_append, List.chain_cons] at hc
    have hy : y ≠ b := fun h => hb (h ▸ List.mem_cons_self _ _)
    have hne : (some y : Halfedge_handle) ≠ some b := fun h => hy (Option.some.inj h)
    rw [scanAroundVertex_succ, hc.1, if_pos hne,
      ih y _ f hc.2 (fun h => hb (List.mem_cons_of_mem _ h))
        (by simp at hf; omega)]
    rfl

/-- The result of the loop when exactly the halfedge `e` of the visited ones starts at `v0`. -/
theorem scan_fold_unique (s : Builder) (v0 : Vertex_handle) (e : Nat) :
    ∀ (V : List Nat) (acc : List Halfedge_handle × Halfedge_handle),
      (∀ x ∈ V, s.vertex (s.opposite (some x)) = v0 ↔ x = e) →
      V.foldl (fun a y =>
          if s.vertex (s.opposite (some y)) ≠ v0 then (a.1 ++ [some y], a.2)
          else (a.1, some y)) acc
        = (acc.1 ++ (V.filter (fun x => decide (x ≠ e))).map some,
            if e ∈ V then some e else acc.2) := by
  intro V
  induction V with
  | nil => intro acc _; simp
  | cons x V ih =>
    intro acc h
    rw [List.foldl_cons, ih _ (fun y hy => h y (List.mem_cons_of_mem _ hy))]
    by_cases hx : x = e
    · subst hx
      have h1 : s.vertex (s.opposite (some x)) = v0 := (h x (List.mem_cons_self _ _)).2 rfl
      simp [h1]
    · have h1 : ¬ s.vertex (s.opposite (some x)) = v0 := fun c =>
        hx ((h x (List.mem_cons_self _ _)).1 c)
      have h2 : ¬ e = x := fun c => hx c.symm
      simp [h1, hx, h2]

/-- The result of the loop when none of the visited halfedges starts at `v0`. -/
theorem scan_fold_none (s : Builder) (v0 : Vertex_handle) :
    ∀ (V : List Nat) (acc : List Halfedge_handle × Halfedge_handle),
      (∀ x ∈ V, s.vertex (s.opposite (some x)) ≠ v0) →
      V.foldl (fun a y =>
          if s.vertex (s.opposite (some y)) ≠ v0 then (a.1 ++ [some y], a.2)
          else (a.1, some y)) acc
        = (acc.1 ++ V.map some, acc.2) := by
  intro V
  induction V with
  | nil => intro acc _; simp
  | cons x V ih =>
    intro acc h
    rw [List.foldl_cons, ih _ (fun y hy => h y (List.mem_cons_of_mem _ hy))]
    have h1 := h x (List.mem_cons_self _ _)
    simp [h1]

/-- The halfedges after the retargeting loop of `MergeCoincidentNodes(v0,v1,..)`. -/
theorem relink_he (v0 : Vertex_handle) : ∀ (L : List Halfedge_handle) (s : Builder) (j : Nat),
    (L.foldl (fun st h => st.set_vertex h v0) s).he (some j)
      = if some j ∈ L then { s.he (some j) with vertex := v0 } else s.he (some j) := by
  intro L
  induction L with
  | nil => intro s j; simp
  | cons h L ih =>
    intro s j
    rw [List.foldl_cons, ih]
    by_cases h1 : h = some j
    · subst h1
      by_cases h2 : some j ∈ L
      · simp [h2, Builder.set_vertex, he_updHalfedge]
      · simp [h2, Builder.set_vertex, he_updHalfedge]
    · have h3 : ¬ some j = h := fun c => h1 c.symm
      by_cases h2 : some j ∈ L
      · simp [h1, h2, h3, Builder.set_vertex, he_updHalfedge]
      · simp [h1, h2, h3, Builder.set_vertex, he_updHalfedge]

/-- What the retargeting loop keeps: everything but the halfedges. -/
theorem relink_frame (v0 : Vertex_handle) : ∀ (L : List Halfedge_handle) (s : Builder),
    (L.foldl (fun st h => st.set_vertex h v0) s).mSSkel.vertices = s.mSSkel.vertices
    ∧ (L.foldl (fun st h => st.set_vertex h v0) s).mSSkel.vertexList = s.mSSkel.vertexList
    ∧ (L.foldl (fun st h => st.set_vertex h v0) s).mSSkel.halfedgeNext
        = s.mSSkel.halfedgeNext
    ∧ (L.foldl (fun st h => st.set_vertex h v0) s).mWrappedVertices = s.mWrappedVertices := by
  intro L
  induction L with
  | nil => intro s; exact ⟨rfl, rfl, rfl, rfl⟩
  | cons h L ih =>
    intro s
    rw [List.foldl_cons]
    obtain ⟨a, b, c, d⟩ := ih (s.set_vertex h v0)
    exact ⟨a, b, c, d⟩

/-- The state after the branch `handle_assigned(toremove0)` of `MergeCoincidentNodes`, for the
joining halfedge `e` with twin `t`, where `pe`, `ne`, `pt`, `nt` are the halfedges before and
after `e` and `t` on entry and neither `pe` nor `ne` is `t`. -/
theorem exciseJoining_graph (s : Builder) (v0 v1 : Nat) (L : List Halfedge_handle)
    (e t pe ne pt nt : Nat)
    (ht : s.opposite (some e) = some t)
    (hpe : s.prev (some e) = some pe) (hne : s.next (some e) = some ne)
    (hpt : s.prev (some t) = some pt) (hnt : s.next (some t) = some nt)
    (d1 : ne ≠ t) (d2 : pe ≠ t) :
    (∀ j, ((s.exciseJoining (some v0) (some v1) L (some e)).he (some j)).vertex
        = if some j ∈ L then some v0 else (s.he (some j)).vertex)
    ∧ (∀ j, ((s.exciseJoining (some v0) (some v1) L (some e)).he (some j)).next
        = if j = pt then some nt else if j = pe then some ne else (s.he (some j)).next)
    ∧ (∀ j, ((s.exciseJoining (some v0) (some v1) L (some e)).he (some j)).prev
        = if j = nt then some pt else if j = ne then some pe else (s.he (some j)).prev)
    ∧ (∀ j, ((s.exciseJoining (some v0) (some v1) L (some e)).he (some j)).opposite
        = (s.he (some j)).opposite)
    ∧ (s.exciseJoining (some v0) (some v1) L (some e)).halfedge (some v0)
        = (if s.halfedge (some v0) = some t
            then (if t = nt then some pt else if t = ne then some pe else some pt)
            else s.halfedge (some v0))
    ∧ (∀ k, (s.exciseJoining (some v0) (some v1) L (some e)).mWrappedVertices k
        = if (s.vtx (some v1)).id = k then { s.mWrappedVertices k with mIsExcluded := true }
          else s.mWrappedVertices k)
    ∧ (∀ n, ((s.exciseJoining (some v0) (some v1) L (some e)).vtx (some n)).id
          = (s.vtx (some n)).id
        ∧ ((s.exciseJoining (some v0) (some v1) L (some e)).vtx (some n)).point
          = (s.vtx (some n)).point
        ∧ ((s.exciseJoining (some v0) (some v1) L (some e)).vtx (some n)).is_skeleton
          = (s.vtx (some n)).is_skeleton)
    ∧ (s.exciseJoining (some v0) (some v1) L (some e)).mSSkel.vertexList
        = s.mSSkel.vertexList
    ∧ (s.exciseJoining (some v0) (some v1) L (some e)).mSSkel.halfedgeNext
        = s.mSSkel.halfedgeNext := by
  simp only [Builder.next, Builder.prev, Builder.opposite] at ht hpe hne hpt hnt
  unfold Builder.exciseJoining
  lift_lets
  extract_lets s1 s2 t1 s3 s4 s5 s6 s7
  obtain ⟨f1, f2, f3, f4⟩ := relink_frame (some v0) L s
  have r1 : ∀ j, s1.he (some j)
      = if some j ∈ L then { s.he (some j) with vertex := some v0 } else s.he (some j) :=
    relink_he (some v0) L s
  have r1n : ∀ j, (s1.he (some j)).next = (s.he (some j)).next := by
    intro j
    rw [r1]
    split <;> rfl
  have r1p : ∀ j, (s1.he (some j)).prev = (s.he (some j)).prev := by
    intro j
    rw [r1]
    split <;> rfl
  have r1o : ∀ j, (s1.he (some j)).opposite = (s.he (some j)).opposite := by
    intro j
    rw [r1]
    split <;> rfl
  have r1v : ∀ j, (s1.he (some j)).vertex
      = if some j ∈ L then some v0 else (s.he (some j)).vertex := by
    intro j
    rw [r1]
    split <;> rfl
  have r2 : ∀ x, s2.he x = s1.he x := fun _ => rfl
  have v1' : ∀ x, s1.vtx x = s.vtx x := by
    intro x
    rcases x with _ | n
    · rfl
    · show s1.mSSkel.vertices n = s.mSSkel.vertices n
      rw [f1]
  have v2 : ∀ x, s2.vtx x = s.vtx x := fun x => (rfl : s2.vtx x = s1.vtx x).trans (v1' x)
  have w2 : ∀ k, s2.mWrappedVertices k
      = if (s.vtx (some v1)).id = k then { s.mWrappedVertices k with mIsExcluded := true }
        else s.mWrappedVertices k := by
    intro k
    have f4' : s1.mWrappedVertices = s.mWrappedVertices := f4
    simp only [s2, Builder.Exclude, wtab_updWrap, wrapIndex_some, v1', f4', Option.some.injEq]
  have l2 : s2.mSSkel.vertexList = s.mSSkel.vertexList := (rfl : _ = s1.mSSkel.vertexList).trans f2
  have n2 : s2.mSSkel.halfedgeNext = s.mSSkel.halfedgeNext :=
    (rfl : _ = s1.mSSkel.halfedgeNext).trans f3
  have ht1 : t1 = some t := by
    show (s2.he (some e)).opposite = some t
    rw [r2, r1o, ht]
  clear_value t1
  subst ht1
  have q7 : ∀ x, s7.he x = s6.he x := by
    intro x
    show (if s6.halfedge (some v0) = some t then s6.set_halfedge (some v0) (s6.prev (some t))
      else s6).he x = _
    split <;> rfl
  have w7 : s7.mWrappedVertices = s2.mWrappedVertices := by
    show (if s6.halfedge (some v0) = some t then s6.set_halfedge (some v0) (s6.prev (some t))
      else s6).mWrappedVertices = _
    split <;> rfl
  have l7 : s7.mSSkel.vertexList = s2.mSSkel.vertexList := by
    show (if s6.halfedge (some v0) = some t then s6.set_halfedge (some v0) (s6.prev (some t))
      else s6).mSSkel.vertexList = _
    split <;> rfl
  have n7 : s7.mSSkel.halfedgeNext = s2.mSSkel.halfedgeNext := by
    show (if s6.halfedge (some v0) = some t then s6.set_halfedge (some v0) (s6.prev (some t))
      else s6).mSSkel.halfedgeNext = _
    split <;> rfl
  have x6 : ∀ x, s6.vtx x = s.vtx x := fun x => (rfl : s6.vtx x = s2.vtx x).trans (v2 x)
  have x7 : ∀ n, s7.vtx (some n)
      = if s.halfedge (some v0) = some t ∧ v0 = n
        then { s.vtx (some n) with halfedge := s6.prev (some t) } else s.vtx (some n) := by
    intro n
    show (if s6.halfedge (some v0) = some t then s6.set_halfedge (some v0) (s6.prev (some t))
      else s6).vtx (some n) = _
    have hh : s6.halfedge (some v0) = s.halfedge (some v0) := by
      show (s6.vtx (some v0)).halfedge = _
      rw [x6]
      rfl
    rw [hh]
    by_cases c : s.halfedge (some v0) = some t
    · rw [if_pos c]
      simp only [Builder.set_halfedge, vtx_updVertex, Option.some.injEq, x6, c, true_and]
    · rw [if_neg c]
      simp only [c, false_and, ↓reduceIte, x6]
  have a1 := Ne.symm d1
  have a2 := Ne.symm d2
  have h6n : ∀ j, (s6.he (some j)).next
      = if j = pt then some nt else if j = pe then some ne else (s.he (some j)).next := by
    intro j
    simp only [s6, s5, s4, s3, Builder.set_next, Builder.set_prev, Builder.next, Builder.prev,
      he_updHalfedge, r2, r1n, r1p, hpe, hne, hpt, hnt, d1, d2, a1, a2,
      apply_ite Halfedge.next, apply_ite Halfedge.prev, ↓reduceIte, Option.some.injEq,
      ite_self]
    split_ifs <;> first | rfl | omega
  have h6p : ∀ j, (s6.he (some j)).prev
      = if j = nt then some pt else if j = ne then some pe else (s.he (some j)).prev := by
    intro j
    simp only [s6, s5, s4, s3, Builder.set_next, Builder.set_prev, Builder.next, Builder.prev,
      he_updHalfedge, r2, r1n, r1p, hpe, hne, hpt, hnt, d1, d2, a1, a2,
      apply_ite Halfedge.next, apply_ite Halfedge.prev, ↓reduceIte, Option.some.injEq,
      ite_self]
    split_ifs <;> first | rfl | omega
  have h6o : ∀ j, (s6.he (some j)).opposite = (s.he (some j)).opposite := by
    intro j
    simp only [s6, s5, s4, s3, Builder.set_next, Builder.set_prev,
      he_updHalfedge, r2, r1o, apply_ite Halfedge.opposite, ite_self]
  have h6v : ∀ j, (s6.he (some j)).vertex
      = if some j ∈ L then some v0 else (s.he (some j)).vertex := by
    intro j
    simp only [s6, s5, s4, s3, Builder.set_next, Builder.set_prev,
      he_updHalfedge, r2, r1v, apply_ite Halfedge.vertex, ite_self]
  refine ⟨fun j => by rw [q7, h6v], fun j => by rw [q7, h6n], fun j => by rw [q7, h6p],
    fun j => by rw [q7, h6o], ?_, fun k => by rw [w7, w2], ?_, l7.trans l2, n7.trans n2⟩
  · show (s7.vtx (some v0)).halfedge = _
    rw [x7]
    by_cases c : s.halfedge (some v0) = some t
    · rw [if_pos ⟨c, rfl⟩, if_pos c]
      show (s6.he (some t)).prev = _
      rw [h6p, hpt]
    · rw [if_neg (fun h => c h.1), if_neg c]
      rfl
  · intro n
    rw [x7]
    split <;> exact ⟨rfl, rfl, rfl⟩

/-- With enough fuel, in a ring around `v1` where exactly the halfedge `e` starts at `v0`,
`MergeCoincidentNodes` takes the branch `handle_assigned(toremove0)` with `toremove0 = e` and
`lToRelink` the other halfedges of the ring. -/
theorem MergeCoincidentNodes_eq (s : Builder) (fuel : Nat) (v0 v1 : Vertex_handle)
    (rH : List Halfedge_handle) (rV : List Vertex_handle) (b : Nat) (rest : List Nat) (e : Nat)
    (hb : s.halfedge v1 = some b)
    (hring : List.Chain (fun a c => s.circ_succ (some a) = some c) b (rest ++ [b]))
    (hnb : b ∉ rest) (hfuel : rest.length < fuel)
    (huniq : ∀ x ∈ b :: rest, s.vertex (s.opposite (some x)) = v0 ↔ x = e)
    (he : e ∈ b :: rest) :
    s.MergeCoincidentNodes fuel v0 v1 rH rV
      = some (s.exciseJoining v0 v1
          (((b :: rest).filter (fun x => decide (x ≠ e))).map some) (some e),
          rH ++ [some e], rV ++ [v1]) := by
  unfold Builder.MergeCoincidentNodes
  simp only [hb]
  rw [scanAroundVertex_ring s v0 b rest b ([], none) fuel hring hnb hfuel,
    scan_fold_unique s v0 e (b :: rest) ([], none) huniq]
  simp only [List.nil_append, if_pos he, ne_eq, reduceCtorEq, not_false_eq_true, ↓reduceIte]

/-- With enough fuel, in a ring around `v1` none of whose halfedges starts at `v0`,
`MergeCoincidentNodes` changes nothing. -/
theorem MergeCoincidentNodes_unjoined (s : Builder) (fuel : Nat) (v0 v1 : Vertex_handle)
    (rH : List Halfedge_handle) (rV : List Vertex_handle) (b : Nat) (rest : List Nat)
    (hb : s.halfedge v1 = some b)
    (hring : List.Chain (fun a c => s.circ_succ (some a) = some c) b (rest ++ [b]))
    (hnb : b ∉ rest) (hfuel : rest.length < fuel)
    (hnone : ∀ x ∈ b :: rest, s.vertex (s.opposite (some x)) ≠ v0) :
    s.MergeCoincidentNodes fuel v0 v1 rH rV = some (s, rH, rV) := by
  unfold Builder.MergeCoincidentNodes
  simp only [hb]
  rw [scanAroundVertex_ring s v0 b rest b ([], none) fuel hring hnb hfuel,
    scan_fold_none s v0 (b :: rest) ([], none) hnone]
  simp only [ne_eq, not_true_eq_false, ↓reduceIte]

/-- C26 (as stated, refuted): (1) in `exLens` two halfedges, 0 and 2, go from vertex 0 to
vertex 1: `MergeCoincidentNodes(0, 1, ..)` queues halfedge 2 and vertex 1, and halfedge 0,
which is not the queued halfedge, still ends at vertex 1. (2) In `exPath` halfedge 0 is the
only halfedge that ends at vertex 1 and its twin 1 follows it: after
`MergeCoincidentNodes(0, 1, ..)` the halfedge 2 before halfedge 0 is followed by halfedge 3,
not by halfedge 1. (3) In `exPath` halfedge 1 is the only halfedge from vertex 1 to vertex 0
and its twin 0 precedes it: after `MergeCoincidentNodes(1, 0, ..)` the halfedge 3 after
halfedge 1 is preceded by halfedge 2, not by halfedge 0. -/
theorem MergeCoincidentNodes_joined_counterexample :
    (exLens.vertex (some 0) = some 1 ∧ exLens.vertex (exLens.opposite (some 0)) = some 0
      ∧ (exLens.MergeCoincidentNodes 3 (some 0) (some 1) [] []).map
          (fun r => (r.2, r.1.vertex (some 0)))
        = some (([some 2], [some 1]), some 1))
    ∧ (exPath.mSSkel.halfedgeList.filter (fun x => exPath.vertex (some x) == some 1) = [0]
      ∧ exPath.vertex (exPath.opposite (some 0)) = some 0
      ∧ exPath.prev (some 0) = some 2 ∧ exPath.next (some 0) = some 1
      ∧ (exPath.MergeCoincidentNodes 3 (some 0) (some 1) [] []).map
          (fun r => (r.2, r.1.next (some 2), r.1.next (some 0)))
        = some (([some 0], [some 1]), some 3, some 1))
    ∧ (exPath.mSSkel.halfedgeList.filter (fun x => exPath.vertex (some x) == some 0
          && exPath.vertex (exPath.opposite (some x)) == some 1) = [1]
      ∧ exPath.next (some 1) = some 3 ∧ exPath.prev (some 1) = some 0
      ∧ (exPath.MergeCoincidentNodes 3 (some 1) (some 0) [] []).map
          (fun r => (r.2, r.1.prev (some 3), r.1.prev (some 1)))
        = some (([some 1], [some 0]), some 2, some 0)) := by
  refine ⟨⟨?_, ?_, ?_⟩, ⟨?_, ?_, ?_, ?_, ?_⟩, ⟨?_, ?_, ?_, ?_⟩⟩ <;> decide

/-- C26 (amended): `MergeCoincidentNodes(v0,v1,..)` for a vertex `v1` whose circulator runs through the
ring `b, rest` of halfedges, which holds every halfedge of the store that ends at `v1`, with
fuel for the whole ring. If exactly the halfedge `e` of the ring starts at `v0`, with twin `t`
and with the halfedges `pe`, `ne`, `pt`, `nt` before and after `e` and `t`, where `e` is not
followed or preceded by `t` and the four neighbours are two different halfedges before and two
different halfedges after: every halfedge that ended at `v1` other than `e` ends at `v0`
afterwards, `v1` is excluded and is appended once to the vertices to remove, `e` is appended
once to the halfedges to remove, and `next pe = ne`, `prev ne = pe`, `next pt = nt`,
`prev nt = pt`. If no halfedge of the ring starts at `v0`, the state and the two vectors are
returned as they were. -/
theorem MergeCoincidentNodes_joined (s : Builder) (fuel : Nat) (v0 v1 : Nat)
    (rH : List Halfedge_handle) (rV : List Vertex_handle) (b : Nat) (rest : List Nat)
    (hb : s.halfedge (some v1) = some b)
    (hring : List.Chain (fun a c => s.circ_succ (some a) = some c) b (rest ++ [b]))
    (hnb : b ∉ rest) (hfuel : rest.length < fuel)
    (hinc : ∀ j, j < s.mSSkel.halfedgeNext → s.vertex (some j) = some v1 → j ∈ b :: rest) :
    (∀ e t pe ne pt nt : Nat,
      (∀ x ∈ b :: rest, s.vertex (s.opposite (some x)) = some v0 ↔ x = e) → e ∈ b :: rest →
      s.opposite (some e) = some t →
      s.prev (some e) = some pe → s.next (some e) = some ne →
      s.prev (some t) = some pt → s.next (some t) = some nt →
      ne ≠ t → pe ≠ t → pe ≠ pt → ne ≠ nt →
      ∃ s', s.MergeCoincidentNodes fuel (some v0) (some v1) rH rV
          = some (s', rH ++ [some e], rV ++ [some v1])
        ∧ (∀ j, j < s.mSSkel.halfedgeNext → s.vertex (some j) = some v1 → j ≠ e →
            s'.vertex (some j) = some v0)
        ∧ s'.IsExcluded (some v1) = true
        ∧ (rV ++ [some v1]).count (some v1) = rV.count (some v1) + 1
        ∧ (rH ++ [some e]).count (some e) = rH.count (some e) + 1
        ∧ s'.next (some pe) = some ne ∧ s'.prev (some ne) = some pe
        ∧ s'.next (some pt) = some nt ∧ s'.prev (some nt) = some pt)
    ∧ ((∀ x ∈ b :: rest, s.vertex (s.opposite (some x)) ≠ some v0) →
      s.MergeCoincidentNodes fuel (some v0) (some v1) rH rV = some (s, rH, rV)) := by
  refine ⟨?_, fun hnone =>
    MergeCoincidentNodes_unjoined s fuel (some v0) (some v1) rH rV b rest hb hring hnb hfuel
      hnone⟩
  intro e t pe ne pt nt huniq he ht hpe hne hpt hnt d1 d2 d3 d4
  obtain ⟨g1, g2, g3, -, -, g6, g7, -, -⟩ := exciseJoining_graph s v0 v1
    (((b :: rest).filter (fun x => decide (x ≠ e))).map some) e t pe ne pt nt
    ht hpe hne hpt hnt d1 d2
  refine ⟨_, MergeCoincidentNodes_eq s fuel (some v0) (some v1) rH rV b rest e hb hring hnb
    hfuel huniq he, ?_, ?_, ?_, ?_, ?_, ?_, ?_, ?_⟩
  · intro j hj hv hje
    show (Builder.he _ (some j)).vertex = some v0
    rw [g1 j, if_pos]
    rw [List.mem_map]
    exact ⟨j, List.mem_filter.2 ⟨hinc j hj hv, by simpa using hje⟩, rfl⟩
  · show ((Builder.mWrappedVertices _) (Builder.vtx _ (some v1)).id).mIsExcluded = true
    rw [(g7 v1).1, g6, if_pos rfl]
  · simp
  · simp
  · show (Builder.he _ (some pe)).next = some ne
    rw [g2, if_neg d3, if_pos rfl]
  · show (Builder.he _ (some ne)).prev = some pe
    rw [g3, if_neg d4, if_pos rfl]
  · show (Builder.he _ (some pt)).next = some nt
    rw [g2, if_pos rfl]
  · show (Builder.he _ (some nt)).prev = some pt
    rw [g3, if_pos rfl]

/-- C30: `MergeCoincidentNodes(v0,v1,..)` for different vertices, where the circulator of `v1`
runs through the ring `b, rest`, exactly the halfedge `e` of the ring starts at `v0`, `e`
ends at `v1` and has the twin `t`, the halfedge `pt` before `t` is in the ring and is neither
`e` nor `t` (so `v1` has another halfedge than `e`), `e` is not followed by `t`, and the
halfedge `h0` of `v0` ends at `v0` on entry: the merge is done, and afterwards the halfedge of
`v0` ends at `v0` and is neither `e` nor `t`. -/
theorem MergeCoincidentNodes_halfedge_targets_v0 (s : Builder) (fuel : Nat) (v0 v1 : Nat)
    (rH : List Halfedge_handle) (rV : List Vertex_handle) (b : Nat) (rest : List Nat)
    (e t pe ne pt nt h0 : Nat)
    (hv : v0 ≠ v1)
    (hb : s.halfedge (some v1) = some b)
    (hring : List.Chain (fun a c => s.circ_succ (some a) = some c) b (rest ++ [b]))
    (hnb : b ∉ rest) (hfuel : rest.length < fuel)
    (huniq : ∀ x ∈ b :: rest, s.vertex (s.opposite (some x)) = some v0 ↔ x = e)
    (he : e ∈ b :: rest) (hev : s.vertex (some e) = some v1)
    (ht : s.opposite (some e) = some t)
    (hpe : s.prev (some e) = some pe) (hne : s.next (some e) = some ne)
    (hpt : s.prev (some t) = some pt) (hnt : s.next (some t) = some nt)
    (d1 : ne ≠ t) (d2 : pe ≠ t)
    (hptV : pt ∈ b :: rest) (hpte : pt ≠ e) (hptt : pt ≠ t)
    (hh0 : s.halfedge (some v0) = some h0) (hh0v : s.vertex (some h0) = some v0) :
    ∃ s' h', s.MergeCoincidentNodes fuel (some v0) (some v1) rH rV
        = some (s', rH ++ [some e], rV ++ [some v1])
      ∧ s'.halfedge (some v0) = some h' ∧ s'.vertex (some h') = some v0
      ∧ h' ≠ e ∧ h' ≠ t := by
  obtain ⟨g1, -, -, -, g5, -, -, -, -⟩ := exciseJoining_graph s v0 v1
    (((b :: rest).filter (fun x => decide (x ≠ e))).map some) e t pe ne pt nt
    ht hpe hne hpt hnt d1 d2
  have heq := MergeCoincidentNodes_eq s fuel (some v0) (some v1) rH rV b rest e hb hring hnb
    hfuel huniq he
  have hpt' : (if t = nt then some pt else if t = ne then some pe else some pt)
      = (some pt : Halfedge_handle) := by
    rw [if_neg (Ne.symm d1)]
    split <;> rfl
  by_cases c : h0 = t
  · subst c
    refine ⟨_, pt, heq, ?_, ?_, hpte, hptt⟩
    · rw [g5, if_pos hh0, hpt']
    · show (Builder.he _ (some pt)).vertex = some v0
      rw [g1 pt, if_pos]
      rw [List.mem_map]
      exact ⟨pt, List.mem_filter.2 ⟨hptV, by simpa using hpte⟩, rfl⟩
  · have hne0 : ¬ s.halfedge (some v0) = some t := by
      rw [hh0]
      exact fun h => c (Option.some.inj h)
    refine ⟨_, h0, heq, ?_, ?_, ?_, c⟩
    · rw [g5, if_neg hne0, hh0]
    · show (Builder.he _ (some h0)).vertex = some v0
      rw [g1 h0]
      split
      · rfl
      · exact hh0v
    · intro h
      subst h
      rw [hev] at hh0v
      exact hv (Option.some.inj hh0v).symm

theorem MergeCoincidentNodes_joined_witness :
    (∃ s', exMerge.MergeCoincidentNodes 2 (some 0) (some 1) [] []
        = some (s', [some 0], [some 1])
      ∧ s'.vertex (some 2) = some 0 ∧ s'.IsExcluded (some 1) = true
      ∧ s'.next (some 4) = some 3 ∧ s'.prev (some 3) = some 4
      ∧ s'.next (some 2) = some 5 ∧ s'.prev (some 5) = some 2)
    ∧ exMerge.MergeCoincidentNodes 2 (some 3) (some 1) [] [] = some (exMerge, [], []) :=
  have h := MergeCoincidentNodes_joined exMerge 2 0 1 [] [] 0 [2] (by decide)
    (List.Chain.cons (by decide) (List.Chain.cons (by decide) List.Chain.nil))
    (by decide) (by decide) (by decide)
  have h3 := MergeCoincidentNodes_joined exMerge 2 3 1 [] [] 0 [2] (by decide)
    (List.Chain.cons (by decide) (List.Chain.cons (by decide) List.Chain.nil))
    (by decide) (by decide) (by decide)
  have ⟨s', a, b, c, _, _, d1, d2, d3, d4⟩ := h.1 0 1 4 3 2 5 (by decide) (by decide)
    (by decide) (by decide) (by decide) (by decide) (by decide) (by decide) (by decide)
    (by decide) (by decide)
  ⟨⟨s', a, b 2 (by decide) (by decide) (by decide), c, d1, d2, d3, d4⟩, h3.2 (by decide)⟩

theorem MergeCoincidentNodes_halfedge_targets_v0_witness :
    exMerge.halfedge (some 0) = some 1
    ∧ ∃ s' h', exMerge.MergeCoincidentNodes 2 (some 0) (some 1) [] []
        = some (s', [some 0], [some 1])
      ∧ s'.halfedge (some 0) = some h' ∧ s'.vertex (some h') = some 0 ∧ h' ≠ 0 ∧ h' ≠ 1 :=
  ⟨by decide, MergeCoincidentNodes_halfedge_targets_v0 exMerge 2 0 1 [] [] 0 [2] 0 1 4 3 2 5 1
    (by decide) (by decide)
    (List.Chain.cons (by decide) (List.Chain.cons (by decide) List.Chain.nil))
    (by decide) (by decide) (by decide) (by decide) (by decide) (by decide) (by decide)
    (by decide) (by decide) (by decide) (by decide) (by decide) (by decide) (by decide)
    (by decide) (by decide) (by decide)⟩

/-- The merge of the vertices 0 and 1 of `exMerge`, evaluated: halfedge 0 is queued, vertex 1
is queued, and the halfedge of vertex 0 becomes halfedge 2. -/
theorem MergeCoincidentNodes_exMerge :
    (exMerge.MergeCoincidentNodes 2 (some 0) (some 1) [] []).map
        (fun r => (r.1.halfedge (some 0), r.1.vertex (some 2), r.2))
      = some (some 2, some 0, [some 0], [some 1])
    ∧ exMerge.MergeCoincidentNodes 1 (some 0) (some 1) [] [] = none := by
  constructor
  · decide
  · rfl

/-! ## Finalization: the pass over the coincident nodes -/

/-- A property kept by every step of a loop that ends holds at its end. -/
theorem foldlM_option_inv {σ α : Type} (f : σ → α → Option σ) (P : σ → Prop) :
    ∀ (L : List α), (∀ st x st', x ∈ L → P st → f st x = some st' → P st') →
      ∀ st st', P st → L.foldlM f st = some st' → P st' := by
  intro L
  induction L with
  | nil =>
    intro _ st st' hP h
    simp only [List.foldlM_nil] at h
    cases h
    exact hP
  | cons x L ih =>
    intro hstep st st' hP h
    rw [List.foldlM_cons] at h
    cases hx : f st x with
    | none => rw [hx] at h; exact absurd h (by simp)
    | some st1 =>
      rw [hx] at h
      exact ih (fun a y b hy => hstep a y b (List.mem_cons_of_mem _ hy)) st1 st'
        (hstep st x st1 (List.mem_cons_self _ _) hP hx) h

/-- What the branch `handle_assigned(toremove0)` keeps of the vertices and the wrappers. -/
theorem exciseJoining_frame (s : Builder) (v0 : Vertex_handle) (n1 : Nat)
    (L : List Halfedge_handle) (h : Halfedge_handle) :
    (s.exciseJoining v0 (some n1) L h).mSSkel.vertexList = s.mSSkel.vertexList
    ∧ (∀ n, ((s.exciseJoining v0 (some n1) L h).vtx (some n)).id = (s.vtx (some n)).id
        ∧ ((s.exciseJoining v0 (some n1) L h).vtx (some n)).point = (s.vtx (some n)).point
        ∧ ((s.exciseJoining v0 (some n1) L h).vtx (some n)).is_skeleton
          = (s.vtx (some n)).is_skeleton)
    ∧ (∀ k, (s.exciseJoining v0 (some n1) L h).mWrappedVertices k
        = if (s.vtx (some n1)).id = k then { s.mWrappedVertices k with mIsExcluded := true }
          else s.mWrappedVertices k) := by
  unfold Builder.exciseJoining
  lift_lets
  extract_lets s1 s2 t1 s3 s4 s5 s6 s7
  obtain ⟨f1, f2, -, f4⟩ := relink_frame v0 L s
  have f4' : s1.mWrappedVertices = s.mWrappedVertices := f4
  have v1' : ∀ x, s1.vtx x = s.vtx x := by
    intro x
    rcases x with _ | n
    · rfl
    · show s1.mSSkel.vertices n = s.mSSkel.vertices n
      rw [f1]
  have w2 : ∀ k, s2.mWrappedVertices k
      = if (s.vtx (some n1)).id = k then { s.mWrappedVertices k with mIsExcluded := true }
        else s.mWrappedVertices k := by
    intro k
    simp only [s2, Builder.Exclude, wtab_updWrap, wrapIndex_some, v1', f4', Option.some.injEq]
  have x6 : ∀ x, s6.vtx x = s.vtx x := fun x => (rfl : s6.vtx x = s1.vtx x).trans (v1' x)
  have l6 : s6.mSSkel.vertexList = s.mSSkel.vertexList :=
    (rfl : _ = s1.mSSkel.vertexList).trans f2
  have w6 : s6.mWrappedVertices = s2.mWrappedVertices := rfl
  refine ⟨?_, ?_, ?_⟩
  · show (if s6.halfedge v0 = t1 then s6.set_halfedge v0 (s6.prev t1)
      else s6).mSSkel.vertexList = _
    split
    · exact l6
    · exact l6
  · intro n
    show ((if s6.halfedge v0 = t1 then s6.set_halfedge v0 (s6.prev t1) else s6).vtx
        (some n)).id = _
      ∧ ((if s6.halfedge v0 = t1 then s6.set_halfedge v0 (s6.prev t1) else s6).vtx
        (some n)).point = _
      ∧ ((if s6.halfedge v0 = t1 then s6.set_halfedge v0 (s6.prev t1) else s6).vtx
        (some n)).is_skeleton = _
    split
    · simp only [Builder.set_halfedge, vtx_updVertex, x6]
      split <;> exact ⟨rfl, rfl, rfl⟩
    · rw [x6]
      exact ⟨rfl, rfl, rfl⟩
  · intro k
    show (if s6.halfedge v0 = t1 then s6.set_halfedge v0 (s6.prev t1)
      else s6).mWrappedVertices k = _
    rw [← w2 k]
    split
    · rfl
    · rfl

/-- What `MergeCoincidentNodes(v0,v1,..)` keeps when it returns: the vertices keep id, point
and role and the list of vertices is kept; either nothing is queued and the wrappers are
kept, or `v1` is queued and the wrapper of `v1` is excluded. -/
theorem MergeCoincidentNodes_frame (s : Builder) (fuel : Nat) (v0 : Vertex_handle) (n1 : Nat)
    (lH : List Halfedge_handle) (lV : List Vertex_handle)
    (r : Builder × List Halfedge_handle × List Vertex_handle)
    (h : s.MergeCoincidentNodes fuel v0 (some n1) lH lV = some r) :
    r.1.mSSkel.vertexList = s.mSSkel.vertexList
    ∧ (∀ n, (r.1.vtx (some n)).id = (s.vtx (some n)).id
        ∧ (r.1.vtx (some n)).point = (s.vtx (some n)).point
        ∧ (r.1.vtx (some n)).is_skeleton = (s.vtx (some n)).is_skeleton)
    ∧ ((r.2.2 = lV ∧ r.1.mWrappedVertices = s.mWrappedVertices)
      ∨ (r.2.2 = lV ++ [some n1]
        ∧ ∀ k, r.1.mWrappedVertices k
          = if (s.vtx (some n1)).id = k then { s.mWrappedVertices k with mIsExcluded := true }
            else s.mWrappedVertices k)) := by
  unfold Builder.MergeCoincidentNodes at h
  simp only at h
  cases hs : s.scanAroundVertex v0 (s.halfedge (some n1)) fuel (s.halfedge (some n1))
      ([], none) with
  | none => rw [hs] at h; exact absurd h (by simp)
  | some a =>
    rw [hs] at h
    obtain ⟨l, t0⟩ := a
    simp only at h
    by_cases c : t0 ≠ none
    · rw [if_pos c] at h
      cases Option.some.inj h
      obtain ⟨g1, g2, g3⟩ := exciseJoining_frame s v0 n1 l t0
      exact ⟨g1, g2, Or.inr ⟨rfl, g3⟩⟩
    · rw [if_neg c] at h
      cases Option.some.inj h
      exact ⟨rfl, fun n => ⟨rfl, rfl, rfl⟩, Or.inl ⟨rfl, rfl⟩⟩

theorem MergeInv.isExcluded_of_entry (tr : Traits) (s0 : Builder) (st : MergePass)
    (I : MergeInv tr s0 st) (n : Nat) (h : st.s.IsExcluded (some n) = false) :
    s0.IsExcluded (some n) = false := by
  cases hc : s0.IsExcluded (some n) with
  | false => rfl
  | true =>
    have h1 : (s0.mWrappedVertices (s0.vtx (some n)).id).mIsExcluded = true := hc
    have h2 := I.grows _ h1
    have h3 : (st.s.mWrappedVertices (st.s.vtx (some n)).id).mIsExcluded = false := h
    rw [(I.data n).1, h2] at h3
    exact absurd h3 (by simp)

/-- The body of the inner loop keeps the invariant, for a vertex `v0` of the list that is a
skeleton vertex not excluded on entry. -/
theorem innerBody_inv (tr : Traits) (fuel : Nat) (s0 : Builder) (n0 n1 : Nat)
    (h0 : n0 ∈ s0.mSSkel.vertexList) (h1 : n1 ∈ s0.mSSkel.vertexList)
    (hs0 : (s0.vtx (some n0)).is_skeleton = true) (hx0 : s0.IsExcluded (some n0) = false)
    (st st' : MergePass) (I : MergeInv tr s0 st)
    (h : st.innerBody tr fuel (some n0) (some n1) = some st') : MergeInv tr s0 st' := by
  unfold MergePass.innerBody at h
  by_cases c1 : (some n0 : Vertex_handle) ≠ some n1 ∧ (st.s.vtx (some n1)).is_skeleton = true
      ∧ st.s.IsExcluded (some n1) = false
  · rw [if_pos c1] at h
    by_cases c2 : st.linked (st.s.vtx (some n0)).id (st.s.vtx (some n1)).id = false
        ∧ st.s.AreSkeletonNodesCoincident tr (some n0) (some n1) = true
    · rw [if_pos c2] at h
      cases hm : st.s.MergeCoincidentNodes fuel (some n0) (some n1) st.lHalfedgesToRemove
          st.lVerticesToRemove with
      | none => rw [hm] at h; exact absurd h (by simp)
      | some r =>
        rw [hm] at h
        simp only at h
        cases Option.some.inj h
        obtain ⟨g1, g2, g3⟩ := MergeCoincidentNodes_frame st.s fuel (some n0) n1 _ _ r hm
        have hne : n0 ≠ n1 := fun e => c1.1 (congrArg some e)
        have hsk1 : (s0.vtx (some n1)).is_skeleton = true := by
          rw [← (I.data n1).2.2]
          exact c1.2.1
        have hex1 : s0.IsExcluded (some n1) = false :=
          I.isExcluded_of_entry tr s0 st n1 c1.2.2
        have hco : s0.AreSkeletonNodesCoincident tr (some n0) (some n1) = true := by
          have := c2.2
          unfold Builder.AreSkeletonNodesCoincident at this ⊢
          rw [(I.data n0).2.1, (I.data n1).2.1] at this
          exact this
        have hdata : ∀ n, (r.1.vtx (some n)).id = (s0.vtx (some n)).id
            ∧ (r.1.vtx (some n)).point = (s0.vtx (some n)).point
            ∧ (r.1.vtx (some n)).is_skeleton = (s0.vtx (some n)).is_skeleton := fun n =>
          ⟨((g2 n).1).trans (I.data n).1, ((g2 n).2.1).trans (I.data n).2.1,
            ((g2 n).2.2).trans (I.data n).2.2⟩
        have hpair : ∀ p ∈ st.graph ++ [((r.1.vtx (some n0)).id, (r.1.vtx (some n1)).id)],
            ∃ m0 m1, m0 ∈ s0.mSSkel.vertexList ∧ m1 ∈ s0.mSSkel.vertexList
              ∧ p = ((s0.vtx (some m0)).id, (s0.vtx (some m1)).id) ∧ m0 ≠ m1
              ∧ (s0.vtx (some m0)).is_skeleton = true ∧ (s0.vtx (some m1)).is_skeleton = true
              ∧ s0.IsExcluded (some m0) = false ∧ s0.IsExcluded (some m1) = false
              ∧ s0.AreSkeletonNodesCoincident tr (some m0) (some m1) = true := by
          intro p hp
          rcases List.mem_append.1 hp with hp | hp
          · exact I.pairs p hp
          · rw [List.mem_singleton] at hp
            refine ⟨n0, n1, h0, h1, ?_, hne, hs0, hsk1, hx0, hex1, hco⟩
            rw [hp, (hdata n0).1, (hdata n1).1]
        rcases g3 with ⟨q1, q2⟩ | ⟨q1, q2⟩
        · exact
            { data := hdata
              vertexList := g1.trans I.vertexList
              grows := fun k hk => by
                show (r.1.mWrappedVertices k).mIsExcluded = true
                rw [q2]
                exact I.grows k hk
              queued := fun v hv => by
                have hv' : v ∈ st.lVerticesToRemove := by
                  have : v ∈ r.2.2 := hv
                  rw [q1] at this
                  exact this
                obtain ⟨n, a1, a2, a3, a4, a5⟩ := I.queued v hv'
                refine ⟨n, a1, a2, a3, a4, ?_⟩
                show (r.1.mWrappedVertices (r.1.vtx (some n)).id).mIsExcluded = true
                rw [q2, (g2 n).1]
                exact a5
              nodup := by
                show r.2.2.Nodup
                rw [q1]
                exact I.nodup
              excluded := fun k hk => by
                have hk' : (r.1.mWrappedVertices k).mIsExcluded = true := hk
                rw [q2] at hk'
                rcases I.excluded k hk' with a | ⟨n, a, b⟩
                · exact Or.inl a
                · refine Or.inr ⟨n, ?_, b⟩
                  show some n ∈ r.2.2
                  rw [q1]
                  exact a
              pairs := hpair }
        · have hnot : (some n1 : Vertex_handle) ∉ st.lVerticesToRemove := by
            intro hin
            obtain ⟨n, -, a2, -, -, a5⟩ := I.queued _ hin
            cases Option.some.inj a2
            rw [c1.2.2] at a5
            exact absurd a5 (by simp)
          have hmono : ∀ k, (st.s.mWrappedVertices k).mIsExcluded = true →
              (r.1.mWrappedVertices k).mIsExcluded = true := by
            intro k hk
            rw [q2 k]
            split
            · rfl
            · exact hk
          exact
            { data := hdata
              vertexList := g1.trans I.vertexList
              grows := fun k hk => hmono k (I.grows k hk)
              queued := fun v hv => by
                have hv' : v ∈ st.lVerticesToRemove ++ [some n1] := by
                  have : v ∈ r.2.2 := hv
                  rw [q1] at this
                  exact this
                rcases List.mem_append.1 hv' with hv' | hv'
                · obtain ⟨n, a1, a2, a3, a4, a5⟩ := I.queued v hv'
                  refine ⟨n, a1, a2, a3, a4, ?_⟩
                  show (r.1.mWrappedVertices (r.1.vtx (some n)).id).mIsExcluded = true
                  rw [(g2 n).1]
                  exact hmono _ a5
                · rw [List.mem_singleton] at hv'
                  refine ⟨n1, h1, hv', hsk1, hex1, ?_⟩
                  show (r.1.mWrappedVertices (r.1.vtx (some n1)).id).mIsExcluded = true
                  rw [(g2 n1).1, q2, if_pos rfl]
              nodup := by
                show r.2.2.Nodup
                rw [q1]
                exact List.Nodup.append I.nodup (List.nodup_singleton _)
                  (by
                    intro a ha hb
                    rw [List.mem_singleton] at hb
                    exact hnot (hb ▸ ha))
              excluded := fun k hk => by
                have hk' : (r.1.mWrappedVertices k).mIsExcluded = true := hk
                rw [q2] at hk'
                by_cases ck : (st.s.vtx (some n1)).id = k
                · refine Or.inr ⟨n1, ?_, ?_⟩
                  · show some n1 ∈ r.2.2
                    rw [q1]
                    exact List.mem_append_right _ (List.mem_singleton.2 rfl)
                  · rw [← (I.data n1).1]
                    exact ck
                · rw [if_neg ck] at hk'
                  rcases I.excluded k hk' with a | ⟨n, a, b⟩
                  · exact Or.inl a
                  · refine Or.inr ⟨n, ?_, b⟩
                    show some n ∈ r.2.2
                    rw [q1]
                    exact List.mem_append_left _ a
              pairs := hpair }
    · rw [if_neg c2] at h
      cases Option.some.inj h
      exact I
  · rw [if_neg c1] at h
    cases Option.some.inj h
    exact I

/-- The body of the outer loop keeps the invariant. -/
theorem outerBody_inv (tr : Traits) (fuel : Nat) (s0 : Builder) (n0 : Nat)
    (h0 : n0 ∈ s0.mSSkel.vertexList)
    (st st' : MergePass) (I : MergeInv tr s0 st)
    (h : st.outerBody tr fuel (some n0) = some st') : MergeInv tr s0 st' := by
  unfold MergePass.outerBody at h
  by_cases c : (st.s.vtx (some n0)).is_skeleton = true ∧ st.s.IsExcluded (some n0) = false
  · rw [if_pos c, I.vertexList] at h
    have hs0 : (s0.vtx (some n0)).is_skeleton = true := by
      rw [← (I.data n0).2.2]
      exact c.1
    have hx0 : s0.IsExcluded (some n0) = false := I.isExcluded_of_entry tr s0 st n0 c.2
    exact foldlM_option_inv (fun a v1 => a.innerBody tr fuel (some n0) (some v1))
      (MergeInv tr s0) s0.mSSkel.vertexList
      (fun a x b hx Ia hab => innerBody_inv tr fuel s0 n0 x h0 hx hs0 hx0 a b Ia hab)
      st st' I h
  · rw [if_neg c] at h
    cases Option.some.inj h
    exact I

/-- The loops of `MergeCoincidentNodes()` end in a state for which the invariant holds. -/
theorem mergeScan_inv (tr : Traits) (fuel : Nat) (s : Builder) (st : MergePass)
    (h : s.mergeScan tr fuel = some st) : MergeInv tr s st := by
  unfold Builder.mergeScan at h
  exact foldlM_option_inv (fun a v0 => a.outerBody tr fuel (some v0)) (MergeInv tr s)
    s.mSSkel.vertexList
    (fun a x b hx Ia hab => outerBody_inv tr fuel s x hx a b Ia hab)
    _ st
    { data := fun _ => ⟨rfl, rfl, rfl⟩
      vertexList := rfl
      grows := fun _ hk => hk
      queued := fun v hv => absurd hv (List.not_mem_nil _)
      nodup := List.nodup_nil
      excluded := fun _ hk => Or.inl hk
      pairs := fun p hp => absurd hp (List.not_mem_nil _) }
    h

/-- The vertices left after the erasure of the queued ones. -/
theorem vertices_erase_fold (L : List Vertex_handle) : ∀ (s : Builder) (n : Nat),
    n ∈ s.mSSkel.vertexList → some n ∉ L →
    n ∈ (L.foldl (fun a v => a.vertices_erase v) s).mSSkel.vertexList := by
  induction L with
  | nil => intro s n h _; exact h
  | cons v L ih =>
    intro s n h hn
    rw [List.foldl_cons]
    refine ih _ n ?_ (fun c => hn (List.mem_cons_of_mem _ c))
    rcases v with _ | m
    · exact h
    · have hne : n ≠ m := fun c => hn (c ▸ List.mem_cons_self _ _)
      exact (List.mem_erase_of_ne hne).2 h

theorem edges_erase_vertexList (s : Builder) (h : Halfedge_handle) :
    (s.edges_erase h).mSSkel.vertexList = s.mSSkel.vertexList := by
  unfold Builder.edges_erase
  rcases h with _ | j
  · rfl
  · simp only
    split <;> rfl

theorem edges_erase_fold_vertexList (L : List Halfedge_handle) : ∀ (s : Builder),
    (L.foldl (fun a h => a.edges_erase h) s).mSSkel.vertexList = s.mSSkel.vertexList := by
  induction L with
  | nil => intro s; rfl
  | cons h L ih =>
    intro s
    rw [List.foldl_cons, ih, edges_erase_vertexList]

/-- C27: the loops of `MergeCoincidentNodes()`, run from a state `s` whose vertices have
different ids to their end `st`. The body of the inner loop changes nothing unless `v1` is a
skeleton vertex other than `v0`, not excluded, not linked to `v0` in the matrix and coincident
with `v0`, and the body of the outer loop changes nothing unless `v0` is a skeleton vertex
that is not excluded. Every pair given to the merge (the pairs of the matrix) is a pair of
different skeleton vertices of the list with equal points, neither excluded on entry; every
queued vertex is a skeleton vertex of the list; no vertex is queued twice; a contour vertex
of the list is not queued, is excluded at the end only if it was on entry, and is still in
the list of vertices after the erasures. -/
theorem MergeCoincidentNodes_skeleton_only (tr : Traits) (fuel : Nat) (s : Builder)
    (st : MergePass)
    (hid : ∀ u ∈ s.mSSkel.vertexList, ∀ v ∈ s.mSSkel.vertexList,
      (s.vtx (some u)).id = (s.vtx (some v)).id → u = v)
    (hscan : s.mergeScan tr fuel = some st) :
    (∀ (a : MergePass) (v0 v1 : Vertex_handle),
      ¬ (v0 ≠ v1 ∧ (a.s.vtx v1).is_skeleton = true ∧ a.s.IsExcluded v1 = false
        ∧ a.linked (a.s.vtx v0).id (a.s.vtx v1).id = false
        ∧ a.s.AreSkeletonNodesCoincident tr v0 v1 = true) →
      a.innerBody tr fuel v0 v1 = some a)
    ∧ (∀ (a : MergePass) (v0 : Vertex_handle),
      ¬ ((a.s.vtx v0).is_skeleton = true ∧ a.s.IsExcluded v0 = false) →
      a.outerBody tr fuel v0 = some a)
    ∧ (∀ p ∈ st.graph, ∃ n0 n1, n0 ∈ s.mSSkel.vertexList ∧ n1 ∈ s.mSSkel.vertexList
      ∧ p = ((s.vtx (some n0)).id, (s.vtx (some n1)).id) ∧ n0 ≠ n1
      ∧ (s.vtx (some n0)).is_skeleton = true ∧ (s.vtx (some n1)).is_skeleton = true
      ∧ s.IsExcluded (some n0) = false ∧ s.IsExcluded (some n1) = false
      ∧ s.AreSkeletonNodesCoincident tr (some n0) (some n1) = true)
    ∧ (∀ v ∈ st.lVerticesToRemove, ∃ n, n ∈ s.mSSkel.vertexList ∧ v = some n
      ∧ (s.vtx (some n)).is_skeleton = true)
    ∧ st.lVerticesToRemove.Nodup
    ∧ (∀ n ∈ s.mSSkel.vertexList, (s.vtx (some n)).is_skeleton = false →
      some n ∉ st.lVerticesToRemove
      ∧ st.s.IsExcluded (some n) = s.IsExcluded (some n)
      ∧ ∃ s', s.MergeCoincidentNodesPass tr fuel = some s' ∧ n ∈ s'.mSSkel.vertexList) := by
  have I := mergeScan_inv tr fuel s st hscan
  refine ⟨?_, ?_, I.pairs, ?_, I.nodup, ?_⟩
  · intro a v0 v1 hg
    unfold MergePass.innerBody
    by_cases c1 : v0 ≠ v1 ∧ (a.s.vtx v1).is_skeleton = true ∧ a.s.IsExcluded v1 = false
    · rw [if_pos c1, if_neg (fun c2 => hg ⟨c1.1, c1.2.1, c1.2.2, c2.1, c2.2⟩)]
    · rw [if_neg c1]
  · intro a v0 hg
    unfold MergePass.outerBody
    rw [if_neg hg]
  · intro v hv
    obtain ⟨n, a1, a2, a3, -, -⟩ := I.queued v hv
    exact ⟨n, a1, a2, a3⟩
  · intro n hn hsk
    have hnot : some n ∉ st.lVerticesToRemove := by
      intro hin
      obtain ⟨m, -, a2, a3, -, -⟩ := I.queued _ hin
      cases Option.some.inj a2
      rw [hsk] at a3
      exact absurd a3 (by simp)
    refine ⟨hnot, ?_, ?_⟩
    · cases hc : st.s.IsExcluded (some n) with
      | false => exact (I.isExcluded_of_entry tr s st n hc).symm
      | true =>
        have h1 : (st.s.mWrappedVertices (st.s.vtx (some n)).id).mIsExcluded = true := hc
        rcases I.excluded _ h1 with a | ⟨m, a, b⟩
        · rw [(I.data n).1] at a
          exact a.symm
        · obtain ⟨m', b1, b2, b3, -, -⟩ := I.queued _ a
          cases Option.some.inj b2
          rw [(I.data n).1] at b
          have := hid m b1 n hn b
          subst this
          rw [hsk] at b3
          exact absurd b3 (by simp)
    · refine ⟨st.lVerticesToRemove.foldl (fun a v => a.vertices_erase v)
        (st.lHalfedgesToRemove.foldl (fun a h => a.edges_erase h) st.s), ?_, ?_⟩
      · unfold Builder.MergeCoincidentNodesPass
        rw [hscan]
      · refine vertices_erase_fold _ _ n ?_ hnot
        rw [edges_erase_fold_vertexList, I.vertexList]
        exact hn

theorem MergeCoincidentNodes_skeleton_only_witness :
    (exMerge.MergeCoincidentNodesPass exEqualTraits 2).map
        (fun s => (s.mSSkel.vertexList, s.mSSkel.halfedgeList))
      = some ([0, 2, 3], [2, 3, 4, 5])
    ∧ ∃ st, exMerge.mergeScan exEqualTraits 2 = some st
      ∧ st.graph = [(0, 1)] ∧ st.lVerticesToRemove = [some 1]
      ∧ st.lVerticesToRemove.Nodup ∧ some 2 ∉ st.lVerticesToRemove
      ∧ st.s.IsExcluded (some 2) = false :=
  have ⟨st, h⟩ := Option.isSome_iff_exists.1
    (by decide : (exMerge.mergeScan exEqualTraits 2).isSome = true)
  have k := MergeCoincidentNodes_skeleton_only exEqualTraits 2 exMerge st (by decide) h
  have g : (exMerge.mergeScan exEqualTraits 2).map (fun a => (a.graph, a.lVerticesToRemove))
      = some ([(0, 1)], [some 1]) := by decide
  have g1 : st.graph = [(0, 1)] ∧ st.lVerticesToRemove = [some 1] := by
    rw [h] at g
    exact ⟨congrArg Prod.fst (Option.some.inj g), congrArg Prod.snd (Option.some.inj g)⟩
  ⟨by decide, st, h, g1.1, g1.2, k.2.2.2.2.1, (k.2.2.2.2.2 2 (by decide) (by decide)).1,
    ((k.2.2.2.2.2 2 (by decide) (by decide)).2.1).trans (by decide)⟩

/-! ## The three borders of two vertices -/

/-- C32: `GetDefiningBorders(L, R)` is the triple of the borders A and B of `L` and of `c`,
where `c` is the border B of `R` when the border A of `R` is one of the two borders of `L`,
and the border A of `R` otherwise. When exactly one of the two borders of `R` is a border of
`L`, `c` is the border of `R` that is not a border of `L`. -/
theorem GetDefiningBorders_third (s : Builder) (L R : Vertex_handle) :
    s.GetDefiningBorders L R
      = ⟨s.GetDefiningBorderA L, s.GetDefiningBorderB L,
          if s.GetDefiningBorderA R = s.GetDefiningBorderA L
              ∨ s.GetDefiningBorderA R = s.GetDefiningBorderB L
          then s.GetDefiningBorderB R else s.GetDefiningBorderA R⟩
    ∧ (((s.GetDefiningBorderA R = s.GetDefiningBorderA L
            ∨ s.GetDefiningBorderA R = s.GetDefiningBorderB L)
          ∧ ¬ (s.GetDefiningBorderB R = s.GetDefiningBorderA L
            ∨ s.GetDefiningBorderB R = s.GetDefiningBorderB L)) →
        (s.GetDefiningBorders L R).e2 = s.GetDefiningBorderB R
        ∧ (s.GetDefiningBorders L R).e2 ≠ s.GetDefiningBorderA L
        ∧ (s.GetDefiningBorders L R).e2 ≠ s.GetDefiningBorderB L)
    ∧ ((¬ (s.GetDefiningBorderA R = s.GetDefiningBorderA L
            ∨ s.GetDefiningBorderA R = s.GetDefiningBorderB L)
          ∧ (s.GetDefiningBorderB R = s.GetDefiningBorderA L
            ∨ s.GetDefiningBorderB R = s.GetDefiningBorderB L)) →
        (s.GetDefiningBorders L R).e2 = s.GetDefiningBorderA R
        ∧ (s.GetDefiningBorders L R).e2 ≠ s.GetDefiningBorderA L
        ∧ (s.GetDefiningBorders L R).e2 ≠ s.GetDefiningBorderB L) := by
  have h : s.GetDefiningBorders L R
      = ⟨s.GetDefiningBorderA L, s.GetDefiningBorderB L,
          if s.GetDefiningBorderA R = s.GetDefiningBorderA L
              ∨ s.GetDefiningBorderA R = s.GetDefiningBorderB L
          then s.GetDefiningBorderB R else s.GetDefiningBorderA R⟩ := by
    unfold Builder.GetDefiningBorders
    simp only [Triedge.mk.injEq, true_and]
    exact if_congr (or_congr eq_comm eq_comm) rfl rfl
  refine ⟨h, ?_, ?_⟩
  · rintro ⟨h1, h2⟩
    rw [h]
    simp only
    rw [if_pos h1]
    exact ⟨rfl, fun c => h2 (Or.inl c), fun c => h2 (Or.inr c)⟩
  · rintro ⟨h1, h2⟩
    rw [h]
    simp only
    rw [if_neg h1]
    exact ⟨rfl, fun c => h1 (Or.inl c), fun c => h1 (Or.inr c)⟩

theorem GetDefiningBorders_third_witness :
    exQuad.GetDefiningBorders (some 0) (some 1) = ⟨some 0, some 1, some 2⟩
    ∧ (exQuad.GetDefiningBorders (some 0) (some 1)).e2 ≠ exQuad.GetDefiningBorderB (some 0) :=
  have h := GetDefiningBorders_third exQuad (some 0) (some 1)
  ⟨h.1.trans (by decide), (h.2.1 (by decide)).2.2⟩
/-! ## The assertion of `HandleSimultaneousEdgeEvent` -/

theorem guarded_set_halfedge_vtx (st : Builder) (v aB : Vertex_handle)
    (h : Halfedge_handle) (a : Nat) :
    (if (handle_assigned v && v != some a && v != aB) = true then st.set_halfedge v h
      else st).vtx (some a) = st.vtx (some a) := by
  by_cases hb : (handle_assigned v && v != some a && v != aB) = true
  · rw [if_pos hb]
    simp only [Bool.and_eq_true, bne_iff_ne, ne_eq] at hb
    simp only [Builder.set_halfedge, vtx_updVertex, hb.1.2, ↓reduceIte]
  · rw [if_neg hb]

/-- The halfedge of `aA` is not moved by `HandleSimultaneousEdgeEvent(aA, aB)`. -/
theorem HandleSimultaneousEdgeEvent_halfedge (s : Builder) (a : Nat) (aB : Vertex_handle) :
    (s.HandleSimultaneousEdgeEvent (some a) aB).vtx (some a) = s.vtx (some a) := by
  unfold Builder.HandleSimultaneousEdgeEvent
  dsimp only
  exact (guarded_set_halfedge_vtx _ _ aB _ a).trans
    ((guarded_set_halfedge_vtx _ _ aB _ a).trans rfl)

/-- C37: in a state where the vertex `A` has a halfedge and that halfedge is the one before
the primary bisector of `A`, after `HandleSimultaneousEdgeEvent(A, B)` the primary bisector of
`A` is the twin of the primary bisector that `B` had on entry, which is what the assertion at
the end of the function states. -/
theorem HandleSimultaneousEdgeEvent_assertion (s : Builder) (a h : Nat) (aB : Vertex_handle)
    (hH : s.halfedge (some a) = some h)
    (hP : s.prev (s.primary_bisector (some a)) = s.halfedge (some a)) :
    (s.HandleSimultaneousEdgeEvent (some a) aB).primary_bisector (some a)
      = s.opposite (s.primary_bisector aB) := by
  have hv := HandleSimultaneousEdgeEvent_halfedge s a aB
  have ht := (HandleSimultaneousEdgeEvent_tables s (some a) aB).1
  have h1 : (s.HandleSimultaneousEdgeEvent (some a) aB).halfedge (some a) = some h := by
    show ((s.HandleSimultaneousEdgeEvent (some a) aB).vtx (some a)).halfedge = some h
    rw [hv]
    exact hH
  unfold Builder.primary_bisector at hP
  rw [hH] at hP
  have h2 : (s.HandleSimultaneousEdgeEvent (some a) aB).primary_bisector (some a)
      = ((s.HandleSimultaneousEdgeEvent (some a) aB).mSSkel.halfedges h).next := by
    unfold Builder.primary_bisector
    rw [h1]
    rfl
  rw [h2, ht]
  unfold Builder.primary_bisector
  rw [hH, hP]
  simp only [Builder.set_vertex, Builder.set_next, Builder.set_prev, Builder.updHalfedge,
    apply_ite Halfedge.next, ite_self, ↓reduceIte]

theorem HandleSimultaneousEdgeEvent_assertion_witness :
    (exQuad.HandleSimultaneousEdgeEvent (some 0) (some 1)).primary_bisector (some 0) = some 11 :=
  (HandleSimultaneousEdgeEvent_assertion exQuad 0 0 (some 1) (by decide) (by decide)).trans
    (by decide)
/-! ## The ring of two vertices -/

/-- C36: for a vertex `u` and its LAV successor `v`, with the border B of each the border A
of the other, and with the defining contour edges of the primary bisector of each
and of its twin the borders A and B of the vertex: the primary bisectors of `u` and `v` are
coincident, `UpdatePQ(u)` is a call of `HandleSimultaneousEdgeEvent` on `u` and its LAV
predecessor or on `u` and `v` (on `u` and `v` when `v` is also the predecessor of `u`, as in a
ring), and it leaves the queue and the event store as they are. -/
theorem UpdatePQ_two_ring (tr : Traits) (s : Builder) (u v : Nat)
    (hnu : s.GetNextInLAV (some u) = some v)
    (hAB : s.GetDefiningBorderB (some u) = s.GetDefiningBorderA (some v))
    (hBA : s.GetDefiningBorderB (some v) = s.GetDefiningBorderA (some u))
    (huA : s.defining_contour_edge (s.primary_bisector (some u))
      = s.GetDefiningBorderA (some u))
    (huB : s.defining_contour_edge (s.opposite (s.primary_bisector (some u)))
      = s.GetDefiningBorderB (some u))
    (hvA : s.defining_contour_edge (s.primary_bisector (some v))
      = s.GetDefiningBorderA (some v))
    (hvB : s.defining_contour_edge (s.opposite (s.primary_bisector (some v)))
      = s.GetDefiningBorderB (some v)) :
    s.AreBisectorsCoincident (s.primary_bisector (some u)) (s.primary_bisector (some v)) = true
    ∧ (s.UpdatePQ tr (some u) = s.HandleSimultaneousEdgeEvent (some u) (s.GetPrevInLAV (some u))
      ∨ s.UpdatePQ tr (some u) = s.HandleSimultaneousEdgeEvent (some u) (some v))
    ∧ (s.GetPrevInLAV (some u) = some v →
      s.UpdatePQ tr (some u) = s.HandleSimultaneousEdgeEvent (some u) (some v))
    ∧ (s.UpdatePQ tr (some u)).mPQ = s.mPQ
    ∧ (s.UpdatePQ tr (some u)).mEvents = s.mEvents
    ∧ (s.UpdatePQ tr (some u)).mEventCount = s.mEventCount := by
  have hco : s.AreBisectorsCoincident (s.primary_bisector (some u))
      (s.primary_bisector (some v)) = true := by
    unfold Builder.AreBisectorsCoincident
    dsimp only
    rw [huA, huB, hvA, hvB, ← hAB, hBA]
    simp only [beq_self_eq_true, Bool.and_self, Bool.or_true]
  have hor : s.UpdatePQ tr (some u)
        = s.HandleSimultaneousEdgeEvent (some u) (s.GetPrevInLAV (some u))
      ∨ s.UpdatePQ tr (some u) = s.HandleSimultaneousEdgeEvent (some u) (some v) := by
    unfold Builder.UpdatePQ
    dsimp only
    by_cases c : s.AreBisectorsCoincident (s.primary_bisector (some u))
        (s.primary_bisector (s.GetPrevInLAV (some u))) = true
    · rw [if_pos c]
      exact Or.inl rfl
    · rw [if_neg c, hnu, if_pos hco]
      exact Or.inr rfl
  refine ⟨hco, hor, ?_, ?_, ?_, ?_⟩
  · intro hp
    rcases hor with h | h
    · rw [h, hp]
    · exact h
  · rcases hor with h | h <;> rw [h] <;>
      exact (HandleSimultaneousEdgeEvent_frame s _ _).2.2.1
  · rcases hor with h | h <;> rw [h] <;>
      exact (HandleSimultaneousEdgeEvent_frame s _ _).1
  · rcases hor with h | h <;> rw [h] <;>
      exact (HandleSimultaneousEdgeEvent_frame s _ _).2.1

theorem UpdatePQ_two_ring_witness :
    exTwoRing.UpdatePQ (exTraits true false true) (some 0)
        = exTwoRing.HandleSimultaneousEdgeEvent (some 0) (some 1)
    ∧ (exTwoRing.UpdatePQ (exTraits true false true) (some 0)).mPQ = [] :=
  have h := UpdatePQ_two_ring (exTraits true false true) exTwoRing 0 1 (by decide)
    (by decide) (by decide) (by decide) (by decide) (by decide) (by decide)
  ⟨h.2.2.1 (by decide), h.2.2.2.1⟩
/-! ## Vertex ids and the wrapper table -/

theorem ConstructEdgeEventNode_wrapped (s : Builder) (e : EventPtr) (i : Nat) :
    ((s.ConstructEdgeEventNode e).1.mWrappedVertices i).vertex
      = if i = s.mWrappedCount then some s.mSSkel.vertexNext
        else (s.mWrappedVertices i).vertex := by
  simp [Builder.ConstructEdgeEventNode, Builder.vertices_push_back, Builder.SLAV_push_back,
    Builder.wrapped_push_back, Builder.set_halfedge, Builder.updVertex, Builder.set_vertex,
    Builder.set_prev, Builder.set_next, Builder.updHalfedge, Builder.SetIsProcessed,
    Builder.updWrap, Builder.SLAV_remove, Builder.SetPrevInLAV, Builder.SetNextInLAV,
    VertexWrapper.mk1, apply_ite VertexWrapper.vertex]

theorem ConstructEdgeEventNode_ids (s : Builder) (e : EventPtr) (j : Nat) :
    ((s.ConstructEdgeEventNode e).1.mSSkel.vertices j).id
      = if j = s.mSSkel.vertexNext then s.mVertexID else (s.mSSkel.vertices j).id := by
  simp [Builder.ConstructEdgeEventNode, Builder.vertices_push_back, Builder.SLAV_push_back,
    Builder.wrapped_push_back, Builder.set_halfedge, Builder.updVertex, Builder.set_vertex,
    Builder.set_prev, Builder.set_next, Builder.updHalfedge, Builder.SetIsProcessed,
    Builder.updWrap, Builder.SLAV_remove, Builder.SetPrevInLAV, Builder.SetNextInLAV,
    Vertex.mk3, apply_ite Vertex.id]

theorem ConstructSplitEventNodes_wrapped (s : Builder) (e : EventPtr) (aOppR : Vertex_handle)
    (i : Nat) :
    ((s.ConstructSplitEventNodes e aOppR).1.mWrappedVertices i).vertex
      = if i = s.mWrappedCount + 1 then some (s.mSSkel.vertexNext + 1)
        else if i = s.mWrappedCount then some s.mSSkel.vertexNext
        else (s.mWrappedVertices i).vertex := by
  simp [Builder.ConstructSplitEventNodes, Builder.vertices_push_back, Builder.SLAV_push_back,
    Builder.wrapped_push_back, Builder.set_halfedge, Builder.updVertex, Builder.set_vertex,
    Builder.set_prev, Builder.set_next, Builder.updHalfedge, Builder.SetIsProcessed,
    Builder.updWrap, Builder.SLAV_remove, Builder.SetPrevInLAV, Builder.SetNextInLAV,
    VertexWrapper.mk1, apply_ite VertexWrapper.vertex]

theorem ConstructSplitEventNodes_ids (s : Builder) (e : EventPtr) (aOppR : Vertex_handle)
    (j : Nat) :
    ((s.ConstructSplitEventNodes e aOppR).1.mSSkel.vertices j).id
      = if j = s.mSSkel.vertexNext + 1 then s.mVertexID + 1
        else if j = s.mSSkel.vertexNext then s.mVertexID else (s.mSSkel.vertices j).id := by
  simp [Builder.ConstructSplitEventNodes, Builder.vertices_push_back, Builder.SLAV_push_back,
    Builder.wrapped_push_back, Builder.set_halfedge, Builder.updVertex, Builder.set_vertex,
    Builder.set_prev, Builder.set_next, Builder.updHalfedge, Builder.SetIsProcessed,
    Builder.updWrap, Builder.SLAV_remove, Builder.SetPrevInLAV, Builder.SetNextInLAV,
    Vertex.mk3, apply_ite Vertex.id]

theorem ConstructVertexEventNodes_wrapped (s : Builder) (e : EventPtr) (i : Nat) :
    ((s.ConstructVertexEventNodes e).1.mWrappedVertices i).vertex
      = if i = s.mWrappedCount + 1 then some (s.mSSkel.vertexNext + 1)
        else if i = s.mWrappedCount then some s.mSSkel.vertexNext
        else (s.mWrappedVertices i).vertex := by
  simp [Builder.ConstructVertexEventNodes, Builder.vertices_push_back, Builder.SLAV_push_back,
    Builder.wrapped_push_back, Builder.set_halfedge, Builder.updVertex, Builder.set_vertex,
    Builder.set_prev, Builder.set_next, Builder.updHalfedge, Builder.SetIsProcessed,
    Builder.updWrap, Builder.SLAV_remove, Builder.SetPrevInLAV, Builder.SetNextInLAV,
    VertexWrapper.mk1, apply_ite VertexWrapper.vertex]

theorem ConstructVertexEventNodes_ids (s : Builder) (e : EventPtr) (j : Nat) :
    ((s.ConstructVertexEventNodes e).1.mSSkel.vertices j).id
      = if j = s.mSSkel.vertexNext + 1 then s.mVertexID + 1
        else if j = s.mSSkel.vertexNext then s.mVertexID else (s.mSSkel.vertices j).id := by
  simp [Builder.ConstructVertexEventNodes, Builder.vertices_push_back, Builder.SLAV_push_back,
    Builder.wrapped_push_back, Builder.set_halfedge, Builder.updVertex, Builder.set_vertex,
    Builder.set_prev, Builder.set_next, Builder.updHalfedge, Builder.SetIsProcessed,
    Builder.updWrap, Builder.SLAV_remove, Builder.SetPrevInLAV, Builder.SetNextInLAV,
    Vertex.mk3, apply_ite Vertex.id]

/-- One vertex and its wrapper appended to an aligned state leave it aligned. -/
theorem WrappersAligned_push (s r : Builder) (h : s.WrappersAligned)
    (hwc : r.mWrappedCount = s.mWrappedCount + 1) (hid : r.mVertexID = s.mVertexID + 1)
    (hvn : r.mSSkel.vertexNext = s.mSSkel.vertexNext + 1)
    (hw : ∀ i, (r.mWrappedVertices i).vertex
      = if i = s.mWrappedCount then some s.mSSkel.vertexNext else (s.mWrappedVertices i).vertex)
    (hv : ∀ j, (r.mSSkel.vertices j).id
      = if j = s.mSSkel.vertexNext then s.mVertexID else (s.mSSkel.vertices j).id) :
    r.WrappersAligned := by
  obtain ⟨hc, ha⟩ := h
  refine ⟨by omega, fun i hi => ?_⟩
  unfold Builder.wrapsOwnId
  rw [hw i]
  by_cases h1 : i = s.mWrappedCount
  · rw [if_pos h1]
    refine ⟨by omega, ?_⟩
    rw [hv, if_pos rfl]; omega
  · rw [if_neg h1]
    have hi' : i < s.mWrappedCount := by omega
    have := ha i hi'
    unfold Builder.wrapsOwnId at this
    cases hx : (s.mWrappedVertices i).vertex with
    | none => rw [hx] at this; exact this.elim
    | some n =>
      rw [hx] at this
      refine ⟨by omega, ?_⟩
      rw [hv, if_neg (by omega)]; exact this.2

/-- Two vertices and their wrappers appended to an aligned state leave it aligned. -/
theorem WrappersAligned_push_two (s r : Builder) (h : s.WrappersAligned)
    (hwc : r.mWrappedCount = s.mWrappedCount + 2) (hid : r.mVertexID = s.mVertexID + 2)
    (hvn : r.mSSkel.vertexNext = s.mSSkel.vertexNext + 2)
    (hw : ∀ i, (r.mWrappedVertices i).vertex
      = if i = s.mWrappedCount + 1 then some (s.mSSkel.vertexNext + 1)
        else if i = s.mWrappedCount then some s.mSSkel.vertexNext
        else (s.mWrappedVertices i).vertex)
    (hv : ∀ j, (r.mSSkel.vertices j).id
      = if j = s.mSSkel.vertexNext + 1 then s.mVertexID + 1
        else if j = s.mSSkel.vertexNext then s.mVertexID else (s.mSSkel.vertices j).id) :
    r.WrappersAligned := by
  obtain ⟨hc, ha⟩ := h
  refine ⟨by omega, fun i hi => ?_⟩
  unfold Builder.wrapsOwnId
  rw [hw i]
  by_cases h1 : i = s.mWrappedCount + 1
  · rw [if_pos h1]
    refine ⟨by omega, ?_⟩
    rw [hv, if_pos rfl]; omega
  · rw [if_neg h1]
    by_cases h2 : i = s.mWrappedCount
    · rw [if_pos h2]
      refine ⟨by omega, ?_⟩
      rw [hv, if_neg (by omega), if_pos rfl]; omega
    · rw [if_neg h2]
      have hi' : i < s.mWrappedCount := by omega
      have := ha i hi'
      unfold Builder.wrapsOwnId at this
      cases hx : (s.mWrappedVertices i).vertex with
      | none => rw [hx] at this; exact this.elim
      | some n =>
        rw [hx] at this
        refine ⟨by omega, ?_⟩
        rw [hv, if_neg (by omega), if_neg (by omega)]; exact this.2

/-- C38: vertex ids stay dense and aligned with the wrapper table. When on entry the wrapper
vector is as long as the vertex-id counter and its `i`-th entry wraps the vertex with id `i`,
then `ConstructEdgeEventNode` makes one vertex, and `ConstructSplitEventNodes` and
`ConstructVertexEventNodes` make two each: the counter and the wrapper vector grow by that
number, the new vertices are appended to the vertex list in creation order, their ids are the
old counter value and (for the second) its successor, hence distinct, and the wrapper vector is
aligned with the ids again. -/
theorem Construct_nodes_aligned (s : Builder) (e : EventPtr) (aOppR : Vertex_handle)
    (h : s.WrappersAligned) :
    ((s.ConstructEdgeEventNode e).1.mVertexID = s.mVertexID + 1
      ∧ (s.ConstructEdgeEventNode e).1.mWrappedCount = s.mWrappedCount + 1
      ∧ (s.ConstructEdgeEventNode e).1.mSSkel.vertexList
          = s.mSSkel.vertexList ++ [s.mSSkel.vertexNext]
      ∧ (s.ConstructEdgeEventNode e).2 = some s.mSSkel.vertexNext
      ∧ ((s.ConstructEdgeEventNode e).1.vtx (s.ConstructEdgeEventNode e).2).id = s.mVertexID
      ∧ (s.ConstructEdgeEventNode e).1.WrappersAligned)
    ∧ ((s.ConstructSplitEventNodes e aOppR).1.mVertexID = s.mVertexID + 2
      ∧ (s.ConstructSplitEventNodes e aOppR).1.mWrappedCount = s.mWrappedCount + 2
      ∧ (s.ConstructSplitEventNodes e aOppR).1.mSSkel.vertexList
          = s.mSSkel.vertexList ++ [s.mSSkel.vertexNext, s.mSSkel.vertexNext + 1]
      ∧ (s.ConstructSplitEventNodes e aOppR).2
          = (some s.mSSkel.vertexNext, some (s.mSSkel.vertexNext + 1))
      ∧ ((s.ConstructSplitEventNodes e aOppR).1.vtx (s.ConstructSplitEventNodes e aOppR).2.1).id
          = s.mVertexID
      ∧ ((s.ConstructSplitEventNodes e aOppR).1.vtx (s.ConstructSplitEventNodes e aOppR).2.2).id
          = s.mVertexID + 1
      ∧ ((s.ConstructSplitEventNodes e aOppR).1.vtx (s.ConstructSplitEventNodes e aOppR).2.1).id
          ≠ ((s.ConstructSplitEventNodes e aOppR).1.vtx
              (s.ConstructSplitEventNodes e aOppR).2.2).id
      ∧ (s.ConstructSplitEventNodes e aOppR).1.WrappersAligned)
    ∧ ((s.ConstructVertexEventNodes e).1.mVertexID = s.mVertexID + 2
      ∧ (s.ConstructVertexEventNodes e).1.mWrappedCount = s.mWrappedCount + 2
      ∧ (s.ConstructVertexEventNodes e).1.mSSkel.vertexList
          = s.mSSkel.vertexList ++ [s.mSSkel.vertexNext, s.mSSkel.vertexNext + 1]
      ∧ (s.ConstructVertexEventNodes e).2
          = (some s.mSSkel.vertexNext, some (s.mSSkel.vertexNext + 1))
      ∧ ((s.ConstructVertexEventNodes e).1.vtx (s.ConstructVertexEventNodes e).2.1).id
          = s.mVertexID
      ∧ ((s.ConstructVertexEventNodes e).1.vtx (s.ConstructVertexEventNodes e).2.2).id
          = s.mVertexID + 1
      ∧ ((s.ConstructVertexEventNodes e).1.vtx (s.ConstructVertexEventNodes e).2.1).id
          ≠ ((s.ConstructVertexEventNodes e).1.vtx (s.ConstructVertexEventNodes e).2.2).id
      ∧ (s.ConstructVertexEventNodes e).1.WrappersAligned) := by
  have a1 : (s.ConstructEdgeEventNode e).2 = some s.mSSkel.vertexNext := rfl
  have a2 : (s.ConstructSplitEventNodes e aOppR).2
      = (some s.mSSkel.vertexNext, some (s.mSSkel.vertexNext + 1)) := rfl
  have a3 : (s.ConstructVertexEventNodes e).2
      = (some s.mSSkel.vertexNext, some (s.mSSkel.vertexNext + 1)) := rfl
  have b1 : ((s.ConstructEdgeEventNode e).1.vtx (s.ConstructEdgeEventNode e).2).id
      = s.mVertexID := by
    rw [a1]; exact (ConstructEdgeEventNode_ids s e _).trans (if_pos rfl)
  have b2 : ((s.ConstructSplitEventNodes e aOppR).1.vtx
      (s.ConstructSplitEventNodes e aOppR).2.1).id = s.mVertexID := by
    rw [a2]
    exact (ConstructSplitEventNodes_ids s e aOppR _).trans
      ((if_neg (by omega)).trans (if_pos rfl))
  have b3 : ((s.ConstructSplitEventNodes e aOppR).1.vtx
      (s.ConstructSplitEventNodes e aOppR).2.2).id = s.mVertexID + 1 := by
    rw [a2]; exact (ConstructSplitEventNodes_ids s e aOppR _).trans (if_pos rfl)
  have b4 : ((s.ConstructVertexEventNodes e).1.vtx (s.ConstructVertexEventNodes e).2.1).id
      = s.mVertexID := by
    rw [a3]
    exact (ConstructVertexEventNodes_ids s e _).trans ((if_neg (by omega)).trans (if_pos rfl))
  have b5 : ((s.ConstructVertexEventNodes e).1.vtx (s.ConstructVertexEventNodes e).2.2).id
      = s.mVertexID + 1 := by
    rw [a3]; exact (ConstructVertexEventNodes_ids s e _).trans (if_pos rfl)
  refine ⟨⟨rfl, ?_, ?_, a1, b1, ?_⟩, ⟨rfl, ?_, ?_, a2, b2, b3, ?_, ?_⟩,
    ⟨rfl, ?_, ?_, a3, b4, b5, ?_, ?_⟩⟩
  · rfl
  · rfl
  · exact WrappersAligned_push s _ h rfl rfl rfl (ConstructEdgeEventNode_wrapped s e)
      (ConstructEdgeEventNode_ids s e)
  · rfl
  · exact List.append_assoc _ _ _
  · rw [b2, b3]; omega
  · exact WrappersAligned_push_two s _ h rfl rfl rfl (ConstructSplitEventNodes_wrapped s e aOppR)
      (ConstructSplitEventNodes_ids s e aOppR)
  · rfl
  · exact List.append_assoc _ _ _
  · rw [b4, b5]; omega
  · exact WrappersAligned_push_two s _ h rfl rfl rfl (ConstructVertexEventNodes_wrapped s e)
      (ConstructVertexEventNodes_ids s e)

theorem Construct_nodes_aligned_witness :
    exQuad.WrappersAligned
    ∧ (exQuad.ConstructEdgeEventNode (some 0)).1.WrappersAligned
    ∧ ((exQuadSplit.ConstructSplitEventNodes (some 0) (some 3)).1.vtx
        (exQuadSplit.ConstructSplitEventNodes (some 0) (some 3)).2.2).id = 5
    ∧ (exQuadVertex.ConstructVertexEventNodes (some 0)).1.mVertexID = 6 :=
  ⟨by decide, (Construct_nodes_aligned exQuad (some 0) none (by decide)).1.2.2.2.2.2,
    (Construct_nodes_aligned exQuadSplit (some 0) (some 3) (by decide)).2.1.2.2.2.2.2.1,
    (Construct_nodes_aligned exQuadVertex (some 0) none (by decide)).2.2.1⟩

/-! ## The LAV links of processed vertices -/

theorem SeedsKept.kRefl (s : Builder) : SeedsKept s s :=
  ⟨fun _ => rfl, fun _ => ⟨rfl, rfl⟩, fun _ h => h⟩

theorem SeedsKept.kTrans {s s1 s2 : Builder} (h1 : SeedsKept s s1) (h2 : SeedsKept s1 s2) :
    SeedsKept s s2 :=
  ⟨fun j => (h2.ids j).trans (h1.ids j),
    fun k => ⟨(h2.links k).1.trans (h1.links k).1, (h2.links k).2.trans (h1.links k).2⟩,
    fun k h => h2.processed k (h1.processed k h)⟩

/-- A state with the wrappers and the vertex ids of `s`. -/
theorem SeedsKept.of_tables {s s' : Builder} (h1 : s'.mWrappedVertices = s.mWrappedVertices)
    (h2 : ∀ j, (s'.mSSkel.vertices j).id = (s.mSSkel.vertices j).id) : SeedsKept s s' :=
  ⟨h2, fun k => by rw [h1]; exact ⟨rfl, rfl⟩, fun k h => by rw [h1]; exact h⟩

/-- What `UpdatePQ` keeps, with the processed flags that stay set. -/
theorem SeedsKept.of_keeps {s s' : Builder} (h : UpdKeeps s s')
    (hp : ∀ k, (s.mWrappedVertices k).mIsProcessed = true →
      (s'.mWrappedVertices k).mIsProcessed = true) : SeedsKept s s' :=
  ⟨h.ids, fun k => ⟨(h.wrappers k).2.2.2.1, (h.wrappers k).2.2.2.2.1⟩, hp⟩

/-- A write to one wrapper that keeps its links and does not clear its processed flag. -/
theorem updWrap_seeds (s : Builder) (v : Vertex_handle) (f : VertexWrapper → VertexWrapper)
    (hf : ∀ w, (f w).mPrevInLAV = w.mPrevInLAV ∧ (f w).mNextInLAV = w.mNextInLAV
      ∧ (w.mIsProcessed = true → (f w).mIsProcessed = true)) : SeedsKept s (s.updWrap v f) := by
  refine ⟨fun _ => rfl, ?_, ?_⟩
  · intro k
    unfold Builder.updWrap
    dsimp only
    split
    · exact ⟨(hf _).1, (hf _).2.1⟩
    · exact ⟨rfl, rfl⟩
  · intro k
    unfold Builder.updWrap
    dsimp only
    split
    · exact (hf _).2.2
    · exact fun h => h

theorem EnqueEvent_seeds (s : Builder) (e : EventPtr) : SeedsKept s (s.EnqueEvent e) := by
  cases e
  · exact SeedsKept.kRefl s
  · exact SeedsKept.of_tables rfl (fun _ => rfl)

theorem newEvent_seeds (s : Builder) (e : Event) : SeedsKept s (s.newEvent e).1 :=
  SeedsKept.of_tables rfl (fun _ => rfl)

theorem AddReflexSplit_seeds (s : Builder) (v : Vertex_handle) (e : EventPtr) :
    SeedsKept s (s.AddReflexSplit v e) := by
  cases e
  · exact SeedsKept.kRefl s
  · exact updWrap_seeds s v (fun w => { w with mReflexSplits := w.mReflexSplits ++ [_] })
      (fun _ => ⟨rfl, rfl, fun h => h⟩)

theorem SetIsProcessed_seeds (s : Builder) (v : Vertex_handle) :
    SeedsKept s (s.SetIsProcessed v) :=
  updWrap_seeds s v (fun w => { w with mIsProcessed := true }) (fun _ => ⟨rfl, rfl, fun _ => rfl⟩)

theorem SetIsReflex_seeds (s : Builder) (v : Vertex_handle) :
    SeedsKept s (s.SetIsReflex v) :=
  updWrap_seeds s v (fun w => { w with mIsReflex := true }) (fun _ => ⟨rfl, rfl, fun h => h⟩)

theorem recordBorders_seeds (s : Builder) (v : Vertex_handle) (t : Triedge) :
    SeedsKept s (s.recordBorders v t) :=
  ((updWrap_seeds s v (fun w => { w with mDefiningBorderA := t.e0 })
      (fun _ => ⟨rfl, rfl, fun h => h⟩)).kTrans
    (updWrap_seeds _ v (fun w => { w with mDefiningBorderB := t.e1 })
      (fun _ => ⟨rfl, rfl, fun h => h⟩))).kTrans
    (updWrap_seeds _ v (fun w => { w with mDefiningBorderC := t.e2 })
      (fun _ => ⟨rfl, rfl, fun h => h⟩))

theorem updHalfedge_seeds (s : Builder) (h : Halfedge_handle) (f : Halfedge → Halfedge) :
    SeedsKept s (s.updHalfedge h f) :=
  SeedsKept.of_tables rfl (fun _ => rfl)

theorem set_halfedge_seeds (s : Builder) (v : Vertex_handle) (h : Halfedge_handle) :
    SeedsKept s (s.set_halfedge v h) :=
  SeedsKept.of_tables rfl (fun j => set_halfedge_id s v h j)

theorem cond_seeds {s : Builder} (c : Bool) {s' : Builder} (h : SeedsKept s s') :
    SeedsKept s (if c = true then s' else s) := by
  cases c
  · exact SeedsKept.kRefl s
  · exact h

theorem CollectSplitEvent_seeds (tr : Traits) (s : Builder) (N : Vertex_handle)
    (a b c : Halfedge_handle) : SeedsKept s (s.CollectSplitEvent tr N a b c) := by
  unfold Builder.CollectSplitEvent
  dsimp only
  split
  · split
    · refine SeedsKept.kTrans ?_ (EnqueEvent_seeds _ _)
      refine SeedsKept.kTrans (newEvent_seeds s (SplitEvent a b c N c)) ?_
      split
      · exact AddReflexSplit_seeds _ _ _
      · exact SeedsKept.kRefl _
    · exact SeedsKept.kRefl s
  · exact SeedsKept.kRefl s

theorem foldl_seeds {α : Type} (f : Builder → α → Builder)
    (hf : ∀ st x, SeedsKept st (f st x)) (l : List α) (s : Builder) :
    SeedsKept s (l.foldl f s) := by
  induction l generalizing s with
  | nil => exact SeedsKept.kRefl s
  | cons x rest ih => exact (hf s x).kTrans (ih (f s x))

theorem CollectSplitEvents_seeds (tr : Traits) (s : Builder) (N : Vertex_handle) :
    SeedsKept s (s.CollectSplitEvents tr N) := by
  unfold Builder.CollectSplitEvents
  dsimp only
  apply foldl_seeds
  intro st x
  split
  · exact CollectSplitEvent_seeds tr st N _ _ x
  · exact SeedsKept.kRefl st

theorem newEvent_or_none_seeds (s : Builder) (c : Prop) [Decidable c] (E : Event) :
    SeedsKept s (if c then s.newEvent E else (s, none)).1 := by
  split
  · exact newEvent_seeds s E
  · exact SeedsKept.kRefl s

theorem FindEdgeEvent_seeds (tr : Traits) (s : Builder) (L R : Vertex_handle) :
    SeedsKept s (s.FindEdgeEvent tr L R).1 := by
  unfold Builder.FindEdgeEvent
  dsimp only
  split
  · split
    · exact newEvent_or_none_seeds s _ _
    · exact SeedsKept.kRefl s
  · exact SeedsKept.kRefl s

theorem CollectNewEvents_seeds (tr : Traits) (s : Builder) (N : Vertex_handle) :
    SeedsKept s (s.CollectNewEvents tr N) := by
  unfold Builder.CollectNewEvents
  lift_lets
  extract_lets lPrev lNext s1 rL lL rR lR s3 aL aR lAccept s4
  have h1 : SeedsKept s s1 := by
    show SeedsKept s (if s.IsReflex N = true then s.CollectSplitEvents tr N else s)
    split
    · exact CollectSplitEvents_seeds tr s N
    · exact SeedsKept.kRefl s
  have h3 : SeedsKept s s3 :=
    h1.kTrans ((FindEdgeEvent_seeds tr s1 lPrev N).kTrans (FindEdgeEvent_seeds tr rL.1 N lNext))
  have h4 : SeedsKept s s4 := by
    show SeedsKept s (if lAccept.1 = true then s3.EnqueEvent lL else s3)
    split
    · exact h3.kTrans (EnqueEvent_seeds _ _)
    · exact h3
  split
  · exact h4.kTrans (EnqueEvent_seeds _ _)
  · exact h4

theorem SLAV_remove_seeds (s : Builder) (v : Vertex_handle) : SeedsKept s (s.SLAV_remove v) :=
  SeedsKept.of_tables rfl (fun _ => rfl)

theorem dangling_seeds (s : Builder) (l : List Halfedge_handle) :
    SeedsKept s { s with mDanglingBisectors := l } :=
  SeedsKept.of_tables rfl (fun _ => rfl)

theorem HandleSimultaneousEdgeEvent_seeds (s : Builder) (aA aB : Vertex_handle) :
    SeedsKept s (s.HandleSimultaneousEdgeEvent aA aB) := by
  unfold Builder.HandleSimultaneousEdgeEvent
  dsimp only
  refine SeedsKept.kTrans ?_ (cond_seeds _ (set_halfedge_seeds _ _ _))
  refine SeedsKept.kTrans ?_ (cond_seeds _ (set_halfedge_seeds _ _ _))
  refine SeedsKept.kTrans ?_ (dangling_seeds _ _)
  refine SeedsKept.kTrans ?_ (updHalfedge_seeds _ _ _)
  refine SeedsKept.kTrans ?_ (updHalfedge_seeds _ _ _)
  refine SeedsKept.kTrans ?_ (updHalfedge_seeds _ _ _)
  refine SeedsKept.kTrans ?_ (updHalfedge_seeds _ _ _)
  refine SeedsKept.kTrans ?_ (updHalfedge_seeds _ _ _)
  refine SeedsKept.kTrans ?_ (SLAV_remove_seeds _ _)
  refine SeedsKept.kTrans ?_ (SLAV_remove_seeds _ _)
  exact (SetIsProcessed_seeds s aA).kTrans (SetIsProcessed_seeds _ aB)

theorem UpdatePQ_seeds (tr : Traits) (s : Builder) (N : Vertex_handle) :
    SeedsKept s (s.UpdatePQ tr N) := by
  unfold Builder.UpdatePQ
  dsimp only
  split
  · exact HandleSimultaneousEdgeEvent_seeds s N _
  · split
    · exact HandleSimultaneousEdgeEvent_seeds s N _
    · exact CollectNewEvents_seeds tr s N

theorem SetupVertexEventNode_seeds (tr : Traits) (s : Builder) (N : Vertex_handle)
    (A B : Halfedge_handle) : SeedsKept s (s.SetupVertexEventNode tr N A B).1 := by
  rw [SetupVertexEventNode_eq]
  dsimp only
  split
  · exact SetIsReflex_seeds s N
  · exact SeedsKept.kRefl s

theorem OlderKept.same {n : Nat} {s0 st s' : Builder} (h : OlderKept n s0 st)
    (hw : s'.mWrappedVertices = st.mWrappedVertices)
    (hc : s'.mWrappedCount = st.mWrappedCount)
    (hi : ∀ j, (s'.mSSkel.vertices j).id = (st.mSSkel.vertices j).id) :
    OlderKept n s0 s' :=
  ⟨fun j => (hi j).trans (h.ids j), by rw [hc]; exact h.count,
    fun k hk hp => by rw [hw]; exact h.prevLink k hk hp,
    fun k hk hp => by rw [hw]; exact h.nextLink k hk hp,
    fun k hk => by rw [hw]; exact h.borders k hk⟩

theorem OlderKept.push {n : Nat} {s0 st : Builder} (h : OlderKept n s0 st)
    (w : VertexWrapper) : OlderKept n s0 (st.wrapped_push_back w) := by
  have hc := h.count
  have e : ∀ k, k < n → (st.wrapped_push_back w).mWrappedVertices k = st.mWrappedVertices k :=
    fun k hk => if_neg (by omega)
  refine ⟨h.ids, Nat.le_succ_of_le hc, fun k hk hp => ?_, fun k hk hp => ?_, fun k hk => ?_⟩
  · rw [e k hk]; exact h.prevLink k hk hp
  · rw [e k hk]; exact h.nextLink k hk hp
  · rw [e k hk]; exact h.borders k hk

/-- A write to one wrapper that leaves an assigned link assigned and keeps the borders. -/
theorem OlderKept.mono {n : Nat} {s0 st : Builder} (h : OlderKept n s0 st)
    (v : Vertex_handle) (f : VertexWrapper → VertexWrapper)
    (hf : ∀ w, (w.mPrevInLAV ≠ none → (f w).mPrevInLAV ≠ none)
      ∧ (w.mNextInLAV ≠ none → (f w).mNextInLAV ≠ none)
      ∧ (f w).mDefiningBorderA = w.mDefiningBorderA
      ∧ (f w).mDefiningBorderB = w.mDefiningBorderB) :
    OlderKept n s0 (st.updWrap v f) := by
  refine ⟨h.ids, h.count, fun k hk hp => ?_, fun k hk hp => ?_, fun k hk => ?_⟩
  · unfold Builder.updWrap
    dsimp only
    split
    · exact (hf _).1 (h.prevLink k hk hp)
    · exact h.prevLink k hk hp
  · unfold Builder.updWrap
    dsimp only
    split
    · exact (hf _).2.1 (h.nextLink k hk hp)
    · exact h.nextLink k hk hp
  · unfold Builder.updWrap
    dsimp only
    split
    · exact ⟨(hf _).2.2.1.trans (h.borders k hk).1, (hf _).2.2.2.trans (h.borders k hk).2⟩
    · exact h.borders k hk

/-- A write to the wrapper of a vertex whose id is not below `n`. -/
theorem OlderKept.fresh {n : Nat} {s0 st : Builder} (h : OlderKept n s0 st)
    (i m : Nat) (hid : (s0.mSSkel.vertices i).id = m) (hm : n ≤ m)
    (f : VertexWrapper → VertexWrapper) : OlderKept n s0 (st.updWrap (some i) f) := by
  have hx : ∀ k, k < n → (st.updWrap (some i) f).mWrappedVertices k = st.mWrappedVertices k := by
    intro k hk
    unfold Builder.updWrap
    dsimp only
    refine if_neg ?_
    rw [wrapIndex_some, Option.some.injEq]
    have e : (st.vtx (some i)).id = m := (h.ids i).trans hid
    rw [e]
    omega
  refine ⟨h.ids, h.count, fun k hk hp => ?_, fun k hk hp => ?_, fun k hk => ?_⟩
  · rw [hx k hk]; exact h.prevLink k hk hp
  · rw [hx k hk]; exact h.nextLink k hk hp
  · rw [hx k hk]; exact h.borders k hk

theorem OlderKept.setPrev {n : Nat} {s0 st : Builder} (h : OlderKept n s0 st)
    (v : Vertex_handle) (x : Nat) : OlderKept n s0 (st.SetPrevInLAV v (some x)) :=
  h.mono v (fun w => { w with mPrevInLAV := some x })
    (fun _ => ⟨fun _ => Option.some_ne_none x, fun hp => hp, rfl, rfl⟩)

theorem OlderKept.setNext {n : Nat} {s0 st : Builder} (h : OlderKept n s0 st)
    (v : Vertex_handle) (x : Nat) : OlderKept n s0 (st.SetNextInLAV v (some x)) :=
  h.mono v (fun w => { w with mNextInLAV := some x })
    (fun _ => ⟨fun hp => hp, fun _ => Option.some_ne_none x, rfl, rfl⟩)

theorem OlderKept.setProcessed {n : Nat} {s0 st : Builder} (h : OlderKept n s0 st)
    (v : Vertex_handle) : OlderKept n s0 (st.SetIsProcessed v) :=
  h.mono v (fun w => { w with mIsProcessed := true })
    (fun _ => ⟨fun hp => hp, fun hp => hp, rfl, rfl⟩)

theorem OlderKept.setHalfedge {n : Nat} {s0 st : Builder} (h : OlderKept n s0 st)
    (v : Vertex_handle) (x : Halfedge_handle) : OlderKept n s0 (st.set_halfedge v x) :=
  h.same rfl rfl (fun j => set_halfedge_id st v x j)

theorem OlderKept.updHalfedge {n : Nat} {s0 st : Builder} (h : OlderKept n s0 st)
    (x : Halfedge_handle) (f : Halfedge → Halfedge) : OlderKept n s0 (st.updHalfedge x f) :=
  h.same rfl rfl (fun _ => rfl)

theorem OlderKept.slavRemove {n : Nat} {s0 st : Builder} (h : OlderKept n s0 st)
    (v : Vertex_handle) : OlderKept n s0 (st.SLAV_remove v) :=
  h.same rfl rfl (fun _ => rfl)

theorem OlderKept.slavPush {n : Nat} {s0 st : Builder} (h : OlderKept n s0 st)
    (v : Vertex_handle) : OlderKept n s0 (st.SLAV_push_back v) := by
  cases v
  · exact h
  · exact h.same rfl rfl (fun _ => rfl)

theorem OlderKept.withSplitNodes {n : Nat} {s0 st : Builder} (h : OlderKept n s0 st)
    (l : List (Vertex_handle × Vertex_handle)) :
    OlderKept n s0 { st with mSplitNodes := l } :=
  h.same rfl rfl (fun _ => rfl)

theorem newVertex_self (s : Builder) (p : Point_2) (t : FT) (n : Nat)
    (hc : n ≤ s.mWrappedCount) : OlderKept n (s.newVertex p t) (s.newVertex p t) :=
  ⟨fun _ => rfl, hc, fun _ _ hp => hp, fun _ _ hp => hp, fun _ _ => ⟨rfl, rfl⟩⟩

theorem newVertex_id (s : Builder) (p : Point_2) (t : FT) :
    ((s.newVertex p t).mSSkel.vertices s.mSSkel.vertexNext).id = s.mVertexID := by
  simp [Builder.newVertex, Builder.vertices_push_back, Vertex.mk3]

theorem newVertex_two_ids (s : Builder) (p q : Point_2) (t u : FT) :
    (((s.newVertex p t).newVertex q u).mSSkel.vertices s.mSSkel.vertexNext).id = s.mVertexID
    ∧ (((s.newVertex p t).newVertex q u).mSSkel.vertices (s.mSSkel.vertexNext + 1)).id
        = s.mVertexID + 1 := by
  simp [Builder.newVertex, Builder.vertices_push_back, Vertex.mk3]

theorem ConstructEdgeEventNode_assigned (s : Builder) (e : EventPtr)
    (hc : s.mWrappedCount = s.mVertexID) :
    OlderKept s.mVertexID (s.newVertex (s.ev e).point (s.ev e).time)
      (s.ConstructEdgeEventNode e).1 := by
  have h0 := newVertex_self s (s.ev e).point (s.ev e).time s.mVertexID (le_of_eq hc.symm)
  have hid := newVertex_id s (s.ev e).point (s.ev e).time
  unfold Builder.ConstructEdgeEventNode
  dsimp only
  refine OlderKept.setPrev ?_ _ _
  refine OlderKept.fresh ?_ _ _ hid le_rfl _
  refine OlderKept.setNext ?_ _ _
  refine OlderKept.fresh ?_ _ _ hid le_rfl _
  refine OlderKept.slavRemove ?_ _
  refine OlderKept.slavRemove ?_ _
  refine OlderKept.setProcessed ?_ _
  refine OlderKept.setProcessed ?_ _
  refine OlderKept.updHalfedge ?_ _ _
  refine OlderKept.updHalfedge ?_ _ _
  refine OlderKept.updHalfedge ?_ _ _
  refine OlderKept.updHalfedge ?_ _ _
  refine OlderKept.setHalfedge ?_ _ _
  refine OlderKept.push ?_ _
  exact OlderKept.slavPush h0 _

theorem ConstructSplitEventNodes_assigned (s : Builder) (e : EventPtr) (aOppR : Vertex_handle)
    (hc : s.mWrappedCount = s.mVertexID) :
    OlderKept s.mVertexID
      ((s.newVertex (s.ev e).point (s.ev e).time).newVertex (s.ev e).point (s.ev e).time)
      (s.ConstructSplitEventNodes e aOppR).1 := by
  have h0 := newVertex_self (s.newVertex (s.ev e).point (s.ev e).time) (s.ev e).point
    (s.ev e).time s.mVertexID (le_of_eq hc.symm)
  have hA := (newVertex_two_ids s (s.ev e).point (s.ev e).point (s.ev e).time (s.ev e).time).1
  have hB := (newVertex_two_ids s (s.ev e).point (s.ev e).point (s.ev e).time (s.ev e).time).2
  unfold Builder.ConstructSplitEventNodes
  dsimp only
  refine OlderKept.withSplitNodes ?_ _
  refine OlderKept.setPrev ?_ _ _
  refine OlderKept.fresh ?_ _ _ hB (Nat.le_succ _) _
  refine OlderKept.fresh ?_ _ _ hB (Nat.le_succ _) _
  refine OlderKept.setNext ?_ _ _
  refine OlderKept.setPrev ?_ _ _
  refine OlderKept.fresh ?_ _ _ hA le_rfl _
  refine OlderKept.fresh ?_ _ _ hA le_rfl _
  refine OlderKept.setNext ?_ _ _
  refine OlderKept.slavRemove ?_ _
  refine OlderKept.setProcessed ?_ _
  refine OlderKept.updHalfedge ?_ _ _
  refine OlderKept.setHalfedge ?_ _ _
  refine OlderKept.push ?_ _
  refine OlderKept.push ?_ _
  refine OlderKept.slavPush ?_ _
  exact OlderKept.slavPush h0 _

theorem ConstructVertexEventNodes_assigned (s : Builder) (e : EventPtr)
    (hc : s.mWrappedCount = s.mVertexID) :
    OlderKept s.mVertexID
      ((s.newVertex (s.ev e).point (s.ev e).time).newVertex (s.ev e).point (s.ev e).time)
      (s.ConstructVertexEventNodes e).1 := by
  have h0 := newVertex_self (s.newVertex (s.ev e).point (s.ev e).time) (s.ev e).point
    (s.ev e).time s.mVertexID (le_of_eq hc.symm)
  have hA := (newVertex_two_ids s (s.ev e).point (s.ev e).point (s.ev e).time (s.ev e).time).1
  have hB := (newVertex_two_ids s (s.ev e).point (s.ev e).point (s.ev e).time (s.ev e).time).2
  unfold Builder.ConstructVertexEventNodes
  dsimp only
  refine OlderKept.withSplitNodes ?_ _
  refine OlderKept.setPrev ?_ _ _
  refine OlderKept.fresh ?_ _ _ hB (Nat.le_succ _) _
  refine OlderKept.setNext ?_ _ _
  refine OlderKept.fresh ?_ _ _ hB (Nat.le_succ _) _
  refine OlderKept.setPrev ?_ _ _
  refine OlderKept.fresh ?_ _ _ hA le_rfl _
  refine OlderKept.setNext ?_ _ _
  refine OlderKept.fresh ?_ _ _ hA le_rfl _
  refine OlderKept.slavRemove ?_ _
  refine OlderKept.slavRemove ?_ _
  refine OlderKept.setProcessed ?_ _
  refine OlderKept.setProcessed ?_ _
  refine OlderKept.updHalfedge ?_ _ _
  refine OlderKept.updHalfedge ?_ _ _
  refine OlderKept.updHalfedge ?_ _ _
  refine OlderKept.updHalfedge ?_ _ _
  refine OlderKept.updHalfedge ?_ _ _
  refine OlderKept.updHalfedge ?_ _ _
  refine OlderKept.setHalfedge ?_ _ _
  refine OlderKept.setHalfedge ?_ _ _
  refine OlderKept.push ?_ _
  refine OlderKept.push ?_ _
  refine OlderKept.slavPush ?_ _
  exact OlderKept.slavPush h0 _

theorem ConstructEdgeEventNode_processed (s : Builder) (e : EventPtr) (x : Nat)
    (hS : (s.ev e).seed0 = some x ∨ (s.ev e).seed1 = some x) (hx : x < s.mSSkel.vertexNext) :
    (s.ConstructEdgeEventNode e).1.IsProcessed (some x) = true := by
  have h1 : x ≠ s.mSSkel.vertexNext := by omega
  rcases hS with hS | hS <;>
  simp [Builder.ConstructEdgeEventNode, Builder.vertices_push_back, Builder.SLAV_push_back,
      Builder.wrapped_push_back, Builder.set_halfedge, Builder.updVertex, Builder.set_vertex,
      Builder.set_prev, Builder.set_next, Builder.updHalfedge, Builder.SetIsProcessed,
      Builder.updWrap, Builder.SLAV_remove, Builder.SetPrevInLAV, Builder.SetNextInLAV,
      VertexWrapper.mk1, apply_ite VertexWrapper.mIsProcessed, h1, Builder.wrapIndex,
      Vertex.mk3, apply_ite Vertex.id, Builder.IsProcessed, Builder.wrap, hS]

theorem edges_push_back_seeds (s : Builder) (h g : Halfedge) :
    SeedsKept s (s.edges_push_back h g).1 :=
  SeedsKept.of_tables rfl (fun _ => rfl)

theorem SeedsKept.kWithEdgeID {s st : Builder} (h : SeedsKept s st) (n : Nat) :
    SeedsKept s { st with mEdgeID := n } :=
  h.kTrans (SeedsKept.of_tables rfl (fun _ => rfl))

theorem SeedsKept.kUpdHalfedge {s st : Builder} (h : SeedsKept s st) (x : Halfedge_handle)
    (f : Halfedge → Halfedge) : SeedsKept s (st.updHalfedge x f) :=
  h.kTrans (updHalfedge_seeds st x f)

theorem SeedsKept.kSetHalfedge {s st : Builder} (h : SeedsKept s st) (v : Vertex_handle)
    (x : Halfedge_handle) : SeedsKept s (st.set_halfedge v x) :=
  h.kTrans (set_halfedge_seeds st v x)

theorem SeedsKept.kPushEdges {s st : Builder} (h : SeedsKept s st) (a b : Halfedge) :
    SeedsKept s (st.edges_push_back a b).1 :=
  h.kTrans (edges_push_back_seeds st a b)

theorem EdgeEventWiring_seeds (s : Builder) (e : EventPtr) :
    SeedsKept (s.ConstructEdgeEventNode e).1 (s.EdgeEventWiring e) := by
  unfold Builder.EdgeEventWiring
  dsimp only
  refine SeedsKept.kUpdHalfedge ?_ _ _
  refine SeedsKept.kUpdHalfedge ?_ _ _
  refine SeedsKept.kUpdHalfedge ?_ _ _
  refine SeedsKept.kUpdHalfedge ?_ _ _
  refine SeedsKept.kUpdHalfedge ?_ _ _
  refine SeedsKept.kUpdHalfedge ?_ _ _
  refine SeedsKept.kUpdHalfedge ?_ _ _
  refine SeedsKept.kWithEdgeID ?_ _
  exact edges_push_back_seeds _ _ _

theorem SplitEventWiring_seeds (s : Builder) (e : EventPtr) (aOppR : Vertex_handle) :
    SeedsKept (s.ConstructSplitEventNodes e aOppR).1 (s.SplitEventWiring e aOppR) := by
  unfold Builder.SplitEventWiring
  dsimp only
  iterate 12 refine SeedsKept.kUpdHalfedge ?_ _ _
  refine SeedsKept.kSetHalfedge ?_ _ _
  refine SeedsKept.kWithEdgeID ?_ _
  refine SeedsKept.kPushEdges ?_ _ _
  refine SeedsKept.kWithEdgeID ?_ _
  exact edges_push_back_seeds _ _ _

theorem VertexEventWiring_seeds (s : Builder) (e : EventPtr) :
    SeedsKept (s.ConstructVertexEventNodes e).1 (s.VertexEventWiring e) := by
  unfold Builder.VertexEventWiring
  dsimp only
  refine SeedsKept.kSetHalfedge ?_ _ _
  refine SeedsKept.kSetHalfedge ?_ _ _
  iterate 14 refine SeedsKept.kUpdHalfedge ?_ _ _
  refine SeedsKept.kWithEdgeID ?_ _
  refine SeedsKept.kPushEdges ?_ _ _
  refine SeedsKept.kWithEdgeID ?_ _
  exact edges_push_back_seeds _ _ _

theorem ConstructSplitEventNodes_processed (s : Builder) (e : EventPtr) (aOppR : Vertex_handle)
    (x : Nat) (hS : (s.ev e).seed0 = some x) (hx : x < s.mSSkel.vertexNext) :
    (s.ConstructSplitEventNodes e aOppR).1.IsProcessed (some x) = true := by
  have h1 : x ≠ s.mSSkel.vertexNext := by omega
  have h2 : x ≠ s.mSSkel.vertexNext + 1 := by omega
  have hE : ∀ st : Builder, st.mEvents = s.mEvents → (st.ev e).seed0 = some x := by
    intro st h
    cases e with
    | none => exact hS
    | some i => exact (congrArg (fun t => (t i).seed0) h).trans hS
  simp [Builder.ConstructSplitEventNodes, Builder.vertices_push_back, Builder.SLAV_push_back,
      Builder.wrapped_push_back, Builder.set_halfedge, Builder.updVertex, Builder.set_vertex,
      Builder.set_prev, Builder.set_next, Builder.updHalfedge, Builder.SetIsProcessed,
      Builder.updWrap, Builder.SLAV_remove, Builder.SetPrevInLAV, Builder.SetNextInLAV,
      VertexWrapper.mk1, apply_ite VertexWrapper.mIsProcessed, h1, h2, Builder.wrapIndex,
      Vertex.mk3, apply_ite Vertex.id, Builder.IsProcessed, Builder.wrap, hS, hE]

theorem ConstructVertexEventNodes_processed (s : Builder) (e : EventPtr) (x : Nat)
    (hS : (s.ev e).seed0 = some x ∨ (s.ev e).seed1 = some x) (hx : x < s.mSSkel.vertexNext) :
    (s.ConstructVertexEventNodes e).1.IsProcessed (some x) = true := by
  have h1 : x ≠ s.mSSkel.vertexNext := by omega
  have h2 : x ≠ s.mSSkel.vertexNext + 1 := by omega
  rcases hS with hS | hS <;>
  simp [Builder.ConstructVertexEventNodes, Builder.vertices_push_back, Builder.SLAV_push_back,
      Builder.wrapped_push_back, Builder.set_halfedge, Builder.updVertex, Builder.set_vertex,
      Builder.set_prev, Builder.set_next, Builder.updHalfedge, Builder.SetIsProcessed,
      Builder.updWrap, Builder.SLAV_remove, Builder.SetPrevInLAV, Builder.SetNextInLAV,
      VertexWrapper.mk1, apply_ite VertexWrapper.mIsProcessed, h1, h2, Builder.wrapIndex,
      Vertex.mk3, apply_ite Vertex.id, Builder.IsProcessed, Builder.wrap, hS]

theorem newVertex_old (s : Builder) (p : Point_2) (t : FT) (x : Nat)
    (hx : x ≠ s.mSSkel.vertexNext) :
    (s.newVertex p t).mSSkel.vertices x = s.mSSkel.vertices x := by
  simp [Builder.newVertex, Builder.vertices_push_back, hx]

/-- A handler is a node constructor, which leaves assigned links assigned and flags the seed,
followed by steps that keep the links and the flags that are set. -/
theorem seedAfter_of (s s0 c s' : Builder) (x : Nat)
    (hid : (s.vtx (some x)).id < s.mVertexID)
    (hA : OlderKept s.mVertexID s0 c)
    (h0w : s0.mWrappedVertices = s.mWrappedVertices)
    (h0i : s0.mSSkel.vertices x = s.mSSkel.vertices x)
    (hP : c.IsProcessed (some x) = true)
    (hK : SeedsKept c s') : s.seedAfter s' x := by
  have i1 : (c.mSSkel.vertices x).id = (s.mSSkel.vertices x).id := by
    rw [hA.ids x, h0i]
  have i2 : (s'.mSSkel.vertices x).id = (s.mSSkel.vertices x).id := (hK.ids x).trans i1
  have hid2 : (s.mSSkel.vertices x).id < s.mVertexID := hid
  unfold Builder.seedAfter Builder.IsProcessed Builder.GetPrevInLAV Builder.GetNextInLAV
  unfold Builder.IsProcessed at hP
  rw [wrap_some] at hP
  simp only [wrap_some]
  change (c.mWrappedVertices (c.mSSkel.vertices x).id).mIsProcessed = true at hP
  show (s'.mWrappedVertices (s'.mSSkel.vertices x).id).mIsProcessed = true
    ∧ ((s.mWrappedVertices (s.mSSkel.vertices x).id).mPrevInLAV ≠ none →
      (s'.mWrappedVertices (s'.mSSkel.vertices x).id).mPrevInLAV ≠ none)
    ∧ ((s.mWrappedVertices (s.mSSkel.vertices x).id).mNextInLAV ≠ none →
      (s'.mWrappedVertices (s'.mSSkel.vertices x).id).mNextInLAV ≠ none)
  rw [i2]
  rw [i1] at hP
  refine ⟨hK.processed _ hP, fun h => ?_, fun h => ?_⟩
  · rw [(hK.links _).1]
    exact hA.prevLink _ hid2 (by rw [h0w]; exact h)
  · rw [(hK.links _).2]
    exact hA.nextLink _ hid2 (by rw [h0w]; exact h)

theorem HandleEdgeEvent_seeds (tr : Traits) (s : Builder) (e : EventPtr) :
    SeedsKept (s.ConstructEdgeEventNode e).1 (s.HandleEdgeEvent tr e) := by
  cases h : s.isMultipleNode e
  · rw [HandleEdgeEvent_new_bisector tr s e h]
    exact ((EdgeEventWiring_seeds s e).kTrans (recordBorders_seeds _ _ _)).kTrans
      (UpdatePQ_seeds tr _ _)
  · rw [HandleEdgeEvent_multiple tr s e h]
    exact recordBorders_seeds _ _ _

theorem HandleSplitEvent_seeds (tr : Traits) (s : Builder) (e : EventPtr)
    (aOppR : Vertex_handle) :
    SeedsKept (s.ConstructSplitEventNodes e aOppR).1 (s.HandleSplitEvent tr e aOppR) := by
  rw [HandleSplitEvent_wiring]
  exact ((((SplitEventWiring_seeds s e aOppR).kTrans (recordBorders_seeds _ _ _)).kTrans
    (recordBorders_seeds _ _ _)).kTrans (UpdatePQ_seeds tr _ _)).kTrans (UpdatePQ_seeds tr _ _)

theorem VertexEventSetup_seeds (tr : Traits) (s : Builder) (e : EventPtr) :
    SeedsKept (s.ConstructVertexEventNodes e).1 (s.VertexEventSetup tr e) := by
  have hR : SeedsKept (s.ConstructVertexEventNodes e).1 (s.VertexEventRecorded e) :=
    ((VertexEventWiring_seeds s e).kTrans (recordBorders_seeds _ _ _)).kTrans
      (recordBorders_seeds _ _ _)
  unfold Builder.VertexEventSetup
  dsimp only
  split
  · exact (hR.kTrans (SetupVertexEventNode_seeds tr _ _ _ _)).kTrans
      (SetupVertexEventNode_seeds tr _ _ _ _)
  · exact hR.kTrans (SetupVertexEventNode_seeds tr _ _ _ _)

theorem HandleVertexEvent_seeds (tr : Traits) (s : Builder) (e : EventPtr) :
    SeedsKept (s.ConstructVertexEventNodes e).1 (s.HandleVertexEvent tr e) := by
  rw [HandleVertexEvent_setup]
  exact ((VertexEventSetup_seeds tr s e).kTrans (UpdatePQ_seeds tr _ _)).kTrans
    (UpdatePQ_seeds tr _ _)

theorem HandleSimultaneousEdgeEvent_flagged (s : Builder) (aA aB : Vertex_handle) :
    SeedsKept ((s.SetIsProcessed aA).SetIsProcessed aB)
      (s.HandleSimultaneousEdgeEvent aA aB) := by
  unfold Builder.HandleSimultaneousEdgeEvent
  dsimp only
  refine SeedsKept.kTrans ?_ (cond_seeds _ (set_halfedge_seeds _ _ _))
  refine SeedsKept.kTrans ?_ (cond_seeds _ (set_halfedge_seeds _ _ _))
  refine SeedsKept.kTrans ?_ (dangling_seeds _ _)
  refine SeedsKept.kTrans ?_ (updHalfedge_seeds _ _ _)
  refine SeedsKept.kTrans ?_ (updHalfedge_seeds _ _ _)
  refine SeedsKept.kTrans ?_ (updHalfedge_seeds _ _ _)
  refine SeedsKept.kTrans ?_ (updHalfedge_seeds _ _ _)
  refine SeedsKept.kTrans ?_ (updHalfedge_seeds _ _ _)
  refine SeedsKept.kTrans ?_ (SLAV_remove_seeds _ _)
  exact SLAV_remove_seeds _ _

/-- A vertex of `HandleSimultaneousEdgeEvent` is flagged processed and keeps its links. -/
theorem HandleSimultaneousEdgeEvent_seed (s : Builder) (aA aB : Vertex_handle) (x : Nat)
    (h : aA = some x ∨ aB = some x) :
    (s.HandleSimultaneousEdgeEvent aA aB).IsProcessed (some x) = true
    ∧ (s.HandleSimultaneousEdgeEvent aA aB).GetPrevInLAV (some x) = s.GetPrevInLAV (some x)
    ∧ (s.HandleSimultaneousEdgeEvent aA aB).GetNextInLAV (some x)
        = s.GetNextInLAV (some x) := by
  have hK := HandleSimultaneousEdgeEvent_seeds s aA aB
  have hF := HandleSimultaneousEdgeEvent_flagged s aA aB
  have hP : (((s.SetIsProcessed aA).SetIsProcessed aB).mWrappedVertices
      (s.mSSkel.vertices x).id).mIsProcessed = true := by
    rcases h with h | h <;> subst h <;>
    simp [Builder.SetIsProcessed, Builder.updWrap, Builder.wrapIndex,
      apply_ite VertexWrapper.mIsProcessed]
  have i2 : ((s.HandleSimultaneousEdgeEvent aA aB).mSSkel.vertices x).id
      = (s.mSSkel.vertices x).id := hK.ids x
  unfold Builder.IsProcessed Builder.GetPrevInLAV Builder.GetNextInLAV
  simp only [wrap_some]
  show ((s.HandleSimultaneousEdgeEvent aA aB).mWrappedVertices
        ((s.HandleSimultaneousEdgeEvent aA aB).mSSkel.vertices x).id).mIsProcessed = true
    ∧ ((s.HandleSimultaneousEdgeEvent aA aB).mWrappedVertices
        ((s.HandleSimultaneousEdgeEvent aA aB).mSSkel.vertices x).id).mPrevInLAV
        = (s.mWrappedVertices (s.mSSkel.vertices x).id).mPrevInLAV
    ∧ ((s.HandleSimultaneousEdgeEvent aA aB).mWrappedVertices
        ((s.HandleSimultaneousEdgeEvent aA aB).mSSkel.vertices x).id).mNextInLAV
        = (s.mWrappedVertices (s.mSSkel.vertices x).id).mNextInLAV
  rw [i2]
  exact ⟨hF.processed _ hP, (hK.links _).1, (hK.links _).2⟩

theorem HandleEdgeEvent_seedAfter (tr : Traits) (s : Builder) (e : EventPtr) (x : Nat)
    (hc : s.mWrappedCount = s.mVertexID) (hx : x < s.mSSkel.vertexNext)
    (hid : (s.vtx (some x)).id < s.mVertexID)
    (hS : (s.ev e).seed0 = some x ∨ (s.ev e).seed1 = some x) :
    s.seedAfter (s.HandleEdgeEvent tr e) x :=
  seedAfter_of s _ _ _ x hid (ConstructEdgeEventNode_assigned s e hc) rfl
    (newVertex_old s _ _ x (by omega)) (ConstructEdgeEventNode_processed s e x hS hx)
    (HandleEdgeEvent_seeds tr s e)

theorem HandleSplitEvent_seedAfter (tr : Traits) (s : Builder) (e : EventPtr)
    (aOppR : Vertex_handle) (x : Nat)
    (hc : s.mWrappedCount = s.mVertexID) (hx : x < s.mSSkel.vertexNext)
    (hid : (s.vtx (some x)).id < s.mVertexID) (hS : (s.ev e).seed0 = some x) :
    s.seedAfter (s.HandleSplitEvent tr e aOppR) x :=
  seedAfter_of s _ _ _ x hid (ConstructSplitEventNodes_assigned s e aOppR hc) rfl
    ((newVertex_old _ _ _ x (Nat.ne_of_lt (Nat.lt_succ_of_lt hx))).trans
      (newVertex_old s _ _ x (by omega)))
    (ConstructSplitEventNodes_processed s e aOppR x hS hx)
    (HandleSplitEvent_seeds tr s e aOppR)

theorem HandleVertexEvent_seedAfter (tr : Traits) (s : Builder) (e : EventPtr) (x : Nat)
    (hc : s.mWrappedCount = s.mVertexID) (hx : x < s.mSSkel.vertexNext)
    (hid : (s.vtx (some x)).id < s.mVertexID)
    (hS : (s.ev e).seed0 = some x ∨ (s.ev e).seed1 = some x) :
    s.seedAfter (s.HandleVertexEvent tr e) x :=
  seedAfter_of s _ _ _ x hid (ConstructVertexEventNodes_assigned s e hc) rfl
    ((newVertex_old _ _ _ x (Nat.ne_of_lt (Nat.lt_succ_of_lt hx))).trans
      (newVertex_old s _ _ x (by omega)))
    (ConstructVertexEventNodes_processed s e x hS hx)
    (HandleVertexEvent_seeds tr s e)

/-- C31, amended: a vertex `x` of the graph whose id is below the vertex-id counter, in a state
whose wrapper vector is as long as that counter, is flagged processed once the handler that
consumes it has returned, and its `prev_in_lav` and `next_in_lav` are not reset: each link that
was assigned on entry is assigned on return. This holds for a seed of `HandleEdgeEvent` and of
`HandleVertexEvent`, for the seed of `HandleSplitEvent`, and for both vertices of
`HandleSimultaneousEdgeEvent`, which leaves the two links exactly as they were. -/
theorem handlers_keep_seed_links (tr : Traits) (s : Builder) (e : EventPtr)
    (aOppR aB : Vertex_handle) (x : Nat)
    (hc : s.mWrappedCount = s.mVertexID) (hx : x < s.mSSkel.vertexNext)
    (hid : (s.vtx (some x)).id < s.mVertexID) :
    (((s.ev e).seed0 = some x ∨ (s.ev e).seed1 = some x) →
      s.seedAfter (s.HandleEdgeEvent tr e) x ∧ s.seedAfter (s.HandleVertexEvent tr e) x)
    ∧ ((s.ev e).seed0 = some x → s.seedAfter (s.HandleSplitEvent tr e aOppR) x)
    ∧ ((s.HandleSimultaneousEdgeEvent (some x) aB).IsProcessed (some x) = true
      ∧ (s.HandleSimultaneousEdgeEvent (some x) aB).GetPrevInLAV (some x)
          = s.GetPrevInLAV (some x)
      ∧ (s.HandleSimultaneousEdgeEvent (some x) aB).GetNextInLAV (some x)
          = s.GetNextInLAV (some x))
    ∧ ((s.HandleSimultaneousEdgeEvent aB (some x)).IsProcessed (some x) = true
      ∧ (s.HandleSimultaneousEdgeEvent aB (some x)).GetPrevInLAV (some x)
          = s.GetPrevInLAV (some x)
      ∧ (s.HandleSimultaneousEdgeEvent aB (some x)).GetNextInLAV (some x)
          = s.GetNextInLAV (some x)) :=
  ⟨fun hS => ⟨HandleEdgeEvent_seedAfter tr s e x hc hx hid hS,
      HandleVertexEvent_seedAfter tr s e x hc hx hid hS⟩,
    fun hS => HandleSplitEvent_seedAfter tr s e aOppR x hc hx hid hS,
    HandleSimultaneousEdgeEvent_seed s (some x) aB x (Or.inl rfl),
    HandleSimultaneousEdgeEvent_seed s aB (some x) x (Or.inr rfl)⟩

theorem handlers_keep_seed_links_witness :
    exQuad.seedAfter (exQuad.HandleEdgeEvent (exTraits true false true) (some 0)) 0
    ∧ (exQuad.HandleSimultaneousEdgeEvent (some 0) (some 1)).GetNextInLAV (some 0)
        = exQuad.GetNextInLAV (some 0) :=
  have h := handlers_keep_seed_links (exTraits true false true) exQuad (some 0) none (some 1) 0
    (by decide) (by decide) (by decide)
  ⟨(h.1 (Or.inl (by decide))).1, h.2.2.1.2.2⟩

/-- C31, the claim as written fails: after `HandleSimultaneousEdgeEvent(0, 1)` on the square
the vertex 0 is flagged processed and its links are still the neighbours 3 and 1 it had on
entry; the same holds for the left seed 0 of the edge event handled by `HandleEdgeEvent`. -/
theorem processed_links_counterexample :
    (exQuad.HandleSimultaneousEdgeEvent (some 0) (some 1)).IsProcessed (some 0) = true
    ∧ (exQuad.HandleSimultaneousEdgeEvent (some 0) (some 1)).GetPrevInLAV (some 0) = some 3
    ∧ (exQuad.HandleSimultaneousEdgeEvent (some 0) (some 1)).GetNextInLAV (some 0) = some 1
    ∧ (exQuad.HandleEdgeEvent (exTraits true false true) (some 0)).IsProcessed (some 0) = true
    ∧ (exQuad.HandleEdgeEvent (exTraits true false true) (some 0)).GetPrevInLAV (some 0)
        = some 3
    ∧ (exQuad.HandleEdgeEvent (exTraits true false true) (some 0)).GetNextInLAV (some 0)
        = some 1 := by
  decide

/-! ## Faces along the next links -/

/-- A step keeps face consistency when it keeps the faces of the old halfedges and every
halfedge either keeps its next or has a next with its own face. -/
theorem FaceConsistent_of_tables (s s' : Builder) (hs : s.FaceConsistent)
    (hN : s.mSSkel.halfedgeNext ≤ s'.mSSkel.halfedgeNext)
    (hface : ∀ j, j < s.mSSkel.halfedgeNext → s'.face (some j) = s.face (some j))
    (h1 : ∀ j, j < s'.mSSkel.halfedgeNext →
      s'.faceKeptAlong j
        ∨ (j < s.mSSkel.halfedgeNext ∧ s'.next (some j) = s.next (some j))) :
    s'.FaceConsistent := by
  intro j hj
  rcases h1 j hj with h | ⟨hjN, hn⟩
  · exact h
  · have h2 := hs j hjN
    unfold Builder.faceKeptAlong at h2 ⊢
    rw [hn]
    cases hx : s.next (some j) with
    | none => trivial
    | some n =>
      rw [hx] at h2
      exact ⟨lt_of_lt_of_le h2.1 hN, by rw [hface n h2.1, hface j hjN]; exact h2.2⟩

theorem faceKeptAlong_of_next (s : Builder) (j n : Nat) (h : s.next (some j) = some n)
    (hn : n < s.mSSkel.halfedgeNext) (hf : s.face (some n) = s.face (some j)) :
    s.faceKeptAlong j := by
  unfold Builder.faceKeptAlong
  rw [h]
  exact ⟨hn, hf⟩

theorem faceKeptAlong_of_none (s : Builder) (j : Nat) (h : s.next (some j) = none) :
    s.faceKeptAlong j := by
  unfold Builder.faceKeptAlong
  rw [h]
  trivial

/-- The next links and the faces of the halfedges of a split event, once wired. -/
theorem SplitEventWiring_next_face (s : Builder) (e : EventPtr) (aOppR : Vertex_handle)
    (sd hs xo xi ob : Nat)
    (hS : (s.ev e).seed0 = some sd) (hsd : sd < s.mSSkel.vertexNext)
    (hH : s.halfedge (some sd) = some hs) (hXO : s.next (some hs) = some xo)
    (hXI : s.opposite (some xo) = some xi) (hOB : (s.ev e).opposite_border = some ob)
    (hhs : hs < s.mSSkel.halfedgeNext) (hxo : xo < s.mSSkel.halfedgeNext)
    (hxi : xi < s.mSSkel.halfedgeNext) (hob : ob < s.mSSkel.halfedgeNext) :
    (∀ j, ((s.SplitEventWiring e aOppR).he (some j)).next
        = if j = s.mSSkel.halfedgeNext + 1 then some (s.mSSkel.halfedgeNext + 2)
          else if j = s.mSSkel.halfedgeNext + 3 then some xi
          else if j = s.mSSkel.halfedgeNext ∨ j = s.mSSkel.halfedgeNext + 2 then none
          else if j = xo then some s.mSSkel.halfedgeNext
          else (s.he (some j)).next)
    ∧ (∀ j, j < s.mSSkel.halfedgeNext →
        ((s.SplitEventWiring e aOppR).he (some j)).face = (s.he (some j)).face)
    ∧ ((s.SplitEventWiring e aOppR).he (some s.mSSkel.halfedgeNext)).face
        = (s.he (some xo)).face
    ∧ ((s.SplitEventWiring e aOppR).he (some (s.mSSkel.halfedgeNext + 1))).face
        = (s.he (some ob)).face
    ∧ ((s.SplitEventWiring e aOppR).he (some (s.mSSkel.halfedgeNext + 2))).face
        = (s.he (some ob)).face
    ∧ ((s.SplitEventWiring e aOppR).he (some (s.mSSkel.halfedgeNext + 3))).face
        = (s.he (some xi)).face := by
  simp only [Builder.next, Builder.opposite, Builder.halfedge] at hH hXO hXI
  have hhe := ConstructSplitEventNodes_he s e aOppR sd hs xo hS hsd hH hXO
  obtain ⟨hv1, hv2, hv3⟩ := ConstructSplitEventNodes_vtx s e aOppR sd hs xo hS hsd hH hXO
  have e1 : sd ≠ s.mSSkel.vertexNext := by omega
  have e2 : sd ≠ s.mSSkel.vertexNext + 1 := by omega
  have hvs := hv3 sd e1 e2
  have v1 : s.mSSkel.vertexNext ≠ s.mSSkel.vertexNext + 1 := by omega
  have a1 : hs ≠ s.mSSkel.halfedgeNext := by omega
  have a2 : hs ≠ s.mSSkel.halfedgeNext + 1 := by omega
  have a3 : hs ≠ s.mSSkel.halfedgeNext + 2 := by omega
  have a4 : hs ≠ s.mSSkel.halfedgeNext + 2 + 1 := by omega
  have b1 : xo ≠ s.mSSkel.halfedgeNext := by omega
  have b2 : xo ≠ s.mSSkel.halfedgeNext + 1 := by omega
  have b3 : xo ≠ s.mSSkel.halfedgeNext + 2 := by omega
  have b4 : xo ≠ s.mSSkel.halfedgeNext + 2 + 1 := by omega
  have c1 : xi ≠ s.mSSkel.halfedgeNext := by omega
  have c2 : xi ≠ s.mSSkel.halfedgeNext + 1 := by omega
  have c3 : xi ≠ s.mSSkel.halfedgeNext + 2 := by omega
  have c4 : xi ≠ s.mSSkel.halfedgeNext + 2 + 1 := by omega
  have o1 : ob ≠ s.mSSkel.halfedgeNext := by omega
  have o2 : ob ≠ s.mSSkel.halfedgeNext + 1 := by omega
  have o3 : ob ≠ s.mSSkel.halfedgeNext + 2 := by omega
  have o4 : ob ≠ s.mSSkel.halfedgeNext + 2 + 1 := by omega
  have k1 : s.mSSkel.halfedgeNext ≠ s.mSSkel.halfedgeNext + 2 + 1 := by omega
  have k2 : s.mSSkel.halfedgeNext + 1 ≠ s.mSSkel.halfedgeNext + 2 + 1 := by omega
  have k3 : s.mSSkel.halfedgeNext + 1 ≠ s.mSSkel.halfedgeNext + 2 := by omega
  have k7 : s.mSSkel.halfedgeNext ≠ s.mSSkel.halfedgeNext + 2 := by omega
  have k8 : s.mSSkel.halfedgeNext ≠ s.mSSkel.halfedgeNext + 1 := by omega
  have k9 : s.mSSkel.halfedgeNext + 2 ≠ s.mSSkel.halfedgeNext + 2 + 1 := by omega
  have k10 : s.mSSkel.halfedgeNext + 3 = s.mSSkel.halfedgeNext + 2 + 1 := rfl
  have hN : (s.ConstructSplitEventNodes e aOppR).2
      = (some s.mSSkel.vertexNext, some (s.mSSkel.vertexNext + 1)) := rfl
  have hk : (s.ConstructSplitEventNodes e aOppR).1.mSSkel.halfedgeNext
      = s.mSSkel.halfedgeNext := rfl
  have hev : ∀ x, (s.ConstructSplitEventNodes e aOppR).1.ev x = s.ev x := fun _ => rfl
  refine ⟨?_, ?_, ?_, ?_, ?_, ?_⟩
  · intro j
    by_cases q1 : j = s.mSSkel.halfedgeNext + 1
    · subst q1
      simp only [Builder.SplitEventWiring,
      Builder.set_vertex, Builder.set_halfedge, Builder.set_next, Builder.set_prev,
      Builder.set_face,
      Builder.primary_bisector, Builder.next, Builder.prev, Builder.opposite, Builder.face,
      Builder.halfedge, Builder.face_halfedge, Builder.vertex,
      he_updVertex, he_updWrap, he_wrapped_push_back, he_SLAV_push_back, he_SLAV_remove, he_vertices_push_back, he_with_mVertexID, he_with_mEdgeID, he_with_mSplitNodes, vtx_updHalfedge, vtx_updWrap, vtx_wrapped_push_back, vtx_SLAV_push_back, vtx_SLAV_remove, vtx_edges_push_back, vtx_with_mVertexID, vtx_with_mEdgeID, vtx_with_mSplitNodes, fc_updHalfedge, fc_updVertex, fc_updWrap, fc_wrapped_push_back, fc_SLAV_push_back, fc_SLAV_remove, fc_vertices_push_back, fc_edges_push_back, fc_with_mVertexID, fc_with_mEdgeID, fc_with_mSplitNodes, ev_updHalfedge, ev_updVertex, ev_updWrap, ev_wrapped_push_back, ev_SLAV_push_back, ev_SLAV_remove, ev_vertices_push_back, ev_edges_push_back, ev_with_mVertexID, ev_with_mEdgeID, ev_with_mSplitNodes, he_updHalfedge, he_edges_push_back, vtx_updVertex, vtx_vertices_push_back, edges_push_back_snd, edges_push_back_halfedgeNext, hN, hk, hev, hhe,
      hv1, hv2, hvs, k10, 
      hS, hH, hXO, hXI, hOB, o1, o2, o3, o4, Ne.symm o1, Ne.symm o2, Ne.symm o3, Ne.symm o4, e1, e2, Ne.symm e1, Ne.symm e2, v1, Ne.symm v1,
      a1, a2, a3, a4, b1, b2, b3, b4, c1, c2, c3, c4,
      k1, k2, k3, k7, k8, k9, Ne.symm k1, Ne.symm k2, Ne.symm k3,
      Ne.symm k7, Ne.symm k8, Ne.symm k9,
      Ne.symm a1, Ne.symm a2, Ne.symm a3, Ne.symm a4,
      Ne.symm b1, Ne.symm b2, Ne.symm b3, Ne.symm b4,
      Ne.symm c1, Ne.symm c2, Ne.symm c3, Ne.symm c4,
      apply_ite Halfedge.next, apply_ite Halfedge.prev, apply_ite Halfedge.vertex,
      apply_ite Halfedge.face, apply_ite Halfedge.opposite, apply_ite Vertex.halfedge,
      ↓reduceIte, Option.some.injEq, reduceCtorEq, ite_self, Halfedge.mk1, ne_eq,
      not_false_eq_true, and_self, Vertex.mk3, or_self, or_false, false_or, or_true, true_or]
    by_cases q2 : j = s.mSSkel.halfedgeNext + 2 + 1
    · subst q2
      simp only [Builder.SplitEventWiring,
      Builder.set_vertex, Builder.set_halfedge, Builder.set_next, Builder.set_prev,
      Builder.set_face,
      Builder.primary_bisector, Builder.next, Builder.prev, Builder.opposite, Builder.face,
      Builder.halfedge, Builder.face_halfedge, Builder.vertex,
      he_updVertex, he_updWrap, he_wrapped_push_back, he_SLAV_push_back, he_SLAV_remove, he_vertices_push_back, he_with_mVertexID, he_with_mEdgeID, he_with_mSplitNodes, vtx_updHalfedge, vtx_updWrap, vtx_wrapped_push_back, vtx_SLAV_push_back, vtx_SLAV_remove, vtx_edges_push_back, vtx_with_mVertexID, vtx_with_mEdgeID, vtx_with_mSplitNodes, fc_updHalfedge, fc_updVertex, fc_updWrap, fc_wrapped_push_back, fc_SLAV_push_back, fc_SLAV_remove, fc_vertices_push_back, fc_edges_push_back, fc_with_mVertexID, fc_with_mEdgeID, fc_with_mSplitNodes, ev_updHalfedge, ev_updVertex, ev_updWrap, ev_wrapped_push_back, ev_SLAV_push_back, ev_SLAV_remove, ev_vertices_push_back, ev_edges_push_back, ev_with_mVertexID, ev_with_mEdgeID, ev_with_mSplitNodes, he_updHalfedge, he_edges_push_back, vtx_updVertex, vtx_vertices_push_back, edges_push_back_snd, edges_push_back_halfedgeNext, hN, hk, hev, hhe,
      hv1, hv2, hvs, k10, 
      hS, hH, hXO, hXI, hOB, o1, o2, o3, o4, Ne.symm o1, Ne.symm o2, Ne.symm o3, Ne.symm o4, e1, e2, Ne.symm e1, Ne.symm e2, v1, Ne.symm v1,
      a1, a2, a3, a4, b1, b2, b3, b4, c1, c2, c3, c4,
      k1, k2, k3, k7, k8, k9, Ne.symm k1, Ne.symm k2, Ne.symm k3,
      Ne.symm k7, Ne.symm k8, Ne.symm k9,
      Ne.symm a1, Ne.symm a2, Ne.symm a3, Ne.symm a4,
      Ne.symm b1, Ne.symm b2, Ne.symm b3, Ne.symm b4,
      Ne.symm c1, Ne.symm c2, Ne.symm c3, Ne.symm c4,
      apply_ite Halfedge.next, apply_ite Halfedge.prev, apply_ite Halfedge.vertex,
      apply_ite Halfedge.face, apply_ite Halfedge.opposite, apply_ite Vertex.halfedge,
      ↓reduceIte, Option.some.injEq, reduceCtorEq, ite_self, Halfedge.mk1, ne_eq,
      not_false_eq_true, and_self, Vertex.mk3, or_self, or_false, false_or, or_true, true_or]
    by_cases q3 : j = s.mSSkel.halfedgeNext
    · subst q3
      simp only [Builder.SplitEventWiring,
      Builder.set_vertex, Builder.set_halfedge, Builder.set_next, Builder.set_prev,
      Builder.set_face,
      Builder.primary_bisector, Builder.next, Builder.prev, Builder.opposite, Builder.face,
      Builder.halfedge, Builder.face_halfedge, Builder.vertex,
      he_updVertex, he_updWrap, he_wrapped_push_back, he_SLAV_push_back, he_SLAV_remove, he_vertices_push_back, he_with_mVertexID, he_with_mEdgeID, he_with_mSplitNodes, vtx_updHalfedge, vtx_updWrap, vtx_wrapped_push_back, vtx_SLAV_push_back, vtx_SLAV_remove, vtx_edges_push_back, vtx_with_mVertexID, vtx_with_mEdgeID, vtx_with_mSplitNodes, fc_updHalfedge, fc_updVertex, fc_updWrap, fc_wrapped_push_back, fc_SLAV_push_back, fc_SLAV_remove, fc_vertices_push_back, fc_edges_push_back, fc_with_mVertexID, fc_with_mEdgeID, fc_with_mSplitNodes, ev_updHalfedge, ev_updVertex, ev_updWrap, ev_wrapped_push_back, ev_SLAV_push_back, ev_SLAV_remove, ev_vertices_push_back, ev_edges_push_back, ev_with_mVertexID, ev_with_mEdgeID, ev_with_mSplitNodes, he_updHalfedge, he_edges_push_back, vtx_updVertex, vtx_vertices_push_back, edges_push_back_snd, edges_push_back_halfedgeNext, hN, hk, hev, hhe,
      hv1, hv2, hvs, k10, 
      hS, hH, hXO, hXI, hOB, o1, o2, o3, o4, Ne.symm o1, Ne.symm o2, Ne.symm o3, Ne.symm o4, e1, e2, Ne.symm e1, Ne.symm e2, v1, Ne.symm v1,
      a1, a2, a3, a4, b1, b2, b3, b4, c1, c2, c3, c4,
      k1, k2, k3, k7, k8, k9, Ne.symm k1, Ne.symm k2, Ne.symm k3,
      Ne.symm k7, Ne.symm k8, Ne.symm k9,
      Ne.symm a1, Ne.symm a2, Ne.symm a3, Ne.symm a4,
      Ne.symm b1, Ne.symm b2, Ne.symm b3, Ne.symm b4,
      Ne.symm c1, Ne.symm c2, Ne.symm c3, Ne.symm c4,
      apply_ite Halfedge.next, apply_ite Halfedge.prev, apply_ite Halfedge.vertex,
      apply_ite Halfedge.face, apply_ite Halfedge.opposite, apply_ite Vertex.halfedge,
      ↓reduceIte, Option.some.injEq, reduceCtorEq, ite_self, Halfedge.mk1, ne_eq,
      not_false_eq_true, and_self, Vertex.mk3, or_self, or_false, false_or, or_true, true_or]
      rfl
    by_cases q4 : j = s.mSSkel.halfedgeNext + 2
    · subst q4
      simp only [Builder.SplitEventWiring,
      Builder.set_vertex, Builder.set_halfedge, Builder.set_next, Builder.set_prev,
      Builder.set_face,
      Builder.primary_bisector, Builder.next, Builder.prev, Builder.opposite, Builder.face,
      Builder.halfedge, Builder.face_halfedge, Builder.vertex,
      he_updVertex, he_updWrap, he_wrapped_push_back, he_SLAV_push_back, he_SLAV_remove, he_vertices_push_back, he_with_mVertexID, he_with_mEdgeID, he_with_mSplitNodes, vtx_updHalfedge, vtx_updWrap, vtx_wrapped_push_back, vtx_SLAV_push_back, vtx_SLAV_remove, vtx_edges_push_back, vtx_with_mVertexID, vtx_with_mEdgeID, vtx_with_mSplitNodes, fc_updHalfedge, fc_updVertex, fc_updWrap, fc_wrapped_push_back, fc_SLAV_push_back, fc_SLAV_remove, fc_vertices_push_back, fc_edges_push_back, fc_with_mVertexID, fc_with_mEdgeID, fc_with_mSplitNodes, ev_updHalfedge, ev_updVertex, ev_updWrap, ev_wrapped_push_back, ev_SLAV_push_back, ev_SLAV_remove, ev_vertices_push_back, ev_edges_push_back, ev_with_mVertexID, ev_with_mEdgeID, ev_with_mSplitNodes, he_updHalfedge, he_edges_push_back, vtx_updVertex, vtx_vertices_push_back, edges_push_back_snd, edges_push_back_halfedgeNext, hN, hk, hev, hhe,
      hv1, hv2, hvs, k10, 
      hS, hH, hXO, hXI, hOB, o1, o2, o3, o4, Ne.symm o1, Ne.symm o2, Ne.symm o3, Ne.symm o4, e1, e2, Ne.symm e1, Ne.symm e2, v1, Ne.symm v1,
      a1, a2, a3, a4, b1, b2, b3, b4, c1, c2, c3, c4,
      k1, k2, k3, k7, k8, k9, Ne.symm k1, Ne.symm k2, Ne.symm k3,
      Ne.symm k7, Ne.symm k8, Ne.symm k9,
      Ne.symm a1, Ne.symm a2, Ne.symm a3, Ne.symm a4,
      Ne.symm b1, Ne.symm b2, Ne.symm b3, Ne.symm b4,
      Ne.symm c1, Ne.symm c2, Ne.symm c3, Ne.symm c4,
      apply_ite Halfedge.next, apply_ite Halfedge.prev, apply_ite Halfedge.vertex,
      apply_ite Halfedge.face, apply_ite Halfedge.opposite, apply_ite Vertex.halfedge,
      ↓reduceIte, Option.some.injEq, reduceCtorEq, ite_self, Halfedge.mk1, ne_eq,
      not_false_eq_true, and_self, Vertex.mk3, or_self, or_false, false_or, or_true, true_or]
      rfl
    by_cases q5 : j = xo
    · subst q5
      simp only [Builder.SplitEventWiring,
      Builder.set_vertex, Builder.set_halfedge, Builder.set_next, Builder.set_prev,
      Builder.set_face,
      Builder.primary_bisector, Builder.next, Builder.prev, Builder.opposite, Builder.face,
      Builder.halfedge, Builder.face_halfedge, Builder.vertex,
      he_updVertex, he_updWrap, he_wrapped_push_back, he_SLAV_push_back, he_SLAV_remove, he_vertices_push_back, he_with_mVertexID, he_with_mEdgeID, he_with_mSplitNodes, vtx_updHalfedge, vtx_updWrap, vtx_wrapped_push_back, vtx_SLAV_push_back, vtx_SLAV_remove, vtx_edges_push_back, vtx_with_mVertexID, vtx_with_mEdgeID, vtx_with_mSplitNodes, fc_updHalfedge, fc_updVertex, fc_updWrap, fc_wrapped_push_back, fc_SLAV_push_back, fc_SLAV_remove, fc_vertices_push_back, fc_edges_push_back, fc_with_mVertexID, fc_with_mEdgeID, fc_with_mSplitNodes, ev_updHalfedge, ev_updVertex, ev_updWrap, ev_wrapped_push_back, ev_SLAV_push_back, ev_SLAV_remove, ev_vertices_push_back, ev_edges_push_back, ev_with_mVertexID, ev_with_mEdgeID, ev_with_mSplitNodes, he_updHalfedge, he_edges_push_back, vtx_updVertex, vtx_vertices_push_back, edges_push_back_snd, edges_push_back_halfedgeNext, hN, hk, hev, hhe,
      hv1, hv2, hvs, k10, q1, q2, q3, q4,
      hS, hH, hXO, hXI, hOB, o1, o2, o3, o4, Ne.symm o1, Ne.symm o2, Ne.symm o3, Ne.symm o4, e1, e2, Ne.symm e1, Ne.symm e2, v1, Ne.symm v1,
      a1, a2, a3, a4, b1, b2, b3, b4, c1, c2, c3, c4,
      k1, k2, k3, k7, k8, k9, Ne.symm k1, Ne.symm k2, Ne.symm k3,
      Ne.symm k7, Ne.symm k8, Ne.symm k9,
      Ne.symm a1, Ne.symm a2, Ne.symm a3, Ne.symm a4,
      Ne.symm b1, Ne.symm b2, Ne.symm b3, Ne.symm b4,
      Ne.symm c1, Ne.symm c2, Ne.symm c3, Ne.symm c4,
      apply_ite Halfedge.next, apply_ite Halfedge.prev, apply_ite Halfedge.vertex,
      apply_ite Halfedge.face, apply_ite Halfedge.opposite, apply_ite Vertex.halfedge,
      ↓reduceIte, Option.some.injEq, reduceCtorEq, ite_self, Halfedge.mk1, ne_eq,
      not_false_eq_true, and_self, Vertex.mk3, or_self, or_false, false_or, or_true, true_or]
    · simp only [Builder.SplitEventWiring,
      Builder.set_vertex, Builder.set_halfedge, Builder.set_next, Builder.set_prev,
      Builder.set_face,
      Builder.primary_bisector, Builder.next, Builder.prev, Builder.opposite, Builder.face,
      Builder.halfedge, Builder.face_halfedge, Builder.vertex,
      he_updVertex, he_updWrap, he_wrapped_push_back, he_SLAV_push_back, he_SLAV_remove, he_vertices_push_back, he_with_mVertexID, he_with_mEdgeID, he_with_mSplitNodes, vtx_updHalfedge, vtx_updWrap, vtx_wrapped_push_back, vtx_SLAV_push_back, vtx_SLAV_remove, vtx_edges_push_back, vtx_with_mVertexID, vtx_with_mEdgeID, vtx_with_mSplitNodes, fc_updHalfedge, fc_updVertex, fc_updWrap, fc_wrapped_push_back, fc_SLAV_push_back, fc_SLAV_remove, fc_vertices_push_back, fc_edges_push_back, fc_with_mVertexID, fc_with_mEdgeID, fc_with_mSplitNodes, ev_updHalfedge, ev_updVertex, ev_updWrap, ev_wrapped_push_back, ev_SLAV_push_back, ev_SLAV_remove, ev_vertices_push_back, ev_edges_push_back, ev_with_mVertexID, ev_with_mEdgeID, ev_with_mSplitNodes, he_updHalfedge, he_edges_push_back, vtx_updVertex, vtx_vertices_push_back, edges_push_back_snd, edges_push_back_halfedgeNext, hN, hk, hev, hhe,
      hv1, hv2, hvs, k10, q1, q2, q3, q4, q5, Ne.symm q1, Ne.symm q2, Ne.symm q3, Ne.symm q4, Ne.symm q5,
      hS, hH, hXO, hXI, hOB, o1, o2, o3, o4, Ne.symm o1, Ne.symm o2, Ne.symm o3, Ne.symm o4, e1, e2, Ne.symm e1, Ne.symm e2, v1, Ne.symm v1,
      a1, a2, a3, a4, b1, b2, b3, b4, c1, c2, c3, c4,
      k1, k2, k3, k7, k8, k9, Ne.symm k1, Ne.symm k2, Ne.symm k3,
      Ne.symm k7, Ne.symm k8, Ne.symm k9,
      Ne.symm a1, Ne.symm a2, Ne.symm a3, Ne.symm a4,
      Ne.symm b1, Ne.symm b2, Ne.symm b3, Ne.symm b4,
      Ne.symm c1, Ne.symm c2, Ne.symm c3, Ne.symm c4,
      apply_ite Halfedge.next, apply_ite Halfedge.prev, apply_ite Halfedge.vertex,
      apply_ite Halfedge.face, apply_ite Halfedge.opposite, apply_ite Vertex.halfedge,
      ↓reduceIte, Option.some.injEq, reduceCtorEq, ite_self, Halfedge.mk1, ne_eq,
      not_false_eq_true, and_self, Vertex.mk3, or_self, or_false, false_or, or_true, true_or]
  · intro j hj
    have d1 : j ≠ s.mSSkel.halfedgeNext := by omega
    have d2 : j ≠ s.mSSkel.halfedgeNext + 1 := by omega
    have d3 : j ≠ s.mSSkel.halfedgeNext + 2 := by omega
    have d4 : j ≠ s.mSSkel.halfedgeNext + 2 + 1 := by omega
    simp only [Builder.SplitEventWiring,
      Builder.set_vertex, Builder.set_halfedge, Builder.set_next, Builder.set_prev,
      Builder.set_face,
      Builder.primary_bisector, Builder.next, Builder.prev, Builder.opposite, Builder.face,
      Builder.halfedge, Builder.face_halfedge, Builder.vertex,
      he_updVertex, he_updWrap, he_wrapped_push_back, he_SLAV_push_back, he_SLAV_remove, he_vertices_push_back, he_with_mVertexID, he_with_mEdgeID, he_with_mSplitNodes, vtx_updHalfedge, vtx_updWrap, vtx_wrapped_push_back, vtx_SLAV_push_back, vtx_SLAV_remove, vtx_edges_push_back, vtx_with_mVertexID, vtx_with_mEdgeID, vtx_with_mSplitNodes, fc_updHalfedge, fc_updVertex, fc_updWrap, fc_wrapped_push_back, fc_SLAV_push_back, fc_SLAV_remove, fc_vertices_push_back, fc_edges_push_back, fc_with_mVertexID, fc_with_mEdgeID, fc_with_mSplitNodes, ev_updHalfedge, ev_updVertex, ev_updWrap, ev_wrapped_push_back, ev_SLAV_push_back, ev_SLAV_remove, ev_vertices_push_back, ev_edges_push_back, ev_with_mVertexID, ev_with_mEdgeID, ev_with_mSplitNodes, he_updHalfedge, he_edges_push_back, vtx_updVertex, vtx_vertices_push_back, edges_push_back_snd, edges_push_back_halfedgeNext, hN, hk, hev, hhe,
      hv1, hv2, hvs, k10, d1, d2, d3, d4, Ne.symm d1, Ne.symm d2, Ne.symm d3, Ne.symm d4,
      hS, hH, hXO, hXI, hOB, o1, o2, o3, o4, Ne.symm o1, Ne.symm o2, Ne.symm o3, Ne.symm o4, e1, e2, Ne.symm e1, Ne.symm e2, v1, Ne.symm v1,
      a1, a2, a3, a4, b1, b2, b3, b4, c1, c2, c3, c4,
      k1, k2, k3, k7, k8, k9, Ne.symm k1, Ne.symm k2, Ne.symm k3,
      Ne.symm k7, Ne.symm k8, Ne.symm k9,
      Ne.symm a1, Ne.symm a2, Ne.symm a3, Ne.symm a4,
      Ne.symm b1, Ne.symm b2, Ne.symm b3, Ne.symm b4,
      Ne.symm c1, Ne.symm c2, Ne.symm c3, Ne.symm c4,
      apply_ite Halfedge.next, apply_ite Halfedge.prev, apply_ite Halfedge.vertex,
      apply_ite Halfedge.face, apply_ite Halfedge.opposite, apply_ite Vertex.halfedge,
      ↓reduceIte, Option.some.injEq, reduceCtorEq, ite_self, Halfedge.mk1, ne_eq,
      not_false_eq_true, and_self, Vertex.mk3, or_self, or_false, false_or, or_true, true_or]
  all_goals
    simp only [Builder.SplitEventWiring,
      Builder.set_vertex, Builder.set_halfedge, Builder.set_next, Builder.set_prev,
      Builder.set_face,
      Builder.primary_bisector, Builder.next, Builder.prev, Builder.opposite, Builder.face,
      Builder.halfedge, Builder.face_halfedge, Builder.vertex,
      he_updVertex, he_updWrap, he_wrapped_push_back, he_SLAV_push_back, he_SLAV_remove, he_vertices_push_back, he_with_mVertexID, he_with_mEdgeID, he_with_mSplitNodes, vtx_updHalfedge, vtx_updWrap, vtx_wrapped_push_back, vtx_SLAV_push_back, vtx_SLAV_remove, vtx_edges_push_back, vtx_with_mVertexID, vtx_with_mEdgeID, vtx_with_mSplitNodes, fc_updHalfedge, fc_updVertex, fc_updWrap, fc_wrapped_push_back, fc_SLAV_push_back, fc_SLAV_remove, fc_vertices_push_back, fc_edges_push_back, fc_with_mVertexID, fc_with_mEdgeID, fc_with_mSplitNodes, ev_updHalfedge, ev_updVertex, ev_updWrap, ev_wrapped_push_back, ev_SLAV_push_back, ev_SLAV_remove, ev_vertices_push_back, ev_edges_push_back, ev_with_mVertexID, ev_with_mEdgeID, ev_with_mSplitNodes, he_updHalfedge, he_edges_push_back, vtx_updVertex, vtx_vertices_push_back, edges_push_back_snd, edges_push_back_halfedgeNext, hN, hk, hev, hhe,
      hv1, hv2, hvs, k10, 
      hS, hH, hXO, hXI, hOB, o1, o2, o3, o4, Ne.symm o1, Ne.symm o2, Ne.symm o3, Ne.symm o4, e1, e2, Ne.symm e1, Ne.symm e2, v1, Ne.symm v1,
      a1, a2, a3, a4, b1, b2, b3, b4, c1, c2, c3, c4,
      k1, k2, k3, k7, k8, k9, Ne.symm k1, Ne.symm k2, Ne.symm k3,
      Ne.symm k7, Ne.symm k8, Ne.symm k9,
      Ne.symm a1, Ne.symm a2, Ne.symm a3, Ne.symm a4,
      Ne.symm b1, Ne.symm b2, Ne.symm b3, Ne.symm b4,
      Ne.symm c1, Ne.symm c2, Ne.symm c3, Ne.symm c4,
      apply_ite Halfedge.next, apply_ite Halfedge.prev, apply_ite Halfedge.vertex,
      apply_ite Halfedge.face, apply_ite Halfedge.opposite, apply_ite Vertex.halfedge,
      ↓reduceIte, Option.some.injEq, reduceCtorEq, ite_self, Halfedge.mk1, ne_eq,
      not_false_eq_true, and_self, Vertex.mk3, or_self, or_false, false_or, or_true, true_or]

/-- The faces are the same after `ConstructVertexEventNodes`. -/
theorem ConstructVertexEventNodes_face (s : Builder) (e : EventPtr) (j : Nat) :
    ((s.ConstructVertexEventNodes e).1.he (some j)).face = (s.he (some j)).face := by
  simp only [Builder.ConstructVertexEventNodes, Builder.set_vertex, Builder.set_halfedge,
    Builder.set_next, Builder.set_prev,
    Builder.SetIsProcessed, Builder.SetPrevInLAV, Builder.SetNextInLAV,
    he_updVertex, he_updWrap, he_wrapped_push_back, he_SLAV_push_back, he_SLAV_remove, he_vertices_push_back, he_with_mVertexID, he_with_mEdgeID, he_with_mSplitNodes, vtx_updHalfedge, vtx_updWrap, vtx_wrapped_push_back, vtx_SLAV_push_back, vtx_SLAV_remove, vtx_edges_push_back, vtx_with_mVertexID, vtx_with_mEdgeID, vtx_with_mSplitNodes, fc_updHalfedge, fc_updVertex, fc_updWrap, fc_wrapped_push_back, fc_SLAV_push_back, fc_SLAV_remove, fc_vertices_push_back, fc_edges_push_back, fc_with_mVertexID, fc_with_mEdgeID, fc_with_mSplitNodes, ev_updHalfedge, ev_updVertex, ev_updWrap, ev_wrapped_push_back, ev_SLAV_push_back, ev_SLAV_remove, ev_vertices_push_back, ev_edges_push_back, ev_with_mVertexID, ev_with_mEdgeID, ev_with_mSplitNodes, he_updHalfedge, he_edges_push_back, vtx_updVertex, vtx_vertices_push_back, apply_ite Halfedge.face, ite_self]

/-- The next links and the faces of the halfedges of a vertex event, once wired. -/
theorem VertexEventWiring_next_face (s : Builder) (e : EventPtr) (l r i1 i2 lo ro li ri : Nat)
    (hL : (s.ev e).seed0 = some l) (hR : (s.ev e).seed1 = some r)
    (hl : l < s.mSSkel.vertexNext) (hr : r < s.mSSkel.vertexNext)
    (hH1 : s.halfedge (some l) = some i1) (hLO : s.next (some i1) = some lo)
    (hH2 : s.halfedge (some r) = some i2) (hRO : s.next (some i2) = some ro)
    (hLI : s.opposite (some lo) = some li) (hRI : s.opposite (some ro) = some ri)
    (hi1 : i1 < s.mSSkel.halfedgeNext) (hi2 : i2 < s.mSSkel.halfedgeNext)
    (hlo : lo < s.mSSkel.halfedgeNext) (hro : ro < s.mSSkel.halfedgeNext)
    (hli : li < s.mSSkel.halfedgeNext) (hri : ri < s.mSSkel.halfedgeNext)
    (hne : lo ≠ ro)
    (j1 : lo ≠ i1) (j2 : ro ≠ i1) (j3 : lo ≠ i2) (j4 : ro ≠ i2) :
    (∀ j, ((s.VertexEventWiring e).he (some j)).next
        = if j = s.mSSkel.halfedgeNext + 3 then some li
          else if j = s.mSSkel.halfedgeNext + 1 then some ri
          else if j = s.mSSkel.halfedgeNext ∨ j = s.mSSkel.halfedgeNext + 2 then none
          else if j = ro then some (s.mSSkel.halfedgeNext + 2)
          else if j = lo then some s.mSSkel.halfedgeNext
          else (s.he (some j)).next)
    ∧ (∀ j, j < s.mSSkel.halfedgeNext →
        ((s.VertexEventWiring e).he (some j)).face = (s.he (some j)).face)
    ∧ ((s.VertexEventWiring e).he (some s.mSSkel.halfedgeNext)).face = (s.he (some lo)).face
    ∧ ((s.VertexEventWiring e).he (some (s.mSSkel.halfedgeNext + 1))).face
        = (s.he (some ri)).face
    ∧ ((s.VertexEventWiring e).he (some (s.mSSkel.halfedgeNext + 2))).face
        = (s.he (some ro)).face
    ∧ ((s.VertexEventWiring e).he (some (s.mSSkel.halfedgeNext + 3))).face
        = (s.he (some li)).face := by
  simp only [Builder.next, Builder.opposite, Builder.halfedge] at hH1 hH2 hLO hRO hRI hLI
  obtain ⟨g1, g2, g3, g4, g5⟩ :=
    ConstructVertexEventNodes_graph s e l r i1 i2 lo ro hL hR hl hr hH1 hLO hH2 hRO
  have g6 := ConstructVertexEventNodes_opposite s e
  have g7 := ConstructVertexEventNodes_face s e
  have e1 : l ≠ s.mSSkel.vertexNext := by omega
  have e2 : l ≠ s.mSSkel.vertexNext + 1 := by omega
  have e3 : r ≠ s.mSSkel.vertexNext := by omega
  have e4 : r ≠ s.mSSkel.vertexNext + 1 := by omega
  have gl := g3 l e1 e2
  have gr := g3 r e3 e4
  have n1 := g5 i1 j1 j2
  have n2 := g5 i2 j3 j4
  have v1 : s.mSSkel.vertexNext ≠ s.mSSkel.vertexNext + 1 := by omega
  have b1 : lo ≠ s.mSSkel.halfedgeNext := by omega
  have b2 : lo ≠ s.mSSkel.halfedgeNext + 1 := by omega
  have b3 : lo ≠ s.mSSkel.halfedgeNext + 2 := by omega
  have b4 : lo ≠ s.mSSkel.halfedgeNext + 2 + 1 := by omega
  have c1 : ro ≠ s.mSSkel.halfedgeNext := by omega
  have c2 : ro ≠ s.mSSkel.halfedgeNext + 1 := by omega
  have c3 : ro ≠ s.mSSkel.halfedgeNext + 2 := by omega
  have c4 : ro ≠ s.mSSkel.halfedgeNext + 2 + 1 := by omega
  have d1 : ri ≠ s.mSSkel.halfedgeNext := by omega
  have d2 : ri ≠ s.mSSkel.halfedgeNext + 1 := by omega
  have d3 : ri ≠ s.mSSkel.halfedgeNext + 2 := by omega
  have d4 : ri ≠ s.mSSkel.halfedgeNext + 2 + 1 := by omega
  have f1 : li ≠ s.mSSkel.halfedgeNext := by omega
  have f2 : li ≠ s.mSSkel.halfedgeNext + 1 := by omega
  have f3 : li ≠ s.mSSkel.halfedgeNext + 2 := by omega
  have f4 : li ≠ s.mSSkel.halfedgeNext + 2 + 1 := by omega
  have m1 : i1 ≠ s.mSSkel.halfedgeNext := by omega
  have m2 : i1 ≠ s.mSSkel.halfedgeNext + 1 := by omega
  have m3 : i1 ≠ s.mSSkel.halfedgeNext + 2 := by omega
  have m4 : i1 ≠ s.mSSkel.halfedgeNext + 2 + 1 := by omega
  have p1 : i2 ≠ s.mSSkel.halfedgeNext := by omega
  have p2 : i2 ≠ s.mSSkel.halfedgeNext + 1 := by omega
  have p3 : i2 ≠ s.mSSkel.halfedgeNext + 2 := by omega
  have p4 : i2 ≠ s.mSSkel.halfedgeNext + 2 + 1 := by omega
  have k1 : s.mSSkel.halfedgeNext ≠ s.mSSkel.halfedgeNext + 2 + 1 := by omega
  have k2 : s.mSSkel.halfedgeNext + 1 ≠ s.mSSkel.halfedgeNext + 2 + 1 := by omega
  have k3 : s.mSSkel.halfedgeNext + 1 ≠ s.mSSkel.halfedgeNext + 2 := by omega
  have k7 : s.mSSkel.halfedgeNext ≠ s.mSSkel.halfedgeNext + 2 := by omega
  have k8 : s.mSSkel.halfedgeNext ≠ s.mSSkel.halfedgeNext + 1 := by omega
  have k9 : s.mSSkel.halfedgeNext + 2 ≠ s.mSSkel.halfedgeNext + 2 + 1 := by omega
  have k10 : s.mSSkel.halfedgeNext + 3 = s.mSSkel.halfedgeNext + 2 + 1 := rfl
  have hN : (s.ConstructVertexEventNodes e).2
      = (some s.mSSkel.vertexNext, some (s.mSSkel.vertexNext + 1)) := rfl
  have hk : (s.ConstructVertexEventNodes e).1.mSSkel.halfedgeNext
      = s.mSSkel.halfedgeNext := rfl
  have hev : ∀ x, (s.ConstructVertexEventNodes e).1.ev x = s.ev x := fun _ => rfl
  refine ⟨?_, ?_, ?_, ?_, ?_, ?_⟩
  · intro j
    by_cases q1 : j = s.mSSkel.halfedgeNext + 2 + 1
    · subst q1
      simp only [Builder.VertexEventWiring,
      Builder.set_vertex, Builder.set_halfedge, Builder.set_next, Builder.set_prev,
      Builder.set_face,
      Builder.primary_bisector, Builder.next, Builder.prev, Builder.opposite, Builder.face,
      Builder.halfedge, Builder.face_halfedge, Builder.vertex,
      he_updVertex, he_updWrap, he_wrapped_push_back, he_SLAV_push_back, he_SLAV_remove, he_vertices_push_back, he_with_mVertexID, he_with_mEdgeID, he_with_mSplitNodes, vtx_updHalfedge, vtx_updWrap, vtx_wrapped_push_back, vtx_SLAV_push_back, vtx_SLAV_remove, vtx_edges_push_back, vtx_with_mVertexID, vtx_with_mEdgeID, vtx_with_mSplitNodes, fc_updHalfedge, fc_updVertex, fc_updWrap, fc_wrapped_push_back, fc_SLAV_push_back, fc_SLAV_remove, fc_vertices_push_back, fc_edges_push_back, fc_with_mVertexID, fc_with_mEdgeID, fc_with_mSplitNodes, ev_updHalfedge, ev_updVertex, ev_updWrap, ev_wrapped_push_back, ev_SLAV_push_back, ev_SLAV_remove, ev_vertices_push_back, ev_edges_push_back, ev_with_mVertexID, ev_with_mEdgeID, ev_with_mSplitNodes, he_updHalfedge, he_edges_push_back, vtx_updVertex, vtx_vertices_push_back, edges_push_back_snd, edges_push_back_halfedgeNext, hN, hk, hev,
      g1, g2, g4, g6, g7, gl, gr, n1, n2, hRI, hLI, k10, 
      hL, hR, hH1, hH2, hLO, hRO, e1, e2, e3, e4, Ne.symm e1, Ne.symm e2, Ne.symm e3,
      Ne.symm e4, v1, Ne.symm v1, hne, Ne.symm hne,
      j1, j2, j3, j4, Ne.symm j1, Ne.symm j2, Ne.symm j3, Ne.symm j4,
      b1, b2, b3, b4, c1, c2, c3, c4, m1, m2, m3, m4, p1, p2, p3, p4, d1, d2, d3, d4,
      f1, f2, f3, f4, Ne.symm f1, Ne.symm f2, Ne.symm f3, Ne.symm f4,
      Ne.symm b1, Ne.symm b2, Ne.symm b3, Ne.symm b4,
      Ne.symm c1, Ne.symm c2, Ne.symm c3, Ne.symm c4,
      Ne.symm d1, Ne.symm d2, Ne.symm d3, Ne.symm d4,
      Ne.symm m1, Ne.symm m2, Ne.symm m3, Ne.symm m4,
      Ne.symm p1, Ne.symm p2, Ne.symm p3, Ne.symm p4,
      k1, k2, k3, k7, k8, k9, Ne.symm k1, Ne.symm k2, Ne.symm k3,
      Ne.symm k7, Ne.symm k8, Ne.symm k9,
      apply_ite Halfedge.next, apply_ite Halfedge.prev, apply_ite Halfedge.vertex,
      apply_ite Halfedge.face, apply_ite Halfedge.opposite, apply_ite Vertex.halfedge,
      ↓reduceIte, Option.some.injEq, reduceCtorEq, ite_self, Halfedge.mk1, ne_eq,
      not_false_eq_true, and_self, Vertex.mk3, or_self, or_false, false_or, or_true, true_or]
    by_cases q2 : j = s.mSSkel.halfedgeNext + 1
    · subst q2
      simp only [Builder.VertexEventWiring,
      Builder.set_vertex, Builder.set_halfedge, Builder.set_next, Builder.set_prev,
      Builder.set_face,
      Builder.primary_bisector, Builder.next, Builder.prev, Builder.opposite, Builder.face,
      Builder.halfedge, Builder.face_halfedge, Builder.vertex,
      he_updVertex, he_updWrap, he_wrapped_push_back, he_SLAV_push_back, he_SLAV_remove, he_vertices_push_back, he_with_mVertexID, he_with_mEdgeID, he_with_mSplitNodes, vtx_updHalfedge, vtx_updWrap, vtx_wrapped_push_back, vtx_SLAV_push_back, vtx_SLAV_remove, vtx_edges_push_back, vtx_with_mVertexID, vtx_with_mEdgeID, vtx_with_mSplitNodes, fc_updHalfedge, fc_updVertex, fc_updWrap, fc_wrapped_push_back, fc_SLAV_push_back, fc_SLAV_remove, fc_vertices_push_back, fc_edges_push_back, fc_with_mVertexID, fc_with_mEdgeID, fc_with_mSplitNodes, ev_updHalfedge, ev_updVertex, ev_updWrap, ev_wrapped_push_back, ev_SLAV_push_back, ev_SLAV_remove, ev_vertices_push_back, ev_edges_push_back, ev_with_mVertexID, ev_with_mEdgeID, ev_with_mSplitNodes, he_updHalfedge, he_edges_push_back, vtx_updVertex, vtx_vertices_push_back, edges_push_back_snd, edges_push_back_halfedgeNext, hN, hk, hev,
      g1, g2, g4, g6, g7, gl, gr, n1, n2, hRI, hLI, k10, 
      hL, hR, hH1, hH2, hLO, hRO, e1, e2, e3, e4, Ne.symm e1, Ne.symm e2, Ne.symm e3,
      Ne.symm e4, v1, Ne.symm v1, hne, Ne.symm hne,
      j1, j2, j3, j4, Ne.symm j1, Ne.symm j2, Ne.symm j3, Ne.symm j4,
      b1, b2, b3, b4, c1, c2, c3, c4, m1, m2, m3, m4, p1, p2, p3, p4, d1, d2, d3, d4,
      f1, f2, f3, f4, Ne.symm f1, Ne.symm f2, Ne.symm f3, Ne.symm f4,
      Ne.symm b1, Ne.symm b2, Ne.symm b3, Ne.symm b4,
      Ne.symm c1, Ne.symm c2, Ne.symm c3, Ne.symm c4,
      Ne.symm d1, Ne.symm d2, Ne.symm d3, Ne.symm d4,
      Ne.symm m1, Ne.symm m2, Ne.symm m3, Ne.symm m4,
      Ne.symm p1, Ne.symm p2, Ne.symm p3, Ne.symm p4,
      k1, k2, k3, k7, k8, k9, Ne.symm k1, Ne.symm k2, Ne.symm k3,
      Ne.symm k7, Ne.symm k8, Ne.symm k9,
      apply_ite Halfedge.next, apply_ite Halfedge.prev, apply_ite Halfedge.vertex,
      apply_ite Halfedge.face, apply_ite Halfedge.opposite, apply_ite Vertex.halfedge,
      ↓reduceIte, Option.some.injEq, reduceCtorEq, ite_self, Halfedge.mk1, ne_eq,
      not_false_eq_true, and_self, Vertex.mk3, or_self, or_false, false_or, or_true, true_or]
    by_cases q3 : j = s.mSSkel.halfedgeNext
    · subst q3
      simp only [Builder.VertexEventWiring,
      Builder.set_vertex, Builder.set_halfedge, Builder.set_next, Builder.set_prev,
      Builder.set_face,
      Builder.primary_bisector, Builder.next, Builder.prev, Builder.opposite, Builder.face,
      Builder.halfedge, Builder.face_halfedge, Builder.vertex,
      he_updVertex, he_updWrap, he_wrapped_push_back, he_SLAV_push_back, he_SLAV_remove, he_vertices_push_back, he_with_mVertexID, he_with_mEdgeID, he_with_mSplitNodes, vtx_updHalfedge, vtx_updWrap, vtx_wrapped_push_back, vtx_SLAV_push_back, vtx_SLAV_remove, vtx_edges_push_back, vtx_with_mVertexID, vtx_with_mEdgeID, vtx_with_mSplitNodes, fc_updHalfedge, fc_updVertex, fc_updWrap, fc_wrapped_push_back, fc_SLAV_push_back, fc_SLAV_remove, fc_vertices_push_back, fc_edges_push_back, fc_with_mVertexID, fc_with_mEdgeID, fc_with_mSplitNodes, ev_updHalfedge, ev_updVertex, ev_updWrap, ev_wrapped_push_back, ev_SLAV_push_back, ev_SLAV_remove, ev_vertices_push_back, ev_edges_push_back, ev_with_mVertexID, ev_with_mEdgeID, ev_with_mSplitNodes, he_updHalfedge, he_edges_push_back, vtx_updVertex, vtx_vertices_push_back, edges_push_back_snd, edges_push_back_halfedgeNext, hN, hk, hev,
      g1, g2, g4, g6, g7, gl, gr, n1, n2, hRI, hLI, k10, 
      hL, hR, hH1, hH2, hLO, hRO, e1, e2, e3, e4, Ne.symm e1, Ne.symm e2, Ne.symm e3,
      Ne.symm e4, v1, Ne.symm v1, hne, Ne.symm hne,
      j1, j2, j3, j4, Ne.symm j1, Ne.symm j2, Ne.symm j3, Ne.symm j4,
      b1, b2, b3, b4, c1, c2, c3, c4, m1, m2, m3, m4, p1, p2, p3, p4, d1, d2, d3, d4,
      f1, f2, f3, f4, Ne.symm f1, Ne.symm f2, Ne.symm f3, Ne.symm f4,
      Ne.symm b1, Ne.symm b2, Ne.symm b3, Ne.symm b4,
      Ne.symm c1, Ne.symm c2, Ne.symm c3, Ne.symm c4,
      Ne.symm d1, Ne.symm d2, Ne.symm d3, Ne.symm d4,
      Ne.symm m1, Ne.symm m2, Ne.symm m3, Ne.symm m4,
      Ne.symm p1, Ne.symm p2, Ne.symm p3, Ne.symm p4,
      k1, k2, k3, k7, k8, k9, Ne.symm k1, Ne.symm k2, Ne.symm k3,
      Ne.symm k7, Ne.symm k8, Ne.symm k9,
      apply_ite Halfedge.next, apply_ite Halfedge.prev, apply_ite Halfedge.vertex,
      apply_ite Halfedge.face, apply_ite Halfedge.opposite, apply_ite Vertex.halfedge,
      ↓reduceIte, Option.some.injEq, reduceCtorEq, ite_self, Halfedge.mk1, ne_eq,
      not_false_eq_true, and_self, Vertex.mk3, or_self, or_false, false_or, or_true, true_or]
      rfl
    by_cases q4 : j = s.mSSkel.halfedgeNext + 2
    · subst q4
      simp only [Builder.VertexEventWiring,
      Builder.set_vertex, Builder.set_halfedge, Builder.set_next, Builder.set_prev,
      Builder.set_face,
      Builder.primary_bisector, Builder.next, Builder.prev, Builder.opposite, Builder.face,
      Builder.halfedge, Builder.face_halfedge, Builder.vertex,
      he_updVertex, he_updWrap, he_wrapped_push_back, he_SLAV_push_back, he_SLAV_remove, he_vertices_push_back, he_with_mVertexID, he_with_mEdgeID, he_with_mSplitNodes, vtx_updHalfedge, vtx_updWrap, vtx_wrapped_push_back, vtx_SLAV_push_back, vtx_SLAV_remove, vtx_edges_push_back, vtx_with_mVertexID, vtx_with_mEdgeID, vtx_with_mSplitNodes, fc_updHalfedge, fc_updVertex, fc_updWrap, fc_wrapped_push_back, fc_SLAV_push_back, fc_SLAV_remove, fc_vertices_push_back, fc_edges_push_back, fc_with_mVertexID, fc_with_mEdgeID, fc_with_mSplitNodes, ev_updHalfedge, ev_updVertex, ev_updWrap, ev_wrapped_push_back, ev_SLAV_push_back, ev_SLAV_remove, ev_vertices_push_back, ev_edges_push_back, ev_with_mVertexID, ev_with_mEdgeID, ev_with_mSplitNodes, he_updHalfedge, he_edges_push_back, vtx_updVertex, vtx_vertices_push_back, edges_push_back_snd, edges_push_back_halfedgeNext, hN, hk, hev,
      g1, g2, g4, g6, g7, gl, gr, n1, n2, hRI, hLI, k10, 
      hL, hR, hH1, hH2, hLO, hRO, e1, e2, e3, e4, Ne.symm e1, Ne.symm e2, Ne.symm e3,
      Ne.symm e4, v1, Ne.symm v1, hne, Ne.symm hne,
      j1, j2, j3, j4, Ne.symm j1, Ne.symm j2, Ne.symm j3, Ne.symm j4,
      b1, b2, b3, b4, c1, c2, c3, c4, m1, m2, m3, m4, p1, p2, p3, p4, d1, d2, d3, d4,
      f1, f2, f3, f4, Ne.symm f1, Ne.symm f2, Ne.symm f3, Ne.symm f4,
      Ne.symm b1, Ne.symm b2, Ne.symm b3, Ne.symm b4,
      Ne.symm c1, Ne.symm c2, Ne.symm c3, Ne.symm c4,
      Ne.symm d1, Ne.symm d2, Ne.symm d3, Ne.symm d4,
      Ne.symm m1, Ne.symm m2, Ne.symm m3, Ne.symm m4,
      Ne.symm p1, Ne.symm p2, Ne.symm p3, Ne.symm p4,
      k1, k2, k3, k7, k8, k9, Ne.symm k1, Ne.symm k2, Ne.symm k3,
      Ne.symm k7, Ne.symm k8, Ne.symm k9,
      apply_ite Halfedge.next, apply_ite Halfedge.prev, apply_ite Halfedge.vertex,
      apply_ite Halfedge.face, apply_ite Halfedge.opposite, apply_ite Vertex.halfedge,
      ↓reduceIte, Option.some.injEq, reduceCtorEq, ite_self, Halfedge.mk1, ne_eq,
      not_false_eq_true, and_self, Vertex.mk3, or_self, or_false, false_or, or_true, true_or]
      rfl
    by_cases q5 : j = ro
    · subst q5
      simp only [Builder.VertexEventWiring,
      Builder.set_vertex, Builder.set_halfedge, Builder.set_next, Builder.set_prev,
      Builder.set_face,
      Builder.primary_bisector, Builder.next, Builder.prev, Builder.opposite, Builder.face,
      Builder.halfedge, Builder.face_halfedge, Builder.vertex,
      he_updVertex, he_updWrap, he_wrapped_push_back, he_SLAV_push_back, he_SLAV_remove, he_vertices_push_back, he_with_mVertexID, he_with_mEdgeID, he_with_mSplitNodes, vtx_updHalfedge, vtx_updWrap, vtx_wrapped_push_back, vtx_SLAV_push_back, vtx_SLAV_remove, vtx_edges_push_back, vtx_with_mVertexID, vtx_with_mEdgeID, vtx_with_mSplitNodes, fc_updHalfedge, fc_updVertex, fc_updWrap, fc_wrapped_push_back, fc_SLAV_push_back, fc_SLAV_remove, fc_vertices_push_back, fc_edges_push_back, fc_with_mVertexID, fc_with_mEdgeID, fc_with_mSplitNodes, ev_updHalfedge, ev_updVertex, ev_updWrap, ev_wrapped_push_back, ev_SLAV_push_back, ev_SLAV_remove, ev_vertices_push_back, ev_edges_push_back, ev_with_mVertexID, ev_with_mEdgeID, ev_with_mSplitNodes, he_updHalfedge, he_edges_push_back, vtx_updVertex, vtx_vertices_push_back, edges_push_back_snd, edges_push_back_halfedgeNext, hN, hk, hev,
      g1, g2, g4, g6, g7, gl, gr, n1, n2, hRI, hLI, k10, q1, q2, q3, q4,
      hL, hR, hH1, hH2, hLO, hRO, e1, e2, e3, e4, Ne.symm e1, Ne.symm e2, Ne.symm e3,
      Ne.symm e4, v1, Ne.symm v1, hne, Ne.symm hne,
      j1, j2, j3, j4, Ne.symm j1, Ne.symm j2, Ne.symm j3, Ne.symm j4,
      b1, b2, b3, b4, c1, c2, c3, c4, m1, m2, m3, m4, p1, p2, p3, p4, d1, d2, d3, d4,
      f1, f2, f3, f4, Ne.symm f1, Ne.symm f2, Ne.symm f3, Ne.symm f4,
      Ne.symm b1, Ne.symm b2, Ne.symm b3, Ne.symm b4,
      Ne.symm c1, Ne.symm c2, Ne.symm c3, Ne.symm c4,
      Ne.symm d1, Ne.symm d2, Ne.symm d3, Ne.symm d4,
      Ne.symm m1, Ne.symm m2, Ne.symm m3, Ne.symm m4,
      Ne.symm p1, Ne.symm p2, Ne.symm p3, Ne.symm p4,
      k1, k2, k3, k7, k8, k9, Ne.symm k1, Ne.symm k2, Ne.symm k3,
      Ne.symm k7, Ne.symm k8, Ne.symm k9,
      apply_ite Halfedge.next, apply_ite Halfedge.prev, apply_ite Halfedge.vertex,
      apply_ite Halfedge.face, apply_ite Halfedge.opposite, apply_ite Vertex.halfedge,
      ↓reduceIte, Option.some.injEq, reduceCtorEq, ite_self, Halfedge.mk1, ne_eq,
      not_false_eq_true, and_self, Vertex.mk3, or_self, or_false, false_or, or_true, true_or]
    by_cases q6 : j = lo
    · subst q6
      simp only [Builder.VertexEventWiring,
      Builder.set_vertex, Builder.set_halfedge, Builder.set_next, Builder.set_prev,
      Builder.set_face,
      Builder.primary_bisector, Builder.next, Builder.prev, Builder.opposite, Builder.face,
      Builder.halfedge, Builder.face_halfedge, Builder.vertex,
      he_updVertex, he_updWrap, he_wrapped_push_back, he_SLAV_push_back, he_SLAV_remove, he_vertices_push_back, he_with_mVertexID, he_with_mEdgeID, he_with_mSplitNodes, vtx_updHalfedge, vtx_updWrap, vtx_wrapped_push_back, vtx_SLAV_push_back, vtx_SLAV_remove, vtx_edges_push_back, vtx_with_mVertexID, vtx_with_mEdgeID, vtx_with_mSplitNodes, fc_updHalfedge, fc_updVertex, fc_updWrap, fc_wrapped_push_back, fc_SLAV_push_back, fc_SLAV_remove, fc_vertices_push_back, fc_edges_push_back, fc_with_mVertexID, fc_with_mEdgeID, fc_with_mSplitNodes, ev_updHalfedge, ev_updVertex, ev_updWrap, ev_wrapped_push_back, ev_SLAV_push_back, ev_SLAV_remove, ev_vertices_push_back, ev_edges_push_back, ev_with_mVertexID, ev_with_mEdgeID, ev_with_mSplitNodes, he_updHalfedge, he_edges_push_back, vtx_updVertex, vtx_vertices_push_back, edges_push_back_snd, edges_push_back_halfedgeNext, hN, hk, hev,
      g1, g2, g4, g6, g7, gl, gr, n1, n2, hRI, hLI, k10, q1, q2, q3, q4, q5,
      hL, hR, hH1, hH2, hLO, hRO, e1, e2, e3, e4, Ne.symm e1, Ne.symm e2, Ne.symm e3,
      Ne.symm e4, v1, Ne.symm v1, hne, Ne.symm hne,
      j1, j2, j3, j4, Ne.symm j1, Ne.symm j2, Ne.symm j3, Ne.symm j4,
      b1, b2, b3, b4, c1, c2, c3, c4, m1, m2, m3, m4, p1, p2, p3, p4, d1, d2, d3, d4,
      f1, f2, f3, f4, Ne.symm f1, Ne.symm f2, Ne.symm f3, Ne.symm f4,
      Ne.symm b1, Ne.symm b2, Ne.symm b3, Ne.symm b4,
      Ne.symm c1, Ne.symm c2, Ne.symm c3, Ne.symm c4,
      Ne.symm d1, Ne.symm d2, Ne.symm d3, Ne.symm d4,
      Ne.symm m1, Ne.symm m2, Ne.symm m3, Ne.symm m4,
      Ne.symm p1, Ne.symm p2, Ne.symm p3, Ne.symm p4,
      k1, k2, k3, k7, k8, k9, Ne.symm k1, Ne.symm k2, Ne.symm k3,
      Ne.symm k7, Ne.symm k8, Ne.symm k9,
      apply_ite Halfedge.next, apply_ite Halfedge.prev, apply_ite Halfedge.vertex,
      apply_ite Halfedge.face, apply_ite Halfedge.opposite, apply_ite Vertex.halfedge,
      ↓reduceIte, Option.some.injEq, reduceCtorEq, ite_self, Halfedge.mk1, ne_eq,
      not_false_eq_true, and_self, Vertex.mk3, or_self, or_false, false_or, or_true, true_or]
    · have n3 := g5 j (Ne.symm q6) (Ne.symm q5)
      simp only [Builder.VertexEventWiring,
      Builder.set_vertex, Builder.set_halfedge, Builder.set_next, Builder.set_prev,
      Builder.set_face,
      Builder.primary_bisector, Builder.next, Builder.prev, Builder.opposite, Builder.face,
      Builder.halfedge, Builder.face_halfedge, Builder.vertex,
      he_updVertex, he_updWrap, he_wrapped_push_back, he_SLAV_push_back, he_SLAV_remove, he_vertices_push_back, he_with_mVertexID, he_with_mEdgeID, he_with_mSplitNodes, vtx_updHalfedge, vtx_updWrap, vtx_wrapped_push_back, vtx_SLAV_push_back, vtx_SLAV_remove, vtx_edges_push_back, vtx_with_mVertexID, vtx_with_mEdgeID, vtx_with_mSplitNodes, fc_updHalfedge, fc_updVertex, fc_updWrap, fc_wrapped_push_back, fc_SLAV_push_back, fc_SLAV_remove, fc_vertices_push_back, fc_edges_push_back, fc_with_mVertexID, fc_with_mEdgeID, fc_with_mSplitNodes, ev_updHalfedge, ev_updVertex, ev_updWrap, ev_wrapped_push_back, ev_SLAV_push_back, ev_SLAV_remove, ev_vertices_push_back, ev_edges_push_back, ev_with_mVertexID, ev_with_mEdgeID, ev_with_mSplitNodes, he_updHalfedge, he_edges_push_back, vtx_updVertex, vtx_vertices_push_back, edges_push_back_snd, edges_push_back_halfedgeNext, hN, hk, hev,
      g1, g2, g4, g6, g7, gl, gr, n1, n2, hRI, hLI, k10, n3, q1, q2, q3, q4, q5, q6, Ne.symm q1, Ne.symm q2, Ne.symm q3, Ne.symm q4, Ne.symm q5, Ne.symm q6,
      hL, hR, hH1, hH2, hLO, hRO, e1, e2, e3, e4, Ne.symm e1, Ne.symm e2, Ne.symm e3,
      Ne.symm e4, v1, Ne.symm v1, hne, Ne.symm hne,
      j1, j2, j3, j4, Ne.symm j1, Ne.symm j2, Ne.symm j3, Ne.symm j4,
      b1, b2, b3, b4, c1, c2, c3, c4, m1, m2, m3, m4, p1, p2, p3, p4, d1, d2, d3, d4,
      f1, f2, f3, f4, Ne.symm f1, Ne.symm f2, Ne.symm f3, Ne.symm f4,
      Ne.symm b1, Ne.symm b2, Ne.symm b3, Ne.symm b4,
      Ne.symm c1, Ne.symm c2, Ne.symm c3, Ne.symm c4,
      Ne.symm d1, Ne.symm d2, Ne.symm d3, Ne.symm d4,
      Ne.symm m1, Ne.symm m2, Ne.symm m3, Ne.symm m4,
      Ne.symm p1, Ne.symm p2, Ne.symm p3, Ne.symm p4,
      k1, k2, k3, k7, k8, k9, Ne.symm k1, Ne.symm k2, Ne.symm k3,
      Ne.symm k7, Ne.symm k8, Ne.symm k9,
      apply_ite Halfedge.next, apply_ite Halfedge.prev, apply_ite Halfedge.vertex,
      apply_ite Halfedge.face, apply_ite Halfedge.opposite, apply_ite Vertex.halfedge,
      ↓reduceIte, Option.some.injEq, reduceCtorEq, ite_self, Halfedge.mk1, ne_eq,
      not_false_eq_true, and_self, Vertex.mk3, or_self, or_false, false_or, or_true, true_or]
  · intro j hj
    have t1 : j ≠ s.mSSkel.halfedgeNext := by omega
    have t2 : j ≠ s.mSSkel.halfedgeNext + 1 := by omega
    have t3 : j ≠ s.mSSkel.halfedgeNext + 2 := by omega
    have t4 : j ≠ s.mSSkel.halfedgeNext + 2 + 1 := by omega
    simp only [Builder.VertexEventWiring,
      Builder.set_vertex, Builder.set_halfedge, Builder.set_next, Builder.set_prev,
      Builder.set_face,
      Builder.primary_bisector, Builder.next, Builder.prev, Builder.opposite, Builder.face,
      Builder.halfedge, Builder.face_halfedge, Builder.vertex,
      he_updVertex, he_updWrap, he_wrapped_push_back, he_SLAV_push_back, he_SLAV_remove, he_vertices_push_back, he_with_mVertexID, he_with_mEdgeID, he_with_mSplitNodes, vtx_updHalfedge, vtx_updWrap, vtx_wrapped_push_back, vtx_SLAV_push_back, vtx_SLAV_remove, vtx_edges_push_back, vtx_with_mVertexID, vtx_with_mEdgeID, vtx_with_mSplitNodes, fc_updHalfedge, fc_updVertex, fc_updWrap, fc_wrapped_push_back, fc_SLAV_push_back, fc_SLAV_remove, fc_vertices_push_back, fc_edges_push_back, fc_with_mVertexID, fc_with_mEdgeID, fc_with_mSplitNodes, ev_updHalfedge, ev_updVertex, ev_updWrap, ev_wrapped_push_back, ev_SLAV_push_back, ev_SLAV_remove, ev_vertices_push_back, ev_edges_push_back, ev_with_mVertexID, ev_with_mEdgeID, ev_with_mSplitNodes, he_updHalfedge, he_edges_push_back, vtx_updVertex, vtx_vertices_push_back, edges_push_back_snd, edges_push_back_halfedgeNext, hN, hk, hev,
      g1, g2, g4, g6, g7, gl, gr, n1, n2, hRI, hLI, k10, t1, t2, t3, t4, Ne.symm t1, Ne.symm t2, Ne.symm t3, Ne.symm t4,
      hL, hR, hH1, hH2, hLO, hRO, e1, e2, e3, e4, Ne.symm e1, Ne.symm e2, Ne.symm e3,
      Ne.symm e4, v1, Ne.symm v1, hne, Ne.symm hne,
      j1, j2, j3, j4, Ne.symm j1, Ne.symm j2, Ne.symm j3, Ne.symm j4,
      b1, b2, b3, b4, c1, c2, c3, c4, m1, m2, m3, m4, p1, p2, p3, p4, d1, d2, d3, d4,
      f1, f2, f3, f4, Ne.symm f1, Ne.symm f2, Ne.symm f3, Ne.symm f4,
      Ne.symm b1, Ne.symm b2, Ne.symm b3, Ne.symm b4,
      Ne.symm c1, Ne.symm c2, Ne.symm c3, Ne.symm c4,
      Ne.symm d1, Ne.symm d2, Ne.symm d3, Ne.symm d4,
      Ne.symm m1, Ne.symm m2, Ne.symm m3, Ne.symm m4,
      Ne.symm p1, Ne.symm p2, Ne.symm p3, Ne.symm p4,
      k1, k2, k3, k7, k8, k9, Ne.symm k1, Ne.symm k2, Ne.symm k3,
      Ne.symm k7, Ne.symm k8, Ne.symm k9,
      apply_ite Halfedge.next, apply_ite Halfedge.prev, apply_ite Halfedge.vertex,
      apply_ite Halfedge.face, apply_ite Halfedge.opposite, apply_ite Vertex.halfedge,
      ↓reduceIte, Option.some.injEq, reduceCtorEq, ite_self, Halfedge.mk1, ne_eq,
      not_false_eq_true, and_self, Vertex.mk3, or_self, or_false, false_or, or_true, true_or]
  all_goals
    simp only [Builder.VertexEventWiring,
      Builder.set_vertex, Builder.set_halfedge, Builder.set_next, Builder.set_prev,
      Builder.set_face,
      Builder.primary_bisector, Builder.next, Builder.prev, Builder.opposite, Builder.face,
      Builder.halfedge, Builder.face_halfedge, Builder.vertex,
      he_updVertex, he_updWrap, he_wrapped_push_back, he_SLAV_push_back, he_SLAV_remove, he_vertices_push_back, he_with_mVertexID, he_with_mEdgeID, he_with_mSplitNodes, vtx_updHalfedge, vtx_updWrap, vtx_wrapped_push_back, vtx_SLAV_push_back, vtx_SLAV_remove, vtx_edges_push_back, vtx_with_mVertexID, vtx_with_mEdgeID, vtx_with_mSplitNodes, fc_updHalfedge, fc_updVertex, fc_updWrap, fc_wrapped_push_back, fc_SLAV_push_back, fc_SLAV_remove, fc_vertices_push_back, fc_edges_push_back, fc_with_mVertexID, fc_with_mEdgeID, fc_with_mSplitNodes, ev_updHalfedge, ev_updVertex, ev_updWrap, ev_wrapped_push_back, ev_SLAV_push_back, ev_SLAV_remove, ev_vertices_push_back, ev_edges_push_back, ev_with_mVertexID, ev_with_mEdgeID, ev_with_mSplitNodes, he_updHalfedge, he_edges_push_back, vtx_updVertex, vtx_vertices_push_back, edges_push_back_snd, edges_push_back_halfedgeNext, hN, hk, hev,
      g1, g2, g4, g6, g7, gl, gr, n1, n2, hRI, hLI, k10, 
      hL, hR, hH1, hH2, hLO, hRO, e1, e2, e3, e4, Ne.symm e1, Ne.symm e2, Ne.symm e3,
      Ne.symm e4, v1, Ne.symm v1, hne, Ne.symm hne,
      j1, j2, j3, j4, Ne.symm j1, Ne.symm j2, Ne.symm j3, Ne.symm j4,
      b1, b2, b3, b4, c1, c2, c3, c4, m1, m2, m3, m4, p1, p2, p3, p4, d1, d2, d3, d4,
      f1, f2, f3, f4, Ne.symm f1, Ne.symm f2, Ne.symm f3, Ne.symm f4,
      Ne.symm b1, Ne.symm b2, Ne.symm b3, Ne.symm b4,
      Ne.symm c1, Ne.symm c2, Ne.symm c3, Ne.symm c4,
      Ne.symm d1, Ne.symm d2, Ne.symm d3, Ne.symm d4,
      Ne.symm m1, Ne.symm m2, Ne.symm m3, Ne.symm m4,
      Ne.symm p1, Ne.symm p2, Ne.symm p3, Ne.symm p4,
      k1, k2, k3, k7, k8, k9, Ne.symm k1, Ne.symm k2, Ne.symm k3,
      Ne.symm k7, Ne.symm k8, Ne.symm k9,
      apply_ite Halfedge.next, apply_ite Halfedge.prev, apply_ite Halfedge.vertex,
      apply_ite Halfedge.face, apply_ite Halfedge.opposite, apply_ite Vertex.halfedge,
      ↓reduceIte, Option.some.injEq, reduceCtorEq, ite_self, Halfedge.mk1, ne_eq,
      not_false_eq_true, and_self, Vertex.mk3, or_self, or_false, false_or, or_true, true_or]

/-- The graph after `ConstructEdgeEventNode`: the next links, the faces and the twins of the
halfedges, and the vertices other than the new node. -/
theorem ConstructEdgeEventNode_graph (s : Builder) (e : EventPtr) (l r i1 i2 lo ro li : Nat)
    (hL : (s.ev e).seed0 = some l) (hR : (s.ev e).seed1 = some r)
    (hl : l < s.mSSkel.vertexNext) (hr : r < s.mSSkel.vertexNext)
    (hH1 : (s.vtx (some l)).halfedge = some i1) (hLO : (s.he (some i1)).next = some lo)
    (hH2 : (s.vtx (some r)).halfedge = some i2) (hRO : (s.he (some i2)).next = some ro)
    (hLI : (s.he (some lo)).opposite = some li) :
    (∀ j, ((s.ConstructEdgeEventNode e).1.he (some j)).next
        = if ro = j then some li else (s.he (some j)).next)
    ∧ (∀ j, ((s.ConstructEdgeEventNode e).1.he (some j)).face = (s.he (some j)).face)
    ∧ (∀ j, ((s.ConstructEdgeEventNode e).1.he (some j)).opposite = (s.he (some j)).opposite)
    ∧ (∀ j, j ≠ s.mSSkel.vertexNext →
        (s.ConstructEdgeEventNode e).1.vtx (some j) = s.vtx (some j)) := by
  rcases e with _ | j0
  · exact absurd hL (by simp [Builder.ev])
  have e1 : l ≠ s.mSSkel.vertexNext := by omega
  have e3 : r ≠ s.mSSkel.vertexNext := by omega
  refine ⟨?_, ?_, ?_, ?_⟩
  · intro j
    by_cases q : ro = j
    · subst q
      simp only [Builder.ConstructEdgeEventNode, Builder.set_vertex, Builder.set_halfedge,
      Builder.set_next, Builder.set_prev,
      Builder.SetIsProcessed, Builder.SetPrevInLAV, Builder.SetNextInLAV,
      Builder.primary_bisector, Builder.next, Builder.halfedge, Builder.opposite,
      he_updVertex, he_updWrap, he_wrapped_push_back, he_SLAV_push_back, he_SLAV_remove, he_vertices_push_back, he_with_mVertexID, he_with_mEdgeID, he_with_mSplitNodes, vtx_updHalfedge, vtx_updWrap, vtx_wrapped_push_back, vtx_SLAV_push_back, vtx_SLAV_remove, vtx_edges_push_back, vtx_with_mVertexID, vtx_with_mEdgeID, vtx_with_mSplitNodes, fc_updHalfedge, fc_updVertex, fc_updWrap, fc_wrapped_push_back, fc_SLAV_push_back, fc_SLAV_remove, fc_vertices_push_back, fc_edges_push_back, fc_with_mVertexID, fc_with_mEdgeID, fc_with_mSplitNodes, ev_updHalfedge, ev_updVertex, ev_updWrap, ev_wrapped_push_back, ev_SLAV_push_back, ev_SLAV_remove, ev_vertices_push_back, ev_edges_push_back, ev_with_mVertexID, ev_with_mEdgeID, ev_with_mSplitNodes, he_updHalfedge, he_edges_push_back, vtx_updVertex, vtx_vertices_push_back, vertices_push_back_snd, vertices_push_back_vertexNext,
      vertices_push_back_mVertexID, ev_mk, ev_of_table, 
      hL, hR, hH1, hH2, hLO, hRO, hLI, e1, e3, Ne.symm e1, Ne.symm e3,
      apply_ite Vertex.halfedge, apply_ite Halfedge.next, apply_ite Halfedge.face,
      apply_ite Halfedge.opposite, Vertex.mk3, ite_self,
      ↓reduceIte, Option.some.injEq, reduceCtorEq]
    · simp only [Builder.ConstructEdgeEventNode, Builder.set_vertex, Builder.set_halfedge,
      Builder.set_next, Builder.set_prev,
      Builder.SetIsProcessed, Builder.SetPrevInLAV, Builder.SetNextInLAV,
      Builder.primary_bisector, Builder.next, Builder.halfedge, Builder.opposite,
      he_updVertex, he_updWrap, he_wrapped_push_back, he_SLAV_push_back, he_SLAV_remove, he_vertices_push_back, he_with_mVertexID, he_with_mEdgeID, he_with_mSplitNodes, vtx_updHalfedge, vtx_updWrap, vtx_wrapped_push_back, vtx_SLAV_push_back, vtx_SLAV_remove, vtx_edges_push_back, vtx_with_mVertexID, vtx_with_mEdgeID, vtx_with_mSplitNodes, fc_updHalfedge, fc_updVertex, fc_updWrap, fc_wrapped_push_back, fc_SLAV_push_back, fc_SLAV_remove, fc_vertices_push_back, fc_edges_push_back, fc_with_mVertexID, fc_with_mEdgeID, fc_with_mSplitNodes, ev_updHalfedge, ev_updVertex, ev_updWrap, ev_wrapped_push_back, ev_SLAV_push_back, ev_SLAV_remove, ev_vertices_push_back, ev_edges_push_back, ev_with_mVertexID, ev_with_mEdgeID, ev_with_mSplitNodes, he_updHalfedge, he_edges_push_back, vtx_updVertex, vtx_vertices_push_back, vertices_push_back_snd, vertices_push_back_vertexNext,
      vertices_push_back_mVertexID, ev_mk, ev_of_table, q, Ne.symm q,
      hL, hR, hH1, hH2, hLO, hRO, hLI, e1, e3, Ne.symm e1, Ne.symm e3,
      apply_ite Vertex.halfedge, apply_ite Halfedge.next, apply_ite Halfedge.face,
      apply_ite Halfedge.opposite, Vertex.mk3, ite_self,
      ↓reduceIte, Option.some.injEq, reduceCtorEq]
  · intro j
    simp only [Builder.ConstructEdgeEventNode, Builder.set_vertex, Builder.set_halfedge,
      Builder.set_next, Builder.set_prev,
      Builder.SetIsProcessed, Builder.SetPrevInLAV, Builder.SetNextInLAV,
      Builder.primary_bisector, Builder.next, Builder.halfedge, Builder.opposite,
      he_updVertex, he_updWrap, he_wrapped_push_back, he_SLAV_push_back, he_SLAV_remove, he_vertices_push_back, he_with_mVertexID, he_with_mEdgeID, he_with_mSplitNodes, vtx_updHalfedge, vtx_updWrap, vtx_wrapped_push_back, vtx_SLAV_push_back, vtx_SLAV_remove, vtx_edges_push_back, vtx_with_mVertexID, vtx_with_mEdgeID, vtx_with_mSplitNodes, fc_updHalfedge, fc_updVertex, fc_updWrap, fc_wrapped_push_back, fc_SLAV_push_back, fc_SLAV_remove, fc_vertices_push_back, fc_edges_push_back, fc_with_mVertexID, fc_with_mEdgeID, fc_with_mSplitNodes, ev_updHalfedge, ev_updVertex, ev_updWrap, ev_wrapped_push_back, ev_SLAV_push_back, ev_SLAV_remove, ev_vertices_push_back, ev_edges_push_back, ev_with_mVertexID, ev_with_mEdgeID, ev_with_mSplitNodes, he_updHalfedge, he_edges_push_back, vtx_updVertex, vtx_vertices_push_back, vertices_push_back_snd, vertices_push_back_vertexNext,
      vertices_push_back_mVertexID, ev_mk, ev_of_table, 
      hL, hR, hH1, hH2, hLO, hRO, hLI, e1, e3, Ne.symm e1, Ne.symm e3,
      apply_ite Vertex.halfedge, apply_ite Halfedge.next, apply_ite Halfedge.face,
      apply_ite Halfedge.opposite, Vertex.mk3, ite_self,
      ↓reduceIte, Option.some.injEq, reduceCtorEq]
  · intro j
    simp only [Builder.ConstructEdgeEventNode, Builder.set_vertex, Builder.set_halfedge,
      Builder.set_next, Builder.set_prev,
      Builder.SetIsProcessed, Builder.SetPrevInLAV, Builder.SetNextInLAV,
      Builder.primary_bisector, Builder.next, Builder.halfedge, Builder.opposite,
      he_updVertex, he_updWrap, he_wrapped_push_back, he_SLAV_push_back, he_SLAV_remove, he_vertices_push_back, he_with_mVertexID, he_with_mEdgeID, he_with_mSplitNodes, vtx_updHalfedge, vtx_updWrap, vtx_wrapped_push_back, vtx_SLAV_push_back, vtx_SLAV_remove, vtx_edges_push_back, vtx_with_mVertexID, vtx_with_mEdgeID, vtx_with_mSplitNodes, fc_updHalfedge, fc_updVertex, fc_updWrap, fc_wrapped_push_back, fc_SLAV_push_back, fc_SLAV_remove, fc_vertices_push_back, fc_edges_push_back, fc_with_mVertexID, fc_with_mEdgeID, fc_with_mSplitNodes, ev_updHalfedge, ev_updVertex, ev_updWrap, ev_wrapped_push_back, ev_SLAV_push_back, ev_SLAV_remove, ev_vertices_push_back, ev_edges_push_back, ev_with_mVertexID, ev_with_mEdgeID, ev_with_mSplitNodes, he_updHalfedge, he_edges_push_back, vtx_updVertex, vtx_vertices_push_back, vertices_push_back_snd, vertices_push_back_vertexNext,
      vertices_push_back_mVertexID, ev_mk, ev_of_table, 
      hL, hR, hH1, hH2, hLO, hRO, hLI, e1, e3, Ne.symm e1, Ne.symm e3,
      apply_ite Vertex.halfedge, apply_ite Halfedge.next, apply_ite Halfedge.face,
      apply_ite Halfedge.opposite, Vertex.mk3, ite_self,
      ↓reduceIte, Option.some.injEq, reduceCtorEq]
  · intro j hj
    simp only [Builder.ConstructEdgeEventNode, Builder.set_vertex, Builder.set_halfedge,
      Builder.set_next, Builder.set_prev,
      Builder.SetIsProcessed, Builder.SetPrevInLAV, Builder.SetNextInLAV,
      Builder.primary_bisector, Builder.next, Builder.halfedge, Builder.opposite,
      he_updVertex, he_updWrap, he_wrapped_push_back, he_SLAV_push_back, he_SLAV_remove, he_vertices_push_back, he_with_mVertexID, he_with_mEdgeID, he_with_mSplitNodes, vtx_updHalfedge, vtx_updWrap, vtx_wrapped_push_back, vtx_SLAV_push_back, vtx_SLAV_remove, vtx_edges_push_back, vtx_with_mVertexID, vtx_with_mEdgeID, vtx_with_mSplitNodes, fc_updHalfedge, fc_updVertex, fc_updWrap, fc_wrapped_push_back, fc_SLAV_push_back, fc_SLAV_remove, fc_vertices_push_back, fc_edges_push_back, fc_with_mVertexID, fc_with_mEdgeID, fc_with_mSplitNodes, ev_updHalfedge, ev_updVertex, ev_updWrap, ev_wrapped_push_back, ev_SLAV_push_back, ev_SLAV_remove, ev_vertices_push_back, ev_edges_push_back, ev_with_mVertexID, ev_with_mEdgeID, ev_with_mSplitNodes, he_updHalfedge, he_edges_push_back, vtx_updVertex, vtx_vertices_push_back, vertices_push_back_snd, vertices_push_back_vertexNext,
      vertices_push_back_mVertexID, ev_mk, ev_of_table, hj, Ne.symm hj,
      hL, hR, hH1, hH2, hLO, hRO, hLI, e1, e3, Ne.symm e1, Ne.symm e3,
      apply_ite Vertex.halfedge, apply_ite Halfedge.next, apply_ite Halfedge.face,
      apply_ite Halfedge.opposite, Vertex.mk3, ite_self,
      ↓reduceIte, Option.some.injEq, reduceCtorEq]

/-- The next links and the faces of the halfedges of an edge event, once wired. -/
theorem EdgeEventWiring_next_face (s : Builder) (e : EventPtr) (l r i1 i2 lo ro li ri : Nat)
    (hL : (s.ev e).seed0 = some l) (hR : (s.ev e).seed1 = some r)
    (hl : l < s.mSSkel.vertexNext) (hr : r < s.mSSkel.vertexNext)
    (hH1 : s.halfedge (some l) = some i1) (hLO : s.next (some i1) = some lo)
    (hH2 : s.halfedge (some r) = some i2) (hRO : s.next (some i2) = some ro)
    (hLI : s.opposite (some lo) = some li) (hRI : s.opposite (some ro) = some ri)
    (hi1 : i1 < s.mSSkel.halfedgeNext) (hi2 : i2 < s.mSSkel.halfedgeNext)
    (hlo : lo < s.mSSkel.halfedgeNext) (hro : ro < s.mSSkel.halfedgeNext)
    (hli : li < s.mSSkel.halfedgeNext) (hri : ri < s.mSSkel.halfedgeNext)
    (hne : lo ≠ ro) (j2 : ro ≠ i1) (j4 : ro ≠ i2) :
    (∀ j, ((s.EdgeEventWiring e).he (some j)).next
        = if j = s.mSSkel.halfedgeNext + 1 then some ri
          else if j = s.mSSkel.halfedgeNext then none
          else if j = lo then some s.mSSkel.halfedgeNext
          else if j = ro then some li
          else (s.he (some j)).next)
    ∧ (∀ j, j < s.mSSkel.halfedgeNext →
        ((s.EdgeEventWiring e).he (some j)).face = (s.he (some j)).face)
    ∧ ((s.EdgeEventWiring e).he (some s.mSSkel.halfedgeNext)).face = (s.he (some lo)).face
    ∧ ((s.EdgeEventWiring e).he (some (s.mSSkel.halfedgeNext + 1))).face
        = (s.he (some ri)).face := by
  simp only [Builder.next, Builder.opposite, Builder.halfedge] at hH1 hH2 hLO hRO hRI hLI
  obtain ⟨g0, g1, g2, g3⟩ :=
    ConstructEdgeEventNode_graph s e l r i1 i2 lo ro li hL hR hl hr hH1 hLO hH2 hRO hLI
  have e1 : l ≠ s.mSSkel.vertexNext := by omega
  have e3 : r ≠ s.mSSkel.vertexNext := by omega
  have gl := g3 l e1
  have gr := g3 r e3
  have n1 : ((s.ConstructEdgeEventNode e).1.he (some i1)).next = (s.he (some i1)).next :=
    (g0 i1).trans (if_neg j2)
  have n2 : ((s.ConstructEdgeEventNode e).1.he (some i2)).next = (s.he (some i2)).next :=
    (g0 i2).trans (if_neg j4)
  have b1 : lo ≠ s.mSSkel.halfedgeNext := by omega
  have b2 : lo ≠ s.mSSkel.halfedgeNext + 1 := by omega
  have c1 : ro ≠ s.mSSkel.halfedgeNext := by omega
  have c2 : ro ≠ s.mSSkel.halfedgeNext + 1 := by omega
  have d1 : ri ≠ s.mSSkel.halfedgeNext := by omega
  have d2 : ri ≠ s.mSSkel.halfedgeNext + 1 := by omega
  have f1 : li ≠ s.mSSkel.halfedgeNext := by omega
  have f2 : li ≠ s.mSSkel.halfedgeNext + 1 := by omega
  have m1 : i1 ≠ s.mSSkel.halfedgeNext := by omega
  have m2 : i1 ≠ s.mSSkel.halfedgeNext + 1 := by omega
  have p1 : i2 ≠ s.mSSkel.halfedgeNext := by omega
  have p2 : i2 ≠ s.mSSkel.halfedgeNext + 1 := by omega
  have k8 : s.mSSkel.halfedgeNext ≠ s.mSSkel.halfedgeNext + 1 := by omega
  have hN : (s.ConstructEdgeEventNode e).2 = some s.mSSkel.vertexNext := rfl
  have hk : (s.ConstructEdgeEventNode e).1.mSSkel.halfedgeNext
      = s.mSSkel.halfedgeNext := rfl
  have hev : ∀ x, (s.ConstructEdgeEventNode e).1.ev x = s.ev x := fun _ => rfl
  refine ⟨?_, ?_, ?_, ?_⟩
  · intro j
    by_cases q1 : j = s.mSSkel.halfedgeNext + 1
    · subst q1
      simp only [Builder.EdgeEventWiring,
      Builder.set_vertex, Builder.set_halfedge, Builder.set_next, Builder.set_prev,
      Builder.set_face,
      Builder.primary_bisector, Builder.next, Builder.prev, Builder.opposite, Builder.face,
      Builder.halfedge, Builder.face_halfedge, Builder.vertex,
      he_updVertex, he_updWrap, he_wrapped_push_back, he_SLAV_push_back, he_SLAV_remove, he_vertices_push_back, he_with_mVertexID, he_with_mEdgeID, he_with_mSplitNodes, vtx_updHalfedge, vtx_updWrap, vtx_wrapped_push_back, vtx_SLAV_push_back, vtx_SLAV_remove, vtx_edges_push_back, vtx_with_mVertexID, vtx_with_mEdgeID, vtx_with_mSplitNodes, fc_updHalfedge, fc_updVertex, fc_updWrap, fc_wrapped_push_back, fc_SLAV_push_back, fc_SLAV_remove, fc_vertices_push_back, fc_edges_push_back, fc_with_mVertexID, fc_with_mEdgeID, fc_with_mSplitNodes, ev_updHalfedge, ev_updVertex, ev_updWrap, ev_wrapped_push_back, ev_SLAV_push_back, ev_SLAV_remove, ev_vertices_push_back, ev_edges_push_back, ev_with_mVertexID, ev_with_mEdgeID, ev_with_mSplitNodes, he_updHalfedge, he_edges_push_back, vtx_updVertex, vtx_vertices_push_back, edges_push_back_snd, edges_push_back_halfedgeNext, hN, hk, hev,
      g1, g2, g3, gl, gr, n1, n2, hRI, hLI, 
      hL, hR, hH1, hH2, hLO, hRO, e1, e3, Ne.symm e1, Ne.symm e3, hne, Ne.symm hne,
      j2, j4, Ne.symm j2, Ne.symm j4,
      b1, b2, c1, c2, m1, m2, p1, p2, d1, d2, f1, f2,
      Ne.symm f1, Ne.symm f2, Ne.symm b1, Ne.symm b2, Ne.symm c1, Ne.symm c2,
      Ne.symm d1, Ne.symm d2, Ne.symm m1, Ne.symm m2, Ne.symm p1, Ne.symm p2,
      k8, Ne.symm k8,
      apply_ite Halfedge.next, apply_ite Halfedge.prev, apply_ite Halfedge.vertex,
      apply_ite Halfedge.face, apply_ite Halfedge.opposite, apply_ite Vertex.halfedge,
      ↓reduceIte, Option.some.injEq, reduceCtorEq, ite_self, Halfedge.mk1, ne_eq,
      not_false_eq_true, and_self, Vertex.mk3, or_self, or_false, false_or, or_true, true_or]
    by_cases q2 : j = s.mSSkel.halfedgeNext
    · subst q2
      simp only [Builder.EdgeEventWiring,
      Builder.set_vertex, Builder.set_halfedge, Builder.set_next, Builder.set_prev,
      Builder.set_face,
      Builder.primary_bisector, Builder.next, Builder.prev, Builder.opposite, Builder.face,
      Builder.halfedge, Builder.face_halfedge, Builder.vertex,
      he_updVertex, he_updWrap, he_wrapped_push_back, he_SLAV_push_back, he_SLAV_remove, he_vertices_push_back, he_with_mVertexID, he_with_mEdgeID, he_with_mSplitNodes, vtx_updHalfedge, vtx_updWrap, vtx_wrapped_push_back, vtx_SLAV_push_back, vtx_SLAV_remove, vtx_edges_push_back, vtx_with_mVertexID, vtx_with_mEdgeID, vtx_with_mSplitNodes, fc_updHalfedge, fc_updVertex, fc_updWrap, fc_wrapped_push_back, fc_SLAV_push_back, fc_SLAV_remove, fc_vertices_push_back, fc_edges_push_back, fc_with_mVertexID, fc_with_mEdgeID, fc_with_mSplitNodes, ev_updHalfedge, ev_updVertex, ev_updWrap, ev_wrapped_push_back, ev_SLAV_push_back, ev_SLAV_remove, ev_vertices_push_back, ev_edges_push_back, ev_with_mVertexID, ev_with_mEdgeID, ev_with_mSplitNodes, he_updHalfedge, he_edges_push_back, vtx_updVertex, vtx_vertices_push_back, edges_push_back_snd, edges_push_back_halfedgeNext, hN, hk, hev,
      g1, g2, g3, gl, gr, n1, n2, hRI, hLI, 
      hL, hR, hH1, hH2, hLO, hRO, e1, e3, Ne.symm e1, Ne.symm e3, hne, Ne.symm hne,
      j2, j4, Ne.symm j2, Ne.symm j4,
      b1, b2, c1, c2, m1, m2, p1, p2, d1, d2, f1, f2,
      Ne.symm f1, Ne.symm f2, Ne.symm b1, Ne.symm b2, Ne.symm c1, Ne.symm c2,
      Ne.symm d1, Ne.symm d2, Ne.symm m1, Ne.symm m2, Ne.symm p1, Ne.symm p2,
      k8, Ne.symm k8,
      apply_ite Halfedge.next, apply_ite Halfedge.prev, apply_ite Halfedge.vertex,
      apply_ite Halfedge.face, apply_ite Halfedge.opposite, apply_ite Vertex.halfedge,
      ↓reduceIte, Option.some.injEq, reduceCtorEq, ite_self, Halfedge.mk1, ne_eq,
      not_false_eq_true, and_self, Vertex.mk3, or_self, or_false, false_or, or_true, true_or]
      rfl
    by_cases q3 : j = lo
    · subst q3
      simp only [Builder.EdgeEventWiring,
      Builder.set_vertex, Builder.set_halfedge, Builder.set_next, Builder.set_prev,
      Builder.set_face,
      Builder.primary_bisector, Builder.next, Builder.prev, Builder.opposite, Builder.face,
      Builder.halfedge, Builder.face_halfedge, Builder.vertex,
      he_updVertex, he_updWrap, he_wrapped_push_back, he_SLAV_push_back, he_SLAV_remove, he_vertices_push_back, he_with_mVertexID, he_with_mEdgeID, he_with_mSplitNodes, vtx_updHalfedge, vtx_updWrap, vtx_wrapped_push_back, vtx_SLAV_push_back, vtx_SLAV_remove, vtx_edges_push_back, vtx_with_mVertexID, vtx_with_mEdgeID, vtx_with_mSplitNodes, fc_updHalfedge, fc_updVertex, fc_updWrap, fc_wrapped_push_back, fc_SLAV_push_back, fc_SLAV_remove, fc_vertices_push_back, fc_edges_push_back, fc_with_mVertexID, fc_with_mEdgeID, fc_with_mSplitNodes, ev_updHalfedge, ev_updVertex, ev_updWrap, ev_wrapped_push_back, ev_SLAV_push_back, ev_SLAV_remove, ev_vertices_push_back, ev_edges_push_back, ev_with_mVertexID, ev_with_mEdgeID, ev_with_mSplitNodes, he_updHalfedge, he_edges_push_back, vtx_updVertex, vtx_vertices_push_back, edges_push_back_snd, edges_push_back_halfedgeNext, hN, hk, hev,
      g1, g2, g3, gl, gr, n1, n2, hRI, hLI, q1, q2,
      hL, hR, hH1, hH2, hLO, hRO, e1, e3, Ne.symm e1, Ne.symm e3, hne, Ne.symm hne,
      j2, j4, Ne.symm j2, Ne.symm j4,
      b1, b2, c1, c2, m1, m2, p1, p2, d1, d2, f1, f2,
      Ne.symm f1, Ne.symm f2, Ne.symm b1, Ne.symm b2, Ne.symm c1, Ne.symm c2,
      Ne.symm d1, Ne.symm d2, Ne.symm m1, Ne.symm m2, Ne.symm p1, Ne.symm p2,
      k8, Ne.symm k8,
      apply_ite Halfedge.next, apply_ite Halfedge.prev, apply_ite Halfedge.vertex,
      apply_ite Halfedge.face, apply_ite Halfedge.opposite, apply_ite Vertex.halfedge,
      ↓reduceIte, Option.some.injEq, reduceCtorEq, ite_self, Halfedge.mk1, ne_eq,
      not_false_eq_true, and_self, Vertex.mk3, or_self, or_false, false_or, or_true, true_or]
    by_cases q4 : j = ro
    · subst q4
      have n3 := (g0 j).trans (if_pos rfl)
      simp only [Builder.EdgeEventWiring,
      Builder.set_vertex, Builder.set_halfedge, Builder.set_next, Builder.set_prev,
      Builder.set_face,
      Builder.primary_bisector, Builder.next, Builder.prev, Builder.opposite, Builder.face,
      Builder.halfedge, Builder.face_halfedge, Builder.vertex,
      he_updVertex, he_updWrap, he_wrapped_push_back, he_SLAV_push_back, he_SLAV_remove, he_vertices_push_back, he_with_mVertexID, he_with_mEdgeID, he_with_mSplitNodes, vtx_updHalfedge, vtx_updWrap, vtx_wrapped_push_back, vtx_SLAV_push_back, vtx_SLAV_remove, vtx_edges_push_back, vtx_with_mVertexID, vtx_with_mEdgeID, vtx_with_mSplitNodes, fc_updHalfedge, fc_updVertex, fc_updWrap, fc_wrapped_push_back, fc_SLAV_push_back, fc_SLAV_remove, fc_vertices_push_back, fc_edges_push_back, fc_with_mVertexID, fc_with_mEdgeID, fc_with_mSplitNodes, ev_updHalfedge, ev_updVertex, ev_updWrap, ev_wrapped_push_back, ev_SLAV_push_back, ev_SLAV_remove, ev_vertices_push_back, ev_edges_push_back, ev_with_mVertexID, ev_with_mEdgeID, ev_with_mSplitNodes, he_updHalfedge, he_edges_push_back, vtx_updVertex, vtx_vertices_push_back, edges_push_back_snd, edges_push_back_halfedgeNext, hN, hk, hev,
      g1, g2, g3, gl, gr, n1, n2, hRI, hLI, n3, q1, q2, q3,
      hL, hR, hH1, hH2, hLO, hRO, e1, e3, Ne.symm e1, Ne.symm e3, hne, Ne.symm hne,
      j2, j4, Ne.symm j2, Ne.symm j4,
      b1, b2, c1, c2, m1, m2, p1, p2, d1, d2, f1, f2,
      Ne.symm f1, Ne.symm f2, Ne.symm b1, Ne.symm b2, Ne.symm c1, Ne.symm c2,
      Ne.symm d1, Ne.symm d2, Ne.symm m1, Ne.symm m2, Ne.symm p1, Ne.symm p2,
      k8, Ne.symm k8,
      apply_ite Halfedge.next, apply_ite Halfedge.prev, apply_ite Halfedge.vertex,
      apply_ite Halfedge.face, apply_ite Halfedge.opposite, apply_ite Vertex.halfedge,
      ↓reduceIte, Option.some.injEq, reduceCtorEq, ite_self, Halfedge.mk1, ne_eq,
      not_false_eq_true, and_self, Vertex.mk3, or_self, or_false, false_or, or_true, true_or]
    · have n3 := (g0 j).trans (if_neg (Ne.symm q4))
      simp only [Builder.EdgeEventWiring,
      Builder.set_vertex, Builder.set_halfedge, Builder.set_next, Builder.set_prev,
      Builder.set_face,
      Builder.primary_bisector, Builder.next, Builder.prev, Builder.opposite, Builder.face,
      Builder.halfedge, Builder.face_halfedge, Builder.vertex,
      he_updVertex, he_updWrap, he_wrapped_push_back, he_SLAV_push_back, he_SLAV_remove, he_vertices_push_back, he_with_mVertexID, he_with_mEdgeID, he_with_mSplitNodes, vtx_updHalfedge, vtx_updWrap, vtx_wrapped_push_back, vtx_SLAV_push_back, vtx_SLAV_remove, vtx_edges_push_back, vtx_with_mVertexID, vtx_with_mEdgeID, vtx_with_mSplitNodes, fc_updHalfedge, fc_updVertex, fc_updWrap, fc_wrapped_push_back, fc_SLAV_push_back, fc_SLAV_remove, fc_vertices_push_back, fc_edges_push_back, fc_with_mVertexID, fc_with_mEdgeID, fc_with_mSplitNodes, ev_updHalfedge, ev_updVertex, ev_updWrap, ev_wrapped_push_back, ev_SLAV_push_back, ev_SLAV_remove, ev_vertices_push_back, ev_edges_push_back, ev_with_mVertexID, ev_with_mEdgeID, ev_with_mSplitNodes, he_updHalfedge, he_edges_push_back, vtx_updVertex, vtx_vertices_push_back, edges_push_back_snd, edges_push_back_halfedgeNext, hN, hk, hev,
      g1, g2, g3, gl, gr, n1, n2, hRI, hLI, n3, q1, q2, q3, q4, Ne.symm q1, Ne.symm q2, Ne.symm q3, Ne.symm q4,
      hL, hR, hH1, hH2, hLO, hRO, e1, e3, Ne.symm e1, Ne.symm e3, hne, Ne.symm hne,
      j2, j4, Ne.symm j2, Ne.symm j4,
      b1, b2, c1, c2, m1, m2, p1, p2, d1, d2, f1, f2,
      Ne.symm f1, Ne.symm f2, Ne.symm b1, Ne.symm b2, Ne.symm c1, Ne.symm c2,
      Ne.symm d1, Ne.symm d2, Ne.symm m1, Ne.symm m2, Ne.symm p1, Ne.symm p2,
      k8, Ne.symm k8,
      apply_ite Halfedge.next, apply_ite Halfedge.prev, apply_ite Halfedge.vertex,
      apply_ite Halfedge.face, apply_ite Halfedge.opposite, apply_ite Vertex.halfedge,
      ↓reduceIte, Option.some.injEq, reduceCtorEq, ite_self, Halfedge.mk1, ne_eq,
      not_false_eq_true, and_self, Vertex.mk3, or_self, or_false, false_or, or_true, true_or]
  · intro j hj
    have t1 : j ≠ s.mSSkel.halfedgeNext := by omega
    have t2 : j ≠ s.mSSkel.halfedgeNext + 1 := by omega
    simp only [Builder.EdgeEventWiring,
      Builder.set_vertex, Builder.set_halfedge, Builder.set_next, Builder.set_prev,
      Builder.set_face,
      Builder.primary_bisector, Builder.next, Builder.prev, Builder.opposite, Builder.face,
      Builder.halfedge, Builder.face_halfedge, Builder.vertex,
      he_updVertex, he_updWrap, he_wrapped_push_back, he_SLAV_push_back, he_SLAV_remove, he_vertices_push_back, he_with_mVertexID, he_with_mEdgeID, he_with_mSplitNodes, vtx_updHalfedge, vtx_updWrap, vtx_wrapped_push_back, vtx_SLAV_push_back, vtx_SLAV_remove, vtx_edges_push_back, vtx_with_mVertexID, vtx_with_mEdgeID, vtx_with_mSplitNodes, fc_updHalfedge, fc_updVertex, fc_updWrap, fc_wrapped_push_back, fc_SLAV_push_back, fc_SLAV_remove, fc_vertices_push_back, fc_edges_push_back, fc_with_mVertexID, fc_with_mEdgeID, fc_with_mSplitNodes, ev_updHalfedge, ev_updVertex, ev_updWrap, ev_wrapped_push_back, ev_SLAV_push_back, ev_SLAV_remove, ev_vertices_push_back, ev_edges_push_back, ev_with_mVertexID, ev_with_mEdgeID, ev_with_mSplitNodes, he_updHalfedge, he_edges_push_back, vtx_updVertex, vtx_vertices_push_back, edges_push_back_snd, edges_push_back_halfedgeNext, hN, hk, hev,
      g1, g2, g3, gl, gr, n1, n2, hRI, hLI, t1, t2, Ne.symm t1, Ne.symm t2,
      hL, hR, hH1, hH2, hLO, hRO, e1, e3, Ne.symm e1, Ne.symm e3, hne, Ne.symm hne,
      j2, j4, Ne.symm j2, Ne.symm j4,
      b1, b2, c1, c2, m1, m2, p1, p2, d1, d2, f1, f2,
      Ne.symm f1, Ne.symm f2, Ne.symm b1, Ne.symm b2, Ne.symm c1, Ne.symm c2,
      Ne.symm d1, Ne.symm d2, Ne.symm m1, Ne.symm m2, Ne.symm p1, Ne.symm p2,
      k8, Ne.symm k8,
      apply_ite Halfedge.next, apply_ite Halfedge.prev, apply_ite Halfedge.vertex,
      apply_ite Halfedge.face, apply_ite Halfedge.opposite, apply_ite Vertex.halfedge,
      ↓reduceIte, Option.some.injEq, reduceCtorEq, ite_self, Halfedge.mk1, ne_eq,
      not_false_eq_true, and_self, Vertex.mk3, or_self, or_false, false_or, or_true, true_or]
  all_goals
    simp only [Builder.EdgeEventWiring,
      Builder.set_vertex, Builder.set_halfedge, Builder.set_next, Builder.set_prev,
      Builder.set_face,
      Builder.primary_bisector, Builder.next, Builder.prev, Builder.opposite, Builder.face,
      Builder.halfedge, Builder.face_halfedge, Builder.vertex,
      he_updVertex, he_updWrap, he_wrapped_push_back, he_SLAV_push_back, he_SLAV_remove, he_vertices_push_back, he_with_mVertexID, he_with_mEdgeID, he_with_mSplitNodes, vtx_updHalfedge, vtx_updWrap, vtx_wrapped_push_back, vtx_SLAV_push_back, vtx_SLAV_remove, vtx_edges_push_back, vtx_with_mVertexID, vtx_with_mEdgeID, vtx_with_mSplitNodes, fc_updHalfedge, fc_updVertex, fc_updWrap, fc_wrapped_push_back, fc_SLAV_push_back, fc_SLAV_remove, fc_vertices_push_back, fc_edges_push_back, fc_with_mVertexID, fc_with_mEdgeID, fc_with_mSplitNodes, ev_updHalfedge, ev_updVertex, ev_updWrap, ev_wrapped_push_back, ev_SLAV_push_back, ev_SLAV_remove, ev_vertices_push_back, ev_edges_push_back, ev_with_mVertexID, ev_with_mEdgeID, ev_with_mSplitNodes, he_updHalfedge, he_edges_push_back, vtx_updVertex, vtx_vertices_push_back, edges_push_back_snd, edges_push_back_halfedgeNext, hN, hk, hev,
      g1, g2, g3, gl, gr, n1, n2, hRI, hLI, 
      hL, hR, hH1, hH2, hLO, hRO, e1, e3, Ne.symm e1, Ne.symm e3, hne, Ne.symm hne,
      j2, j4, Ne.symm j2, Ne.symm j4,
      b1, b2, c1, c2, m1, m2, p1, p2, d1, d2, f1, f2,
      Ne.symm f1, Ne.symm f2, Ne.symm b1, Ne.symm b2, Ne.symm c1, Ne.symm c2,
      Ne.symm d1, Ne.symm d2, Ne.symm m1, Ne.symm m2, Ne.symm p1, Ne.symm p2,
      k8, Ne.symm k8,
      apply_ite Halfedge.next, apply_ite Halfedge.prev, apply_ite Halfedge.vertex,
      apply_ite Halfedge.face, apply_ite Halfedge.opposite, apply_ite Vertex.halfedge,
      ↓reduceIte, Option.some.injEq, reduceCtorEq, ite_self, Halfedge.mk1, ne_eq,
      not_false_eq_true, and_self, Vertex.mk3, or_self, or_false, false_or, or_true, true_or]

theorem SplitEventWiring_faces (s : Builder) (e : EventPtr) (aOppR : Vertex_handle)
    (sd hs xo xi ob : Nat)
    (hS : (s.ev e).seed0 = some sd) (hsd : sd < s.mSSkel.vertexNext)
    (hH : s.halfedge (some sd) = some hs) (hXO : s.next (some hs) = some xo)
    (hXI : s.opposite (some xo) = some xi) (hOB : (s.ev e).opposite_border = some ob)
    (hhs : hs < s.mSSkel.halfedgeNext) (hxo : xo < s.mSSkel.halfedgeNext)
    (hxi : xi < s.mSSkel.halfedgeNext) (hob : ob < s.mSSkel.halfedgeNext)
    (hc : s.FaceConsistent) : (s.SplitEventWiring e aOppR).FaceConsistent := by
  obtain ⟨t1, t2, t3, t4, t5, t6⟩ :=
    SplitEventWiring_next_face s e aOppR sd hs xo xi ob hS hsd hH hXO hXI hOB hhs hxo hxi hob
  have hN : (s.SplitEventWiring e aOppR).mSSkel.halfedgeNext = s.mSSkel.halfedgeNext + 4 := rfl
  refine FaceConsistent_of_tables s _ hc (by rw [hN]; omega) t2 ?_
  intro j hj
  rw [hN] at hj
  have tj := t1 j
  by_cases q1 : j = s.mSSkel.halfedgeNext + 1
  · subst q1
    rw [if_pos rfl] at tj
    exact Or.inl (faceKeptAlong_of_next _ _ _ tj (by rw [hN]; omega) (t5.trans t4.symm))
  rw [if_neg q1] at tj
  by_cases q2 : j = s.mSSkel.halfedgeNext + 3
  · subst q2
    rw [if_pos rfl] at tj
    exact Or.inl (faceKeptAlong_of_next _ _ _ tj (by rw [hN]; omega)
      ((t2 xi hxi).trans t6.symm))
  rw [if_neg q2] at tj
  by_cases q3 : j = s.mSSkel.halfedgeNext ∨ j = s.mSSkel.halfedgeNext + 2
  · rw [if_pos q3] at tj
    exact Or.inl (faceKeptAlong_of_none _ _ tj)
  rw [if_neg q3] at tj
  have hj' : j < s.mSSkel.halfedgeNext := by omega
  by_cases q4 : j = xo
  · subst q4
    rw [if_pos rfl] at tj
    exact Or.inl (faceKeptAlong_of_next _ _ _ tj (by rw [hN]; omega)
      (t3.trans (t2 j hj').symm))
  rw [if_neg q4] at tj
  exact Or.inr ⟨hj', tj⟩

theorem VertexEventWiring_faces (s : Builder) (e : EventPtr) (l r i1 i2 lo ro li ri : Nat)
    (hL : (s.ev e).seed0 = some l) (hR : (s.ev e).seed1 = some r)
    (hl : l < s.mSSkel.vertexNext) (hr : r < s.mSSkel.vertexNext)
    (hH1 : s.halfedge (some l) = some i1) (hLO : s.next (some i1) = some lo)
    (hH2 : s.halfedge (some r) = some i2) (hRO : s.next (some i2) = some ro)
    (hLI : s.opposite (some lo) = some li) (hRI : s.opposite (some ro) = some ri)
    (hi1 : i1 < s.mSSkel.halfedgeNext) (hi2 : i2 < s.mSSkel.halfedgeNext)
    (hlo : lo < s.mSSkel.halfedgeNext) (hro : ro < s.mSSkel.halfedgeNext)
    (hli : li < s.mSSkel.halfedgeNext) (hri : ri < s.mSSkel.halfedgeNext)
    (hne : lo ≠ ro)
    (j1 : lo ≠ i1) (j2 : ro ≠ i1) (j3 : lo ≠ i2) (j4 : ro ≠ i2)
    (hc : s.FaceConsistent) : (s.VertexEventWiring e).FaceConsistent := by
  obtain ⟨t1, t2, t3, t4, t5, t6⟩ :=
    VertexEventWiring_next_face s e l r i1 i2 lo ro li ri hL hR hl hr hH1 hLO hH2 hRO hLI hRI
      hi1 hi2 hlo hro hli hri hne j1 j2 j3 j4
  have hN : (s.VertexEventWiring e).mSSkel.halfedgeNext = s.mSSkel.halfedgeNext + 4 := rfl
  refine FaceConsistent_of_tables s _ hc (by rw [hN]; omega) t2 ?_
  intro j hj
  rw [hN] at hj
  have tj := t1 j
  by_cases q1 : j = s.mSSkel.halfedgeNext + 3
  · subst q1
    rw [if_pos rfl] at tj
    exact Or.inl (faceKeptAlong_of_next _ _ _ tj (by rw [hN]; omega)
      ((t2 li hli).trans t6.symm))
  rw [if_neg q1] at tj
  by_cases q2 : j = s.mSSkel.halfedgeNext + 1
  · subst q2
    rw [if_pos rfl] at tj
    exact Or.inl (faceKeptAlong_of_next _ _ _ tj (by rw [hN]; omega)
      ((t2 ri hri).trans t4.symm))
  rw [if_neg q2] at tj
  by_cases q3 : j = s.mSSkel.halfedgeNext ∨ j = s.mSSkel.halfedgeNext + 2
  · rw [if_pos q3] at tj
    exact Or.inl (faceKeptAlong_of_none _ _ tj)
  rw [if_neg q3] at tj
  have hj' : j < s.mSSkel.halfedgeNext := by omega
  by_cases q4 : j = ro
  · subst q4
    rw [if_pos rfl] at tj
    exact Or.inl (faceKeptAlong_of_next _ _ _ tj (by rw [hN]; omega)
      (t5.trans (t2 j hj').symm))
  rw [if_neg q4] at tj
  by_cases q5 : j = lo
  · subst q5
    rw [if_pos rfl] at tj
    exact Or.inl (faceKeptAlong_of_next _ _ _ tj (by rw [hN]; omega)
      (t3.trans (t2 j hj').symm))
  rw [if_neg q5] at tj
  exact Or.inr ⟨hj', tj⟩

theorem EdgeEventWiring_faces (s : Builder) (e : EventPtr) (l r i1 i2 lo ro li ri : Nat)
    (hL : (s.ev e).seed0 = some l) (hR : (s.ev e).seed1 = some r)
    (hl : l < s.mSSkel.vertexNext) (hr : r < s.mSSkel.vertexNext)
    (hH1 : s.halfedge (some l) = some i1) (hLO : s.next (some i1) = some lo)
    (hH2 : s.halfedge (some r) = some i2) (hRO : s.next (some i2) = some ro)
    (hLI : s.opposite (some lo) = some li) (hRI : s.opposite (some ro) = some ri)
    (hi1 : i1 < s.mSSkel.halfedgeNext) (hi2 : i2 < s.mSSkel.halfedgeNext)
    (hlo : lo < s.mSSkel.halfedgeNext) (hro : ro < s.mSSkel.halfedgeNext)
    (hli : li < s.mSSkel.halfedgeNext) (hri : ri < s.mSSkel.halfedgeNext)
    (hne : lo ≠ ro) (j2 : ro ≠ i1) (j4 : ro ≠ i2)
    (hF : s.face (s.primary_bisector (some r))
      = s.face (s.opposite (s.primary_bisector (some l))))
    (hc : s.FaceConsistent) : (s.EdgeEventWiring e).FaceConsistent := by
  obtain ⟨t1, t2, t3, t4⟩ :=
    EdgeEventWiring_next_face s e l r i1 i2 lo ro li ri hL hR hl hr hH1 hLO hH2 hRO hLI hRI
      hi1 hi2 hlo hro hli hri hne j2 j4
  have hN : (s.EdgeEventWiring e).mSSkel.halfedgeNext = s.mSSkel.halfedgeNext + 2 := rfl
  have hF' : (s.he (some ro)).face = (s.he (some li)).face := by
    have a1 : s.primary_bisector (some r) = some ro := by
      unfold Builder.primary_bisector; rw [hH2]; exact hRO
    have a2 : s.primary_bisector (some l) = some lo := by
      unfold Builder.primary_bisector; rw [hH1]; exact hLO
    rw [a1, a2, hLI] at hF
    exact hF
  refine FaceConsistent_of_tables s _ hc (by rw [hN]; omega) t2 ?_
  intro j hj
  rw [hN] at hj
  have tj := t1 j
  by_cases q1 : j = s.mSSkel.halfedgeNext + 1
  · subst q1
    rw [if_pos rfl] at tj
    exact Or.inl (faceKeptAlong_of_next _ _ _ tj (by rw [hN]; omega)
      ((t2 ri hri).trans t4.symm))
  rw [if_neg q1] at tj
  by_cases q2 : j = s.mSSkel.halfedgeNext
  · rw [if_pos q2] at tj
    exact Or.inl (faceKeptAlong_of_none _ _ tj)
  rw [if_neg q2] at tj
  have hj' : j < s.mSSkel.halfedgeNext := by omega
  by_cases q3 : j = lo
  · subst q3
    rw [if_pos rfl] at tj
    exact Or.inl (faceKeptAlong_of_next _ _ _ tj (by rw [hN]; omega)
      (t3.trans (t2 j hj').symm))
  rw [if_neg q3] at tj
  by_cases q4 : j = ro
  · subst q4
    rw [if_pos rfl] at tj
    exact Or.inl (faceKeptAlong_of_next _ _ _ tj (by rw [hN]; omega)
      (((t2 li hli).trans hF'.symm).trans (t2 j hj').symm))
  rw [if_neg q4] at tj
  exact Or.inr ⟨hj', tj⟩

/-- What one iteration of `CreateContourBisectors` does to the faces along the next links: the
halfedge `h` of the vertex and the two new bisectors have them right, and so does every older
halfedge that had them right before. -/
theorem CreateContourBisector_progress (tr : Traits) (s : Builder) (v h g : Nat)
    (hH : s.halfedge (some v) = some h) (hG : s.next (some h) = some g)
    (hh : h < s.mSSkel.halfedgeNext) (hg : g < s.mSSkel.halfedgeNext) :
    (s.CreateContourBisector tr (some v)).faceKeptAlong h
    ∧ (s.CreateContourBisector tr (some v)).faceKeptAlong s.mSSkel.halfedgeNext
    ∧ (s.CreateContourBisector tr (some v)).faceKeptAlong (s.mSSkel.halfedgeNext + 1)
    ∧ ∀ j, j < s.mSSkel.halfedgeNext → s.faceKeptAlong j →
        (s.CreateContourBisector tr (some v)).faceKeptAlong j := by
  obtain ⟨g1, _, g3, g4, g5⟩ := CreateContourBisector_graph tr s v h g hH hG hh hg
  have a1 : (s.CreateContourBisector tr (some v)).faceKeptAlong h := by
    refine faceKeptAlong_of_next _ _ s.mSSkel.halfedgeNext ?_ (by omega) ?_
    · show ((s.CreateContourBisector tr (some v)).he (some h)).next = _
      rw [(g3 h hh).2.2.2.2.1, if_pos rfl]
    · show ((s.CreateContourBisector tr (some v)).he (some _)).face
        = ((s.CreateContourBisector tr (some v)).he (some h)).face
      rw [g4, (g3 h hh).1]
  refine ⟨a1, ?_, ?_, ?_⟩
  · exact faceKeptAlong_of_none _ _ (by
      show ((s.CreateContourBisector tr (some v)).he (some _)).next = none
      rw [g4])
  · refine faceKeptAlong_of_next _ _ g ?_ (by omega) ?_
    · show ((s.CreateContourBisector tr (some v)).he (some _)).next = some g
      rw [g5]
    · show ((s.CreateContourBisector tr (some v)).he (some g)).face
        = ((s.CreateContourBisector tr (some v)).he (some _)).face
      rw [g5, (g3 g hg).1]
  · intro j hj hk
    by_cases c3 : h = j
    · subst c3
      exact a1
    · have hn : (s.CreateContourBisector tr (some v)).next (some j) = s.next (some j) := by
        show ((s.CreateContourBisector tr (some v)).he (some j)).next = (s.he (some j)).next
        rw [(g3 j hj).2.2.2.2.1, if_neg c3]
      unfold Builder.faceKeptAlong at hk ⊢
      rw [hn]
      cases hx : s.next (some j) with
      | none => trivial
      | some n =>
        rw [hx] at hk
        refine ⟨by omega, ?_⟩
        show ((s.CreateContourBisector tr (some v)).he (some n)).face
          = ((s.CreateContourBisector tr (some v)).he (some j)).face
        rw [(g3 n hk.1).1, (g3 j hj).1]
        exact hk.2

/-- C35: face consistency along the next links, `face(next(h)) == face(h)` for every halfedge
of the graph with an assigned next, that next being a halfedge of the graph. When it holds in
the state `s`, it holds after one iteration of `CreateContourBisectors` (which moreover gives
it to the halfedge of the vertex and to the two new bisectors whatever the state before),
after `ConstructSplitEventNodes` and the wiring of `HandleSplitEvent`, after
`ConstructVertexEventNodes` and the wiring of `HandleVertexEvent`, and, when
`face(primary_bisector(R)) == face(opposite(primary_bisector(L)))`, after
`ConstructEdgeEventNode` and the wiring of `HandleEdgeEvent`. The seeds are vertices of the
graph whose halfedges, bisectors and twin bisectors are halfedges of the graph. -/
theorem wiring_keeps_faces (tr : Traits) (s : Builder) (e : EventPtr) (aOppR : Vertex_handle)
    (hc : s.FaceConsistent) :
    (∀ v h g, s.halfedge (some v) = some h → s.next (some h) = some g →
        h < s.mSSkel.halfedgeNext → g < s.mSSkel.halfedgeNext →
        (s.CreateContourBisector tr (some v)).FaceConsistent
        ∧ (s.CreateContourBisector tr (some v)).faceKeptAlong h)
    ∧ (∀ sd hs xo xi ob, s.splitSeedWired e sd hs xo xi ob →
        (s.SplitEventWiring e aOppR).FaceConsistent)
    ∧ (∀ l r i1 i2 lo ro li ri, s.seedPairWired e l r i1 i2 lo ro li ri →
        lo ≠ i1 → lo ≠ i2 → (s.VertexEventWiring e).FaceConsistent)
    ∧ (∀ l r i1 i2 lo ro li ri, s.seedPairWired e l r i1 i2 lo ro li ri →
        s.face (s.primary_bisector (some r))
          = s.face (s.opposite (s.primary_bisector (some l))) →
        (s.EdgeEventWiring e).FaceConsistent) := by
  refine ⟨?_, ?_, ?_, ?_⟩
  · intro v h g hH hG hh hg
    obtain ⟨p1, p2, p3, p4⟩ := CreateContourBisector_progress tr s v h g hH hG hh hg
    refine ⟨?_, p1⟩
    intro j hj
    have hN : (s.CreateContourBisector tr (some v)).mSSkel.halfedgeNext
        = s.mSSkel.halfedgeNext + 2 := (CreateContourBisector_graph tr s v h g hH hG hh hg).1
    rw [hN] at hj
    by_cases c1 : j = s.mSSkel.halfedgeNext
    · rw [c1]; exact p2
    · by_cases c2 : j = s.mSSkel.halfedgeNext + 1
      · rw [c2]; exact p3
      · exact p4 j (by omega) (hc j (by omega))
  · rintro sd hs xo xi ob ⟨h1, h2, h3, h4, h5, h6, h7, h8, h9, h10⟩
    exact SplitEventWiring_faces s e aOppR sd hs xo xi ob h1 h2 h3 h4 h5 h6 h7 h8 h9 h10 hc
  · rintro l r i1 i2 lo ro li ri
      ⟨h1, h2, h3, h4, h5, h6, h7, h8, h9, h10, h11, h12, h13, h14, h15, h16, h17, h18, h19⟩
      k1 k2
    exact VertexEventWiring_faces s e l r i1 i2 lo ro li ri h1 h2 h3 h4 h5 h6 h7 h8 h9 h10
      h11 h12 h13 h14 h15 h16 h17 k1 h18 k2 h19 hc
  · rintro l r i1 i2 lo ro li ri
      ⟨h1, h2, h3, h4, h5, h6, h7, h8, h9, h10, h11, h12, h13, h14, h15, h16, h17, h18, h19⟩
      hF
    exact EdgeEventWiring_faces s e l r i1 i2 lo ro li ri h1 h2 h3 h4 h5 h6 h7 h8 h9 h10
      h11 h12 h13 h14 h15 h16 h17 h18 h19 hF hc

theorem wiring_keeps_faces_witness :
    (exQuad.EdgeEventWiring (some 0)).FaceConsistent
    ∧ (exQuadSplit.SplitEventWiring (some 0) (some 3)).FaceConsistent
    ∧ (exQuadVertex.VertexEventWiring (some 0)).FaceConsistent
    ∧ (exQuad.CreateContourBisector (exTraits true false true) (some 0)).FaceConsistent :=
  have hE := wiring_keeps_faces (exTraits true false true) exQuad (some 0) none (by decide)
  have hS := wiring_keeps_faces (exTraits true false true) exQuadSplit (some 0) (some 3)
    (by decide)
  have hV := wiring_keeps_faces (exTraits true false true) exQuadVertex (some 0) none
    (by decide)
  ⟨hE.2.2.2 0 1 0 1 8 10 9 11 (by decide) (by decide),
    hS.2.1 0 0 8 9 2 (by decide),
    hV.2.2.1 0 2 0 2 8 12 9 13 (by decide) (by decide) (by decide),
    (hE.1 0 0 8 (by decide) (by decide) (by decide) (by decide)).1⟩

/-! ## The borders of LAV neighbours -/

theorem OlderKept.keeps {n : Nat} {s0 st s' : Builder} (h : OlderKept n s0 st)
    (hk : UpdKeeps st s') : OlderKept n s0 s' :=
  ⟨fun j => (hk.ids j).trans (h.ids j), by rw [hk.wrappedCount]; exact h.count,
    fun k hk' hp => by rw [(hk.wrappers k).2.2.2.1]; exact h.prevLink k hk' hp,
    fun k hk' hp => by rw [(hk.wrappers k).2.2.2.2.1]; exact h.nextLink k hk' hp,
    fun k hk' => ⟨(hk.wrappers k).1.trans (h.borders k hk').1,
      (hk.wrappers k).2.1.trans (h.borders k hk').2⟩⟩

theorem OlderKept.pushEdges {n : Nat} {s0 st : Builder} (h : OlderKept n s0 st)
    (a b : Halfedge) : OlderKept n s0 (st.edges_push_back a b).1 :=
  h.same rfl rfl (fun _ => rfl)

theorem OlderKept.withEdgeID {n : Nat} {s0 st : Builder} (h : OlderKept n s0 st) (m : Nat) :
    OlderKept n s0 { st with mEdgeID := m } :=
  h.same rfl rfl (fun _ => rfl)

/-- The three border writes on a vertex whose id is not below `n`. -/
theorem OlderKept.record {n : Nat} {s0 st : Builder} (h : OlderKept n s0 st)
    (i m : Nat) (hid : (s0.mSSkel.vertices i).id = m) (hm : n ≤ m) (t : Triedge) :
    OlderKept n s0 (st.recordBorders (some i) t) :=
  ((h.fresh i m hid hm (fun w => { w with mDefiningBorderA := t.e0 })).fresh i m hid hm
    (fun w => { w with mDefiningBorderB := t.e1 })).fresh i m hid hm
    (fun w => { w with mDefiningBorderC := t.e2 })

theorem OlderKept.setup {n : Nat} {s0 st : Builder} (h : OlderKept n s0 st) (tr : Traits)
    (N : Vertex_handle) (A B : Halfedge_handle) :
    OlderKept n s0 (st.SetupVertexEventNode tr N A B).1 := by
  rw [SetupVertexEventNode_eq]
  dsimp only
  split
  · exact h.mono N (fun w => { w with mIsReflex := true })
      (fun _ => ⟨fun hp => hp, fun hp => hp, rfl, rfl⟩)
  · exact h

theorem EdgeEventWiring_older {n : Nat} {s0 : Builder} (s : Builder) (e : EventPtr)
    (h : OlderKept n s0 (s.ConstructEdgeEventNode e).1) :
    OlderKept n s0 (s.EdgeEventWiring e) := by
  unfold Builder.EdgeEventWiring
  dsimp only
  iterate 7 refine OlderKept.updHalfedge ?_ _ _
  refine OlderKept.withEdgeID ?_ _
  exact h.pushEdges _ _

theorem SplitEventWiring_older {n : Nat} {s0 : Builder} (s : Builder) (e : EventPtr)
    (aOppR : Vertex_handle) (h : OlderKept n s0 (s.ConstructSplitEventNodes e aOppR).1) :
    OlderKept n s0 (s.SplitEventWiring e aOppR) := by
  unfold Builder.SplitEventWiring
  dsimp only
  iterate 12 refine OlderKept.updHalfedge ?_ _ _
  refine OlderKept.setHalfedge ?_ _ _
  refine OlderKept.withEdgeID ?_ _
  refine OlderKept.pushEdges ?_ _ _
  refine OlderKept.withEdgeID ?_ _
  exact h.pushEdges _ _

theorem VertexEventWiring_older {n : Nat} {s0 : Builder} (s : Builder) (e : EventPtr)
    (h : OlderKept n s0 (s.ConstructVertexEventNodes e).1) :
    OlderKept n s0 (s.VertexEventWiring e) := by
  unfold Builder.VertexEventWiring
  dsimp only
  refine OlderKept.setHalfedge ?_ _ _
  refine OlderKept.setHalfedge ?_ _ _
  iterate 14 refine OlderKept.updHalfedge ?_ _ _
  refine OlderKept.withEdgeID ?_ _
  refine OlderKept.pushEdges ?_ _ _
  refine OlderKept.withEdgeID ?_ _
  exact h.pushEdges _ _

theorem HandleEdgeEvent_older (tr : Traits) (s : Builder) (e : EventPtr)
    (hc : s.mWrappedCount = s.mVertexID) :
    OlderKept s.mVertexID (s.newVertex (s.ev e).point (s.ev e).time)
      (s.HandleEdgeEvent tr e) := by
  have hC := ConstructEdgeEventNode_assigned s e hc
  have hid := newVertex_id s (s.ev e).point (s.ev e).time
  cases h : s.isMultipleNode e
  · rw [HandleEdgeEvent_new_bisector tr s e h]
    exact (((EdgeEventWiring_older s e hC).record _ _ hid le_rfl _).keeps
      (UpdatePQ_keeps tr _ _))
  · rw [HandleEdgeEvent_multiple tr s e h]
    exact hC.record _ _ hid le_rfl _

theorem HandleSplitEvent_older (tr : Traits) (s : Builder) (e : EventPtr)
    (aOppR : Vertex_handle) (hc : s.mWrappedCount = s.mVertexID) :
    OlderKept s.mVertexID
      ((s.newVertex (s.ev e).point (s.ev e).time).newVertex (s.ev e).point (s.ev e).time)
      (s.HandleSplitEvent tr e aOppR) := by
  have hC := ConstructSplitEventNodes_assigned s e aOppR hc
  have hA := (newVertex_two_ids s (s.ev e).point (s.ev e).point (s.ev e).time (s.ev e).time).1
  have hB := (newVertex_two_ids s (s.ev e).point (s.ev e).point (s.ev e).time (s.ev e).time).2
  rw [HandleSplitEvent_wiring]
  exact (((((SplitEventWiring_older s e aOppR hC).record _ _ hA le_rfl _).record _ _ hB
    (Nat.le_succ _) _).keeps (UpdatePQ_keeps tr _ _)).keeps (UpdatePQ_keeps tr _ _))

theorem HandleVertexEvent_older (tr : Traits) (s : Builder) (e : EventPtr)
    (hc : s.mWrappedCount = s.mVertexID) :
    OlderKept s.mVertexID
      ((s.newVertex (s.ev e).point (s.ev e).time).newVertex (s.ev e).point (s.ev e).time)
      (s.HandleVertexEvent tr e) := by
  have hC := ConstructVertexEventNodes_assigned s e hc
  have hA := (newVertex_two_ids s (s.ev e).point (s.ev e).point (s.ev e).time (s.ev e).time).1
  have hB := (newVertex_two_ids s (s.ev e).point (s.ev e).point (s.ev e).time (s.ev e).time).2
  have hR : OlderKept s.mVertexID
      ((s.newVertex (s.ev e).point (s.ev e).time).newVertex (s.ev e).point (s.ev e).time)
      (s.VertexEventRecorded e) :=
    ((VertexEventWiring_older s e hC).record _ _ hA le_rfl _).record _ _ hB (Nat.le_succ _) _
  have hS : OlderKept s.mVertexID
      ((s.newVertex (s.ev e).point (s.ev e).time).newVertex (s.ev e).point (s.ev e).time)
      (s.VertexEventSetup tr e) := by
    unfold Builder.VertexEventSetup
    dsimp only
    split
    · exact (hR.setup tr _ _ _).setup tr _ _ _
    · exact hR.setup tr _ _ _
  rw [HandleVertexEvent_setup]
  exact (hS.keeps (UpdatePQ_keeps tr _ _)).keeps (UpdatePQ_keeps tr _ _)

/-- The borders of an older vertex after a handler. -/
theorem OlderKept.read {s s0 s' : Builder} (h : OlderKept s.mVertexID s0 s') (x : Nat)
    (h0w : s0.mWrappedVertices = s.mWrappedVertices)
    (h0i : s0.mSSkel.vertices x = s.mSSkel.vertices x)
    (hid : (s.vtx (some x)).id < s.mVertexID) :
    s'.GetDefiningBorderA (some x) = s.GetDefiningBorderA (some x)
    ∧ s'.GetDefiningBorderB (some x) = s.GetDefiningBorderB (some x) := by
  have i1 : (s'.mSSkel.vertices x).id = (s.mSSkel.vertices x).id := by rw [h.ids x, h0i]
  have hid2 : (s.mSSkel.vertices x).id < s.mVertexID := hid
  unfold Builder.GetDefiningBorderA Builder.GetDefiningBorderB
  simp only [wrap_some]
  show (s'.mWrappedVertices (s'.mSSkel.vertices x).id).mDefiningBorderA
      = (s.mWrappedVertices (s.mSSkel.vertices x).id).mDefiningBorderA
    ∧ (s'.mWrappedVertices (s'.mSSkel.vertices x).id).mDefiningBorderB
      = (s.mWrappedVertices (s.mSSkel.vertices x).id).mDefiningBorderB
  rw [i1, ← h0w]
  exact h.borders _ hid2

/-- The defining borders A and B that `HandleVertexEvent` reads for its two nodes: for the
left node the contour edges of the faces of the bisector of the left seed and of the twin of
the bisector of the right seed, and for the right node the other way round. -/
theorem VertexEventWiring_borders (s : Builder) (e : EventPtr) (l r i1 i2 lo ro li ri : Nat)
    (hL : (s.ev e).seed0 = some l) (hR : (s.ev e).seed1 = some r)
    (hl : l < s.mSSkel.vertexNext) (hr : r < s.mSSkel.vertexNext)
    (hH1 : s.halfedge (some l) = some i1) (hLO : s.next (some i1) = some lo)
    (hH2 : s.halfedge (some r) = some i2) (hRO : s.next (some i2) = some ro)
    (hLI : s.opposite (some lo) = some li) (hRI : s.opposite (some ro) = some ri)
    (hi1 : i1 < s.mSSkel.halfedgeNext) (hi2 : i2 < s.mSSkel.halfedgeNext)
    (hlo : lo < s.mSSkel.halfedgeNext) (hro : ro < s.mSSkel.halfedgeNext)
    (hli : li < s.mSSkel.halfedgeNext) (hri : ri < s.mSSkel.halfedgeNext)
    (hne : lo ≠ ro)
    (j1 : lo ≠ i1) (j2 : ro ≠ i1) (j3 : lo ≠ i2) (j4 : ro ≠ i2) :
    ((s.VertexEventWiring e).vertexBordersAround (some s.mSSkel.vertexNext)).e0
        = s.face_halfedge (s.face (some lo))
    ∧ ((s.VertexEventWiring e).vertexBordersAround (some s.mSSkel.vertexNext)).e1
        = s.face_halfedge (s.face (some ri))
    ∧ ((s.VertexEventWiring e).vertexBordersAround (some (s.mSSkel.vertexNext + 1))).e0
        = s.face_halfedge (s.face (some ro))
    ∧ ((s.VertexEventWiring e).vertexBordersAround (some (s.mSSkel.vertexNext + 1))).e1
        = s.face_halfedge (s.face (some li)) := by
  simp only [Builder.next, Builder.opposite, Builder.halfedge] at hH1 hH2 hLO hRO hRI hLI
  obtain ⟨g1, g2, g3, g4, g5⟩ :=
    ConstructVertexEventNodes_graph s e l r i1 i2 lo ro hL hR hl hr hH1 hLO hH2 hRO
  have g6 := ConstructVertexEventNodes_opposite s e
  have g7 := ConstructVertexEventNodes_face s e
  have e1 : l ≠ s.mSSkel.vertexNext := by omega
  have e2 : l ≠ s.mSSkel.vertexNext + 1 := by omega
  have e3 : r ≠ s.mSSkel.vertexNext := by omega
  have e4 : r ≠ s.mSSkel.vertexNext + 1 := by omega
  have gl := g3 l e1 e2
  have gr := g3 r e3 e4
  have n1 := g5 i1 j1 j2
  have n2 := g5 i2 j3 j4
  have v1 : s.mSSkel.vertexNext ≠ s.mSSkel.vertexNext + 1 := by omega
  have b1 : lo ≠ s.mSSkel.halfedgeNext := by omega
  have b2 : lo ≠ s.mSSkel.halfedgeNext + 1 := by omega
  have b3 : lo ≠ s.mSSkel.halfedgeNext + 2 := by omega
  have b4 : lo ≠ s.mSSkel.halfedgeNext + 2 + 1 := by omega
  have c1 : ro ≠ s.mSSkel.halfedgeNext := by omega
  have c2 : ro ≠ s.mSSkel.halfedgeNext + 1 := by omega
  have c3 : ro ≠ s.mSSkel.halfedgeNext + 2 := by omega
  have c4 : ro ≠ s.mSSkel.halfedgeNext + 2 + 1 := by omega
  have d1 : ri ≠ s.mSSkel.halfedgeNext := by omega
  have d2 : ri ≠ s.mSSkel.halfedgeNext + 1 := by omega
  have d3 : ri ≠ s.mSSkel.halfedgeNext + 2 := by omega
  have d4 : ri ≠ s.mSSkel.halfedgeNext + 2 + 1 := by omega
  have f1 : li ≠ s.mSSkel.halfedgeNext := by omega
  have f2 : li ≠ s.mSSkel.halfedgeNext + 1 := by omega
  have f3 : li ≠ s.mSSkel.halfedgeNext + 2 := by omega
  have f4 : li ≠ s.mSSkel.halfedgeNext + 2 + 1 := by omega
  have m1 : i1 ≠ s.mSSkel.halfedgeNext := by omega
  have m2 : i1 ≠ s.mSSkel.halfedgeNext + 1 := by omega
  have m3 : i1 ≠ s.mSSkel.halfedgeNext + 2 := by omega
  have m4 : i1 ≠ s.mSSkel.halfedgeNext + 2 + 1 := by omega
  have p1 : i2 ≠ s.mSSkel.halfedgeNext := by omega
  have p2 : i2 ≠ s.mSSkel.halfedgeNext + 1 := by omega
  have p3 : i2 ≠ s.mSSkel.halfedgeNext + 2 := by omega
  have p4 : i2 ≠ s.mSSkel.halfedgeNext + 2 + 1 := by omega
  have k1 : s.mSSkel.halfedgeNext ≠ s.mSSkel.halfedgeNext + 2 + 1 := by omega
  have k2 : s.mSSkel.halfedgeNext + 1 ≠ s.mSSkel.halfedgeNext + 2 + 1 := by omega
  have k3 : s.mSSkel.halfedgeNext + 1 ≠ s.mSSkel.halfedgeNext + 2 := by omega
  have k7 : s.mSSkel.halfedgeNext ≠ s.mSSkel.halfedgeNext + 2 := by omega
  have k8 : s.mSSkel.halfedgeNext ≠ s.mSSkel.halfedgeNext + 1 := by omega
  have k9 : s.mSSkel.halfedgeNext + 2 ≠ s.mSSkel.halfedgeNext + 2 + 1 := by omega
  have k10 : s.mSSkel.halfedgeNext + 3 = s.mSSkel.halfedgeNext + 2 + 1 := rfl
  have hN : (s.ConstructVertexEventNodes e).2
      = (some s.mSSkel.vertexNext, some (s.mSSkel.vertexNext + 1)) := rfl
  have hk : (s.ConstructVertexEventNodes e).1.mSSkel.halfedgeNext
      = s.mSSkel.halfedgeNext := rfl
  have hev : ∀ x, (s.ConstructVertexEventNodes e).1.ev x = s.ev x := fun _ => rfl
  have hfc : ∀ f, (s.ConstructVertexEventNodes e).1.fc f = s.fc f := fun _ => rfl
  refine ⟨?_, ?_, ?_, ?_⟩
  all_goals
    simp only [Builder.VertexEventWiring, Builder.vertexBordersAround,
      Builder.set_vertex, Builder.set_halfedge, Builder.set_next, Builder.set_prev,
      Builder.set_face,
      Builder.primary_bisector, Builder.next, Builder.prev, Builder.opposite, Builder.face,
      Builder.halfedge, Builder.face_halfedge, Builder.vertex,
      he_updVertex, he_updWrap, he_wrapped_push_back, he_SLAV_push_back, he_SLAV_remove, he_vertices_push_back, he_with_mVertexID, he_with_mEdgeID, he_with_mSplitNodes, vtx_updHalfedge, vtx_updWrap, vtx_wrapped_push_back, vtx_SLAV_push_back, vtx_SLAV_remove, vtx_edges_push_back, vtx_with_mVertexID, vtx_with_mEdgeID, vtx_with_mSplitNodes, fc_updHalfedge, fc_updVertex, fc_updWrap, fc_wrapped_push_back, fc_SLAV_push_back, fc_SLAV_remove, fc_vertices_push_back, fc_edges_push_back, fc_with_mVertexID, fc_with_mEdgeID, fc_with_mSplitNodes, ev_updHalfedge, ev_updVertex, ev_updWrap, ev_wrapped_push_back, ev_SLAV_push_back, ev_SLAV_remove, ev_vertices_push_back, ev_edges_push_back, ev_with_mVertexID, ev_with_mEdgeID, ev_with_mSplitNodes, he_updHalfedge, he_edges_push_back, vtx_updVertex, vtx_vertices_push_back, edges_push_back_snd, edges_push_back_halfedgeNext, hN, hk, hev, hfc,
      g1, g2, g4, g6, g7, gl, gr, n1, n2, hRI, hLI, k10,
      hL, hR, hH1, hH2, hLO, hRO, e1, e2, e3, e4, Ne.symm e1, Ne.symm e2, Ne.symm e3,
      Ne.symm e4, v1, Ne.symm v1, hne, Ne.symm hne,
      j1, j2, j3, j4, Ne.symm j1, Ne.symm j2, Ne.symm j3, Ne.symm j4,
      b1, b2, b3, b4, c1, c2, c3, c4, m1, m2, m3, m4, p1, p2, p3, p4, d1, d2, d3, d4,
      f1, f2, f3, f4, Ne.symm f1, Ne.symm f2, Ne.symm f3, Ne.symm f4,
      Ne.symm b1, Ne.symm b2, Ne.symm b3, Ne.symm b4,
      Ne.symm c1, Ne.symm c2, Ne.symm c3, Ne.symm c4,
      Ne.symm d1, Ne.symm d2, Ne.symm d3, Ne.symm d4,
      Ne.symm m1, Ne.symm m2, Ne.symm m3, Ne.symm m4,
      Ne.symm p1, Ne.symm p2, Ne.symm p3, Ne.symm p4,
      k1, k2, k3, k7, k8, k9, Ne.symm k1, Ne.symm k2, Ne.symm k3,
      Ne.symm k7, Ne.symm k8, Ne.symm k9,
      apply_ite Halfedge.next, apply_ite Halfedge.prev, apply_ite Halfedge.vertex,
      apply_ite Halfedge.face, apply_ite Halfedge.opposite, apply_ite Vertex.halfedge,
      ↓reduceIte, Option.some.injEq, reduceCtorEq, ite_self, Halfedge.mk1, ne_eq,
      not_false_eq_true, and_self, Vertex.mk3, or_self, or_false, false_or, or_true, true_or]

/-- The LAV links of the two nodes after `ConstructVertexEventNodes`, for a state with dense
ids: the left node lies between `prev(L)` and `next(R)`, the right node between `prev(R)` and
`next(L)`. -/
theorem ConstructVertexEventNodes_links (s : Builder) (e : EventPtr) (l r lp ln rp rn : Nat)
    (hids : s.IdsDense)
    (hL : (s.ev e).seed0 = some l) (hR : (s.ev e).seed1 = some r)
    (hl : l < s.mSSkel.vertexNext) (hr : r < s.mSSkel.vertexNext)
    (hlp : s.GetPrevInLAV (some l) = some lp) (hln : s.GetNextInLAV (some l) = some ln)
    (hrp : s.GetPrevInLAV (some r) = some rp) (hrn : s.GetNextInLAV (some r) = some rn)
    (h1 : lp < s.mSSkel.vertexNext) (h2 : ln < s.mSSkel.vertexNext)
    (h3 : rp < s.mSSkel.vertexNext) (h4 : rn < s.mSSkel.vertexNext) :
    (s.ConstructVertexEventNodes e).1.GetPrevInLAV (some s.mSSkel.vertexNext) = some lp
    ∧ (s.ConstructVertexEventNodes e).1.GetNextInLAV (some s.mSSkel.vertexNext) = some rn
    ∧ (s.ConstructVertexEventNodes e).1.GetPrevInLAV (some (s.mSSkel.vertexNext + 1)) = some rp
    ∧ (s.ConstructVertexEventNodes e).1.GetNextInLAV (some (s.mSSkel.vertexNext + 1))
        = some ln := by
  obtain ⟨hid, hvid, hwc⟩ := hids
  rcases e with _ | j
  · exact absurd hL (by simp [Builder.ev])
  have idl : (s.vtx (some l)).id = l := hid l hl
  have idr : (s.vtx (some r)).id = r := hid r hr
  have id1 : (s.vtx (some lp)).id = lp := hid lp h1
  have id2 : (s.vtx (some ln)).id = ln := hid ln h2
  have id3 : (s.vtx (some rp)).id = rp := hid rp h3
  have id4 : (s.vtx (some rn)).id = rn := hid rn h4
  have e1 : l ≠ s.mSSkel.vertexNext := by omega
  have e2 : r ≠ s.mSSkel.vertexNext := by omega
  have e3 : lp ≠ s.mSSkel.vertexNext := by omega
  have e4 : ln ≠ s.mSSkel.vertexNext := by omega
  have e5 : rp ≠ s.mSSkel.vertexNext := by omega
  have e6 : rn ≠ s.mSSkel.vertexNext := by omega
  have f1 : l ≠ s.mSSkel.vertexNext + 1 := by omega
  have f2 : r ≠ s.mSSkel.vertexNext + 1 := by omega
  have f3 : lp ≠ s.mSSkel.vertexNext + 1 := by omega
  have f4 : ln ≠ s.mSSkel.vertexNext + 1 := by omega
  have f5 : rp ≠ s.mSSkel.vertexNext + 1 := by omega
  have f6 : rn ≠ s.mSSkel.vertexNext + 1 := by omega
  have g1 : s.mSSkel.vertexNext ≠ s.mSSkel.vertexNext + 1 := by omega
  simp only [Builder.GetPrevInLAV, Builder.GetNextInLAV, wrap_some, idl, idr]
    at hlp hln hrp hrn
  refine ⟨?_, ?_, ?_, ?_⟩
  all_goals
    simp only [Builder.ConstructVertexEventNodes, Builder.set_vertex, Builder.set_halfedge,
      Builder.set_next, Builder.set_prev,
      Builder.SetIsProcessed, Builder.SetPrevInLAV, Builder.SetNextInLAV,
      Builder.GetPrevInLAV, Builder.GetNextInLAV, Builder.IsProcessed,
      he_updVertex, he_updWrap, he_wrapped_push_back, he_SLAV_push_back, he_SLAV_remove, he_vertices_push_back, he_with_mVertexID, he_with_mEdgeID, he_with_mSplitNodes, vtx_updHalfedge, vtx_updWrap, vtx_wrapped_push_back, vtx_SLAV_push_back, vtx_SLAV_remove, vtx_edges_push_back, vtx_with_mVertexID, vtx_with_mEdgeID, vtx_with_mSplitNodes, fc_updHalfedge, fc_updVertex, fc_updWrap, fc_wrapped_push_back, fc_SLAV_push_back, fc_SLAV_remove, fc_vertices_push_back, fc_edges_push_back, fc_with_mVertexID, fc_with_mEdgeID, fc_with_mSplitNodes, ev_updHalfedge, ev_updVertex, ev_updWrap, ev_wrapped_push_back, ev_SLAV_push_back, ev_SLAV_remove, ev_vertices_push_back, ev_edges_push_back, ev_with_mVertexID, ev_with_mEdgeID, ev_with_mSplitNodes, he_updHalfedge, he_edges_push_back, vtx_updVertex, vtx_vertices_push_back, wtab_updHalfedge, wtab_updVertex, wtab_SLAV_push_back, wtab_SLAV_remove, wtab_vertices_push_back, wtab_edges_push_back, wtab_with_mVertexID, wtab_with_mEdgeID, wtab_with_mSplitNodes, wcount_updHalfedge, wcount_updVertex, wcount_updWrap, wcount_SLAV_push_back, wcount_SLAV_remove, wcount_vertices_push_back, wcount_edges_push_back, wcount_with_mVertexID, wcount_with_mEdgeID, wcount_with_mSplitNodes, wtab_updWrap, wtab_wrapped_push_back, wcount_wrapped_push_back, wrap_some, wrapIndex_some, he_mk, he_of_table, vtx_mk, vtx_of_table, fc_mk, fc_of_table, ev_mk, ev_of_table, ev_of_table, vertices_push_back_snd, vertices_push_back_vertexNext,
      vertices_push_back_mVertexID, apply_ite Vertex.id, ite_self, Vertex.mk3,
      VertexWrapper.mk1,
      apply_ite VertexWrapper.mPrevInLAV, apply_ite VertexWrapper.mNextInLAV,
      apply_ite VertexWrapper.mIsProcessed,
      hL, hR, idl, idr, id1, id2, id3, id4, hlp, hln, hrp, hrn, hvid, hwc,
      e1, e2, e3, e4, e5, e6, f1, f2, f3, f4, f5, f6, g1,
      Ne.symm e1, Ne.symm e2, Ne.symm e3, Ne.symm e4, Ne.symm e5, Ne.symm e6,
      Ne.symm f1, Ne.symm f2, Ne.symm f3, Ne.symm f4, Ne.symm f5, Ne.symm f6, Ne.symm g1,
      ↓reduceIte, Option.some.injEq, reduceCtorEq, or_self,
      or_false, false_or, or_true, true_or, and_self, true_and, and_true, eq_self_iff_true]

theorem SeedsKept.readLinks {s s' : Builder} (h : SeedsKept s s') (v : Vertex_handle) :
    s'.GetPrevInLAV v = s.GetPrevInLAV v ∧ s'.GetNextInLAV v = s.GetNextInLAV v := by
  cases v with
  | none => exact ⟨rfl, rfl⟩
  | some i =>
    unfold Builder.GetPrevInLAV Builder.GetNextInLAV Builder.wrap
    dsimp only
    rw [h.ids i]
    exact h.links _

/-- The borders of an older vertex of a state with dense ids, after a handler. -/
theorem OlderKept.readDense {s s0 s' : Builder} (h : OlderKept s.mVertexID s0 s') (x : Nat)
    (hids : s.IdsDense) (hx : x < s.mSSkel.vertexNext)
    (h0w : s0.mWrappedVertices = s.mWrappedVertices)
    (h0i : s0.mSSkel.vertices x = s.mSSkel.vertices x) :
    s'.GetDefiningBorderA (some x) = s.GetDefiningBorderA (some x)
    ∧ s'.GetDefiningBorderB (some x) = s.GetDefiningBorderB (some x) := by
  refine h.read x h0w h0i ?_
  rw [hids.1 x hx, hids.2.1]
  exact hx

theorem HandleEdgeEvent_neighbours (tr : Traits) (s : Builder) (e : EventPtr)
    (l r p q lo ro li ri : Nat) (hids : s.IdsDense)
    (hL : (s.ev e).seed0 = some l) (hR : (s.ev e).seed1 = some r)
    (hl : l < s.mSSkel.vertexNext) (hr : r < s.mSSkel.vertexNext)
    (hp : s.GetPrevInLAV (some l) = some p) (hq : s.GetNextInLAV (some r) = some q)
    (hpv : p < s.mSSkel.vertexNext) (hqv : q < s.mSSkel.vertexNext)
    (hLO : s.primary_bisector (some l) = some lo) (hRO : s.primary_bisector (some r) = some ro)
    (hLI : s.opposite (some lo) = some li) (hRI : s.opposite (some ro) = some ri)
    (hlo : lo < s.mSSkel.halfedgeNext) (hro : ro < s.mSSkel.halfedgeNext)
    (hli : li < s.mSSkel.halfedgeNext) (hri : ri < s.mSSkel.halfedgeNext)
    (hne : li ≠ ri)
    (hhl : s.halfedge (some l) ≠ some ro) (hhr : s.halfedge (some r) ≠ some ro)
    (hA : s.defining_contour_edge (s.primary_bisector (some l)) = s.GetDefiningBorderA (some l))
    (hBR : s.defining_contour_edge (s.opposite (s.primary_bisector (some r)))
      = s.GetDefiningBorderB (some r))
    (hPL : s.GetDefiningBorderB (some p) = s.GetDefiningBorderA (some l))
    (hRQ : s.GetDefiningBorderB (some r) = s.GetDefiningBorderA (some q)) :
    (s.HandleEdgeEvent tr e).bordersLinked (some s.mSSkel.vertexNext) := by
  have hc : s.mWrappedCount = s.mVertexID := hids.2.2.trans hids.2.1.symm
  have h1 := ConstructEdgeEventNode_borders s e l r lo ro li ri hL hR hl hr hLO hRO hLI hRI
    hlo hro hli hri hne hhl hhr
  have h2 := EdgeEventWiring_borders s e l r lo ro li ri hL hR hl hr hLO hRO hLI hRI
    hlo hro hli hri hne hhl hhr
  obtain ⟨a, b, _⟩ := HandleEdgeEvent_recorded tr s e _ h1 h2
  rw [hLO] at hA
  rw [hRO, hRI] at hBR
  unfold Builder.defining_contour_edge at hA hBR
  obtain ⟨k1, k2⟩ := (HandleEdgeEvent_seeds tr s e).readLinks (some s.mSSkel.vertexNext)
  obtain ⟨n1, n2, _⟩ := ConstructEdgeEventNode_links s e l r p q hids hL hR hl hr hp hq hpv hqv
    s.mSSkel.vertexNext le_rfl
  rw [if_pos rfl] at n1
  rw [if_neg (Nat.ne_of_lt hqv), if_pos rfl] at n2
  have hO := HandleEdgeEvent_older tr s e hc
  have oP := (hO.readDense p hids hpv rfl (newVertex_old s _ _ p (Nat.ne_of_lt hpv))).2
  have oQ := (hO.readDense q hids hqv rfl (newVertex_old s _ _ q (Nat.ne_of_lt hqv))).1
  unfold Builder.bordersLinked
  rw [k1, k2, n1, n2, oP, oQ, a, b]
  exact ⟨hPL.trans hA.symm, hBR.trans hRQ⟩

/-- The borders A and B that `HandleSplitEvent` leaves on its two nodes. -/
theorem HandleSplitEvent_node_borders (tr : Traits) (s : Builder) (e : EventPtr)
    (aOppR : Vertex_handle) (sd hs xo xi op : Nat)
    (hS : (s.ev e).seed0 = some sd) (hO : (s.ev e).opposite_border = some op)
    (hsd : sd < s.mSSkel.vertexNext)
    (hH : s.halfedge (some sd) = some hs) (hXO : s.next (some hs) = some xo)
    (hXI : s.opposite (some xo) = some xi)
    (hhs : hs < s.mSSkel.halfedgeNext) (hxo : xo < s.mSSkel.halfedgeNext)
    (hxi : xi < s.mSSkel.halfedgeNext) (hop : op < s.mSSkel.halfedgeNext)
    (hA : s.defining_contour_edge (s.primary_bisector (some sd))
      = s.GetDefiningBorderA (some sd))
    (hB : s.defining_contour_edge (s.opposite (s.primary_bisector (some sd)))
      = s.GetDefiningBorderB (some sd))
    (hF : s.face_halfedge (s.face (some op)) = some op) :
    (s.HandleSplitEvent tr e aOppR).GetDefiningBorderA (some s.mSSkel.vertexNext)
        = s.GetDefiningBorderA (some sd)
    ∧ (s.HandleSplitEvent tr e aOppR).GetDefiningBorderB (some s.mSSkel.vertexNext) = some op
    ∧ (s.HandleSplitEvent tr e aOppR).GetDefiningBorderA (some (s.mSSkel.vertexNext + 1))
        = some op
    ∧ (s.HandleSplitEvent tr e aOppR).GetDefiningBorderB (some (s.mSSkel.vertexNext + 1))
        = s.GetDefiningBorderB (some sd) := by
  obtain ⟨w1, w2⟩ := SplitEventWiring_borders s e aOppR sd hs xo xi op hS hO hsd hH hXO hXI
    hhs hxo hxi hop
  obtain ⟨i1, i2⟩ := SplitEventWiring_ids s e aOppR
  have hne : ((s.SplitEventWiring e aOppR).mSSkel.vertices s.mSSkel.vertexNext).id
      ≠ ((s.SplitEventWiring e aOppR).mSSkel.vertices (s.mSSkel.vertexNext + 1)).id := by
    rw [i1, i2]; omega
  have hPB : s.primary_bisector (some sd) = some xo := by
    unfold Builder.primary_bisector
    rw [hH, hXO]
  rw [hPB] at hA hB
  rw [hXI] at hB
  unfold Builder.defining_contour_edge at hA hB
  have hN : (s.ConstructSplitEventNodes e aOppR).2
      = (some s.mSSkel.vertexNext, some (s.mSSkel.vertexNext + 1)) := rfl
  rw [HandleSplitEvent_wiring, hN]
  dsimp only
  obtain ⟨⟨a1, a2, _⟩, b1, b2, _⟩ := recordBorders_two (s.SplitEventWiring e aOppR)
    s.mSSkel.vertexNext (s.mSSkel.vertexNext + 1)
    ((s.SplitEventWiring e aOppR).bordersAround (some s.mSSkel.vertexNext))
    ((s.SplitEventWiring e aOppR).bordersAround (some (s.mSSkel.vertexNext + 1))) hne
  have K := fun v => ((UpdatePQ_keeps tr
    (((s.SplitEventWiring e aOppR).recordBorders (some s.mSSkel.vertexNext)
        ((s.SplitEventWiring e aOppR).bordersAround (some s.mSSkel.vertexNext))).recordBorders
      (some (s.mSSkel.vertexNext + 1))
      ((s.SplitEventWiring e aOppR).bordersAround (some (s.mSSkel.vertexNext + 1))))
    (some s.mSSkel.vertexNext)).uTrans
    (UpdatePQ_keeps tr _ (some (s.mSSkel.vertexNext + 1)))).borders v
  refine ⟨?_, ?_, ?_, ?_⟩
  · exact (K _).1.trans (a1.trans ((congrArg Triedge.e0 w1).trans hA))
  · exact (K _).2.1.trans (a2.trans ((congrArg Triedge.e1 w1).trans hF))
  · exact (K _).1.trans (b1.trans ((congrArg Triedge.e0 w2).trans hF))
  · exact (K _).2.1.trans (b2.trans ((congrArg Triedge.e1 w2).trans hB))

theorem HandleSplitEvent_neighbours (tr : Traits) (s : Builder) (e : EventPtr)
    (sd oppL oppR p n hs xo xi op : Nat) (hids : s.IdsDense)
    (hS : (s.ev e).seed0 = some sd) (hO : (s.ev e).opposite_border = some op)
    (hsd : sd < s.mSSkel.vertexNext)
    (hOL : s.GetPrevInLAV (some oppR) = some oppL)
    (hp : s.GetPrevInLAV (some sd) = some p) (hn : s.GetNextInLAV (some sd) = some n)
    (hlv : oppL < s.mSSkel.vertexNext) (hrv : oppR < s.mSSkel.vertexNext)
    (hpv : p < s.mSSkel.vertexNext) (hnv : n < s.mSSkel.vertexNext)
    (hH : s.halfedge (some sd) = some hs) (hXO : s.next (some hs) = some xo)
    (hXI : s.opposite (some xo) = some xi)
    (hhs : hs < s.mSSkel.halfedgeNext) (hxo : xo < s.mSSkel.halfedgeNext)
    (hxi : xi < s.mSSkel.halfedgeNext) (hop : op < s.mSSkel.halfedgeNext)
    (hA : s.defining_contour_edge (s.primary_bisector (some sd))
      = s.GetDefiningBorderA (some sd))
    (hB : s.defining_contour_edge (s.opposite (s.primary_bisector (some sd)))
      = s.GetDefiningBorderB (some sd))
    (hF : s.face_halfedge (s.face (some op)) = some op)
    (hOR : s.GetDefiningBorderA (some oppR) = some op)
    (hPS : s.GetDefiningBorderB (some p) = s.GetDefiningBorderA (some sd))
    (hSN : s.GetDefiningBorderB (some sd) = s.GetDefiningBorderA (some n))
    (hLR : s.GetDefiningBorderB (some oppL) = s.GetDefiningBorderA (some oppR)) :
    (s.HandleSplitEvent tr e (some oppR)).bordersLinked (some s.mSSkel.vertexNext)
    ∧ (s.HandleSplitEvent tr e (some oppR)).bordersLinked (some (s.mSSkel.vertexNext + 1)) := by
  have hc : s.mWrappedCount = s.mVertexID := hids.2.2.trans hids.2.1.symm
  obtain ⟨a1, a2, b1, b2⟩ := HandleSplitEvent_node_borders tr s e (some oppR) sd hs xo xi op
    hS hO hsd hH hXO hXI hhs hxo hxi hop hA hB hF
  have hK := HandleSplitEvent_seeds tr s e (some oppR)
  obtain ⟨k1, k2⟩ := hK.readLinks (some s.mSSkel.vertexNext)
  obtain ⟨k3, k4⟩ := hK.readLinks (some (s.mSSkel.vertexNext + 1))
  obtain ⟨n1, n2, _⟩ := ConstructSplitEventNodes_links s e sd oppL oppR p n hids hS hsd hOL hp hn
    hlv hrv hpv hnv s.mSSkel.vertexNext (Nat.le_succ _)
  obtain ⟨n3, n4, _⟩ := ConstructSplitEventNodes_links s e sd oppL oppR p n hids hS hsd hOL hp hn
    hlv hrv hpv hnv (s.mSSkel.vertexNext + 1) le_rfl
  rw [if_neg (by omega), if_neg (Nat.ne_of_lt hlv), if_pos rfl] at n1
  rw [if_neg (Nat.ne_of_lt hnv), if_neg (by omega), if_neg (Nat.ne_of_lt hrv), if_pos rfl] at n2
  rw [if_pos rfl] at n3
  rw [if_neg (by omega), if_pos rfl] at n4
  have hO' := HandleSplitEvent_older tr s e (some oppR) hc
  have old : ∀ x, x < s.mSSkel.vertexNext →
      (s.HandleSplitEvent tr e (some oppR)).GetDefiningBorderA (some x)
        = s.GetDefiningBorderA (some x)
      ∧ (s.HandleSplitEvent tr e (some oppR)).GetDefiningBorderB (some x)
        = s.GetDefiningBorderB (some x) := fun x hx =>
    hO'.readDense x hids hx rfl
      ((newVertex_old _ _ _ x (Nat.ne_of_lt (Nat.lt_succ_of_lt hx))).trans
        (newVertex_old s _ _ x (Nat.ne_of_lt hx)))
  unfold Builder.bordersLinked
  rw [k1, k2, k3, k4, n1, n2, n3, n4, a1, a2, b1, b2, (old p hpv).2, (old oppR hrv).1,
    (old oppL hlv).2, (old n hnv).1]
  exact ⟨⟨hPS, hOR.symm⟩, hLR.trans hOR, hSN⟩

theorem SetupVertexEventNode_borders (tr : Traits) (s : Builder) (N : Vertex_handle)
    (A B : Halfedge_handle) (v : Vertex_handle) :
    (s.SetupVertexEventNode tr N A B).1.GetDefiningBorderA v = s.GetDefiningBorderA v
    ∧ (s.SetupVertexEventNode tr N A B).1.GetDefiningBorderB v = s.GetDefiningBorderB v := by
  rw [SetupVertexEventNode_eq]
  dsimp only
  split
  · exact ⟨(SetIsReflex_keeps s N).1 v, (SetIsReflex_keeps s N).2 v⟩
  · exact ⟨rfl, rfl⟩

theorem VertexEventSetup_borders (tr : Traits) (s : Builder) (e : EventPtr)
    (v : Vertex_handle) :
    (s.VertexEventSetup tr e).GetDefiningBorderA v = (s.VertexEventRecorded e).GetDefiningBorderA v
    ∧ (s.VertexEventSetup tr e).GetDefiningBorderB v
        = (s.VertexEventRecorded e).GetDefiningBorderB v := by
  unfold Builder.VertexEventSetup
  dsimp only
  split
  · exact ⟨(SetupVertexEventNode_borders tr _ _ _ _ v).1.trans
        (SetupVertexEventNode_borders tr _ _ _ _ v).1,
      (SetupVertexEventNode_borders tr _ _ _ _ v).2.trans
        (SetupVertexEventNode_borders tr _ _ _ _ v).2⟩
  · exact SetupVertexEventNode_borders tr _ _ _ _ v

theorem HandleVertexEvent_recorded (tr : Traits) (s : Builder) (e : EventPtr)
    (v : Vertex_handle) :
    (s.HandleVertexEvent tr e).GetDefiningBorderA v = (s.VertexEventRecorded e).GetDefiningBorderA v
    ∧ (s.HandleVertexEvent tr e).GetDefiningBorderB v
        = (s.VertexEventRecorded e).GetDefiningBorderB v := by
  rw [HandleVertexEvent_setup]
  have K := ((UpdatePQ_keeps tr (s.VertexEventSetup tr e)
    (s.ConstructVertexEventNodes e).2.1).uTrans
    (UpdatePQ_keeps tr _ (s.ConstructVertexEventNodes e).2.2)).borders v
  exact ⟨K.1.trans (VertexEventSetup_borders tr s e v).1,
    K.2.1.trans (VertexEventSetup_borders tr s e v).2⟩

theorem HandleVertexEvent_neighbours (tr : Traits) (s : Builder) (e : EventPtr)
    (l r lp ln rp rn i1 i2 lo ro li ri : Nat) (hids : s.IdsDense)
    (hL : (s.ev e).seed0 = some l) (hR : (s.ev e).seed1 = some r)
    (hl : l < s.mSSkel.vertexNext) (hr : r < s.mSSkel.vertexNext)
    (hlp : s.GetPrevInLAV (some l) = some lp) (hln : s.GetNextInLAV (some l) = some ln)
    (hrp : s.GetPrevInLAV (some r) = some rp) (hrn : s.GetNextInLAV (some r) = some rn)
    (h1 : lp < s.mSSkel.vertexNext) (h2 : ln < s.mSSkel.vertexNext)
    (h3 : rp < s.mSSkel.vertexNext) (h4 : rn < s.mSSkel.vertexNext)
    (hH1 : s.halfedge (some l) = some i1) (hLO : s.next (some i1) = some lo)
    (hH2 : s.halfedge (some r) = some i2) (hRO : s.next (some i2) = some ro)
    (hLI : s.opposite (some lo) = some li) (hRI : s.opposite (some ro) = some ri)
    (hi1 : i1 < s.mSSkel.halfedgeNext) (hi2 : i2 < s.mSSkel.halfedgeNext)
    (hlo : lo < s.mSSkel.halfedgeNext) (hro : ro < s.mSSkel.halfedgeNext)
    (hli : li < s.mSSkel.halfedgeNext) (hri : ri < s.mSSkel.halfedgeNext)
    (hne : lo ≠ ro)
    (j1 : lo ≠ i1) (j2 : ro ≠ i1) (j3 : lo ≠ i2) (j4 : ro ≠ i2)
    (hAL : s.defining_contour_edge (s.primary_bisector (some l))
      = s.GetDefiningBorderA (some l))
    (hBL : s.defining_contour_edge (s.opposite (s.primary_bisector (some l)))
      = s.GetDefiningBorderB (some l))
    (hAR : s.defining_contour_edge (s.primary_bisector (some r))
      = s.GetDefiningBorderA (some r))
    (hBR : s.defining_contour_edge (s.opposite (s.primary_bisector (some r)))
      = s.GetDefiningBorderB (some r))
    (hPL : s.GetDefiningBorderB (some lp) = s.GetDefiningBorderA (some l))
    (hLN : s.GetDefiningBorderB (some l) = s.GetDefiningBorderA (some ln))
    (hPR : s.GetDefiningBorderB (some rp) = s.GetDefiningBorderA (some r))
    (hRN : s.GetDefiningBorderB (some r) = s.GetDefiningBorderA (some rn)) :
    (s.HandleVertexEvent tr e).bordersLinked (some s.mSSkel.vertexNext)
    ∧ (s.HandleVertexEvent tr e).bordersLinked (some (s.mSSkel.vertexNext + 1)) := by
  have hc : s.mWrappedCount = s.mVertexID := hids.2.2.trans hids.2.1.symm
  obtain ⟨w1, w2, w3, w4⟩ := VertexEventWiring_borders s e l r i1 i2 lo ro li ri hL hR hl hr
    hH1 hLO hH2 hRO hLI hRI hi1 hi2 hlo hro hli hri hne j1 j2 j3 j4
  obtain ⟨_, _, _, _, a1, a2, b1, b2⟩ := VertexEventRecorded_nodes s e hc
  obtain ⟨c1, c2⟩ := HandleVertexEvent_recorded tr s e (some s.mSSkel.vertexNext)
  obtain ⟨c3, c4⟩ := HandleVertexEvent_recorded tr s e (some (s.mSSkel.vertexNext + 1))
  have pL : s.primary_bisector (some l) = some lo := by
    unfold Builder.primary_bisector; rw [hH1, hLO]
  have pR : s.primary_bisector (some r) = some ro := by
    unfold Builder.primary_bisector; rw [hH2, hRO]
  rw [pL] at hAL hBL
  rw [pR] at hAR hBR
  rw [hLI] at hBL
  rw [hRI] at hBR
  unfold Builder.defining_contour_edge at hAL hBL hAR hBR
  have hK := HandleVertexEvent_seeds tr s e
  obtain ⟨k1, k2⟩ := hK.readLinks (some s.mSSkel.vertexNext)
  obtain ⟨k3, k4⟩ := hK.readLinks (some (s.mSSkel.vertexNext + 1))
  obtain ⟨n1, n2, n3, n4⟩ := ConstructVertexEventNodes_links s e l r lp ln rp rn hids hL hR
    hl hr hlp hln hrp hrn h1 h2 h3 h4
  have hO' := HandleVertexEvent_older tr s e hc
  have old : ∀ x, x < s.mSSkel.vertexNext →
      (s.HandleVertexEvent tr e).GetDefiningBorderA (some x) = s.GetDefiningBorderA (some x)
      ∧ (s.HandleVertexEvent tr e).GetDefiningBorderB (some x)
        = s.GetDefiningBorderB (some x) := fun x hx =>
    hO'.readDense x hids hx rfl
      ((newVertex_old _ _ _ x (Nat.ne_of_lt (Nat.lt_succ_of_lt hx))).trans
        (newVertex_old s _ _ x (Nat.ne_of_lt hx)))
  unfold Builder.bordersLinked
  rw [k1, k2, k3, k4, n1, n2, n3, n4, c1, c2, c3, c4, a1, a2, b1, b2, w1, w2, w3, w4,
    (old lp h1).2, (old rn h4).1, (old rp h3).2, (old ln h2).1]
  exact ⟨⟨hPL.trans hAL.symm, hBR.trans hRN⟩, hPR.trans hAR.symm, hBL.trans hLN⟩

/-- C34: LAV border consistency through the event handlers. Given, before the event, that
the LAV-adjacent pairs around the seeds share a border (`definingBorderB(u) ==
definingBorderA(v)` for `v = next_in_lav(u)`), that for each seed the contour edges of the
faces of its primary bisector and of the twin of that bisector are its borders A and B (for a
split also `definingBorderA(oppR) == opp` with `halfedge(face(opp)) == opp`), on a well-formed
state with dense ids: once `HandleEdgeEvent`, `HandleSplitEvent` or `HandleVertexEvent` has
returned, every new node `n` satisfies `definingBorderB(prev_in_lav(n)) == definingBorderA(n)`
and `definingBorderB(n) == definingBorderA(next_in_lav(n))`. -/
theorem handlers_link_borders (tr : Traits) (s : Builder) (e : EventPtr) :
    (∀ l r p q lo ro li ri, s.edgeEventBordered e l r p q lo ro li ri →
        (s.HandleEdgeEvent tr e).bordersLinked (some s.mSSkel.vertexNext))
    ∧ (∀ sd oppL oppR p n hs xo xi op, s.splitEventBordered e sd oppL oppR p n hs xo xi op →
        (s.HandleSplitEvent tr e (some oppR)).bordersLinked (some s.mSSkel.vertexNext)
        ∧ (s.HandleSplitEvent tr e (some oppR)).bordersLinked
            (some (s.mSSkel.vertexNext + 1)))
    ∧ (∀ l r lp ln rp rn i1 i2 lo ro li ri,
        s.vertexEventBordered e l r lp ln rp rn i1 i2 lo ro li ri →
        (s.HandleVertexEvent tr e).bordersLinked (some s.mSSkel.vertexNext)
        ∧ (s.HandleVertexEvent tr e).bordersLinked (some (s.mSSkel.vertexNext + 1))) := by
  refine ⟨?_, ?_, ?_⟩
  · rintro l r p q lo ro li ri
      ⟨h0, h1, h2, h3, h4, h5, h6, h7, h8, h9, h10, h11, h12, h13, h14, h15, h16, h17, h18,
        h19, h20, h21, h22, h23⟩
    exact HandleEdgeEvent_neighbours tr s e l r p q lo ro li ri h0 h1 h2 h3 h4 h5 h6 h7 h8 h9
      h10 h11 h12 h13 h14 h15 h16 h17 h18 h19 h20 h21 h22 h23
  · rintro sd oppL oppR p n hs xo xi op
      ⟨h0, h1, h2, h3, h4, h5, h6, h7, h8, h9, h10, h11, h12, h13, h14, h15, h16, h17, h18,
        h19, h20, h21, h22, h23, h24⟩
    exact HandleSplitEvent_neighbours tr s e sd oppL oppR p n hs xo xi op h0 h1 h2 h3 h4 h5 h6
      h7 h8 h9 h10 h11 h12 h13 h14 h15 h16 h17 h18 h19 h20 h21 h22 h23 h24
  · rintro l r lp ln rp rn i1 i2 lo ro li ri
      ⟨h0, a1, a2, a3, a4, a5, a6, a7, a8,
        ⟨h1, h2, h3, h4, h5, h6, h7, h8, h9, h10, h11, h12, h13, h14, h15, h16, h17, h18,
          h19⟩, k1, k2, b1, b2, b3, b4, b5, b6, b7, b8⟩
    exact HandleVertexEvent_neighbours tr s e l r lp ln rp rn i1 i2 lo ro li ri h0 h1 h2 h3 h4
      a1 a2 a3 a4 a5 a6 a7 a8 h5 h6 h7 h8 h9 h10 h11 h12 h13 h14 h15 h16 h17 k1 h18 k2 h19
      b1 b2 b3 b4 b5 b6 b7 b8

theorem handlers_link_borders_witness :
    (exQuad.HandleEdgeEvent exTimedTraits (some 0)).bordersLinked (some 4)
    ∧ ((exQuadSplit.HandleSplitEvent exTimedTraits (some 0) (some 2)).bordersLinked (some 4)
      ∧ (exQuadSplit.HandleSplitEvent exTimedTraits (some 0) (some 2)).bordersLinked (some 5))
    ∧ ((exQuadVertex.HandleVertexEvent exTimedTraits (some 0)).bordersLinked (some 4)
      ∧ (exQuadVertex.HandleVertexEvent exTimedTraits (some 0)).bordersLinked (some 5)) :=
  ⟨(handlers_link_borders exTimedTraits exQuad (some 0)).1 0 1 3 2 8 10 9 11 (by decide),
    (handlers_link_borders exTimedTraits exQuadSplit (some 0)).2.1 0 1 2 3 1 0 8 9 2
      (by decide),
    (handlers_link_borders exTimedTraits exQuadVertex (some 0)).2.2 0 2 3 1 1 3 0 2 8 12 9 13
      (by decide)⟩

/-! ## The run on the unit square -/

/-- A loop around a vertex that ends within `n` iterations ends the same way within more. -/
theorem scanAroundVertex_fuel (s : Builder) (v0 b : Vertex_handle) :
    ∀ (n m : Nat) (ie : Halfedge_handle) (acc r : List Halfedge_handle × Halfedge_handle),
      n ≤ m → s.scanAroundVertex v0 b n ie acc = some r →
      s.scanAroundVertex v0 b m ie acc = some r := by
  intro n
  induction n with
  | zero =>
    intro m ie acc r _ h
    exact absurd h (by simp [Builder.scanAroundVertex])
  | succ n ih =>
    intro m ie acc r hm h
    obtain ⟨m, rfl⟩ : ∃ k, m = k + 1 := ⟨m - 1, by omega⟩
    rw [scanAroundVertex_succ] at h ⊢
    by_cases hc : s.circ_succ ie ≠ b
    · rw [if_pos hc] at h ⊢
      exact ih m _ _ r (by omega) h
    · rw [if_neg hc] at h ⊢
      exact h

theorem MergeCoincidentNodes_fuel (s : Builder) (n m : Nat) (v0 v1 : Vertex_handle)
    (hs : List Halfedge_handle) (vs : List Vertex_handle)
    (r : Builder × List Halfedge_handle × List Vertex_handle) (hm : n ≤ m)
    (h : s.MergeCoincidentNodes n v0 v1 hs vs = some r) :
    s.MergeCoincidentNodes m v0 v1 hs vs = some r := by
  unfold Builder.MergeCoincidentNodes at h ⊢
  dsimp only at h ⊢
  cases hscan : s.scanAroundVertex v0 (s.halfedge v1) n (s.halfedge v1) ([], none) with
  | none => rw [hscan] at h; exact absurd h (by simp)
  | some p =>
    rw [hscan] at h
    rw [scanAroundVertex_fuel s v0 (s.halfedge v1) n m _ _ p hm hscan]
    exact h

/-- A loop whose steps all end the same way under a second body ends the same way under it. -/
theorem foldlM_option_mono {σ α : Type} (f g : σ → α → Option σ)
    (h : ∀ a x r, f a x = some r → g a x = some r) :
    ∀ (L : List α) (st r : σ), L.foldlM f st = some r → L.foldlM g st = some r := by
  intro L
  induction L with
  | nil => intro st r hr; simpa using hr
  | cons x L ih =>
    intro st r hr
    rw [List.foldlM_cons] at hr ⊢
    cases hx : f st x with
    | none => rw [hx] at hr; exact absurd hr (by simp)
    | some st1 =>
      rw [hx] at hr
      rw [h st x st1 hx]
      exact ih st1 r hr

theorem innerBody_fuel (tr : Traits) (n m : Nat) (hm : n ≤ m) (v0 : Vertex_handle)
    (st : MergePass) (v1 : Vertex_handle) (r : MergePass)
    (h : st.innerBody tr n v0 v1 = some r) : st.innerBody tr m v0 v1 = some r := by
  unfold MergePass.innerBody at h ⊢
  by_cases c1 : v0 ≠ v1 ∧ (st.s.vtx v1).is_skeleton = true ∧ st.s.IsExcluded v1 = false
  · rw [if_pos c1] at h ⊢
    by_cases c2 : st.linked (st.s.vtx v0).id (st.s.vtx v1).id = false
        ∧ st.s.AreSkeletonNodesCoincident tr v0 v1 = true
    · rw [if_pos c2] at h ⊢
      cases hM : st.s.MergeCoincidentNodes n v0 v1 st.lHalfedgesToRemove
          st.lVerticesToRemove with
      | none => rw [hM] at h; exact absurd h (by simp)
      | some p =>
        rw [hM] at h
        rw [MergeCoincidentNodes_fuel st.s n m v0 v1 _ _ p hm hM]
        exact h
    · rw [if_neg c2] at h ⊢
      exact h
  · rw [if_neg c1] at h ⊢
    exact h

theorem outerBody_fuel (tr : Traits) (n m : Nat) (hm : n ≤ m) (st : MergePass)
    (v0 : Vertex_handle) (r : MergePass)
    (h : st.outerBody tr n v0 = some r) : st.outerBody tr m v0 = some r := by
  unfold MergePass.outerBody at h ⊢
  by_cases c : (st.s.vtx v0).is_skeleton = true ∧ st.s.IsExcluded v0 = false
  · rw [if_pos c] at h ⊢
    exact foldlM_option_mono _ _ (fun a x q hq => innerBody_fuel tr n m hm v0 a (some x) q hq)
      _ _ _ h
  · rw [if_neg c] at h ⊢
    exact h

/-- `MergeCoincidentNodes()` that ends with `n` iterations for each loop around a vertex ends
in the same state with more. -/
theorem MergeCoincidentNodesPass_fuel (tr : Traits) (n m : Nat) (hm : n ≤ m) (s r : Builder)
    (h : s.MergeCoincidentNodesPass tr n = some r) :
    s.MergeCoincidentNodesPass tr m = some r := by
  unfold Builder.MergeCoincidentNodesPass at h ⊢
  cases hS : s.mergeScan tr n with
  | none => rw [hS] at h; exact absurd h (by simp)
  | some p =>
    rw [hS] at h
    have hS2 : s.mergeScan tr m = some p :=
      foldlM_option_mono _ _ (fun a x q hq => outerBody_fuel tr n m hm a (some x) q hq)
        _ _ _ hS
    rw [hS2]
    exact h

/-- Once the queue is empty the loop of `Propagate` has ended: more iterations change nothing. -/
theorem Propagate_fuel (tr : Traits) :
    ∀ (n m : Nat) (s : Builder), n ≤ m → (s.Propagate tr n).mPQ.isEmpty = true →
      s.Propagate tr m = s.Propagate tr n := by
  intro n
  induction n with
  | zero =>
    intro m s _ h
    cases m with
    | zero => rfl
    | succ m =>
      have h0 : s.mPQ.isEmpty = true := h
      show (if s.mPQ.isEmpty then s else _) = s
      rw [if_pos h0]
  | succ n ih =>
    intro m s hm h
    obtain ⟨m, rfl⟩ : ∃ k, m = k + 1 := ⟨m - 1, by omega⟩
    show (if s.mPQ.isEmpty then s else Builder.Propagate tr m (s.PropagateStep tr))
      = (if s.mPQ.isEmpty then s else Builder.Propagate tr n (s.PropagateStep tr))
    by_cases c : s.mPQ.isEmpty = true
    · rw [if_pos c, if_pos c]
    · rw [if_neg c, if_neg c]
      have h1 : (Builder.Propagate tr n (s.PropagateStep tr)).mPQ.isEmpty = true := by
        have h2 : (if s.mPQ.isEmpty then s
            else Builder.Propagate tr n (s.PropagateStep tr)).mPQ.isEmpty = true := h
        rw [if_neg c] at h2
        exact h2
      exact ih m _ (by omega) h1

/-- A run that ends with the fuel `(n, k)` ends in the same state with more. -/
theorem Run_fuel (tr : Traits) (s r : Builder) (n k n2 k2 : Nat) (hn : n ≤ n2) (hk : k ≤ k2)
    (h : s.Run tr n k = some r) : s.Run tr n2 k2 = some r := by
  unfold Builder.Run at h ⊢
  dsimp only at h ⊢
  by_cases c : ((s.InitPhase tr).Propagate tr n).mPQ.isEmpty = true
  · rw [if_pos c] at h
    rw [Propagate_fuel tr n n2 _ hn c, if_pos c]
    unfold Builder.FinishUp at h ⊢
    dsimp only at h ⊢
    exact MergeCoincidentNodesPass_fuel tr k k2 hk _ r h
  · rw [if_neg c] at h
    exact absurd h (by simp)

/-- C33: the unit square. From the state of the builder after the contour `(0,0), (1,0),
(1,1), (0,1)` has been entered, with an exact oracle over the rationals: the queue after
`InitPhase` holds four edge events, all of time 1/2 and point `(1/2, 1/2)`; `Propagate` makes
two nodes of them, both at `(1/2, 1/2)`; and `Run` ends, given five iterations of the loop of
`Propagate` and three of each loop around a vertex or more, with a graph that has exactly one
skeleton vertex, at `(1/2, 1/2)` with time 1/2, and exactly four bisector edges (eight
bisector halfedges). `construct_skeleton` returns that graph when the validity check of the
half-edge store, declared outside this file, accepts it. -/
theorem unit_square_skeleton (fuelP fuelM : Nat) (is_valid : SSkel → Bool)
    (hP : 5 ≤ fuelP) (hM : 3 ≤ fuelM) :
    (exSquare.InitPhase exSquareTraits).queuedEvents exSquareTraits
      = List.replicate 4 (EventType.cEdgeEvent, 1 / 2, ⟨1 / 2, 1 / 2⟩)
    ∧ ((exSquare.InitPhase exSquareTraits).Propagate exSquareTraits fuelP).mSSkel.skeletonPoints
      = [⟨1 / 2, 1 / 2⟩, ⟨1 / 2, 1 / 2⟩]
    ∧ ∃ g : Builder, exSquare.Run exSquareTraits fuelP fuelM = some g
      ∧ ∃ v, g.mSSkel.skeletonVertices = [v]
        ∧ (g.mSSkel.vertices v).point = ⟨1 / 2, 1 / 2⟩
        ∧ (g.mSSkel.vertices v).time = 1 / 2
        ∧ g.mSSkel.bisectorHalfedges.length = 2 * 4
        ∧ (is_valid g.mSSkel = true →
            construct_skeleton (some g.mSSkel) is_valid = .returned (some g.mSSkel)) := by
  have hI : (exSquare.InitPhase exSquareTraits).queuedEvents exSquareTraits
      = List.replicate 4 (EventType.cEdgeEvent, 1 / 2, ⟨1 / 2, 1 / 2⟩) := by
    with_unfolding_all decide
  have hE : ((exSquare.InitPhase exSquareTraits).Propagate exSquareTraits 5).mPQ.isEmpty
      = true := by
    with_unfolding_all decide
  have hN : ((exSquare.InitPhase exSquareTraits).Propagate exSquareTraits 5).mSSkel.skeletonPoints
      = [⟨1 / 2, 1 / 2⟩, ⟨1 / 2, 1 / 2⟩] := by
    with_unfolding_all decide
  have hS : (exSquare.Run exSquareTraits 5 3).isSome = true := by
    with_unfolding_all decide
  have hO : (exSquare.Run exSquareTraits 5 3).map (fun g =>
        (g.mSSkel.skeletonVertices, (g.mSSkel.vertices 4).point, (g.mSSkel.vertices 4).time,
          g.mSSkel.bisectorHalfedges.length))
      = some ([4], ⟨1 / 2, 1 / 2⟩, 1 / 2, 8) := by
    with_unfolding_all decide
  obtain ⟨g, hg⟩ := Option.isSome_iff_exists.1 hS
  rw [hg, Option.map_some', Option.some.injEq, Prod.mk.injEq, Prod.mk.injEq, Prod.mk.injEq]
    at hO
  refine ⟨hI, ?_, g, Run_fuel exSquareTraits exSquare g 5 3 fuelP fuelM hP hM hg, 4,
    hO.1, hO.2.1, hO.2.2.1, hO.2.2.2, ?_⟩
  · rw [Propagate_fuel exSquareTraits 5 fuelP _ hP hE]
    exact hN
  · intro hv
    simp [construct_skeleton, hv]

theorem unit_square_skeleton_witness :
    (exSquare.InitPhase exSquareTraits).queuedEvents exSquareTraits
      = List.replicate 4 (EventType.cEdgeEvent, 1 / 2, ⟨1 / 2, 1 / 2⟩)
    ∧ ((exSquare.InitPhase exSquareTraits).Propagate exSquareTraits 5).mSSkel.skeletonPoints
      = [⟨1 / 2, 1 / 2⟩, ⟨1 / 2, 1 / 2⟩]
    ∧ ∃ g : Builder, exSquare.Run exSquareTraits 5 3 = some g
      ∧ ∃ v, g.mSSkel.skeletonVertices = [v]
        ∧ (g.mSSkel.vertices v).point = ⟨1 / 2, 1 / 2⟩
        ∧ (g.mSSkel.vertices v).time = 1 / 2
        ∧ g.mSSkel.bisectorHalfedges.length = 2 * 4
        ∧ ((fun _ => true) g.mSSkel = true →
            construct_skeleton (some g.mSSkel) (fun _ => true) = .returned (some g.mSSkel)) :=
  unit_square_skeleton 5 3 (fun _ => true) (by decide) (by decide)

end StraightSkeleton
